import Mathlib

/-!
Trajectory integrator: shallow embedding and verified properties.

Source: `src/TRAJECTORY/trajectory.c`.

Conventions of the embedding.
* C `int` fields are `Int`.  Signed overflow is undefined in C, so the year
  arithmetic `year + 1` / `year - 1` is taken on mathematical integers.
* C `%` is truncated remainder, `Int.tmod`.
* C `double` values are elements of an ordered field `α` (exact arithmetic);
  transcendental functions are explicit parameters.  Where rounding, an
  infinity or NaN decides a property, the function is embedded a second time
  over `ieee` (binary64, round to nearest even) under the name of the first
  with the suffix `_double`.
* `exit(1)` is `Except.error`; a C loop that may not terminate takes fuel and
  fails with `failure.fuel` when the fuel runs out.
-/

namespace Trajectory

/-! ## Data model -/

/-- Calendar point, `struct date`. -/
structure date where
  year : Int
  month : Int
  day : Int
  hour : Int
deriving DecidableEq, Repr

/-- The leap-year test written inline in both calendar functions:
`((year % 4) == 0) && (((year % 100) != 0) || ((year % 400) == 0))`. -/
def leap_test (year : Int) : Bool :=
  decide (Int.tmod year 4 = 0) &&
    (decide (Int.tmod year 100 ≠ 0) || decide (Int.tmod year 400 = 0))

/-- The month-length cascade shared by `time_step_forward` (as `MaxDay`) and
`time_step_backward` (as the new `day`): 31 for months 1,3,5,7,8,10,12, 30 for
4,6,9,11, otherwise (any other month value) 29 or 28 by the leap test. -/
def month_length (year month : Int) : Int :=
  if month = 1 ∨ month = 3 ∨ month = 5 ∨ month = 7 ∨ month = 8 ∨ month = 10 ∨ month = 12 then 31
  else if month = 4 ∨ month = 6 ∨ month = 9 ∨ month = 11 then 30
  else if leap_test year then 29
  else 28

/-- One hour back, `time_step_backward`. -/
def time_step_backward (time : date) : date :=
  if time.hour ≠ 0 then
    { time with hour := time.hour - 1 }
  else if time.day ≠ 1 then
    { time with hour := 23, day := time.day - 1 }
  else
    let month := time.month - 1
    let year := if month = 0 then time.year - 1 else time.year
    let month := if month = 0 then 12 else month
    { year := year, month := month, day := month_length year month, hour := 23 }

/-- One hour forward, `time_step_forward`. -/
def time_step_forward (time : date) : date :=
  if time.hour ≠ 23 then
    { time with hour := time.hour + 1 }
  else
    let MaxDay := month_length time.year time.month
    if time.day < MaxDay then
      { time with day := time.day + 1, hour := 0 }
    else
      let month := time.month + 1
      if month > 12 then
        { year := time.year + 1, month := 1, day := 1, hour := 0 }
      else
        { year := time.year, month := month, day := 1, hour := 0 }

/-- Wind vector of one station, `struct wind`; `p` is the present flag. -/
structure wind (α : Type) where
  u : α
  v : α
  p : Int

/-- Cartesian position `double X[3]`. -/
structure vec3 (α : Type) where
  x0 : α
  x1 : α
  x2 : α

/-- Station table entry, `struct station`. -/
structure station (α : Type) where
  nr : Int
  unit : Int
  X : vec3 α

/-- The start parameters, the `param[]` table after `read_env` (numeric
entries only; `get_int(TRACE)` is `P.TRACE`, and so on). -/
structure param (α : Type) where
  LO : α
  LA : α
  YYYY : Int
  MM : Int
  DD : Int
  HH : Int
  TRACE : Int
  SPEED : α
  ROT : α
  MAXR : Int
  MINR : Int
  IPERH : Int
  IPERPOINT : Int
  ZONEDIFF : Int
  STDDEVIATION : α
  DATAUNIT : Int
  RES : Int

/-- The functions and the constant of `math.h` the program calls. -/
structure libm (α : Type) where
  sin : α → α
  cos : α → α
  acos : α → α
  sqrt : α → α
  pi : α

/-- The ways the program stops early.  `null_pointer` is a dereference of
`NULL`, `fuel` means the step budget of the embedding ran out before a C loop
ended, and the others are an `exit(1)`. -/
inductive failure where
  | end_of_list
  | resolution
  | no_time_difference
  | trace_zero
  | cannot_open
  | null_pointer
  | unknown_unit
  | fuel
deriving DecidableEq, Repr

/-- Program status, `struct state`.  C arrays are functions of the index;
`wind_data` and `wind_current` are the flat arrays of `2 * station_max`
entries (slot 0 at `j`, slot 1 at `station_max + j`).  `diff` and `data_diff`
are `double` in the source but only ever hold integer values. -/
structure state (α : Type) where
  lo : Nat → α
  la : Nat → α
  point : Int
  point_max : Int
  station_max : Nat
  station_list : Nat → station α
  wind_data : Nat → wind α
  wind_current : Nat → wind α
  time : date
  diff : Int
  data_diff : Int
  distance_per_step : α
  cos_min_r : α
  cos_max_r : α

section numeric

variable {α : Type} [LinearOrderedField α]

/-- Earth radius in km, `RE`. -/
def RE : α := 6370

/-- Largest admitted spacing of the wind data in hours, `RESMAX`. -/
def RESMAX : Int := 24

/-- Resolution check, `check_resolution(res, DeltaT)`. -/
def check_resolution (res DeltaT : Int) : Except failure Unit :=
  if res ≠ 0 ∧ res ≠ DeltaT then .error .resolution
  else if DeltaT > 24 then .error .resolution
  else .ok ()

/-- The sample `wind_of_next_hour` stores in `wind_current[j]`. -/
def next_hour_sample (st : state α) (j : Nat) : wind α :=
  if st.diff = 0 then
    if (st.wind_data j).p ≠ 0 then
      ⟨(st.wind_data j).u, (st.wind_data j).v, 1⟩
    else
      ⟨0, 0, 0⟩
  else
    if (st.wind_data j).p ≠ 0 ∧ (st.wind_data (st.station_max + j)).p ≠ 0 then
      ⟨(st.wind_data j).u * ((st.data_diff - st.diff : Int) : α) / (st.data_diff : α) +
          (st.wind_data (st.station_max + j)).u * (st.diff : α) / (st.data_diff : α),
        (st.wind_data j).v * ((st.data_diff - st.diff : Int) : α) / (st.data_diff : α) +
          (st.wind_data (st.station_max + j)).v * (st.diff : α) / (st.data_diff : α),
        1⟩
    else
      ⟨0, 0, 0⟩

/-- One pass of the station loop of `wind_of_next_hour`. -/
def wind_of_next_hour_station (st : state α) (j : Nat) : state α :=
  { st with wind_current := Function.update st.wind_current j (next_hour_sample st j) }

/-- Temporal interpolation of the hourly wind field, `wind_of_next_hour`. -/
def wind_of_next_hour (st : state α) : Except failure (state α) :=
  if st.data_diff = 0 then .error .no_time_difference
  else .ok ((List.range st.station_max).foldl wind_of_next_hour_station st)

/-- Copy hourly slot 0 to hourly slot 1, `copy_wind_current`. -/
def copy_wind_current (st : state α) : state α :=
  (List.range st.station_max).foldl
    (fun s j =>
      { s with
        wind_current := Function.update s.wind_current (s.station_max + j) (s.wind_current j) })
    st

/-- Scalar product with the position of station `j`,
`distance_to_station_in_cos`. -/
def distance_to_station_in_cos (j : Nat) (X : vec3 α) (st : state α) : α :=
  (st.station_list j).X.x0 * X.x0 + (st.station_list j).X.x1 * X.x1 +
    (st.station_list j).X.x2 * X.x2

/-- The locals of `calculate_wind_vector` that `check_station_weight` writes
through its pointer arguments. -/
structure weight_acc (α : Type) where
  wind_in_range : Nat → wind α
  weight : Nat → α
  u_sum : α
  v_sum : α
  amount : α

/-- Range test and spatial weight of station `i` in the hourly slot starting
at `offset`, `check_station_weight`. -/
def check_station_weight (M : libm α) (st : state α) (acc : weight_acc α) (X : vec3 α)
    (i : Nat) (offset : Nat) : weight_acc α :=
  if (st.wind_current (offset + i)).p = 0 then acc
  else
    let val := distance_to_station_in_cos i X st
    let val := if val > st.cos_min_r then st.cos_min_r else val
    if val > st.cos_max_r then
      let w := 1 / (M.acos val * M.acos val)
      let u := (st.wind_current (offset + i)).u * w
      let v := (st.wind_current (offset + i)).v * w
      { wind_in_range := Function.update acc.wind_in_range i ⟨u, v, 1⟩
        weight := Function.update acc.weight i w
        u_sum := acc.u_sum + u
        v_sum := acc.v_sum + v
        amount := acc.amount + 1 }
    else acc

/-- Geographic position to cartesian unit vector, `convert_geo_to_cartesian`. -/
def convert_geo_to_cartesian (M : libm α) (longitude latitude : α) : vec3 α :=
  ⟨M.cos latitude * M.cos longitude, M.cos latitude * M.sin longitude, M.sin latitude⟩

/-- The macro `rad2deg`. -/
def rad2deg (M : libm α) (f : α) : α := f * 180 / M.pi

/-- The macro `deg2rad`. -/
def deg2rad (M : libm α) (f : α) : α := f * M.pi / 180

/-- Shift the start time by `ZONEDIFF` hours, `convert_timezone`. -/
def convert_timezone (P : param α) (st : state α) : state α :=
  if P.ZONEDIFF < 0 then
    { st with time := time_step_backward^[P.ZONEDIFF.natAbs] st.time }
  else
    { st with time := time_step_forward^[P.ZONEDIFF.toNat] st.time }

end numeric

section truncation

variable {α : Type} [LinearOrderedField α] [FloorRing α]

/-- C conversion `(int)x` of a `double`: truncation toward zero. -/
def c_int (x : α) : Int := if 0 ≤ x then ⌊x⌋ else ⌈x⌉

/-- Bring the current waypoint into the geographic range, `normalize_coords`. -/
def normalize_coords (M : libm α) (st : state α) : state α :=
  let lo := rad2deg M (st.lo st.point.toNat)
  let la := rad2deg M (st.la st.point.toNat)
  let lo := (lo - ((Int.tdiv (c_int lo) 360 * 360 : Int) : α)) / 180
  let lo := if |lo| > 1 then
      (((c_int lo * -1 : Int) : α) - ((lo - ((c_int lo : Int) : α)) * -1)) * 180
    else lo * 180
  let la := (la - ((Int.tdiv (c_int la) 360 * 360 : Int) : α)) / 180
  let la := if |la| > 1 then
      (((c_int la * -1 : Int) : α) - ((la - ((c_int la : Int) : α)) * -1)) * 180
    else la * 180
  let la := (la - ((Int.tdiv (c_int la) 180 * 180 : Int) : α)) / 90
  let la := if |la| > 1 then
      ((((c_int la * -1 : Int) : α) - ((la - ((c_int la : Int) : α)) * -1)) * 90) * -1
    else la * 90
  { st with lo := Function.update st.lo st.point.toNat (deg2rad M lo)
            la := Function.update st.la st.point.toNat (deg2rad M la) }

/-- Initial program status, `init_values`.  `station_count` is what
`get_amount_of_stations` returns (the number of lines of the station file);
the `memset` and `calloc` zeroes are the zero entries. -/
def init_values (P : param α) (M : libm α) (station_count : Nat) : state α :=
  normalize_coords M
    { lo := Function.update (fun _ => 0) 0 (deg2rad M P.LO)
      la := Function.update (fun _ => 0) 0 (deg2rad M P.LA)
      point := 0
      point_max := c_int ((P.IPERH : α) / (P.IPERPOINT : α) * ((|P.TRACE| : Int) : α))
      station_max := station_count
      station_list := fun _ => ⟨0, 0, ⟨0, 0, 0⟩⟩
      wind_data := fun _ => ⟨0, 0, 0⟩
      wind_current := fun _ => ⟨0, 0, 0⟩
      time := ⟨P.YYYY, P.MM, P.DD, P.HH⟩
      diff := 0
      data_diff := 0
      distance_per_step := 3.6 / ((P.IPERH : α) * RE)
      cos_min_r := M.cos ((P.MINR : α) / RE)
      cos_max_r := M.cos ((P.MAXR : α) / RE) }

end truncation

/-! ## Snapshot chain -/

/-- Hourly wind field, `struct winddata`.  A pointer is the address of a node
in the heap, `none` is `NULL`; `wind` is `NULL` or the station array. -/
structure winddata (α : Type) where
  time : date
  wind : Option (Nat → wind α)
  next : Option Nat
  prev : Option Nat

/-- The `winddata` nodes obtained from `malloc`: addresses `0 .. size - 1`. -/
structure heap (α : Type) where
  size : Nat
  node : Nat → winddata α

/-- One line of a day file after lexing: a time line `YYYY MM DD HH`, a
non-indented line starting with `*` (the `*ENDBLOCK` sentinel), or an
indented station line `id dir_deg speed`. -/
inductive line where
  | stamp (year month day hour : Int)
  | sentinel
  | sample (A B C : Int)
deriving DecidableEq, Repr

section chain

variable {α : Type} [LinearOrderedField α]

/-- The heap before the first `malloc`. -/
def empty_heap : heap α := ⟨0, fun _ => ⟨⟨0, 0, 0, 0⟩, none, none, none⟩⟩

/-- Fresh node with zero time and `NULL` pointers, `new_winddata`; returns the
new address and the extended heap. -/
def new_winddata (h : heap α) : Nat × heap α :=
  (h.size, ⟨h.size + 1, Function.update h.node h.size ⟨⟨0, 0, 0, 0⟩, none, none, none⟩⟩)

/-- Assignment `a->next = v`. -/
def set_next (h : heap α) (a : Nat) (v : Option Nat) : heap α :=
  { h with node := Function.update h.node a { h.node a with next := v } }

/-- Assignment `a->prev = v`. -/
def set_prev (h : heap α) (a : Nat) (v : Option Nat) : heap α :=
  { h with node := Function.update h.node a { h.node a with prev := v } }

/-- Assignment of the four fields of `a->time`. -/
def set_time (h : heap α) (a : Nat) (t : date) : heap α :=
  { h with node := Function.update h.node a { h.node a with time := t } }

/-- Assignment `a->wind = w`. -/
def set_wind (h : heap α) (a : Nat) (w : Option (Nat → wind α)) : heap α :=
  { h with node := Function.update h.node a { h.node a with wind := w } }

/-- Next non-empty snapshot along `next`, `get_next_element`. -/
def get_next_element (h : heap α) : Nat → Nat → Except failure Nat
  | 0, _ => .error .fuel
  | fuel + 1, winddata =>
    match (h.node winddata).next with
    | none => .error .end_of_list
    | some n => if (h.node n).wind.isNone then get_next_element h fuel n else .ok n

/-- Next non-empty snapshot along `prev`, `get_prev_element`. -/
def get_prev_element (h : heap α) : Nat → Nat → Except failure Nat
  | 0, _ => .error .fuel
  | fuel + 1, winddata =>
    match (h.node winddata).prev with
    | none => .error .end_of_list
    | some n => if (h.node n).wind.isNone then get_prev_element h fuel n else .ok n

/-- Nautical mile in km, `MILE`. -/
def MILE : α := 1.8532

/-- The station loop of `read_file` for one station line `A B C`: every table
station with number `A` gets the converted sample. -/
def store_sample (P : param α) (M : libm α) (st : state α) (w : Nat → wind α)
    (A B C : Int) : Nat → wind α :=
  (List.range st.station_max).foldl
    (fun w i =>
      if (st.station_list i).nr = A then
        let wind_direction : α := (B : α)
        let wind_speed : α := (C : α)
        let wind_speed := if (st.station_list i).unit = 2 then wind_speed * MILE / 3.6
          else wind_speed
        let wind_speed := wind_speed * P.SPEED
        let wind_direction := wind_direction + P.ROT
        let wind_direction := deg2rad M wind_direction
        Function.update w i
          ⟨wind_speed * M.sin wind_direction, wind_speed * M.cos wind_direction, 1⟩
      else w)
    w

/-- What `read_file` does with one line; the pair is the heap and
`winddata_pnt`. -/
def read_file_line (P : param α) (M : libm α) (st : state α) (hp : heap α × Nat) :
    line → heap α × Nat
  | .stamp year month day hour =>
    let (n, h) := new_winddata hp.1
    if P.TRACE < 0 then
      let h := set_next h hp.2 (some n)
      let h := set_prev h n (some hp.2)
      (set_time h n ⟨year, month, day, hour⟩, n)
    else
      let h := set_prev h hp.2 (some n)
      let h := set_next h n (some hp.2)
      (set_time h n ⟨year, month, day, hour⟩, n)
  | .sentinel => hp
  | .sample A B C =>
    let w := match (hp.1.node hp.2).wind with
      | none => fun _ => ⟨0, 0, 0⟩
      | some w => w
    (set_wind hp.1 hp.2 (some (store_sample P M st w A B C)), hp.2)

/-- The closing loop of `read_file`: follow `prev` to the first node. -/
def rewind (h : heap α) : Nat → Nat → Except failure Nat
  | 0, _ => .error .fuel
  | fuel + 1, pnt =>
    match (h.node pnt).prev with
    | none => .ok pnt
    | some q => rewind h fuel q

/-- Read one day file, `read_file`; `file` is `none` when `fopen` fails.
Returns the first node of the list built and the heap. -/
def read_file (P : param α) (M : libm α) (st : state α) (file : Option (List line))
    (fuel : Nat) (h : heap α) : Except failure (Nat × heap α) :=
  let (pnt, h) := new_winddata h
  match file with
  | none => .error .cannot_open
  | some lines =>
    let hp := lines.foldl (read_file_line P M st) (h, pnt)
    match rewind hp.1 fuel hp.2 with
    | .error e => .error e
    | .ok first => .ok (first, hp.1)

/-- The loop of `read_wind_data` that moves to the last node along `next`. -/
def forward_to_last (h : heap α) : Nat → Nat → Except failure Nat
  | 0, _ => .error .fuel
  | fuel + 1, pnt =>
    match (h.node pnt).next with
    | none => .ok pnt
    | some q => forward_to_last h fuel q

/-- One pass of the day loop of `read_wind_data`: filling the array `time`,
whose current index is `j`. -/
def day_step (P : param α) (tj : (Nat → date) × Nat) : (Nat → date) × Nat :=
  let time := Function.update tj.1 tj.2
    (if P.TRACE < 0 then time_step_backward (tj.1 tj.2) else time_step_forward (tj.1 tj.2))
  if (time tj.2).day ≠ (time (tj.2 - 1)).day then
    (Function.update time (tj.2 + 1) (time tj.2), tj.2 + 1)
  else (time, tj.2)

/-- The days whose files `read_wind_data` opens, in opening order: the entries
`time[0] .. time[j-1]` after the day loop. -/
def wind_days (P : param α) (st : state α) : List date :=
  let res := if P.RES = 0 then RESMAX else P.RES
  let k := |P.TRACE| + 2 * res
  let t0 := (if P.TRACE < 0 then time_step_forward else time_step_backward)^[res.toNat] st.time
  let time : Nat → date := Function.update (Function.update (fun _ => ⟨0, 0, 0, 0⟩) 0 t0) 1 t0
  let tj := (List.range k.toNat).foldl (fun tj _ => day_step P tj) (time, 1)
  (List.range tj.2).map tj.1

/-- Append one day file to the chain: the body of the file loop of
`read_wind_data`; the pair is the heap and `winddata_pnt`. -/
def append_file (P : param α) (M : libm α) (st : state α) (fuel : Nat)
    (hp : heap α × Nat) (file : Option (List line)) : Except failure (heap α × Nat) :=
  match read_file P M st file fuel hp.1 with
  | .error e => .error e
  | .ok (first, h) =>
    let pnt := hp.2
    let h := set_next h pnt (some first)
    if P.TRACE < 0 then
      let h := set_next h pnt (h.node first).next
      match (h.node pnt).prev, (h.node pnt).next with
      | none, _ => forward_to_last h fuel pnt |>.map (fun q => (h, q))
      | some _, some n => forward_to_last (set_prev h n (some pnt)) fuel pnt
          |>.map (fun q => (set_prev h n (some pnt), q))
      | some _, none => .error .null_pointer
    else
      let h := set_prev h first (h.node pnt).prev
      let h := match (h.node pnt).prev with
        | none => h
        | some q => set_next h q (h.node pnt).next
      forward_to_last h fuel pnt |>.map (fun q => (h, q))

/-- The file loop of `read_wind_data` over the day files in opening order
(`none` for a file that cannot be opened); the pair is the heap and
`winddata_pnt`. -/
def link_files (P : param α) (M : libm α) (st : state α) (fuel : Nat)
    (hp : heap α × Nat) (files : List (Option (List line))) : Except failure (heap α × Nat) :=
  files.foldlM (append_file P M st fuel) hp

/-- Build the snapshot chain behind the node `winddata`, `read_wind_data`.
`fs yy mm dd` is the lexed content of the file `bYYMMDD.new`, `none` when it
cannot be opened. -/
def read_wind_data (P : param α) (M : libm α) (st : state α)
    (fs : Int → Int → Int → Option (List line)) (fuel : Nat) (h : heap α) (winddata : Nat) :
    Except failure (heap α) :=
  (link_files P M st fuel (h, winddata)
    ((wind_days P st).map
      (fun t => fs (t.year - Int.tdiv t.year 100 * 100) t.month t.day))).map Prod.fst

/-- The counting loops `while (!time_equal(time_dummy, target)) { step; n += 1 }`:
the number of steps until `time_dummy` equals `target`. -/
def count_steps (step : date → date) (target : date) : Nat → date → Except failure Int
  | 0, _ => .error .fuel
  | fuel + 1, time_dummy =>
    if time_dummy = target then .ok 0
    else (count_steps step target fuel (step time_dummy)).map (fun n => n + 1)

/-- The opening loop of `init_wind_data`: follow `next` to the node whose time
is `time`. -/
def seek_time (h : heap α) (time : date) : Nat → Nat → Except failure Nat
  | 0, _ => .error .fuel
  | fuel + 1, winddata =>
    if time = (h.node winddata).time then .ok winddata
    else
      match (h.node winddata).next with
      | none => .error .end_of_list
      | some n => seek_time h time fuel n

/-- The closing loop of `init_wind_data` for a backward trace: one step along
`next`, then on to the first node with data; no `NULL` test. -/
def skip_empty (h : heap α) : Nat → Nat → Except failure Nat
  | 0, _ => .error .fuel
  | fuel + 1, winddata =>
    match (h.node winddata).next with
    | none => .error .null_pointer
    | some n => if (h.node n).wind.isNone then skip_empty h fuel n else .ok n

/-- The station loops that copy a snapshot into the data slot starting at
`offset` of `wind_data`. -/
def load_slot (st : state α) (w : Nat → wind α) (offset : Nat) : state α :=
  (List.range st.station_max).foldl
    (fun s i => { s with wind_data := Function.update s.wind_data (offset + i) (w i) }) st

/-- The first two data wind fields, `init_wind_data`; returns the list cursor
and the status. -/
def init_wind_data (P : param α) (h : heap α) (fuel : Nat) (st : state α) (winddata : Nat) :
    Except failure (Nat × state α) := do
  let winddata ← seek_time h st.time fuel winddata
  let st := { st with diff := 0, data_diff := 0 }
  let (winddata, st) ←
    (match (h.node winddata).wind with
    | none => do
      let time_dummy := (h.node winddata).time
      let winddata ← if P.TRACE > 0 then get_prev_element h fuel winddata
        else get_next_element h fuel winddata
      let n ← count_steps time_step_backward (h.node winddata).time fuel time_dummy
      pure (winddata, { st with diff := st.diff + n })
    | some _ => pure (winddata, st) : Except failure (Nat × state α))
  let w ← (match (h.node winddata).wind with
    | none => .error .null_pointer
    | some w => pure w : Except failure (Nat → wind α))
  let st := load_slot st w 0
  let time_dummy := (h.node winddata).time
  let winddata ← if P.TRACE > 0 then get_next_element h fuel winddata
    else get_prev_element h fuel winddata
  let n ← count_steps time_step_forward (h.node winddata).time fuel time_dummy
  let st := { st with data_diff := st.data_diff + n }
  let w ← (match (h.node winddata).wind with
    | none => .error .null_pointer
    | some w => pure w : Except failure (Nat → wind α))
  let st := load_slot st w st.station_max
  if P.TRACE < 0 then do
    let winddata ← skip_empty h fuel winddata
    pure (winddata, st)
  else pure (winddata, st)

/-- The station loop of `get_next_wind_data`: shift the data slots in trace
direction and load the snapshot `w` into the freed slot. -/
def shift_slots (P : param α) (st : state α) (w : Nat → wind α) : state α :=
  (List.range st.station_max).foldl
    (fun s i =>
      if P.TRACE > 0 then
        let wd := Function.update s.wind_data i (s.wind_data (s.station_max + i))
        { s with wind_data := Function.update wd (s.station_max + i) (w i) }
      else
        let wd := Function.update s.wind_data (s.station_max + i) (s.wind_data i)
        { s with wind_data := Function.update wd i (w i) })
    st

/-- Slide the data window to the next snapshot with data, `get_next_wind_data`. -/
def get_next_wind_data (P : param α) (h : heap α) (fuel : Nat) (st : state α)
    (winddata : Nat) : Except failure (Nat × state α) := do
  let time_dummy := (h.node winddata).time
  let winddata ← get_next_element h fuel winddata
  let st := { st with data_diff := 0 }
  let n ← count_steps (if P.TRACE > 0 then time_step_forward else time_step_backward)
    (h.node winddata).time fuel time_dummy
  let st := { st with data_diff := st.data_diff + n }
  let w ← (match (h.node winddata).wind with
    | none => .error .null_pointer
    | some w => pure w : Except failure (Nat → wind α))
  pure (winddata, shift_slots P st w)

/-- What `iterate` does when a micro-step falls on a full hour (the body of
`if (iteration == 0)`): advance `diff`, copy the hourly slot, slide the data
window when its end is reached, and interpolate the next hourly field. -/
def hour_boundary (P : param α) (h : heap α) (fuel : Nat) (st : state α) (winddata : Nat) :
    Except failure (Nat × state α) := do
  let st := if P.TRACE > 0 then { st with diff := st.diff + 1 }
    else { st with diff := st.diff - 1 }
  let st := copy_wind_current st
  let (winddata, st) ←
    (if st.diff = st.data_diff ∨ st.diff = -1 then do
      let (winddata, st) ← get_next_wind_data P h fuel st winddata
      check_resolution P.RES st.data_diff
      let st := if P.TRACE > 0 then { st with diff := 0 }
        else { st with diff := st.data_diff - 1 }
      pure (winddata, st)
    else pure (winddata, st) : Except failure (Nat × state α))
  let st ← wind_of_next_hour st
  pure (winddata, st)

/-- Everything before the first waypoint, `prepare_calculate`.  `stations` is
the table `read_station_list` stores.  Returns the heap, the list cursor and
the status. -/
def prepare_calculate (P : param α) (M : libm α) (stations : Nat → station α)
    (fs : Int → Int → Int → Option (List line)) (fuel : Nat) (st : state α) :
    Except failure (heap α × Nat × state α) := do
  let st := convert_timezone P st
  let st := { st with station_list := stations }
  let st := if P.TRACE > 0 then { st with distance_per_step := st.distance_per_step * -1 }
    else st
  if P.TRACE = 0 then .error .trace_zero
  else do
    let (winddata, h) := new_winddata empty_heap
    let h ← read_wind_data P M st fs fuel h winddata
    let (winddata, st) ← init_wind_data P h fuel st winddata
    check_resolution P.RES st.data_diff
    let st ← wind_of_next_hour st
    pure (h, winddata, st)

end chain

/-! ## Example data -/

section examples

variable {α : Type} [LinearOrderedField α] [FloorRing α]

/-- Start parameters with the given trace length, data resolution and radii;
start at 2001-03-14 22h, no time-zone shift. -/
def example_param (trace res minr maxr : Int) : param α :=
  { LO := 0, LA := 0, YYYY := 2001, MM := 3, DD := 14, HH := 22, TRACE := trace, SPEED := 1,
    ROT := 0, MAXR := maxr, MINR := minr, IPERH := 1, IPERPOINT := 1, ZONEDIFF := 0,
    STDDEVIATION := 0, DATAUNIT := 1, RES := res }

/-- One station at (1,0,0), the point lon = 0, lat = 0. -/
def example_stations : Nat → station α := fun _ => ⟨1, 1, ⟨1, 0, 0⟩⟩

/-- Status after `init_values` with one station at (1,0,0) whose hourly sample
is present in both slots with wind (1,0). -/
def example_state (P : param α) (M : libm α) : state α :=
  { init_values P M 1 with
    station_list := example_stations
    wind_current := fun _ => ⟨1, 0, 1⟩ }

/-- The accumulator `calculate_wind_vector` starts from: all zero. -/
def zero_acc : weight_acc α := ⟨fun _ => ⟨0, 0, 0⟩, fun _ => 0, 0, 0, 0⟩

end examples

/-- Rational stand-ins for the `math.h` functions, used only to run examples
in exact arithmetic. -/
def rat_libm : libm ℚ := ⟨fun x => x, fun x => 1 - x * x / 2, fun x => 1 - x, fun x => x, 3⟩

/-- A status one hour into a three-hour data window: station 0 has (3,6) in
the earlier data slot and (6,0) in the later one. -/
def interp_state : state ℚ :=
  { example_state (example_param 1 3 2 200) rat_libm with
    wind_data := fun k => if k = 0 then ⟨3, 6, 1⟩ else ⟨6, 0, 1⟩
    diff := 1
    data_diff := 3 }

/-! ### Specification-side chain notions -/

/-- The list starts a finite path of the pointer field `succ`: each entry is
the successor of the one before, and the last entry has successor `NULL`. -/
def path_of (succ : Nat → Option Nat) : List Nat → Prop
  | [] => True
  | [a] => succ a = none
  | a :: b :: r => succ a = some b ∧ path_of succ (b :: r)

section chain_spec

variable {α : Type}

/-- The nodes of the list follow each other along `next`, up to `NULL`. -/
def next_path (h : heap α) (l : List Nat) : Prop := path_of (fun a => (h.node a).next) l

/-- The nodes of the list follow each other along `prev`, up to `NULL`. -/
def prev_path (h : heap α) (l : List Nat) : Prop := path_of (fun a => (h.node a).prev) l

/-- The first node of the list that holds a sample array. -/
def first_with_data (h : heap α) (l : List Nat) : Option Nat :=
  l.find? (fun m => (h.node m).wind.isSome)

end chain_spec

/-- A small file system: the file of 2001-03-15 holds the block of hour 0 with
one sample; the file of 2001-03-14 holds the blocks of hours 23, 22, 21, 20,
of which hour 22 has no station line. -/
def small_fs : Int → Int → Int → Option (List line) := fun yy mm dd =>
  if yy = 1 ∧ mm = 3 ∧ dd = 15 then
    some [.stamp 2001 3 15 0, .sample 1 90 5, .sentinel]
  else if yy = 1 ∧ mm = 3 ∧ dd = 14 then
    some [.stamp 2001 3 14 23, .sample 1 90 5, .sentinel,
      .stamp 2001 3 14 22, .sentinel,
      .stamp 2001 3 14 21, .sample 1 90 3, .sentinel,
      .stamp 2001 3 14 20, .sample 1 90 1, .sentinel]
  else none

/-- A hand-built chain of five snapshots 0 → 1 → 2 → 3 → 4 along `next` (and
back along `prev`), one hour apart from 2001-03-14 19h to 23h; the snapshots
at addresses 0 and 2 are empty. -/
def tiny_heap : heap ℚ :=
  ⟨5, fun a =>
    match a with
    | 0 => ⟨⟨2001, 3, 14, 19⟩, none, some 1, none⟩
    | 1 => ⟨⟨2001, 3, 14, 20⟩, some (fun _ => ⟨1, 0, 1⟩), some 2, some 0⟩
    | 2 => ⟨⟨2001, 3, 14, 21⟩, none, some 3, some 1⟩
    | 3 => ⟨⟨2001, 3, 14, 22⟩, some (fun _ => ⟨3, 0, 1⟩), some 4, some 2⟩
    | 4 => ⟨⟨2001, 3, 14, 23⟩, some (fun _ => ⟨5, 0, 1⟩), none, some 3⟩
    | _ => ⟨⟨0, 0, 0, 0⟩, none, none, none⟩⟩

/-! ### Specification-side calendar notions -/

/-- Gregorian leap-year predicate of the specification: divisible by 4, and
not by 100 unless by 400. -/
def gregorian_leap (Y : Int) : Prop := 4 ∣ Y ∧ (¬ 100 ∣ Y ∨ 400 ∣ Y)

instance (Y : Int) : Decidable (gregorian_leap Y) := by
  unfold gregorian_leap; infer_instance

/-- Gregorian length of month `m` (1..12) in year `Y`. -/
def gregorian_days (Y m : Int) : Int :=
  if m = 2 then (if gregorian_leap Y then 29 else 28)
  else if m = 4 ∨ m = 6 ∨ m = 9 ∨ m = 11 then 30
  else 31

/-- Valid calendar point: month 1..12, day within the month, hour 0..23. -/
def valid_date (t : date) : Prop :=
  1 ≤ t.month ∧ t.month ≤ 12 ∧ 1 ≤ t.day ∧ t.day ≤ gregorian_days t.year t.month ∧
    0 ≤ t.hour ∧ t.hour ≤ 23

instance (t : date) : Decidable (valid_date t) := by
  unfold valid_date; infer_instance

/-- Calendar order: lexicographic on (year, month, day, hour). -/
def date_lt (a b : date) : Prop :=
  a.year < b.year ∨ (a.year = b.year ∧ (a.month < b.month ∨ (a.month = b.month ∧
    (a.day < b.day ∨ (a.day = b.day ∧ a.hour < b.hour)))))

instance (a b : date) : Decidable (date_lt a b) := by
  unfold date_lt; infer_instance

section window_spec

variable {α : Type}

/-- The window invariant of the integrator: `0 ≤ diff < data_diff`, and
`data_diff = RES` whenever `RES ≠ 0`. -/
def window_invariant (P : param α) (st : state α) : Prop :=
  0 ≤ st.diff ∧ st.diff < st.data_diff ∧ (P.RES ≠ 0 → st.data_diff = P.RES)

/-- A snapshot chain as `read_wind_data` leaves it for day files of the
documented format (`read_wind_data_chain_ok`): `c` lists the snapshots behind
the node `w0` along `next` up to `NULL`; along `prev` the same nodes are met
in reverse order, followed by the nodes `pre`, which hold no data; the time of
`w0` is not the start time; snapshots with data carry a valid time; and the
valid times are in trace order along `next` (ascending for a forward trace,
descending for a backward trace). -/
def chain_ok (P : param α) (h : heap α) (start : date) (w0 : Nat) (c pre : List Nat) : Prop :=
  next_path h (w0 :: c) ∧ prev_path h (c.reverse ++ pre) ∧
  (∀ x ∈ pre, (h.node x).wind = none) ∧
  (h.node w0).time ≠ start ∧
  (∀ a ∈ c, (h.node a).wind ≠ none → valid_date (h.node a).time) ∧
  c.Pairwise (fun a b => valid_date (h.node a).time → valid_date (h.node b).time →
    if P.TRACE > 0 then date_lt (h.node a).time (h.node b).time
    else date_lt (h.node b).time (h.node a).time)

end window_spec

section run_spec

variable {α : Type} [LinearOrderedField α]

/-- The first `n` hour-boundary crossings of a run, started from the list
cursor and status given. -/
def crossings (P : param α) (h : heap α) (fuel : Nat) :
    Nat → Nat × state α → Except failure (Nat × state α)
  | 0, x => .ok x
  | n + 1, x =>
    match crossings P h fuel n x with
    | .error e => .error e
    | .ok y => hour_boundary P h fuel y.2 y.1

end run_spec

/-- The status of `example_state` with the start time moved to 2001-03-14 21h. -/
def start21_state (trace : Int) : state ℚ :=
  { example_state (example_param trace 2 2 200) rat_libm with time := ⟨2001, 3, 14, 21⟩ }

/-- The times of the time lines of a day file, in file order. -/
def stamps : List line → List date
  | [] => []
  | .stamp year month day hour :: r => ⟨year, month, day, hour⟩ :: stamps r
  | .sentinel :: r => stamps r
  | .sample _ _ _ :: r => stamps r

section file_spec

variable {α : Type}

/-- What `read_file` has built after the time lines with times `ts`, in a heap
that agreed with `old` below address `D` before: the dummy node at `D` and one
node per time line at `D+1 .. D+n`, linked in file order along the pointer
field `fwd` and back along the field `bwd` (`next` and `prev` for a backward
trace, `prev` and `next` for a forward trace); the dummy holds no data. -/
structure file_inv (fwd bwd : winddata α → Option Nat) (old : Nat → winddata α) (D : Nat)
    (h : heap α) (n : Nat) (ts : List date) : Prop where
  size_eq : h.size = D + 1 + n
  frame : ∀ a, a < D → h.node a = old a
  fwd_in : ∀ i, i < n → fwd (h.node (D + i)) = some (D + i + 1)
  bwd_in : ∀ i, i < n → bwd (h.node (D + i + 1)) = some (D + i)
  fwd_end : fwd (h.node (D + n)) = none
  bwd_end : bwd (h.node D) = none
  times_len : ts.length = n
  times : ∀ i, i < n → ts[i]? = some (h.node (D + 1 + i)).time
  dummy : (h.node D).wind = none

end file_spec

section chain_inv

variable {α : Type}

/-- The chain of a backward trace after at least one day file: `c` lists the
snapshots behind `w0` along `next` up to `NULL`, `pnt` is the last of them,
along `prev` they are met in reverse order down to the dummy `D1` of the first
file, which holds no data; `ts` are their times; all nodes are allocated. -/
structure back_inv (h : heap α) (w0 pnt : Nat) (c : List Nat) (D1 : Nat) (ts : List date) :
    Prop where
  last : c.getLast? = some pnt
  nextp : next_path h (w0 :: c)
  prevp : prev_path h (c.reverse ++ [D1])
  dummy : (h.node D1).wind = none
  times : c.map (fun a => (h.node a).time) = ts
  bound : ∀ a, a ∈ w0 :: D1 :: c → a < h.size

/-- The chain of a forward trace after at least one day file: `c` lists the
snapshots behind `w0` along `next`, followed by the dummy `pnt` of the last
file, which holds no data and ends the chain; along `prev` from `pnt` they are
met in reverse order up to `NULL`; `ts` are their times; all nodes are
allocated. -/
structure fore_inv (h : heap α) (w0 pnt : Nat) (c : List Nat) (ts : List date) : Prop where
  nonempty : c ≠ []
  nextp : next_path h (w0 :: c ++ [pnt])
  prevp : prev_path h (pnt :: c.reverse)
  dummy : (h.node pnt).wind = none
  times : c.map (fun a => (h.node a).time) = ts
  bound : ∀ a, a ∈ w0 :: pnt :: c → a < h.size

end chain_inv

/-! ## The wind vector at the particle -/

/-- The locals `u_stddev`, `v_stddev`, `amount` that `deviation_sum` adds to. -/
structure dev_sum (α : Type) where
  u_stddev : α
  v_stddev : α
  amount : α

/-- The locals `u_sum`, `v_sum`, `weight_sum` that `end_sum` adds to. -/
structure slot_sum (α : Type) where
  u_sum : α
  v_sum : α
  weight_sum : α

section vector

variable {α : Type} [LinearOrderedField α]

/-- Mean from sum and count, `average_sum`; returns the new values of
`*u_average` and `*v_average`. -/
def average_sum (amount u_average v_average : α) : α × α :=
  if amount > 0 then
    (if u_average ≠ 0 then u_average / amount else u_average,
      if v_average ≠ 0 then v_average / amount else v_average)
  else (u_average, v_average)

/-- Add the squared deviations of entry `i`, `deviation_sum`. -/
def deviation_sum (wind_in_range : Nat → wind α) (u_average v_average : α) (d : dev_sum α)
    (i : Nat) : dev_sum α :=
  if (wind_in_range i).p ≠ 0 then
    { u_stddev := d.u_stddev +
        ((wind_in_range i).u - u_average) * ((wind_in_range i).u - u_average)
      v_stddev := d.v_stddev +
        ((wind_in_range i).v - v_average) * ((wind_in_range i).v - v_average)
      amount := d.amount + 1 }
  else d

/-- Standard deviation from the sum of squares, `std_deviation`; returns the
new values of `*u_stddev` and `*v_stddev`. -/
def std_deviation (M : libm α) (amount u_stddev v_stddev : α) : α × α :=
  if amount > 0 then (M.sqrt (u_stddev / amount), M.sqrt (v_stddev / amount))
  else (u_stddev, v_stddev)

/-- The test `fabs(x) / y > s` of `z_transformation_check`.  For `y = 0` the
quotient of doubles is `+inf` when `x ≠ 0`, and the test holds, and NaN when
`x = 0`, and the test fails. -/
def quotient_exceeds (x y s : α) : Prop :=
  if y = 0 then x ≠ 0 else |x| / y > s

instance (x y s : α) : Decidable (quotient_exceeds x y s) := by
  unfold quotient_exceeds; infer_instance

/-- Take entry `i` out when it deviates too much, `z_transformation_check`. -/
def z_transformation_check (wind_in_range : Nat → wind α)
    (u_average v_average u_stddev v_stddev stddev : α) (i : Nat) : Nat → wind α :=
  if (wind_in_range i).p ≠ 0 then
    if quotient_exceeds ((wind_in_range i).u - u_average) u_stddev stddev ∨
        quotient_exceeds ((wind_in_range i).v - v_average) v_stddev stddev then
      Function.update wind_in_range i { wind_in_range i with p := 0 }
    else wind_in_range
  else wind_in_range

/-- Add entry `i` to the sums of a slot, `end_sum`. -/
def end_sum (wind_in_range : Nat → wind α) (weight : Nat → α) (s : slot_sum α) (i : Nat) :
    slot_sum α :=
  if (wind_in_range i).p ≠ 0 then
    { u_sum := s.u_sum + (wind_in_range i).u
      v_sum := s.v_sum + (wind_in_range i).v
      weight_sum := s.weight_sum + weight i }
  else s

/-- The first station loop of `calculate_wind_vector`: `check_station_weight`
for hourly slot 0 and then for hourly slot 1, station by station.  The pair
holds the locals of slot `wind1` and of slot `wind2`; the array `weight` is
one array written by both calls, so each call starts from the `weight` the
call before it left. -/
def station_loop (M : libm α) (st : state α) (X : vec3 α) : weight_acc α × weight_acc α :=
  (List.range st.station_max).foldl
    (fun a i =>
      let a1 := check_station_weight M st { a.1 with weight := a.2.weight } X i 0
      let a2 := check_station_weight M st { a.2 with weight := a1.weight } X i st.station_max
      (a1, a2))
    (⟨fun _ => ⟨0, 0, 0⟩, fun _ => 0, 0, 0, 0⟩, ⟨fun _ => ⟨0, 0, 0⟩, fun _ => 0, 0, 0, 0⟩)

/-- The block `if (get_float(STDDEVIATION) > 0.0)` of `calculate_wind_vector`;
returns the arrays `wind1_in_range` and `wind2_in_range` after it. -/
def reject_outliers (P : param α) (M : libm α) (st : state α)
    (a : weight_acc α × weight_acc α) : (Nat → wind α) × (Nat → wind α) :=
  if P.STDDEVIATION > 0 then
    let avg1 := average_sum a.1.amount a.1.u_sum a.1.v_sum
    let avg2 := average_sum a.2.amount a.2.u_sum a.2.v_sum
    let d := (List.range st.station_max).foldl
      (fun d i =>
        (deviation_sum a.1.wind_in_range avg1.1 avg1.2 d.1 i,
          deviation_sum a.2.wind_in_range avg2.1 avg2.2 d.2 i))
      (⟨0, 0, 0⟩, ⟨0, 0, 0⟩)
    let sd1 := std_deviation M d.1.amount d.1.u_stddev d.1.v_stddev
    let sd2 := std_deviation M d.2.amount d.2.u_stddev d.2.v_stddev
    (List.range st.station_max).foldl
      (fun w i =>
        (z_transformation_check w.1 avg1.1 avg1.2 sd1.1 sd1.2 P.STDDEVIATION i,
          z_transformation_check w.2 avg2.1 avg2.2 sd2.1 sd2.2 P.STDDEVIATION i))
      (a.1.wind_in_range, a.2.wind_in_range)
  else (a.1.wind_in_range, a.2.wind_in_range)

/-- The sums `u_sum_wind1, v_sum_wind1, weight_sum_wind1` and
`u_sum_wind2, v_sum_wind2, weight_sum_wind2` after the `end_sum` loop of
`calculate_wind_vector`. -/
def vector_sums (P : param α) (M : libm α) (X : vec3 α) (st : state α) :
    slot_sum α × slot_sum α :=
  let a := station_loop M st X
  let w := reject_outliers P M st a
  (List.range st.station_max).foldl
    (fun s i => (end_sum w.1 a.2.weight s.1 i, end_sum w.2 a.2.weight s.2 i))
    (⟨0, 0, 0⟩, ⟨0, 0, 0⟩)

/-- Wind vector at the position `X`, `calculate_wind_vector`: `some (u, v)` is
return value 0 with `*u`, `*v` written, `none` is return value 1 with `*u`,
`*v` untouched. -/
def calculate_wind_vector (P : param α) (M : libm α) (hour_diff : α) (X : vec3 α)
    (st : state α) : Option (α × α) :=
  let s := vector_sums P M X st
  if hour_diff = 0 then
    if P.TRACE > 0 then
      if s.1.weight_sum ≠ 0 then
        some (s.1.u_sum / s.1.weight_sum, s.1.v_sum / s.1.weight_sum)
      else none
    else
      if s.2.weight_sum ≠ 0 then
        some (s.2.u_sum / s.2.weight_sum, s.2.v_sum / s.2.weight_sum)
      else none
  else
    if s.1.weight_sum ≠ 0 ∧ s.2.weight_sum ≠ 0 then
      if P.TRACE > 0 then
        some ((1 - hour_diff) * (s.1.u_sum / s.1.weight_sum) +
            hour_diff * (s.2.u_sum / s.2.weight_sum),
          (1 - hour_diff) * (s.1.v_sum / s.1.weight_sum) +
            hour_diff * (s.2.v_sum / s.2.weight_sum))
      else
        some (hour_diff * (s.1.u_sum / s.1.weight_sum) +
            (1 - hour_diff) * (s.2.u_sum / s.2.weight_sum),
          hour_diff * (s.1.v_sum / s.1.weight_sum) +
            (1 - hour_diff) * (s.2.v_sum / s.2.weight_sum))
    else none

end vector

/-! ## The integrator -/

section integrator

variable {α : Type} [LinearOrderedField α]

/-- One pass of the micro-step loop of `iterate` for the loop index `j`.  The
triple is the list cursor, the status and the locals `(u, v)`; the flag says
that no wind vector could be computed, in which case the source sets `j` to
IPERPOINT and the loop ends after this pass. -/
def micro_step (P : param α) (M : libm α) (h : heap α) (fuel : Nat) (j : Int)
    (x : Nat × state α × (α × α)) : Except failure ((Nat × state α × (α × α)) × Bool) := do
  let iteration := Int.tmod ((x.2.1.point - 1) * P.IPERPOINT + j) P.IPERH
  let (winddata, st) ←
    (if iteration = 0 then hour_boundary P h fuel x.2.1 x.1
     else pure (x.1, x.2.1) : Except failure (Nat × state α))
  let hour_diff : α := (iteration : α) / (P.IPERH : α)
  let X := convert_geo_to_cartesian M (st.lo st.point.toNat) (st.la st.point.toNat)
  let r := calculate_wind_vector P M hour_diff X st
  let st := if r.isNone then { st with point_max := st.point } else st
  let uv := r.getD x.2.2
  let st := { st with
    lo := Function.update st.lo st.point.toNat
      (st.lo st.point.toNat + st.distance_per_step * uv.1 / M.cos (st.la st.point.toNat)) }
  let st := { st with
    la := Function.update st.la st.point.toNat
      (st.la st.point.toNat + st.distance_per_step * uv.2) }
  pure ((winddata, st, uv), r.isNone)

/-- The loop `for (j = 0; j < IPERPOINT; j++)` of `iterate`, from index `j` with
`n` passes left. -/
def iterate_loop (P : param α) (M : libm α) (h : heap α) (fuel : Nat) :
    Nat → Int → Nat × state α × (α × α) → Except failure (Nat × state α × (α × α))
  | 0, _, x => .ok x
  | n + 1, j, x =>
    match micro_step P M h fuel j x with
    | .error e => .error e
    | .ok (y, stop) => if stop then .ok y else iterate_loop P M h fuel n (j + 1) y

/-- Integrate up to the next waypoint, `iterate`.  `uv` are the values the
uninitialised locals `u`, `v` happen to hold on entry. -/
def iterate (P : param α) (M : libm α) (h : heap α) (fuel : Nat) (uv : α × α) (st : state α)
    (winddata : Nat) : Except failure (Nat × state α) :=
  (iterate_loop P M h fuel P.IPERPOINT.toNat 0 (winddata, st, uv)).map
    (fun y => (y.1, y.2.1))

/-- What `print_output_file` writes of the trajectory: the number of the count
line and the waypoint lines. -/
def print_output_file (st : state α) : Int × List (α × α) :=
  (st.point, (List.range st.point.toNat).map (fun j => (st.lo j, st.la j)))

end integrator

section stations

variable {α : Type} [LinearOrderedField α] [FloorRing α]

/-- The waypoint loop of `calculate`, `for (point = 1; point <= point_max;
point += 1)`, with `n` passes allowed.  `junk p` are the values of the
uninitialised locals of the call of `iterate` for waypoint `p`. -/
def waypoint_loop (P : param α) (M : libm α) (h : heap α) (fuel : Nat) (junk : Int → α × α) :
    Nat → Nat × state α → Except failure (Nat × state α)
  | 0, x => if x.2.point ≤ x.2.point_max then .error .fuel else .ok x
  | n + 1, x =>
    if x.2.point ≤ x.2.point_max then
      let st := { x.2 with
        lo := Function.update x.2.lo x.2.point.toNat (x.2.lo (x.2.point - 1).toNat) }
      let st := { st with
        la := Function.update st.la st.point.toNat (st.la (st.point - 1).toNat) }
      match iterate P M h fuel (junk st.point) st x.1 with
      | .error e => .error e
      | .ok y =>
        let st := normalize_coords M y.2
        waypoint_loop P M h fuel junk n (y.1, { st with point := st.point + 1 })
    else .ok x

/-- One line of the station file: its five integer fields (the fourth is not
read). -/
structure station_line where
  nr : Int
  la : Int
  lo : Int
  altitude : Int
  unit : Int

/-- The angle in degrees `read_station_list` decodes from a coordinate field:
`(int)(tmp / 100) + (tmp - 100 * (int)(tmp / 100)) / 60`. -/
def decode_degrees (tmp : α) : α :=
  ((c_int (tmp / 100) : Int) : α) + (tmp - ((100 * c_int (tmp / 100) : Int) : α)) / 60

/-- The unit `read_station_list` stores for a station with unit code `code`:
the `switch (get_int(DATAUNIT))`. -/
def station_unit (P : param α) (code : Int) : Int :=
  if P.DATAUNIT = 0 then 2
  else if P.DATAUNIT = 1 then 1
  else if P.DATAUNIT = 2 then code
  else 2

/-- The body of the line loop of `read_station_list` for line `i`. -/
def read_station_line (P : param α) (M : libm α) (st : state α) (i : Nat) (l : station_line) :
    Except failure (state α) :=
  let unit := station_unit P l.unit
  if P.DATAUNIT = 2 ∧ (unit < 1 ∨ unit > 2) then .error .unknown_unit
  else
    let la_tmp := deg2rad M (decode_degrees (l.la : α))
    let lo_tmp := deg2rad M (decode_degrees (l.lo : α))
    .ok { st with
      station_list := Function.update st.station_list i
        ⟨l.nr, unit, ⟨M.cos la_tmp * M.cos lo_tmp, M.cos la_tmp * M.sin lo_tmp, M.sin la_tmp⟩⟩ }

/-- The line loop of `read_station_list` from line index `i`. -/
def read_station_lines (P : param α) (M : libm α) :
    List station_line → Nat → state α → Except failure (state α)
  | [], _, st => .ok st
  | l :: r, i, st =>
    match read_station_line P M st i l with
    | .error e => .error e
    | .ok st2 => read_station_lines P M r (i + 1) st2

/-- Fill the station table, `read_station_list`; `file` is the lexed station
file, `none` when it cannot be opened. -/
def read_station_list (P : param α) (M : libm α) (file : Option (List station_line))
    (st : state α) : Except failure (state α) :=
  match file with
  | none => .error .cannot_open
  | some lines => read_station_lines P M lines 0 st

/-- The waypoints, `calculate`.  `read_station_list` reads and writes only the
station table, so it is run first and its table is handed to
`prepare_calculate`. -/
def calculate (P : param α) (M : libm α) (station_file : Option (List station_line))
    (fs : Int → Int → Int → Option (List line)) (fuel : Nat) (junk : Int → α × α)
    (st : state α) : Except failure (state α) :=
  match read_station_list P M station_file st with
  | .error e => .error e
  | .ok st1 =>
    match prepare_calculate P M st1.station_list fs fuel st with
    | .error e => .error e
    | .ok x =>
      (waypoint_loop P M x.1 fuel junk x.2.2.point_max.toNat
        (x.2.1, { x.2.2 with point := 1 })).map Prod.snd

end stations

/-! ### Specification-side notions for the wind vector -/

section vector_spec

variable {α : Type} [LinearOrderedField α]

/-- Station `i` is in range in the hourly slot that starts at `offset`: it is
present there and `min(c, cos_min_r) > cos_max_r` for `c = X·position`. -/
def in_range (st : state α) (X : vec3 α) (offset i : Nat) : Prop :=
  (st.wind_current (offset + i)).p ≠ 0 ∧
    min (distance_to_station_in_cos i X st) st.cos_min_r > st.cos_max_r

instance (st : state α) (X : vec3 α) (offset i : Nat) : Decidable (in_range st X offset i) := by
  unfold in_range; infer_instance

/-- The distance weight of station `i`: `1 / acos(min(c, cos_min_r))²`. -/
def station_weight (M : libm α) (st : state α) (X : vec3 α) (i : Nat) : α :=
  1 / (M.acos (min (distance_to_station_in_cos i X st) st.cos_min_r) *
    M.acos (min (distance_to_station_in_cos i X st) st.cos_min_r))

/-- The weighted component `u_i · w_i` of station `i` in the slot at `offset`. -/
def weighted_u (M : libm α) (st : state α) (X : vec3 α) (offset i : Nat) : α :=
  (st.wind_current (offset + i)).u * station_weight M st X i

/-- The weighted component `v_i · w_i` of station `i` in the slot at `offset`. -/
def weighted_v (M : libm α) (st : state α) (X : vec3 α) (offset i : Nat) : α :=
  (st.wind_current (offset + i)).v * station_weight M st X i

/-- Sum of `f i` over the stations in range in the slot at `offset`. -/
def range_sum (st : state α) (X : vec3 α) (offset : Nat) (f : Nat → α) : α :=
  ((List.range st.station_max).map (fun i => if in_range st X offset i then f i else 0)).sum

/-- Number of stations in range in the slot at `offset`. -/
def slot_count (st : state α) (X : vec3 α) (offset : Nat) : α :=
  range_sum st X offset (fun _ => 1)

/-- Mean of the weighted components `u_i · w_i` over the stations in range. -/
def slot_mean_u (M : libm α) (st : state α) (X : vec3 α) (offset : Nat) : α :=
  range_sum st X offset (weighted_u M st X offset) / slot_count st X offset

/-- Mean of the weighted components `v_i · w_i` over the stations in range. -/
def slot_mean_v (M : libm α) (st : state α) (X : vec3 α) (offset : Nat) : α :=
  range_sum st X offset (weighted_v M st X offset) / slot_count st X offset

/-- Population standard deviation of the weighted components `u_i · w_i` over
the stations in range. -/
def slot_sigma_u (M : libm α) (st : state α) (X : vec3 α) (offset : Nat) : α :=
  M.sqrt (range_sum st X offset
    (fun i => (weighted_u M st X offset i - slot_mean_u M st X offset) *
      (weighted_u M st X offset i - slot_mean_u M st X offset)) / slot_count st X offset)

/-- Population standard deviation of the weighted components `v_i · w_i` over
the stations in range. -/
def slot_sigma_v (M : libm α) (st : state α) (X : vec3 α) (offset : Nat) : α :=
  M.sqrt (range_sum st X offset
    (fun i => (weighted_v M st X offset i - slot_mean_v M st X offset) *
      (weighted_v M st X offset i - slot_mean_v M st X offset)) / slot_count st X offset)

/-- Station `i` is an outlier of the slot at `offset`: one of its weighted
components is more than `STDDEVIATION` standard deviations off the mean. -/
def outlier (P : param α) (M : libm α) (st : state α) (X : vec3 α) (offset i : Nat) : Prop :=
  quotient_exceeds (weighted_u M st X offset i - slot_mean_u M st X offset)
      (slot_sigma_u M st X offset) P.STDDEVIATION ∨
    quotient_exceeds (weighted_v M st X offset i - slot_mean_v M st X offset)
      (slot_sigma_v M st X offset) P.STDDEVIATION

instance (P : param α) (M : libm α) (st : state α) (X : vec3 α) (offset i : Nat) :
    Decidable (outlier P M st X offset i) := by
  unfold outlier; infer_instance

/-- Station `i` takes part in the weighted mean of the slot at `offset`: it is
in range and, when outlier rejection is on, not an outlier. -/
def survives (P : param α) (M : libm α) (st : state α) (X : vec3 α) (offset i : Nat) : Prop :=
  in_range st X offset i ∧ ¬ (P.STDDEVIATION > 0 ∧ outlier P M st X offset i)

instance (P : param α) (M : libm α) (st : state α) (X : vec3 α) (offset i : Nat) :
    Decidable (survives P M st X offset i) := by
  unfold survives; infer_instance

/-- Sum of `f i` over the stations that take part in the weighted mean of the
slot at `offset`. -/
def survivor_sum (P : param α) (M : libm α) (st : state α) (X : vec3 α) (offset : Nat)
    (f : Nat → α) : α :=
  ((List.range st.station_max).map (fun i => if survives P M st X offset i then f i else 0)).sum

/-- The sums `U = Σ u_i·w_i`, `V = Σ v_i·w_i`, `W = Σ w_i` of the slot at
`offset`, over the stations that take part. -/
def slot_sums (P : param α) (M : libm α) (st : state α) (X : vec3 α) (offset : Nat) :
    slot_sum α :=
  ⟨survivor_sum P M st X offset (weighted_u M st X offset),
    survivor_sum P M st X offset (weighted_v M st X offset),
    survivor_sum P M st X offset (station_weight M st X)⟩

end vector_spec

section vector_spec2

variable {α : Type} [LinearOrderedField α]

/-- Station `i0` is the only station in range in the slot at `offset`. -/
def only_station (st : state α) (X : vec3 α) (offset i0 : Nat) : Prop :=
  i0 < st.station_max ∧ in_range st X offset i0 ∧
    ∀ i, i < st.station_max → i ≠ i0 → ¬ in_range st X offset i

end vector_spec2

/-- A status with one station at the particle position `(1,0,0)` whose hourly
sample is (3,4) in hourly slot 0 and (5,12) in hourly slot 1. -/
def two_slot_state : state ℚ :=
  { example_state (example_param 1 2 2 200) rat_libm with
    wind_current := fun k => if k = 0 then ⟨3, 4, 1⟩ else ⟨5, 12, 1⟩ }

section three

variable {α : Type} [LinearOrderedField α]

/-- A status with three stations on the equator, station `i` at the longitude
whose cosine and sine are `x i`, reporting u = 1, 1, 100 (v = 0) in hourly
slot 0 and nothing in hourly slot 1; `cmin` and `cmax` are `cos_min_r` and
`cos_max_r`. -/
def three_station_state (cmin cmax : α) (x : Nat → α × α) : state α :=
  { lo := fun _ => 0
    la := fun _ => 0
    point := 1
    point_max := 1
    station_max := 3
    station_list := fun i => ⟨i, 1, ⟨(x i).1, (x i).2, 0⟩⟩
    wind_data := fun _ => ⟨0, 0, 0⟩
    wind_current := fun k =>
      if k = 0 then ⟨1, 0, 1⟩ else if k = 1 then ⟨1, 0, 1⟩
      else if k = 2 then ⟨100, 0, 1⟩ else ⟨0, 0, 0⟩
    time := ⟨2001, 3, 14, 22⟩
    diff := 0
    data_diff := 1
    distance_per_step := 0
    cos_min_r := cmin
    cos_max_r := cmax }

end three

section two_slots

variable {α : Type} [LinearOrderedField α] [FloorRing α]

/-- The status of `example_state` with one station at the particle position
`(1,0,0)` whose hourly sample is (3,4) in hourly slot 0 (`wind_current[0]`)
and (5,12) in hourly slot 1 (`wind_current[1]`). -/
def two_slot (P : param α) (M : libm α) : state α :=
  { example_state P M with
    wind_current := fun k => if k = 0 then ⟨3, 4, 1⟩ else ⟨5, 12, 1⟩ }

end two_slots

section wrapping

variable {α : Type} [LinearOrderedField α] [FloorRing α]

/-- The value `normalize_coords` computes from an angle `x` in degrees in its
steps for the range -180..180 (the same statements serve the longitude and
the first stage of the latitude). -/
def wrap_degrees (x : α) : α :=
  let lo := (x - ((Int.tdiv (c_int x) 360 * 360 : Int) : α)) / 180
  if |lo| > 1 then
    (((c_int lo * -1 : Int) : α) - ((lo - ((c_int lo : Int) : α)) * -1)) * 180
  else lo * 180

/-- The value `normalize_coords` computes from an angle `x` in degrees in its
second latitude stage, for the range -90..90. -/
def fold_degrees (x : α) : α :=
  let la := (x - ((Int.tdiv (c_int x) 180 * 180 : Int) : α)) / 90
  if |la| > 1 then
    ((((c_int la * -1 : Int) : α) - ((la - ((c_int la : Int) : α)) * -1)) * 90) * -1
  else la * 90

/-- The angle in degrees fits the C type `int`, so that the cast `(int)` is
defined on it. -/
def fits_int (x : α) : Prop := -2147483648 ≤ c_int x ∧ c_int x ≤ 2147483647

end wrapping

section tracking

variable {α : Type}

/-- The part of the status that the wind window code never writes: the
waypoints, the waypoint counters, the station table and the three constants
of `init_values`. -/
def track (st : state α) :
    (Nat → α) × (Nat → α) × Int × Int × Nat × (Nat → station α) × α × α × α :=
  (st.lo, st.la, st.point, st.point_max, st.station_max, st.station_list,
    st.distance_per_step, st.cos_min_r, st.cos_max_r)

end tracking

/-- Day files for a run over the hours 21 to 24 of 2001-03-14: every block
holds the one station line `1 90 1` (station 1, wind from 90 degrees, speed
1). -/
def hour_files : Int → Int → Int → Option (List line) := fun yy mm dd =>
  if yy = 1 ∧ mm = 3 ∧ dd = 14 then
    some [.stamp 2001 3 14 23, .sample 1 90 1, .sentinel,
      .stamp 2001 3 14 22, .sample 1 90 1, .sentinel,
      .stamp 2001 3 14 21, .sample 1 90 1, .sentinel]
  else if yy = 1 ∧ mm = 3 ∧ dd = 15 then
    some [.stamp 2001 3 15 0, .sample 1 90 1, .sentinel]
  else none

/-- A station file with the one station 1 at latitude 0, longitude 0, unit
code 1. -/
def one_station : Option (List station_line) := some [⟨1, 0, 0, 0, 1⟩]

section stalled

variable {α : Type} [LinearOrderedField α] [FloorRing α]

/-- Start parameters of a forward trace of one hour with two micro-steps per
hour and per waypoint. -/
def half_hour_param : param α :=
  { (example_param 1 1 2 200 : param α) with IPERH := 2, IPERPOINT := 2 }

/-- A status inside waypoint 1 of the forward trace of `half_hour_param`, after
its first micro-step: the particle has moved from (0,0) to lon = -1.8/6370,
the one station at (1,0,0) is present with wind (1,0) in hourly slot 0 and
absent in hourly slot 1. -/
def stalled_state (M : libm α) : state α :=
  { example_state (half_hour_param : param α) M with
    point := 1
    point_max := 2
    lo := Function.update (fun _ => 0) 1 (-(1.8 / 6370))
    la := fun _ => 0
    distance_per_step := -(1.8 / 6370)
    wind_current := fun k => if k = 0 then ⟨1, 0, 1⟩ else ⟨0, 0, 0⟩ }

end stalled

/-! ## The density program `frequency.c`

The second program of the repository reads the trajectory files written by
the first one, draws every trajectory on a grid and classifies the sums.  Its
macros `rad2deg`, `deg2rad` and its `convert_geo_to_cartesian` are the same
text as in `trajectory.c` and are shared with it; its own `param`, `state`
and `init_values` live in the namespace `Frequency`.  A trajectory file is
modelled by its rows `lon;lat` after the seven header lines, `none` when it
cannot be opened; what the program prints is left out. -/

namespace Frequency

/-- The ways `frequency.c` stops early: `fuel` means the step budget of the
embedding ran out before a C loop ended, the others are an `exit(1)`. -/
inductive failure where
  | invalid_color
  | scale_range
  | cannot_open
  | end_of_file
  | midpoint_range
  | fuel
deriving DecidableEq, Repr

/-- The start parameters of `frequency.c`, the `param[]` table after
`read_env` (numeric entries only). -/
structure param (α : Type) where
  RES : Int
  SCALEMIN : Int
  SCALEMAX : Int
  OFFLO : α
  OFFLA : α
  COLOR : Int
  WEIGHT : Int
  SIZE : Int
  MIDLO : α
  MIDLA : α

/-- Program status of `frequency.c`, `struct state`; `field_grid` is a function
of the cell index, of which the cells below `field_max` are allocated. -/
structure state (α : Type) where
  list_max : Int
  field_max : Int
  x_field : Int
  y_field : Int
  field_grid : Nat → α
  lo_min : α
  la_min : α
  lo_max : α
  la_max : α
  colorclass : Nat → Int

/-- Reading status of one trajectory, `struct trajectory`. -/
structure trajectory (α : Type) where
  x_new : α
  y_new : α
  x_begin : α
  y_begin : α
  x_old : α
  y_old : α
  x_midpoint : α
  y_midpoint : α
  x_plot_min : Int
  y_plot_min : Int
  x_plot_max : Int
  y_plot_max : Int
  plot_size : Int

section density

variable {α : Type} [LinearOrderedField α]

/-- Length of one degree in km, `DEGDISTANCE`. -/
def DEGDISTANCE : α := 111.178

/-- Number of colour classes, `MAXCOLORCLASS`. -/
def MAXCOLORCLASS : Nat := 10

/-- The status after `memset(state, 0, sizeof(struct state))`. -/
def zero_state : state α :=
  ⟨0, 0, 0, 0, fun _ => 0, 0, 0, 0, 0, fun _ => 0⟩

/-- Is the grid element `(x, y)` inside the plot window, `check_plot_area`. -/
def check_plot_area (x y : α) (current : trajectory α) : Prop :=
  x ≥ (current.x_plot_min : α) ∧ x ≤ (current.x_plot_max : α) ∧
    y ≥ (current.y_plot_min : α) ∧ y ≤ (current.y_plot_max : α)

instance (x y : α) (current : trajectory α) : Decidable (check_plot_area x y current) := by
  unfold check_plot_area; infer_instance

/-- Angle in degrees between two unit vectors, `distance_in_deg`. -/
def distance_in_deg (M : libm α) (X1 X2 : vec3 α) : α :=
  rad2deg M (M.acos (X1.x0 * X2.x0 + X1.x1 * X2.x1 + X1.x2 * X2.x2))

/-- Weight of the current segment, `get_weight`. -/
def get_weight (P : param α) (M : libm α) (current : trajectory α) : α :=
  let X1 := convert_geo_to_cartesian M (deg2rad M current.x_midpoint)
    (deg2rad M current.y_midpoint)
  let X2 := convert_geo_to_cartesian M (deg2rad M current.x_begin)
    (deg2rad M current.y_begin)
  let distance := distance_in_deg M X1 X2
  if P.WEIGHT = 1 then distance
  else if P.WEIGHT = 2 then M.sqrt distance
  else 1

/-- The colour map, `init_colorclasses`. -/
def init_colorclasses (P : param α) (st : state α) : Except failure (state α) :=
  if P.COLOR = 0 then
    .ok { st with
      colorclass := (List.range MAXCOLORCLASS).foldl
        (fun c i => Function.update c i (i : Int)) st.colorclass }
  else if P.COLOR > 0 ∧ P.COLOR ≤ (MAXCOLORCLASS : Int) then
    .ok { st with
      colorclass := (List.range MAXCOLORCLASS).foldl
        (fun c i => Function.update c i (P.COLOR - 1)) st.colorclass }
  else .error .invalid_color

/-- Zero the first `field_max` cells, `init_field`. -/
def init_field (field_grid : Nat → α) (field_max : Int) : Nat → α :=
  (List.range field_max.toNat).foldl (fun g i => Function.update g i 0) field_grid

/-- The inner loop of `count_squares`, `while (x <= lo_max) { x = x + dx; i++; }`,
with `n` passes allowed; returns `i`. -/
def count_row (lo_max dx : α) : Nat → α → Int → Except failure Int
  | 0, x, i => if x ≤ lo_max then .error .fuel else .ok i
  | n + 1, x, i => if x ≤ lo_max then count_row lo_max dx n (x + dx) (i + 1) else .ok i

/-- The outer loop of `count_squares`, `while (y <= la_max)`, with `n` passes
allowed; `fuel` is the budget of every inner loop. -/
def count_rows (P : param α) (M : libm α) (fuel : Nat) :
    Nat → α → state α → Except failure (state α)
  | 0, y, st => if y ≤ st.la_max then .error .fuel else .ok st
  | n + 1, y, st =>
    if y ≤ st.la_max then
      let dx := (P.RES : α) / (DEGDISTANCE * M.cos (deg2rad M y))
      match count_row st.lo_max dx fuel st.lo_min 0 with
      | .error e => .error e
      | .ok i =>
        let st := if i > st.x_field then { st with x_field := i } else st
        count_rows P M fuel n (y + (P.RES : α) / DEGDISTANCE)
          { st with y_field := st.y_field + 1 }
    else .ok st

/-- Number of grid elements in both directions, `count_squares`. -/
def count_squares (P : param α) (M : libm α) (fuel : Nat) (st : state α) :
    Except failure (state α) :=
  count_rows P M fuel fuel st.la_min { st with x_field := 0, y_field := 0 }

/-- What `file_la_lo_min_max` does with one row `lo;la`. -/
def row_min_max (st : state α) (r : α × α) : state α :=
  let st := if r.1 < st.lo_min then { st with lo_min := r.1 } else st
  let st := if r.1 > st.lo_max then { st with lo_max := r.1 } else st
  let st := if r.2 < st.la_min then { st with la_min := r.2 } else st
  if r.2 > st.la_max then { st with la_max := r.2 } else st

/-- Extend the bounding box by the rows of one trajectory file,
`file_la_lo_min_max`. -/
def file_la_lo_min_max (file : Option (List (α × α))) (st : state α) :
    Except failure (state α) :=
  match file with
  | none => .error .cannot_open
  | some rows => .ok (rows.foldl row_min_max st)

/-- Bounding box of all waypoints in degrees, `get_lo_la_min_max`; `files` are
the files of the input directory in the order of the directory scan. -/
def get_lo_la_min_max (M : libm α) (files : List (Option (List (α × α)))) (st : state α) :
    Except failure (state α) :=
  let st := { st with lo_min := 2, la_min := 2, lo_max := -2, la_max := -2 }
  match files.foldlM (fun s f => file_la_lo_min_max f s) st with
  | .error e => .error e
  | .ok st =>
    .ok { st with
      lo_min := rad2deg M st.lo_min
      la_min := rad2deg M st.la_min
      lo_max := rad2deg M st.lo_max
      la_max := rad2deg M st.la_max }

/-- Largest cell value, `get_w_max`. -/
def get_w_max (st : state α) : α :=
  (List.range st.field_max.toNat).foldl
    (fun w_max i => if w_max < st.field_grid i then st.field_grid i else w_max) 0

/-- The status part of `plot_frequency`: the scale check and the loop that
replaces every cell by its class value. -/
def plot_frequency (P : param α) (st : state α) : Except failure (state α) :=
  let w_max := get_w_max st
  if P.SCALEMIN < 0 ∨ P.SCALEMIN ≥ P.SCALEMAX ∨ P.SCALEMAX > 100 then .error .scale_range
  else
    let min := w_max * (P.SCALEMIN : α) / 100
    let max := w_max * (P.SCALEMAX : α) / 100
    let dw := (max - min) / 10
    .ok { st with
      field_grid := (List.range st.field_max.toNat).foldl
        (fun g i =>
          let v := (g i - min) / dw
          Function.update g i (if v > 10 then 10 else v))
        st.field_grid }

end density

section raster

variable {α : Type} [LinearOrderedField α] [FloorRing α]

/-- The class `sort_and_plot` reads from a cell, `(int)state->field_grid[i]`. -/
def cell_class (st : state α) (i : Nat) : Int := c_int (st.field_grid i)

/-- Everything `init_values` of `frequency.c` does to the status before it
opens the output file. -/
def init_values (P : param α) (M : libm α) (files : List (Option (List (α × α))))
    (fuel : Nat) : Except failure (state α) := do
  let st ← init_colorclasses P zero_state
  let st := { st with list_max := files.length }
  let st ← get_lo_la_min_max M files st
  let st ← count_squares P M fuel st
  let st := { st with field_max := st.x_field * st.y_field }
  let st := { st with field_grid := fun _ => 0 }
  pure { st with field_grid := init_field st.field_grid st.field_max }

/-- The marking of one grid element in `plot_to_next_point`: inside the plot
window, the cell `(int)y * x_field + (int)x` gets the weight if it is zero. -/
def plot_cell (st : state α) (current : trajectory α) (w x y : α) (plot_field : Nat → α) :
    Nat → α :=
  if check_plot_area x y current then
    let i := (c_int y * st.x_field + c_int x).toNat
    if plot_field i = 0 then Function.update plot_field i (plot_field i + w)
    else plot_field
  else plot_field

/-- The two walking loops of `plot_to_next_point`, `while (v < bound) { body;
v += step; }`, with `n` passes allowed. -/
def walk (bound step : α) (body : α → (Nat → α) → (Nat → α)) :
    Nat → α → (Nat → α) → Except failure (Nat → α)
  | 0, v, plot_field => if v < bound then .error .fuel else .ok plot_field
  | n + 1, v, plot_field =>
    if v < bound then walk bound step body n (v + step) (body v plot_field)
    else .ok plot_field

/-- Draw the segment from `(x_old, y_old)` to `(x_new, y_new)` into the mask,
`plot_to_next_point`. -/
def plot_to_next_point (P : param α) (M : libm α) (fuel : Nat) (plot_field : Nat → α)
    (current : trajectory α) (st : state α) : Except failure (Nat → α) :=
  let w := get_weight P M current
  let dy := (P.RES : α) / DEGDISTANCE
  let dx := (P.RES : α) / (DEGDISTANCE * M.cos (deg2rad M current.y_old))
  let x1 := (current.x_old - st.lo_min) / dx
  let y1 := (current.y_old - st.la_min) / dy
  let dx := (P.RES : α) / (DEGDISTANCE * M.cos (deg2rad M current.y_new))
  let x2 := (current.x_new - st.lo_min) / dx
  let y2 := (current.y_new - st.la_min) / dy
  if y1 = y2 then
    let p := if x2 < x1 then (x2, y2, x1, y1) else (x1, y1, x2, y2)
    walk p.2.2.1 dx (fun x f => plot_cell st current w x p.2.1 f) fuel p.1 plot_field
  else
    let p := if y2 < y1 then (x2, y2, x1, y1) else (x1, y1, x2, y2)
    let m := (p.2.2.1 - p.1) / (p.2.2.2 - p.2.1)
    let n := p.1 - m * p.2.1
    walk p.2.2.2 (dy / (P.RES : α)) (fun y f => plot_cell st current w (m * y + n) y f)
      fuel p.2.1 plot_field

/-- What `read_trajectory` does at the end of one row `lon;lat`. -/
def read_trajectory_row (P : param α) (M : libm α) (fuel : Nat) (st : state α)
    (x : trajectory α × (Nat → α)) (row : α × α) :
    Except failure (trajectory α × (Nat → α)) :=
  let current := { x.1 with x_new := rad2deg M row.1, y_new := rad2deg M row.2 }
  let current := { current with
    x_midpoint := (current.x_old + current.x_new) / 2
    y_midpoint := (current.y_old + current.y_new) / 2 }
  match plot_to_next_point P M fuel x.2 current st with
  | .error e => .error e
  | .ok plot_field =>
    .ok ({ current with x_old := current.x_new, y_old := current.y_new }, plot_field)

/-- Read the rows after the start point and draw them, `read_trajectory`. -/
def read_trajectory (P : param α) (M : libm α) (fuel : Nat) (st : state α)
    (current : trajectory α) (plot_field : Nat → α) (rows : List (α × α)) :
    Except failure (trajectory α × (Nat → α)) :=
  rows.foldlM (read_trajectory_row P M fuel st) (current, plot_field)

/-- The body of the file loop of `plot_trajectories` for one trajectory file:
start point, zeroed mask, rows; returns the reading status, the mask and the
status with the mask added to the grid. -/
def plot_trajectory (P : param α) (M : libm α) (fuel : Nat) (st : state α)
    (current : trajectory α) (plot_field : Nat → α) (file : Option (List (α × α))) :
    Except failure (trajectory α × (Nat → α) × state α) :=
  match file with
  | none => .error .cannot_open
  | some [] => .error .end_of_file
  | some (start :: rows) =>
    let current := { current with x_begin := rad2deg M start.1, y_begin := rad2deg M start.2 }
    let current := { current with x_old := current.x_begin, y_old := current.y_begin }
    let current := { current with x_new := 0, y_new := 0, x_midpoint := 0, y_midpoint := 0 }
    let plot_field := init_field plot_field st.field_max
    match read_trajectory P M fuel st current plot_field rows with
    | .error e => .error e
    | .ok r =>
      .ok (r.1, r.2,
        { st with
          field_grid := (List.range st.field_max.toNat).foldl
            (fun g j => Function.update g j (g j + r.2 j)) st.field_grid })

end raster

end Frequency

namespace Frequency

section freq_examples

variable {α : Type} [LinearOrderedField α]

/-- The start parameters when no environment variable is set: the defaults of
the `param[]` table. -/
def default_param : param α :=
  { RES := 25, SCALEMIN := 0, SCALEMAX := 100, OFFLO := 0, OFFLA := 0, COLOR := 0,
    WEIGHT := 0, SIZE := 0, MIDLO := 13.4167, MIDLA := 52.5167 }

/-- A status with a grid of one row of two cells holding the sums 1 and 3. -/
def two_cell_state : state α :=
  { (zero_state : state α) with
    field_max := 2, x_field := 2, y_field := 1
    field_grid := fun i => if i = 0 then 1 else if i = 1 then 3 else 0 }

end freq_examples

end Frequency

namespace Frequency

section raster_spec

variable {α : Type} [LinearOrderedField α]

/-- The reading status at each call of `plot_to_next_point` while
`read_trajectory` reads `rows` from the reading status `current`: one entry
per segment of the trajectory, with the segment's end points and midpoint. -/
def segments (M : libm α) (current : trajectory α) : List (α × α) → List (trajectory α)
  | [] => []
  | row :: rows =>
    let c := { current with x_new := rad2deg M row.1, y_new := rad2deg M row.2 }
    let c := { c with
      x_midpoint := (c.x_old + c.x_new) / 2
      y_midpoint := (c.y_old + c.y_new) / 2 }
    c :: segments M { c with x_old := c.x_new, y_old := c.y_new } rows

/-- Start parameters with a mesh of 222 km and weighting by the distance to the
start point. -/
def coarse_param : param α :=
  { (default_param : param α) with RES := 222, WEIGHT := 1 }

/-- A status with a grid of one row of four cells over the box lon 0..6,
lat 0..0 (degrees), as `count_squares` sizes it for `coarse_param`. -/
def strip_state : state α :=
  { (zero_state : state α) with
    field_max := 4, x_field := 4, y_field := 1, lo_min := 0, la_min := 0, lo_max := 6,
    la_max := 0 }

/-- The reading status at the start of a trajectory that begins at lon 0,
lat 0, with the whole grid of `strip_state` as plot window. -/
def strip_start : trajectory α :=
  { x_new := 0, y_new := 0, x_begin := 0, y_begin := 0, x_old := 0, y_old := 0,
    x_midpoint := 0, y_midpoint := 0, x_plot_min := 0, y_plot_min := 0, x_plot_max := 4,
    y_plot_max := 1, plot_size := 0 }

end raster_spec

end Frequency

namespace Frequency

section raster_cells

variable {α : Type} [LinearOrderedField α]

/-- Column coordinate of the point `(lon, lat)` (degrees) in units of grid
elements, the `x1` and `x2` of `plot_to_next_point`. -/
def cell_x (P : param α) (M : libm α) (st : state α) (lon lat : α) : α :=
  (lon - st.lo_min) / ((P.RES : α) / (DEGDISTANCE * M.cos (deg2rad M lat)))

/-- Row coordinate of the latitude `lat` (degrees) in units of grid elements,
the `y1` and `y2` of `plot_to_next_point`. -/
def cell_y (P : param α) (st : state α) (lat : α) : α :=
  (lat - st.la_min) / ((P.RES : α) / DEGDISTANCE)

end raster_cells

end Frequency

namespace Frequency

/-- Conversion of an integer value to `unsigned` (32 bit): the value modulo
2^32. -/
def to_unsigned (n : Int) : Int := n % 4294967296

/-- Conversion of an integer value to `int` (32 bit, two's complement): the
value modulo 2^32 in the range from -2^31 to 2^31 - 1. -/
def to_int (n : Int) : Int := (n + 2147483648) % 4294967296 - 2147483648

section plot_area

variable {α : Type} [LinearOrderedField α] [FloorRing α]

/-- The macro `rad2idx(f, dy)`, `(unsigned)(f / dy)`; the quotient is taken to
be in the range of `unsigned`. -/
def rad2idx (f dy : α) : Int := to_unsigned (c_int (f / dy))

/-- The plot window, `init_plot_area`.  `col` and `row` are `unsigned`, and so
are the sums `col - plot_size / 2` before they are stored in the `int` fields
of the reading status. -/
def init_plot_area (P : param α) (M : libm α) (st : state α) (current : trajectory α) :
    Except failure (trajectory α) :=
  if current.plot_size > 0 then
    if P.MIDLA < st.la_min ∨ P.MIDLA > st.la_max ∨ P.MIDLO < st.lo_min ∨
        P.MIDLO > st.lo_max then .error .midpoint_range
    else
      let plot_size := if Int.tmod current.plot_size 2 = 1 then current.plot_size + 1
        else current.plot_size
      let dy := (P.RES : α) / DEGDISTANCE
      let row := if P.MIDLA > st.la_min then rad2idx (P.MIDLA - st.la_min) dy else 0
      let y := if P.MIDLA > st.la_min then st.la_min + (row : α) * dy else st.la_min
      let dx := (P.RES : α) / (DEGDISTANCE * M.cos (deg2rad M y))
      let col := if P.MIDLO > st.lo_min then rad2idx (P.MIDLO - st.lo_min) dx else 0
      let col := to_unsigned (col - 1)
      let row := to_unsigned (row - 1)
      let half := to_unsigned (Int.tdiv plot_size 2)
      let x_plot_min := to_int (to_unsigned (col - half))
      let x_plot_max := to_int (to_unsigned (col + half))
      let y_plot_min := to_int (to_unsigned (row - half))
      let y_plot_max := to_int (to_unsigned (row + half))
      .ok { current with
        plot_size := plot_size
        x_plot_min := if x_plot_min < 0 then 0 else x_plot_min
        x_plot_max := if x_plot_max > st.x_field then st.x_field else x_plot_max
        y_plot_min := if y_plot_min < 0 then 0 else y_plot_min
        y_plot_max := if y_plot_max > st.y_field then st.y_field else y_plot_max }
  else
    .ok { current with
      x_plot_min := 0, x_plot_max := st.x_field, y_plot_min := 0, y_plot_max := st.y_field }

/-- The file loop of `plot_trajectories`: every trajectory file is drawn on
the mask, which starts as the zeroed `calloc` block, and the mask is added to
the grid. -/
def plot_trajectories (P : param α) (M : libm α) (fuel : Nat) (st : state α)
    (current : trajectory α) (files : List (Option (List (α × α)))) :
    Except failure (trajectory α × (Nat → α) × state α) :=
  files.foldlM (fun x file => plot_trajectory P M fuel x.2.2 x.1 x.2.1 file)
    (current, fun _ => 0, st)

/-- The masks of the trajectory files in the order `plot_trajectories` draws
them, up to the first file that fails. -/
def trajectory_masks (P : param α) (M : libm α) (fuel : Nat) :
    state α → trajectory α → (Nat → α) → List (Option (List (α × α))) → List (Nat → α)
  | _, _, _, [] => []
  | st, current, plot_field, file :: files =>
    match plot_trajectory P M fuel st current plot_field file with
    | .error _ => []
    | .ok r => r.2.1 :: trajectory_masks P M fuel r.2.2 r.1 r.2.1 files

/-- The cells `sort_and_plot` hands to `plot_element` for the class `k`, by
their indices and in the order of the loop: those with `k == (int)field_grid[i]`. -/
def sort_and_plot (st : state α) (k : Int) : List Nat :=
  (List.range st.field_max.toNat).filter (fun i => decide (k = c_int (st.field_grid i)))

/-- The class loop of `plot_frequency`, `for (k = 0; k < 10; k++)
sort_and_plot(state, k + 1, ...)`: the cells of the classes 1 to 10. -/
def plot_classes (st : state α) : List (List Nat) :=
  (List.range 10).map (fun (k : Nat) => sort_and_plot st ((k : Int) + 1))

end plot_area

section plot_examples

variable {α : Type} [LinearOrderedField α]

/-- A status with a grid of one row of two cells holding the sums 1 and 20. -/
def sparse_state : state α :=
  { (zero_state : state α) with
    field_max := 2, x_field := 2, y_field := 1
    field_grid := fun i => if i = 0 then 1 else if i = 1 then 20 else 0 }

/-- Start parameters with a plot window of 2 x 2 elements around lon 1, lat 0. -/
def window_param : param α :=
  { (default_param : param α) with SIZE := 2, MIDLO := 1, MIDLA := 0 }

/-- A status with the box lon 0..2, lat 0..0 and the grid of one row of nine
cells that `count_squares` sizes for it at a mesh of 25 km. -/
def window_state : state α :=
  { (zero_state : state α) with
    field_max := 9, x_field := 9, y_field := 1, lo_min := 0, la_min := 0, lo_max := 2,
    la_max := 0 }

end plot_examples

end Frequency

/-- The conversions of `fprintf` that `print_output_file` uses: `int w n` is
the text of `%wi` (`w = 0` for `%i`) and `float w p x` the text of `%w.pf`. -/
structure printf (α : Type) where
  int : Nat → Int → String
  float : Nat → Nat → α → String

section output

variable {α : Type}

/-- The text `print_output_file` writes before the waypoints, one line of the
definition per `fprintf`. -/
def output_header (F : printf α) (P : param α) (ZONENAME : String) (st : state α) : String :=
  ("YYYY=" ++ F.int 4 P.YYYY ++ " | MM=" ++ F.int 2 P.MM ++ " | DD=" ++ F.int 2 P.DD ++
    " | HH=" ++ F.int 2 P.HH ++ " | ") ++
  ("ZONEDIFF=" ++ F.int 0 P.ZONEDIFF ++ " | ZONENAME=" ++ ZONENAME ++ "\n") ++
  ("LO=" ++ F.float 8 4 P.LO ++ " | LA=" ++ F.float 8 4 P.LA ++ " | IPERH=" ++
    F.int 0 P.IPERH ++ " | IPERPOINT=" ++ F.int 0 P.IPERPOINT ++ " | ") ++
  ("TRACE=" ++ F.int 0 P.TRACE ++ "\n") ++
  ("MINR=" ++ F.int 0 P.MINR ++ " | MAXR=" ++ F.int 0 P.MAXR ++ " | STDDEVIATION=" ++
    F.float 6 3 P.STDDEVIATION ++ " | RES=" ++ F.int 0 P.RES ++ " | ") ++
  ("DATAUNIT=" ++ F.int 0 P.DATAUNIT ++ "\n") ++
  ("SPEED=" ++ F.float 4 2 P.SPEED ++ " | ROT=" ++ F.float 5 2 P.ROT ++ "\n\n") ++
  ("Trajektorienpunkte: " ++ F.int 0 st.point ++ "\n\n")

/-- The line of one waypoint, `"%11.10f;%11.10f\n"`. -/
def output_line (F : printf α) (lo la : α) : String :=
  F.float 11 10 lo ++ ";" ++ F.float 11 10 la ++ "\n"

/-- The lines of the waypoints `0 .. point - 1`. -/
def output_lines (F : printf α) (st : state α) : String :=
  (List.range st.point.toNat).foldl (fun s j => s ++ output_line F (st.lo j) (st.la j)) ""

/-- The text of the file that `print_output_file` writes, character by
character. -/
def print_output_text (F : printf α) (P : param α) (ZONENAME : String) (st : state α) :
    String :=
  (List.range st.point.toNat).foldl (fun s j => s ++ output_line F (st.lo j) (st.la j))
    (output_header F P ZONENAME st)

end output

/-- A stand-in for the conversions of `fprintf`: decimal integers without
padding, and the integer part of a rational followed by `.0`. -/
def plain_printf : printf ℚ :=
  ⟨fun _ n => toString n, fun _ _ x => toString ⌊x⌋ ++ ".0"⟩

namespace Frequency

/-- Number of header lines of a trajectory file, `HEADERLINES`. -/
def HEADERLINES : Nat := 7

/-- Read characters up to and including the next newline; `none` at the end
of the file. -/
def skip_line : List Char → Option (List Char)
  | [] => none
  | c :: cs => if c = '\n' then some cs else skip_line cs

/-- Skip the header lines of a trajectory file, `read_header`; the result is
the rest of the file. -/
def read_header : Nat → List Char → Except failure (List Char)
  | 0, cs => .ok cs
  | n + 1, cs =>
    match skip_line cs with
    | none => .error .end_of_file
    | some rest => read_header n rest

/-- The header loop of `file_la_lo_min_max`, `while ((ch = fgetc(fh)) != 10);`
repeated `n` times; `none` when a loop meets the end of the file, where it
does not end. -/
def skip_header : Nat → List Char → Option (List Char)
  | 0, cs => some cs
  | n + 1, cs =>
    match skip_line cs with
    | none => none
    | some rest => skip_header n rest

end Frequency

/-! ### Specification-side hour count -/

/-- Days of the proleptic Gregorian calendar before the first day of the year
`Y`, counted from the first day of the year 0: 365 per year and one more for
every leap year before `Y`. -/
def days_before_year (Y : Int) : Int :=
  365 * Y + ((Y - 1) / 4 - (Y - 1) / 100 + (Y - 1) / 400)

/-- Days of the year `Y` before the first day of the month `m`: the sum of the
Gregorian lengths of the months `1 .. m - 1`. -/
def days_before_month (Y m : Int) : Int :=
  ((List.range (m - 1).toNat).map (fun i => gregorian_days Y ((i : Int) + 1))).sum

/-- The proleptic Gregorian hour count of a calendar point: the number of
hours from 0000-01-01 0h to the point. -/
def hour_count (t : date) : Int :=
  24 * (days_before_year t.year + days_before_month t.year t.month + (t.day - 1)) + t.hour

section day_files

variable {α : Type} [LinearOrderedField α]

/-- The array `time` and the index `j` when the day loop of `read_wind_data`
has ended: `j` is the largest index written, and the entries that were never
written hold the zero date `calloc` left there. -/
def day_array (P : param α) (st : state α) : (Nat → date) × Nat :=
  let res := if P.RES = 0 then RESMAX else P.RES
  let k := |P.TRACE| + 2 * res
  let t0 := (if P.TRACE < 0 then time_step_forward else time_step_backward)^[res.toNat] st.time
  let time : Nat → date := Function.update (Function.update (fun _ => ⟨0, 0, 0, 0⟩) 0 t0) 1 t0
  (List.range k.toNat).foldl (fun tj _ => day_step P tj) (time, 1)

end day_files

/-- Specification side: the calendar day (year, month, day) of a calendar
point. -/
def calendar_day (t : date) : Int × Int × Int := (t.year, t.month, t.day)

/-- Specification side: the distinct entries of a list of days, each once, in
the order in which they are first met. -/
def days_met (l : List (Int × Int × Int)) : List (Int × Int × Int) :=
  l.foldl (fun acc d => if d ∈ acc then acc else acc ++ [d]) []

/-- Specification side: the calendar points met when walking `k` hours from
`t0`, the start included. -/
def hour_walk (step : date → date) (t0 : date) (k : Nat) : List date :=
  (List.range (k + 1)).map (fun i => step^[i] t0)

/-- Specification side: the day files of a run.  With `r = RES` (24 when
`RES = 0`), walk hour by hour in trace direction from the start shifted `r`
hours against trace direction over `|TRACE| + 2r` hours and list the distinct
calendar days met. -/
def spec_day_files {α : Type} (P : param α) (st : state α) : List (Int × Int × Int) :=
  let r := if P.RES = 0 then 24 else P.RES
  let against := if P.TRACE < 0 then time_step_forward else time_step_backward
  let along := if P.TRACE < 0 then time_step_backward else time_step_forward
  days_met ((hour_walk along (against^[r.toNat] st.time) (|P.TRACE| + 2 * r).toNat).map
    calendar_day)

/-- Number of the calendar day in the proleptic Gregorian day count. -/
def day_number (d : Int × Int × Int) : Int :=
  days_before_year d.1 + days_before_month d.1 d.2.1 + (d.2.2 - 1)

/-- Invariant of the day loop of `read_wind_data` after `i` passes, for the
hourly step `step` of the trace direction with sign `s`. -/
structure day_inv (step : date → date) (s : Int) (t0 : date) (i : Nat)
    (tj : (Nat → date) × Nat) : Prop where
  pos : 1 ≤ tj.2
  walker : tj.1 tj.2 = step^[i] t0
  valid : valid_date (tj.1 tj.2)
  current : calendar_day (tj.1 (tj.2 - 1)) = calendar_day (tj.1 tj.2)
  days : (List.range tj.2).map (fun n => calendar_day (tj.1 n)) =
    days_met ((hour_walk step t0 i).map calendar_day)
  order : ∀ n, n < tj.2 →
    s * day_number (calendar_day (tj.1 n)) ≤ s * day_number (calendar_day (tj.1 tj.2))
  index : (tj.2 : Int) - 1 =
    s * (day_number (calendar_day (tj.1 tj.2)) - day_number (calendar_day t0))
  hours : hour_count (tj.1 tj.2) = hour_count t0 + s * i
  rest : ∀ n, tj.2 < n → tj.1 n = ⟨0, 0, 0, 0⟩

section slot_spec

variable {α : Type}

/-- Specification side: the data slots of the status hold the samples of the
snapshots `A` (slot 0) and `B` (slot 1), and `data_diff` is the number of
hours from the time of `A` to the time of `B` in the hour count, so `A` is the
earlier snapshot. -/
def slots_oriented (h : heap α) (st : state α) (A B : Nat) : Prop :=
  (∃ wa wb, (h.node A).wind = some wa ∧ (h.node B).wind = some wb ∧
    ∀ i, i < st.station_max →
      st.wind_data i = wa i ∧ st.wind_data (st.station_max + i) = wb i) ∧
  0 ≤ st.data_diff ∧
  hour_count (h.node B).time = hour_count (h.node A).time + st.data_diff

end slot_spec

/-! ## Double arithmetic

The definitions above read `double` as an ordered field with exact
operations.  The definitions of this part follow the same source statements
with every operation rounded to binary64 as a build for x86-64 does it (no
extended precision, no fused multiply-add). -/

/-- Rounding of a rational to the nearest integer, ties to the even one. -/
def round_even (n : ℚ) : ℤ :=
  if n - (⌊n⌋ : ℚ) < 1 / 2 then ⌊n⌋
  else if 1 / 2 < n - (⌊n⌋ : ℚ) then ⌊n⌋ + 1
  else if ⌊n⌋ % 2 = 0 then ⌊n⌋ else ⌊n⌋ + 1

/-- Rounding of a rational to the nearest `double` (IEEE 754 binary64, round to
nearest, ties to even): 53 significant bits.  The exponent is not bounded, so
overflow and the subnormal numbers are left out. -/
def fl (x : ℚ) : ℚ :=
  if x = 0 then 0
  else (round_even (x / (2 : ℚ) ^ (Int.log 2 |x| - 52)) : ℚ) * (2 : ℚ) ^ (Int.log 2 |x| - 52)

/-- A value of the C type `double`: a finite number, an infinity or NaN.  The
two zeros are not told apart (a zero divisor counts as +0). -/
inductive ieee where
  | fin (q : ℚ)
  | pinf
  | ninf
  | nan
deriving DecidableEq

namespace ieee

/-- Sign change, the unary `-`. -/
def neg : ieee → ieee
  | fin a => fin (-a)
  | pinf => ninf
  | ninf => pinf
  | nan => nan

/-- The infinity with the sign of `a` times the sign of `b` (`b = 0` counts as
positive). -/
def signed_inf (a b : ℚ) : ieee :=
  if (0 ≤ a ∧ 0 ≤ b) ∨ (a < 0 ∧ b < 0) then pinf else ninf

/-- Addition of two `double`. -/
def add : ieee → ieee → ieee
  | fin a, fin b => fin (fl (a + b))
  | fin _, pinf => pinf
  | fin _, ninf => ninf
  | pinf, fin _ => pinf
  | ninf, fin _ => ninf
  | pinf, pinf => pinf
  | ninf, ninf => ninf
  | _, _ => nan

/-- Subtraction of two `double`. -/
def sub : ieee → ieee → ieee
  | fin a, fin b => fin (fl (a - b))
  | fin _, pinf => ninf
  | fin _, ninf => pinf
  | pinf, fin _ => pinf
  | ninf, fin _ => ninf
  | pinf, ninf => pinf
  | ninf, pinf => ninf
  | _, _ => nan

/-- Multiplication of two `double`. -/
def mul : ieee → ieee → ieee
  | fin a, fin b => fin (fl (a * b))
  | fin a, pinf => if a = 0 then nan else signed_inf a 1
  | fin a, ninf => if a = 0 then nan else signed_inf a (-1)
  | pinf, fin b => if b = 0 then nan else signed_inf 1 b
  | ninf, fin b => if b = 0 then nan else signed_inf (-1) b
  | pinf, pinf => pinf
  | ninf, ninf => pinf
  | pinf, ninf => ninf
  | ninf, pinf => ninf
  | _, _ => nan

/-- Division of two `double`: a finite number other than zero divided by zero
is an infinity, and 0/0 and inf/inf are NaN. -/
def div : ieee → ieee → ieee
  | fin a, fin b => if b = 0 then (if a = 0 then nan else signed_inf a b) else fin (fl (a / b))
  | fin _, pinf => fin 0
  | fin _, ninf => fin 0
  | pinf, fin b => signed_inf 1 b
  | ninf, fin b => signed_inf (-1) b
  | _, _ => nan

/-- The comparison `a < b` of two `double`: false when one of them is NaN. -/
def lt : ieee → ieee → Prop
  | fin a, fin b => a < b
  | fin _, pinf => True
  | ninf, fin _ => True
  | ninf, pinf => True
  | _, _ => False

/-- The comparison `a <= b` of two `double`: false when one of them is NaN. -/
def le : ieee → ieee → Prop
  | fin a, fin b => a ≤ b
  | fin _, pinf => True
  | ninf, fin _ => True
  | ninf, pinf => True
  | pinf, pinf => True
  | ninf, ninf => True
  | _, _ => False

/-- The comparison `a == b` of two `double`: false when one of them is NaN. -/
def eq : ieee → ieee → Prop
  | fin a, fin b => a = b
  | pinf, pinf => True
  | ninf, ninf => True
  | _, _ => False

/-- Absolute value, `fabs`. -/
def fabs : ieee → ieee
  | fin a => fin (if a < 0 then -a else a)
  | pinf => pinf
  | ninf => pinf
  | nan => nan

/-- The conversion `(int)x` of a finite `double`: truncation toward zero (a
value outside the range of `int` is not reduced).  For an infinity and NaN the
conversion is undefined in C; the value here is the one the x86 conversion
instruction gives. -/
def to_int : ieee → Int
  | fin a => if 0 ≤ a then ⌊a⌋ else ⌈a⌉
  | _ => -2147483648

/-- The conversion of an `int` to `double`. -/
def of_int (n : Int) : ieee := fin (n : ℚ)

/-- A decimal constant of the source, rounded to `double`. -/
def lit (q : ℚ) : ieee := fin (fl q)

end ieee

instance : Neg ieee := ⟨ieee.neg⟩
instance : Add ieee := ⟨ieee.add⟩
instance : Sub ieee := ⟨ieee.sub⟩
instance : Mul ieee := ⟨ieee.mul⟩
instance : Div ieee := ⟨ieee.div⟩
instance : LT ieee := ⟨ieee.lt⟩
instance : LE ieee := ⟨ieee.le⟩

instance (a b : ieee) : Decidable (a < b) := by
  cases a <;> cases b <;> simp only [LT.lt, ieee.lt] <;> infer_instance

instance (a b : ieee) : Decidable (a ≤ b) := by
  cases a <;> cases b <;> simp only [LE.le, ieee.le] <;> infer_instance

instance (a b : ieee) : Decidable (ieee.eq a b) := by
  cases a <;> cases b <;> simp only [ieee.eq] <;> infer_instance

/-- The macro `rad2deg` in double arithmetic. -/
def rad2deg_double (M : libm ieee) (f : ieee) : ieee := f * ieee.fin 180 / M.pi

/-- The macro `deg2rad` in double arithmetic. -/
def deg2rad_double (M : libm ieee) (f : ieee) : ieee := f * M.pi / ieee.fin 180

/-- The value `normalize_coords` computes in double arithmetic from an angle
`x` in degrees in its steps for the range -180..180. -/
def wrap_degrees_double (x : ieee) : ieee :=
  let lo := (x - ieee.of_int (Int.tdiv (ieee.to_int x) 360 * 360)) / ieee.fin 180
  if ieee.fabs lo > ieee.fin 1 then
    (ieee.of_int (ieee.to_int lo * -1) - ((lo - ieee.of_int (ieee.to_int lo)) * ieee.fin (-1))) *
      ieee.fin 180
  else lo * ieee.fin 180

/-- The value `normalize_coords` computes in double arithmetic from an angle
`x` in degrees in its steps for the range -90..90. -/
def fold_degrees_double (x : ieee) : ieee :=
  let la := (x - ieee.of_int (Int.tdiv (ieee.to_int x) 180 * 180)) / ieee.fin 90
  if ieee.fabs la > ieee.fin 1 then
    ((ieee.of_int (ieee.to_int la * -1) - ((la - ieee.of_int (ieee.to_int la)) * ieee.fin (-1))) *
      ieee.fin 90) * ieee.fin (-1)
  else la * ieee.fin 90

/-- Bring the current waypoint into the geographic range, `normalize_coords`,
in double arithmetic. -/
def normalize_coords_double (M : libm ieee) (st : state ieee) : state ieee :=
  let lo := rad2deg_double M (st.lo st.point.toNat)
  let la := rad2deg_double M (st.la st.point.toNat)
  let lo := (lo - ieee.of_int (Int.tdiv (ieee.to_int lo) 360 * 360)) / ieee.fin 180
  let lo := if ieee.fabs lo > ieee.fin 1 then
      (ieee.of_int (ieee.to_int lo * -1) - ((lo - ieee.of_int (ieee.to_int lo)) * ieee.fin (-1))) *
        ieee.fin 180
    else lo * ieee.fin 180
  let la := (la - ieee.of_int (Int.tdiv (ieee.to_int la) 360 * 360)) / ieee.fin 180
  let la := if ieee.fabs la > ieee.fin 1 then
      (ieee.of_int (ieee.to_int la * -1) - ((la - ieee.of_int (ieee.to_int la)) * ieee.fin (-1))) *
        ieee.fin 180
    else la * ieee.fin 180
  let la := (la - ieee.of_int (Int.tdiv (ieee.to_int la) 180 * 180)) / ieee.fin 90
  let la := if ieee.fabs la > ieee.fin 1 then
      ((ieee.of_int (ieee.to_int la * -1) - ((la - ieee.of_int (ieee.to_int la)) * ieee.fin (-1))) *
        ieee.fin 90) * ieee.fin (-1)
    else la * ieee.fin 90
  { st with lo := Function.update st.lo st.point.toNat (deg2rad_double M lo)
            la := Function.update st.la st.point.toNat (deg2rad_double M la) }

/-- The constant `M_PI` of `math.h`: the `double` nearest to pi. -/
def M_PI : ℚ := 884279719003555 / 281474976710656

namespace Frequency

/-- Largest cell value, `get_w_max`, in double arithmetic. -/
def get_w_max_double (st : state ieee) : ieee :=
  (List.range st.field_max.toNat).foldl
    (fun w_max i => if w_max < st.field_grid i then st.field_grid i else w_max) (ieee.fin 0)

/-- The status part of `plot_frequency` in double arithmetic: the scale check
and the loop that replaces every cell by its class value. -/
def plot_frequency_double (P : param ieee) (st : state ieee) : Except failure (state ieee) :=
  let w_max := get_w_max_double st
  if P.SCALEMIN < 0 ∨ P.SCALEMIN ≥ P.SCALEMAX ∨ P.SCALEMAX > 100 then .error .scale_range
  else
    let min := w_max * ieee.of_int P.SCALEMIN / ieee.fin 100
    let max := w_max * ieee.of_int P.SCALEMAX / ieee.fin 100
    let dw := (max - min) / ieee.fin 10
    .ok { st with
      field_grid := (List.range st.field_max.toNat).foldl
        (fun g i =>
          let v := (g i - min) / dw
          Function.update g i (if v > ieee.fin 10 then ieee.fin 10 else v))
        st.field_grid }

/-- The cells `sort_and_plot` hands to `plot_element` for the class `k`, read
from a grid of `double`: those with `k == (int)field_grid[i]`. -/
def sort_and_plot_double (st : state ieee) (k : Int) : List Nat :=
  (List.range st.field_max.toNat).filter (fun i => decide (k = ieee.to_int (st.field_grid i)))

/-- A status with a grid of one cell holding the `double` nearest to 0.007. -/
def small_state : state ieee :=
  { list_max := 1, field_max := 1, x_field := 1, y_field := 1
    field_grid := fun i => if i = 0 then ieee.lit 0.007 else ieee.fin 0
    lo_min := ieee.fin 0, la_min := ieee.fin 0, lo_max := ieee.fin 0, la_max := ieee.fin 0
    colorclass := fun _ => 0 }

/-- The default start parameters with `double` entries. -/
def default_param_double : param ieee :=
  { RES := 25, SCALEMIN := 0, SCALEMAX := 100, OFFLO := ieee.fin 0, OFFLA := ieee.fin 0,
    COLOR := 0, WEIGHT := 0, SIZE := 0, MIDLO := ieee.lit 13.4167, MIDLA := ieee.lit 52.5167 }

end Frequency

/-- Earth radius in km, `RE`, as a `double`. -/
def RE_double : ieee := ieee.fin 6370

/-- Scalar product with the position of station `j`,
`distance_to_station_in_cos`, in double arithmetic. -/
def distance_to_station_in_cos_double (j : Nat) (X : vec3 ieee) (st : state ieee) : ieee :=
  (st.station_list j).X.x0 * X.x0 + (st.station_list j).X.x1 * X.x1 +
    (st.station_list j).X.x2 * X.x2

/-- Range test and spatial weight of station `i` in the hourly slot starting
at `offset`, `check_station_weight`, in double arithmetic. -/
def check_station_weight_double (M : libm ieee) (st : state ieee) (acc : weight_acc ieee)
    (X : vec3 ieee) (i : Nat) (offset : Nat) : weight_acc ieee :=
  if (st.wind_current (offset + i)).p = 0 then acc
  else
    let val := distance_to_station_in_cos_double i X st
    let val := if val > st.cos_min_r then st.cos_min_r else val
    if val > st.cos_max_r then
      let w := ieee.fin 1 / (M.acos val * M.acos val)
      let u := (st.wind_current (offset + i)).u * w
      let v := (st.wind_current (offset + i)).v * w
      { wind_in_range := Function.update acc.wind_in_range i ⟨u, v, 1⟩
        weight := Function.update acc.weight i w
        u_sum := acc.u_sum + u
        v_sum := acc.v_sum + v
        amount := acc.amount + ieee.fin 1 }
    else acc

/-- Geographic position to cartesian unit vector, `convert_geo_to_cartesian`,
in double arithmetic. -/
def convert_geo_to_cartesian_double (M : libm ieee) (longitude latitude : ieee) : vec3 ieee :=
  ⟨M.cos latitude * M.cos longitude, M.cos latitude * M.sin longitude, M.sin latitude⟩

/-- Initial program status, `init_values`, in double arithmetic. -/
def init_values_double (P : param ieee) (M : libm ieee) (station_count : Nat) : state ieee :=
  normalize_coords_double M
    { lo := Function.update (fun _ => ieee.fin 0) 0 (deg2rad_double M P.LO)
      la := Function.update (fun _ => ieee.fin 0) 0 (deg2rad_double M P.LA)
      point := 0
      point_max := ieee.to_int
        (ieee.of_int P.IPERH / ieee.of_int P.IPERPOINT * ieee.of_int |P.TRACE|)
      station_max := station_count
      station_list := fun _ => ⟨0, 0, ⟨ieee.fin 0, ieee.fin 0, ieee.fin 0⟩⟩
      wind_data := fun _ => ⟨ieee.fin 0, ieee.fin 0, 0⟩
      wind_current := fun _ => ⟨ieee.fin 0, ieee.fin 0, 0⟩
      time := ⟨P.YYYY, P.MM, P.DD, P.HH⟩
      diff := 0
      data_diff := 0
      distance_per_step := ieee.lit 3.6 / (ieee.of_int P.IPERH * RE_double)
      cos_min_r := M.cos (ieee.of_int P.MINR / RE_double)
      cos_max_r := M.cos (ieee.of_int P.MAXR / RE_double) }

/-- Add entry `i` to the sums of a slot, `end_sum`, in double arithmetic. -/
def end_sum_double (wind_in_range : Nat → wind ieee) (weight : Nat → ieee) (s : slot_sum ieee)
    (i : Nat) : slot_sum ieee :=
  if (wind_in_range i).p ≠ 0 then
    { u_sum := s.u_sum + (wind_in_range i).u
      v_sum := s.v_sum + (wind_in_range i).v
      weight_sum := s.weight_sum + weight i }
  else s

/-- The first station loop of `calculate_wind_vector` in double arithmetic:
`check_station_weight` for hourly slot 0 and then for hourly slot 1, station by
station, both writing the one array `weight`. -/
def station_loop_double (M : libm ieee) (st : state ieee) (X : vec3 ieee) :
    weight_acc ieee × weight_acc ieee :=
  (List.range st.station_max).foldl
    (fun a i =>
      let a1 := check_station_weight_double M st { a.1 with weight := a.2.weight } X i 0
      let a2 := check_station_weight_double M st { a.2 with weight := a1.weight } X i
        st.station_max
      (a1, a2))
    (⟨fun _ => ⟨ieee.fin 0, ieee.fin 0, 0⟩, fun _ => ieee.fin 0, ieee.fin 0, ieee.fin 0,
        ieee.fin 0⟩,
      ⟨fun _ => ⟨ieee.fin 0, ieee.fin 0, 0⟩, fun _ => ieee.fin 0, ieee.fin 0, ieee.fin 0,
        ieee.fin 0⟩)

/-- The sums after the `end_sum` loop of `calculate_wind_vector` in double
arithmetic, on the path with `get_float(STDDEVIATION) > 0.0` false (the block
of the outlier rejection is skipped). -/
def vector_sums_double (M : libm ieee) (X : vec3 ieee) (st : state ieee) :
    slot_sum ieee × slot_sum ieee :=
  let a := station_loop_double M st X
  (List.range st.station_max).foldl
    (fun s i =>
      (end_sum_double a.1.wind_in_range a.2.weight s.1 i,
        end_sum_double a.2.wind_in_range a.2.weight s.2 i))
    (⟨ieee.fin 0, ieee.fin 0, ieee.fin 0⟩, ⟨ieee.fin 0, ieee.fin 0, ieee.fin 0⟩)

/-- Wind vector at the position `X`, `calculate_wind_vector`, in double
arithmetic and with the outlier rejection off: `some (u, v)` is return value 0
with `*u`, `*v` written, `none` is return value 1. -/
def calculate_wind_vector_double (P : param ieee) (M : libm ieee) (hour_diff : ieee)
    (X : vec3 ieee) (st : state ieee) : Option (ieee × ieee) :=
  let s := vector_sums_double M X st
  if ieee.eq hour_diff (ieee.fin 0) then
    if P.TRACE > 0 then
      if ¬ ieee.eq s.1.weight_sum (ieee.fin 0) then
        some (s.1.u_sum / s.1.weight_sum, s.1.v_sum / s.1.weight_sum)
      else none
    else
      if ¬ ieee.eq s.2.weight_sum (ieee.fin 0) then
        some (s.2.u_sum / s.2.weight_sum, s.2.v_sum / s.2.weight_sum)
      else none
  else
    if ¬ ieee.eq s.1.weight_sum (ieee.fin 0) ∧ ¬ ieee.eq s.2.weight_sum (ieee.fin 0) then
      if P.TRACE > 0 then
        some ((ieee.fin 1 - hour_diff) * (s.1.u_sum / s.1.weight_sum) +
            hour_diff * (s.2.u_sum / s.2.weight_sum),
          (ieee.fin 1 - hour_diff) * (s.1.v_sum / s.1.weight_sum) +
            hour_diff * (s.2.v_sum / s.2.weight_sum))
      else
        some (hour_diff * (s.1.u_sum / s.1.weight_sum) +
            (ieee.fin 1 - hour_diff) * (s.2.u_sum / s.2.weight_sum),
          hour_diff * (s.1.v_sum / s.1.weight_sum) +
            (ieee.fin 1 - hour_diff) * (s.2.v_sum / s.2.weight_sum))
    else none

/-- Start parameters in double arithmetic with the given trace length and
radii: start at lon 0, lat 0, outlier rejection off. -/
def example_param_double (trace minr maxr : Int) : param ieee :=
  { LO := ieee.fin 0, LA := ieee.fin 0, YYYY := 2001, MM := 3, DD := 14, HH := 22,
    TRACE := trace, SPEED := ieee.fin 1, ROT := ieee.fin 0, MAXR := maxr, MINR := minr,
    IPERH := 1, IPERPOINT := 1, ZONEDIFF := 0, STDDEVIATION := ieee.fin 0, DATAUNIT := 1,
    RES := 1 }

/-- Status after `init_values` in double arithmetic with one station at
(1,0,0), the point lon = 0, lat = 0, whose hourly sample is (3,4) in hourly
slot 0 and (5,12) in hourly slot 1. -/
def example_state_double (P : param ieee) (M : libm ieee) : state ieee :=
  { init_values_double P M 1 with
    station_list := fun _ => ⟨1, 1, ⟨ieee.fin 1, ieee.fin 0, ieee.fin 0⟩⟩
    wind_current := fun k =>
      if k = 0 then ⟨ieee.fin 3, ieee.fin 4, 1⟩ else ⟨ieee.fin 5, ieee.fin 12, 1⟩ }

/-- A status in double arithmetic whose current waypoint (`point = 0`) is at
`lo`, `la` radians. -/
def waypoint_double (lo la : ieee) : state ieee :=
  { lo := fun _ => lo
    la := fun _ => la
    point := 0
    point_max := 1
    station_max := 0
    station_list := fun _ => ⟨0, 0, ⟨ieee.fin 0, ieee.fin 0, ieee.fin 0⟩⟩
    wind_data := fun _ => ⟨ieee.fin 0, ieee.fin 0, 0⟩
    wind_current := fun _ => ⟨ieee.fin 0, ieee.fin 0, 0⟩
    time := ⟨2001, 3, 14, 22⟩
    diff := 0
    data_diff := 0
    distance_per_step := ieee.fin 0
    cos_min_r := ieee.fin 0
    cos_max_r := ieee.fin 0 }

/-- The accumulator `calculate_wind_vector` starts from, in double arithmetic. -/
def zero_acc_double : weight_acc ieee :=
  ⟨fun _ => ⟨ieee.fin 0, ieee.fin 0, 0⟩, fun _ => ieee.fin 0, ieee.fin 0, ieee.fin 0,
    ieee.fin 0⟩

namespace Frequency

/-- Length of one degree in km, `DEGDISTANCE`, as a `double`. -/
def DEGDISTANCE_double : ieee := ieee.lit 111.178

/-- The status after `memset(state, 0, sizeof(struct state))`, with `double`
fields. -/
def zero_state_double : state ieee :=
  ⟨0, 0, 0, 0, fun _ => ieee.fin 0, ieee.fin 0, ieee.fin 0, ieee.fin 0, ieee.fin 0, fun _ => 0⟩

/-- Is the grid element `(x, y)` inside the plot window, `check_plot_area`, in
double arithmetic. -/
def check_plot_area_double (x y : ieee) (current : trajectory ieee) : Prop :=
  x ≥ ieee.of_int current.x_plot_min ∧ x ≤ ieee.of_int current.x_plot_max ∧
    y ≥ ieee.of_int current.y_plot_min ∧ y ≤ ieee.of_int current.y_plot_max

instance (x y : ieee) (current : trajectory ieee) :
    Decidable (check_plot_area_double x y current) := by
  unfold check_plot_area_double; infer_instance

/-- Angle in degrees between two unit vectors, `distance_in_deg`, in double
arithmetic. -/
def distance_in_deg_double (M : libm ieee) (X1 X2 : vec3 ieee) : ieee :=
  rad2deg_double M (M.acos (X1.x0 * X2.x0 + X1.x1 * X2.x1 + X1.x2 * X2.x2))

/-- Weight of the current segment, `get_weight`, in double arithmetic. -/
def get_weight_double (P : param ieee) (M : libm ieee) (current : trajectory ieee) : ieee :=
  let X1 := convert_geo_to_cartesian_double M (deg2rad_double M current.x_midpoint)
    (deg2rad_double M current.y_midpoint)
  let X2 := convert_geo_to_cartesian_double M (deg2rad_double M current.x_begin)
    (deg2rad_double M current.y_begin)
  let distance := distance_in_deg_double M X1 X2
  if P.WEIGHT = 1 then distance
  else if P.WEIGHT = 2 then M.sqrt distance
  else ieee.fin 1

/-- Zero the first `field_max` cells, `init_field`, on a grid of `double`. -/
def init_field_double (field_grid : Nat → ieee) (field_max : Int) : Nat → ieee :=
  (List.range field_max.toNat).foldl (fun g i => Function.update g i (ieee.fin 0)) field_grid

/-- The inner loop of `count_squares`, `while (x <= lo_max) { x = x + dx; i++; }`,
in double arithmetic, with `n` passes allowed; returns `i`. -/
def count_row_double (lo_max dx : ieee) : Nat → ieee → Int → Except failure Int
  | 0, x, i => if x ≤ lo_max then .error .fuel else .ok i
  | n + 1, x, i => if x ≤ lo_max then count_row_double lo_max dx n (x + dx) (i + 1) else .ok i

/-- The outer loop of `count_squares`, `while (y <= la_max)`, in double
arithmetic, with `n` passes allowed; `fuel` is the budget of every inner loop. -/
def count_rows_double (P : param ieee) (M : libm ieee) (fuel : Nat) :
    Nat → ieee → state ieee → Except failure (state ieee)
  | 0, y, st => if y ≤ st.la_max then .error .fuel else .ok st
  | n + 1, y, st =>
    if y ≤ st.la_max then
      let dx := ieee.of_int P.RES / (DEGDISTANCE_double * M.cos (deg2rad_double M y))
      match count_row_double st.lo_max dx fuel st.lo_min 0 with
      | .error e => .error e
      | .ok i =>
        let st := if i > st.x_field then { st with x_field := i } else st
        count_rows_double P M fuel n (y + ieee.of_int P.RES / DEGDISTANCE_double)
          { st with y_field := st.y_field + 1 }
    else .ok st

/-- Number of grid elements in both directions, `count_squares`, in double
arithmetic. -/
def count_squares_double (P : param ieee) (M : libm ieee) (fuel : Nat) (st : state ieee) :
    Except failure (state ieee) :=
  count_rows_double P M fuel fuel st.la_min { st with x_field := 0, y_field := 0 }

/-- What `file_la_lo_min_max` does with one row `lo;la` of `double`. -/
def row_min_max_double (st : state ieee) (r : ieee × ieee) : state ieee :=
  let st := if r.1 < st.lo_min then { st with lo_min := r.1 } else st
  let st := if r.1 > st.lo_max then { st with lo_max := r.1 } else st
  let st := if r.2 < st.la_min then { st with la_min := r.2 } else st
  if r.2 > st.la_max then { st with la_max := r.2 } else st

/-- Extend the bounding box by the rows of one trajectory file,
`file_la_lo_min_max`, in double arithmetic. -/
def file_la_lo_min_max_double (file : Option (List (ieee × ieee))) (st : state ieee) :
    Except failure (state ieee) :=
  match file with
  | none => .error .cannot_open
  | some rows => .ok (rows.foldl row_min_max_double st)

/-- Bounding box of all waypoints in degrees, `get_lo_la_min_max`, in double
arithmetic. -/
def get_lo_la_min_max_double (M : libm ieee) (files : List (Option (List (ieee × ieee))))
    (st : state ieee) : Except failure (state ieee) :=
  let st := { st with
    lo_min := ieee.fin 2, la_min := ieee.fin 2, lo_max := ieee.fin (-2), la_max := ieee.fin (-2) }
  match files.foldlM (fun s f => file_la_lo_min_max_double f s) st with
  | .error e => .error e
  | .ok st =>
    .ok { st with
      lo_min := rad2deg_double M st.lo_min
      la_min := rad2deg_double M st.la_min
      lo_max := rad2deg_double M st.lo_max
      la_max := rad2deg_double M st.la_max }

/-- The marking of one grid element in `plot_to_next_point` in double
arithmetic: inside the plot window, the cell `(int)y * x_field + (int)x` gets
the weight if it is zero. -/
def plot_cell_double (st : state ieee) (current : trajectory ieee) (w x y : ieee)
    (plot_field : Nat → ieee) : Nat → ieee :=
  if check_plot_area_double x y current then
    let i := (ieee.to_int y * st.x_field + ieee.to_int x).toNat
    if ieee.eq (plot_field i) (ieee.fin 0) then Function.update plot_field i (plot_field i + w)
    else plot_field
  else plot_field

/-- The two walking loops of `plot_to_next_point`, `while (v < bound) { body;
v += step; }`, in double arithmetic, with `n` passes allowed. -/
def walk_double (bound step : ieee) (body : ieee → (Nat → ieee) → (Nat → ieee)) :
    Nat → ieee → (Nat → ieee) → Except failure (Nat → ieee)
  | 0, v, plot_field => if v < bound then .error .fuel else .ok plot_field
  | n + 1, v, plot_field =>
    if v < bound then walk_double bound step body n (v + step) (body v plot_field)
    else .ok plot_field

/-- Draw the segment from `(x_old, y_old)` to `(x_new, y_new)` into the mask,
`plot_to_next_point`, in double arithmetic. -/
def plot_to_next_point_double (P : param ieee) (M : libm ieee) (fuel : Nat)
    (plot_field : Nat → ieee) (current : trajectory ieee) (st : state ieee) :
    Except failure (Nat → ieee) :=
  let w := get_weight_double P M current
  let dy := ieee.of_int P.RES / DEGDISTANCE_double
  let dx := ieee.of_int P.RES / (DEGDISTANCE_double * M.cos (deg2rad_double M current.y_old))
  let x1 := (current.x_old - st.lo_min) / dx
  let y1 := (current.y_old - st.la_min) / dy
  let dx := ieee.of_int P.RES / (DEGDISTANCE_double * M.cos (deg2rad_double M current.y_new))
  let x2 := (current.x_new - st.lo_min) / dx
  let y2 := (current.y_new - st.la_min) / dy
  if ieee.eq y1 y2 then
    let p := if x2 < x1 then (x2, y2, x1, y1) else (x1, y1, x2, y2)
    walk_double p.2.2.1 dx (fun x f => plot_cell_double st current w x p.2.1 f) fuel p.1
      plot_field
  else
    let p := if y2 < y1 then (x2, y2, x1, y1) else (x1, y1, x2, y2)
    let m := (p.2.2.1 - p.1) / (p.2.2.2 - p.2.1)
    let n := p.1 - m * p.2.1
    walk_double p.2.2.2 (dy / ieee.of_int P.RES)
      (fun y f => plot_cell_double st current w (m * y + n) y f) fuel p.2.1 plot_field

/-- What `read_trajectory` does at the end of one row `lon;lat`, in double
arithmetic. -/
def read_trajectory_row_double (P : param ieee) (M : libm ieee) (fuel : Nat) (st : state ieee)
    (x : trajectory ieee × (Nat → ieee)) (row : ieee × ieee) :
    Except failure (trajectory ieee × (Nat → ieee)) :=
  let current := { x.1 with x_new := rad2deg_double M row.1, y_new := rad2deg_double M row.2 }
  let current := { current with
    x_midpoint := (current.x_old + current.x_new) / ieee.fin 2
    y_midpoint := (current.y_old + current.y_new) / ieee.fin 2 }
  match plot_to_next_point_double P M fuel x.2 current st with
  | .error e => .error e
  | .ok plot_field =>
    .ok ({ current with x_old := current.x_new, y_old := current.y_new }, plot_field)

/-- Read the rows after the start point and draw them, `read_trajectory`, in
double arithmetic. -/
def read_trajectory_double (P : param ieee) (M : libm ieee) (fuel : Nat) (st : state ieee)
    (current : trajectory ieee) (plot_field : Nat → ieee) (rows : List (ieee × ieee)) :
    Except failure (trajectory ieee × (Nat → ieee)) :=
  rows.foldlM (read_trajectory_row_double P M fuel st) (current, plot_field)

/-- The body of the file loop of `plot_trajectories` for one trajectory file,
in double arithmetic: start point, zeroed mask, rows; returns the reading
status, the mask and the status with the mask added to the grid. -/
def plot_trajectory_double (P : param ieee) (M : libm ieee) (fuel : Nat) (st : state ieee)
    (current : trajectory ieee) (plot_field : Nat → ieee) (file : Option (List (ieee × ieee))) :
    Except failure (trajectory ieee × (Nat → ieee) × state ieee) :=
  match file with
  | none => .error .cannot_open
  | some [] => .error .end_of_file
  | some (start :: rows) =>
    let current := { current with
      x_begin := rad2deg_double M start.1, y_begin := rad2deg_double M start.2 }
    let current := { current with x_old := current.x_begin, y_old := current.y_begin }
    let current := { current with
      x_new := ieee.fin 0, y_new := ieee.fin 0, x_midpoint := ieee.fin 0,
      y_midpoint := ieee.fin 0 }
    let plot_field := init_field_double plot_field st.field_max
    match read_trajectory_double P M fuel st current plot_field rows with
    | .error e => .error e
    | .ok r =>
      .ok (r.1, r.2,
        { st with
          field_grid := (List.range st.field_max.toNat).foldl
            (fun g j => Function.update g j (g j + r.2 j)) st.field_grid })

/-- The file loop of `plot_trajectories` in double arithmetic. -/
def plot_trajectories_double (P : param ieee) (M : libm ieee) (fuel : Nat) (st : state ieee)
    (current : trajectory ieee) (files : List (Option (List (ieee × ieee)))) :
    Except failure (trajectory ieee × (Nat → ieee) × state ieee) :=
  files.foldlM (fun x file => plot_trajectory_double P M fuel x.2.2 x.1 x.2.1 file)
    (current, fun _ => ieee.fin 0, st)

/-- Everything `init_values` of `frequency.c` does to the numeric part of the
status, in double arithmetic: bounding box, numbers of grid elements and the
zeroed cells (the colour map is left as it is). -/
def init_values_double (P : param ieee) (M : libm ieee)
    (files : List (Option (List (ieee × ieee)))) (fuel : Nat) : Except failure (state ieee) := do
  let st := { zero_state_double with list_max := files.length }
  let st ← get_lo_la_min_max_double M files st
  let st ← count_squares_double P M fuel st
  let st := { st with field_max := st.x_field * st.y_field }
  let st := { st with field_grid := fun _ => ieee.fin 0 }
  pure { st with field_grid := init_field_double st.field_grid st.field_max }

/-- The macro `rad2idx(f, dy)`, `(unsigned)(f / dy)`, in double arithmetic. -/
def rad2idx_double (f dy : ieee) : Int := to_unsigned (ieee.to_int (f / dy))

/-- The plot window, `init_plot_area`, in double arithmetic. -/
def init_plot_area_double (P : param ieee) (M : libm ieee) (st : state ieee)
    (current : trajectory ieee) : Except failure (trajectory ieee) :=
  if current.plot_size > 0 then
    if P.MIDLA < st.la_min ∨ P.MIDLA > st.la_max ∨ P.MIDLO < st.lo_min ∨
        P.MIDLO > st.lo_max then .error .midpoint_range
    else
      let plot_size := if Int.tmod current.plot_size 2 = 1 then current.plot_size + 1
        else current.plot_size
      let dy := ieee.of_int P.RES / DEGDISTANCE_double
      let row := if P.MIDLA > st.la_min then rad2idx_double (P.MIDLA - st.la_min) dy else 0
      let y := if P.MIDLA > st.la_min then st.la_min + ieee.of_int row * dy else st.la_min
      let dx := ieee.of_int P.RES / (DEGDISTANCE_double * M.cos (deg2rad_double M y))
      let col := if P.MIDLO > st.lo_min then rad2idx_double (P.MIDLO - st.lo_min) dx else 0
      let col := to_unsigned (col - 1)
      let row := to_unsigned (row - 1)
      let half := to_unsigned (Int.tdiv plot_size 2)
      let x_plot_min := to_int (to_unsigned (col - half))
      let x_plot_max := to_int (to_unsigned (col + half))
      let y_plot_min := to_int (to_unsigned (row - half))
      let y_plot_max := to_int (to_unsigned (row + half))
      .ok { current with
        plot_size := plot_size
        x_plot_min := if x_plot_min < 0 then 0 else x_plot_min
        x_plot_max := if x_plot_max > st.x_field then st.x_field else x_plot_max
        y_plot_min := if y_plot_min < 0 then 0 else y_plot_min
        y_plot_max := if y_plot_max > st.y_field then st.y_field else y_plot_max }
  else
    .ok { current with
      x_plot_min := 0, x_plot_max := st.x_field, y_plot_min := 0, y_plot_max := st.y_field }

/-- The reading status `plot` starts from, `plot_size = SIZE`.  The other
fields are not initialised in the source and are written before they are
read; they are zero here. -/
def start_trajectory_double (P : param ieee) : trajectory ieee :=
  { x_new := ieee.fin 0, y_new := ieee.fin 0, x_begin := ieee.fin 0, y_begin := ieee.fin 0,
    x_old := ieee.fin 0, y_old := ieee.fin 0, x_midpoint := ieee.fin 0,
    y_midpoint := ieee.fin 0, x_plot_min := 0, y_plot_min := 0, x_plot_max := 0,
    y_plot_max := 0, plot_size := P.SIZE }

/-- The trajectory part of `plot` in double arithmetic: `init_plot_area` and
`plot_trajectories`; returns the reading status, the mask of the last file
and the status with the accumulated grid. -/
def plot_double (P : param ieee) (M : libm ieee) (fuel : Nat) (st : state ieee)
    (files : List (Option (List (ieee × ieee)))) :
    Except failure (trajectory ieee × (Nat → ieee) × state ieee) := do
  let current ← init_plot_area_double P M st (start_trajectory_double P)
  plot_trajectories_double P M fuel st current files

/-- The reading status at the first call of `plot_to_next_point` for a file
whose first two rows are `start` and `next`, as `plot_trajectories` and
`read_trajectory` set it, in double arithmetic. -/
def first_segment_double (M : libm ieee) (current : trajectory ieee) (start next : ieee × ieee) :
    trajectory ieee :=
  let current := { current with
    x_begin := rad2deg_double M start.1, y_begin := rad2deg_double M start.2 }
  let current := { current with x_old := current.x_begin, y_old := current.y_begin }
  let current := { current with x_new := rad2deg_double M next.1, y_new := rad2deg_double M next.2 }
  { current with
    x_midpoint := (current.x_old + current.x_new) / ieee.fin 2
    y_midpoint := (current.y_old + current.y_new) / ieee.fin 2 }

end Frequency

/-- Values of `cos` of the C library (glibc on x86-64) at the `double`
arguments that occur in the runs below, each the `double` nearest to the
real value; the value 0 stands for every other argument. -/
def cos_table (x : ℚ) : ℚ :=
  if x = -73689976583869 / 70368744177664 then 9007199254687913 / 18014398509481984
  else if x = 0 then 1
  else if x = 5791756381070503 / 18446744073709551616 then 9007198810784003 / 9007199254740992
  else if x = 2533893416718345 / 1152921504606846976 then 9007177500857091 / 9007199254740992
  else if x = 2262404836355665 / 72057594037927936 then 140668125773487 / 140737488355328
  else if x = 3602879701896397 / 36028797018963968 then 8962200775956417 / 9007199254740992
  else if x = 3602879703697837 / 36028797018963968 then 280068774247233 / 281474976710656
  else if x = 6288211335136391 / 36028797018963968 then 8870359658994711 / 9007199254740992
  else 0

/-- Values of `sin` of the C library (glibc on x86-64) at the `double`
arguments that occur in the runs below, each the `double` nearest to the
real value; the value 0 stands for every other argument. -/
def sin_table (x : ℚ) : ℚ :=
  if x = 0 then 0
  else if x = 3602879701896397 / 36028797018963968 then 1798438952039115 / 18014398509481984
  else if x = 3602879703697837 / 36028797018963968 then 7193755811741341 / 72057594037927936
  else if x = 6288211335136391 / 36028797018963968 then 6256334945874825 / 36028797018963968
  else 0

/-- Values of `acos` of the C library (glibc on x86-64) at the `double`
arguments in [-1, 1] that occur in the runs below, each the `double`
nearest to the real value; the value 0 stands for every other argument. -/
def acos_table (x : ℚ) : ℚ :=
  if x = 8870359658994711 / 9007199254740992 then 6288211335136399 / 36028797018963968
  else if x = 9007177500857091 / 9007199254740992 then 5067786833469393 / 2305843009213693952
  else if x = 9007198810784003 / 9007199254740992 then 2895878189366395 / 9223372036854775808
  else if x = 1 then 0
  else 0

/-- Values of `sqrt` at a few squares; the value 0 stands for every other
argument. -/
def sqrt_table (x : ℚ) : ℚ :=
  if x = 0 then 0
  else if x = 1 then 1
  else if x = 4 then 2
  else 0

/-- The function `sin` of `math.h` on `double`: the tabulated value at a finite
argument, NaN at an infinity and at NaN. -/
def glibc_sin : ieee → ieee
  | ieee.fin q => ieee.fin (sin_table q)
  | _ => ieee.nan

/-- The function `cos` of `math.h` on `double`: the tabulated value at a finite
argument, NaN at an infinity and at NaN. -/
def glibc_cos : ieee → ieee
  | ieee.fin q => ieee.fin (cos_table q)
  | _ => ieee.nan

/-- The function `acos` of `math.h` on `double`: the tabulated value at an
argument in [-1, 1], NaN at every other argument. -/
def glibc_acos : ieee → ieee
  | ieee.fin q => if q < -1 ∨ 1 < q then ieee.nan else ieee.fin (acos_table q)
  | _ => ieee.nan

/-- The function `sqrt` of `math.h` on `double`: the tabulated value at a finite
argument that is not negative, NaN at a negative argument and at NaN. -/
def glibc_sqrt : ieee → ieee
  | ieee.fin q => if q < 0 then ieee.nan else ieee.fin (sqrt_table q)
  | ieee.pinf => ieee.pinf
  | _ => ieee.nan

/-- The functions and the constant of `math.h` on `double`. -/
def glibc : libm ieee := ⟨glibc_sin, glibc_cos, glibc_acos, glibc_sqrt, ieee.fin M_PI⟩

namespace Frequency

/-- The default parameters with a mesh of 7004 km, with `double` fields. -/
def wide_param_double : param ieee := { default_param_double with RES := 7004 }

/-- Two trajectory files: one with the single row `0;-1.0471975512`, one with
the rows `1.0995238339391142;0` and `1.7453292520;0` (lon;lat in radians), as
`read_trajectory` parses them. -/
def wide_files_double : List (Option (List (ieee × ieee))) :=
  [some [(ieee.fin 0, ieee.lit (-1.0471975512))],
   some [(ieee.lit 1.0995238339391142, ieee.fin 0), (ieee.lit 1.7453292520, ieee.fin 0)]]

end Frequency

/-! ## Calendar lemmas -/

theorem leap_test_iff (Y : Int) : leap_test Y = true ↔ gregorian_leap Y := by
  have h (a b : Int) : Int.tmod a b = 0 ↔ b ∣ a :=
    ⟨Int.dvd_of_tmod_eq_zero, Int.tmod_eq_zero_of_dvd⟩
  simp [leap_test, gregorian_leap, h]

theorem month_length_eq (Y m : Int) (h1 : 1 ≤ m) (h12 : m ≤ 12) :
    month_length Y m = gregorian_days Y m := by
  have hl := leap_test_iff Y
  unfold month_length gregorian_days
  interval_cases m <;> simp <;> by_cases hg : gregorian_leap Y <;> simp [hg, hl]


theorem month_length_pos (Y m : Int) : 28 ≤ month_length Y m ∧ month_length Y m ≤ 31 := by
  unfold month_length; split_ifs <;> omega

theorem backward_forward (t : date) (h : valid_date t) :
    time_step_backward (time_step_forward t) = t := by
  obtain ⟨y, m, d, hr⟩ := t
  obtain ⟨h1, h2, h3, h4, h5, h6⟩ := h
  simp only at h1 h2 h3 h4 h5 h6
  rw [← month_length_eq y m h1 h2] at h4
  unfold time_step_forward
  by_cases hh : hr = 23
  · subst hh
    by_cases hd : d < month_length y m
    · have : d + 1 ≠ 1 := by omega
      simp [hd, time_step_backward, this]
    · have hd2 : d = month_length y m := by omega
      by_cases hm : m + 1 > 12
      · have hm2 : m = 12 := by omega
        subst hm2
        simp [hd, time_step_backward] at hd2 ⊢
        simp [month_length] at hd2 ⊢
        omega
      · have hm3 : m ≠ 0 := by omega
        simp [hd, hm, time_step_backward, hm3]
        omega
  · have : hr + 1 ≠ 0 := by omega
    simp [hh, time_step_backward, this]

theorem forward_backward (t : date) (h : valid_date t) :
    time_step_forward (time_step_backward t) = t := by
  obtain ⟨y, m, d, hr⟩ := t
  obtain ⟨h1, h2, h3, h4, h5, h6⟩ := h
  simp only at h1 h2 h3 h4 h5 h6
  rw [← month_length_eq y m h1 h2] at h4
  unfold time_step_backward
  by_cases hh : hr = 0
  · subst hh
    by_cases hd : d = 1
    · subst hd
      by_cases hm : m - 1 = 0
      · have hm2 : m = 1 := by omega
        subst hm2
        simp [time_step_forward, month_length]
      · have hm3 : m - 1 + 1 = m := by omega
        have hm4 : ¬ (12 < m) := by omega
        simp [hm, time_step_forward, hm3, hm4]
    · have hlt : d - 1 < month_length y m := by omega
      simp [hd, time_step_forward, hlt]
  · have : hr - 1 ≠ 23 := by omega
    simp [hh, time_step_forward, this]

/-- C1: on every valid calendar point, one step forward followed by one step
backward is the identity, and so is one step backward followed by one step
forward (equality of dates is fieldwise). -/
theorem C1_step_roundtrip (t : date) (h : valid_date t) :
    time_step_backward (time_step_forward t) = t ∧
      time_step_forward (time_step_backward t) = t :=
  ⟨backward_forward t h, forward_backward t h⟩

theorem C1_step_roundtrip_witness :
    valid_date ⟨2024, 2, 29, 23⟩ ∧
      (time_step_backward (time_step_forward ⟨2024, 2, 29, 23⟩) = ⟨2024, 2, 29, 23⟩ ∧
        time_step_forward (time_step_backward ⟨2024, 2, 29, 23⟩) = ⟨2024, 2, 29, 23⟩) :=
  ⟨by decide, C1_step_roundtrip ⟨2024, 2, 29, 23⟩ (by decide)⟩

/-! ### Walking a whole year -/

theorem forward_hours (y m d : Int) (k : Nat) (hk : k ≤ 23) :
    time_step_forward^[k] ⟨y, m, d, 0⟩ = ⟨y, m, d, (k : Int)⟩ := by
  induction k with
  | zero => rfl
  | succ n ih =>
    rw [Function.iterate_succ_apply', ih (by omega)]
    have : (n : Int) ≠ 23 := by omega
    simp [time_step_forward, this]

theorem forward_day (y m d : Int) :
    time_step_forward^[24] ⟨y, m, d, 0⟩ = time_step_forward ⟨y, m, d, 23⟩ := by
  rw [Function.iterate_succ_apply', forward_hours y m d 23 (le_refl _)]
  rfl

theorem forward_days (y m : Int) (k : Nat) (hk : (k : Int) < month_length y m) :
    time_step_forward^[24 * k] ⟨y, m, 1, 0⟩ = ⟨y, m, 1 + (k : Int), 0⟩ := by
  induction k with
  | zero => rfl
  | succ n ih =>
    have e : 24 * (n + 1) = 24 + 24 * n := by ring
    rw [e, Function.iterate_add_apply, ih (by omega), forward_day]
    have hlt : 1 + (n : Int) < month_length y m := by omega
    simp [time_step_forward, hlt]
    ring

theorem forward_month (y m : Int) (n : Nat) (hn : (n : Int) = month_length y m) :
    time_step_forward^[24 * n] ⟨y, m, 1, 0⟩ =
      if m + 1 > 12 then ⟨y + 1, 1, 1, 0⟩ else ⟨y, m + 1, 1, 0⟩ := by
  have hpos := month_length_pos y m
  obtain ⟨j, rfl⟩ : ∃ j, n = j + 1 := ⟨n - 1, by omega⟩
  have e : 24 * (j + 1) = 24 + 24 * j := by ring
  rw [e, Function.iterate_add_apply, forward_days y m j (by omega), forward_day]
  have hnl : ¬ (1 + (j : Int) < month_length y m) := by omega
  simp only [time_step_forward]
  simp [hnl]

theorem iterate_chain {β : Type} (f : β → β) (a b : Nat) (x y z : β)
    (h1 : f^[a] x = y) (h2 : f^[b] y = z) : f^[a + b] x = z := by
  rw [Nat.add_comm, Function.iterate_add_apply, h1, h2]

theorem forward_month_lt (y m : Int) (n : Nat) (m2 : Int)
    (hn : (n : Int) = month_length y m) (hm : m2 = m + 1) (hle : m2 ≤ 12) :
    time_step_forward^[24 * n] ⟨y, m, 1, 0⟩ = ⟨y, m2, 1, 0⟩ := by
  rw [forward_month y m n hn, if_neg (by omega), hm]

theorem forward_december (y : Int) :
    time_step_forward^[24 * 31] ⟨y, 12, 1, 0⟩ = ⟨y + 1, 1, 1, 0⟩ := by
  rw [forward_month y 12 31 (by simp [month_length]), if_pos (by omega)]

theorem forward_year (Y : Int) (F : Nat) (hF : (F : Int) = month_length Y 2) :
    time_step_forward^[(337 + F) * 24] ⟨Y, 1, 1, 0⟩ = ⟨Y + 1, 1, 1, 0⟩ := by
  have m1 := forward_month_lt Y 1 31 2 (by simp [month_length]) (by norm_num) (by norm_num)
  have m2 := forward_month_lt Y 2 F 3 hF (by norm_num) (by norm_num)
  have m3 := forward_month_lt Y 3 31 4 (by simp [month_length]) (by norm_num) (by norm_num)
  have m4 := forward_month_lt Y 4 30 5 (by simp [month_length]) (by norm_num) (by norm_num)
  have m5 := forward_month_lt Y 5 31 6 (by simp [month_length]) (by norm_num) (by norm_num)
  have m6 := forward_month_lt Y 6 30 7 (by simp [month_length]) (by norm_num) (by norm_num)
  have m7 := forward_month_lt Y 7 31 8 (by simp [month_length]) (by norm_num) (by norm_num)
  have m8 := forward_month_lt Y 8 31 9 (by simp [month_length]) (by norm_num) (by norm_num)
  have m9 := forward_month_lt Y 9 30 10 (by simp [month_length]) (by norm_num) (by norm_num)
  have m10 := forward_month_lt Y 10 31 11 (by simp [month_length]) (by norm_num) (by norm_num)
  have m11 := forward_month_lt Y 11 30 12 (by simp [month_length]) (by norm_num) (by norm_num)
  have m12 := forward_december Y
  have c := iterate_chain _ _ _ _ _ _ (iterate_chain _ _ _ _ _ _ (iterate_chain _ _ _ _ _ _
    (iterate_chain _ _ _ _ _ _ (iterate_chain _ _ _ _ _ _ (iterate_chain _ _ _ _ _ _
    (iterate_chain _ _ _ _ _ _ (iterate_chain _ _ _ _ _ _ (iterate_chain _ _ _ _ _ _
    (iterate_chain _ _ _ _ _ _ (iterate_chain _ _ _ _ _ _ m1 m2) m3) m4) m5) m6) m7) m8) m9)
    m10) m11) m12
  have e : (337 + F) * 24 = 24 * 31 + 24 * F + 24 * 31 + 24 * 30 + 24 * 31 + 24 * 30 + 24 * 31
      + 24 * 31 + 24 * 30 + 24 * 31 + 24 * 30 + 24 * 31 := by omega
  rw [e]
  exact c

/-- C2: for every year Y, 365*24 forward steps from (Y,1,1,0) reach (Y+1,1,1,0)
when Y is not a Gregorian leap year, and 366*24 steps do when Y is one. -/
theorem C2_year_walk (Y : Int) :
    time_step_forward^[if gregorian_leap Y then 366 * 24 else 365 * 24] ⟨Y, 1, 1, 0⟩ =
      ⟨Y + 1, 1, 1, 0⟩ := by
  by_cases hg : gregorian_leap Y
  · have hl : leap_test Y = true := (leap_test_iff Y).2 hg
    rw [if_pos hg]
    exact forward_year Y 29 (by simp [month_length, hl])
  · have hl : leap_test Y = false := by
      cases h : leap_test Y with
      | false => rfl
      | true => exact absurd ((leap_test_iff Y).1 h) hg
    rw [if_neg hg]
    exact forward_year Y 28 (by simp [month_length, hl])

/-- C3: the step forward from (Y,2,28,23) is (Y,2,29,0) exactly when Y is
divisible by 4 and (not by 100 or by 400), and (Y,3,1,0) otherwise; the step
backward from (Y,3,1,0) is (Y,2,29,23) exactly under the same predicate, and
(Y,2,28,23) otherwise.  Feb 29 is reached for 2000 and 2400, not for 1900 and
2100. -/
theorem C3_feb29 (Y : Int) :
    (time_step_forward ⟨Y, 2, 28, 23⟩ =
        if 4 ∣ Y ∧ (¬ 100 ∣ Y ∨ 400 ∣ Y) then ⟨Y, 2, 29, 0⟩ else ⟨Y, 3, 1, 0⟩) ∧
    (time_step_forward ⟨Y, 2, 28, 23⟩ = ⟨Y, 2, 29, 0⟩ ↔ 4 ∣ Y ∧ (¬ 100 ∣ Y ∨ 400 ∣ Y)) ∧
    (time_step_backward ⟨Y, 3, 1, 0⟩ =
        if 4 ∣ Y ∧ (¬ 100 ∣ Y ∨ 400 ∣ Y) then ⟨Y, 2, 29, 23⟩ else ⟨Y, 2, 28, 23⟩) ∧
    (time_step_backward ⟨Y, 3, 1, 0⟩ = ⟨Y, 2, 29, 23⟩ ↔ 4 ∣ Y ∧ (¬ 100 ∣ Y ∨ 400 ∣ Y)) ∧
    time_step_forward ⟨2000, 2, 28, 23⟩ = ⟨2000, 2, 29, 0⟩ ∧
    time_step_forward ⟨2400, 2, 28, 23⟩ = ⟨2400, 2, 29, 0⟩ ∧
    time_step_forward ⟨1900, 2, 28, 23⟩ = ⟨1900, 3, 1, 0⟩ ∧
    time_step_forward ⟨2100, 2, 28, 23⟩ = ⟨2100, 3, 1, 0⟩ ∧
    time_step_backward ⟨2000, 3, 1, 0⟩ = ⟨2000, 2, 29, 23⟩ ∧
    time_step_backward ⟨2400, 3, 1, 0⟩ = ⟨2400, 2, 29, 23⟩ ∧
    time_step_backward ⟨1900, 3, 1, 0⟩ = ⟨1900, 2, 28, 23⟩ ∧
    time_step_backward ⟨2100, 3, 1, 0⟩ = ⟨2100, 2, 28, 23⟩ := by
  have hl := leap_test_iff Y
  unfold gregorian_leap at hl
  refine ⟨?_, ?_, ?_, ?_, by decide, by decide, by decide, by decide, by decide, by decide,
    by decide, by decide⟩
  · by_cases hg : 4 ∣ Y ∧ (¬ 100 ∣ Y ∨ 400 ∣ Y)
    · have := hl.2 hg
      simp [time_step_forward, month_length, this, hg]
    · have : leap_test Y = false := by
        cases h : leap_test Y with
        | false => rfl
        | true => exact absurd (hl.1 h) hg
      simp [time_step_forward, month_length, this, hg]
  · by_cases hg : 4 ∣ Y ∧ (¬ 100 ∣ Y ∨ 400 ∣ Y)
    · have := hl.2 hg
      simp [time_step_forward, month_length, this, hg]
    · have : leap_test Y = false := by
        cases h : leap_test Y with
        | false => rfl
        | true => exact absurd (hl.1 h) hg
      simp [time_step_forward, month_length, this, hg]
  · by_cases hg : 4 ∣ Y ∧ (¬ 100 ∣ Y ∨ 400 ∣ Y)
    · have := hl.2 hg
      simp [time_step_backward, month_length, this, hg]
    · have : leap_test Y = false := by
        cases h : leap_test Y with
        | false => rfl
        | true => exact absurd (hl.1 h) hg
      simp [time_step_backward, month_length, this, hg]
  · by_cases hg : 4 ∣ Y ∧ (¬ 100 ∣ Y ∨ 400 ∣ Y)
    · have := hl.2 hg
      simp [time_step_backward, month_length, this, hg]
    · have : leap_test Y = false := by
        cases h : leap_test Y with
        | false => rfl
        | true => exact absurd (hl.1 h) hg
      simp [time_step_backward, month_length, this, hg]

section c4
variable {α : Type} [LinearOrderedField α]

theorem wind_of_next_hour_fold (st : state α) (n : Nat) :
    (List.range n).foldl wind_of_next_hour_station st =
      { st with wind_current := fun k => if k < n then next_hour_sample st k
                                         else st.wind_current k } := by
  induction n with
  | zero => simp
  | succ n ih =>
    rw [List.range_succ, List.foldl_append, ih]
    simp only [List.foldl_cons, List.foldl_nil, wind_of_next_hour_station]
    congr 1
    funext k
    simp only [next_hour_sample]
    by_cases hk : k = n
    · subst hk; simp
    · rw [Function.update_noteq hk]
      by_cases h1 : k < n
      · have : k < n + 1 := by omega
        simp [h1, this]
      · have : ¬ k < n + 1 := by omega
        simp [h1, this]

/-- C4: with `data_diff = D ≠ 0` and `diff = d`, `wind_of_next_hour` returns,
and for every station `j` the hourly sample `wind_current[j]` is: for `d = 0`
the sample of the earlier data slot marked present when that one is present,
and the absent sample (0,0,0) otherwise; for `d ≠ 0` the present sample with
`u = u0*(D-d)/D + u1*d/D` (same for `v`) when both data slots are present, and
the absent sample otherwise. -/
theorem C4_wind_of_next_hour (st : state α) (j : Nat) (hj : j < st.station_max)
    (hD : st.data_diff ≠ 0) :
    ∃ st2, wind_of_next_hour st = .ok st2 ∧
      st2.wind_current j =
        if st.diff = 0 then
          (if (st.wind_data j).p ≠ 0 then ⟨(st.wind_data j).u, (st.wind_data j).v, 1⟩
           else ⟨0, 0, 0⟩)
        else
          (if (st.wind_data j).p ≠ 0 ∧ (st.wind_data (st.station_max + j)).p ≠ 0 then
            ⟨(st.wind_data j).u * ((st.data_diff : α) - (st.diff : α)) / (st.data_diff : α) +
                (st.wind_data (st.station_max + j)).u * (st.diff : α) / (st.data_diff : α),
              (st.wind_data j).v * ((st.data_diff : α) - (st.diff : α)) / (st.data_diff : α) +
                (st.wind_data (st.station_max + j)).v * (st.diff : α) / (st.data_diff : α),
              1⟩
           else ⟨0, 0, 0⟩) := by
  refine ⟨_, by simp only [wind_of_next_hour, if_neg hD]; rfl, ?_⟩
  rw [wind_of_next_hour_fold]
  simp only [hj, if_true, next_hour_sample, Int.cast_sub]

end c4

theorem C4_wind_of_next_hour_witness :
    ∃ st2, wind_of_next_hour interp_state = .ok st2 ∧ st2.wind_current 0 = ⟨4, 4, 1⟩ := by
  obtain ⟨st2, h1, h2⟩ := C4_wind_of_next_hour interp_state 0 (by decide) (by decide)
  refine ⟨st2, h1, ?_⟩
  rw [h2]
  norm_num [interp_state, example_state, init_values, normalize_coords]

section c9
variable {α : Type} [LinearOrderedField α]

theorem clamp_eq_min (c m : α) : (if c > m then m else c) = min c m := by
  by_cases h : c > m
  · rw [if_pos h, min_eq_right (le_of_lt h)]
  · rw [if_neg h, min_eq_left (not_lt.1 h)]

theorem check_station_weight_in (M : libm α) (st : state α) (acc : weight_acc α) (X : vec3 α)
    (i offset : Nat) (hp : (st.wind_current (offset + i)).p ≠ 0)
    (hr : min (distance_to_station_in_cos i X st) st.cos_min_r > st.cos_max_r) :
    check_station_weight M st acc X i offset =
      { wind_in_range := Function.update acc.wind_in_range i
          ⟨(st.wind_current (offset + i)).u *
              (1 / (M.acos (min (distance_to_station_in_cos i X st) st.cos_min_r) *
                M.acos (min (distance_to_station_in_cos i X st) st.cos_min_r))),
            (st.wind_current (offset + i)).v *
              (1 / (M.acos (min (distance_to_station_in_cos i X st) st.cos_min_r) *
                M.acos (min (distance_to_station_in_cos i X st) st.cos_min_r))), 1⟩
        weight := Function.update acc.weight i
          (1 / (M.acos (min (distance_to_station_in_cos i X st) st.cos_min_r) *
            M.acos (min (distance_to_station_in_cos i X st) st.cos_min_r)))
        u_sum := acc.u_sum + (st.wind_current (offset + i)).u *
          (1 / (M.acos (min (distance_to_station_in_cos i X st) st.cos_min_r) *
            M.acos (min (distance_to_station_in_cos i X st) st.cos_min_r)))
        v_sum := acc.v_sum + (st.wind_current (offset + i)).v *
          (1 / (M.acos (min (distance_to_station_in_cos i X st) st.cos_min_r) *
            M.acos (min (distance_to_station_in_cos i X st) st.cos_min_r)))
        amount := acc.amount + 1 } := by
  unfold check_station_weight
  rw [if_neg hp]
  simp only [clamp_eq_min]
  rw [if_pos hr]

theorem check_station_weight_out (M : libm α) (st : state α) (acc : weight_acc α) (X : vec3 α)
    (i offset : Nat)
    (h : ¬ ((st.wind_current (offset + i)).p ≠ 0 ∧
      min (distance_to_station_in_cos i X st) st.cos_min_r > st.cos_max_r)) :
    check_station_weight M st acc X i offset = acc := by
  unfold check_station_weight
  by_cases hp : (st.wind_current (offset + i)).p = 0
  · rw [if_pos hp]
  · rw [if_neg hp]
    simp only [clamp_eq_min]
    rw [if_neg (fun hr => h ⟨hp, hr⟩)]

theorem counted_iff (M : libm α) (st : state α) (acc : weight_acc α) (X : vec3 α)
    (i offset : Nat) :
    (check_station_weight M st acc X i offset).amount = acc.amount + 1 ↔
      ((st.wind_current (offset + i)).p ≠ 0 ∧
        min (distance_to_station_in_cos i X st) st.cos_min_r > st.cos_max_r) := by
  constructor
  · intro h
    by_contra hn
    rw [check_station_weight_out M st acc X i offset hn] at h
    have : (0 : α) = 1 := by linarith
    exact zero_ne_one this
  · rintro ⟨hp, hr⟩
    rw [check_station_weight_in M st acc X i offset hp hr]

/-- C9 (as the code has it): station `i` is counted in range (the station
counter goes up by one) exactly when it is present in the slot and
`min(c, cos_min_r) > cos_max_r` for `c = X·position`; it then gets the weight
`1/acos(min(c, cos_min_r))²`, stored at `weight[i]`, and the stored
contributions are `u·w` and `v·w`, which are added to the sums; a station not
in range changes nothing.  When `cos_min_r > cos_max_r` the range test is
`c > cos_max_r`, so a station with `c = cos_max_r` is out of range. -/
theorem C9_station_weight (M : libm α) (st : state α) (acc : weight_acc α) (X : vec3 α)
    (i offset : Nat) :
    ((check_station_weight M st acc X i offset).amount = acc.amount + 1 ↔
      ((st.wind_current (offset + i)).p ≠ 0 ∧
        min (distance_to_station_in_cos i X st) st.cos_min_r > st.cos_max_r)) ∧
    ((check_station_weight M st acc X i offset).amount = acc.amount + 1 →
      (check_station_weight M st acc X i offset).weight i =
          1 / (M.acos (min (distance_to_station_in_cos i X st) st.cos_min_r)) ^ 2 ∧
      (check_station_weight M st acc X i offset).wind_in_range i =
          ⟨(st.wind_current (offset + i)).u *
              (check_station_weight M st acc X i offset).weight i,
            (st.wind_current (offset + i)).v *
              (check_station_weight M st acc X i offset).weight i, 1⟩ ∧
      (check_station_weight M st acc X i offset).u_sum =
          acc.u_sum + (st.wind_current (offset + i)).u *
            (check_station_weight M st acc X i offset).weight i ∧
      (check_station_weight M st acc X i offset).v_sum =
          acc.v_sum + (st.wind_current (offset + i)).v *
            (check_station_weight M st acc X i offset).weight i) ∧
    (¬ (check_station_weight M st acc X i offset).amount = acc.amount + 1 →
      check_station_weight M st acc X i offset = acc) ∧
    (st.cos_min_r > st.cos_max_r →
      ((check_station_weight M st acc X i offset).amount = acc.amount + 1 ↔
        ((st.wind_current (offset + i)).p ≠ 0 ∧
          distance_to_station_in_cos i X st > st.cos_max_r))) := by
  refine ⟨counted_iff M st acc X i offset, ?_, ?_, ?_⟩
  · intro h
    obtain ⟨hp, hr⟩ := (counted_iff M st acc X i offset).1 h
    rw [check_station_weight_in M st acc X i offset hp hr]
    simp [pow_two]
  · intro h
    exact check_station_weight_out M st acc X i offset
      (fun hn => h ((counted_iff M st acc X i offset).2 hn))
  · intro hlt
    rw [counted_iff]
    constructor
    · rintro ⟨hp, hr⟩
      exact ⟨hp, lt_of_lt_of_le hr (min_le_left _ _)⟩
    · rintro ⟨hp, hr⟩
      exact ⟨hp, lt_min hr hlt⟩

end c9

theorem example_cos_max (P : param ℝ) (M : libm ℝ) :
    (example_state P M).cos_max_r = M.cos ((P.MAXR : ℝ) / RE) ∧
    (example_state P M).cos_min_r = M.cos ((P.MINR : ℝ) / RE) := ⟨rfl, rfl⟩

theorem cos_lt_one_of_pos {x : ℝ} (h0 : 0 < x) (h1 : x < 6) : Real.cos x < 1 := by
  have hpi := Real.pi_gt_three
  refine lt_of_le_of_ne (Real.cos_le_one x) (fun h => ?_)
  have := (Real.cos_eq_one_iff_of_lt_of_lt (by linarith) (by linarith)).1 h
  linarith

/-- C9 fails as stated when MINR >= MAXR: with MINR = MAXR = 200 a present
station at the particle position has `c = 1 > cos_max_r`, yet it is not
counted in range. -/
theorem C9_counterexample :
    ¬ ((check_station_weight ⟨Real.sin, Real.cos, Real.arccos, Real.sqrt, Real.pi⟩
          (example_state (example_param 1 1 200 200)
            ⟨Real.sin, Real.cos, Real.arccos, Real.sqrt, Real.pi⟩)
          zero_acc ⟨1, 0, 0⟩ 0 0).amount = (zero_acc : weight_acc ℝ).amount + 1 ↔
        (((example_state (example_param 1 1 200 200)
            ⟨Real.sin, Real.cos, Real.arccos, Real.sqrt, Real.pi⟩).wind_current (0 + 0)).p ≠ 0 ∧
          distance_to_station_in_cos 0 ⟨1, 0, 0⟩
              (example_state (example_param 1 1 200 200)
                ⟨Real.sin, Real.cos, Real.arccos, Real.sqrt, Real.pi⟩) >
            (example_state (example_param 1 1 200 200)
              ⟨Real.sin, Real.cos, Real.arccos, Real.sqrt, Real.pi⟩).cos_max_r)) := by
  intro h
  have hc : Real.cos (20 / 637) < 1 := cos_lt_one_of_pos (by norm_num) (by norm_num)
  have hr : ((example_state (example_param 1 1 200 200)
      ⟨Real.sin, Real.cos, Real.arccos, Real.sqrt, Real.pi⟩).wind_current (0 + 0)).p ≠ 0 ∧
      distance_to_station_in_cos 0 ⟨1, 0, 0⟩
          (example_state (example_param 1 1 200 200)
            ⟨Real.sin, Real.cos, Real.arccos, Real.sqrt, Real.pi⟩) >
        (example_state (example_param 1 1 200 200)
          ⟨Real.sin, Real.cos, Real.arccos, Real.sqrt, Real.pi⟩).cos_max_r := by
    refine ⟨by simp [example_state], ?_⟩
    rw [(example_cos_max _ _).1]
    simp only [distance_to_station_in_cos, example_state, example_stations, example_param, RE]
    norm_num
    exact hc
  have h2 := (counted_iff _ _ _ _ _ _).1 (h.2 hr)
  have h3 := h2.2
  rw [(example_cos_max _ _).1, (example_cos_max _ _).2] at h3
  exact absurd (lt_of_lt_of_le h3 (min_le_right _ _)) (lt_irrefl _)

section c6
variable {α : Type} [LinearOrderedField α]

theorem check_resolution_ok (res D : Int) :
    check_resolution res D = .ok () ↔ (res = 0 ∨ res = D) ∧ D ≤ 24 := by
  unfold check_resolution
  split_ifs with h1 h2
  · simp; omega
  · simp; omega
  · simp; omega

theorem check_resolution_error (res D : Int) :
    check_resolution res D = .error .resolution ↔ (res ≠ 0 ∧ res ≠ D) ∨ D > 24 := by
  unfold check_resolution
  split_ifs with h1 h2
  · simp; omega
  · simp; omega
  · simp; omega

theorem wind_of_next_hour_ok (st st2 : state α) (h : wind_of_next_hour st = .ok st2) :
    st.data_diff ≠ 0 ∧ st2.data_diff = st.data_diff ∧ st2.diff = st.diff := by
  unfold wind_of_next_hour at h
  split_ifs at h with h0
  simp only [Except.ok.injEq] at h
  subst h
  rw [wind_of_next_hour_fold]
  exact ⟨h0, rfl, rfl⟩

theorem prepare_calculate_ok (P : param α) (M : libm α) (stations : Nat → station α)
    (fs : Int → Int → Int → Option (List line)) (fuel : Nat) (st : state α)
    (r : heap α × Nat × state α) (h : prepare_calculate P M stations fs fuel st = .ok r) :
    r.2.2.data_diff ≠ 0 ∧ r.2.2.data_diff ≤ 24 ∧ (P.RES = 0 ∨ P.RES = r.2.2.data_diff) := by
  unfold prepare_calculate at h
  simp only [bind, Except.bind, pure, Except.pure] at h
  split_ifs at h with ht
  all_goals first
    | cases h
    | (split at h
       · exact absurd h (by simp)
       · split at h
         · exact absurd h (by simp)
         · rename_i x hinit
           obtain ⟨w, s⟩ := x
           simp only at h
           split at h
           · exact absurd h (by simp)
           · rename_i u hcr
             split at h
             · exact absurd h (by simp)
             · rename_i s2 hw
               simp only [Except.ok.injEq] at h
               subst h
               obtain ⟨h0, h1, _⟩ := wind_of_next_hour_ok s s2 hw
               have := (check_resolution_ok P.RES s.data_diff).1 hcr
               simp only [h1]
               exact ⟨h0, this.2, this.1⟩)

/-- C6: `check_resolution(RES, data_diff)` fails exactly when (RES != 0 and
RES != data_diff) or data_diff > 24; `wind_of_next_hour` fails whenever
data_diff = 0; hence a successful `prepare_calculate` leaves data_diff != 0,
data_diff <= 24 and (RES = 0 or RES = data_diff). -/
theorem C6_resolution (P : param α) (M : libm α) (stations : Nat → station α)
    (fs : Int → Int → Int → Option (List line)) (fuel : Nat) (st : state α) (res D : Int) :
    (check_resolution res D = .error .resolution ↔ (res ≠ 0 ∧ res ≠ D) ∨ D > 24) ∧
    (check_resolution res D = .ok () ↔ ¬ ((res ≠ 0 ∧ res ≠ D) ∨ D > 24)) ∧
    (st.data_diff = 0 → wind_of_next_hour st = .error .no_time_difference) ∧
    (∀ r, prepare_calculate P M stations fs fuel st = .ok r →
      r.2.2.data_diff ≠ 0 ∧ r.2.2.data_diff ≤ 24 ∧ (P.RES = 0 ∨ P.RES = r.2.2.data_diff)) := by
  refine ⟨check_resolution_error res D, ?_, ?_, ?_⟩
  · rw [check_resolution_ok]; omega
  · intro h0
    simp [wind_of_next_hour, h0]
  · intro r hr
    exact prepare_calculate_ok P M stations fs fuel st r hr

end c6

/-! ## Chain navigation -/

theorem path_of_unique (succ : Nat → Option Nat) (r1 : List Nat) :
    ∀ (a : Nat) (r2 : List Nat), path_of succ (a :: r1) → path_of succ (a :: r2) → r1 = r2 := by
  induction r1 with
  | nil =>
    intro a r2 h1 h2
    cases r2 with
    | nil => rfl
    | cons b r2 =>
      simp only [path_of] at h1 h2
      rw [h1] at h2
      exact absurd h2.1 (by simp)
  | cons b r1 ih =>
    intro a r2 h1 h2
    cases r2 with
    | nil =>
      simp only [path_of] at h1 h2
      rw [h2] at h1
      exact absurd h1.1 (by simp)
    | cons b2 r2 =>
      simp only [path_of] at h1 h2
      have hb : b = b2 := by
        have := h1.1.symm.trans h2.1
        simpa using this
      subst hb
      rw [ih b r2 h1.2 h2.2]

theorem path_of_suffix (succ : Nat → Option Nat) (l1 : List Nat) :
    ∀ (a : Nat) (r : List Nat), path_of succ (l1 ++ a :: r) → path_of succ (a :: r) := by
  induction l1 with
  | nil => intro a r h; exact h
  | cons b l1 ih =>
    intro a r h
    cases l1 with
    | nil =>
      simp only [List.cons_append, List.nil_append, path_of] at h
      exact h.2
    | cons c l1 =>
      simp only [List.cons_append, path_of] at h
      exact ih a r h.2

theorem path_of_not_mem (succ : Nat → Option Nat) (n : Nat) (rest : List Nat)
    (h : path_of succ (n :: rest)) : n ∉ rest := by
  intro hmem
  obtain ⟨l1, r2, hr⟩ := List.append_of_mem hmem
  have h2 : path_of succ (n :: r2) := by
    have h3 : path_of succ ((n :: l1) ++ n :: r2) := by
      rw [List.cons_append, ← hr]; exact h
    exact path_of_suffix succ (n :: l1) n r2 h3
  have := path_of_unique succ rest n r2 h h2
  have hl : rest.length = r2.length := by rw [this]
  rw [hr] at hl
  simp at hl
  omega

theorem get_next_element_path {α : Type} (h : heap α) (rest : List Nat) :
    ∀ (n fuel : Nat), next_path h (n :: rest) → rest.length < fuel →
      get_next_element h fuel n =
        match first_with_data h rest with
        | some m => .ok m
        | none => .error .end_of_list := by
  induction rest with
  | nil =>
    intro n fuel hp hf
    obtain ⟨f, rfl⟩ : ∃ f, fuel = f + 1 := ⟨fuel - 1, by omega⟩
    simp only [next_path, path_of] at hp
    simp [get_next_element, hp, first_with_data]
  | cons b r ih =>
    intro n fuel hp hf
    obtain ⟨f, rfl⟩ : ∃ f, fuel = f + 1 := ⟨fuel - 1, by simp at hf; omega⟩
    simp only [next_path, path_of] at hp
    simp only [get_next_element, hp.1, first_with_data, List.find?_cons]
    cases hw : (h.node b).wind with
    | none =>
      simp only [Option.isNone_none, if_true, Option.isSome_none]
      exact ih b f hp.2 (by simp at hf; omega)
    | some w => simp

theorem get_prev_element_path {α : Type} (h : heap α) (rest : List Nat) :
    ∀ (n fuel : Nat), prev_path h (n :: rest) → rest.length < fuel →
      get_prev_element h fuel n =
        match first_with_data h rest with
        | some m => .ok m
        | none => .error .end_of_list := by
  induction rest with
  | nil =>
    intro n fuel hp hf
    obtain ⟨f, rfl⟩ : ∃ f, fuel = f + 1 := ⟨fuel - 1, by omega⟩
    simp only [prev_path, path_of] at hp
    simp [get_prev_element, hp, first_with_data]
  | cons b r ih =>
    intro n fuel hp hf
    obtain ⟨f, rfl⟩ : ∃ f, fuel = f + 1 := ⟨fuel - 1, by simp at hf; omega⟩
    simp only [prev_path, path_of] at hp
    simp only [get_prev_element, hp.1, first_with_data, List.find?_cons]
    cases hw : (h.node b).wind with
    | none =>
      simp only [Option.isNone_none, if_true, Option.isSome_none]
      exact ih b f hp.2 (by simp at hf; omega)
    | some w => simp

theorem first_with_data_some {α : Type} (h : heap α) (l : List Nat) (m : Nat)
    (hm : first_with_data h l = some m) :
    ∃ l1 l2, l = l1 ++ m :: l2 ∧ (∀ x ∈ l1, (h.node x).wind = none) ∧
      (h.node m).wind ≠ none := by
  unfold first_with_data at hm
  obtain ⟨hp, l1, l2, hl, hall⟩ := List.find?_eq_some.1 hm
  refine ⟨l1, l2, hl, ?_, ?_⟩
  · intro x hx
    have := hall x hx
    cases hw : (h.node x).wind with
    | none => rfl
    | some w => simp [hw] at this
  · intro hw
    simp [hw] at hp

theorem first_with_data_none {α : Type} (h : heap α) (l : List Nat) :
    first_with_data h l = none ↔ ∀ x ∈ l, (h.node x).wind = none := by
  unfold first_with_data
  rw [List.find?_eq_none]
  constructor
  · intro hall x hx
    have := hall x hx
    cases hw : (h.node x).wind with
    | none => rfl
    | some w => simp [hw] at this
  · intro hall x hx
    simp [hall x hx]

theorem first_with_data_eq_some {α : Type} (h : heap α) (l1 l2 : List Nat) (m : Nat)
    (h1 : ∀ x ∈ l1, (h.node x).wind = none) (hm : (h.node m).wind ≠ none) :
    first_with_data h (l1 ++ m :: l2) = some m := by
  unfold first_with_data
  induction l1 with
  | nil =>
    cases hw : (h.node m).wind with
    | none => exact absurd hw hm
    | some w => simp [hw]
  | cons a l1 ih =>
    have ha := h1 a (List.mem_cons_self a l1)
    simp only [List.cons_append, List.find?_cons, ha, Option.isSome_none]
    exact ih (fun x hx => h1 x (List.mem_cons_of_mem a hx))

theorem walk_result {α : Type} (h : heap α) (n m : Nat) (rest : List Nat)
    (r : Except failure Nat)
    (hr : r = match first_with_data h rest with
      | some m => .ok m
      | none => .error .end_of_list)
    (hnot : n ∉ rest) :
    (r = .ok m ↔ ∃ l1 l2, rest = l1 ++ m :: l2 ∧ (∀ x ∈ l1, (h.node x).wind = none) ∧
        (h.node m).wind ≠ none) ∧
    (r = .error .end_of_list ↔ ∀ x ∈ rest, (h.node x).wind = none) ∧
    (r = .ok m → m ≠ n ∧ (h.node m).wind ≠ none) := by
  have hok : r = .ok m ↔ ∃ l1 l2, rest = l1 ++ m :: l2 ∧
      (∀ x ∈ l1, (h.node x).wind = none) ∧ (h.node m).wind ≠ none := by
    constructor
    · intro h1
      cases hf : first_with_data h rest with
      | none => rw [hf] at hr; rw [hr] at h1; exact absurd h1 (by simp)
      | some k =>
        rw [hf] at hr
        rw [hr] at h1
        simp only [Except.ok.injEq] at h1
        subst h1
        exact first_with_data_some h rest k hf
    · rintro ⟨l1, l2, hl, h1, hm⟩
      rw [hr, hl, first_with_data_eq_some h l1 l2 m h1 hm]
  refine ⟨hok, ?_, ?_⟩
  · rw [← first_with_data_none]
    cases hf : first_with_data h rest with
    | none => rw [hf] at hr; simp [hr]
    | some k => rw [hf] at hr; simp [hr]
  · intro h1
    obtain ⟨l1, l2, hl, _, hm⟩ := hok.1 h1
    refine ⟨?_, hm⟩
    rintro rfl
    exact hnot (by rw [hl]; simp)

/-- C7: in a chain (the nodes `after` follow `n` along `next` up to `NULL`,
the nodes `before` follow it along `prev` up to `NULL`), `get_next_element(n)`
returns `m` exactly when `m` is the first node after `n` along `next` whose
sample array is not `NULL`, and stops with the end-of-list exit exactly when
no node after `n` has one; `get_prev_element` is the same along `prev`.  A
returned node is never `n` and never an empty snapshot. -/
theorem C7_navigation {α : Type} (h : heap α) (n m fuel : Nat) (after before : List Nat)
    (hn : next_path h (n :: after)) (hp : prev_path h (n :: before))
    (hf1 : after.length < fuel) (hf2 : before.length < fuel) :
    ((get_next_element h fuel n = .ok m ↔
        ∃ l1 l2, after = l1 ++ m :: l2 ∧ (∀ x ∈ l1, (h.node x).wind = none) ∧
          (h.node m).wind ≠ none) ∧
      (get_next_element h fuel n = .error .end_of_list ↔
        ∀ x ∈ after, (h.node x).wind = none) ∧
      (get_next_element h fuel n = .ok m → m ≠ n ∧ (h.node m).wind ≠ none)) ∧
    ((get_prev_element h fuel n = .ok m ↔
        ∃ l1 l2, before = l1 ++ m :: l2 ∧ (∀ x ∈ l1, (h.node x).wind = none) ∧
          (h.node m).wind ≠ none) ∧
      (get_prev_element h fuel n = .error .end_of_list ↔
        ∀ x ∈ before, (h.node x).wind = none) ∧
      (get_prev_element h fuel n = .ok m → m ≠ n ∧ (h.node m).wind ≠ none)) :=
  ⟨walk_result h n m after _ (get_next_element_path h after n fuel hn hf1)
      (path_of_not_mem _ n after hn),
    walk_result h n m before _ (get_prev_element_path h before n fuel hp hf2)
      (path_of_not_mem _ n before hp)⟩

theorem C7_navigation_witness :
    ((get_next_element tiny_heap 10 1 = .ok 3 ↔
        ∃ l1 l2, [2, 3, 4] = l1 ++ 3 :: l2 ∧ (∀ x ∈ l1, (tiny_heap.node x).wind = none) ∧
          (tiny_heap.node 3).wind ≠ none) ∧
      (get_next_element tiny_heap 10 1 = .error .end_of_list ↔
        ∀ x ∈ [2, 3, 4], (tiny_heap.node x).wind = none) ∧
      (get_next_element tiny_heap 10 1 = .ok 3 → 3 ≠ 1 ∧ (tiny_heap.node 3).wind ≠ none)) ∧
    ((get_prev_element tiny_heap 10 1 = .ok 3 ↔
        ∃ l1 l2, [0] = l1 ++ 3 :: l2 ∧ (∀ x ∈ l1, (tiny_heap.node x).wind = none) ∧
          (tiny_heap.node 3).wind ≠ none) ∧
      (get_prev_element tiny_heap 10 1 = .error .end_of_list ↔
        ∀ x ∈ [0], (tiny_heap.node x).wind = none) ∧
      (get_prev_element tiny_heap 10 1 = .ok 3 → 3 ≠ 1 ∧ (tiny_heap.node 3).wind ≠ none)) :=
  C7_navigation tiny_heap 1 3 10 [2, 3, 4] [0]
    (by simp only [next_path, path_of]; decide) (by simp only [prev_path, path_of]; decide)
    (by decide) (by decide)

/-! ## Calendar order -/

theorem date_lt_irrefl (a : date) : ¬ date_lt a a := by
  unfold date_lt; omega

theorem date_lt_trans (a b c : date) (h1 : date_lt a b) (h2 : date_lt b c) : date_lt a c := by
  unfold date_lt at *; omega

theorem valid_backward (t : date) (h : valid_date t) : valid_date (time_step_backward t) := by
  obtain ⟨y, m, d, hr⟩ := t
  obtain ⟨h1, h2, h3, h4, h5, h6⟩ := h
  simp only at h1 h2 h3 h4 h5 h6
  unfold time_step_backward
  by_cases hh : hr = 0
  · by_cases hd : d = 1
    · by_cases hm : m - 1 = 0
      · simp only [hh, hd, hm, ne_eq, not_true_eq_false, if_false, if_true]
        refine ⟨by norm_num, by norm_num, ?_, ?_, by norm_num, by norm_num⟩
        · simp [month_length]
        · simp [month_length, gregorian_days]
      · simp only [hh, hd, hm, ne_eq, not_true_eq_false, if_false]
        have hp := month_length_pos y (m - 1)
        refine ⟨?_, ?_, ?_, ?_, by norm_num, by norm_num⟩
        · dsimp only; omega
        · dsimp only; omega
        · dsimp only; omega
        · dsimp only
          rw [month_length_eq y (m - 1) (by omega) (by omega)]
    · simp only [hh, hd, ne_eq, not_true_eq_false, if_false, not_false_eq_true, if_true]
      refine ⟨h1, h2, ?_, ?_, by norm_num, by norm_num⟩
      · dsimp only; omega
      · dsimp only; omega
  · simp only [hh, ne_eq, not_false_eq_true, if_true]
    refine ⟨h1, h2, h3, h4, ?_, ?_⟩
    · dsimp only; omega
    · dsimp only; omega

theorem backward_lt (t : date) (h : valid_date t) : date_lt (time_step_backward t) t := by
  obtain ⟨y, m, d, hr⟩ := t
  obtain ⟨h1, h2, h3, h4, h5, h6⟩ := h
  simp only at h1 h2 h3 h4 h5 h6
  unfold time_step_backward date_lt
  by_cases hh : hr = 0
  · by_cases hd : d = 1
    · by_cases hm : m - 1 = 0
      · simp only [hh, hd, hm, ne_eq, not_true_eq_false, if_false, if_true]
        omega
      · simp only [hh, hd, hm, ne_eq, not_true_eq_false, if_false]
        exact Or.inr ⟨trivial, Or.inl (by omega)⟩
    · simp only [hh, hd, ne_eq, not_true_eq_false, if_false, not_false_eq_true, if_true]
      exact Or.inr ⟨trivial, Or.inr ⟨trivial, Or.inl (by omega)⟩⟩
  · simp only [hh, ne_eq, not_false_eq_true, if_true]
    exact Or.inr ⟨trivial, Or.inr ⟨trivial, Or.inr ⟨trivial, by omega⟩⟩⟩

theorem valid_backward_iter (t : date) (h : valid_date t) (k : Nat) :
    valid_date (time_step_backward^[k] t) := by
  induction k with
  | zero => exact h
  | succ n ih => rw [Function.iterate_succ_apply']; exact valid_backward _ ih

theorem backward_iter_le (t : date) (h : valid_date t) (k : Nat) :
    time_step_backward^[k] t = t ∨ date_lt (time_step_backward^[k] t) t := by
  induction k with
  | zero => exact Or.inl rfl
  | succ n ih =>
    rw [Function.iterate_succ_apply']
    have hlt := backward_lt _ (valid_backward_iter t h n)
    rcases ih with ih | ih
    · right; rw [ih] at hlt ⊢; exact hlt
    · right; exact date_lt_trans _ _ _ hlt ih

theorem forward_backward_iter (t : date) (h : valid_date t) (k : Nat) :
    time_step_forward^[k] (time_step_backward^[k] t) = t := by
  induction k with
  | zero => rfl
  | succ n ih =>
    rw [Function.iterate_succ_apply, Function.iterate_succ_apply',
      forward_backward _ (valid_backward_iter t h n), ih]

/-- If `P` lies `nb` hours before the valid time `S` and `N` lies `nf` hours
after `P`, and `N` is later than `S`, then `nb < nf`. -/
theorem init_gap (S Pt Nt : date) (nb nf : Nat) (hS : valid_date S)
    (hb : time_step_backward^[nb] S = Pt) (hf : time_step_forward^[nf] Pt = Nt)
    (hlt : date_lt S Nt) : nb < nf := by
  by_contra hle
  have hle : nf ≤ nb := by omega
  have e : nb = nf + (nb - nf) := by omega
  rw [e, Function.iterate_add_apply] at hb
  rw [← hb, forward_backward_iter _ (valid_backward_iter S hS _)] at hf
  rcases backward_iter_le S hS (nb - nf) with h1 | h1
  · rw [h1] at hf; rw [← hf] at hlt; exact date_lt_irrefl _ hlt
  · rw [hf] at h1; exact date_lt_irrefl _ (date_lt_trans _ _ _ h1 hlt)

theorem count_steps_spec (step : date → date) (target : date) (fuel : Nat) :
    ∀ (t : date) (n : Int), count_steps step target fuel t = .ok n →
      0 ≤ n ∧ step^[n.toNat] t = target := by
  induction fuel with
  | zero => intro t n h; simp [count_steps] at h
  | succ f ih =>
    intro t n h
    unfold count_steps at h
    split_ifs at h with heq
    · simp only [Except.ok.injEq] at h
      subst h
      exact ⟨le_refl _, heq⟩
    · cases hc : count_steps step target f (step t) with
      | error e => rw [hc] at h; simp [Except.map] at h
      | ok k =>
        rw [hc] at h
        simp only [Except.map, Except.ok.injEq] at h
        obtain ⟨hk, hit⟩ := ih (step t) k hc
        subst h
        refine ⟨by omega, ?_⟩
        have : (k + 1).toNat = k.toNat + 1 := by omega
        rw [this, Function.iterate_succ_apply]
        exact hit

/-! ## The data window -/

section window
variable {α : Type}

theorem foldl_keeps {β : Type} (f : state α → β → state α)
    (hf : ∀ s b, (f s b).diff = s.diff ∧ (f s b).data_diff = s.data_diff)
    (l : List β) : ∀ s, (l.foldl f s).diff = s.diff ∧ (l.foldl f s).data_diff = s.data_diff := by
  induction l with
  | nil => intro s; exact ⟨rfl, rfl⟩
  | cons b l ih =>
    intro s
    rw [List.foldl_cons]
    obtain ⟨h1, h2⟩ := ih (f s b)
    obtain ⟨h3, h4⟩ := hf s b
    exact ⟨h1.trans h3, h2.trans h4⟩

theorem copy_wind_current_keeps (st : state α) :
    (copy_wind_current st).diff = st.diff ∧ (copy_wind_current st).data_diff = st.data_diff := by
  unfold copy_wind_current
  refine foldl_keeps _ ?_ _ st
  intro s b
  exact ⟨rfl, rfl⟩

theorem load_slot_keeps (st : state α) (w : Nat → wind α) (offset : Nat) :
    (load_slot st w offset).diff = st.diff ∧ (load_slot st w offset).data_diff = st.data_diff := by
  unfold load_slot
  refine foldl_keeps _ ?_ _ st
  intro s b
  exact ⟨rfl, rfl⟩

theorem shift_slots_keeps (P : param α) (st : state α) (w : Nat → wind α) :
    (shift_slots P st w).diff = st.diff ∧ (shift_slots P st w).data_diff = st.data_diff := by
  unfold shift_slots
  refine foldl_keeps _ ?_ _ st
  intro s i
  dsimp only
  split_ifs <;> exact ⟨rfl, rfl⟩

theorem get_next_wind_data_ok (P : param α) (h : heap α) (fuel : Nat) (st : state α)
    (w : Nat) (r : Nat × state α) (hr : get_next_wind_data P h fuel st w = .ok r) :
    0 ≤ r.2.data_diff ∧ r.2.diff = st.diff := by
  unfold get_next_wind_data at hr
  simp only [bind, Except.bind, pure, Except.pure] at hr
  split at hr
  · cases hr
  · split at hr
    · cases hr
    · rename_i n hn
      split at hr
      · cases hr
      · simp only [Except.ok.injEq] at hr
        subst hr
        obtain ⟨h1, h2⟩ := shift_slots_keeps P
          { st with data_diff := (0 : Int) + n } (by assumption)
        have hn0 := (count_steps_spec _ _ _ _ _ hn).1
        constructor
        · show (shift_slots P _ _).data_diff ≥ 0
          rw [h2]; show 0 ≤ (0 : Int) + n; omega
        · show (shift_slots P _ _).diff = st.diff
          rw [h1]

theorem hour_boundary_keeps [LinearOrderedField α] (P : param α) (h : heap α) (fuel : Nat) (st : state α) (w : Nat)
    (r : Nat × state α) (hinv : window_invariant P st)
    (hr : hour_boundary P h fuel st w = .ok r) : window_invariant P r.2 := by
  obtain ⟨i1, i2, i3⟩ := hinv
  unfold hour_boundary at hr
  simp only [bind, Except.bind, pure, Except.pure] at hr
  generalize hs1 : copy_wind_current
    (if P.TRACE > 0 then { st with diff := st.diff + 1 } else { st with diff := st.diff - 1 })
    = s1 at hr
  have hd : s1.data_diff = st.data_diff ∧
      s1.diff = if P.TRACE > 0 then st.diff + 1 else st.diff - 1 := by
    rw [← hs1]
    obtain ⟨a, b⟩ := copy_wind_current_keeps
      (if P.TRACE > 0 then { st with diff := st.diff + 1 } else { st with diff := st.diff - 1 })
    rw [a, b]
    split_ifs <;> exact ⟨rfl, rfl⟩
  obtain ⟨hd1, hd2⟩ := hd
  split at hr
  · cases hr
  · rename_i v heq
    split at hr
    · cases hr
    · rename_i v1 hw
      simp only [Except.ok.injEq] at hr
      subst hr
      obtain ⟨w0, w1, w2⟩ := wind_of_next_hour_ok v.2 v1 hw
      unfold window_invariant
      simp only [w1, w2]
      split_ifs at heq with hc ht
      · split at heq
        · cases heq
        · rename_i g hg
          split at heq
          · cases heq
          · rename_i u hcr
            obtain ⟨g0, _⟩ := get_next_wind_data_ok P h fuel s1 w g hg
            obtain ⟨c1, _⟩ := (check_resolution_ok P.RES g.2.data_diff).1 hcr
            cases heq
            dsimp only at w0 ⊢
            exact ⟨le_refl _, by omega, by omega⟩
      · split at heq
        · cases heq
        · rename_i g hg
          split at heq
          · cases heq
          · rename_i u hcr
            obtain ⟨g0, _⟩ := get_next_wind_data_ok P h fuel s1 w g hg
            obtain ⟨c1, _⟩ := (check_resolution_ok P.RES g.2.data_diff).1 hcr
            cases heq
            dsimp only at w0 ⊢
            exact ⟨by omega, by omega, by omega⟩
      · cases heq
        dsimp only at w0 ⊢
        rw [hd1, hd2] at hc
        rw [hd1, hd2]
        by_cases ht : P.TRACE > 0
        · rw [if_pos ht] at hc ⊢
          exact ⟨by omega, by omega, i3⟩
        · rw [if_neg ht] at hc ⊢
          exact ⟨by omega, by omega, i3⟩

end window

section initw
variable {α : Type}

theorem load_result (x2 : state α) (v v3 : Nat → wind α) (nf : Int) :
    (load_slot { load_slot x2 v 0 with data_diff := (load_slot x2 v 0).data_diff + nf } v3
        (load_slot x2 v 0).station_max).diff = x2.diff ∧
    (load_slot { load_slot x2 v 0 with data_diff := (load_slot x2 v 0).data_diff + nf } v3
        (load_slot x2 v 0).station_max).data_diff = x2.data_diff + nf := by
  obtain ⟨a, b⟩ := load_slot_keeps
    { load_slot x2 v 0 with data_diff := (load_slot x2 v 0).data_diff + nf } v3
    (load_slot x2 v 0).station_max
  obtain ⟨c, d⟩ := load_slot_keeps x2 v 0
  rw [a, b]
  exact ⟨c, by show (load_slot x2 v 0).data_diff + nf = _; rw [d]⟩

theorem init_wind_data_inv (P : param α) (h : heap α) (fuel : Nat) (st : state α)
    (w0 w1 : Nat) (st1 : state α) (hr : init_wind_data P h fuel st w0 = .ok (w1, st1)) :
    ∃ S, seek_time h st.time fuel w0 = .ok S ∧
      (((h.node S).wind ≠ none ∧ st1.diff = 0 ∧ ∃ N nf,
          (if P.TRACE > 0 then get_next_element h fuel S else get_prev_element h fuel S)
            = .ok N ∧
          count_steps time_step_forward (h.node N).time fuel (h.node S).time = .ok nf ∧
          st1.data_diff = nf) ∨
       ((h.node S).wind = none ∧ ∃ Pn nb N nf,
          (if P.TRACE > 0 then get_prev_element h fuel S else get_next_element h fuel S)
            = .ok Pn ∧
          count_steps time_step_backward (h.node Pn).time fuel (h.node S).time = .ok nb ∧
          (if P.TRACE > 0 then get_next_element h fuel Pn else get_prev_element h fuel Pn)
            = .ok N ∧
          count_steps time_step_forward (h.node N).time fuel (h.node Pn).time = .ok nf ∧
          st1.diff = nb ∧ st1.data_diff = nf)) := by
  unfold init_wind_data at hr
  simp only [bind, Except.bind, pure, Except.pure] at hr
  split at hr
  · cases hr
  · rename_i S hS
    refine ⟨S, hS, ?_⟩
    split at hr
    · cases hr
    · rename_i x hx
      have tail : ∃ N nf,
          (if P.TRACE > 0 then get_next_element h fuel x.1 else get_prev_element h fuel x.1)
            = .ok N ∧
          count_steps time_step_forward (h.node N).time fuel (h.node x.1).time = .ok nf ∧
          st1.diff = x.2.diff ∧ st1.data_diff = x.2.data_diff + nf := by
        split at hr
        · cases hr
        · rename_i v hv
          by_cases ht : P.TRACE > 0
          · rw [if_pos ht] at hr ⊢
            split at hr
            · cases hr
            · rename_i N hN
              split at hr
              · cases hr
              · rename_i nf hnf
                split at hr
                · cases hr
                · rename_i v3 hv3
                  refine ⟨N, nf, hN, hnf, ?_⟩
                  split_ifs at hr
                  · split at hr
                    · cases hr
                    · cases hr
                      exact load_result x.2 v v3 nf
                  · cases hr
                    exact load_result x.2 v v3 nf
          · rw [if_neg ht] at hr ⊢
            split at hr
            · cases hr
            · rename_i N hN
              split at hr
              · cases hr
              · rename_i nf hnf
                split at hr
                · cases hr
                · rename_i v3 hv3
                  refine ⟨N, nf, hN, hnf, ?_⟩
                  split_ifs at hr
                  · split at hr
                    · cases hr
                    · cases hr
                      exact load_result x.2 v v3 nf
                  · cases hr
                    exact load_result x.2 v v3 nf
      obtain ⟨N, nf, hN, hnf, hd, hdd⟩ := tail
      cases hw : (h.node S).wind with
      | some w =>
        rw [hw] at hx
        cases hx
        left
        refine ⟨by simp, by rw [hd], N, nf, hN, hnf, ?_⟩
        rw [hdd]
        show (0 : Int) + nf = nf
        omega
      | none =>
        rw [hw] at hx
        right
        refine ⟨rfl, ?_⟩
        by_cases ht : P.TRACE > 0
        · simp only [if_pos ht] at hx hN ⊢
          split at hx
          · cases hx
          · rename_i Pn hPn
            split at hx
            · cases hx
            · rename_i nb hnb
              cases hx
              refine ⟨Pn, nb, N, nf, hPn, hnb, hN, hnf, ?_, ?_⟩
              · rw [hd]; show (0 : Int) + nb = nb; omega
              · rw [hdd]; show (0 : Int) + nf = nf; omega
        · simp only [if_neg ht] at hx hN ⊢
          split at hx
          · cases hx
          · rename_i Pn hPn
            split at hx
            · cases hx
            · rename_i nb hnb
              cases hx
              refine ⟨Pn, nb, N, nf, hPn, hnb, hN, hnf, ?_, ?_⟩
              · rw [hd]; show (0 : Int) + nb = nb; omega
              · rw [hdd]; show (0 : Int) + nf = nf; omega

end initw

section initproof
variable {α : Type}

theorem path_of_suffix_eq (succ : Nat → Option Nat) (l l1 r : List Nat) (a : Nat)
    (h : path_of succ l) (e : l = l1 ++ a :: r) : path_of succ (a :: r) := by
  subst e; exact path_of_suffix succ l1 a r h

theorem seek_time_mem (h : heap α) (t : date) (fuel : Nat) :
    ∀ (w S : Nat) (c : List Nat), seek_time h t fuel w = .ok S → next_path h (w :: c) →
      S ∈ w :: c ∧ (h.node S).time = t := by
  induction fuel with
  | zero => intro w S c hs; simp [seek_time] at hs
  | succ f ih =>
    intro w S c hs hp
    unfold seek_time at hs
    split_ifs at hs with ht
    · cases hs
      exact ⟨List.mem_cons_self _ _, ht.symm⟩
    · cases c with
      | nil =>
        simp only [next_path, path_of] at hp
        rw [hp] at hs
        cases hs
      | cons b c =>
        simp only [next_path, path_of] at hp
        rw [hp.1] at hs
        obtain ⟨h1, h2⟩ := ih b S c hs hp.2
        exact ⟨List.mem_cons_of_mem _ h1, h2⟩

theorem get_next_element_found (h : heap α) (rest : List Nat) :
    ∀ (n fuel m : Nat), next_path h (n :: rest) → get_next_element h fuel n = .ok m →
      first_with_data h rest = some m := by
  induction rest with
  | nil =>
    intro n fuel m hp hg
    cases fuel with
    | zero => simp [get_next_element] at hg
    | succ f =>
      simp only [next_path, path_of] at hp
      simp [get_next_element, hp] at hg
  | cons b r ih =>
    intro n fuel m hp hg
    cases fuel with
    | zero => simp [get_next_element] at hg
    | succ f =>
      simp only [next_path, path_of] at hp
      simp only [get_next_element, hp.1] at hg
      simp only [first_with_data, List.find?_cons]
      cases hw : (h.node b).wind with
      | none =>
        simp only [hw, Option.isNone_none, if_true] at hg
        simp only [Option.isSome_none]
        exact ih b f m hp.2 hg
      | some w =>
        simp only [hw, Option.isNone_some, Bool.false_eq_true, if_false, Except.ok.injEq] at hg
        simp [hg]

theorem get_prev_element_found (h : heap α) (rest : List Nat) :
    ∀ (n fuel m : Nat), prev_path h (n :: rest) → get_prev_element h fuel n = .ok m →
      first_with_data h rest = some m := by
  induction rest with
  | nil =>
    intro n fuel m hp hg
    cases fuel with
    | zero => simp [get_prev_element] at hg
    | succ f =>
      simp only [prev_path, path_of] at hp
      simp [get_prev_element, hp] at hg
  | cons b r ih =>
    intro n fuel m hp hg
    cases fuel with
    | zero => simp [get_prev_element] at hg
    | succ f =>
      simp only [prev_path, path_of] at hp
      simp only [get_prev_element, hp.1] at hg
      simp only [first_with_data, List.find?_cons]
      cases hw : (h.node b).wind with
      | none =>
        simp only [hw, Option.isNone_none, if_true] at hg
        simp only [Option.isSome_none]
        exact ih b f m hp.2 hg
      | some w =>
        simp only [hw, Option.isNone_some, Bool.false_eq_true, if_false, Except.ok.injEq] at hg
        simp [hg]

theorem first_with_data_skip (h : heap α) (e l : List Nat)
    (he : ∀ x ∈ e, (h.node x).wind = none) :
    first_with_data h (e ++ l) = first_with_data h l := by
  induction e with
  | nil => rfl
  | cons a e ih =>
    have ha := he a (List.mem_cons_self a e)
    simp only [first_with_data, List.cons_append, List.find?_cons, ha, Option.isSome_none]
    exact ih (fun x hx => he x (List.mem_cons_of_mem a hx))

theorem first_with_data_drop (h : heap α) (l e : List Nat)
    (he : ∀ x ∈ e, (h.node x).wind = none) :
    first_with_data h (l ++ e) = first_with_data h l := by
  induction l with
  | nil =>
    simp only [List.nil_append]
    rw [(first_with_data_none h e).2 he]
    rfl
  | cons a l ih =>
    simp only [first_with_data, List.cons_append, List.find?_cons]
    cases hw : (h.node a).wind with
    | none => simpa [first_with_data] using ih
    | some w => simp

theorem first_with_data_mem (h : heap α) (l : List Nat) (m : Nat)
    (hm : first_with_data h l = some m) : m ∈ l ∧ (h.node m).wind ≠ none := by
  obtain ⟨l1, l2, hl, _, hw⟩ := first_with_data_some h l m hm
  exact ⟨by rw [hl]; simp, hw⟩

end initproof

section initproof2
variable {α : Type}

theorem init_window (P : param α) (h : heap α) (fuel : Nat) (st : state α) (w0 : Nat)
    (c pre : List Nat) (hv : valid_date st.time) (hc : chain_ok P h st.time w0 c pre)
    (w1 : Nat) (st1 : state α) (hr : init_wind_data P h fuel st w0 = .ok (w1, st1)) :
    0 ≤ st1.diff ∧ 0 ≤ st1.data_diff ∧ (st1.data_diff ≠ 0 → st1.diff < st1.data_diff) := by
  obtain ⟨hnext, hprev, hpre, hw0, hdata, hord⟩ := hc
  obtain ⟨S, hS, hcase⟩ := init_wind_data_inv P h fuel st w0 w1 st1 hr
  rcases hcase with ⟨_, hd, N, nf, _, hnf, hdd⟩ | ⟨hSw, Pn, nb, N, nf, hPn, hnb, hN, hnf, hd, hdd⟩
  · have h0 := (count_steps_spec _ _ _ _ _ hnf).1
    rw [hd, hdd]
    exact ⟨le_refl _, h0, fun hne => by omega⟩
  · obtain ⟨hb0, hbit⟩ := count_steps_spec _ _ _ _ _ hnb
    obtain ⟨hf0, hfit⟩ := count_steps_spec _ _ _ _ _ hnf
    obtain ⟨hSmem, hSt⟩ := seek_time_mem h st.time fuel w0 S c hS hnext
    have hSc : S ∈ c := by
      rcases List.mem_cons.1 hSmem with e | e
      · exact absurd (by rw [← e]; exact hSt) hw0
      · exact e
    obtain ⟨l1, l2, hl⟩ := List.append_of_mem hSc
    have hvS : valid_date (h.node S).time := by rw [hSt]; exact hv
    have key : date_lt (h.node S).time (h.node N).time := by
      by_cases ht : P.TRACE > 0
      · rw [if_pos ht] at hPn hN
        have hp1 : prev_path h (S :: (l1.reverse ++ pre)) := by
          refine path_of_suffix_eq _ _ l2.reverse _ S hprev ?_
          rw [hl]; simp
        have f1 := get_prev_element_found h _ S fuel Pn hp1 hPn
        rw [first_with_data_drop h _ _ hpre] at f1
        obtain ⟨e1, e2, he, hempty, _⟩ := first_with_data_some h _ Pn f1
        have hl1 : l1 = e2.reverse ++ Pn :: e1.reverse := by
          have := congrArg List.reverse he
          simpa using this
        have hp2 : next_path h (Pn :: (e1.reverse ++ S :: l2)) := by
          refine path_of_suffix_eq _ _ (w0 :: e2.reverse) _ Pn hnext ?_
          rw [hl, hl1]; simp
        have f2 := get_next_element_found h _ Pn fuel N hp2 hN
        rw [first_with_data_skip h _ _ (fun x hx => hempty x (List.mem_reverse.1 hx))] at f2
        have f3 : first_with_data h l2 = some N := by
          simpa [first_with_data, hSw] using f2
        obtain ⟨hNmem, hNw⟩ := first_with_data_mem h l2 N f3
        have hNc : N ∈ c := by rw [hl]; simp [hNmem]
        rw [hl] at hord
        have := (List.pairwise_cons.1 (List.pairwise_append.1 hord).2.1).1 N hNmem hvS
          (hdata N hNc hNw)
        rwa [if_pos ht] at this
      · rw [if_neg ht] at hPn hN
        have hp1 : next_path h (S :: l2) := by
          refine path_of_suffix_eq _ _ (w0 :: l1) _ S hnext ?_
          rw [hl]; simp
        have f1 := get_next_element_found h _ S fuel Pn hp1 hPn
        obtain ⟨e1, e2, he, hempty, _⟩ := first_with_data_some h _ Pn f1
        have hp2 : prev_path h (Pn :: (e1.reverse ++ S :: (l1.reverse ++ pre))) := by
          refine path_of_suffix_eq _ _ e2.reverse _ Pn hprev ?_
          rw [hl, he]; simp
        have f2 := get_prev_element_found h _ Pn fuel N hp2 hN
        rw [first_with_data_skip h _ _ (fun x hx => hempty x (List.mem_reverse.1 hx))] at f2
        have f3 : first_with_data h (l1.reverse ++ pre) = some N := by
          simpa [first_with_data, hSw] using f2
        rw [first_with_data_drop h _ _ hpre] at f3
        obtain ⟨hNmem, hNw⟩ := first_with_data_mem h _ N f3
        have hNl1 : N ∈ l1 := List.mem_reverse.1 hNmem
        have hNc : N ∈ c := by rw [hl]; simp [hNl1]
        rw [hl] at hord
        have := (List.pairwise_append.1 hord).2.2 N hNl1 S (List.mem_cons_self _ _)
          (hdata N hNc hNw) hvS
        rwa [if_neg ht] at this
    have hgap := init_gap _ _ _ nb.toNat nf.toNat hvS hbit hfit key
    rw [hd, hdd]
    exact ⟨hb0, hf0, fun _ => by omega⟩

end initproof2

theorem crossings_keep {α : Type} [LinearOrderedField α] (P : param α) (h : heap α)
    (fuel : Nat) (n : Nat) :
    ∀ (x r : Nat × state α), window_invariant P x.2 → crossings P h fuel n x = .ok r →
      window_invariant P r.2 := by
  induction n with
  | zero =>
    intro x r hx hr
    simp only [crossings, Except.ok.injEq] at hr
    rw [← hr]; exact hx
  | succ k ih =>
    intro x r hx hr
    simp only [crossings] at hr
    split at hr
    · cases hr
    · rename_i y hy
      exact hour_boundary_keeps P h fuel y.2 y.1 r (ih x y hx hy) hr

/-- C5: on a snapshot chain in trace order (`chain_ok`) and for a valid start
time, the status after initialisation (`init_wind_data`, `check_resolution`,
`wind_of_next_hour` all returning) satisfies `0 ≤ diff < data_diff` and
`data_diff = RES` when `RES ≠ 0`; every hour-boundary crossing that returns
keeps this, from any status that satisfies it; hence after initialisation and
after any number of crossings `0 ≤ diff ≤ data_diff`, `data_diff > 0` and
`data_diff = RES` when `RES ≠ 0`.  The trace direction is the sign of TRACE. -/
theorem C5_window_invariant {α : Type} [LinearOrderedField α] (P : param α) (h : heap α)
    (fuel : Nat) (st : state α) (w0 : Nat) (c pre : List Nat)
    (hv : valid_date st.time) (hc : chain_ok P h st.time w0 c pre) :
    (∀ w1 st1 st2, init_wind_data P h fuel st w0 = .ok (w1, st1) →
      check_resolution P.RES st1.data_diff = .ok () → wind_of_next_hour st1 = .ok st2 →
      window_invariant P st2) ∧
    (∀ (s : state α) (w : Nat) (r : Nat × state α), window_invariant P s →
      hour_boundary P h fuel s w = .ok r → window_invariant P r.2) ∧
    (∀ w1 st1 st2 n r, init_wind_data P h fuel st w0 = .ok (w1, st1) →
      check_resolution P.RES st1.data_diff = .ok () → wind_of_next_hour st1 = .ok st2 →
      crossings P h fuel n (w1, st2) = .ok r →
      0 ≤ r.2.diff ∧ r.2.diff ≤ r.2.data_diff ∧ r.2.data_diff > 0 ∧
        (P.RES ≠ 0 → r.2.data_diff = P.RES)) := by
  have init : ∀ w1 st1 st2, init_wind_data P h fuel st w0 = .ok (w1, st1) →
      check_resolution P.RES st1.data_diff = .ok () → wind_of_next_hour st1 = .ok st2 →
      window_invariant P st2 := by
    intro w1 st1 st2 h1 h2 h3
    obtain ⟨a, b, d⟩ := init_window P h fuel st w0 c pre hv hc w1 st1 h1
    obtain ⟨e0, e1, e2⟩ := wind_of_next_hour_ok st1 st2 h3
    obtain ⟨r1, _⟩ := (check_resolution_ok P.RES st1.data_diff).1 h2
    unfold window_invariant
    rw [e1, e2]
    exact ⟨a, d e0, fun hne => by omega⟩
  refine ⟨init, fun s w r hs hr => hour_boundary_keeps P h fuel s w r hs hr, ?_⟩
  intro w1 st1 st2 n r h1 h2 h3 h4
  obtain ⟨a, b, d⟩ := crossings_keep P h fuel n (w1, st2) r (init w1 st1 st2 h1 h2 h3) h4
  exact ⟨a, by omega, by omega, d⟩

theorem C5_window_invariant_witness :
    (∃ w1 st1 st2, init_wind_data (example_param 1 2 2 200) tiny_heap 10 (start21_state 1) 0
        = .ok (w1, st1) ∧
      check_resolution 2 st1.data_diff = .ok () ∧ wind_of_next_hour st1 = .ok st2 ∧
      st2.diff = 1 ∧ st2.data_diff = 2) ∧
    (∀ w1 st1 st2 n r,
      init_wind_data (example_param 1 2 2 200) tiny_heap 10 (start21_state 1) 0
        = .ok (w1, st1) →
      check_resolution (example_param 1 2 2 200 : param ℚ).RES st1.data_diff = .ok () →
      wind_of_next_hour st1 = .ok st2 →
      crossings (example_param 1 2 2 200) tiny_heap 10 n (w1, st2) = .ok r →
      0 ≤ r.2.diff ∧ r.2.diff ≤ r.2.data_diff ∧ r.2.data_diff > 0 ∧
        ((example_param 1 2 2 200 : param ℚ).RES ≠ 0 →
          r.2.data_diff = (example_param 1 2 2 200 : param ℚ).RES)) := by
  refine ⟨?_, (C5_window_invariant (example_param 1 2 2 200) tiny_heap 10 (start21_state 1) 0
    [1, 2, 3, 4] [0] (by decide) ?_).2.2⟩
  · exact ⟨_, _, _, rfl, rfl, rfl, rfl, rfl⟩
  · refine ⟨by simp only [next_path, path_of]; decide, by simp only [prev_path, path_of]; decide,
      ?_, by decide, ?_, by decide⟩
    · intro x hx
      simp only [List.mem_singleton] at hx
      subst hx
      rfl
    · intro a ha _
      simp only [List.mem_cons, List.mem_singleton, List.not_mem_nil, or_false] at ha
      rcases ha with rfl | rfl | rfl | rfl <;> decide

/-! ## Snapshot chain assembly -/

/-! ## Building the chain -/

section heap_updates
variable {α : Type}

theorem new_winddata_fst (h : heap α) : (new_winddata h).1 = h.size := rfl

theorem new_winddata_size (h : heap α) : (new_winddata h).2.size = h.size + 1 := rfl

theorem new_winddata_node (h : heap α) (b : Nat) :
    (new_winddata h).2.node b =
      if b = h.size then ⟨⟨0, 0, 0, 0⟩, none, none, none⟩ else h.node b := by
  simp only [new_winddata, Function.update_apply]

theorem set_next_size (h : heap α) (a : Nat) (v : Option Nat) :
    (set_next h a v).size = h.size := rfl

theorem set_prev_size (h : heap α) (a : Nat) (v : Option Nat) :
    (set_prev h a v).size = h.size := rfl

theorem set_time_size (h : heap α) (a : Nat) (t : date) : (set_time h a t).size = h.size := rfl

theorem set_wind_size (h : heap α) (a : Nat) (w : Option (Nat → wind α)) :
    (set_wind h a w).size = h.size := rfl

theorem set_next_next (h : heap α) (a : Nat) (v : Option Nat) (b : Nat) :
    ((set_next h a v).node b).next = if b = a then v else (h.node b).next := by
  simp only [set_next, Function.update_apply]; split_ifs with e
  · rfl
  · rfl

theorem set_next_prev (h : heap α) (a : Nat) (v : Option Nat) (b : Nat) :
    ((set_next h a v).node b).prev = (h.node b).prev := by
  simp only [set_next, Function.update_apply]; split_ifs with e
  · rw [e]
  · rfl

theorem set_next_time (h : heap α) (a : Nat) (v : Option Nat) (b : Nat) :
    ((set_next h a v).node b).time = (h.node b).time := by
  simp only [set_next, Function.update_apply]; split_ifs with e
  · rw [e]
  · rfl

theorem set_next_wind (h : heap α) (a : Nat) (v : Option Nat) (b : Nat) :
    ((set_next h a v).node b).wind = (h.node b).wind := by
  simp only [set_next, Function.update_apply]; split_ifs with e
  · rw [e]
  · rfl

theorem set_prev_prev (h : heap α) (a : Nat) (v : Option Nat) (b : Nat) :
    ((set_prev h a v).node b).prev = if b = a then v else (h.node b).prev := by
  simp only [set_prev, Function.update_apply]; split_ifs with e
  · rfl
  · rfl

theorem set_prev_next (h : heap α) (a : Nat) (v : Option Nat) (b : Nat) :
    ((set_prev h a v).node b).next = (h.node b).next := by
  simp only [set_prev, Function.update_apply]; split_ifs with e
  · rw [e]
  · rfl

theorem set_prev_time (h : heap α) (a : Nat) (v : Option Nat) (b : Nat) :
    ((set_prev h a v).node b).time = (h.node b).time := by
  simp only [set_prev, Function.update_apply]; split_ifs with e
  · rw [e]
  · rfl

theorem set_prev_wind (h : heap α) (a : Nat) (v : Option Nat) (b : Nat) :
    ((set_prev h a v).node b).wind = (h.node b).wind := by
  simp only [set_prev, Function.update_apply]; split_ifs with e
  · rw [e]
  · rfl

theorem set_time_time (h : heap α) (a : Nat) (t : date) (b : Nat) :
    ((set_time h a t).node b).time = if b = a then t else (h.node b).time := by
  simp only [set_time, Function.update_apply]; split_ifs with e
  · rfl
  · rfl

theorem set_time_next (h : heap α) (a : Nat) (t : date) (b : Nat) :
    ((set_time h a t).node b).next = (h.node b).next := by
  simp only [set_time, Function.update_apply]; split_ifs with e
  · rw [e]
  · rfl

theorem set_time_prev (h : heap α) (a : Nat) (t : date) (b : Nat) :
    ((set_time h a t).node b).prev = (h.node b).prev := by
  simp only [set_time, Function.update_apply]; split_ifs with e
  · rw [e]
  · rfl

theorem set_time_wind (h : heap α) (a : Nat) (t : date) (b : Nat) :
    ((set_time h a t).node b).wind = (h.node b).wind := by
  simp only [set_time, Function.update_apply]; split_ifs with e
  · rw [e]
  · rfl

theorem set_wind_wind (h : heap α) (a : Nat) (w : Option (Nat → wind α)) (b : Nat) :
    ((set_wind h a w).node b).wind = if b = a then w else (h.node b).wind := by
  simp only [set_wind, Function.update_apply]; split_ifs with e
  · rfl
  · rfl

theorem set_wind_next (h : heap α) (a : Nat) (w : Option (Nat → wind α)) (b : Nat) :
    ((set_wind h a w).node b).next = (h.node b).next := by
  simp only [set_wind, Function.update_apply]; split_ifs with e
  · rw [e]
  · rfl

theorem set_wind_prev (h : heap α) (a : Nat) (w : Option (Nat → wind α)) (b : Nat) :
    ((set_wind h a w).node b).prev = (h.node b).prev := by
  simp only [set_wind, Function.update_apply]; split_ifs with e
  · rw [e]
  · rfl

theorem set_wind_time (h : heap α) (a : Nat) (w : Option (Nat → wind α)) (b : Nat) :
    ((set_wind h a w).node b).time = (h.node b).time := by
  simp only [set_wind, Function.update_apply]; split_ifs with e
  · rw [e]
  · rfl

theorem set_next_frame (h : heap α) (a : Nat) (v : Option Nat) (b : Nat) (hb : b ≠ a) :
    (set_next h a v).node b = h.node b := by
  simp only [set_next, Function.update_apply, if_neg hb]

theorem set_prev_frame (h : heap α) (a : Nat) (v : Option Nat) (b : Nat) (hb : b ≠ a) :
    (set_prev h a v).node b = h.node b := by
  simp only [set_prev, Function.update_apply, if_neg hb]

theorem set_time_frame (h : heap α) (a : Nat) (t : date) (b : Nat) (hb : b ≠ a) :
    (set_time h a t).node b = h.node b := by
  simp only [set_time, Function.update_apply, if_neg hb]

theorem set_wind_frame (h : heap α) (a : Nat) (w : Option (Nat → wind α)) (b : Nat)
    (hb : b ≠ a) : (set_wind h a w).node b = h.node b := by
  simp only [set_wind, Function.update_apply, if_neg hb]

theorem new_winddata_frame (h : heap α) (b : Nat) (hb : b ≠ h.size) :
    (new_winddata h).2.node b = h.node b := by
  rw [new_winddata_node, if_neg hb]

theorem new_winddata_fresh (h : heap α) :
    (new_winddata h).2.node h.size = ⟨⟨0, 0, 0, 0⟩, none, none, none⟩ := by
  rw [new_winddata_node, if_pos rfl]

end heap_updates

section heap_updates2
variable {α : Type}

theorem new_winddata_next (h : heap α) (b : Nat) :
    ((new_winddata h).2.node b).next = if b = h.size then none else (h.node b).next := by
  rw [new_winddata_node]; split_ifs <;> rfl

theorem new_winddata_prev (h : heap α) (b : Nat) :
    ((new_winddata h).2.node b).prev = if b = h.size then none else (h.node b).prev := by
  rw [new_winddata_node]; split_ifs <;> rfl

theorem new_winddata_wind (h : heap α) (b : Nat) :
    ((new_winddata h).2.node b).wind = if b = h.size then none else (h.node b).wind := by
  rw [new_winddata_node]; split_ifs <;> rfl

theorem new_winddata_time (h : heap α) (b : Nat) :
    ((new_winddata h).2.node b).time = if b = h.size then ⟨0, 0, 0, 0⟩ else (h.node b).time := by
  rw [new_winddata_node]; split_ifs <;> rfl

end heap_updates2

section file_build
variable {α : Type} [LinearOrderedField α]

theorem file_inv_stamp_back (P : param α) (M : libm α) (st : state α)
    (old : Nat → winddata α) (D : Nat) (h : heap α) (n : Nat) (ts : List date)
    (year month day hour : Int) (ht : P.TRACE < 0)
    (hi : file_inv winddata.next winddata.prev old D h n ts) :
    file_inv winddata.next winddata.prev old D
        (read_file_line P M st (h, D + n) (.stamp year month day hour)).1 (n + 1)
        (ts ++ [⟨year, month, day, hour⟩]) ∧
      (read_file_line P M st (h, D + n) (.stamp year month day hour)).2 = D + (n + 1) := by
  obtain ⟨h1, h2, h3, h4, h5, h6, h7, h8, h9⟩ := hi
  simp only [read_file_line, if_pos ht, new_winddata_fst, h1]
  refine ⟨⟨?_, ?_, ?_, ?_, ?_, ?_, ?_, ?_, ?_⟩, by omega⟩
  · simp only [set_time_size, set_prev_size, set_next_size, new_winddata_size, h1]; omega
  · intro a ha
    rw [set_time_frame _ _ _ _ (by omega), set_prev_frame _ _ _ _ (by omega),
      set_next_frame _ _ _ _ (by omega), new_winddata_frame _ _ (by omega)]
    exact h2 a ha
  · intro i hi
    simp only [set_time_next, set_prev_next, set_next_next, new_winddata_next, h1]
    by_cases hin : i = n
    · subst hin
      rw [if_pos rfl]
      exact congrArg some (by omega)
    · rw [if_neg (by omega), if_neg (by omega)]
      exact h3 i (by omega)
  · intro i hi
    simp only [set_time_prev, set_prev_prev, set_next_prev, new_winddata_prev, h1]
    by_cases hin : i = n
    · subst hin
      rw [if_pos (by omega)]
    · rw [if_neg (by omega), if_neg (by omega)]
      exact h4 i (by omega)
  · simp only [set_time_next, set_prev_next, set_next_next, new_winddata_next, h1]
    rw [if_neg (by omega), if_pos (by omega)]
  · simp only [set_time_prev, set_prev_prev, set_next_prev, new_winddata_prev, h1]
    rw [if_neg (by omega), if_neg (by omega)]
    exact h6
  · simp [h7]
  · intro i hi
    simp only [set_time_time, set_prev_time, set_next_time, new_winddata_time, h1]
    by_cases hin : i = n
    · subst hin
      rw [if_pos rfl, List.getElem?_append_right (by omega)]
      simp [h7]
    · rw [if_neg (by omega), if_neg (by omega), List.getElem?_append_left (by omega)]
      exact h8 i (by omega)
  · simp only [set_time_wind, set_prev_wind, set_next_wind, new_winddata_wind, h1]
    rw [if_neg (by omega)]
    exact h9

theorem file_inv_stamp_fore (P : param α) (M : libm α) (st : state α)
    (old : Nat → winddata α) (D : Nat) (h : heap α) (n : Nat) (ts : List date)
    (year month day hour : Int) (ht : ¬ P.TRACE < 0)
    (hi : file_inv winddata.prev winddata.next old D h n ts) :
    file_inv winddata.prev winddata.next old D
        (read_file_line P M st (h, D + n) (.stamp year month day hour)).1 (n + 1)
        (ts ++ [⟨year, month, day, hour⟩]) ∧
      (read_file_line P M st (h, D + n) (.stamp year month day hour)).2 = D + (n + 1) := by
  obtain ⟨h1, h2, h3, h4, h5, h6, h7, h8, h9⟩ := hi
  simp only [read_file_line, if_neg ht, new_winddata_fst, h1]
  refine ⟨⟨?_, ?_, ?_, ?_, ?_, ?_, ?_, ?_, ?_⟩, by omega⟩
  · simp only [set_time_size, set_prev_size, set_next_size, new_winddata_size, h1]; omega
  · intro a ha
    rw [set_time_frame _ _ _ _ (by omega), set_next_frame _ _ _ _ (by omega),
      set_prev_frame _ _ _ _ (by omega), new_winddata_frame _ _ (by omega)]
    exact h2 a ha
  · intro i hi
    simp only [set_time_prev, set_next_prev, set_prev_prev, new_winddata_prev, h1]
    by_cases hin : i = n
    · subst hin
      rw [if_pos rfl]
      exact congrArg some (by omega)
    · rw [if_neg (by omega), if_neg (by omega)]
      exact h3 i (by omega)
  · intro i hi
    simp only [set_time_next, set_next_next, set_prev_next, new_winddata_next, h1]
    by_cases hin : i = n
    · subst hin
      rw [if_pos (by omega)]
    · rw [if_neg (by omega), if_neg (by omega)]
      exact h4 i (by omega)
  · simp only [set_time_prev, set_next_prev, set_prev_prev, new_winddata_prev, h1]
    rw [if_neg (by omega), if_pos (by omega)]
  · simp only [set_time_next, set_next_next, set_prev_next, new_winddata_next, h1]
    rw [if_neg (by omega), if_neg (by omega)]
    exact h6
  · simp [h7]
  · intro i hi
    simp only [set_time_time, set_prev_time, set_next_time, new_winddata_time, h1]
    by_cases hin : i = n
    · subst hin
      rw [if_pos rfl, List.getElem?_append_right (by omega)]
      simp [h7]
    · rw [if_neg (by omega), if_neg (by omega), List.getElem?_append_left (by omega)]
      exact h8 i (by omega)
  · simp only [set_time_wind, set_prev_wind, set_next_wind, new_winddata_wind, h1]
    rw [if_neg (by omega)]
    exact h9

theorem file_inv_other (P : param α) (M : libm α) (st : state α)
    (fwd bwd : winddata α → Option Nat)
    (hf : ∀ (g : heap α) (a b : Nat) (w : Option (Nat → wind α)),
      fwd ((set_wind g a w).node b) = fwd (g.node b))
    (hb : ∀ (g : heap α) (a b : Nat) (w : Option (Nat → wind α)),
      bwd ((set_wind g a w).node b) = bwd (g.node b))
    (old : Nat → winddata α) (D : Nat) (h : heap α) (n : Nat) (ts : List date)
    (l : line) (hl : ∀ y m d hr, l ≠ .stamp y m d hr) (hn : 1 ≤ n)
    (hi : file_inv fwd bwd old D h n ts) :
    file_inv fwd bwd old D (read_file_line P M st (h, D + n) l).1 n ts ∧
      (read_file_line P M st (h, D + n) l).2 = D + n := by
  obtain ⟨h1, h2, h3, h4, h5, h6, h7, h8, h9⟩ := hi
  cases l with
  | stamp y m d hr => exact absurd rfl (hl y m d hr)
  | sentinel => exact ⟨⟨h1, h2, h3, h4, h5, h6, h7, h8, h9⟩, rfl⟩
  | sample A B C =>
    simp only [read_file_line]
    refine ⟨⟨?_, ?_, ?_, ?_, ?_, ?_, h7, ?_, ?_⟩, trivial⟩
    · rw [set_wind_size]; exact h1
    · intro a ha
      rw [set_wind_frame _ _ _ _ (by omega)]
      exact h2 a ha
    · intro i hi; rw [hf]; exact h3 i hi
    · intro i hi; rw [hb]; exact h4 i hi
    · rw [hf]; exact h5
    · rw [hb]; exact h6
    · intro i hi; rw [set_wind_time]; exact h8 i hi
    · rw [set_wind_wind, if_neg (by omega)]; exact h9

end file_build

section file_build2
variable {α : Type} [LinearOrderedField α]

theorem file_inv_fold_back (P : param α) (M : libm α) (st : state α)
    (old : Nat → winddata α) (D : Nat) (ht : P.TRACE < 0) (lines : List line) :
    ∀ (h : heap α) (n : Nat) (ts : List date), 1 ≤ n →
      file_inv winddata.next winddata.prev old D h n ts →
      file_inv winddata.next winddata.prev old D
          (lines.foldl (read_file_line P M st) (h, D + n)).1 (n + (stamps lines).length)
          (ts ++ stamps lines) ∧
        (lines.foldl (read_file_line P M st) (h, D + n)).2 = D + (n + (stamps lines).length) := by
  induction lines with
  | nil => intro h n ts _ hi; simpa [stamps] using hi
  | cons l r ih =>
    intro h n ts hn hi
    rw [List.foldl_cons]
    cases l with
    | stamp y m d hr =>
      obtain ⟨a, b⟩ := file_inv_stamp_back P M st old D h n ts y m d hr ht hi
      have e : read_file_line P M st (h, D + n) (.stamp y m d hr) =
          ((read_file_line P M st (h, D + n) (.stamp y m d hr)).1, D + (n + 1)) :=
        Prod.ext rfl b
      rw [e]
      have := ih _ (n + 1) _ (by omega) a
      simp only [stamps, List.length_cons]
      rw [show n + ((stamps r).length + 1) = n + 1 + (stamps r).length by omega,
        show ts ++ (⟨y, m, d, hr⟩ :: stamps r) = ts ++ [⟨y, m, d, hr⟩] ++ stamps r by simp]
      exact this
    | sentinel =>
      obtain ⟨a, b⟩ := file_inv_other P M st winddata.next winddata.prev
        (fun g a b w => set_wind_next g a w b) (fun g a b w => set_wind_prev g a w b)
        old D h n ts .sentinel (by intros; simp) hn hi
      have e : read_file_line P M st (h, D + n) .sentinel =
          ((read_file_line P M st (h, D + n) .sentinel).1, D + n) :=
        Prod.ext rfl b
      rw [e]
      simpa [stamps] using ih _ n ts hn a
    | sample A B C =>
      obtain ⟨a, b⟩ := file_inv_other P M st winddata.next winddata.prev
        (fun g a b w => set_wind_next g a w b) (fun g a b w => set_wind_prev g a w b)
        old D h n ts (.sample A B C) (by intros; simp) hn hi
      have e : read_file_line P M st (h, D + n) (.sample A B C) =
          ((read_file_line P M st (h, D + n) (.sample A B C)).1, D + n) :=
        Prod.ext rfl b
      rw [e]
      simpa [stamps] using ih _ n ts hn a

theorem file_inv_fold_fore (P : param α) (M : libm α) (st : state α)
    (old : Nat → winddata α) (D : Nat) (ht : ¬ P.TRACE < 0) (lines : List line) :
    ∀ (h : heap α) (n : Nat) (ts : List date), 1 ≤ n →
      file_inv winddata.prev winddata.next old D h n ts →
      file_inv winddata.prev winddata.next old D
          (lines.foldl (read_file_line P M st) (h, D + n)).1 (n + (stamps lines).length)
          (ts ++ stamps lines) ∧
        (lines.foldl (read_file_line P M st) (h, D + n)).2 = D + (n + (stamps lines).length) := by
  induction lines with
  | nil => intro h n ts _ hi; simpa [stamps] using hi
  | cons l r ih =>
    intro h n ts hn hi
    rw [List.foldl_cons]
    cases l with
    | stamp y m d hr =>
      obtain ⟨a, b⟩ := file_inv_stamp_fore P M st old D h n ts y m d hr ht hi
      have e : read_file_line P M st (h, D + n) (.stamp y m d hr) =
          ((read_file_line P M st (h, D + n) (.stamp y m d hr)).1, D + (n + 1)) :=
        Prod.ext rfl b
      rw [e]
      have := ih _ (n + 1) _ (by omega) a
      simp only [stamps, List.length_cons]
      rw [show n + ((stamps r).length + 1) = n + 1 + (stamps r).length by omega,
        show ts ++ (⟨y, m, d, hr⟩ :: stamps r) = ts ++ [⟨y, m, d, hr⟩] ++ stamps r by simp]
      exact this
    | sentinel =>
      obtain ⟨a, b⟩ := file_inv_other P M st winddata.prev winddata.next
        (fun g a b w => set_wind_prev g a w b) (fun g a b w => set_wind_next g a w b)
        old D h n ts .sentinel (by intros; simp) hn hi
      have e : read_file_line P M st (h, D + n) .sentinel =
          ((read_file_line P M st (h, D + n) .sentinel).1, D + n) :=
        Prod.ext rfl b
      rw [e]
      simpa [stamps] using ih _ n ts hn a
    | sample A B C =>
      obtain ⟨a, b⟩ := file_inv_other P M st winddata.prev winddata.next
        (fun g a b w => set_wind_prev g a w b) (fun g a b w => set_wind_next g a w b)
        old D h n ts (.sample A B C) (by intros; simp) hn hi
      have e : read_file_line P M st (h, D + n) (.sample A B C) =
          ((read_file_line P M st (h, D + n) (.sample A B C)).1, D + n) :=
        Prod.ext rfl b
      rw [e]
      simpa [stamps] using ih _ n ts hn a

theorem file_inv_zero_back (h0 : heap α) :
    file_inv winddata.next winddata.prev h0.node h0.size (new_winddata h0).2 0 [] := by
  refine ⟨rfl, ?_, ?_, ?_, ?_, ?_, rfl, ?_, ?_⟩
  · intro a ha; rw [new_winddata_frame _ _ (by omega)]
  · intro i hi; omega
  · intro i hi; omega
  · rw [Nat.add_zero, new_winddata_fresh]
  · rw [new_winddata_fresh]
  · intro i hi; omega
  · rw [new_winddata_fresh]

theorem file_inv_zero_fore (h0 : heap α) :
    file_inv winddata.prev winddata.next h0.node h0.size (new_winddata h0).2 0 [] := by
  refine ⟨rfl, ?_, ?_, ?_, ?_, ?_, rfl, ?_, ?_⟩
  · intro a ha; rw [new_winddata_frame _ _ (by omega)]
  · intro i hi; omega
  · intro i hi; omega
  · rw [Nat.add_zero, new_winddata_fresh]
  · rw [new_winddata_fresh]
  · intro i hi; omega
  · rw [new_winddata_fresh]

theorem rewind_down (h : heap α) (D : Nat) (k : Nat) :
    ∀ fuel, k < fuel → (∀ i, i < k → (h.node (D + i + 1)).prev = some (D + i)) →
      (h.node D).prev = none → rewind h fuel (D + k) = .ok D := by
  induction k with
  | zero =>
    intro fuel hf _ h0
    obtain ⟨f, rfl⟩ : ∃ f, fuel = f + 1 := ⟨fuel - 1, by omega⟩
    simp [rewind, h0]
  | succ k ih =>
    intro fuel hf hl h0
    obtain ⟨f, rfl⟩ : ∃ f, fuel = f + 1 := ⟨fuel - 1, by omega⟩
    have := hl k (by omega)
    simp only [rewind, show D + (k + 1) = D + k + 1 by omega, this]
    exact ih f (by omega) (fun i hi => hl i (by omega)) h0

theorem read_file_back (P : param α) (M : libm α) (st : state α) (ht : P.TRACE < 0)
    (h0 : heap α) (fuel : Nat) (y m d hr : Int) (rest : List line)
    (hf : (stamps rest).length + 1 < fuel) :
    ∃ h1, read_file P M st (some (.stamp y m d hr :: rest)) fuel h0 = .ok (h0.size, h1) ∧
      file_inv winddata.next winddata.prev h0.node h0.size h1 ((stamps rest).length + 1)
        (⟨y, m, d, hr⟩ :: stamps rest) := by
  obtain ⟨a, b⟩ := file_inv_stamp_back P M st h0.node h0.size (new_winddata h0).2 0 []
    y m d hr ht (file_inv_zero_back h0)
  have e : read_file_line P M st ((new_winddata h0).2, h0.size + 0) (.stamp y m d hr) =
      ((read_file_line P M st ((new_winddata h0).2, h0.size + 0) (.stamp y m d hr)).1,
        h0.size + (0 + 1)) :=
    Prod.ext rfl b
  obtain ⟨c, d2⟩ := file_inv_fold_back P M st h0.node h0.size ht rest _ (0 + 1) _
    (by omega) a
  rw [← e] at c d2
  refine ⟨_, ?_, by simpa [Nat.add_comm] using c⟩
  simp only [read_file, List.foldl_cons]
  have e2 : ((new_winddata h0).2, (new_winddata h0).1) =
      ((new_winddata h0).2, h0.size + 0) := rfl
  rw [e2, d2, rewind_down _ h0.size _ fuel (by omega) c.bwd_in c.bwd_end]
  rfl

theorem read_file_fore (P : param α) (M : libm α) (st : state α) (ht : ¬ P.TRACE < 0)
    (h0 : heap α) (fuel : Nat) (y m d hr : Int) (rest : List line) (hf : 0 < fuel) :
    ∃ h1, read_file P M st (some (.stamp y m d hr :: rest)) fuel h0 =
        .ok (h0.size + ((stamps rest).length + 1), h1) ∧
      file_inv winddata.prev winddata.next h0.node h0.size h1 ((stamps rest).length + 1)
        (⟨y, m, d, hr⟩ :: stamps rest) := by
  obtain ⟨a, b⟩ := file_inv_stamp_fore P M st h0.node h0.size (new_winddata h0).2 0 []
    y m d hr ht (file_inv_zero_fore h0)
  have e : read_file_line P M st ((new_winddata h0).2, h0.size + 0) (.stamp y m d hr) =
      ((read_file_line P M st ((new_winddata h0).2, h0.size + 0) (.stamp y m d hr)).1,
        h0.size + (0 + 1)) :=
    Prod.ext rfl b
  obtain ⟨c, d2⟩ := file_inv_fold_fore P M st h0.node h0.size ht rest _ (0 + 1) _
    (by omega) a
  rw [← e] at c d2
  refine ⟨_, ?_, by simpa [Nat.add_comm] using c⟩
  simp only [read_file, List.foldl_cons]
  have e2 : ((new_winddata h0).2, (new_winddata h0).1) =
      ((new_winddata h0).2, h0.size + 0) := rfl
  obtain ⟨f, rfl⟩ : ∃ f, fuel = f + 1 := ⟨fuel - 1, by omega⟩
  rw [e2, d2]
  have := c.fwd_end
  simp only [rewind, this]
  rw [show 0 + 1 + (stamps rest).length = (stamps rest).length + 1 by omega]
  rfl

end file_build2

section paths

theorem path_of_iff (succ : Nat → Option Nat) (l : List Nat) :
    path_of succ l ↔
      List.Chain' (fun a b => succ a = some b) l ∧ ∀ x, l.getLast? = some x → succ x = none := by
  induction l with
  | nil => simp [path_of]
  | cons a r ih =>
    cases r with
    | nil => simp [path_of]
    | cons b r =>
      simp only [path_of, List.chain'_cons, List.getLast?_cons_cons]
      rw [ih]
      tauto

theorem path_of_nodup (succ : Nat → Option Nat) (l : List Nat) (h : path_of succ l) :
    l.Nodup := by
  induction l with
  | nil => exact List.nodup_nil
  | cons a r ih =>
    refine List.nodup_cons.2 ⟨path_of_not_mem succ a r h, ih ?_⟩
    cases r with
    | nil => trivial
    | cons b r => exact path_of_suffix succ [a] b r h

theorem chain_congr (succ succ2 : Nat → Option Nat) (l : List Nat)
    (h : List.Chain' (fun a b => succ a = some b) l)
    (e : ∀ a ∈ l.dropLast, succ2 a = succ a) :
    List.Chain' (fun a b => succ2 a = some b) l := by
  induction l with
  | nil => exact List.chain'_nil
  | cons a r ih =>
    cases r with
    | nil => exact List.chain'_singleton a
    | cons b r =>
      rw [List.chain'_cons] at h ⊢
      refine ⟨?_, ih h.2 (fun x hx => e x ?_)⟩
      · rw [e a (by simp)]; exact h.1
      · simp only [List.dropLast_cons₂, List.mem_cons]
        exact Or.inr hx

theorem not_mem_dropLast (l : List Nat) (x : Nat) (hn : l.Nodup) (hl : l.getLast? = some x) :
    x ∉ l.dropLast := by
  intro hx
  have e : l = l.dropLast ++ [x] := by
    have hne : l ≠ [] := by rintro rfl; simp at hl
    have := List.dropLast_append_getLast hne
    rw [List.getLast?_eq_getLast _ hne] at hl
    simp only [Option.some.injEq] at hl
    rw [hl] at this
    exact this.symm
  rw [e] at hn
  have := List.nodup_append.1 hn
  exact this.2.2 hx (List.mem_singleton_self x)

theorem chain_range_up (succ : Nat → Option Nat) (n : Nat) :
    ∀ D, (∀ i, i < n → succ (D + i) = some (D + i + 1)) →
      List.Chain' (fun a b => succ a = some b) (List.range' D (n + 1)) := by
  induction n with
  | zero => intro D _; simp
  | succ n ih =>
    intro D hl
    rw [List.range'_succ, List.range'_succ, List.chain'_cons]
    refine ⟨by simpa using hl 0 (by omega), ?_⟩
    rw [← List.range'_succ]
    refine ih (D + 1) (fun i hi => ?_)
    have := hl (i + 1) (by omega)
    rw [show D + 1 + i = D + (i + 1) by omega]
    exact this

theorem chain_range_down (succ : Nat → Option Nat) (n : Nat) (D : Nat)
    (hl : ∀ i, i < n → succ (D + i + 1) = some (D + i)) :
    List.Chain' (fun a b => succ a = some b) (List.range' D (n + 1)).reverse := by
  rw [List.chain'_reverse]
  have : ∀ n D, (∀ i, i < n → succ (D + i + 1) = some (D + i)) →
      List.Chain' (flip (fun a b => succ a = some b)) (List.range' D (n + 1)) := by
    intro n
    induction n with
    | zero => intro D _; simp
    | succ n ih =>
      intro D hl
      rw [List.range'_succ, List.range'_succ, List.chain'_cons]
      refine ⟨by simpa [flip] using hl 0 (by omega), ?_⟩
      rw [← List.range'_succ]
      refine ih (D + 1) (fun i hi => ?_)
      have := hl (i + 1) (by omega)
      rw [show D + 1 + i = D + (i + 1) by omega]
      exact this
  exact this n D hl

theorem range_times {α : Type} (h : heap α) (D n : Nat) (ts : List date)
    (hlen : ts.length = n) (ht : ∀ i, i < n → ts[i]? = some (h.node (D + 1 + i)).time) :
    (List.range' (D + 1) n).map (fun a => (h.node a).time) = ts := by
  apply List.ext_getElem?
  intro i
  by_cases hi : i < n
  · rw [ht i hi, List.getElem?_map, List.getElem?_range' _ _ hi]
    simp
  · rw [List.getElem?_eq_none (by simp; omega), List.getElem?_eq_none (by omega)]

end paths

section stitch
variable {α : Type} [LinearOrderedField α]

theorem forward_to_last_path (h : heap α) (rest : List Nat) :
    ∀ (p fuel x : Nat), next_path h (p :: rest) → rest.length < fuel →
      (p :: rest).getLast? = some x → forward_to_last h fuel p = .ok x := by
  induction rest with
  | nil =>
    intro p fuel x hp hf hx
    obtain ⟨f, rfl⟩ : ∃ f, fuel = f + 1 := ⟨fuel - 1, by omega⟩
    simp only [next_path, path_of] at hp
    simp only [List.getLast?_singleton, Option.some.injEq] at hx
    subst hx
    simp [forward_to_last, hp]
  | cons b r ih =>
    intro p fuel x hp hf hx
    obtain ⟨f, rfl⟩ : ∃ f, fuel = f + 1 := ⟨fuel - 1, by simp at hf; omega⟩
    simp only [next_path, path_of] at hp
    simp only [forward_to_last, hp.1]
    rw [List.getLast?_cons_cons] at hx
    exact ih b f x hp.2 (by simp at hf; omega) hx

theorem append_file_back_eq (P : param α) (M : libm α) (st : state α) (ht : P.TRACE < 0)
    (h h1 : heap α) (pnt D q : Nat) (fuel : Nat) (file : Option (List line))
    (hr : read_file P M st file fuel h = .ok (D, h1))
    (hD : (h1.node D).next = some (D + 1)) (hq : (h1.node pnt).prev = some q)
    (hne : D ≠ pnt) :
    append_file P M st fuel (h, pnt) file =
      (forward_to_last
        (set_prev (set_next (set_next h1 pnt (some D)) pnt (some (D + 1))) (D + 1) (some pnt))
        fuel pnt).map
      (fun x =>
        (set_prev (set_next (set_next h1 pnt (some D)) pnt (some (D + 1))) (D + 1) (some pnt),
          x)) := by
  simp only [append_file, hr, if_pos ht]
  have e1 : ((set_next h1 pnt (some D)).node D).next = some (D + 1) := by
    rw [set_next_next, if_neg hne, hD]
  rw [e1]
  have e2 : ((set_next (set_next h1 pnt (some D)) pnt (some (D + 1))).node pnt).prev
      = some q := by
    rw [set_next_prev, set_next_prev, hq]
  have e3 : ((set_next (set_next h1 pnt (some D)) pnt (some (D + 1))).node pnt).next
      = some (D + 1) := by
    rw [set_next_next, if_pos rfl]
  simp only [e2, e3]

end stitch

section stitch2
variable {α : Type} [LinearOrderedField α]

theorem join_paths (succ : Nat → Option Nat) (l1 l2 : List Nat) (x y z : Nat)
    (c1 : List.Chain' (fun a b => succ a = some b) l1)
    (c2 : List.Chain' (fun a b => succ a = some b) l2)
    (hx : l1.getLast? = some x) (hy : l2.head? = some y) (hz : l2.getLast? = some z)
    (hxy : succ x = some y) (hzn : succ z = none) : path_of succ (l1 ++ l2) := by
  rw [path_of_iff]
  refine ⟨List.Chain'.append c1 c2 ?_, ?_⟩
  · intro a ha b hb
    rw [hx] at ha; rw [hy] at hb
    simp only [Option.mem_def, Option.some.injEq] at ha hb
    subst ha; subst hb; exact hxy
  · intro a ha
    have hne : l2 ≠ [] := by rintro rfl; simp at hz
    rw [List.getLast?_append_of_ne_nil _ hne, hz] at ha
    simp only [Option.some.injEq] at ha
    subst ha; exact hzn

theorem getLast_mem_of (l : List Nat) (x : Nat) (h : l.getLast? = some x) : x ∈ l := by
  have hne : l ≠ [] := by rintro rfl; simp at h
  rw [List.getLast?_eq_getLast _ hne] at h
  simp only [Option.some.injEq] at h
  rw [← h]
  exact List.getLast_mem hne

theorem getLast_cons_of (a : Nat) (l : List Nat) (h : l ≠ []) :
    (a :: l).getLast? = l.getLast? := by
  cases l with
  | nil => exact absurd rfl h
  | cons b r => rw [List.getLast?_cons_cons]

theorem range_last (D n : Nat) : (List.range' D (n + 1)).getLast? = some (D + n) := by
  rw [List.range'_concat]
  simp

theorem range_head (D n : Nat) : (List.range' D (n + 1)).head? = some D := by
  rw [List.range'_succ]; rfl

theorem mem_range_bounds (D n a : Nat) (h : a ∈ List.range' D n) : D ≤ a ∧ a < D + n := by
  have := List.mem_range'_1.1 h
  exact this

theorem append_file_back_step (P : param α) (M : libm α) (st : state α) (ht : P.TRACE < 0)
    (h : heap α) (w0 pnt : Nat) (c : List Nat) (D1 : Nat) (ts : List date)
    (inv : back_inv h w0 pnt c D1 ts) (fuel : Nat) (y m d hr : Int) (rest : List line)
    (hf : (stamps rest).length + 2 < fuel) :
    ∃ h2, append_file P M st fuel (h, pnt) (some (.stamp y m d hr :: rest)) =
        .ok (h2, h.size + ((stamps rest).length + 1)) ∧
      back_inv h2 w0 (h.size + ((stamps rest).length + 1))
        (c ++ List.range' (h.size + 1) ((stamps rest).length + 1)) D1
        (ts ++ ⟨y, m, d, hr⟩ :: stamps rest) := by
  obtain ⟨hlast, hnext, hprev, hdummy, htimes, hbound⟩ := inv
  obtain ⟨h1, hr1, fi⟩ := read_file_back P M st ht h fuel y m d hr rest (by omega)
  generalize hn : (stamps rest).length = n at *
  generalize hD : h.size = D at *
  -- facts about the old chain
  have hpD : pnt < D := hbound pnt (by
    have := getLast_mem_of _ _ hlast
    simp [this])
  have hcne : c ≠ [] := by rintro rfl; simp at hlast
  obtain ⟨q, hq⟩ : ∃ q, (h.node pnt).prev = some q := by
    have e : c.reverse = pnt :: (c.reverse).tail := by
      have h1 : c.reverse.head? = some pnt := by rw [List.head?_reverse]; exact hlast
      cases hcr : c.reverse with
      | nil => rw [hcr] at h1; simp at h1
      | cons a r => rw [hcr] at h1; simp at h1; simp [h1]
    rw [e] at hprev
    cases ht2 : c.reverse.tail ++ [D1] with
    | nil => simp at ht2
    | cons b r =>
      rw [List.cons_append, ht2] at hprev
      exact ⟨b, hprev.1⟩
  have hframe : ∀ a, a < D → h1.node a = h.node a := fi.frame
  -- the heap after stitching
  have heq := append_file_back_eq P M st ht h h1 pnt D q fuel _ hr1
    (by simpa using fi.fwd_in 0 (by omega)) (by rw [hframe pnt hpD]; exact hq) (by omega)
  generalize hh4 : set_prev (set_next (set_next h1 pnt (some D)) pnt (some (D + 1))) (D + 1)
    (some pnt) = h4 at heq
  have e_next : ∀ a, (h4.node a).next = if a = pnt then some (D + 1) else (h1.node a).next := by
    intro a
    rw [← hh4, set_prev_next, set_next_next, set_next_next]
    split_ifs <;> rfl
  have e_prev : ∀ a, (h4.node a).prev = if a = D + 1 then some pnt else (h1.node a).prev := by
    intro a
    rw [← hh4, set_prev_prev, set_next_prev, set_next_prev]
  have e_time : ∀ a, (h4.node a).time = (h1.node a).time := by
    intro a
    rw [← hh4, set_prev_time, set_next_time, set_next_time]
  have e_wind : ∀ a, (h4.node a).wind = (h1.node a).wind := by
    intro a
    rw [← hh4, set_prev_wind, set_next_wind, set_next_wind]
  have e_size : h4.size = D + 1 + (n + 1) := by
    rw [← hh4, set_prev_size, set_next_size, set_next_size]; exact fi.size_eq
  have hcb : ∀ a ∈ c, a < D := fun a ha => hbound a (by simp [ha])
  -- the new path along next
  have np : next_path h4 (w0 :: c ++ List.range' (D + 1) (n + 1)) := by
    have old := (path_of_iff _ _).1 hnext
    have hl : (w0 :: c).getLast? = some pnt := by
      rw [getLast_cons_of _ _ hcne]
      exact hlast
    refine join_paths _ (w0 :: c) _ pnt (D + 1) (D + 1 + n) ?_ ?_ hl (range_head _ _)
      (range_last _ _) ?_ ?_
    · refine chain_congr _ _ _ old.1 (fun a ha => ?_)
      have hne : a ≠ pnt := fun e =>
        not_mem_dropLast _ _ (path_of_nodup _ _ hnext) hl (e ▸ ha)
      have ha2 : a < D := hbound a (by
        have := List.mem_of_mem_dropLast ha
        simp only [List.mem_cons] at this ⊢
        tauto)
      show (h4.node a).next = (h.node a).next
      rw [e_next, if_neg hne, hframe a ha2]
    · refine chain_range_up _ n (D + 1) (fun i hi => ?_)
      show (h4.node (D + 1 + i)).next = _
      rw [e_next, if_neg (by omega)]
      have := fi.fwd_in (i + 1) (by omega)
      rw [show D + 1 + i = D + (i + 1) by omega]
      exact this
    · show (h4.node pnt).next = _
      rw [e_next, if_pos rfl]
    · show (h4.node (D + 1 + n)).next = _
      rw [e_next, if_neg (by omega), show D + 1 + n = D + (n + 1) by omega]
      exact fi.fwd_end
  -- the new path along prev
  have pp : prev_path h4 ((c ++ List.range' (D + 1) (n + 1)).reverse ++ [D1]) := by
    have old := (path_of_iff _ _).1 hprev
    rw [List.reverse_append, List.append_assoc]
    refine join_paths _ _ _ (D + 1) pnt D1 ?_ ?_ ?_ ?_ ?_ ?_ ?_
    · refine chain_range_down _ n (D + 1) (fun i hi => ?_)
      show (h4.node (D + 1 + i + 1)).prev = _
      rw [e_prev, if_neg (by omega)]
      have := fi.bwd_in (i + 1) (by omega)
      rw [show D + 1 + i + 1 = D + (i + 1) + 1 by omega, show D + 1 + i = D + (i + 1) by omega]
      exact this
    · refine chain_congr _ _ _ old.1 (fun a ha => ?_)
      have ha2 : a < D := hbound a (by
        have := List.mem_of_mem_dropLast ha
        simp only [List.mem_append, List.mem_reverse, List.mem_singleton, List.mem_cons]
          at this ⊢
        tauto)
      show (h4.node a).prev = (h.node a).prev
      rw [e_prev, if_neg (by omega), hframe a ha2]
    · rw [List.getLast?_reverse]; exact range_head _ _
    · rw [List.head?_append_of_ne_nil _ (by simpa using hcne), List.head?_reverse]
      exact hlast
    · simp
    · show (h4.node (D + 1)).prev = _
      rw [e_prev, if_pos rfl]
    · show (h4.node D1).prev = _
      have hD1 : D1 < D := hbound D1 (by simp)
      rw [e_prev, if_neg (by omega), hframe D1 hD1]
      exact old.2 D1 (by simp)
  refine ⟨h4, ?_, ⟨?_, np, pp, ?_, ?_, ?_⟩⟩
  · rw [heq]
    have sfx : next_path h4 (pnt :: List.range' (D + 1) (n + 1)) := by
      obtain ⟨l1, hl1⟩ : ∃ l1, w0 :: c = l1 ++ [pnt] := by
        have hne : (w0 :: c) ≠ [] := by simp
        refine ⟨(w0 :: c).dropLast, ?_⟩
        have := List.dropLast_append_getLast hne
        have hl : (w0 :: c).getLast? = some pnt := by
          rw [getLast_cons_of _ _ hcne]; exact hlast
        rw [List.getLast?_eq_getLast _ hne] at hl
        simp only [Option.some.injEq] at hl
        rw [hl] at this
        exact this.symm
      refine path_of_suffix_eq _ _ l1 _ pnt np ?_
      show (w0 :: c) ++ _ = _
      rw [hl1]; simp
    rw [forward_to_last_path h4 _ pnt fuel (D + 1 + n) sfx (by simp; omega)
      (by rw [getLast_cons_of _ _ (by simp)]; exact range_last _ _)]
    simp only [Except.map]
    rw [show D + (n + 1) = D + 1 + n by omega]
  · rw [List.getLast?_append_of_ne_nil _ (by simp), range_last]
    exact congrArg some (by omega)
  · rw [e_wind, hframe D1 (hbound D1 (by simp))]; exact hdummy
  · rw [List.map_append]
    congr 1
    · rw [← htimes]
      refine List.map_congr_left (fun a ha => ?_)
      rw [e_time, hframe a (hcb a ha)]
    · have := range_times h1 D (n + 1) _ fi.times_len fi.times
      rw [← this]
      exact List.map_congr_left (fun a _ => e_time a)
  · intro a ha
    rw [e_size]
    simp only [List.mem_cons, List.mem_append] at ha
    rcases ha with rfl | rfl | ha | ha
    · have := hbound a (by simp); omega
    · have := hbound a (by simp); omega
    · have := hcb a ha; omega
    · have := mem_range_bounds _ _ _ ha; omega

end stitch2

section stitch3
variable {α : Type} [LinearOrderedField α]

theorem append_file_back_first (P : param α) (M : libm α) (st : state α) (ht : P.TRACE < 0)
    (h : heap α) (w0 : Nat) (hw : w0 < h.size) (hwn : (h.node w0).next = none)
    (hwp : (h.node w0).prev = none) (fuel : Nat) (y m d hr : Int) (rest : List line)
    (hf : (stamps rest).length + 2 < fuel) :
    ∃ h2, append_file P M st fuel (h, w0) (some (.stamp y m d hr :: rest)) =
        .ok (h2, h.size + ((stamps rest).length + 1)) ∧
      back_inv h2 w0 (h.size + ((stamps rest).length + 1))
        (List.range' (h.size + 1) ((stamps rest).length + 1)) h.size
        (⟨y, m, d, hr⟩ :: stamps rest) := by
  obtain ⟨h1, hr1, fi⟩ := read_file_back P M st ht h fuel y m d hr rest (by omega)
  generalize hn : (stamps rest).length = n at *
  generalize hD : h.size = D at *
  have hframe : ∀ a, a < D → h1.node a = h.node a := fi.frame
  have hDn : (h1.node D).next = some (D + 1) := by simpa using fi.fwd_in 0 (by omega)
  have heq : append_file P M st fuel (h, w0) (some (.stamp y m d hr :: rest)) =
      (forward_to_last (set_next (set_next h1 w0 (some D)) w0 (some (D + 1))) fuel w0).map
        (fun x => (set_next (set_next h1 w0 (some D)) w0 (some (D + 1)), x)) := by
    simp only [append_file, hr1, if_pos ht]
    have e1 : ((set_next h1 w0 (some D)).node D).next = some (D + 1) := by
      rw [set_next_next, if_neg (by omega), hDn]
    rw [e1]
    have e2 : ((set_next (set_next h1 w0 (some D)) w0 (some (D + 1))).node w0).prev = none := by
      rw [set_next_prev, set_next_prev, hframe w0 hw, hwp]
    simp only [e2]
  generalize hh4 : set_next (set_next h1 w0 (some D)) w0 (some (D + 1)) = h4 at heq
  have e_next : ∀ a, (h4.node a).next = if a = w0 then some (D + 1) else (h1.node a).next := by
    intro a
    rw [← hh4, set_next_next, set_next_next]
    split_ifs <;> rfl
  have e_prev : ∀ a, (h4.node a).prev = (h1.node a).prev := by
    intro a
    rw [← hh4, set_next_prev, set_next_prev]
  have e_time : ∀ a, (h4.node a).time = (h1.node a).time := by
    intro a
    rw [← hh4, set_next_time, set_next_time]
  have e_wind : ∀ a, (h4.node a).wind = (h1.node a).wind := by
    intro a
    rw [← hh4, set_next_wind, set_next_wind]
  have e_size : h4.size = D + 1 + (n + 1) := by
    rw [← hh4, set_next_size, set_next_size]; exact fi.size_eq
  have np : next_path h4 (w0 :: List.range' (D + 1) (n + 1)) := by
    refine join_paths _ [w0] _ w0 (D + 1) (D + 1 + n) (List.chain'_singleton _) ?_ rfl
      (range_head _ _) (range_last _ _) ?_ ?_
    · refine chain_range_up _ n (D + 1) (fun i hi => ?_)
      show (h4.node (D + 1 + i)).next = _
      rw [e_next, if_neg (by omega)]
      have := fi.fwd_in (i + 1) (by omega)
      rw [show D + 1 + i = D + (i + 1) by omega]
      exact this
    · show (h4.node w0).next = _
      rw [e_next, if_pos rfl]
    · show (h4.node (D + 1 + n)).next = _
      rw [e_next, if_neg (by omega), show D + 1 + n = D + (n + 1) by omega]
      exact fi.fwd_end
  have pp : prev_path h4 ((List.range' (D + 1) (n + 1)).reverse ++ [D]) := by
    have e : (List.range' (D + 1) (n + 1)).reverse ++ [D] =
        (List.range' D (n + 1 + 1)).reverse := by
      rw [List.range'_succ D (n + 1)]; simp
    rw [e]
    unfold prev_path
    rw [path_of_iff]
    refine ⟨chain_range_down _ (n + 1) D (fun i hi => ?_), ?_⟩
    · show (h4.node (D + i + 1)).prev = _
      rw [e_prev]
      exact fi.bwd_in i hi
    · intro x hx
      rw [List.getLast?_reverse, range_head] at hx
      simp only [Option.some.injEq] at hx
      subst hx
      show (h4.node D).prev = none
      rw [e_prev]
      exact fi.bwd_end
  refine ⟨h4, ?_, ⟨?_, np, pp, ?_, ?_, ?_⟩⟩
  · rw [heq]
    rw [forward_to_last_path h4 _ w0 fuel (D + 1 + n) np (by simp; omega)
      (by rw [getLast_cons_of _ _ (by simp)]; exact range_last _ _)]
    simp only [Except.map]
    rw [show D + (n + 1) = D + 1 + n by omega]
  · rw [range_last]
    exact congrArg some (by omega)
  · rw [e_wind]; exact fi.dummy
  · have := range_times h1 D (n + 1) _ fi.times_len fi.times
    rw [← this]
    exact List.map_congr_left (fun a _ => e_time a)
  · intro a ha
    rw [e_size]
    simp only [List.mem_cons] at ha
    rcases ha with rfl | rfl | ha
    · omega
    · omega
    · have := mem_range_bounds _ _ _ ha; omega

end stitch3

section stitch4
variable {α : Type} [LinearOrderedField α]

theorem range_rev_split (D n : Nat) :
    (List.range' D (n + 1)).reverse = (List.range' (D + 1) n).reverse ++ [D] := by
  rw [List.range'_succ D n]; simp

theorem append_file_fore_first (P : param α) (M : libm α) (st : state α) (ht : ¬ P.TRACE < 0)
    (h : heap α) (w0 : Nat) (hw : w0 < h.size) (hwp : (h.node w0).prev = none)
    (fuel : Nat) (y m d hr : Int) (rest : List line)
    (hf : (stamps rest).length + 3 < fuel) :
    ∃ h2, append_file P M st fuel (h, w0) (some (.stamp y m d hr :: rest)) =
        .ok (h2, h.size) ∧
      fore_inv h2 w0 h.size (List.range' (h.size + 1) ((stamps rest).length + 1)).reverse
        (⟨y, m, d, hr⟩ :: stamps rest).reverse := by
  obtain ⟨h1, hr1, fi⟩ := read_file_fore P M st ht h fuel y m d hr rest (by omega)
  generalize hn : (stamps rest).length = n at *
  generalize hD : h.size = D at *
  have hframe : ∀ a, a < D → h1.node a = h.node a := fi.frame
  have heq : append_file P M st fuel (h, w0) (some (.stamp y m d hr :: rest)) =
      (forward_to_last (set_prev (set_next h1 w0 (some (D + (n + 1)))) (D + (n + 1)) none)
        fuel w0).map
        (fun x => (set_prev (set_next h1 w0 (some (D + (n + 1)))) (D + (n + 1)) none, x)) := by
    simp only [append_file, hr1, if_neg ht]
    have e1 : ((set_next h1 w0 (some (D + (n + 1)))).node w0).prev = none := by
      rw [set_next_prev, hframe w0 hw, hwp]
    rw [e1]
    have e2 : ((set_prev (set_next h1 w0 (some (D + (n + 1)))) (D + (n + 1)) none).node
        w0).prev = none := by
      rw [set_prev_prev, if_neg (by omega), e1]
    simp only [e2]
  generalize hh4 : set_prev (set_next h1 w0 (some (D + (n + 1)))) (D + (n + 1)) none = h4
    at heq
  have e_next : ∀ a, (h4.node a).next =
      if a = w0 then some (D + (n + 1)) else (h1.node a).next := by
    intro a
    rw [← hh4, set_prev_next, set_next_next]
  have e_prev : ∀ a, (h4.node a).prev = (h1.node a).prev := by
    intro a
    rw [← hh4, set_prev_prev, set_next_prev]
    split_ifs with e
    · rw [e]; exact fi.fwd_end.symm
    · rfl
  have e_time : ∀ a, (h4.node a).time = (h1.node a).time := by
    intro a
    rw [← hh4, set_prev_time, set_next_time]
  have e_wind : ∀ a, (h4.node a).wind = (h1.node a).wind := by
    intro a
    rw [← hh4, set_prev_wind, set_next_wind]
  have e_size : h4.size = D + 1 + (n + 1) := by
    rw [← hh4, set_prev_size, set_next_size]; exact fi.size_eq
  have np : next_path h4 (w0 :: (List.range' (D + 1) (n + 1)).reverse ++ [D]) := by
    have e : w0 :: (List.range' (D + 1) (n + 1)).reverse ++ [D] =
        [w0] ++ (List.range' D (n + 1 + 1)).reverse := by
      rw [range_rev_split D (n + 1)]; rfl
    rw [e]
    refine join_paths _ [w0] _ w0 (D + (n + 1)) D (List.chain'_singleton _) ?_ rfl ?_ ?_ ?_ ?_
    · refine chain_range_down _ (n + 1) D (fun i hi => ?_)
      show (h4.node (D + i + 1)).next = _
      rw [e_next, if_neg (by omega)]
      exact fi.bwd_in i hi
    · rw [List.head?_reverse]; exact range_last _ _
    · rw [List.getLast?_reverse]; exact range_head _ _
    · show (h4.node w0).next = _
      rw [e_next, if_pos rfl]
    · show (h4.node D).next = _
      rw [e_next, if_neg (by omega)]
      exact fi.bwd_end
  have pp : prev_path h4 (D :: (List.range' (D + 1) (n + 1)).reverse.reverse) := by
    rw [List.reverse_reverse, ← List.range'_succ]
    unfold prev_path
    rw [path_of_iff]
    refine ⟨chain_range_up _ (n + 1) D (fun i hi => ?_), ?_⟩
    · show (h4.node (D + i)).prev = _
      rw [e_prev]
      exact fi.fwd_in i hi
    · intro x hx
      rw [range_last] at hx
      simp only [Option.some.injEq] at hx
      subst hx
      show (h4.node (D + (n + 1))).prev = none
      rw [e_prev]
      exact fi.fwd_end
  refine ⟨h4, ?_, ⟨by simp, np, pp, ?_, ?_, ?_⟩⟩
  · rw [heq]
    rw [forward_to_last_path h4 _ w0 fuel D np (by simp; omega)
      (by rw [getLast_cons_of _ _ (by simp)]; simp)]
    rfl
  · rw [e_wind]; exact fi.dummy
  · have := range_times h1 D (n + 1) _ fi.times_len fi.times
    rw [← this, List.map_reverse]
    congr 1
    exact List.map_congr_left (fun a _ => e_time a)
  · intro a ha
    rw [e_size]
    simp only [List.mem_cons, List.mem_reverse] at ha
    rcases ha with rfl | rfl | ha
    · omega
    · omega
    · have := mem_range_bounds _ _ _ ha; omega

end stitch4

section stitch5
variable {α : Type} [LinearOrderedField α]

theorem append_file_fore_step (P : param α) (M : libm α) (st : state α) (ht : ¬ P.TRACE < 0)
    (h : heap α) (w0 pnt : Nat) (c : List Nat) (ts : List date)
    (inv : fore_inv h w0 pnt c ts) (fuel : Nat) (y m d hr : Int) (rest : List line)
    (hf : (stamps rest).length + 3 < fuel) :
    ∃ h2, append_file P M st fuel (h, pnt) (some (.stamp y m d hr :: rest)) =
        .ok (h2, h.size) ∧
      fore_inv h2 w0 h.size
        (c ++ (List.range' (h.size + 1) ((stamps rest).length + 1)).reverse)
        (ts ++ (⟨y, m, d, hr⟩ :: stamps rest).reverse) := by
  obtain ⟨hcne, hnext, hprev, hdummy, htimes, hbound⟩ := inv
  obtain ⟨h1, hr1, fi⟩ := read_file_fore P M st ht h fuel y m d hr rest (by omega)
  generalize hn : (stamps rest).length = n at *
  generalize hD : h.size = D at *
  have hframe : ∀ a, a < D → h1.node a = h.node a := fi.frame
  have hpD : pnt < D := hbound pnt (by simp)
  have hcb : ∀ a ∈ c, a < D := fun a ha => hbound a (by simp [ha])
  -- the last snapshot of the old chain
  obtain ⟨q, hql⟩ : ∃ q, c.getLast? = some q := by
    cases hc : c.getLast? with
    | none => rw [List.getLast?_eq_none_iff] at hc; exact absurd hc hcne
    | some q => exact ⟨q, rfl⟩
  have hqmem : q ∈ c := getLast_mem_of _ _ hql
  have hqD : q < D := hcb q hqmem
  have hrev : c.reverse = q :: c.reverse.tail := by
    have h1 : c.reverse.head? = some q := by rw [List.head?_reverse]; exact hql
    cases hcr : c.reverse with
    | nil => rw [hcr] at h1; simp at h1
    | cons a r => rw [hcr] at h1; simp at h1; simp [h1]
  have hq : (h.node pnt).prev = some q := by
    have := hprev
    rw [hrev] at this
    exact this.1
  have hnodup := path_of_nodup _ _ hnext
  have hpq : pnt ≠ q := by
    rintro rfl
    have : (w0 :: c ++ [pnt]).Nodup := hnodup
    rw [List.cons_append, List.nodup_cons, List.nodup_append] at this
    exact this.2.2.2 hqmem (List.mem_singleton_self _)
  -- the heap after stitching
  have heq : append_file P M st fuel (h, pnt) (some (.stamp y m d hr :: rest)) =
      (forward_to_last
        (set_next (set_prev (set_next h1 pnt (some (D + (n + 1)))) (D + (n + 1)) (some q)) q
          (some (D + (n + 1)))) fuel pnt).map
        (fun x =>
          (set_next (set_prev (set_next h1 pnt (some (D + (n + 1)))) (D + (n + 1)) (some q)) q
            (some (D + (n + 1))), x)) := by
    simp only [append_file, hr1, if_neg ht]
    have e1 : ((set_next h1 pnt (some (D + (n + 1)))).node pnt).prev = some q := by
      rw [set_next_prev, hframe pnt hpD, hq]
    rw [e1]
    have e2 : ((set_prev (set_next h1 pnt (some (D + (n + 1)))) (D + (n + 1)) (some q)).node
        pnt).prev = some q := by
      rw [set_prev_prev, if_neg (by omega), e1]
    have e3 : ((set_prev (set_next h1 pnt (some (D + (n + 1)))) (D + (n + 1)) (some q)).node
        pnt).next = some (D + (n + 1)) := by
      rw [set_prev_next, set_next_next, if_pos rfl]
    simp only [e2, e3]
  generalize hh4 : set_next (set_prev (set_next h1 pnt (some (D + (n + 1)))) (D + (n + 1))
    (some q)) q (some (D + (n + 1))) = h4 at heq
  have e_next : ∀ a, (h4.node a).next =
      if a = q then some (D + (n + 1)) else if a = pnt then some (D + (n + 1))
      else (h1.node a).next := by
    intro a
    rw [← hh4, set_next_next, set_prev_next, set_next_next]
  have e_prev : ∀ a, (h4.node a).prev =
      if a = D + (n + 1) then some q else (h1.node a).prev := by
    intro a
    rw [← hh4, set_next_prev, set_prev_prev, set_next_prev]
  have e_time : ∀ a, (h4.node a).time = (h1.node a).time := by
    intro a
    rw [← hh4, set_next_time, set_prev_time, set_next_time]
  have e_wind : ∀ a, (h4.node a).wind = (h1.node a).wind := by
    intro a
    rw [← hh4, set_next_wind, set_prev_wind, set_next_wind]
  have e_size : h4.size = D + 1 + (n + 1) := by
    rw [← hh4, set_next_size, set_prev_size, set_next_size]; exact fi.size_eq
  have down : List.Chain' (fun a b => (h4.node a).next = some b)
      (List.range' D (n + 1 + 1)).reverse := by
    refine chain_range_down _ (n + 1) D (fun i hi => ?_)
    show (h4.node (D + i + 1)).next = _
    rw [e_next, if_neg (by omega), if_neg (by omega)]
    exact fi.bwd_in i hi
  have hDend : (h4.node D).next = none := by
    rw [e_next, if_neg (by omega), if_neg (by omega)]
    exact fi.bwd_end
  have hl : (w0 :: c).getLast? = some q := by
    rw [getLast_cons_of _ _ hcne]; exact hql
  -- the new path along next
  have np : next_path h4
      (w0 :: (c ++ (List.range' (D + 1) (n + 1)).reverse) ++ [D]) := by
    have e : w0 :: (c ++ (List.range' (D + 1) (n + 1)).reverse) ++ [D] =
        (w0 :: c) ++ (List.range' D (n + 1 + 1)).reverse := by
      rw [range_rev_split D (n + 1)]; simp
    rw [e]
    have old := ((path_of_iff _ _).1 hnext).1
    have old1 : List.Chain' (fun a b => (h.node a).next = some b) (w0 :: c) := by
      have : List.Chain' (fun a b => (h.node a).next = some b) ((w0 :: c) ++ [pnt]) := old
      exact List.Chain'.left_of_append this
    refine join_paths _ (w0 :: c) _ q (D + (n + 1)) D ?_ down hl ?_ ?_ ?_ hDend
    · refine chain_congr _ _ _ old1 (fun a ha => ?_)
      have hmem : a ∈ w0 :: c := List.mem_of_mem_dropLast ha
      have hne : a ≠ q := fun e => by
        have nd : (w0 :: c).Nodup := by
          have : ((w0 :: c) ++ [pnt]).Nodup := hnodup
          exact (List.nodup_append.1 this).1
        exact not_mem_dropLast _ _ nd hl (e ▸ ha)
      have hne2 : a ≠ pnt := fun e => by
        have : ((w0 :: c) ++ [pnt]).Nodup := hnodup
        exact (List.nodup_append.1 this).2.2 (e ▸ hmem) (List.mem_singleton_self _)
      have ha2 : a < D := hbound a (by
        simp only [List.mem_cons] at hmem ⊢
        tauto)
      show (h4.node a).next = (h.node a).next
      rw [e_next, if_neg hne, if_neg hne2, hframe a ha2]
    · rw [List.head?_reverse]; exact range_last _ _
    · rw [List.getLast?_reverse]; exact range_head _ _
    · show (h4.node q).next = _
      rw [e_next, if_pos rfl]
  -- the new path along prev
  have pp : prev_path h4 (D :: (c ++ (List.range' (D + 1) (n + 1)).reverse).reverse) := by
    have e : D :: (c ++ (List.range' (D + 1) (n + 1)).reverse).reverse =
        List.range' D (n + 1 + 1) ++ c.reverse := by
      rw [List.range'_succ D (n + 1)]; simp
    rw [e]
    have old := (path_of_iff _ _).1 hprev
    obtain ⟨z, hz⟩ : ∃ z, c.reverse.getLast? = some z := by
      rw [hrev]
      cases hc : (q :: c.reverse.tail).getLast? with
      | none => simp at hc
      | some z => exact ⟨z, rfl⟩
    refine join_paths _ _ _ (D + (n + 1)) q z ?_ ?_ (range_last _ _) ?_ hz ?_ ?_
    · refine chain_range_up _ (n + 1) D (fun i hi => ?_)
      show (h4.node (D + i)).prev = _
      rw [e_prev, if_neg (by omega)]
      exact fi.fwd_in i hi
    · have old1 : List.Chain' (fun a b => (h.node a).prev = some b) c.reverse :=
        List.Chain'.tail old.1
      refine chain_congr _ _ _ old1 (fun a ha => ?_)
      have hmem : a ∈ c := List.mem_reverse.1 (List.mem_of_mem_dropLast ha)
      show (h4.node a).prev = (h.node a).prev
      rw [e_prev, if_neg (by have := hcb a hmem; omega), hframe a (hcb a hmem)]
    · rw [List.head?_reverse]; exact hql
    · show (h4.node (D + (n + 1))).prev = _
      rw [e_prev, if_pos rfl]
    · have hzc : z ∈ c := List.mem_reverse.1 (getLast_mem_of _ _ hz)
      show (h4.node z).prev = none
      rw [e_prev, if_neg (by have := hcb z hzc; omega), hframe z (hcb z hzc)]
      refine old.2 z ?_
      rw [getLast_cons_of _ _ (by rw [hrev]; simp)]
      exact hz
  refine ⟨h4, ?_, ⟨by simp [hcne], np, pp, ?_, ?_, ?_⟩⟩
  · rw [heq]
    have sfx : next_path h4 (pnt :: (List.range' D (n + 1 + 1)).reverse) := by
      have hh : (List.range' D (n + 1 + 1)).reverse.head? = some (D + (n + 1)) := by
        rw [List.head?_reverse]; exact range_last _ _
      have hg : (List.range' D (n + 1 + 1)).reverse.getLast? = some D := by
        rw [List.getLast?_reverse]; exact range_head _ _
      refine join_paths _ [pnt] _ pnt (D + (n + 1)) D (List.chain'_singleton _) down rfl
        hh hg ?_ hDend
      · show (h4.node pnt).next = _
        rw [e_next, if_neg hpq, if_pos rfl]
    rw [forward_to_last_path h4 _ pnt fuel D sfx (by simp; omega)
      (by rw [getLast_cons_of _ _ (by simp), List.getLast?_reverse]; exact range_head _ _)]
    rfl
  · rw [e_wind]; exact fi.dummy
  · rw [List.map_append]
    congr 1
    · rw [← htimes]
      refine List.map_congr_left (fun a ha => ?_)
      rw [e_time, hframe a (hcb a ha)]
    · have := range_times h1 D (n + 1) _ fi.times_len fi.times
      rw [← this, List.map_reverse]
      congr 1
      exact List.map_congr_left (fun a _ => e_time a)
  · intro a ha
    rw [e_size]
    simp only [List.mem_cons, List.mem_append, List.mem_reverse] at ha
    rcases ha with rfl | rfl | ha | ha
    · have := hbound a (by simp); omega
    · omega
    · have := hcb a ha; omega
    · have := mem_range_bounds _ _ _ ha; omega

end stitch5

section keep_time
variable {α : Type} [LinearOrderedField α]

theorem read_file_line_keeps_time (P : param α) (M : libm α) (st : state α)
    (hp : heap α × Nat) (l : line) (a : Nat) (ha : a < hp.1.size) :
    a < (read_file_line P M st hp l).1.size ∧
      ((read_file_line P M st hp l).1.node a).time = (hp.1.node a).time := by
  cases l with
  | stamp y m d hr =>
    simp only [read_file_line]
    split_ifs <;>
      simp only [set_time_size, set_prev_size, set_next_size, new_winddata_size, set_time_time,
        set_prev_time, set_next_time, new_winddata_time, new_winddata_fst] <;>
      refine ⟨by omega, ?_⟩ <;>
      rw [if_neg (by omega), if_neg (by omega)]
  | sentinel => exact ⟨ha, rfl⟩
  | sample A B C =>
    simp only [read_file_line, set_wind_size, set_wind_time]
    exact ⟨ha, trivial⟩

theorem read_file_fold_keeps_time (P : param α) (M : libm α) (st : state α)
    (lines : List line) (hp : heap α × Nat) (a : Nat) (ha : a < hp.1.size) :
    a < (lines.foldl (read_file_line P M st) hp).1.size ∧
      ((lines.foldl (read_file_line P M st) hp).1.node a).time = (hp.1.node a).time := by
  induction lines generalizing hp with
  | nil => exact ⟨ha, rfl⟩
  | cons l r ih =>
    obtain ⟨h1, h2⟩ := read_file_line_keeps_time P M st hp l a ha
    obtain ⟨h3, h4⟩ := ih (read_file_line P M st hp l) h1
    exact ⟨h3, h4.trans h2⟩

theorem read_file_keeps_time (P : param α) (M : libm α) (st : state α)
    (file : Option (List line)) (fuel : Nat) (h : heap α) (first : Nat) (h1 : heap α)
    (e : read_file P M st file fuel h = .ok (first, h1)) :
    h.size < h1.size ∧ (h1.node h.size).time = ⟨0, 0, 0, 0⟩ ∧
      ∀ a, a < h.size → (h1.node a).time = (h.node a).time := by
  unfold read_file at e
  cases file with
  | none => cases e
  | some lines =>
    simp only [new_winddata_fst] at e
    split at e
    · cases e
    · cases e
      have k := fun a ha => read_file_fold_keeps_time P M st lines ((new_winddata h).2, h.size) a ha
      simp only [new_winddata_size, new_winddata_time] at k
      refine ⟨(k h.size (by omega)).1, ?_, fun a ha => ?_⟩
      · rw [(k h.size (by omega)).2, if_pos rfl]
      · rw [(k a (by omega)).2, if_neg (by omega)]

theorem map_ok_fst {ε β γ : Type} (x : Except ε β) (g : γ) (r : γ × β)
    (e : x.map (fun q => (g, q)) = .ok r) : r.1 = g := by
  cases x with
  | error er => cases e
  | ok q => cases e; rfl

theorem append_file_keeps_time (P : param α) (M : libm α) (st : state α) (fuel : Nat)
    (hp : heap α × Nat) (file : Option (List line)) (hp2 : heap α × Nat)
    (e : append_file P M st fuel hp file = .ok hp2) :
    hp.1.size < hp2.1.size ∧ (hp2.1.node hp.1.size).time = ⟨0, 0, 0, 0⟩ ∧
      ∀ a, a < hp.1.size → (hp2.1.node a).time = (hp.1.node a).time := by
  unfold append_file at e
  cases hr : read_file P M st file fuel hp.1 with
  | error er => rw [hr] at e; cases e
  | ok x =>
    obtain ⟨first, h1⟩ := x
    obtain ⟨k1, k2, k3⟩ := read_file_keeps_time P M st file fuel hp.1 first h1 hr
    rw [hr] at e
    simp only at e
    split_ifs at e with ht
    · split at e
      · rw [map_ok_fst _ _ _ e]
        simp only [set_next_size, set_next_time]
        exact ⟨k1, k2, k3⟩
      · rw [map_ok_fst _ _ _ e]
        simp only [set_next_size, set_next_time, set_prev_size, set_prev_time]
        exact ⟨k1, k2, k3⟩
      · cases e
    · rw [map_ok_fst _ _ _ e]
      split
      · simp only [set_next_size, set_next_time, set_prev_size, set_prev_time]
        exact ⟨k1, k2, k3⟩
      · simp only [set_next_size, set_next_time, set_prev_size, set_prev_time]
        exact ⟨k1, k2, k3⟩

end keep_time

section linking
variable {α : Type} [LinearOrderedField α]

theorem link_files_cons (P : param α) (M : libm α) (st : state α) (fuel : Nat)
    (hp hp2 : heap α × Nat) (f : Option (List line)) (fl : List (Option (List line)))
    (e : append_file P M st fuel hp f = .ok hp2) :
    link_files P M st fuel hp (f :: fl) = link_files P M st fuel hp2 fl := by
  simp only [link_files, List.foldlM_cons, e]
  rfl

theorem link_files_keeps_time (P : param α) (M : libm α) (st : state α) (fuel : Nat)
    (fl : List (Option (List line))) (hp hp2 : heap α × Nat)
    (e : link_files P M st fuel hp fl = .ok hp2) :
    hp.1.size ≤ hp2.1.size ∧
      ∀ a, a < hp.1.size → (hp2.1.node a).time = (hp.1.node a).time := by
  induction fl generalizing hp with
  | nil => cases e; exact ⟨le_refl _, fun _ _ => rfl⟩
  | cons f fl ih =>
    cases ha : append_file P M st fuel hp f with
    | error er =>
      have : link_files P M st fuel hp (f :: fl) = .error er := by
        simp only [link_files, List.foldlM_cons, ha]; rfl
      rw [this] at e; cases e
    | ok hp1 =>
      rw [link_files_cons P M st fuel hp hp1 f fl ha] at e
      obtain ⟨k1, _, k3⟩ := append_file_keeps_time P M st fuel hp f hp1 ha
      obtain ⟨j1, j2⟩ := ih hp1 e
      exact ⟨by omega, fun a ha2 => (j2 a (by omega)).trans (k3 a ha2)⟩

theorem link_files_back (P : param α) (M : libm α) (st : state α) (ht : P.TRACE < 0)
    (fuel : Nat) (w0 D1 : Nat) (fl : List (List line))
    (hwf : ∀ f ∈ fl, ∃ y m d hr rest, f = line.stamp y m d hr :: rest)
    (hfuel : ∀ f ∈ fl, (stamps f).length + 3 < fuel)
    (h : heap α) (pnt : Nat) (c : List Nat) (ts : List date)
    (inv : back_inv h w0 pnt c D1 ts) :
    ∃ h2 pnt2 c2, link_files P M st fuel (h, pnt) (fl.map some) = .ok (h2, pnt2) ∧
      back_inv h2 w0 pnt2 c2 D1 (ts ++ (fl.map stamps).join) := by
  induction fl generalizing h pnt c ts with
  | nil => exact ⟨h, pnt, c, rfl, by simpa using inv⟩
  | cons f fl ih =>
    obtain ⟨y, m, d, hr, rest, rfl⟩ := hwf f (List.mem_cons_self _ _)
    have hf := hfuel _ (List.mem_cons_self _ _)
    have hf2 : (stamps rest).length + 2 < fuel := by
      simp only [stamps, List.length_cons] at hf; omega
    obtain ⟨h2, e, inv2⟩ := append_file_back_step P M st ht h w0 pnt c D1 ts inv fuel y m d hr
      rest hf2
    obtain ⟨h3, pnt3, c3, e3, inv3⟩ := ih (fun f hf => hwf f (List.mem_cons_of_mem _ hf))
      (fun f hf => hfuel f (List.mem_cons_of_mem _ hf)) h2 _ _ _ inv2
    refine ⟨h3, pnt3, c3, ?_, ?_⟩
    · rw [List.map_cons, link_files_cons P M st fuel _ _ _ _ e]; exact e3
    · simpa [stamps, List.append_assoc] using inv3

theorem link_files_fore (P : param α) (M : libm α) (st : state α) (ht : ¬ P.TRACE < 0)
    (fuel : Nat) (w0 : Nat) (fl : List (List line))
    (hwf : ∀ f ∈ fl, ∃ y m d hr rest, f = line.stamp y m d hr :: rest)
    (hfuel : ∀ f ∈ fl, (stamps f).length + 3 < fuel)
    (h : heap α) (pnt : Nat) (c : List Nat) (ts : List date)
    (inv : fore_inv h w0 pnt c ts) (hd : (h.node pnt).time = ⟨0, 0, 0, 0⟩) :
    ∃ h2 pnt2 c2, link_files P M st fuel (h, pnt) (fl.map some) = .ok (h2, pnt2) ∧
      fore_inv h2 w0 pnt2 c2 (ts ++ (fl.map (fun f => (stamps f).reverse)).join) ∧
      (h2.node pnt2).time = ⟨0, 0, 0, 0⟩ := by
  induction fl generalizing h pnt c ts with
  | nil => exact ⟨h, pnt, c, rfl, by simpa using inv, hd⟩
  | cons f fl ih =>
    obtain ⟨y, m, d, hr, rest, rfl⟩ := hwf f (List.mem_cons_self _ _)
    have hf := hfuel _ (List.mem_cons_self _ _)
    have hf2 : (stamps rest).length + 3 < fuel := by
      simp only [stamps, List.length_cons] at hf; omega
    obtain ⟨h2, e, inv2⟩ := append_file_fore_step P M st ht h w0 pnt c ts inv fuel y m d hr
      rest hf2
    have kd := (append_file_keeps_time P M st fuel _ _ _ e).2.1
    obtain ⟨h3, pnt3, c3, e3, inv3, d3⟩ := ih (fun f hf => hwf f (List.mem_cons_of_mem _ hf))
      (fun f hf => hfuel f (List.mem_cons_of_mem _ hf)) h2 _ _ _ inv2 kd
    refine ⟨h3, pnt3, c3, ?_, ?_, d3⟩
    · rw [List.map_cons, link_files_cons P M st fuel _ _ _ _ e]; exact e3
    · simpa [stamps, List.append_assoc] using inv3

/-- A backward run over day files that each open with a time line: the chain
behind `w0` carries the times of the time lines in file order. -/
theorem link_files_back_run (P : param α) (M : libm α) (st : state α) (ht : P.TRACE < 0)
    (fuel : Nat) (h : heap α) (w0 : Nat) (hw : w0 < h.size) (hwn : (h.node w0).next = none)
    (hwp : (h.node w0).prev = none) (fl : List (List line)) (hne : fl ≠ [])
    (hwf : ∀ f ∈ fl, ∃ y m d hr rest, f = line.stamp y m d hr :: rest)
    (hfuel : ∀ f ∈ fl, (stamps f).length + 3 < fuel) :
    ∃ h2 pnt2 c, link_files P M st fuel (h, w0) (fl.map some) = .ok (h2, pnt2) ∧
      back_inv h2 w0 pnt2 c h.size (fl.map stamps).join := by
  cases fl with
  | nil => exact absurd rfl hne
  | cons f fl =>
    obtain ⟨y, m, d, hr, rest, rfl⟩ := hwf f (List.mem_cons_self _ _)
    have hf := hfuel _ (List.mem_cons_self _ _)
    have hf2 : (stamps rest).length + 2 < fuel := by
      simp only [stamps, List.length_cons] at hf; omega
    obtain ⟨h2, e, inv2⟩ := append_file_back_first P M st ht h w0 hw hwn hwp fuel y m d hr
      rest hf2
    obtain ⟨h3, pnt3, c3, e3, inv3⟩ := link_files_back P M st ht fuel w0 _ fl
      (fun f hf => hwf f (List.mem_cons_of_mem _ hf))
      (fun f hf => hfuel f (List.mem_cons_of_mem _ hf)) h2 _ _ _ inv2
    refine ⟨h3, pnt3, c3, ?_, ?_⟩
    · rw [List.map_cons, link_files_cons P M st fuel _ _ _ _ e]; exact e3
    · simpa [stamps] using inv3

/-- A forward run over day files that each open with a time line: the chain
behind `w0` carries the times of the time lines, each file reversed, and ends
in the dummy of the last file, whose time is zero. -/
theorem link_files_fore_run (P : param α) (M : libm α) (st : state α) (ht : ¬ P.TRACE < 0)
    (fuel : Nat) (h : heap α) (w0 : Nat) (hw : w0 < h.size)
    (hwp : (h.node w0).prev = none) (fl : List (List line)) (hne : fl ≠ [])
    (hwf : ∀ f ∈ fl, ∃ y m d hr rest, f = line.stamp y m d hr :: rest)
    (hfuel : ∀ f ∈ fl, (stamps f).length + 3 < fuel) :
    ∃ h2 pnt2 c, link_files P M st fuel (h, w0) (fl.map some) = .ok (h2, pnt2) ∧
      fore_inv h2 w0 pnt2 c (fl.map (fun f => (stamps f).reverse)).join ∧
      (h2.node pnt2).time = ⟨0, 0, 0, 0⟩ := by
  cases fl with
  | nil => exact absurd rfl hne
  | cons f fl =>
    obtain ⟨y, m, d, hr, rest, rfl⟩ := hwf f (List.mem_cons_self _ _)
    have hf := hfuel _ (List.mem_cons_self _ _)
    have hf2 : (stamps rest).length + 3 < fuel := by
      simp only [stamps, List.length_cons] at hf; omega
    obtain ⟨h2, e, inv2⟩ := append_file_fore_first P M st ht h w0 hw hwp fuel y m d hr
      rest hf2
    have kd := (append_file_keeps_time P M st fuel _ _ _ e).2.1
    obtain ⟨h3, pnt3, c3, e3, inv3, d3⟩ := link_files_fore P M st ht fuel w0 fl
      (fun f hf => hwf f (List.mem_cons_of_mem _ hf))
      (fun f hf => hfuel f (List.mem_cons_of_mem _ hf)) h2 _ _ _ inv2 kd
    refine ⟨h3, pnt3, c3, ?_, ?_, d3⟩
    · rw [List.map_cons, link_files_cons P M st fuel _ _ _ _ e]; exact e3
    · simpa [stamps] using inv3

/-- Blocks in decreasing time order within each file and files opened toward
the past: the times of all time lines in reading order are decreasing. -/
theorem times_pairwise_back (fl : List (List line))
    (hord : ∀ f ∈ fl, (stamps f).Pairwise (fun a b => date_lt b a))
    (hdays : fl.Pairwise (fun f g => ∀ x ∈ stamps f, ∀ y ∈ stamps g, date_lt y x)) :
    ((fl.map stamps).join).Pairwise (fun x y => date_lt y x) := by
  rw [List.pairwise_join]
  refine ⟨?_, ?_⟩
  · intro l hl
    obtain ⟨f, hf, rfl⟩ := List.mem_map.1 hl
    exact hord f hf
  · rw [List.pairwise_map]
    exact hdays

/-- Blocks in decreasing time order within each file and files opened toward
the future: the times of the time lines, each file reversed, are increasing. -/
theorem times_pairwise_fore (fl : List (List line))
    (hord : ∀ f ∈ fl, (stamps f).Pairwise (fun a b => date_lt b a))
    (hdays : fl.Pairwise (fun f g => ∀ x ∈ stamps f, ∀ y ∈ stamps g, date_lt x y)) :
    ((fl.map (fun f => (stamps f).reverse)).join).Pairwise (fun x y => date_lt x y) := by
  rw [List.pairwise_join]
  refine ⟨?_, ?_⟩
  · intro l hl
    obtain ⟨f, hf, rfl⟩ := List.mem_map.1 hl
    rw [List.pairwise_reverse]
    exact hord f hf
  · rw [List.pairwise_map]
    exact hdays.imp (fun {f g} hfg x hx y hy =>
      hfg x (List.mem_reverse.1 hx) y (List.mem_reverse.1 hy))

end linking

/-- C8 (amended): for day files that each open with a time line, hold their
blocks in decreasing time order and are opened in trace order,
`read_wind_data` returns; the snapshots `c` made from the time lines follow
each other along `next` behind `w0` (followed, for a forward trace, by the
empty dummy of the last file); their times are those of the time lines, and
along `next` they are ascending for a forward trace and descending for a
backward trace. -/
theorem C8_chain_order {α : Type} [LinearOrderedField α] (P : param α) (M : libm α)
    (st : state α) (fs : Int → Int → Int → Option (List line)) (fuel : Nat) (h : heap α)
    (w0 : Nat) (fl : List (List line))
    (hw : w0 < h.size) (hwn : (h.node w0).next = none) (hwp : (h.node w0).prev = none)
    (hne : fl ≠ [])
    (hfs : (wind_days P st).map (fun t => fs (t.year - Int.tdiv t.year 100 * 100) t.month t.day)
      = fl.map some)
    (hwf : ∀ f ∈ fl, ∃ y m d hr rest, f = line.stamp y m d hr :: rest)
    (hord : ∀ f ∈ fl, (stamps f).Pairwise (fun a b => date_lt b a))
    (hdays : fl.Pairwise (fun f g => ∀ x ∈ stamps f, ∀ y ∈ stamps g,
      if P.TRACE < 0 then date_lt y x else date_lt x y))
    (hfuel : ∀ f ∈ fl, (stamps f).length + 3 < fuel) :
    ∃ h2 c, read_wind_data P M st fs fuel h w0 = .ok h2 ∧
      (if P.TRACE < 0 then next_path h2 (w0 :: c)
        else ∃ D, next_path h2 (w0 :: c ++ [D]) ∧ (h2.node D).wind = none) ∧
      c.map (fun a => (h2.node a).time) =
        (fl.map (fun f => if P.TRACE < 0 then stamps f else (stamps f).reverse)).join ∧
      c.Pairwise (fun a b =>
        if P.TRACE < 0 then date_lt (h2.node b).time (h2.node a).time
        else date_lt (h2.node a).time (h2.node b).time) := by
  unfold read_wind_data
  rw [hfs]
  by_cases ht : P.TRACE < 0
  · obtain ⟨h2, pnt2, c, e, inv⟩ :=
      link_files_back_run P M st ht fuel h w0 hw hwn hwp fl hne hwf hfuel
    refine ⟨h2, c, by rw [e]; rfl, by rw [if_pos ht]; exact inv.nextp,
      by simpa only [if_pos ht] using inv.times, ?_⟩
    have pw := times_pairwise_back fl hord
      (hdays.imp (fun {f g} hfg x hx y hy => by simpa only [if_pos ht] using hfg x hx y hy))
    rw [← inv.times, List.pairwise_map] at pw
    simpa only [if_pos ht] using pw
  · obtain ⟨h2, pnt2, c, e, inv, _⟩ :=
      link_files_fore_run P M st ht fuel h w0 hw hwp fl hne hwf hfuel
    refine ⟨h2, c, by rw [e]; rfl, by rw [if_neg ht]; exact ⟨pnt2, inv.nextp, inv.dummy⟩,
      by simpa only [if_neg ht] using inv.times, ?_⟩
    have pw := times_pairwise_fore fl hord
      (hdays.imp (fun {f g} hfg x hx y hy => by simpa only [if_neg ht] using hfg x hx y hy))
    rw [← inv.times, List.pairwise_map] at pw
    simpa only [if_neg ht] using pw

theorem wind_days_fore_example : wind_days (example_param 1 2 2 200) (start21_state 1)
    = [⟨2001, 3, 14, 19⟩, ⟨2001, 3, 15, 0⟩] := by
  simp [wind_days, example_param, start21_state, RESMAX, List.range_succ, day_step,
    time_step_backward, time_step_forward, Function.update, month_length]

theorem wind_days_back_example : wind_days (example_param (-1) 2 2 200) (start21_state (-1))
    = [⟨2001, 3, 14, 23⟩] := by
  simp [wind_days, example_param, start21_state, RESMAX, List.range_succ, day_step,
    time_step_backward, time_step_forward, Function.update]

/-- C8 fails as stated for a backward trace: for a trace of one hour back from
2001-03-14 21h over the day file of 2001-03-14, whose blocks are in decreasing
hour order, `read_wind_data` returns, and the snapshots of 21h and of 20h,
which both hold data, are consecutive along `next` with the later one first. -/
theorem C8_counterexample :
    ∃ h2 a b, read_wind_data (example_param (-1) 2 2 200) rat_libm (start21_state (-1))
        small_fs 10 (new_winddata empty_heap).2 0 = .ok h2 ∧
      (h2.node a).next = some b ∧
      (h2.node a).wind.isSome = true ∧ (h2.node b).wind.isSome = true ∧
      (h2.node a).time = ⟨2001, 3, 14, 21⟩ ∧ (h2.node b).time = ⟨2001, 3, 14, 20⟩ ∧
      date_lt (h2.node b).time (h2.node a).time ∧
      ¬ date_lt (h2.node a).time (h2.node b).time := by
  have e : read_wind_data (example_param (-1) 2 2 200) rat_libm (start21_state (-1))
      small_fs 10 (new_winddata empty_heap).2 0 =
      (link_files (example_param (-1) 2 2 200) rat_libm (start21_state (-1)) 10
        ((new_winddata empty_heap).2, 0) [small_fs 1 3 14]).map Prod.fst := by
    unfold read_wind_data
    rw [wind_days_back_example]
    rfl
  have key : (match link_files (example_param (-1) 2 2 200) rat_libm (start21_state (-1)) 10
      ((new_winddata empty_heap).2, 0) [small_fs 1 3 14] with
    | .ok x => decide ((x.1.node 4).next = some 5) && (x.1.node 4).wind.isSome &&
        (x.1.node 5).wind.isSome && decide ((x.1.node 4).time = ⟨2001, 3, 14, 21⟩) &&
        decide ((x.1.node 5).time = ⟨2001, 3, 14, 20⟩)
    | .error _ => false) = true := by rfl
  rw [e]
  cases hrun : link_files (example_param (-1) 2 2 200) rat_libm (start21_state (-1)) 10
      ((new_winddata empty_heap).2, 0) [small_fs 1 3 14] with
  | error er => rw [hrun] at key; exact absurd key (by simp)
  | ok x =>
    rw [hrun] at key
    simp only [Bool.and_eq_true, decide_eq_true_eq] at key
    obtain ⟨⟨⟨⟨k1, k2⟩, k3⟩, k4⟩, k5⟩ := key
    refine ⟨x.1, 4, 5, rfl, k1, k2, k3, k4, k5, ?_, ?_⟩
    · rw [k4, k5]; decide
    · rw [k4, k5]; decide

theorem C8_chain_order_witness :
    (∃ h2 c, read_wind_data (example_param 1 2 2 200) rat_libm (start21_state 1) small_fs 10
        (new_winddata empty_heap).2 0 = .ok h2 ∧
      (∃ D, next_path h2 (0 :: c ++ [D]) ∧ (h2.node D).wind = none) ∧
      c.map (fun a => (h2.node a).time) =
        [⟨2001, 3, 14, 20⟩, ⟨2001, 3, 14, 21⟩, ⟨2001, 3, 14, 22⟩, ⟨2001, 3, 14, 23⟩,
          ⟨2001, 3, 15, 0⟩] ∧
      c.Pairwise (fun a b => date_lt (h2.node a).time (h2.node b).time)) ∧
    (∃ h2 c, read_wind_data (example_param (-1) 2 2 200) rat_libm (start21_state (-1)) small_fs 10
        (new_winddata empty_heap).2 0 = .ok h2 ∧
      next_path h2 (0 :: c) ∧
      c.map (fun a => (h2.node a).time) =
        [⟨2001, 3, 14, 23⟩, ⟨2001, 3, 14, 22⟩, ⟨2001, 3, 14, 21⟩, ⟨2001, 3, 14, 20⟩] ∧
      c.Pairwise (fun a b => date_lt (h2.node b).time (h2.node a).time)) := by
  constructor
  · obtain ⟨h2, c, e, np, tm, pw⟩ := C8_chain_order (example_param 1 2 2 200) rat_libm
      (start21_state 1) small_fs 10 (new_winddata empty_heap).2 0
      [[.stamp 2001 3 14 23, .sample 1 90 5, .sentinel, .stamp 2001 3 14 22, .sentinel,
        .stamp 2001 3 14 21, .sample 1 90 3, .sentinel,
        .stamp 2001 3 14 20, .sample 1 90 1, .sentinel],
       [.stamp 2001 3 15 0, .sample 1 90 5, .sentinel]]
      (by decide) rfl rfl (by simp) (by rw [wind_days_fore_example]; rfl) (by simp)
      (by simp [stamps, date_lt]) (by simp [stamps, date_lt, example_param])
      (by simp [stamps])
    exact ⟨h2, c, e, by simpa [example_param] using np,
      by simpa [stamps, example_param] using tm, by simpa [example_param] using pw⟩
  · obtain ⟨h2, c, e, np, tm, pw⟩ := C8_chain_order (example_param (-1) 2 2 200) rat_libm
      (start21_state (-1)) small_fs 10 (new_winddata empty_heap).2 0
      [[.stamp 2001 3 14 23, .sample 1 90 5, .sentinel, .stamp 2001 3 14 22, .sentinel,
        .stamp 2001 3 14 21, .sample 1 90 3, .sentinel,
        .stamp 2001 3 14 20, .sample 1 90 1, .sentinel]]
      (by decide) rfl rfl (by simp) (by rw [wind_days_back_example]; rfl) (by simp)
      (by simp [stamps, date_lt]) (by simp)
      (by simp [stamps])
    exact ⟨h2, c, e, by simpa [example_param] using np,
      by simpa [stamps, example_param] using tm, by simpa [example_param] using pw⟩

/-- The chain `read_wind_data` builds satisfies `chain_ok`: for a trace with
`TRACE ≠ 0` over day files that each open with a time line, carry valid times,
hold their blocks in decreasing time order and are opened in trace order, the
loader returns a heap in which the chain behind `w0` is as `chain_ok` asks. -/
theorem read_wind_data_chain_ok {α : Type} [LinearOrderedField α] (P : param α) (M : libm α)
    (st : state α) (fs : Int → Int → Int → Option (List line)) (fuel : Nat) (h : heap α)
    (w0 : Nat) (fl : List (List line))
    (hw : w0 < h.size) (hwn : (h.node w0).next = none) (hwp : (h.node w0).prev = none)
    (hwt : (h.node w0).time ≠ st.time) (h0 : P.TRACE ≠ 0)
    (hne : fl ≠ [])
    (hfs : (wind_days P st).map (fun t => fs (t.year - Int.tdiv t.year 100 * 100) t.month t.day)
      = fl.map some)
    (hwf : ∀ f ∈ fl, ∃ y m d hr rest, f = line.stamp y m d hr :: rest)
    (hval : ∀ f ∈ fl, ∀ t ∈ stamps f, valid_date t)
    (hord : ∀ f ∈ fl, (stamps f).Pairwise (fun a b => date_lt b a))
    (hdays : fl.Pairwise (fun f g => ∀ x ∈ stamps f, ∀ y ∈ stamps g,
      if P.TRACE < 0 then date_lt y x else date_lt x y))
    (hfuel : ∀ f ∈ fl, (stamps f).length + 3 < fuel) :
    ∃ h2 c pre, read_wind_data P M st fs fuel h w0 = .ok h2 ∧
      chain_ok P h2 st.time w0 c pre := by
  unfold read_wind_data
  rw [hfs]
  by_cases ht : P.TRACE < 0
  · obtain ⟨h2, pnt2, c, e, inv⟩ :=
      link_files_back_run P M st ht fuel h w0 hw hwn hwp fl hne hwf hfuel
    have fr := (link_files_keeps_time P M st fuel _ _ _ e).2 w0 hw
    have pw := times_pairwise_back fl hord
      (hdays.imp (fun {f g} hfg x hx y hy => by simpa only [if_pos ht] using hfg x hx y hy))
    rw [← inv.times, List.pairwise_map] at pw
    refine ⟨h2, c, [h.size], by rw [e]; rfl, inv.nextp, inv.prevp, ?_, ?_, ?_, ?_⟩
    · intro x hx
      rw [List.mem_singleton.1 hx]
      exact inv.dummy
    · show (h2.node w0).time ≠ st.time
      rw [fr]; exact hwt
    · intro a ha _
      have hm : (h2.node a).time ∈ c.map (fun a => (h2.node a).time) :=
        List.mem_map_of_mem _ ha
      rw [inv.times] at hm
      obtain ⟨l, hl, hm⟩ := List.mem_join.1 hm
      obtain ⟨f, hf, rfl⟩ := List.mem_map.1 hl
      exact hval f hf _ hm
    · refine pw.imp (fun {a b} hab _ _ => ?_)
      rw [if_neg (by omega)]
      exact hab
  · obtain ⟨h2, pnt2, c, e, inv, dt⟩ :=
      link_files_fore_run P M st ht fuel h w0 hw hwp fl hne hwf hfuel
    have fr := (link_files_keeps_time P M st fuel _ _ _ e).2 w0 hw
    have pw := times_pairwise_fore fl hord
      (hdays.imp (fun {f g} hfg x hx y hy => by simpa only [if_neg ht] using hfg x hx y hy))
    rw [← inv.times, List.pairwise_map] at pw
    have hpos : P.TRACE > 0 := by omega
    refine ⟨h2, c ++ [pnt2], [], by rw [e]; rfl, inv.nextp, ?_, ?_, ?_, ?_, ?_⟩
    · have := inv.prevp
      simpa using this
    · intro x hx
      cases hx
    · show (h2.node w0).time ≠ st.time
      rw [fr]; exact hwt
    · intro a ha hwd
      rcases List.mem_append.1 ha with ha | ha
      · have hm : (h2.node a).time ∈ c.map (fun a => (h2.node a).time) :=
          List.mem_map_of_mem _ ha
        rw [inv.times] at hm
        obtain ⟨l, hl, hm⟩ := List.mem_join.1 hm
        obtain ⟨f, hf, hfl⟩ := List.mem_map.1 hl
        subst hfl
        exact hval f hf _ (List.mem_reverse.1 hm)
      · rw [List.mem_singleton.1 ha] at hwd
        exact absurd inv.dummy hwd
    · rw [List.pairwise_append]
      refine ⟨pw.imp (fun {a b} hab _ _ => ?_), List.pairwise_singleton _ _, ?_⟩
      · rw [if_pos hpos]
        exact hab
      · intro a _ b hb _ hvb
        rw [List.mem_singleton.1 hb, dt] at hvb
        exact absurd hvb (by decide)

/-! ## The wind vector at the particle: proofs -/

section vec_lemmas
variable {α : Type} [LinearOrderedField α]

theorem check_station_weight_eq (M : libm α) (st : state α) (acc : weight_acc α) (X : vec3 α)
    (i offset : Nat) :
    check_station_weight M st acc X i offset =
      if in_range st X offset i then
        { wind_in_range := Function.update acc.wind_in_range i
            ⟨weighted_u M st X offset i, weighted_v M st X offset i, 1⟩
          weight := Function.update acc.weight i (station_weight M st X i)
          u_sum := acc.u_sum + weighted_u M st X offset i
          v_sum := acc.v_sum + weighted_v M st X offset i
          amount := acc.amount + 1 }
      else acc := by
  by_cases h : in_range st X offset i
  · rw [if_pos h, check_station_weight_in M st acc X i offset h.1 h.2]
    rfl
  · rw [if_neg h, check_station_weight_out M st acc X i offset h]

theorem check_station_weight_wind (M : libm α) (st : state α) (acc : weight_acc α) (X : vec3 α)
    (i offset j : Nat) :
    (check_station_weight M st acc X i offset).wind_in_range j =
      if j = i ∧ in_range st X offset i then
        ⟨weighted_u M st X offset i, weighted_v M st X offset i, 1⟩
      else acc.wind_in_range j := by
  rw [check_station_weight_eq]
  by_cases h : in_range st X offset i
  · by_cases hj : j = i
    · subst hj; simp [h]
    · simp [h, hj, Function.update_noteq hj]
  · simp [h]

theorem check_station_weight_weight (M : libm α) (st : state α) (acc : weight_acc α)
    (X : vec3 α) (i offset j : Nat) :
    (check_station_weight M st acc X i offset).weight j =
      if j = i ∧ in_range st X offset i then station_weight M st X i else acc.weight j := by
  rw [check_station_weight_eq]
  by_cases h : in_range st X offset i
  · by_cases hj : j = i
    · subst hj; simp [h]
    · simp [h, hj, Function.update_noteq hj]
  · simp [h]

theorem check_station_weight_sums (M : libm α) (st : state α) (acc : weight_acc α)
    (X : vec3 α) (i offset : Nat) :
    (check_station_weight M st acc X i offset).u_sum =
        acc.u_sum + (if in_range st X offset i then weighted_u M st X offset i else 0) ∧
      (check_station_weight M st acc X i offset).v_sum =
        acc.v_sum + (if in_range st X offset i then weighted_v M st X offset i else 0) ∧
      (check_station_weight M st acc X i offset).amount =
        acc.amount + (if in_range st X offset i then 1 else 0) := by
  rw [check_station_weight_eq]
  by_cases h : in_range st X offset i <;> simp [h]

theorem sum_range_succ_map (m : Nat) (f : Nat → α) :
    ((List.range (m + 1)).map f).sum = ((List.range m).map f).sum + f m := by
  rw [List.range_succ, List.map_append, List.sum_append]
  simp

/-- The state of the locals after `m` passes of the first station loop. -/
theorem station_loop_steps (M : libm α) (st : state α) (X : vec3 α) (m : Nat) :
    let a := (List.range m).foldl
      (fun (a : weight_acc α × weight_acc α) i =>
        let a1 := check_station_weight M st { a.1 with weight := a.2.weight } X i 0
        let a2 := check_station_weight M st { a.2 with weight := a1.weight } X i st.station_max
        (a1, a2))
      (⟨fun _ => ⟨0, 0, 0⟩, fun _ => 0, 0, 0, 0⟩, ⟨fun _ => ⟨0, 0, 0⟩, fun _ => 0, 0, 0, 0⟩)
    (∀ i, a.1.wind_in_range i = if i < m ∧ in_range st X 0 i then
        ⟨weighted_u M st X 0 i, weighted_v M st X 0 i, 1⟩ else ⟨0, 0, 0⟩) ∧
    (∀ i, a.2.wind_in_range i = if i < m ∧ in_range st X st.station_max i then
        ⟨weighted_u M st X st.station_max i, weighted_v M st X st.station_max i, 1⟩
        else ⟨0, 0, 0⟩) ∧
    (∀ i, a.2.weight i = if i < m ∧ (in_range st X 0 i ∨ in_range st X st.station_max i) then
        station_weight M st X i else 0) ∧
    a.1.u_sum = ((List.range m).map
      (fun i => if in_range st X 0 i then weighted_u M st X 0 i else 0)).sum ∧
    a.1.v_sum = ((List.range m).map
      (fun i => if in_range st X 0 i then weighted_v M st X 0 i else 0)).sum ∧
    a.1.amount = ((List.range m).map
      (fun i => if in_range st X 0 i then (1 : α) else 0)).sum ∧
    a.2.u_sum = ((List.range m).map
      (fun i => if in_range st X st.station_max i then
        weighted_u M st X st.station_max i else 0)).sum ∧
    a.2.v_sum = ((List.range m).map
      (fun i => if in_range st X st.station_max i then
        weighted_v M st X st.station_max i else 0)).sum ∧
    a.2.amount = ((List.range m).map
      (fun i => if in_range st X st.station_max i then (1 : α) else 0)).sum := by
  induction m with
  | zero =>
    simp
  | succ m ih =>
    simp only [List.range_succ, List.foldl_append, List.foldl_cons, List.foldl_nil]
    simp only [← List.range_succ]
    generalize (List.range m).foldl _ _ = a at ih
    obtain ⟨w1, w2, wt, u1, v1, n1, u2, v2, n2⟩ := ih
    have lt (i : Nat) : i < m + 1 ↔ (i < m ∨ i = m) := by omega
    refine ⟨?_, ?_, ?_, ?_, ?_, ?_, ?_, ?_, ?_⟩
    · intro i
      rw [check_station_weight_wind]
      show _ = if i < m + 1 ∧ _ then _ else _
      by_cases hi : i = m
      · subst hi
        by_cases r : in_range st X 0 i
        · simp [r]
        · simp [r, w1]
      · have : i < m + 1 ↔ i < m := by omega
        simp [hi, this, w1]
    · intro i
      rw [check_station_weight_wind]
      by_cases hi : i = m
      · subst hi
        by_cases r : in_range st X st.station_max i
        · simp [r]
        · simp [r, w2]
      · have : i < m + 1 ↔ i < m := by omega
        simp [hi, this, w2]
    · intro i
      rw [check_station_weight_weight, check_station_weight_weight]
      by_cases hi : i = m
      · subst hi
        by_cases r2 : in_range st X st.station_max i
        · simp [r2]
        · by_cases r1 : in_range st X 0 i
          · simp [r1, r2]
          · simp [r1, r2, wt]
      · have : i < m + 1 ↔ i < m := by omega
        simp [hi, this, wt]
    · rw [(check_station_weight_sums M st _ X m 0).1, sum_range_succ_map]
      simp [u1]
    · rw [(check_station_weight_sums M st _ X m 0).2.1, sum_range_succ_map]
      simp [v1]
    · rw [(check_station_weight_sums M st _ X m 0).2.2, sum_range_succ_map]
      simp [n1]
    · rw [(check_station_weight_sums M st _ X m st.station_max).1, sum_range_succ_map]
      simp [u2]
    · rw [(check_station_weight_sums M st _ X m st.station_max).2.1, sum_range_succ_map]
      simp [v2]
    · rw [(check_station_weight_sums M st _ X m st.station_max).2.2, sum_range_succ_map]
      simp [n2]
end vec_lemmas

section vec_lemmas2
variable {α : Type} [LinearOrderedField α]

theorem foldl_pair {β γ ι : Type} (f : β → ι → β) (g : γ → ι → γ) (l : List ι) (a : β) (b : γ) :
    l.foldl (fun s i => (f s.1 i, g s.2 i)) (a, b) = (l.foldl f a, l.foldl g b) := by
  induction l generalizing a b with
  | nil => rfl
  | cons x r ih => simp only [List.foldl_cons, ih]

theorem deviation_fold (w : Nat → wind α) (ua va : α) (m : Nat) :
    (List.range m).foldl (deviation_sum w ua va) ⟨0, 0, 0⟩ =
      ⟨((List.range m).map (fun i => if (w i).p ≠ 0 then ((w i).u - ua) * ((w i).u - ua)
          else 0)).sum,
        ((List.range m).map (fun i => if (w i).p ≠ 0 then ((w i).v - va) * ((w i).v - va)
          else 0)).sum,
        ((List.range m).map (fun i => if (w i).p ≠ 0 then (1 : α) else 0)).sum⟩ := by
  induction m with
  | zero => simp
  | succ m ih =>
    rw [List.range_succ, List.foldl_append, ih]
    simp only [List.foldl_cons, List.foldl_nil, ← List.range_succ, sum_range_succ_map,
      deviation_sum]
    by_cases h : (w m).p ≠ 0
    · simp only [if_pos h]
    · simp only [if_neg h, add_zero]

theorem end_fold (w : Nat → wind α) (weight : Nat → α) (m : Nat) :
    (List.range m).foldl (end_sum w weight) ⟨0, 0, 0⟩ =
      ⟨((List.range m).map (fun i => if (w i).p ≠ 0 then (w i).u else 0)).sum,
        ((List.range m).map (fun i => if (w i).p ≠ 0 then (w i).v else 0)).sum,
        ((List.range m).map (fun i => if (w i).p ≠ 0 then weight i else 0)).sum⟩ := by
  induction m with
  | zero => simp
  | succ m ih =>
    rw [List.range_succ, List.foldl_append, ih]
    simp only [List.foldl_cons, List.foldl_nil, ← List.range_succ, sum_range_succ_map, end_sum]
    by_cases h : (w m).p ≠ 0
    · simp only [if_pos h]
    · simp only [if_neg h, add_zero]

theorem z_check_other (w : Nat → wind α) (ua va su sv s : α) (i j : Nat) (h : j ≠ i) :
    z_transformation_check w ua va su sv s i j = w j := by
  unfold z_transformation_check
  split_ifs
  · rw [Function.update_noteq h]
  · rfl
  · rfl

theorem z_check_self (w : Nat → wind α) (ua va su sv s : α) (i : Nat) :
    z_transformation_check w ua va su sv s i i =
      if (w i).p ≠ 0 ∧ (quotient_exceeds ((w i).u - ua) su s ∨
          quotient_exceeds ((w i).v - va) sv s) then
        { w i with p := 0 }
      else w i := by
  unfold z_transformation_check
  by_cases h1 : (w i).p ≠ 0
  · by_cases h2 : quotient_exceeds ((w i).u - ua) su s ∨ quotient_exceeds ((w i).v - va) sv s
    · rw [if_pos h1, if_pos h2, if_pos ⟨h1, h2⟩, Function.update_same]
    · rw [if_pos h1, if_neg h2, if_neg (fun h => h2 h.2)]
  · rw [if_neg h1, if_neg (fun h => h1 h.1)]

theorem z_fold (w0 : Nat → wind α) (ua va su sv s : α) (m j : Nat) :
    ((List.range m).foldl (fun w i => z_transformation_check w ua va su sv s i) w0) j =
      if j < m ∧ (w0 j).p ≠ 0 ∧ (quotient_exceeds ((w0 j).u - ua) su s ∨
          quotient_exceeds ((w0 j).v - va) sv s) then
        { w0 j with p := 0 }
      else w0 j := by
  induction m with
  | zero => simp
  | succ m ih =>
    rw [List.range_succ, List.foldl_append]
    simp only [List.foldl_cons, List.foldl_nil]
    by_cases hj : j = m
    · subst hj
      rw [z_check_self, ih]
      simp
    · rw [z_check_other _ _ _ _ _ _ _ _ hj, ih]
      have : j < m + 1 ↔ j < m := by omega
      simp only [this]

theorem count_nonneg (st : state α) (X : vec3 α) (offset m : Nat) :
    0 ≤ ((List.range m).map (fun i => if in_range st X offset i then (1 : α) else 0)).sum := by
  induction m with
  | zero => simp
  | succ m ih =>
    rw [sum_range_succ_map]
    by_cases h : in_range st X offset m
    · rw [if_pos h]; linarith
    · rw [if_neg h]; linarith

theorem count_zero (st : state α) (X : vec3 α) (offset m : Nat)
    (h : ((List.range m).map (fun i => if in_range st X offset i then (1 : α) else 0)).sum = 0) :
    ∀ i, i < m → ¬ in_range st X offset i := by
  induction m with
  | zero => intro i hi; omega
  | succ m ih =>
    rw [sum_range_succ_map] at h
    have h1 := count_nonneg st X offset m
    by_cases hm : in_range st X offset m
    · rw [if_pos hm] at h
      linarith
    · rw [if_neg hm, add_zero] at h
      intro i hi
      by_cases e : i = m
      · rw [e]; exact hm
      · exact ih h i (by omega)

theorem slot_count_pos (st : state α) (X : vec3 α) (offset i : Nat) (hi : i < st.station_max)
    (h : in_range st X offset i) : 0 < slot_count st X offset := by
  rcases lt_or_eq_of_le (count_nonneg st X offset st.station_max) with h1 | h1
  · exact h1
  · exact absurd h (count_zero st X offset st.station_max h1.symm i hi)

end vec_lemmas2

section vec_lemmas3
variable {α : Type} [LinearOrderedField α]

theorem average_sum_eq (amount u v : α) (h : 0 < amount) :
    average_sum amount u v = (u / amount, v / amount) := by
  unfold average_sum
  rw [if_pos h]
  by_cases hu : u ≠ 0 <;> by_cases hv : v ≠ 0
  · rw [if_pos hu, if_pos hv]
  · rw [if_pos hu, if_neg hv, not_not.1 hv, zero_div]
  · rw [if_neg hu, if_pos hv, not_not.1 hu, zero_div]
  · rw [if_neg hu, if_neg hv, not_not.1 hu, not_not.1 hv, zero_div]

theorem in_range_sum_congr (st : state α) (X : vec3 α) (offset : Nat) (w0 : Nat → wind α)
    (a : Nat → α) (g : wind α → α)
    (hw : ∀ i, i < st.station_max → ((w0 i).p ≠ 0 ↔ in_range st X offset i))
    (hg : ∀ i, i < st.station_max → in_range st X offset i → g (w0 i) = a i) :
    ((List.range st.station_max).map (fun i => if (w0 i).p ≠ 0 then g (w0 i) else 0)).sum =
      range_sum st X offset a := by
  unfold range_sum
  congr 1
  refine List.map_congr_left (fun i hi => ?_)
  have hi2 : i < st.station_max := List.mem_range.1 hi
  by_cases h : in_range st X offset i
  · rw [if_pos ((hw i hi2).2 h), if_pos h, hg i hi2 h]
  · rw [if_neg (fun hp => h ((hw i hi2).1 hp)), if_neg h]

/-- The outlier pass on one slot: entry `i` keeps its flag exactly when the
station is in range and no outlier; the components are left as they are. -/
theorem reject_slot (P : param α) (M : libm α) (st : state α) (X : vec3 α) (offset : Nat)
    (w0 : Nat → wind α)
    (hw : ∀ i, w0 i = if i < st.station_max ∧ in_range st X offset i then
        ⟨weighted_u M st X offset i, weighted_v M st X offset i, 1⟩ else ⟨0, 0, 0⟩) :
    let avg := average_sum (slot_count st X offset)
      (range_sum st X offset (weighted_u M st X offset))
      (range_sum st X offset (weighted_v M st X offset))
    let d := (List.range st.station_max).foldl (deviation_sum w0 avg.1 avg.2) ⟨0, 0, 0⟩
    let sd := std_deviation M d.amount d.u_stddev d.v_stddev
    let w := (List.range st.station_max).foldl
      (fun w i => z_transformation_check w avg.1 avg.2 sd.1 sd.2 P.STDDEVIATION i) w0
    ∀ i, i < st.station_max →
      (((w i).p ≠ 0 ↔ in_range st X offset i ∧ ¬ outlier P M st X offset i) ∧
        (w i).u = (w0 i).u ∧ (w i).v = (w0 i).v) := by
  intro avg d sd w i hi
  have hp : ∀ j, j < st.station_max → ((w0 j).p ≠ 0 ↔ in_range st X offset j) := by
    intro j hj
    rw [hw j]
    by_cases h : in_range st X offset j
    · simp [hj, h]
    · simp [h]
  have hwi : w i = if i < st.station_max ∧ (w0 i).p ≠ 0 ∧
      (quotient_exceeds ((w0 i).u - avg.1) sd.1 P.STDDEVIATION ∨
        quotient_exceeds ((w0 i).v - avg.2) sd.2 P.STDDEVIATION) then
      { w0 i with p := 0 } else w0 i := z_fold w0 _ _ _ _ _ _ i
  by_cases h : in_range st X offset i
  · have hc := slot_count_pos st X offset i hi h
    have e1 : avg = (slot_mean_u M st X offset, slot_mean_v M st X offset) :=
      average_sum_eq _ _ _ hc
    have hd : d = ⟨range_sum st X offset
          (fun i => (weighted_u M st X offset i - avg.1) * (weighted_u M st X offset i - avg.1)),
        range_sum st X offset
          (fun i => (weighted_v M st X offset i - avg.2) * (weighted_v M st X offset i - avg.2)),
        slot_count st X offset⟩ := by
      show (List.range st.station_max).foldl (deviation_sum w0 avg.1 avg.2) ⟨0, 0, 0⟩ = _
      rw [deviation_fold]
      congr 1
      · exact in_range_sum_congr st X offset w0 _ (fun x => (x.u - avg.1) * (x.u - avg.1)) hp
          (fun j hj hr => by rw [hw j, if_pos ⟨hj, hr⟩])
      · exact in_range_sum_congr st X offset w0 _ (fun x => (x.v - avg.2) * (x.v - avg.2)) hp
          (fun j hj hr => by rw [hw j, if_pos ⟨hj, hr⟩])
      · exact in_range_sum_congr st X offset w0 _ (fun _ => 1) hp (fun j hj hr => rfl)
    have e2 : sd = (slot_sigma_u M st X offset, slot_sigma_v M st X offset) := by
      show std_deviation M d.amount d.u_stddev d.v_stddev = _
      rw [hd]
      unfold std_deviation
      rw [if_pos hc, e1]
      rfl
    have hwi0 : w0 i = ⟨weighted_u M st X offset i, weighted_v M st X offset i, 1⟩ := by
      rw [hw i, if_pos ⟨hi, h⟩]
    rw [hwi, e1, e2, hwi0]
    by_cases ho : outlier P M st X offset i
    · rw [if_pos ⟨hi, by simp, ho⟩]
      simp [h, ho]
    · rw [if_neg (fun hh => ho hh.2.2)]
      simp [h, ho]
  · have hwi0 : w0 i = ⟨0, 0, 0⟩ := by
      rw [hw i, if_neg (fun hh => h hh.2)]
    rw [hwi, hwi0]
    simp [h]

end vec_lemmas3

section vec_lemmas4
variable {α : Type} [LinearOrderedField α]

theorem z_fold_pair (w1 w2 : Nat → wind α) (a1 b1 c1 d1 a2 b2 c2 d2 s : α) (l : List Nat) :
    l.foldl (fun w i => (z_transformation_check w.1 a1 b1 c1 d1 s i,
        z_transformation_check w.2 a2 b2 c2 d2 s i)) (w1, w2) =
      (l.foldl (fun w i => z_transformation_check w a1 b1 c1 d1 s i) w1,
        l.foldl (fun w i => z_transformation_check w a2 b2 c2 d2 s i) w2) :=
  foldl_pair (fun w i => z_transformation_check w a1 b1 c1 d1 s i)
    (fun w i => z_transformation_check w a2 b2 c2 d2 s i) l w1 w2

/-- The locals after the first station loop of `calculate_wind_vector`. -/
theorem station_loop_spec (M : libm α) (st : state α) (X : vec3 α) :
    (∀ i, (station_loop M st X).1.wind_in_range i =
        if i < st.station_max ∧ in_range st X 0 i then
          ⟨weighted_u M st X 0 i, weighted_v M st X 0 i, 1⟩ else ⟨0, 0, 0⟩) ∧
    (∀ i, (station_loop M st X).2.wind_in_range i =
        if i < st.station_max ∧ in_range st X st.station_max i then
          ⟨weighted_u M st X st.station_max i, weighted_v M st X st.station_max i, 1⟩
        else ⟨0, 0, 0⟩) ∧
    (∀ i, (station_loop M st X).2.weight i =
        if i < st.station_max ∧ (in_range st X 0 i ∨ in_range st X st.station_max i) then
          station_weight M st X i else 0) ∧
    (station_loop M st X).1.u_sum = range_sum st X 0 (weighted_u M st X 0) ∧
    (station_loop M st X).1.v_sum = range_sum st X 0 (weighted_v M st X 0) ∧
    (station_loop M st X).1.amount = slot_count st X 0 ∧
    (station_loop M st X).2.u_sum =
      range_sum st X st.station_max (weighted_u M st X st.station_max) ∧
    (station_loop M st X).2.v_sum =
      range_sum st X st.station_max (weighted_v M st X st.station_max) ∧
    (station_loop M st X).2.amount = slot_count st X st.station_max :=
  station_loop_steps M st X st.station_max

/-- The arrays `wind1_in_range`, `wind2_in_range` after the outlier block:
entry `i` carries its flag exactly when station `i` takes part in the mean of
its slot, and the weighted components of a station in range. -/
theorem reject_outliers_spec (P : param α) (M : libm α) (st : state α) (X : vec3 α)
    (i : Nat) (hi : i < st.station_max) :
    ((((reject_outliers P M st (station_loop M st X)).1 i).p ≠ 0 ↔ survives P M st X 0 i) ∧
      (in_range st X 0 i →
        ((reject_outliers P M st (station_loop M st X)).1 i).u = weighted_u M st X 0 i ∧
        ((reject_outliers P M st (station_loop M st X)).1 i).v = weighted_v M st X 0 i)) ∧
    ((((reject_outliers P M st (station_loop M st X)).2 i).p ≠ 0 ↔
        survives P M st X st.station_max i) ∧
      (in_range st X st.station_max i →
        ((reject_outliers P M st (station_loop M st X)).2 i).u =
          weighted_u M st X st.station_max i ∧
        ((reject_outliers P M st (station_loop M st X)).2 i).v =
          weighted_v M st X st.station_max i)) := by
  obtain ⟨w1, w2, _, u1, v1, n1, u2, v2, n2⟩ := station_loop_spec M st X
  have e1 : (station_loop M st X).1.wind_in_range i =
      if in_range st X 0 i then ⟨weighted_u M st X 0 i, weighted_v M st X 0 i, 1⟩
      else ⟨0, 0, 0⟩ := by rw [w1 i]; simp [hi]
  have e2 : (station_loop M st X).2.wind_in_range i =
      if in_range st X st.station_max i then
        ⟨weighted_u M st X st.station_max i, weighted_v M st X st.station_max i, 1⟩
      else ⟨0, 0, 0⟩ := by rw [w2 i]; simp [hi]
  unfold reject_outliers
  by_cases hs : P.STDDEVIATION > 0
  · rw [if_pos hs]
    simp only [foldl_pair, z_fold_pair]
    rw [u1, v1, n1, u2, v2, n2]
    have r1 := reject_slot P M st X 0 _ w1 i hi
    have r2 := reject_slot P M st X st.station_max _ w2 i hi
    simp only at r1 r2
    refine ⟨⟨?_, fun h => ?_⟩, ⟨?_, fun h => ?_⟩⟩
    · rw [r1.1]; unfold survives; simp [hs]
    · rw [r1.2.1, r1.2.2, e1, if_pos h]; exact ⟨rfl, rfl⟩
    · rw [r2.1]; unfold survives; simp [hs]
    · rw [r2.2.1, r2.2.2, e2, if_pos h]; exact ⟨rfl, rfl⟩
  · rw [if_neg hs]
    refine ⟨⟨?_, fun h => ?_⟩, ⟨?_, fun h => ?_⟩⟩
    · show ((station_loop M st X).1.wind_in_range i).p ≠ 0 ↔ _
      rw [e1]; unfold survives
      by_cases h : in_range st X 0 i <;> simp [h, hs]
    · show ((station_loop M st X).1.wind_in_range i).u = _ ∧
        ((station_loop M st X).1.wind_in_range i).v = _
      rw [e1, if_pos h]; exact ⟨rfl, rfl⟩
    · show ((station_loop M st X).2.wind_in_range i).p ≠ 0 ↔ _
      rw [e2]; unfold survives
      by_cases h : in_range st X st.station_max i <;> simp [h, hs]
    · show ((station_loop M st X).2.wind_in_range i).u = _ ∧
        ((station_loop M st X).2.wind_in_range i).v = _
      rw [e2, if_pos h]; exact ⟨rfl, rfl⟩

theorem survivor_sum_congr (P : param α) (M : libm α) (st : state α) (X : vec3 α)
    (offset : Nat) (w : Nat → wind α) (g : Nat → α) (a : Nat → α)
    (hw : ∀ i, i < st.station_max → ((w i).p ≠ 0 ↔ survives P M st X offset i))
    (hg : ∀ i, i < st.station_max → in_range st X offset i → g i = a i) :
    ((List.range st.station_max).map (fun i => if (w i).p ≠ 0 then g i else 0)).sum =
      survivor_sum P M st X offset a := by
  unfold survivor_sum
  congr 1
  refine List.map_congr_left (fun i hi => ?_)
  have hi2 : i < st.station_max := List.mem_range.1 hi
  by_cases h : survives P M st X offset i
  · rw [if_pos ((hw i hi2).2 h), if_pos h, hg i hi2 h.1]
  · rw [if_neg (fun hp => h ((hw i hi2).1 hp)), if_neg h]

/-- The sums `calculate_wind_vector` divides: for each hourly slot the sums of
`u_i·w_i`, `v_i·w_i` and `w_i` over the stations that take part. -/
theorem vector_sums_eq (P : param α) (M : libm α) (X : vec3 α) (st : state α) :
    vector_sums P M X st = (slot_sums P M st X 0, slot_sums P M st X st.station_max) := by
  unfold vector_sums
  simp only [foldl_pair, end_fold]
  obtain ⟨_, _, wt, _⟩ := station_loop_spec M st X
  have r := reject_outliers_spec P M st X
  unfold slot_sums
  refine Prod.ext ?_ ?_
  · show slot_sum.mk _ _ _ = slot_sum.mk _ _ _
    congr 1
    · exact survivor_sum_congr P M st X 0 _ _ _ (fun i hi => (r i hi).1.1)
        (fun i hi h => ((r i hi).1.2 h).1)
    · exact survivor_sum_congr P M st X 0 _ _ _ (fun i hi => (r i hi).1.1)
        (fun i hi h => ((r i hi).1.2 h).2)
    · exact survivor_sum_congr P M st X 0 _ _ _ (fun i hi => (r i hi).1.1)
        (fun i hi h => by rw [wt i, if_pos ⟨hi, Or.inl h⟩])
  · show slot_sum.mk _ _ _ = slot_sum.mk _ _ _
    congr 1
    · exact survivor_sum_congr P M st X st.station_max _ _ _ (fun i hi => (r i hi).2.1)
        (fun i hi h => ((r i hi).2.2 h).1)
    · exact survivor_sum_congr P M st X st.station_max _ _ _ (fun i hi => (r i hi).2.1)
        (fun i hi h => ((r i hi).2.2 h).2)
    · exact survivor_sum_congr P M st X st.station_max _ _ _ (fun i hi => (r i hi).2.1)
        (fun i hi h => by rw [wt i, if_pos ⟨hi, Or.inr h⟩])

end vec_lemmas4

section c11
variable {α : Type} [LinearOrderedField α]

theorem sum_none (n : Nat) (p : Nat → Prop) [DecidablePred p] (f : Nat → α)
    (hn : ∀ i, i < n → ¬ p i) :
    ((List.range n).map (fun i => if p i then f i else 0)).sum = 0 := by
  induction n with
  | zero => simp
  | succ n ih =>
    rw [sum_range_succ_map, ih (fun i hi => hn i (by omega)), if_neg (hn n (by omega)), add_zero]

theorem sum_only (n i0 : Nat) (p : Nat → Prop) [DecidablePred p] (f : Nat → α)
    (h0 : i0 < n) (hp : p i0) (hn : ∀ i, i < n → i ≠ i0 → ¬ p i) :
    ((List.range n).map (fun i => if p i then f i else 0)).sum = f i0 := by
  induction n with
  | zero => omega
  | succ n ih =>
    rw [sum_range_succ_map]
    by_cases e : i0 = n
    · subst e
      rw [sum_none i0 p f (fun i hi => hn i (by omega) (by omega)), if_pos hp, zero_add]
    · rw [ih (by omega) (fun i hi => hn i (by omega)), if_neg (hn n (by omega) (Ne.symm e)),
        add_zero]

/-- The sums of a slot in which station `i0` is the only one in range, with
outlier rejection off. -/
theorem slot_sums_only (P : param α) (M : libm α) (st : state α) (X : vec3 α)
    (offset i0 : Nat) (hs : ¬ P.STDDEVIATION > 0) (h : only_station st X offset i0) :
    slot_sums P M st X offset =
      ⟨weighted_u M st X offset i0, weighted_v M st X offset i0, station_weight M st X i0⟩ := by
  obtain ⟨h0, hr, hn⟩ := h
  have sv : ∀ i, survives P M st X offset i ↔ in_range st X offset i := by
    intro i; unfold survives; simp [hs]
  unfold slot_sums survivor_sum
  congr 1
  · exact sum_only _ i0 _ _ h0 ((sv i0).2 hr) (fun i hi hne hsv => hn i hi hne ((sv i).1 hsv))
  · exact sum_only _ i0 _ _ h0 ((sv i0).2 hr) (fun i hi hne hsv => hn i hi hne ((sv i).1 hsv))
  · exact sum_only _ i0 _ _ h0 ((sv i0).2 hr) (fun i hi hne hsv => hn i hi hne ((sv i).1 hsv))

theorem calculate_wind_vector_eq (P : param α) (M : libm α) (hour_diff : α) (X : vec3 α)
    (st : state α) :
    calculate_wind_vector P M hour_diff X st =
      if hour_diff = 0 then
        if P.TRACE > 0 then
          if (slot_sums P M st X 0).weight_sum ≠ 0 then
            some ((slot_sums P M st X 0).u_sum / (slot_sums P M st X 0).weight_sum,
              (slot_sums P M st X 0).v_sum / (slot_sums P M st X 0).weight_sum)
          else none
        else
          if (slot_sums P M st X st.station_max).weight_sum ≠ 0 then
            some ((slot_sums P M st X st.station_max).u_sum /
                (slot_sums P M st X st.station_max).weight_sum,
              (slot_sums P M st X st.station_max).v_sum /
                (slot_sums P M st X st.station_max).weight_sum)
          else none
      else
        if (slot_sums P M st X 0).weight_sum ≠ 0 ∧
            (slot_sums P M st X st.station_max).weight_sum ≠ 0 then
          if P.TRACE > 0 then
            some ((1 - hour_diff) *
                  ((slot_sums P M st X 0).u_sum / (slot_sums P M st X 0).weight_sum) +
                hour_diff * ((slot_sums P M st X st.station_max).u_sum /
                  (slot_sums P M st X st.station_max).weight_sum),
              (1 - hour_diff) *
                  ((slot_sums P M st X 0).v_sum / (slot_sums P M st X 0).weight_sum) +
                hour_diff * ((slot_sums P M st X st.station_max).v_sum /
                  (slot_sums P M st X st.station_max).weight_sum))
          else
            some (hour_diff *
                  ((slot_sums P M st X 0).u_sum / (slot_sums P M st X 0).weight_sum) +
                (1 - hour_diff) * ((slot_sums P M st X st.station_max).u_sum /
                  (slot_sums P M st X st.station_max).weight_sum),
              hour_diff *
                  ((slot_sums P M st X 0).v_sum / (slot_sums P M st X 0).weight_sum) +
                (1 - hour_diff) * ((slot_sums P M st X st.station_max).v_sum /
                  (slot_sums P M st X st.station_max).weight_sum))
        else none := by
  unfold calculate_wind_vector
  rw [vector_sums_eq]

/-- C11 (amended): with outlier rejection off, if station `i0` is the only
station present and in range in an hourly slot and its weight `w` is a number
other than zero, then in exact arithmetic the sums of that slot give
`U/W = (u * w) / w = u` and `V/W = (v * w) / w = v` of that station's sample.
So at `h = 0` the returned vector is the sample of the only station of the slot
read there (slot 0 for TRACE > 0, slot 1 otherwise), and at any `h`, when both
slots hold only this station with the same sample, the returned vector is that
sample. -/
theorem C11_single_station (P : param α) (M : libm α) (st : state α) (X : vec3 α) (i0 : Nat)
    (hs : ¬ P.STDDEVIATION > 0) (hw : station_weight M st X i0 ≠ 0) :
    (only_station st X 0 i0 →
      (vector_sums P M X st).1.u_sum / (vector_sums P M X st).1.weight_sum =
          (st.wind_current i0).u ∧
        (vector_sums P M X st).1.v_sum / (vector_sums P M X st).1.weight_sum =
          (st.wind_current i0).v) ∧
    (only_station st X st.station_max i0 →
      (vector_sums P M X st).2.u_sum / (vector_sums P M X st).2.weight_sum =
          (st.wind_current (st.station_max + i0)).u ∧
        (vector_sums P M X st).2.v_sum / (vector_sums P M X st).2.weight_sum =
          (st.wind_current (st.station_max + i0)).v) ∧
    (P.TRACE > 0 → only_station st X 0 i0 →
      calculate_wind_vector P M 0 X st =
        some ((st.wind_current i0).u, (st.wind_current i0).v)) ∧
    (¬ P.TRACE > 0 → only_station st X st.station_max i0 →
      calculate_wind_vector P M 0 X st =
        some ((st.wind_current (st.station_max + i0)).u,
          (st.wind_current (st.station_max + i0)).v)) ∧
    (∀ h : α, only_station st X 0 i0 → only_station st X st.station_max i0 →
      (st.wind_current (st.station_max + i0)).u = (st.wind_current i0).u →
      (st.wind_current (st.station_max + i0)).v = (st.wind_current i0).v →
      calculate_wind_vector P M h X st =
        some ((st.wind_current i0).u, (st.wind_current i0).v)) := by
  have q0 : only_station st X 0 i0 →
      (slot_sums P M st X 0).weight_sum ≠ 0 ∧
      (slot_sums P M st X 0).u_sum / (slot_sums P M st X 0).weight_sum =
        (st.wind_current i0).u ∧
      (slot_sums P M st X 0).v_sum / (slot_sums P M st X 0).weight_sum =
        (st.wind_current i0).v := by
    intro h
    rw [slot_sums_only P M st X 0 i0 hs h]
    refine ⟨hw, ?_, ?_⟩
    · show weighted_u M st X 0 i0 / station_weight M st X i0 = _
      unfold weighted_u
      rw [mul_div_assoc, div_self hw, mul_one, Nat.zero_add]
    · show weighted_v M st X 0 i0 / station_weight M st X i0 = _
      unfold weighted_v
      rw [mul_div_assoc, div_self hw, mul_one, Nat.zero_add]
  have q1 : only_station st X st.station_max i0 →
      (slot_sums P M st X st.station_max).weight_sum ≠ 0 ∧
      (slot_sums P M st X st.station_max).u_sum /
          (slot_sums P M st X st.station_max).weight_sum =
        (st.wind_current (st.station_max + i0)).u ∧
      (slot_sums P M st X st.station_max).v_sum /
          (slot_sums P M st X st.station_max).weight_sum =
        (st.wind_current (st.station_max + i0)).v := by
    intro h
    rw [slot_sums_only P M st X st.station_max i0 hs h]
    refine ⟨hw, ?_, ?_⟩
    · show weighted_u M st X st.station_max i0 / station_weight M st X i0 = _
      unfold weighted_u
      rw [mul_div_assoc, div_self hw, mul_one]
    · show weighted_v M st X st.station_max i0 / station_weight M st X i0 = _
      unfold weighted_v
      rw [mul_div_assoc, div_self hw, mul_one]
  refine ⟨?_, ?_, ?_, ?_, ?_⟩
  · intro h
    rw [vector_sums_eq]
    exact (q0 h).2
  · intro h
    rw [vector_sums_eq]
    exact (q1 h).2
  · intro ht h
    obtain ⟨a, b, c⟩ := q0 h
    rw [calculate_wind_vector_eq, if_pos rfl, if_pos ht, if_pos a, b, c]
  · intro ht h
    obtain ⟨a, b, c⟩ := q1 h
    rw [calculate_wind_vector_eq, if_pos rfl, if_neg ht, if_pos a, b, c]
  · intro h h0 h1 eu ev
    obtain ⟨a, b, c⟩ := q0 h0
    obtain ⟨a1, b1, c1⟩ := q1 h1
    rw [calculate_wind_vector_eq, b, c, b1, c1, eu, ev]
    by_cases hh : h = 0
    · rw [if_pos hh]
      by_cases ht : P.TRACE > 0
      · rw [if_pos ht, if_pos a]
      · rw [if_neg ht, if_pos a1]
    · rw [if_neg hh, if_pos ⟨a, a1⟩]
      by_cases ht : P.TRACE > 0
      · rw [if_pos ht]
        congr 2 <;> ring
      · rw [if_neg ht]
        congr 2 <;> ring

end c11

theorem two_slot_station_max : two_slot_state.station_max = 1 := rfl

theorem two_slot_in_range (offset : Nat) : in_range two_slot_state ⟨1, 0, 0⟩ offset 0 := by
  unfold in_range
  constructor
  · show (if offset + 0 = 0 then (⟨3, 4, 1⟩ : wind ℚ) else ⟨5, 12, 1⟩).p ≠ 0
    split_ifs <;> decide
  · norm_num [two_slot_state, example_state, init_values, normalize_coords,
      distance_to_station_in_cos, example_stations, rat_libm, example_param, RE]

theorem two_slot_only (offset : Nat) : only_station two_slot_state ⟨1, 0, 0⟩ offset 0 :=
  ⟨by decide, two_slot_in_range offset, fun i hi hne => absurd (by
    rw [two_slot_station_max] at hi; omega) hne⟩

theorem two_slot_weight : station_weight rat_libm two_slot_state ⟨1, 0, 0⟩ 0 ≠ 0 := by
  norm_num [station_weight, two_slot_state, example_state, init_values, normalize_coords,
      distance_to_station_in_cos, example_stations, rat_libm, example_param, RE]

theorem C11_single_station_witness :
    ¬ (example_param 1 2 2 200 : param ℚ).STDDEVIATION > 0 ∧
    station_weight rat_libm two_slot_state ⟨1, 0, 0⟩ 0 ≠ 0 ∧
    only_station two_slot_state ⟨1, 0, 0⟩ 0 0 ∧
    calculate_wind_vector (example_param 1 2 2 200) rat_libm 0 ⟨1, 0, 0⟩ two_slot_state =
      some (3, 4) :=
  ⟨by norm_num [example_param], two_slot_weight, two_slot_only 0,
    (C11_single_station (example_param 1 2 2 200) rat_libm two_slot_state ⟨1, 0, 0⟩ 0
      (by norm_num [example_param]) two_slot_weight).2.2.1 (by decide) (two_slot_only 0)⟩

section c12
variable {α : Type} [LinearOrderedField α]

theorem quotient_exceeds_one (x σ : α) (hσ : 0 ≤ σ) :
    quotient_exceeds x σ 1 ↔ x * x > σ * σ := by
  unfold quotient_exceeds
  by_cases h : σ = 0
  · rw [if_pos h, h, mul_zero]
    exact ⟨fun hx => mul_self_pos.2 hx, fun hx => mul_self_pos.1 hx⟩
  · rw [if_neg h]
    have hpos : 0 < σ := lt_of_le_of_ne hσ (Ne.symm h)
    rw [gt_iff_lt, lt_div_iff hpos, one_mul, ← abs_mul_abs_self x]
    constructor
    · intro hx
      exact mul_self_lt_mul_self hσ hx
    · intro hx
      by_contra hn
      have := mul_self_le_mul_self (abs_nonneg x) (not_lt.1 hn)
      linarith

theorem range_sum_three (st : state α) (X : vec3 α) (offset : Nat) (f : Nat → α)
    (hn : st.station_max = 3) (h0 : in_range st X offset 0) (h1 : in_range st X offset 1)
    (h2 : in_range st X offset 2) :
    range_sum st X offset f = f 0 + f 1 + f 2 := by
  unfold range_sum
  rw [hn]
  simp [List.range_succ, h0, h1, h2]
  ring

/-- Three stations in range with weighted components `a 0, a 1, a 2` in `u`
and zero in `v`, STDDEVIATION = 1 and a true square root: station `i` is an
outlier exactly when three times its squared deviation exceeds the sum of the
squared deviations. -/
theorem outlier_three (P : param α) (M : libm α) (st : state α) (X : vec3 α) (offset : Nat)
    (hn : st.station_max = 3) (h0 : in_range st X offset 0) (h1 : in_range st X offset 1)
    (h2 : in_range st X offset 2) (hs : P.STDDEVIATION = 1)
    (hv : ∀ i, weighted_v M st X offset i = 0)
    (hsq : ∀ x : α, 0 ≤ x → 0 ≤ M.sqrt x ∧ M.sqrt x * M.sqrt x = x) (i : Nat) :
    outlier P M st X offset i ↔
      3 * ((weighted_u M st X offset i -
            (weighted_u M st X offset 0 + weighted_u M st X offset 1 +
              weighted_u M st X offset 2) / 3) *
          (weighted_u M st X offset i -
            (weighted_u M st X offset 0 + weighted_u M st X offset 1 +
              weighted_u M st X offset 2) / 3)) >
        (weighted_u M st X offset 0 -
            (weighted_u M st X offset 0 + weighted_u M st X offset 1 +
              weighted_u M st X offset 2) / 3) *
          (weighted_u M st X offset 0 -
            (weighted_u M st X offset 0 + weighted_u M st X offset 1 +
              weighted_u M st X offset 2) / 3) +
        (weighted_u M st X offset 1 -
            (weighted_u M st X offset 0 + weighted_u M st X offset 1 +
              weighted_u M st X offset 2) / 3) *
          (weighted_u M st X offset 1 -
            (weighted_u M st X offset 0 + weighted_u M st X offset 1 +
              weighted_u M st X offset 2) / 3) +
        (weighted_u M st X offset 2 -
            (weighted_u M st X offset 0 + weighted_u M st X offset 1 +
              weighted_u M st X offset 2) / 3) *
          (weighted_u M st X offset 2 -
            (weighted_u M st X offset 0 + weighted_u M st X offset 1 +
              weighted_u M st X offset 2) / 3) := by
  have hc : slot_count st X offset = 3 := by
    unfold slot_count
    rw [range_sum_three st X offset _ hn h0 h1 h2]
    norm_num
  have hmu : slot_mean_u M st X offset =
      (weighted_u M st X offset 0 + weighted_u M st X offset 1 +
        weighted_u M st X offset 2) / 3 := by
    unfold slot_mean_u
    rw [range_sum_three st X offset _ hn h0 h1 h2, hc]
  have hmv : slot_mean_v M st X offset = 0 := by
    unfold slot_mean_v
    rw [range_sum_three st X offset _ hn h0 h1 h2, hc, hv, hv, hv]
    norm_num
  generalize hm : (weighted_u M st X offset 0 + weighted_u M st X offset 1 +
        weighted_u M st X offset 2) / 3 = m at hmu ⊢
  have hsv : slot_sigma_v M st X offset = 0 := by
    unfold slot_sigma_v
    rw [range_sum_three st X offset _ hn h0 h1 h2, hc, hmv, hv, hv, hv]
    have := hsq 0 (le_refl 0)
    have e : ((0 - 0) * (0 - 0) + (0 - 0) * (0 - 0) + (0 - 0) * (0 - 0) : α) / 3 = 0 := by
      norm_num
    rw [e]
    exact mul_self_eq_zero.1 this.2
  have hS : (0 : α) ≤ ((weighted_u M st X offset 0 - m) * (weighted_u M st X offset 0 - m) +
      (weighted_u M st X offset 1 - m) * (weighted_u M st X offset 1 - m) +
      (weighted_u M st X offset 2 - m) * (weighted_u M st X offset 2 - m)) / 3 := by
    have a := mul_self_nonneg (weighted_u M st X offset 0 - m)
    have b := mul_self_nonneg (weighted_u M st X offset 1 - m)
    have c := mul_self_nonneg (weighted_u M st X offset 2 - m)
    apply div_nonneg <;> linarith
  have hsu := hsq _ hS
  have esu : slot_sigma_u M st X offset =
      M.sqrt (((weighted_u M st X offset 0 - m) * (weighted_u M st X offset 0 - m) +
      (weighted_u M st X offset 1 - m) * (weighted_u M st X offset 1 - m) +
      (weighted_u M st X offset 2 - m) * (weighted_u M st X offset 2 - m)) / 3) := by
    unfold slot_sigma_u
    rw [range_sum_three st X offset _ hn h0 h1 h2, hc, hmu]
  unfold outlier
  rw [hs, hsv, hmv, hv, hmu, esu, quotient_exceeds_one _ _ hsu.1, hsu.2]
  have hq : ¬ quotient_exceeds (0 - 0 : α) 0 1 := by
    unfold quotient_exceeds
    simp
  constructor
  · rintro (h | h)
    · linarith
    · exact absurd h hq
  · intro h
    left
    linarith

end c12

section c12b
variable {α : Type} [LinearOrderedField α]

theorem survivor_sum_three (P : param α) (M : libm α) (st : state α) (X : vec3 α)
    (offset : Nat) (f : Nat → α) (hn : st.station_max = 3) :
    survivor_sum P M st X offset f =
      (if survives P M st X offset 0 then f 0 else 0) +
      (if survives P M st X offset 1 then f 1 else 0) +
      (if survives P M st X offset 2 then f 2 else 0) := by
  unfold survivor_sum
  rw [hn]
  simp [List.range_succ]
  ring

/-- Slot 0 of `three_station_state` when the three stations are in range with
the weights `w 0, w 1, w 2`: the weighted components. -/
theorem three_station_weighted (M : libm α) (cmin cmax : α) (x : Nat → α × α) (X : vec3 α) :
    weighted_u M (three_station_state cmin cmax x) X 0 0 =
        station_weight M (three_station_state cmin cmax x) X 0 ∧
      weighted_u M (three_station_state cmin cmax x) X 0 1 =
        station_weight M (three_station_state cmin cmax x) X 1 ∧
      weighted_u M (three_station_state cmin cmax x) X 0 2 =
        100 * station_weight M (three_station_state cmin cmax x) X 2 ∧
      ∀ i, weighted_v M (three_station_state cmin cmax x) X 0 i = 0 := by
  refine ⟨?_, ?_, ?_, ?_⟩
  · show (1 : α) * _ = _
    rw [one_mul]
  · show (1 : α) * _ = _
    rw [one_mul]
  · rfl
  · intro i
    unfold weighted_v
    have : ((three_station_state cmin cmax x).wind_current (0 + i)).v = 0 := by
      show (if 0 + i = 0 then (⟨1, 0, 1⟩ : wind α) else if 0 + i = 1 then ⟨1, 0, 1⟩
        else if 0 + i = 2 then ⟨100, 0, 1⟩ else ⟨0, 0, 0⟩).v = 0
      split_ifs <;> rfl
    rw [this, zero_mul]

/-- The sums of slot 0 of `three_station_state` for three stations in range
with equal weight `w`: the station with u = 100 is dropped. -/
theorem three_station_equal (P : param α) (M : libm α) (cmin cmax : α) (x : Nat → α × α)
    (X : vec3 α) (w : α) (hs : P.STDDEVIATION = 1)
    (hsq : ∀ x : α, 0 ≤ x → 0 ≤ M.sqrt x ∧ M.sqrt x * M.sqrt x = x)
    (h0 : in_range (three_station_state cmin cmax x) X 0 0)
    (h1 : in_range (three_station_state cmin cmax x) X 0 1)
    (h2 : in_range (three_station_state cmin cmax x) X 0 2)
    (hw : 0 < w)
    (w0 : station_weight M (three_station_state cmin cmax x) X 0 = w)
    (w1 : station_weight M (three_station_state cmin cmax x) X 1 = w)
    (w2 : station_weight M (three_station_state cmin cmax x) X 2 = w) :
    (¬ outlier P M (three_station_state cmin cmax x) X 0 0 ∧
      ¬ outlier P M (three_station_state cmin cmax x) X 0 1 ∧
      outlier P M (three_station_state cmin cmax x) X 0 2) ∧
    slot_sums P M (three_station_state cmin cmax x) X 0 = ⟨w + w, 0, w + w⟩ := by
  obtain ⟨a0, a1, a2, av⟩ := three_station_weighted M cmin cmax x X
  rw [w0] at a0
  rw [w1] at a1
  rw [w2] at a2
  have ho := outlier_three P M (three_station_state cmin cmax x) X 0 rfl h0 h1 h2 hs av hsq
  rw [a0, a1, a2] at ho
  have hw2 : 0 < w * w := mul_pos hw hw
  have o0 : ¬ outlier P M (three_station_state cmin cmax x) X 0 0 := by
    rw [ho 0, a0]; intro h; nlinarith
  have o1 : ¬ outlier P M (three_station_state cmin cmax x) X 0 1 := by
    rw [ho 1, a1]; intro h; nlinarith
  have o2 : outlier P M (three_station_state cmin cmax x) X 0 2 := by
    rw [ho 2, a2]; nlinarith
  have hp : P.STDDEVIATION > 0 := by rw [hs]; exact one_pos
  have s0 : survives P M (three_station_state cmin cmax x) X 0 0 := ⟨h0, fun h => o0 h.2⟩
  have s1 : survives P M (three_station_state cmin cmax x) X 0 1 := ⟨h1, fun h => o1 h.2⟩
  have s2 : ¬ survives P M (three_station_state cmin cmax x) X 0 2 := fun h => h.2 ⟨hp, o2⟩
  refine ⟨⟨o0, o1, o2⟩, ?_⟩
  unfold slot_sums
  rw [survivor_sum_three _ _ _ _ _ _ rfl, survivor_sum_three _ _ _ _ _ _ rfl,
    survivor_sum_three _ _ _ _ _ _ rfl]
  simp only [if_pos s0, if_pos s1, if_neg s2, a0, a1, av, w0, w1, add_zero]

/-- The sums of slot 0 of `three_station_state` when station 0 has a hundred
times the weight `w` of stations 1 and 2: station 1, which reports u = 1, is
dropped, and the station with u = 100 is kept. -/
theorem three_station_near (P : param α) (M : libm α) (cmin cmax : α) (x : Nat → α × α)
    (X : vec3 α) (w : α) (hs : P.STDDEVIATION = 1)
    (hsq : ∀ x : α, 0 ≤ x → 0 ≤ M.sqrt x ∧ M.sqrt x * M.sqrt x = x)
    (h0 : in_range (three_station_state cmin cmax x) X 0 0)
    (h1 : in_range (three_station_state cmin cmax x) X 0 1)
    (h2 : in_range (three_station_state cmin cmax x) X 0 2)
    (hw : 0 < w)
    (w0 : station_weight M (three_station_state cmin cmax x) X 0 = 100 * w)
    (w1 : station_weight M (three_station_state cmin cmax x) X 1 = w)
    (w2 : station_weight M (three_station_state cmin cmax x) X 2 = w) :
    (¬ outlier P M (three_station_state cmin cmax x) X 0 0 ∧
      outlier P M (three_station_state cmin cmax x) X 0 1 ∧
      ¬ outlier P M (three_station_state cmin cmax x) X 0 2) ∧
    slot_sums P M (three_station_state cmin cmax x) X 0 =
      ⟨100 * w + 100 * w, 0, 100 * w + w⟩ := by
  obtain ⟨a0, a1, a2, av⟩ := three_station_weighted M cmin cmax x X
  rw [w0] at a0
  rw [w1] at a1
  rw [w2] at a2
  have ho := outlier_three P M (three_station_state cmin cmax x) X 0 rfl h0 h1 h2 hs av hsq
  rw [a0, a1, a2] at ho
  have hw2 : 0 < w * w := mul_pos hw hw
  have o0 : ¬ outlier P M (three_station_state cmin cmax x) X 0 0 := by
    rw [ho 0, a0]; intro h; nlinarith
  have o1 : outlier P M (three_station_state cmin cmax x) X 0 1 := by
    rw [ho 1, a1]; nlinarith
  have o2 : ¬ outlier P M (three_station_state cmin cmax x) X 0 2 := by
    rw [ho 2, a2]; intro h; nlinarith
  have hp : P.STDDEVIATION > 0 := by rw [hs]; exact one_pos
  have s0 : survives P M (three_station_state cmin cmax x) X 0 0 := ⟨h0, fun h => o0 h.2⟩
  have s1 : ¬ survives P M (three_station_state cmin cmax x) X 0 1 := fun h => h.2 ⟨hp, o1⟩
  have s2 : survives P M (three_station_state cmin cmax x) X 0 2 := ⟨h2, fun h => o2 h.2⟩
  refine ⟨⟨o0, o1, o2⟩, ?_⟩
  unfold slot_sums
  rw [survivor_sum_three _ _ _ _ _ _ rfl, survivor_sum_three _ _ _ _ _ _ rfl,
    survivor_sum_three _ _ _ _ _ _ rfl]
  simp only [if_pos s0, if_neg s1, if_pos s2, a0, a2, av, w0, w2, add_zero]

end c12b

theorem real_sqrt_spec (x : ℝ) (h : 0 ≤ x) :
    0 ≤ Real.sqrt x ∧ Real.sqrt x * Real.sqrt x = x :=
  ⟨Real.sqrt_nonneg x, Real.mul_self_sqrt h⟩

/-- A station of `three_station_state` whose angular distance `θ i` to the
particle at `(1,0,0)` lies between 2 km and 200 km on the earth is in range in
slot 0, with the weight `1 / θ²`. -/
theorem real_three_station (θ : Nat → ℝ) (i : Nat) (hi : i < 3) (h1 : 2 / 6370 ≤ θ i)
    (h2 : θ i < 200 / 6370) :
    in_range (three_station_state (Real.cos (2 / 6370)) (Real.cos (200 / 6370))
        (fun i => (Real.cos (θ i), Real.sin (θ i)))) ⟨1, 0, 0⟩ 0 i ∧
      station_weight ⟨Real.sin, Real.cos, Real.arccos, Real.sqrt, Real.pi⟩
        (three_station_state (Real.cos (2 / 6370)) (Real.cos (200 / 6370))
          (fun i => (Real.cos (θ i), Real.sin (θ i)))) ⟨1, 0, 0⟩ i = 1 / (θ i * θ i) := by
  have hpi := Real.pi_gt_three
  have hc : distance_to_station_in_cos i ⟨1, 0, 0⟩
      (three_station_state (Real.cos (2 / 6370)) (Real.cos (200 / 6370))
        (fun i => (Real.cos (θ i), Real.sin (θ i)))) = Real.cos (θ i) := by
    show Real.cos (θ i) * 1 + Real.sin (θ i) * 0 + 0 * 0 = _
    ring
  have hle : Real.cos (θ i) ≤ Real.cos (2 / 6370) :=
    Real.cos_le_cos_of_nonneg_of_le_pi (by norm_num) (by linarith) h1
  have hlt : Real.cos (200 / 6370) < Real.cos (θ i) :=
    Real.cos_lt_cos_of_nonneg_of_le_pi (by linarith) (by norm_num; linarith) h2
  have hmin : min (Real.cos (θ i)) (Real.cos (2 / 6370)) = Real.cos (θ i) := min_eq_left hle
  constructor
  · unfold in_range
    constructor
    · show (if 0 + i = 0 then (⟨1, 0, 1⟩ : wind ℝ) else if 0 + i = 1 then ⟨1, 0, 1⟩
        else if 0 + i = 2 then ⟨100, 0, 1⟩ else ⟨0, 0, 0⟩).p ≠ 0
      have : i = 0 ∨ i = 1 ∨ i = 2 := by omega
      rcases this with rfl | rfl | rfl <;> simp
    · rw [hc]
      show min (Real.cos (θ i)) (Real.cos (2 / 6370)) > Real.cos (200 / 6370)
      rw [hmin]
      exact hlt
  · unfold station_weight
    rw [hc]
    show 1 / (Real.arccos (min (Real.cos (θ i)) (Real.cos (2 / 6370))) *
      Real.arccos (min (Real.cos (θ i)) (Real.cos (2 / 6370)))) = _
    rw [hmin, Real.arccos_cos (by linarith) (by linarith)]

/-- C12 fails as stated: with STDDEVIATION = 1, MINR = 2 and MAXR = 200, put
the particle at `(1,0,0)`, a station reporting u = 1 at 10 km and stations
reporting u = 1 and u = 100 at 100 km; all three are in range.  The code drops
the far station with u = 1 and keeps the station with u = 100; the returned u
is 200/101, not 1. -/
theorem C12_counterexample :
    (∀ i, i < 3 → in_range (three_station_state (Real.cos (2 / 6370)) (Real.cos (200 / 6370))
      (fun i => (Real.cos (if i = 0 then 10 / 6370 else 100 / 6370),
        Real.sin (if i = 0 then 10 / 6370 else 100 / 6370)))) ⟨1, 0, 0⟩ 0 i) ∧
    calculate_wind_vector { (example_param 1 2 2 200 : param ℝ) with STDDEVIATION := 1 }
      ⟨Real.sin, Real.cos, Real.arccos, Real.sqrt, Real.pi⟩ 0 ⟨1, 0, 0⟩
      (three_station_state (Real.cos (2 / 6370)) (Real.cos (200 / 6370))
        (fun i => (Real.cos (if i = 0 then 10 / 6370 else 100 / 6370),
          Real.sin (if i = 0 then 10 / 6370 else 100 / 6370)))) = some (200 / 101, 0) := by
  have r0 := real_three_station (fun i => if i = 0 then 10 / 6370 else 100 / 6370) 0
    (by norm_num) (by norm_num) (by norm_num)
  have r1 := real_three_station (fun i => if i = 0 then 10 / 6370 else 100 / 6370) 1
    (by norm_num) (by norm_num) (by norm_num)
  have r2 := real_three_station (fun i => if i = 0 then 10 / 6370 else 100 / 6370) 2
    (by norm_num) (by norm_num) (by norm_num)
  refine ⟨fun i hi => ?_, ?_⟩
  · have : i = 0 ∨ i = 1 ∨ i = 2 := by omega
    rcases this with rfl | rfl | rfl
    · exact r0.1
    · exact r1.1
    · exact r2.1
  · obtain ⟨_, e⟩ := three_station_near
      { (example_param 1 2 2 200 : param ℝ) with STDDEVIATION := 1 }
      ⟨Real.sin, Real.cos, Real.arccos, Real.sqrt, Real.pi⟩ _ _ _ ⟨1, 0, 0⟩ (405769 / 100) rfl
      real_sqrt_spec r0.1 r1.1 r2.1 (by norm_num)
      (by rw [r0.2]; norm_num) (by rw [r1.2]; norm_num) (by rw [r2.2]; norm_num)
    rw [calculate_wind_vector_eq, if_pos rfl, if_pos (by decide), e]
    norm_num

/-- C12 (amended): with STDDEVIATION = s > 0 the mean and the population
standard deviation of a slot are taken over the weighted components `u_i·w_i`
and `v_i·w_i` of its stations in range (`outlier` is the test
`|u_i·w_i − mean_u|/σ_u > s or |v_i·w_i − mean_v|/σ_v > s`), so the distance
weights enter the test; a station in range keeps its flag exactly when it is
no outlier, and the sums the result is formed from, `U = Σ u_i·w_i`,
`V = Σ v_i·w_i`, `W = Σ w_i`, run over the stations that keep their flag.  For
three stations in range with u = 1, 1, 100 (v = 0), equal weights and s = 1
(with a true square root) the station with u = 100 is the one dropped and the
forward result at `h = 0` is (1, 0). -/
theorem C12_outlier_rejection {α : Type} [LinearOrderedField α] (P : param α) (M : libm α)
    (st : state α) (X : vec3 α) (hs : P.STDDEVIATION > 0) :
    (∀ i, i < st.station_max →
      ((((reject_outliers P M st (station_loop M st X)).1 i).p ≠ 0 ↔
          in_range st X 0 i ∧ ¬ outlier P M st X 0 i) ∧
        (((reject_outliers P M st (station_loop M st X)).2 i).p ≠ 0 ↔
          in_range st X st.station_max i ∧ ¬ outlier P M st X st.station_max i))) ∧
    vector_sums P M X st = (slot_sums P M st X 0, slot_sums P M st X st.station_max) ∧
    (∀ (cmin cmax w : α) (x : Nat → α × α), st = three_station_state cmin cmax x →
      P.STDDEVIATION = 1 → P.TRACE > 0 →
      (∀ y : α, 0 ≤ y → 0 ≤ M.sqrt y ∧ M.sqrt y * M.sqrt y = y) →
      (∀ i, i < 3 → in_range st X 0 i ∧ station_weight M st X i = w) → 0 < w →
      (¬ outlier P M st X 0 0 ∧ ¬ outlier P M st X 0 1 ∧ outlier P M st X 0 2) ∧
        calculate_wind_vector P M 0 X st = some (1, 0)) := by
  refine ⟨fun i hi => ?_, vector_sums_eq P M X st, ?_⟩
  · have r := reject_outliers_spec P M st X i hi
    have sv : ∀ offset, survives P M st X offset i ↔
        in_range st X offset i ∧ ¬ outlier P M st X offset i := by
      intro offset; unfold survives; simp [hs]
    exact ⟨r.1.1.trans (sv 0), r.2.1.trans (sv st.station_max)⟩
  · intro cmin cmax w x e h1 ht hsq hr hw
    subst e
    obtain ⟨ho, es⟩ := three_station_equal P M cmin cmax x X w h1 hsq (hr 0 (by norm_num)).1
      (hr 1 (by norm_num)).1 (hr 2 (by norm_num)).1 hw (hr 0 (by norm_num)).2
      (hr 1 (by norm_num)).2 (hr 2 (by norm_num)).2
    refine ⟨ho, ?_⟩
    have hne : w + w ≠ 0 := by linarith
    rw [calculate_wind_vector_eq, if_pos rfl, if_pos ht, es]
    simp only [ne_eq, hne, not_false_eq_true, if_true, div_self, zero_div]

theorem C12_outlier_rejection_witness :
    ({ (example_param 1 2 2 200 : param ℝ) with STDDEVIATION := 1 } : param ℝ).STDDEVIATION > 0 ∧
    calculate_wind_vector { (example_param 1 2 2 200 : param ℝ) with STDDEVIATION := 1 }
      ⟨Real.sin, Real.cos, Real.arccos, Real.sqrt, Real.pi⟩ 0 ⟨1, 0, 0⟩
      (three_station_state (Real.cos (2 / 6370)) (Real.cos (200 / 6370))
        (fun _ => (Real.cos (10 / 6370), Real.sin (10 / 6370)))) = some (1, 0) := by
  refine ⟨by norm_num, ?_⟩
  have h := (C12_outlier_rejection
    { (example_param 1 2 2 200 : param ℝ) with STDDEVIATION := 1 }
    ⟨Real.sin, Real.cos, Real.arccos, Real.sqrt, Real.pi⟩
    (three_station_state (Real.cos (2 / 6370)) (Real.cos (200 / 6370))
      (fun _ => (Real.cos (10 / 6370), Real.sin (10 / 6370)))) ⟨1, 0, 0⟩ (by norm_num)).2.2
    (Real.cos (2 / 6370)) (Real.cos (200 / 6370)) (1 / (10 / 6370 * (10 / 6370)))
    (fun _ => (Real.cos (10 / 6370), Real.sin (10 / 6370))) rfl rfl (by decide) real_sqrt_spec
    (fun i hi => real_three_station (fun _ => 10 / 6370) i hi (by norm_num) (by norm_num))
    (by norm_num)
  exact h.2

/-- Over the reals, with MINR = 2 and MAXR = 200, the station of `two_slot` is
the only station in range in either slot, and its weight is not zero. -/
theorem real_two_slot (trace : Int) (offset : Nat) :
    only_station (two_slot (example_param trace 2 2 200)
        ⟨Real.sin, Real.cos, Real.arccos, Real.sqrt, Real.pi⟩) ⟨1, 0, 0⟩ offset 0 ∧
      station_weight ⟨Real.sin, Real.cos, Real.arccos, Real.sqrt, Real.pi⟩
        (two_slot (example_param trace 2 2 200)
          ⟨Real.sin, Real.cos, Real.arccos, Real.sqrt, Real.pi⟩) ⟨1, 0, 0⟩ 0 ≠ 0 := by
  have hpi := Real.pi_gt_three
  have hc : distance_to_station_in_cos 0 ⟨1, 0, 0⟩
      (two_slot (example_param trace 2 2 200)
        ⟨Real.sin, Real.cos, Real.arccos, Real.sqrt, Real.pi⟩) = 1 := by
    show (1 : ℝ) * 1 + 0 * 0 + 0 * 0 = 1
    ring
  have emin : (two_slot (example_param trace 2 2 200)
      ⟨Real.sin, Real.cos, Real.arccos, Real.sqrt, Real.pi⟩).cos_min_r =
      Real.cos (2 / 6370) := by
    show Real.cos ((((2 : Int) : ℝ)) / 6370) = _
    norm_num
  have emax : (two_slot (example_param trace 2 2 200)
      ⟨Real.sin, Real.cos, Real.arccos, Real.sqrt, Real.pi⟩).cos_max_r =
      Real.cos (200 / 6370) := by
    show Real.cos ((((200 : Int) : ℝ)) / 6370) = _
    norm_num
  have hle : Real.cos (2 / 6370) ≤ 1 := Real.cos_le_one _
  have hlt : Real.cos (200 / 6370) < Real.cos (2 / 6370) :=
    Real.cos_lt_cos_of_nonneg_of_le_pi (by norm_num) (by norm_num; linarith) (by norm_num)
  refine ⟨⟨Nat.zero_lt_one, ⟨?_, ?_⟩, fun i hi hne => absurd (Nat.lt_one_iff.1 hi) hne⟩, ?_⟩
  · show (if offset + 0 = 0 then (⟨3, 4, 1⟩ : wind ℝ) else ⟨5, 12, 1⟩).p ≠ 0
    split_ifs <;> decide
  · rw [hc, emin, emax, min_eq_right hle]
    exact hlt
  · unfold station_weight
    rw [hc, emin, min_eq_right hle]
    show 1 / (Real.arccos (Real.cos (2 / 6370)) * Real.arccos (Real.cos (2 / 6370))) ≠ 0
    rw [Real.arccos_cos (by norm_num) (by linarith)]
    norm_num

theorem single_station_mean {α : Type} [LinearOrderedField α] (P : param α) (M : libm α)
    (st : state α) (X : vec3 α) (offset i0 : Nat) (hs : ¬ P.STDDEVIATION > 0)
    (hw : station_weight M st X i0 ≠ 0) (h : only_station st X offset i0) :
    (slot_sums P M st X offset).weight_sum ≠ 0 ∧
      (slot_sums P M st X offset).u_sum / (slot_sums P M st X offset).weight_sum =
        (st.wind_current (offset + i0)).u ∧
      (slot_sums P M st X offset).v_sum / (slot_sums P M st X offset).weight_sum =
        (st.wind_current (offset + i0)).v := by
  rw [slot_sums_only P M st X offset i0 hs h]
  refine ⟨hw, ?_, ?_⟩
  · show weighted_u M st X offset i0 / station_weight M st X i0 = _
    unfold weighted_u
    rw [mul_div_assoc, div_self hw, mul_one]
  · show weighted_v M st X offset i0 / station_weight M st X i0 = _
    unfold weighted_v
    rw [mul_div_assoc, div_self hw, mul_one]

/-- The means of the two hourly slots of `two_slot` over the reals: (3,4) for
slot 0 and (5,12) for slot 1. -/
theorem real_two_slot_means (trace : Int) :
    ((slot_sums (example_param trace 2 2 200)
          ⟨Real.sin, Real.cos, Real.arccos, Real.sqrt, Real.pi⟩
          (two_slot (example_param trace 2 2 200)
            ⟨Real.sin, Real.cos, Real.arccos, Real.sqrt, Real.pi⟩) ⟨1, 0, 0⟩ 0).weight_sum ≠ 0 ∧
      (slot_sums (example_param trace 2 2 200)
          ⟨Real.sin, Real.cos, Real.arccos, Real.sqrt, Real.pi⟩
          (two_slot (example_param trace 2 2 200)
            ⟨Real.sin, Real.cos, Real.arccos, Real.sqrt, Real.pi⟩) ⟨1, 0, 0⟩ 0).u_sum /
        (slot_sums (example_param trace 2 2 200)
          ⟨Real.sin, Real.cos, Real.arccos, Real.sqrt, Real.pi⟩
          (two_slot (example_param trace 2 2 200)
            ⟨Real.sin, Real.cos, Real.arccos, Real.sqrt, Real.pi⟩) ⟨1, 0, 0⟩ 0).weight_sum = 3 ∧
      (slot_sums (example_param trace 2 2 200)
          ⟨Real.sin, Real.cos, Real.arccos, Real.sqrt, Real.pi⟩
          (two_slot (example_param trace 2 2 200)
            ⟨Real.sin, Real.cos, Real.arccos, Real.sqrt, Real.pi⟩) ⟨1, 0, 0⟩ 0).v_sum /
        (slot_sums (example_param trace 2 2 200)
          ⟨Real.sin, Real.cos, Real.arccos, Real.sqrt, Real.pi⟩
          (two_slot (example_param trace 2 2 200)
            ⟨Real.sin, Real.cos, Real.arccos, Real.sqrt, Real.pi⟩) ⟨1, 0, 0⟩ 0).weight_sum = 4) ∧
    ((slot_sums (example_param trace 2 2 200)
          ⟨Real.sin, Real.cos, Real.arccos, Real.sqrt, Real.pi⟩
          (two_slot (example_param trace 2 2 200)
            ⟨Real.sin, Real.cos, Real.arccos, Real.sqrt, Real.pi⟩) ⟨1, 0, 0⟩
          (two_slot (example_param trace 2 2 200)
            ⟨Real.sin, Real.cos, Real.arccos, Real.sqrt, Real.pi⟩).station_max).weight_sum ≠ 0 ∧
      (slot_sums (example_param trace 2 2 200)
          ⟨Real.sin, Real.cos, Real.arccos, Real.sqrt, Real.pi⟩
          (two_slot (example_param trace 2 2 200)
            ⟨Real.sin, Real.cos, Real.arccos, Real.sqrt, Real.pi⟩) ⟨1, 0, 0⟩
          (two_slot (example_param trace 2 2 200)
            ⟨Real.sin, Real.cos, Real.arccos, Real.sqrt, Real.pi⟩).station_max).u_sum /
        (slot_sums (example_param trace 2 2 200)
          ⟨Real.sin, Real.cos, Real.arccos, Real.sqrt, Real.pi⟩
          (two_slot (example_param trace 2 2 200)
            ⟨Real.sin, Real.cos, Real.arccos, Real.sqrt, Real.pi⟩) ⟨1, 0, 0⟩
          (two_slot (example_param trace 2 2 200)
            ⟨Real.sin, Real.cos, Real.arccos, Real.sqrt, Real.pi⟩).station_max).weight_sum = 5 ∧
      (slot_sums (example_param trace 2 2 200)
          ⟨Real.sin, Real.cos, Real.arccos, Real.sqrt, Real.pi⟩
          (two_slot (example_param trace 2 2 200)
            ⟨Real.sin, Real.cos, Real.arccos, Real.sqrt, Real.pi⟩) ⟨1, 0, 0⟩
          (two_slot (example_param trace 2 2 200)
            ⟨Real.sin, Real.cos, Real.arccos, Real.sqrt, Real.pi⟩).station_max).v_sum /
        (slot_sums (example_param trace 2 2 200)
          ⟨Real.sin, Real.cos, Real.arccos, Real.sqrt, Real.pi⟩
          (two_slot (example_param trace 2 2 200)
            ⟨Real.sin, Real.cos, Real.arccos, Real.sqrt, Real.pi⟩) ⟨1, 0, 0⟩
          (two_slot (example_param trace 2 2 200)
            ⟨Real.sin, Real.cos, Real.arccos, Real.sqrt, Real.pi⟩).station_max).weight_sum =
        12) := by
  have hs : ¬ (example_param trace 2 2 200 : param ℝ).STDDEVIATION > 0 := by
    show ¬ (0 : ℝ) > 0
    norm_num
  exact ⟨single_station_mean _ _ _ _ 0 0 hs (real_two_slot trace 0).2 (real_two_slot trace 0).1,
    single_station_mean _ _ _ _ 1 0 hs (real_two_slot trace 1).2 (real_two_slot trace 1).1⟩

/-- C13 (what the code does): at `hour_diff = 0` the result is formed from the
sums of hourly slot 0 (`wind_current[0]`, the next integer hour) for
TRACE > 0 and from the sums of hourly slot 1 (`wind_current[1]`, the previous
integer hour) otherwise, and it is `none` exactly when the weight sum of the
slot read is zero.  On `two_slot`, whose slot 0 holds (3,4) and whose slot 1
holds (5,12), a forward trace gets (3,4), the sample of `wind_current[0]`, and
a backward trace gets (5,12). -/
theorem C13_hour_boundary {α : Type} [LinearOrderedField α] (P : param α) (M : libm α)
    (X : vec3 α) (st : state α) :
    (calculate_wind_vector P M 0 X st =
      if P.TRACE > 0 then
        if (vector_sums P M X st).1.weight_sum ≠ 0 then
          some ((vector_sums P M X st).1.u_sum / (vector_sums P M X st).1.weight_sum,
            (vector_sums P M X st).1.v_sum / (vector_sums P M X st).1.weight_sum)
        else none
      else
        if (vector_sums P M X st).2.weight_sum ≠ 0 then
          some ((vector_sums P M X st).2.u_sum / (vector_sums P M X st).2.weight_sum,
            (vector_sums P M X st).2.v_sum / (vector_sums P M X st).2.weight_sum)
        else none) ∧
    vector_sums P M X st = (slot_sums P M st X 0, slot_sums P M st X st.station_max) ∧
    calculate_wind_vector (example_param 1 2 2 200)
        ⟨Real.sin, Real.cos, Real.arccos, Real.sqrt, Real.pi⟩ 0 ⟨1, 0, 0⟩
        (two_slot (example_param 1 2 2 200)
          ⟨Real.sin, Real.cos, Real.arccos, Real.sqrt, Real.pi⟩) = some (3, 4) ∧
    calculate_wind_vector (example_param (-1) 2 2 200)
        ⟨Real.sin, Real.cos, Real.arccos, Real.sqrt, Real.pi⟩ 0 ⟨1, 0, 0⟩
        (two_slot (example_param (-1) 2 2 200)
          ⟨Real.sin, Real.cos, Real.arccos, Real.sqrt, Real.pi⟩) = some (5, 12) := by
  refine ⟨?_, vector_sums_eq P M X st, ?_, ?_⟩
  · unfold calculate_wind_vector
    rw [if_pos rfl]
  · obtain ⟨⟨a, b, c⟩, _⟩ := real_two_slot_means 1
    rw [calculate_wind_vector_eq, if_pos rfl, if_pos (by decide), if_pos a, b, c]
  · obtain ⟨_, ⟨a, b, c⟩⟩ := real_two_slot_means (-1)
    rw [calculate_wind_vector_eq, if_pos rfl, if_neg (by decide), if_pos a, b, c]

/-- C14 (what the code does): at `hour_diff = h ≠ 0` the result exists exactly
when both hourly slots have a weight sum other than zero; it is then
`(1-h)·(U/W)₀ + h·(U/W)₁` for TRACE > 0 and `h·(U/W)₀ + (1-h)·(U/W)₁`
otherwise, where index 0 is hourly slot 0 (`wind_current[0]`, the hour being
approached) and index 1 is hourly slot 1 (`wind_current[1]`, the hour just
passed); otherwise it is `none` and neither `u` nor `v` is written. -/
theorem C14_inside_hour {α : Type} [LinearOrderedField α] (P : param α) (M : libm α)
    (hour_diff : α) (X : vec3 α) (st : state α) (hh : hour_diff ≠ 0) :
    (calculate_wind_vector P M hour_diff X st =
      if (vector_sums P M X st).1.weight_sum ≠ 0 ∧ (vector_sums P M X st).2.weight_sum ≠ 0 then
        if P.TRACE > 0 then
          some ((1 - hour_diff) *
                ((vector_sums P M X st).1.u_sum / (vector_sums P M X st).1.weight_sum) +
              hour_diff *
                ((vector_sums P M X st).2.u_sum / (vector_sums P M X st).2.weight_sum),
            (1 - hour_diff) *
                ((vector_sums P M X st).1.v_sum / (vector_sums P M X st).1.weight_sum) +
              hour_diff *
                ((vector_sums P M X st).2.v_sum / (vector_sums P M X st).2.weight_sum))
        else
          some (hour_diff *
                ((vector_sums P M X st).1.u_sum / (vector_sums P M X st).1.weight_sum) +
              (1 - hour_diff) *
                ((vector_sums P M X st).2.u_sum / (vector_sums P M X st).2.weight_sum),
            hour_diff *
                ((vector_sums P M X st).1.v_sum / (vector_sums P M X st).1.weight_sum) +
              (1 - hour_diff) *
                ((vector_sums P M X st).2.v_sum / (vector_sums P M X st).2.weight_sum))
      else none) ∧
    vector_sums P M X st = (slot_sums P M st X 0, slot_sums P M st X st.station_max) := by
  refine ⟨?_, vector_sums_eq P M X st⟩
  unfold calculate_wind_vector
  rw [if_neg hh]

theorem C14_inside_hour_witness :
    (1 / 4 : ℝ) ≠ 0 ∧
    calculate_wind_vector (example_param 1 2 2 200)
        ⟨Real.sin, Real.cos, Real.arccos, Real.sqrt, Real.pi⟩ (1 / 4) ⟨1, 0, 0⟩
        (two_slot (example_param 1 2 2 200)
          ⟨Real.sin, Real.cos, Real.arccos, Real.sqrt, Real.pi⟩) = some (7 / 2, 6) ∧
    calculate_wind_vector (example_param (-1) 2 2 200)
        ⟨Real.sin, Real.cos, Real.arccos, Real.sqrt, Real.pi⟩ (1 / 4) ⟨1, 0, 0⟩
        (two_slot (example_param (-1) 2 2 200)
          ⟨Real.sin, Real.cos, Real.arccos, Real.sqrt, Real.pi⟩) = some (9 / 2, 10) := by
  refine ⟨by norm_num, ?_, ?_⟩
  · obtain ⟨e, es⟩ := C14_inside_hour (example_param 1 2 2 200)
      ⟨Real.sin, Real.cos, Real.arccos, Real.sqrt, Real.pi⟩ (1 / 4) ⟨1, 0, 0⟩
      (two_slot (example_param 1 2 2 200)
        ⟨Real.sin, Real.cos, Real.arccos, Real.sqrt, Real.pi⟩) (by norm_num)
    obtain ⟨⟨a, b, c⟩, ⟨a1, b1, c1⟩⟩ := real_two_slot_means 1
    rw [e, es]
    simp only
    rw [if_pos ⟨a, a1⟩, if_pos (by decide), b, c, b1, c1]
    norm_num
  · obtain ⟨e, es⟩ := C14_inside_hour (example_param (-1) 2 2 200)
      ⟨Real.sin, Real.cos, Real.arccos, Real.sqrt, Real.pi⟩ (1 / 4) ⟨1, 0, 0⟩
      (two_slot (example_param (-1) 2 2 200)
        ⟨Real.sin, Real.cos, Real.arccos, Real.sqrt, Real.pi⟩) (by norm_num)
    obtain ⟨⟨a, b, c⟩, ⟨a1, b1, c1⟩⟩ := real_two_slot_means (-1)
    rw [e, es]
    simp only
    rw [if_pos ⟨a, a1⟩, if_neg (by decide), b, c, b1, c1]
    norm_num

section decoding

variable {α : Type} [LinearOrderedField α] [FloorRing α]

theorem c_int_of_nonneg (x : α) (h : 0 ≤ x) : c_int x = ⌊x⌋ := by
  simp [c_int, h]

theorem c_int_neg (x : α) : c_int (-x) = -c_int x := by
  unfold c_int
  rcases lt_trichotomy x 0 with h | h | h
  · rw [if_pos (by linarith), if_neg (by linarith), Int.floor_neg]
  · subst h; simp
  · rw [if_neg (by linarith), if_pos (by linarith), Int.ceil_neg]

theorem c_int_cast (n : Int) : c_int (n : α) = n := by
  unfold c_int
  split <;> simp

theorem decode_degrees_neg (x : α) : decode_degrees (-x) = -decode_degrees x := by
  unfold decode_degrees
  rw [neg_div, c_int_neg]
  push_cast
  ring

theorem decode_degrees_pos (DD MM : Int) (hD : 0 ≤ DD) (hM0 : 0 ≤ MM) (hM : MM < 100) :
    decode_degrees (((100 * DD + MM : Int)) : α) = (DD : α) + (MM : α) / 60 := by
  have d : (0 : α) ≤ (DD : α) := by exact_mod_cast hD
  have m0 : (0 : α) ≤ (MM : α) := by exact_mod_cast hM0
  have m1 : (MM : α) < 100 := by exact_mod_cast hM
  have e : c_int ((((100 * DD + MM : Int)) : α) / 100) = DD := by
    rw [c_int_of_nonneg _ (by push_cast; positivity), Int.floor_eq_iff]
    push_cast
    constructor
    · rw [le_div_iff₀ (by norm_num)]; linarith
    · rw [div_lt_iff₀ (by norm_num)]; linarith
  unfold decode_degrees
  rw [e]
  push_cast
  ring

/-- C19: a station coordinate field `sign * (100 * DD + MM)` with `sign` 1 or
-1, whole degrees `DD` and `0 <= MM < 100` is decoded by `read_station_list`
to the angle `sign * (DD + MM / 60)` in degrees, for negative fields as for
positive ones. -/
theorem C19_decode_degrees (sign DD MM : Int) (hs : sign = 1 ∨ sign = -1) (hD : 0 ≤ DD)
    (hM0 : 0 ≤ MM) (hM : MM < 100) :
    decode_degrees (((sign * (100 * DD + MM) : Int)) : α) =
      (sign : α) * ((DD : α) + (MM : α) / 60) := by
  rcases hs with rfl | rfl
  · rw [one_mul, decode_degrees_pos DD MM hD hM0 hM]; simp
  · rw [show ((((-1 : Int) * (100 * DD + MM) : Int)) : α) = -(((100 * DD + MM : Int)) : α) by
      push_cast; ring, decode_degrees_neg, decode_degrees_pos DD MM hD hM0 hM]
    push_cast; ring

theorem C19_decode_degrees_witness :
    decode_degrees ((((-1 : Int) * (100 * 13 + 30) : Int)) : ℚ) = ((-1 : Int) : ℚ) * (((13 : Int) : ℚ) + ((30 : Int) : ℚ) / 60) ∧
      decode_degrees ((((1 : Int) * (100 * 52 + 45) : Int)) : ℚ) = ((1 : Int) : ℚ) * (((52 : Int) : ℚ) + ((45 : Int) : ℚ) / 60) :=
  ⟨C19_decode_degrees (-1) 13 30 (by decide) (by decide) (by decide) (by decide),
    C19_decode_degrees 1 52 45 (by decide) (by decide) (by decide) (by decide)⟩

end decoding

section wrapping_lemmas

variable {α : Type} [LinearOrderedField α] [FloorRing α]

theorem normalize_coords_eq (M : libm α) (st : state α) :
    normalize_coords M st =
      { st with
        lo := Function.update st.lo st.point.toNat
          (deg2rad M (wrap_degrees (rad2deg M (st.lo st.point.toNat))))
        la := Function.update st.la st.point.toNat
          (deg2rad M (fold_degrees (wrap_degrees (rad2deg M (st.la st.point.toNat))))) } := rfl

theorem wrap_degrees_neg (x : α) : wrap_degrees (-x) = -wrap_degrees x := by
  unfold wrap_degrees
  simp only [c_int_neg, Int.neg_tdiv]
  have e : (-x - ((-(Int.tdiv (c_int x) 360) * 360 : Int) : α)) / 180 =
      -((x - ((Int.tdiv (c_int x) 360 * 360 : Int) : α)) / 180) := by
    push_cast; ring
  rw [e]
  simp only [c_int_neg, abs_neg]
  split
  · push_cast; ring
  · ring

theorem fold_degrees_neg (x : α) : fold_degrees (-x) = -fold_degrees x := by
  unfold fold_degrees
  simp only [c_int_neg, Int.neg_tdiv]
  have e : (-x - ((-(Int.tdiv (c_int x) 180) * 180 : Int) : α)) / 90 =
      -((x - ((Int.tdiv (c_int x) 180 * 180 : Int) : α)) / 90) := by
    push_cast; ring
  rw [e]
  simp only [c_int_neg, abs_neg]
  split
  · push_cast; ring
  · ring

theorem wrap_degrees_nonneg (x : α) (hx : 0 ≤ x) :
    (∃ k : Int, wrap_degrees x = x + 360 * (k : α)) ∧ -180 < wrap_degrees x ∧
      wrap_degrees x ≤ 180 ∧ (x ≤ 180 → wrap_degrees x = x) := by
  have n0 : 0 ≤ ⌊x⌋ := Int.floor_nonneg.2 hx
  have n1 : ((⌊x⌋ : Int) : α) ≤ x := Int.floor_le x
  have n2 : x < ((⌊x⌋ : Int) : α) + 1 := Int.lt_floor_add_one x
  have t : Int.tdiv ⌊x⌋ 360 = ⌊x⌋ / 360 := Int.tdiv_eq_ediv n0 (by decide)
  have d : ⌊x⌋ = 360 * (⌊x⌋ / 360) + ⌊x⌋ % 360 := (Int.ediv_add_emod _ _).symm
  have r0 : 0 ≤ ⌊x⌋ % 360 := Int.emod_nonneg _ (by decide)
  have r1 : ⌊x⌋ % 360 < 360 := Int.emod_lt_of_pos _ (by decide)
  have dc : ((⌊x⌋ : Int) : α) = 360 * (((⌊x⌋ / 360 : Int)) : α) + (((⌊x⌋ % 360 : Int)) : α) := by
    exact_mod_cast congrArg (fun z : Int => (z : α)) d
  have r0c : (0 : α) ≤ (((⌊x⌋ % 360 : Int)) : α) := by exact_mod_cast r0
  have r1c : (((⌊x⌋ % 360 : Int)) : α) ≤ 359 := by
    have : ⌊x⌋ % 360 ≤ 359 := by omega
    exact_mod_cast this
  unfold wrap_degrees
  rw [c_int_of_nonneg x hx, t]
  set q : Int := ⌊x⌋ / 360 with hq
  have z0 : 0 ≤ x - ((q * 360 : Int) : α) := by push_cast; linarith
  have z1 : x - ((q * 360 : Int) : α) < 360 := by push_cast; linarith
  set y : α := (x - ((q * 360 : Int) : α)) / 180 with hy
  have y0 : 0 ≤ y := div_nonneg z0 (by norm_num)
  have y2 : y < 2 := by rw [hy, div_lt_iff₀ (by norm_num)]; linarith
  have zy : x - ((q * 360 : Int) : α) = y * 180 := by rw [hy]; field_simp
  simp only []
  by_cases c : |y| > 1
  · rw [if_pos c]
    have y1 : 1 < y := by rwa [abs_of_nonneg y0] at c
    have f : c_int y = 1 := by
      rw [c_int_of_nonneg y y0, Int.floor_eq_iff]
      constructor
      · push_cast; linarith
      · push_cast; linarith
    rw [f]
    have v : (((1 * -1 : Int)) : α) - (y - ((1 : Int) : α)) * -1 = y - 2 := by push_cast; ring
    rw [v]
    refine ⟨⟨-(q + 1), ?_⟩, by linarith, by linarith, ?_⟩
    · push_cast at zy ⊢; linarith
    · intro h
      have : y * 180 ≤ 180 := by
        have : (0 : α) ≤ ((q * 360 : Int) : α) := by
          have : 0 ≤ q := by omega
          exact_mod_cast Int.mul_nonneg this (by decide)
        linarith
      linarith
  · rw [if_neg c]
    have y1 : y ≤ 1 := by
      rw [abs_of_nonneg y0] at c; exact not_lt.1 c
    refine ⟨⟨-q, ?_⟩, by linarith, by linarith, ?_⟩
    · push_cast at zy ⊢; linarith
    · intro h
      have : ⌊x⌋ ≤ 180 := by
        have : ((⌊x⌋ : Int) : α) ≤ ((180 : Int) : α) := by push_cast; linarith
        exact_mod_cast this
      have q0 : q = 0 := by omega
      rw [q0] at zy
      push_cast at zy
      linarith

theorem wrap_degrees_spec (x : α) :
    (∃ k : Int, wrap_degrees x = x + 360 * (k : α)) ∧ -180 ≤ wrap_degrees x ∧
      wrap_degrees x ≤ 180 ∧ (|x| ≤ 180 → wrap_degrees x = x) := by
  rcases le_total 0 x with h | h
  · obtain ⟨a, b, c, d⟩ := wrap_degrees_nonneg x h
    exact ⟨a, le_of_lt b, c, fun k => d (abs_le.1 k).2⟩
  · obtain ⟨⟨k, a⟩, b, c, d⟩ := wrap_degrees_nonneg (-x) (by linarith)
    rw [wrap_degrees_neg] at a b c d
    refine ⟨⟨-k, ?_⟩, by linarith, by linarith, fun j => ?_⟩
    · push_cast; linarith
    · have := d (by linarith [(abs_le.1 j).1])
      linarith

theorem fold_degrees_nonneg (x : α) (hx : 0 ≤ x) (hx2 : x ≤ 180) :
    0 ≤ fold_degrees x ∧ fold_degrees x ≤ 90 ∧ (x ≤ 90 → fold_degrees x = x) := by
  unfold fold_degrees
  rw [c_int_of_nonneg x hx]
  rcases eq_or_lt_of_le hx2 with e | l
  · subst e
    have f : ⌊(180 : α)⌋ = 180 := by
      have := Int.floor_intCast (180 : Int) (α := α)
      simpa using this
    rw [f]
    norm_num
  · have n0 : 0 ≤ ⌊x⌋ := Int.floor_nonneg.2 hx
    have n1 : ⌊x⌋ < 180 := by
      rw [Int.floor_lt]; exact_mod_cast l
    have t : Int.tdiv ⌊x⌋ 180 = 0 := by
      rw [Int.tdiv_eq_ediv n0 (by decide)]; omega
    rw [t]
    simp only [zero_mul, Int.cast_zero, sub_zero]
    have y0 : 0 ≤ x / 90 := div_nonneg hx (by norm_num)
    have y2 : x / 90 < 2 := by rw [div_lt_iff₀ (by norm_num)]; linarith
    have xy : x = x / 90 * 90 := by field_simp
    by_cases c : |x / 90| > 1
    · rw [if_pos c]
      have y1 : 1 < x / 90 := by rwa [abs_of_nonneg y0] at c
      have f : c_int (x / 90) = 1 := by
        rw [c_int_of_nonneg _ y0, Int.floor_eq_iff]
        constructor
        · push_cast; linarith
        · push_cast; linarith
      rw [f]
      push_cast
      refine ⟨by linarith, by linarith, fun h => ?_⟩
      linarith
    · rw [if_neg c]
      have y1 : x / 90 ≤ 1 := by
        rw [abs_of_nonneg y0] at c; exact not_lt.1 c
      exact ⟨by linarith, by linarith, fun _ => xy.symm⟩

theorem fold_degrees_spec (x : α) (h1 : -180 ≤ x) (h2 : x ≤ 180) :
    -90 ≤ fold_degrees x ∧ fold_degrees x ≤ 90 ∧ (|x| ≤ 90 → fold_degrees x = x) := by
  rcases le_total 0 x with h | h
  · obtain ⟨a, b, c⟩ := fold_degrees_nonneg x h h2
    exact ⟨by linarith, b, fun k => c (abs_le.1 k).2⟩
  · obtain ⟨a, b, c⟩ := fold_degrees_nonneg (-x) (by linarith) (by linarith)
    rw [fold_degrees_neg] at a b c
    refine ⟨by linarith, by linarith, fun j => ?_⟩
    have := c (by linarith [(abs_le.1 j).1])
    linarith

theorem rad2deg_deg2rad (M : libm α) (hpi : 0 < M.pi) (x : α) :
    rad2deg M (deg2rad M x) = x := by
  unfold rad2deg deg2rad
  field_simp

theorem deg2rad_rad2deg (M : libm α) (hpi : 0 < M.pi) (x : α) :
    deg2rad M (rad2deg M x) = x := by
  unfold rad2deg deg2rad
  field_simp

theorem normalize_coords_id (M : libm α) (hpi : 0 < M.pi) (st : state α)
    (hlo : |rad2deg M (st.lo st.point.toNat)| ≤ 180)
    (hla : |rad2deg M (st.la st.point.toNat)| ≤ 90) :
    normalize_coords M st = st := by
  rw [normalize_coords_eq]
  have a := (wrap_degrees_spec (rad2deg M (st.lo st.point.toNat))).2.2.2 hlo
  have b := (wrap_degrees_spec (rad2deg M (st.la st.point.toNat))).2.2.2 (by linarith)
  have c := (fold_degrees_spec (rad2deg M (st.la st.point.toNat))
    (by linarith [(abs_le.1 hla).1]) (by linarith [(abs_le.1 hla).2])).2.2 hla
  rw [a, b, c, deg2rad_rad2deg M hpi, deg2rad_rad2deg M hpi, Function.update_eq_self,
    Function.update_eq_self]

end wrapping_lemmas

section units

variable {α : Type} [LinearOrderedField α] [FloorRing α]

theorem read_station_line_error (P : param α) (M : libm α) (st : state α) (i : Nat)
    (l : station_line) :
    (∃ e, read_station_line P M st i l = .error e) ↔
      (P.DATAUNIT = 2 ∧ ¬ (l.unit = 1 ∨ l.unit = 2)) := by
  simp only [read_station_line]
  by_cases h : P.DATAUNIT = 2
  · have u : station_unit P l.unit = l.unit := by simp [station_unit, h]
    simp only [u, h, true_and]
    by_cases c : l.unit < 1 ∨ l.unit > 2
    · simp only [if_pos c]
      exact ⟨fun _ => by omega, fun _ => ⟨_, rfl⟩⟩
    · simp only [if_neg c]
      exact ⟨fun ⟨e, he⟩ => (by cases he), fun k => absurd (by omega) c⟩
  · have c : ¬ (P.DATAUNIT = 2 ∧ (station_unit P l.unit < 1 ∨ station_unit P l.unit > 2)) :=
      fun k => h k.1
    simp only [if_neg c]
    exact ⟨fun ⟨e, he⟩ => (by cases he), fun k => absurd k.1 h⟩

theorem read_station_line_unit (P : param α) (M : libm α) (st st2 : state α) (i : Nat)
    (l : station_line) (h : read_station_line P M st i l = .ok st2) :
    (st2.station_list i).unit = station_unit P l.unit ∧
      ∀ k, k ≠ i → st2.station_list k = st.station_list k := by
  simp only [read_station_line] at h
  split at h
  · cases h
  · cases h
    simp only [Function.update_same, true_and]
    intro k hk
    simp [Function.update_noteq hk]

theorem read_station_lines_error (P : param α) (M : libm α) (lines : List station_line) :
    ∀ (i : Nat) (st : state α), (∃ e, read_station_lines P M lines i st = .error e) ↔
      (P.DATAUNIT = 2 ∧ ∃ l ∈ lines, ¬ (l.unit = 1 ∨ l.unit = 2)) := by
  induction lines with
  | nil =>
    intro i st
    simp [read_station_lines]
  | cons l r ih =>
    intro i st
    have q := read_station_line_error P M st i l
    unfold read_station_lines
    cases c : read_station_line P M st i l with
    | error e =>
      have b := q.1 ⟨e, c⟩
      simp only [List.mem_cons, exists_eq_or_imp]
      exact ⟨fun _ => ⟨b.1, Or.inl b.2⟩, fun _ => ⟨e, rfl⟩⟩
    | ok st2 =>
      have b : ¬ (P.DATAUNIT = 2 ∧ ¬ (l.unit = 1 ∨ l.unit = 2)) := fun k => by
        obtain ⟨e, he⟩ := q.2 k
        rw [c] at he; cases he
      simp only [List.mem_cons, exists_eq_or_imp]
      rw [ih (i + 1) st2]
      constructor
      · exact fun k => ⟨k.1, Or.inr k.2⟩
      · rintro ⟨k1, k2 | k2⟩
        · exact absurd ⟨k1, k2⟩ b
        · exact ⟨k1, k2⟩

theorem read_station_lines_unit (P : param α) (M : libm α) (lines : List station_line) :
    ∀ (i : Nat) (st st2 : state α), read_station_lines P M lines i st = .ok st2 →
      (∀ k (hk : k < lines.length),
        (st2.station_list (i + k)).unit = station_unit P (lines.get ⟨k, hk⟩).unit) ∧
      ∀ k, k < i → st2.station_list k = st.station_list k := by
  induction lines with
  | nil =>
    intro i st st2 h
    simp only [read_station_lines, Except.ok.injEq] at h
    subst h
    exact ⟨fun k hk => absurd hk (by simp), fun _ _ => rfl⟩
  | cons l r ih =>
    intro i st st2 h
    unfold read_station_lines at h
    cases c : read_station_line P M st i l with
    | error e => rw [c] at h; cases h
    | ok st1 =>
      rw [c] at h
      obtain ⟨a, b⟩ := ih (i + 1) st1 st2 h
      obtain ⟨u, f⟩ := read_station_line_unit P M st st1 i l c
      constructor
      · intro k hk
        cases k with
        | zero =>
          simp only [Nat.add_zero, List.get_eq_getElem, List.getElem_cons_zero]
          rw [b i (by omega), u]
        | succ k =>
          have hk2 : k < r.length := by simpa using hk
          have := a k hk2
          simp only [List.get_eq_getElem, List.getElem_cons_succ]
          rw [show i + (k + 1) = i + 1 + k by omega]
          simpa using this
      · intro k hk
        rw [b k (by omega), f k (by omega)]

theorem store_sample_fold (P : param α) (M : libm α) (st : state α) (A B C : Int) (i : Nat) :
    ∀ (n : Nat) (w : Nat → wind α),
      (List.range n).foldl
        (fun w i =>
          if (st.station_list i).nr = A then
            Function.update w i
              ⟨(if (st.station_list i).unit = 2 then (C : α) * MILE / 3.6 else (C : α)) * P.SPEED *
                  M.sin (deg2rad M ((B : α) + P.ROT)),
                (if (st.station_list i).unit = 2 then (C : α) * MILE / 3.6 else (C : α)) * P.SPEED *
                  M.cos (deg2rad M ((B : α) + P.ROT)), 1⟩
          else w) w i =
      if i < n ∧ (st.station_list i).nr = A then
        ⟨(if (st.station_list i).unit = 2 then (C : α) * MILE / 3.6 else (C : α)) * P.SPEED *
            M.sin (deg2rad M ((B : α) + P.ROT)),
          (if (st.station_list i).unit = 2 then (C : α) * MILE / 3.6 else (C : α)) * P.SPEED *
            M.cos (deg2rad M ((B : α) + P.ROT)), 1⟩
      else w i := by
  intro n
  induction n with
  | zero => intro w; simp
  | succ n ih =>
    intro w
    rw [List.range_succ, List.foldl_append, List.foldl_cons, List.foldl_nil]
    by_cases e : i = n
    · subst e
      by_cases a : (st.station_list i).nr = A
      · have b : i < i + 1 ∧ (st.station_list i).nr = A := ⟨by omega, a⟩
        simp only [if_pos a, if_pos b, Function.update_same]
      · have b : ¬ (i < i + 1 ∧ (st.station_list i).nr = A) := fun k => a k.2
        have c : ¬ (i < i ∧ (st.station_list i).nr = A) := fun k => a k.2
        simp only [if_neg a, if_neg b]
        rw [ih, if_neg c]
    · have f : ∀ (x : wind α) (g : Nat → wind α),
          (if (st.station_list n).nr = A then Function.update g n x else g) i = g i := by
        intro x g
        split
        · exact Function.update_noteq e _ _
        · rfl
      rw [f, ih]
      have l : i < n + 1 ↔ i < n := by omega
      simp only [l]

/-- C20: `read_station_list` marks every station knots (unit 2) with DATAUNIT
= 0 and m/s (unit 1) with DATAUNIT = 1, and gives it its unit-code field with
DATAUNIT = 2; on an opened station file it fails iff DATAUNIT = 2 and some
line has a unit code other than 1 and 2, and otherwise line `k` is stored with
the unit `station_unit` gives; and the sample `read_file` stores for a table
station with the number of a wind line is built from `C * MILE / 3.6` when the
station's unit is 2 and from `C` itself otherwise. -/
theorem C20_station_units (P : param α) (M : libm α) (lines : List station_line)
    (st : state α) (w : Nat → wind α) (A B C : Int) (i : Nat) (code : Int) :
    station_unit { P with DATAUNIT := 0 } code = 2 ∧
    station_unit { P with DATAUNIT := 1 } code = 1 ∧
    station_unit { P with DATAUNIT := 2 } code = code ∧
    ((∃ e, read_station_list P M (some lines) st = .error e) ↔
      (P.DATAUNIT = 2 ∧ ∃ l ∈ lines, ¬ (l.unit = 1 ∨ l.unit = 2))) ∧
    (∀ st2, read_station_list P M (some lines) st = .ok st2 →
      ∀ k (hk : k < lines.length),
        (st2.station_list k).unit = station_unit P (lines.get ⟨k, hk⟩).unit) ∧
    store_sample P M st w A B C i =
      if i < st.station_max ∧ (st.station_list i).nr = A then
        ⟨(if (st.station_list i).unit = 2 then (C : α) * MILE / 3.6 else (C : α)) * P.SPEED *
            M.sin (deg2rad M ((B : α) + P.ROT)),
          (if (st.station_list i).unit = 2 then (C : α) * MILE / 3.6 else (C : α)) * P.SPEED *
            M.cos (deg2rad M ((B : α) + P.ROT)), 1⟩
      else w i := by
  refine ⟨by simp [station_unit], by simp [station_unit], by simp [station_unit],
    read_station_lines_error P M lines 0 st, ?_, ?_⟩
  · intro st2 h k hk
    have := (read_station_lines_unit P M lines 0 st st2 h).1 k hk
    simpa using this
  · exact store_sample_fold P M st A B C i st.station_max w

end units

section frames

variable {α : Type} [LinearOrderedField α]

theorem foldl_track {β : Type} (f : state α → β → state α)
    (hf : ∀ s b, track (f s b) = track s) (l : List β) :
    ∀ s, track (l.foldl f s) = track s := by
  induction l with
  | nil => intro s; rfl
  | cons b l ih =>
    intro s
    rw [List.foldl_cons, ih, hf]

theorem copy_wind_current_track (st : state α) : track (copy_wind_current st) = track st := by
  unfold copy_wind_current
  apply foldl_track
  intro s b
  rfl

theorem load_slot_track (st : state α) (w : Nat → wind α) (offset : Nat) :
    track (load_slot st w offset) = track st := by
  unfold load_slot
  apply foldl_track
  intro s b
  rfl

theorem shift_slots_track (P : param α) (st : state α) (w : Nat → wind α) :
    track (shift_slots P st w) = track st := by
  unfold shift_slots
  refine foldl_track _ ?_ _ st
  intro s i
  dsimp only
  split_ifs <;> rfl

theorem wind_of_next_hour_track (st st2 : state α) (h : wind_of_next_hour st = .ok st2) :
    track st2 = track st := by
  unfold wind_of_next_hour at h
  split_ifs at h with h0
  simp only [Except.ok.injEq] at h
  subst h
  apply foldl_track
  intro s b
  rfl

theorem get_next_wind_data_track (P : param α) (h : heap α) (fuel : Nat) (st : state α)
    (w : Nat) (r : Nat × state α) (hr : get_next_wind_data P h fuel st w = .ok r) :
    track r.2 = track st := by
  unfold get_next_wind_data at hr
  simp only [bind, Except.bind, pure, Except.pure] at hr
  split at hr
  · cases hr
  · split at hr
    · cases hr
    · split at hr
      · cases hr
      · simp only [Except.ok.injEq] at hr
        subst hr
        exact shift_slots_track P _ _

theorem hour_boundary_track (P : param α) (h : heap α) (fuel : Nat) (st : state α) (w : Nat)
    (r : Nat × state α) (hr : hour_boundary P h fuel st w = .ok r) :
    track r.2 = track st := by
  unfold hour_boundary at hr
  simp only [bind, Except.bind, pure, Except.pure] at hr
  have hs1 : track (copy_wind_current
      (if P.TRACE > 0 then { st with diff := st.diff + 1 } else { st with diff := st.diff - 1 }))
      = track st := by
    rw [copy_wind_current_track]
    split_ifs <;> rfl
  generalize copy_wind_current
    (if P.TRACE > 0 then { st with diff := st.diff + 1 } else { st with diff := st.diff - 1 })
    = s1 at hr hs1
  split at hr
  · cases hr
  · rename_i v heq
    split at hr
    · cases hr
    · rename_i v1 hw
      simp only [Except.ok.injEq] at hr
      subst hr
      rw [show track (v.1, v1).2 = track v1 from rfl, wind_of_next_hour_track v.2 v1 hw, ← hs1]
      split_ifs at heq with hc ht
      · split at heq
        · cases heq
        · rename_i g hg
          split at heq
          · cases heq
          · cases heq
            exact get_next_wind_data_track P h fuel s1 w g hg
      · split at heq
        · cases heq
        · rename_i g hg
          split at heq
          · cases heq
          · cases heq
            exact get_next_wind_data_track P h fuel s1 w g hg
      · cases heq
        rfl

theorem init_wind_data_track (P : param α) (h : heap α) (fuel : Nat) (st : state α)
    (w0 : Nat) (r : Nat × state α) (hr : init_wind_data P h fuel st w0 = .ok r) :
    track r.2 = track st := by
  unfold init_wind_data at hr
  simp only [bind, Except.bind, pure, Except.pure] at hr
  split at hr
  · cases hr
  · split at hr
    · cases hr
    · rename_i x hx
      have tx : track x.2 = track st := by
        repeat' (split at hx)
        all_goals first
          | (cases hx; done)
          | (cases hx; rfl)
      repeat' (split at hr)
      all_goals first
        | (cases hr; done)
        | (cases hr
           exact (load_slot_track _ _ _).trans ((load_slot_track x.2 _ 0).trans tx))

end frames

section frames2

variable {α : Type} [LinearOrderedField α]

theorem convert_timezone_track (P : param α) (st : state α) :
    track (convert_timezone P st) = track st := by
  unfold convert_timezone
  split_ifs <;> rfl

theorem prepare_calculate_track (P : param α) (M : libm α) (stations : Nat → station α)
    (fs : Int → Int → Int → Option (List line)) (fuel : Nat) (st : state α)
    (r : heap α × Nat × state α) (h : prepare_calculate P M stations fs fuel st = .ok r) :
    track r.2.2 = (st.lo, st.la, st.point, st.point_max, st.station_max, stations,
      (if P.TRACE > 0 then st.distance_per_step * -1 else st.distance_per_step),
      st.cos_min_r, st.cos_max_r) := by
  have c := convert_timezone_track P st
  unfold prepare_calculate at h
  simp only [bind, Except.bind, pure, Except.pure] at h
  generalize convert_timezone P st = s0 at h c
  have e : (st.lo, st.la, st.point, st.point_max, st.station_max, stations,
      (if P.TRACE > 0 then st.distance_per_step * -1 else st.distance_per_step),
      st.cos_min_r, st.cos_max_r) =
      track (if P.TRACE > 0 then
        { s0 with station_list := stations, distance_per_step := s0.distance_per_step * -1 }
        else { s0 with station_list := stations }) := by
    simp only [track, Prod.mk.injEq] at c
    obtain ⟨c1, c2, c3, c4, c5, c6, c7, c8, c9⟩ := c
    split_ifs
    · simp only [track, c1, c2, c3, c4, c5, c7, c8, c9]
    · simp only [track, c1, c2, c3, c4, c5, c7, c8, c9]
  rw [e]
  generalize (if P.TRACE > 0 then
      ({ s0 with station_list := stations, distance_per_step := s0.distance_per_step * -1 } :
        state α)
      else { s0 with station_list := stations }) = s at h ⊢
  split_ifs at h
  split at h
  · cases h
  · split at h
    · cases h
    · rename_i x hinit
      split at h
      · cases h
      · split at h
        · cases h
        · rename_i s2 hw
          cases h
          exact (wind_of_next_hour_track _ s2 hw).trans
            (init_wind_data_track P _ fuel _ _ x hinit)

end frames2

section counting

variable {α : Type} [LinearOrderedField α]

theorem track_point {s t : state α} (h : track s = track t) :
    s.point = t.point ∧ s.point_max = t.point_max := by
  simp only [track, Prod.mk.injEq] at h
  exact ⟨h.2.2.1, h.2.2.2.1⟩

theorem micro_step_point (P : param α) (M : libm α) (h : heap α) (fuel : Nat) (j : Int)
    (x y : Nat × state α × (α × α)) (stop : Bool)
    (hr : micro_step P M h fuel j x = .ok (y, stop)) :
    y.2.1.point = x.2.1.point ∧
      (y.2.1.point_max = x.2.1.point_max ∨ y.2.1.point_max = x.2.1.point) := by
  unfold micro_step at hr
  simp only [bind, Except.bind, pure, Except.pure] at hr
  split at hr
  · cases hr
  · rename_i v hv
    have tv : v.2.point = x.2.1.point ∧ v.2.point_max = x.2.1.point_max := by
      split_ifs at hv
      · exact track_point (hour_boundary_track P h fuel _ _ v hv)
      · cases hv; exact ⟨rfl, rfl⟩
    simp only [Except.ok.injEq, Prod.mk.injEq] at hr
    obtain ⟨hy, _⟩ := hr
    subst hy
    dsimp only
    split_ifs
    · exact ⟨tv.1, Or.inr tv.1⟩
    · exact ⟨tv.1, Or.inl tv.2⟩

theorem iterate_loop_point (P : param α) (M : libm α) (h : heap α) (fuel : Nat) :
    ∀ (n : Nat) (j : Int) (x y : Nat × state α × (α × α)),
      iterate_loop P M h fuel n j x = .ok y →
      y.2.1.point = x.2.1.point ∧
        (y.2.1.point_max = x.2.1.point_max ∨ y.2.1.point_max = x.2.1.point) := by
  intro n
  induction n with
  | zero =>
    intro j x y hr
    simp only [iterate_loop, Except.ok.injEq] at hr
    subst hr
    exact ⟨rfl, Or.inl rfl⟩
  | succ n ih =>
    intro j x y hr
    unfold iterate_loop at hr
    split at hr
    · cases hr
    · rename_i z stop hz
      obtain ⟨a, b⟩ := micro_step_point P M h fuel j x z stop hz
      split_ifs at hr
      · cases hr; exact ⟨a, b⟩
      · obtain ⟨c, d⟩ := ih (j + 1) z y hr
        refine ⟨c.trans a, ?_⟩
        rcases d with d | d
        · rcases b with b | b
          · exact Or.inl (d.trans b)
          · exact Or.inr (d.trans b)
        · exact Or.inr (d.trans a)

theorem iterate_point (P : param α) (M : libm α) (h : heap α) (fuel : Nat) (uv : α × α)
    (st : state α) (w : Nat) (r : Nat × state α) (hr : iterate P M h fuel uv st w = .ok r) :
    r.2.point = st.point ∧ (r.2.point_max = st.point_max ∨ r.2.point_max = st.point) := by
  unfold iterate at hr
  cases c : iterate_loop P M h fuel P.IPERPOINT.toNat 0 (w, st, uv) with
  | error e => rw [c] at hr; cases hr
  | ok y =>
    rw [c] at hr
    cases hr
    exact iterate_loop_point P M h fuel _ 0 (w, st, uv) y c

end counting

section counting2

variable {α : Type} [LinearOrderedField α] [FloorRing α]

theorem waypoint_loop_point (P : param α) (M : libm α) (h : heap α) (fuel : Nat)
    (junk : Int → α × α) :
    ∀ (n : Nat) (x y : Nat × state α), waypoint_loop P M h fuel junk n x = .ok y →
      y.2.point ≤ max x.2.point (x.2.point_max + 1) := by
  intro n
  induction n with
  | zero =>
    intro x y hr
    unfold waypoint_loop at hr
    split_ifs at hr
    cases hr
    exact le_max_left _ _
  | succ n ih =>
    intro x y hr
    unfold waypoint_loop at hr
    split_ifs at hr with c
    · dsimp only at hr
      split at hr
      · cases hr
      · rename_i z hz
        obtain ⟨a, b⟩ := iterate_point P M h fuel _ _ _ z hz
        have := ih _ y hr
        have p1 : (normalize_coords M z.2).point = z.2.point := rfl
        have p2 : (normalize_coords M z.2).point_max = z.2.point_max := rfl
        dsimp only at this a b
        rw [p1, p2] at this
        refine le_trans this ?_
        rw [a]
        rcases b with b | b
        · rw [b]
          exact max_le (le_trans (by omega) (le_max_right _ _)) (le_max_right _ _)
        · rw [b]
          exact max_le (le_trans (by omega) (le_max_right _ _))
            (le_trans (by omega) (le_max_right _ _))
    · cases hr
      exact le_max_left _ _

theorem init_values_point_max (P : param α) (M : libm α) (n : Nat) :
    (init_values P M n).point_max =
      c_int ((P.IPERH : α) / (P.IPERPOINT : α) * ((|P.TRACE| : Int) : α)) := rfl

theorem calculate_point (P : param α) (M : libm α) (station_file : Option (List station_line))
    (fs : Int → Int → Int → Option (List line)) (fuel : Nat) (junk : Int → α × α)
    (st st2 : state α) (hr : calculate P M station_file fs fuel junk st = .ok st2) :
    st2.point ≤ max 1 (st.point_max + 1) := by
  unfold calculate at hr
  split at hr
  · cases hr
  · split at hr
    · cases hr
    · rename_i x hx
      have t := prepare_calculate_track P M _ fs fuel st x hx
      have pm : x.2.2.point_max = st.point_max := by
        simp only [track, Prod.mk.injEq] at t
        exact t.2.2.2.1
      cases c : waypoint_loop P M x.1 fuel junk x.2.2.point_max.toNat
          (x.2.1, { x.2.2 with point := 1 }) with
      | error e => rw [c] at hr; cases hr
      | ok y =>
        rw [c] at hr
        cases hr
        have := waypoint_loop_point P M x.1 fuel junk _ _ y c
        dsimp only at this
        rw [pm] at this
        exact this

end counting2

section run

variable {α : Type} [LinearOrderedField α] [FloorRing α]

theorem wind_days_run (st : state α) (e : st.time = ⟨2001, 3, 14, 22⟩) :
    wind_days (example_param 1 1 2 200) st = [⟨2001, 3, 14, 21⟩, ⟨2001, 3, 15, 0⟩] := by
  simp [wind_days, e, example_param, RESMAX, List.range_succ, day_step,
    time_step_backward, time_step_forward, Function.update, month_length]

set_option maxHeartbeats 4000000 in
theorem run_window (M : libm α) (lo la lo1 la1 : Nat → α) (pm : Int) (d c1 c2 : α)
    (X0 : vec3 α) :
    ∃ x r, prepare_calculate (example_param 1 1 2 200) M
        (Function.update (fun _ => ⟨0, 0, ⟨0, 0, 0⟩⟩) 0 ⟨1, 1, X0⟩) hour_files 20
        ⟨lo, la, 0, pm, 1, fun _ => ⟨0, 0, ⟨0, 0, 0⟩⟩, fun _ => ⟨0, 0, 0⟩, fun _ => ⟨0, 0, 0⟩,
          ⟨2001, 3, 14, 22⟩, 0, 0, d, c1, c2⟩ = .ok x ∧
      hour_boundary (example_param 1 1 2 200) x.1 20
        { x.2.2 with lo := lo1, la := la1, point := 1 } x.2.1 = .ok r ∧
      r.2.wind_current 0 =
        ⟨((1 : Int) : α) * 1 * M.sin (deg2rad M (((90 : Int) : α) + 0)),
          ((1 : Int) : α) * 1 * M.cos (deg2rad M (((90 : Int) : α) + 0)), 1⟩ := by
  have key : (match prepare_calculate (example_param 1 1 2 200) M
        (Function.update (fun _ => ⟨0, 0, ⟨0, 0, 0⟩⟩) 0 ⟨1, 1, X0⟩) hour_files 20
        ⟨lo, la, 0, pm, 1, fun _ => ⟨0, 0, ⟨0, 0, 0⟩⟩, fun _ => ⟨0, 0, 0⟩, fun _ => ⟨0, 0, 0⟩,
          ⟨2001, 3, 14, 22⟩, 0, 0, d, c1, c2⟩ with
      | .ok x =>
        (match hour_boundary (example_param 1 1 2 200) x.1 20
            { x.2.2 with lo := lo1, la := la1, point := 1 } x.2.1 with
          | .ok r => r.2.wind_current 0
          | .error _ => ⟨0, 0, 0⟩)
      | .error _ => ⟨0, 0, 0⟩) =
      (⟨((1 : Int) : α) * 1 * M.sin (deg2rad M (((90 : Int) : α) + 0)),
          ((1 : Int) : α) * 1 * M.cos (deg2rad M (((90 : Int) : α) + 0)), 1⟩ : wind α) := by
    unfold prepare_calculate read_wind_data
    dsimp only
    rw [wind_days_run _ rfl]
    rfl
  cases hx : prepare_calculate (example_param 1 1 2 200) M
        (Function.update (fun _ => ⟨0, 0, ⟨0, 0, 0⟩⟩) 0 ⟨1, 1, X0⟩) hour_files 20
        ⟨lo, la, 0, pm, 1, fun _ => ⟨0, 0, ⟨0, 0, 0⟩⟩, fun _ => ⟨0, 0, 0⟩, fun _ => ⟨0, 0, 0⟩,
          ⟨2001, 3, 14, 22⟩, 0, 0, d, c1, c2⟩ with
  | error e =>
    rw [hx] at key
    exact absurd (congrArg wind.p key) (by simp)
  | ok x =>
    rw [hx] at key
    dsimp only at key
    cases hr : hour_boundary (example_param 1 1 2 200) x.1 20
        { x.2.2 with lo := lo1, la := la1, point := 1 } x.2.1 with
    | error e =>
      rw [hr] at key
      exact absurd (congrArg wind.p key) (by simp)
    | ok r =>
      rw [hr] at key
      exact ⟨x, r, rfl, hr, key⟩

end run

section single

variable {α : Type} [LinearOrderedField α] [FloorRing α]

theorem micro_step_first (P : param α) (M : libm α) (H : heap α) (fuel : Nat) (w : Nat)
    (st : state α) (uv0 : α × α) (r : Nat × state α) (u v : α)
    (hp : st.point = 1)
    (hb : hour_boundary P H fuel st w = .ok r)
    (hv : calculate_wind_vector P M 0 (convert_geo_to_cartesian M (st.lo 1) (st.la 1)) r.2
      = some (u, v)) :
    micro_step P M H fuel 0 (w, st, uv0) =
      .ok ((r.1,
        { r.2 with
          lo := Function.update st.lo 1 (st.lo 1 + st.distance_per_step * u / M.cos (st.la 1))
          la := Function.update st.la 1 (st.la 1 + st.distance_per_step * v) }, (u, v)),
        false) := by
  have t := hour_boundary_track P H fuel st w r hb
  simp only [track, Prod.mk.injEq] at t
  obtain ⟨t1, t2, t3, t4, t5, t6, t7, t8, t9⟩ := t
  unfold micro_step
  simp only [bind, Except.bind, pure, Except.pure, hp, sub_self, zero_mul, zero_add,
    Int.zero_tmod, if_true, hb, Int.cast_zero, zero_div, t1, t2, t3, t7]
  have e : (1 : Int).toNat = 1 := rfl
  simp only [e, hv, Option.isNone_some, Option.getD_some, Bool.false_eq_true, if_false, t1, t2,
    t3, t7, hp]

end single

section single2

variable {α : Type} [LinearOrderedField α] [FloorRing α]

theorem single_waypoint (P : param α) (M : libm α) (H : heap α) (fuel : Nat)
    (junk : Int → α × α) (w : Nat) (s : state α) (r : Nat × state α) (u v : α)
    (hi : P.IPERPOINT = 1) (hpm : s.point_max = 1)
    (hb : hour_boundary P H fuel
      { s with point := 1, lo := Function.update s.lo 1 (s.lo 0),
               la := Function.update s.la 1 (s.la 0) } w = .ok r)
    (hv : calculate_wind_vector P M 0 (convert_geo_to_cartesian M (s.lo 0) (s.la 0)) r.2
      = some (u, v)) :
    ∃ Z : state α, Z.point = 1 ∧ Z.lo 0 = s.lo 0 ∧ Z.la 0 = s.la 0 ∧
      Z.lo 1 = s.lo 0 + s.distance_per_step * u / M.cos (s.la 0) ∧
      Z.la 1 = s.la 0 + s.distance_per_step * v ∧
      waypoint_loop P M H fuel junk 1 (w, { s with point := 1 }) =
        .ok (r.1, { normalize_coords M Z with point := 2 }) := by
  have t := hour_boundary_track P H fuel _ w r hb
  simp only [track, Prod.mk.injEq] at t
  obtain ⟨t1, t2, t3, t4, t5, t6, t7, t8, t9⟩ := t
  have ms := micro_step_first P M H fuel w
    { s with point := 1, lo := Function.update s.lo 1 (s.lo 0),
             la := Function.update s.la 1 (s.la 0) } (junk 1) r u v rfl hb
    (by simpa using hv)
  simp only [Function.update_same, hpm] at ms
  rw [hpm] at t4
  refine ⟨{ r.2 with
      lo := Function.update (Function.update s.lo 1 (s.lo 0)) 1
        (s.lo 0 + s.distance_per_step * u / M.cos (s.la 0))
      la := Function.update (Function.update s.la 1 (s.la 0)) 1
        (s.la 0 + s.distance_per_step * v)
      point := 1
      point_max := 1 }, rfl, by simp, by simp, by simp, by simp, ?_⟩
  have e1 : (1 : Int).toNat = 1 := rfl
  have e0 : ((1 : Int) - 1).toNat = 0 := rfl
  unfold waypoint_loop
  simp only [hpm, le_refl, if_true, e1, e0]
  unfold iterate
  simp only [hi, e1]
  unfold iterate_loop
  simp only [ms, Bool.false_eq_true, if_false]
  unfold iterate_loop
  simp only [Except.map]
  unfold waypoint_loop
  have p1 : ∀ Z : state α, (normalize_coords M Z).point = Z.point := fun _ => rfl
  have p2 : ∀ Z : state α, (normalize_coords M Z).point_max = Z.point_max := fun _ => rfl
  simp only [p1, p2, t3, t4]
  rw [if_neg (by decide)]
  rfl

end single2

section forward

variable {α : Type} [LinearOrderedField α] [FloorRing α]

theorem init_values_example (M : libm α) (hpi : 0 < M.pi) (trace res : Int) (n : Nat) :
    init_values (example_param trace res 2 200) M n =
      { lo := fun _ => 0
        la := fun _ => 0
        point := 0
        point_max := c_int ((((1 : Int) : α)) / (((1 : Int) : α)) * ((|trace| : Int) : α))
        station_max := n
        station_list := fun _ => ⟨0, 0, ⟨0, 0, 0⟩⟩
        wind_data := fun _ => ⟨0, 0, 0⟩
        wind_current := fun _ => ⟨0, 0, 0⟩
        time := ⟨2001, 3, 14, 22⟩
        diff := 0
        data_diff := 0
        distance_per_step := 3.6 / ((((1 : Int) : α)) * RE)
        cos_min_r := M.cos ((((2 : Int) : α)) / RE)
        cos_max_r := M.cos ((((200 : Int) : α)) / RE) } := by
  unfold init_values
  rw [normalize_coords_id M hpi]
  · simp only [example_param]
    congr 1
    · funext k
      by_cases hk : k = 0
      · subst hk; simp [deg2rad]
      · simp [Function.update_noteq hk]
    · funext k
      by_cases hk : k = 0
      · subst hk; simp [deg2rad]
      · simp [Function.update_noteq hk]
  · simp [example_param, deg2rad, rad2deg]
  · simp [example_param, deg2rad, rad2deg]

theorem read_one_station (M : libm α) (c0 : M.cos 0 = 1) (s0 : M.sin 0 = 0) (st : state α) :
    read_station_list (example_param 1 1 2 200) M one_station st =
      .ok { st with station_list := Function.update st.station_list 0 ⟨1, 1, ⟨1, 0, 0⟩⟩ } := by
  have d : decode_degrees (((0 : Int) : α)) = 0 := by
    have := decode_degrees_pos (α := α) 0 0 (le_refl _) (le_refl _) (by decide)
    simpa using this
  simp only [read_station_list, one_station, read_station_lines, read_station_line, station_unit,
    example_param, d, deg2rad, zero_mul, zero_div, c0, s0, mul_one, mul_zero]
  rfl

end forward

section forward2

variable {α : Type} [LinearOrderedField α] [FloorRing α]

theorem forward_run (M : libm α) (junk : Int → α × α) (hpi : 1 ≤ M.pi)
    (c0 : M.cos 0 = 1) (s0 : M.sin 0 = 0)
    (s90 : M.sin (90 * M.pi / 180) = 1) (c90 : M.cos (90 * M.pi / 180) = 0)
    (hr : M.cos (200 / 6370) < M.cos (2 / 6370)) (h1 : M.cos (2 / 6370) ≤ 1)
    (ha : M.acos (M.cos (2 / 6370)) ≠ 0) :
    ∃ st2, calculate (example_param 1 1 2 200) M one_station hour_files 20 junk
        (init_values (example_param 1 1 2 200) M 1) = .ok st2 ∧
      st2.point = 2 ∧ st2.lo 0 = 0 ∧ st2.la 0 = 0 ∧ st2.lo 1 = -(3.6 / 6370) ∧ st2.la 1 = 0 := by
  have hpi0 : 0 < M.pi := lt_of_lt_of_le one_pos hpi
  have pm : c_int ((((1 : Int) : α)) / (((1 : Int) : α)) * ((|(1 : Int)| : Int) : α)) = 1 := by
    have : (((1 : Int) : α)) / (((1 : Int) : α)) * ((|(1 : Int)| : Int) : α) = ((1 : Int) : α) := by
      simp
    rw [this, c_int_cast]
  obtain ⟨x, r, hx, hb, hw⟩ := run_window M (fun _ => 0) (fun _ => 0)
    (Function.update (fun _ => 0) 1 0) (Function.update (fun _ => 0) 1 0) 1
    (3.6 / ((((1 : Int) : α)) * RE)) (M.cos ((((2 : Int) : α)) / RE))
    (M.cos ((((200 : Int) : α)) / RE)) ⟨1, 0, 0⟩
  have tx := prepare_calculate_track _ M _ hour_files 20 _ x hx
  simp only [track, Prod.mk.injEq] at tx
  obtain ⟨x1, x2, x3, x4, x5, x6, x7, x8, x9⟩ := tx
  have tr := hour_boundary_track _ _ 20 _ _ r hb
  simp only [track, Prod.mk.injEq] at tr
  obtain ⟨r1, r2, r3, r4, r5, r6, r7, r8, r9⟩ := tr
  have wv : calculate_wind_vector (example_param 1 1 2 200) M 0
      (convert_geo_to_cartesian M (x.2.2.lo 0) (x.2.2.la 0)) r.2 = some (1, 0) := by
    have eX : convert_geo_to_cartesian M (x.2.2.lo 0) (x.2.2.la 0) = ⟨1, 0, 0⟩ := by
      rw [x1, x2]
      simp [convert_geo_to_cartesian, c0, s0]
    rw [eX]
    have hc : distance_to_station_in_cos 0 ⟨1, 0, 0⟩ r.2 = 1 := by
      unfold distance_to_station_in_cos
      rw [r6, x6]
      simp
    have emin : r.2.cos_min_r = M.cos (2 / 6370) := by
      rw [r8, x8]; simp [RE]
    have emax : r.2.cos_max_r = M.cos (200 / 6370) := by
      rw [r9, x9]; simp [RE]
    have smax : r.2.station_max = 1 := by rw [r5, x5]
    have only : only_station r.2 ⟨1, 0, 0⟩ 0 0 := by
      refine ⟨by rw [smax]; exact Nat.zero_lt_one, ⟨?_, ?_⟩, fun i hi hne => ?_⟩
      · rw [Nat.zero_add, hw]; exact one_ne_zero
      · rw [hc, emin, emax, min_eq_right h1]
        exact hr
      · rw [smax] at hi
        exact absurd (Nat.lt_one_iff.1 hi) hne
    have wt : station_weight M r.2 ⟨1, 0, 0⟩ 0 ≠ 0 := by
      unfold station_weight
      rw [hc, emin, min_eq_right h1]
      exact one_div_ne_zero (mul_ne_zero ha ha)
    have sd : ¬ (example_param 1 1 2 200 : param α).STDDEVIATION > 0 := by
      simp [example_param]
    obtain ⟨m1, m2, m3⟩ := single_station_mean (example_param 1 1 2 200) M r.2 ⟨1, 0, 0⟩ 0 0
      sd wt only
    rw [calculate_wind_vector_eq, if_pos rfl, if_pos (show (example_param 1 1 2 200 : param α).TRACE > 0 from Int.one_pos), if_pos m1, m2, m3,
      Nat.zero_add, hw]
    simp [deg2rad, s90, c90]
  have hb2 : hour_boundary (example_param 1 1 2 200) x.1 20
      { x.2.2 with point := 1, lo := Function.update x.2.2.lo 1 (x.2.2.lo 0),
                   la := Function.update x.2.2.la 1 (x.2.2.la 0) } x.2.1 = .ok r := by
    rw [x1, x2]
    exact hb
  obtain ⟨Z, z1, z2, z3, z4, z5, hwl⟩ := single_waypoint (example_param 1 1 2 200) M x.1 20 junk
    x.2.1 x.2.2 r 1 0 rfl x4 hb2 wv
  have dps : x.2.2.distance_per_step = -(3.6 / 6370) := by
    rw [x7, if_pos (show (example_param 1 1 2 200 : param α).TRACE > 0 from Int.one_pos)]
    simp [RE]
  rw [x1, x2, dps] at z4
  rw [x2, dps] at z5
  rw [x1] at z2
  rw [x2] at z3
  simp only [c0, mul_one, div_one, zero_add, mul_zero] at z4 z5
  have e1 : (1 : Int).toNat = 1 := rfl
  have nid : normalize_coords M Z = Z := by
    apply normalize_coords_id M hpi0
    · rw [z1, e1, z4]
      unfold rad2deg
      rw [abs_le]
      constructor
      · rw [le_div_iff₀ hpi0]
        have : (0 : α) < 3.6 / 6370 ∧ (3.6 : α) / 6370 ≤ 1 := by norm_num
        nlinarith [this.1, this.2]
      · have : -(3.6 / 6370 : α) * 180 / M.pi ≤ 0 := by
          apply div_nonpos_of_nonpos_of_nonneg _ (le_of_lt hpi0)
          norm_num
        linarith
    · rw [z1, e1, z5]
      simp [rad2deg]
  refine ⟨{ Z with point := 2 }, ?_, rfl, z2, z3, z4, z5⟩
  unfold calculate
  rw [init_values_example M hpi0, read_one_station M c0 s0]
  simp only [pm]
  rw [hx]
  simp only [x4] at hwl
  simp only [x4, e1, hwl, nid, Except.map]

end forward2

section settle

theorem real_forward_run (junk : Int → ℝ × ℝ) :
    ∃ st2, calculate (example_param 1 1 2 200)
        ⟨Real.sin, Real.cos, Real.arccos, Real.sqrt, Real.pi⟩ one_station hour_files 20 junk
        (init_values (example_param 1 1 2 200)
          ⟨Real.sin, Real.cos, Real.arccos, Real.sqrt, Real.pi⟩ 1) = .ok st2 ∧
      st2.point = 2 ∧ st2.lo 0 = 0 ∧ st2.la 0 = 0 ∧ st2.lo 1 = -(3.6 / 6370) ∧ st2.la 1 = 0 := by
  have hpi := Real.pi_gt_three
  have e : (90 : ℝ) * Real.pi / 180 = Real.pi / 2 := by ring
  refine forward_run ⟨Real.sin, Real.cos, Real.arccos, Real.sqrt, Real.pi⟩ junk
    (by show (1 : ℝ) ≤ Real.pi; linarith) Real.cos_zero Real.sin_zero ?_ ?_ ?_
    (Real.cos_le_one _) ?_
  · show Real.sin (90 * Real.pi / 180) = 1
    rw [e, Real.sin_pi_div_two]
  · show Real.cos (90 * Real.pi / 180) = 0
    rw [e, Real.cos_pi_div_two]
  · exact Real.cos_lt_cos_of_nonneg_of_le_pi (by norm_num) (by norm_num; linarith) (by norm_num)
  · show Real.arccos (Real.cos (2 / 6370)) ≠ 0
    rw [Real.arccos_cos (by norm_num) (by linarith)]
    norm_num

variable {α : Type} [LinearOrderedField α] [FloorRing α]

/-- C15 (amended): a successful `prepare_calculate` on the status of
`init_values` leaves the step size `3.6 / (IPERH * RE) * -1` for TRACE > 0
and `3.6 / (IPERH * RE)` otherwise, so the forward trace has the negative
step (`read_file` stores the wind as speed times (sin, cos) of the direction
the wind comes from).  The forward run over the reals with one station at (0,0)
reporting direction 90 and speed 1 in m/s (stored u = 1, v = 0) in every hour,
IPERH = IPERPOINT = 1, TRACE = 1 and start (0,0) returns two waypoints, the
second at lon = -3.6/6370, lat = 0. -/
theorem C15_step_sign (P : param α) (M : libm α) (stations : Nat → station α)
    (fs : Int → Int → Int → Option (List line)) (fuel : Nat) (n : Nat) (junk : Int → ℝ × ℝ) :
    (∀ r, prepare_calculate P M stations fs fuel (init_values P M n) = .ok r →
      r.2.2.distance_per_step =
        if P.TRACE > 0 then 3.6 / ((P.IPERH : α) * RE) * -1 else 3.6 / ((P.IPERH : α) * RE)) ∧
    ∃ st2, calculate (example_param 1 1 2 200)
        ⟨Real.sin, Real.cos, Real.arccos, Real.sqrt, Real.pi⟩ one_station hour_files 20 junk
        (init_values (example_param 1 1 2 200)
          ⟨Real.sin, Real.cos, Real.arccos, Real.sqrt, Real.pi⟩ 1) = .ok st2 ∧
      (print_output_file st2).1 = 2 ∧ st2.lo 0 = 0 ∧ st2.la 0 = 0 ∧
      st2.lo 1 = -(3.6 / 6370) ∧ st2.la 1 = 0 := by
  refine ⟨fun r h => ?_, real_forward_run junk⟩
  have t := prepare_calculate_track P M stations fs fuel _ r h
  simp only [track, Prod.mk.injEq] at t
  exact t.2.2.2.2.2.2.1

theorem c_int_floor_nonneg (x : α) (hx : 0 ≤ x) : c_int x = ⌊x⌋ ∧ 0 ≤ ⌊x⌋ :=
  ⟨c_int_of_nonneg x hx, Int.floor_nonneg.2 hx⟩

/-- C16 (amended): for IPERH > 0, IPERPOINT > 0 and TRACE != 0, when
`calculate` returns on the status of `init_values`, the number N of the count
line written by `print_output_file` is `state->point`, and it is at most
`floor(IPERH / IPERPOINT * |TRACE|) + 1`: the start point and at most
`point_max` computed waypoints. -/
theorem C16_waypoint_count (P : param α) (M : libm α)
    (station_file : Option (List station_line)) (fs : Int → Int → Int → Option (List line))
    (fuel : Nat) (junk : Int → α × α) (n : Nat) (st2 : state α)
    (hH : 0 < P.IPERH) (hP : 0 < P.IPERPOINT) (hT : P.TRACE ≠ 0)
    (hr : calculate P M station_file fs fuel junk (init_values P M n) = .ok st2) :
    (print_output_file st2).1 = st2.point ∧
      st2.point ≤ ⌊(P.IPERH : α) / (P.IPERPOINT : α) * ((|P.TRACE| : Int) : α)⌋ + 1 := by
  refine ⟨rfl, ?_⟩
  have b := calculate_point P M station_file fs fuel junk _ st2 hr
  rw [init_values_point_max] at b
  have x0 : (0 : α) ≤ (P.IPERH : α) / (P.IPERPOINT : α) * ((|P.TRACE| : Int) : α) := by
    have h1 : (0 : α) < (P.IPERH : α) := by exact_mod_cast hH
    have h2 : (0 : α) < (P.IPERPOINT : α) := by exact_mod_cast hP
    have h3 : (0 : α) ≤ ((|P.TRACE| : Int) : α) := by exact_mod_cast abs_nonneg P.TRACE
    positivity
  obtain ⟨c, d⟩ := c_int_floor_nonneg _ x0
  rw [c] at b
  exact le_trans b (max_le (by omega) (le_refl _))

theorem C16_waypoint_count_witness :
    ∃ st2 : state ℝ, calculate (example_param 1 1 2 200)
        ⟨Real.sin, Real.cos, Real.arccos, Real.sqrt, Real.pi⟩ one_station hour_files 20
        (fun _ => (0, 0))
        (init_values (example_param 1 1 2 200)
          ⟨Real.sin, Real.cos, Real.arccos, Real.sqrt, Real.pi⟩ 1) = .ok st2 ∧
      st2.point ≤ ⌊(((example_param 1 1 2 200 : param ℝ).IPERH : Int) : ℝ) /
        (((example_param 1 1 2 200 : param ℝ).IPERPOINT : Int) : ℝ) *
        ((|(example_param 1 1 2 200 : param ℝ).TRACE| : Int) : ℝ)⌋ + 1 := by
  obtain ⟨st2, h, _⟩ := real_forward_run (fun _ => (0, 0))
  exact ⟨st2, h, (C16_waypoint_count (example_param 1 1 2 200)
    ⟨Real.sin, Real.cos, Real.arccos, Real.sqrt, Real.pi⟩ one_station hour_files 20
    (fun _ => (0, 0)) 1 st2 (by decide) (by decide) (by decide) h).2⟩

/-- C16 fails as stated: with IPERH = IPERPOINT = 1 and TRACE = 1 the run over
the reals with one station reporting in every hour returns and writes N = 2
waypoints (the start point and one computed waypoint), while
`ceil(IPERH / IPERPOINT * |TRACE|) = 1`. -/
theorem C16_counterexample :
    ∃ st2 : state ℝ, calculate (example_param 1 1 2 200)
        ⟨Real.sin, Real.cos, Real.arccos, Real.sqrt, Real.pi⟩ one_station hour_files 20
        (fun _ => (0, 0))
        (init_values (example_param 1 1 2 200)
          ⟨Real.sin, Real.cos, Real.arccos, Real.sqrt, Real.pi⟩ 1) = .ok st2 ∧
      (print_output_file st2).1 = 2 ∧
      ⌈(((example_param 1 1 2 200 : param ℝ).IPERH : Int) : ℝ) /
        (((example_param 1 1 2 200 : param ℝ).IPERPOINT : Int) : ℝ) *
        ((|(example_param 1 1 2 200 : param ℝ).TRACE| : Int) : ℝ)⌉ = 1 ∧
      ¬ ((print_output_file st2).1 ≤
        ⌈(((example_param 1 1 2 200 : param ℝ).IPERH : Int) : ℝ) /
          (((example_param 1 1 2 200 : param ℝ).IPERPOINT : Int) : ℝ) *
          ((|(example_param 1 1 2 200 : param ℝ).TRACE| : Int) : ℝ)⌉) := by
  obtain ⟨st2, h, p, _⟩ := real_forward_run (fun _ => (0, 0))
  have c : ⌈(((example_param 1 1 2 200 : param ℝ).IPERH : Int) : ℝ) /
        (((example_param 1 1 2 200 : param ℝ).IPERPOINT : Int) : ℝ) *
        ((|(example_param 1 1 2 200 : param ℝ).TRACE| : Int) : ℝ)⌉ = 1 := by
    simp [example_param]
  refine ⟨st2, h, p, c, ?_⟩
  rw [c]
  show ¬ st2.point ≤ 1
  rw [p]
  decide

end settle

section failing

variable {α : Type} [LinearOrderedField α] [FloorRing α]

theorem micro_step_failure (P : param α) (M : libm α) (H : heap α) (fuel : Nat) (j : Int)
    (w : Nat) (st : state α) (uv : α × α) (r : Nat × state α)
    (hb : (if Int.tmod ((st.point - 1) * P.IPERPOINT + j) P.IPERH = 0
        then hour_boundary P H fuel st w else .ok (w, st)) = .ok r)
    (hv : calculate_wind_vector P M
      ((Int.tmod ((st.point - 1) * P.IPERPOINT + j) P.IPERH : Int) / (P.IPERH : α))
      (convert_geo_to_cartesian M (r.2.lo r.2.point.toNat) (r.2.la r.2.point.toNat)) r.2 = none) :
    micro_step P M H fuel j (w, st, uv) =
      .ok ((r.1,
        { r.2 with
          point_max := r.2.point
          lo := Function.update r.2.lo r.2.point.toNat
            (r.2.lo r.2.point.toNat +
              r.2.distance_per_step * uv.1 / M.cos (r.2.la r.2.point.toNat))
          la := Function.update r.2.la r.2.point.toNat
            (r.2.la r.2.point.toNat + r.2.distance_per_step * uv.2) }, uv), true) := by
  unfold micro_step
  simp only [bind, Except.bind, pure, Except.pure]
  split_ifs at hb with c
  · rw [if_pos c, hb]
    simp only [hv, Option.isNone_none, if_true, Option.getD_none]
  · rw [if_neg c]
    cases hb
    simp only [hv, Option.isNone_none, if_true, Option.getD_none]

theorem iterate_loop_stop (P : param α) (M : libm α) (H : heap α) (fuel : Nat) (n : Nat)
    (j : Int) (x y : Nat × state α × (α × α))
    (h : micro_step P M H fuel j x = .ok (y, true)) :
    iterate_loop P M H fuel (n + 1) j x = .ok y := by
  unfold iterate_loop
  rw [h]
  rfl

theorem stalled_vector (M : libm α) (X : vec3 α) (hd : α) (hh : hd ≠ 0) :
    calculate_wind_vector half_hour_param M hd X (stalled_state M) = none := by
  have z : (slot_sums half_hour_param M (stalled_state M) X
      (stalled_state M).station_max).weight_sum = 0 := by
    show survivor_sum _ _ _ _ _ _ = 0
    unfold survivor_sum
    apply sum_none
    intro i hi hs
    have : i = 0 := Nat.lt_one_iff.1 hi
    subst this
    exact hs.1.1 rfl
  rw [calculate_wind_vector_eq, if_neg hh, if_neg (fun k => k.2 z)]

end failing

section failing2

variable {α : Type} [LinearOrderedField α] [FloorRing α]

/-- C17 (what the code does): when `calculate_wind_vector` fails at a
micro-step, `iterate` sets `point_max` to the current waypoint and makes no
further pass of its loop, but the failing micro-step still runs the position
update, with the values `(u, v)` left in the locals by the micro-step before
(`uv`).  In waypoint 1 of a forward trace with IPERH = IPERPOINT = 2, at the
second micro-step from lon = -1.8/6370 with `(u, v) = (1, 0)` left by the
first one and the station absent from hourly slot 1, the vector fails and the
particle is moved on to lon = -3.6/6370. -/
theorem C17_failed_step (P : param α) (M : libm α) (H : heap α) (fuel : Nat) (j : Int)
    (w : Nat) (st : state α) (uv : α × α) (H2 : heap ℝ) (n : Nat) :
    (∀ r, (if Int.tmod ((st.point - 1) * P.IPERPOINT + j) P.IPERH = 0
          then hour_boundary P H fuel st w else .ok (w, st)) = .ok r →
      calculate_wind_vector P M
        ((Int.tmod ((st.point - 1) * P.IPERPOINT + j) P.IPERH : Int) / (P.IPERH : α))
        (convert_geo_to_cartesian M (r.2.lo r.2.point.toNat) (r.2.la r.2.point.toNat)) r.2
          = none →
      iterate_loop P M H fuel (n + 1) j (w, st, uv) =
        .ok (r.1,
          { r.2 with
            point_max := r.2.point
            lo := Function.update r.2.lo r.2.point.toNat
              (r.2.lo r.2.point.toNat +
                r.2.distance_per_step * uv.1 / M.cos (r.2.la r.2.point.toNat))
            la := Function.update r.2.la r.2.point.toNat
              (r.2.la r.2.point.toNat + r.2.distance_per_step * uv.2) }, uv)) ∧
    (stalled_state (⟨Real.sin, Real.cos, Real.arccos, Real.sqrt, Real.pi⟩ : libm ℝ)).lo 1
      = -(1.8 / 6370) ∧
    ∃ st2, iterate_loop half_hour_param ⟨Real.sin, Real.cos, Real.arccos, Real.sqrt, Real.pi⟩
        H2 fuel (n + 1) 1
        (w, stalled_state ⟨Real.sin, Real.cos, Real.arccos, Real.sqrt, Real.pi⟩, (1, 0)) =
        .ok (w, st2, (1, 0)) ∧
      st2.point = 1 ∧ st2.point_max = 1 ∧ st2.lo 1 = -(3.6 / 6370) ∧ st2.la 1 = 0 := by
  refine ⟨fun r hb hv => iterate_loop_stop P M H fuel n j _ _
    (micro_step_failure P M H fuel j w st uv r hb hv), by simp [stalled_state], ?_⟩
  have hv := stalled_vector (⟨Real.sin, Real.cos, Real.arccos, Real.sqrt, Real.pi⟩ : libm ℝ)
    (convert_geo_to_cartesian ⟨Real.sin, Real.cos, Real.arccos, Real.sqrt, Real.pi⟩
      ((stalled_state ⟨Real.sin, Real.cos, Real.arccos, Real.sqrt, Real.pi⟩).lo 1)
      ((stalled_state ⟨Real.sin, Real.cos, Real.arccos, Real.sqrt, Real.pi⟩).la 1))
    ((((1 : Int)) : ℝ) / (((2 : Int)) : ℝ)) (by norm_num)
  have ms := micro_step_failure half_hour_param
    (⟨Real.sin, Real.cos, Real.arccos, Real.sqrt, Real.pi⟩ : libm ℝ) H2 fuel 1 w
    (stalled_state ⟨Real.sin, Real.cos, Real.arccos, Real.sqrt, Real.pi⟩) (1, 0)
    (w, stalled_state ⟨Real.sin, Real.cos, Real.arccos, Real.sqrt, Real.pi⟩) rfl hv
  refine ⟨_, iterate_loop_stop _ _ H2 fuel n 1 _ _ ms, rfl, rfl, ?_, ?_⟩
  · simp [stalled_state]
    norm_num
  · simp [stalled_state]

end failing2

section freq_basic

variable {α : Type} [LinearOrderedField α]

theorem foldl_update_each {β : Type} (F : Nat → β → β) (n : Nat) (g : Nat → β) :
    (List.range n).foldl (fun g i => Function.update g i (F i (g i))) g =
      fun i => if i < n then F i (g i) else g i := by
  induction n with
  | zero => funext i; simp
  | succ n ih =>
    rw [List.range_succ, List.foldl_append, ih]
    funext i
    simp only [List.foldl_cons, List.foldl_nil]
    by_cases h : i = n
    · subst h
      simp
    · rw [Function.update_noteq h]
      have : i < n + 1 ↔ i < n := by omega
      simp only [this]

theorem plot_frequency_ok (P : Frequency.param α) (st : Frequency.state α)
    (h : 0 ≤ P.SCALEMIN ∧ P.SCALEMIN < P.SCALEMAX ∧ P.SCALEMAX ≤ 100) :
    Frequency.plot_frequency P st = .ok { st with
      field_grid := fun i =>
        if i < st.field_max.toNat then
          (if (st.field_grid i - Frequency.get_w_max st * (P.SCALEMIN : α) / 100) /
              (Frequency.get_w_max st * ((P.SCALEMAX : α) - (P.SCALEMIN : α)) / 1000) > 10
            then 10
            else (st.field_grid i - Frequency.get_w_max st * (P.SCALEMIN : α) / 100) /
              (Frequency.get_w_max st * ((P.SCALEMAX : α) - (P.SCALEMIN : α)) / 1000))
        else st.field_grid i } := by
  unfold Frequency.plot_frequency
  have c : ¬ (P.SCALEMIN < 0 ∨ P.SCALEMIN ≥ P.SCALEMAX ∨ P.SCALEMAX > 100) := by omega
  simp only [if_neg c]
  have e : (Frequency.get_w_max st * (P.SCALEMAX : α) / 100 -
      Frequency.get_w_max st * (P.SCALEMIN : α) / 100) / 10 =
      Frequency.get_w_max st * ((P.SCALEMAX : α) - (P.SCALEMIN : α)) / 1000 := by ring
  rw [e]
  rw [foldl_update_each (fun _ v =>
    if (v - Frequency.get_w_max st * (P.SCALEMIN : α) / 100) /
        (Frequency.get_w_max st * ((P.SCALEMAX : α) - (P.SCALEMIN : α)) / 1000) > 10 then 10
    else (v - Frequency.get_w_max st * (P.SCALEMIN : α) / 100) /
        (Frequency.get_w_max st * ((P.SCALEMAX : α) - (P.SCALEMIN : α)) / 1000))]

end freq_basic

section freq_color

variable {α : Type} [LinearOrderedField α]

theorem foldl_update_const {β : Type} (F : Nat → β) (n : Nat) (g : Nat → β) :
    (List.range n).foldl (fun g i => Function.update g i (F i)) g =
      fun i => if i < n then F i else g i :=
  foldl_update_each (fun i _ => F i) n g

theorem init_colorclasses_all (P : Frequency.param α) (st : Frequency.state α)
    (h : P.COLOR = 0) :
    Frequency.init_colorclasses P st =
      .ok { st with colorclass := fun i => if i < 10 then (i : Int) else st.colorclass i } := by
  unfold Frequency.init_colorclasses
  rw [if_pos h, foldl_update_const (fun i => (i : Int))]
  rfl

theorem init_colorclasses_one (P : Frequency.param α) (st : Frequency.state α)
    (h1 : 1 ≤ P.COLOR) (h2 : P.COLOR ≤ 10) :
    Frequency.init_colorclasses P st =
      .ok { st with colorclass := fun i => if i < 10 then P.COLOR - 1 else st.colorclass i } := by
  unfold Frequency.init_colorclasses
  have c : (P.COLOR > 0 ∧ P.COLOR ≤ (Frequency.MAXCOLORCLASS : Int)) := by
    constructor
    · omega
    · show P.COLOR ≤ ((10 : Nat) : Int)
      omega
  rw [if_neg (by omega), if_pos c, foldl_update_const (fun _ => P.COLOR - 1)]
  rfl

theorem init_colorclasses_error (P : Frequency.param α) (st : Frequency.state α) :
    (∃ e, Frequency.init_colorclasses P st = .error e) ↔ (P.COLOR < 0 ∨ P.COLOR > 10) := by
  by_cases h0 : P.COLOR = 0
  · rw [init_colorclasses_all P st h0]
    exact ⟨fun ⟨e, he⟩ => (by cases he), fun k => by omega⟩
  · by_cases h1 : 1 ≤ P.COLOR ∧ P.COLOR ≤ 10
    · rw [init_colorclasses_one P st h1.1 h1.2]
      exact ⟨fun ⟨e, he⟩ => (by cases he), fun k => by omega⟩
    · unfold Frequency.init_colorclasses
      have c : ¬ (P.COLOR > 0 ∧ P.COLOR ≤ (Frequency.MAXCOLORCLASS : Int)) := by
        intro k
        have : P.COLOR ≤ ((10 : Nat) : Int) := k.2
        omega
      rw [if_neg h0, if_neg c]
      exact ⟨fun _ => by omega, fun _ => ⟨_, rfl⟩⟩

/-- C25: `init_colorclasses` stores `colorclass[i] = i` for all `i` in 0..9
when COLOR = 0 and `colorclass[i] = COLOR - 1` for all `i` in 0..9 when
1 <= COLOR <= 10; it fails iff COLOR < 0 or COLOR > 10; and on success every
entry 0..9 is an index 0..9 of the ten-entry palette `CLASS` that
`print_colorstyles` reads with it. -/
theorem C25_init_colorclasses (P : Frequency.param α) (st : Frequency.state α) (c : Int)
    (i : Nat) :
    (i < 10 → ∃ s, Frequency.init_colorclasses { P with COLOR := 0 } st = .ok s ∧
      s.colorclass i = (i : Int)) ∧
    (1 ≤ c → c ≤ 10 → i < 10 →
      ∃ s, Frequency.init_colorclasses { P with COLOR := c } st = .ok s ∧
        s.colorclass i = c - 1) ∧
    ((∃ e, Frequency.init_colorclasses P st = .error e) ↔ (P.COLOR < 0 ∨ P.COLOR > 10)) ∧
    (∀ s, Frequency.init_colorclasses P st = .ok s → i < 10 →
      0 ≤ s.colorclass i ∧ s.colorclass i ≤ 9) := by
  refine ⟨fun hi => ⟨_, init_colorclasses_all _ st rfl, by simp [hi]⟩,
    fun h1 h2 hi => ⟨_, init_colorclasses_one { P with COLOR := c } st h1 h2, by simp [hi]⟩,
    init_colorclasses_error P st, fun s hs hi => ?_⟩
  by_cases h0 : P.COLOR = 0
  · rw [init_colorclasses_all P st h0] at hs
    cases hs
    simp only [if_pos hi]
    omega
  · by_cases h1 : 1 ≤ P.COLOR ∧ P.COLOR ≤ 10
    · rw [init_colorclasses_one P st h1.1 h1.2] at hs
      cases hs
      simp only [if_pos hi]
      omega
    · have := (init_colorclasses_error P st).2 (by omega)
      obtain ⟨e, he⟩ := this
      rw [he] at hs
      cases hs

end freq_color

section freq_class

variable {α : Type} [LinearOrderedField α] [FloorRing α]

/-- C23 (amended): after `plot_frequency` with a valid scale and `w_max > 0`,
every cell of the grid holds `min((c - min) / dw, 10)` of its previous value
`c`, a number that is at most 10 but neither rounded nor bounded below; the
class `sort_and_plot` reads from it, its integer part, is
`clamp(floor((c - min) / dw), 0, 10)` when `c >= min` and at most 0 when
`c < min`.  Here `min = w_max * SCALEMIN / 100`, `max = w_max * SCALEMAX / 100`
and `dw = (max - min) / 10`. -/
theorem C23_classifier (P : Frequency.param α) (st : Frequency.state α) (i : Nat)
    (hs : 0 ≤ P.SCALEMIN ∧ P.SCALEMIN < P.SCALEMAX ∧ P.SCALEMAX ≤ 100)
    (hw : Frequency.get_w_max st > 0) (hi : i < st.field_max.toNat) :
    ∃ st2, Frequency.plot_frequency P st = .ok st2 ∧
      st2.field_grid i =
        min ((st.field_grid i - Frequency.get_w_max st * (P.SCALEMIN : α) / 100) /
          ((Frequency.get_w_max st * (P.SCALEMAX : α) / 100 -
            Frequency.get_w_max st * (P.SCALEMIN : α) / 100) / 10)) 10 ∧
      st2.field_grid i ≤ 10 ∧
      (Frequency.get_w_max st * (P.SCALEMIN : α) / 100 ≤ st.field_grid i →
        Frequency.cell_class st2 i =
          max 0 (min ⌊(st.field_grid i - Frequency.get_w_max st * (P.SCALEMIN : α) / 100) /
            ((Frequency.get_w_max st * (P.SCALEMAX : α) / 100 -
              Frequency.get_w_max st * (P.SCALEMIN : α) / 100) / 10)⌋ 10)) ∧
      (st.field_grid i < Frequency.get_w_max st * (P.SCALEMIN : α) / 100 →
        Frequency.cell_class st2 i ≤ 0) := by
  have e : (Frequency.get_w_max st * (P.SCALEMAX : α) / 100 -
      Frequency.get_w_max st * (P.SCALEMIN : α) / 100) / 10 =
      Frequency.get_w_max st * ((P.SCALEMAX : α) - (P.SCALEMIN : α)) / 1000 := by ring
  have dpos : Frequency.get_w_max st * ((P.SCALEMAX : α) - (P.SCALEMIN : α)) / 1000 > 0 := by
    have : (0 : α) < (P.SCALEMAX : α) - (P.SCALEMIN : α) := by
      have : ((P.SCALEMIN : Int) : α) < ((P.SCALEMAX : Int) : α) := by exact_mod_cast hs.2.1
      linarith
    positivity
  rw [e]
  refine ⟨_, plot_frequency_ok P st hs, ?_⟩
  simp only [if_pos hi, Frequency.cell_class]
  have s1 : Frequency.get_w_max st * (P.SCALEMIN : α) / 100 ≤ st.field_grid i →
      0 ≤ (st.field_grid i - Frequency.get_w_max st * (P.SCALEMIN : α) / 100) /
        (Frequency.get_w_max st * ((P.SCALEMAX : α) - (P.SCALEMIN : α)) / 1000) :=
    fun h => div_nonneg (by linarith) (le_of_lt dpos)
  have s2 : st.field_grid i < Frequency.get_w_max st * (P.SCALEMIN : α) / 100 →
      (st.field_grid i - Frequency.get_w_max st * (P.SCALEMIN : α) / 100) /
        (Frequency.get_w_max st * ((P.SCALEMAX : α) - (P.SCALEMIN : α)) / 1000) < 0 :=
    fun h => div_neg_of_neg_of_pos (by linarith) dpos
  generalize (st.field_grid i - Frequency.get_w_max st * (P.SCALEMIN : α) / 100) /
      (Frequency.get_w_max st * ((P.SCALEMAX : α) - (P.SCALEMIN : α)) / 1000) = v at *
  have st_eq : (if v > 10 then (10 : α) else v) = min v 10 := by
    split_ifs with c
    · exact (min_eq_right (le_of_lt c)).symm
    · exact (min_eq_left (not_lt.1 c)).symm
  rw [st_eq]
  refine ⟨rfl, min_le_right _ _, fun h => ?_, fun h => ?_⟩
  · have v0 := s1 h
    have m0 : 0 ≤ min v 10 := le_min v0 (by norm_num)
    have f10 : ⌊(10 : α)⌋ = 10 := by
      have := Int.floor_intCast (10 : Int) (α := α)
      simpa using this
    have fm : ⌊min v 10⌋ = min ⌊v⌋ 10 := by
      rcases le_total v 10 with c | c
      · have : ⌊v⌋ ≤ 10 := by rw [← f10]; exact Int.floor_mono c
        rw [min_eq_left c, min_eq_left this]
      · have : (10 : Int) ≤ ⌊v⌋ := by rw [← f10]; exact Int.floor_mono c
        rw [min_eq_right c, min_eq_right this, f10]
    rw [c_int_of_nonneg _ m0, fm]
    exact (max_eq_right (le_min (Int.floor_nonneg.2 v0) (by decide))).symm
  · have v0 := s2 h
    have : min v 10 = v := min_eq_left (by linarith)
    rw [this]
    unfold c_int
    rw [if_neg (by linarith)]
    exact Int.ceil_le.2 (by exact_mod_cast le_of_lt v0)

theorem C23_classifier_witness :
    ∃ st2, Frequency.plot_frequency (Frequency.default_param : Frequency.param ℚ)
        Frequency.two_cell_state = .ok st2 ∧ st2.field_grid 1 ≤ 10 := by
  have w : Frequency.get_w_max (Frequency.two_cell_state : Frequency.state ℚ) = 3 := by
    simp [Frequency.get_w_max, Frequency.two_cell_state, Frequency.zero_state,
      List.range_succ]
  obtain ⟨st2, h, _, b, _⟩ := C23_classifier (Frequency.default_param : Frequency.param ℚ)
    Frequency.two_cell_state 1 (by decide) (by rw [w]; norm_num) (by decide)
  exact ⟨st2, h, b⟩

/-- C23 fails as stated: with the default scale 0..100 and a grid holding the
sums 1 and 3 (`w_max = 3`, `dw = 3/10`), the cell with the sum 1 holds 10/3
after `plot_frequency`, which is not an integer and not the band
`clamp(floor(10/3), 0, 10) = 3`. -/
theorem C23_counterexample :
    ∃ st2, Frequency.plot_frequency (Frequency.default_param : Frequency.param ℚ)
        Frequency.two_cell_state = .ok st2 ∧
      st2.field_grid 0 = 10 / 3 ∧
      max 0 (min ⌊((Frequency.two_cell_state : Frequency.state ℚ).field_grid 0 -
          Frequency.get_w_max (Frequency.two_cell_state : Frequency.state ℚ) *
            (((Frequency.default_param : Frequency.param ℚ).SCALEMIN : Int) : ℚ) / 100) /
        ((Frequency.get_w_max (Frequency.two_cell_state : Frequency.state ℚ) *
            (((Frequency.default_param : Frequency.param ℚ).SCALEMAX : Int) : ℚ) / 100 -
          Frequency.get_w_max (Frequency.two_cell_state : Frequency.state ℚ) *
            (((Frequency.default_param : Frequency.param ℚ).SCALEMIN : Int) : ℚ) / 100) / 10)⌋
        10) = 3 ∧
      st2.field_grid 0 ≠ ((3 : Int) : ℚ) ∧
      ∀ k : Int, st2.field_grid 0 ≠ (k : ℚ) := by
  have w : Frequency.get_w_max (Frequency.two_cell_state : Frequency.state ℚ) = 3 := by
    simp [Frequency.get_w_max, Frequency.two_cell_state, Frequency.zero_state,
      List.range_succ]
  refine ⟨_, plot_frequency_ok (Frequency.default_param : Frequency.param ℚ)
    Frequency.two_cell_state (by decide), ?_, ?_, ?_, ?_⟩
  · rw [w]
    norm_num [Frequency.two_cell_state, Frequency.zero_state, Frequency.default_param]
  · rw [w]
    have f : ⌊((Frequency.two_cell_state : Frequency.state ℚ).field_grid 0 -
          3 * (((Frequency.default_param : Frequency.param ℚ).SCALEMIN : Int) : ℚ) / 100) /
        ((3 * (((Frequency.default_param : Frequency.param ℚ).SCALEMAX : Int) : ℚ) / 100 -
          3 * (((Frequency.default_param : Frequency.param ℚ).SCALEMIN : Int) : ℚ) / 100) / 10)⌋
        = 3 := by
      rw [Int.floor_eq_iff]
      norm_num [Frequency.two_cell_state, Frequency.zero_state, Frequency.default_param]
    rw [f]
    decide
  · rw [w]
    norm_num [Frequency.two_cell_state, Frequency.zero_state, Frequency.default_param]
  · intro k hk
    rw [w] at hk
    have e : (10 / 3 : ℚ) = (k : ℚ) := by
      rw [← hk]
      norm_num [Frequency.two_cell_state, Frequency.zero_state, Frequency.default_param]
    have h3 : (10 : ℚ) = 3 * (k : ℚ) := by linarith
    have h4 : (10 : Int) = 3 * k := by exact_mod_cast h3
    omega

end freq_class

section freq_weight

theorem real_distance_equator (a b : ℝ) (h : |a - b| ≤ 180) :
    Frequency.distance_in_deg ⟨Real.sin, Real.cos, Real.arccos, Real.sqrt, Real.pi⟩
      (convert_geo_to_cartesian ⟨Real.sin, Real.cos, Real.arccos, Real.sqrt, Real.pi⟩
        (deg2rad ⟨Real.sin, Real.cos, Real.arccos, Real.sqrt, Real.pi⟩ a)
        (deg2rad ⟨Real.sin, Real.cos, Real.arccos, Real.sqrt, Real.pi⟩ 0))
      (convert_geo_to_cartesian ⟨Real.sin, Real.cos, Real.arccos, Real.sqrt, Real.pi⟩
        (deg2rad ⟨Real.sin, Real.cos, Real.arccos, Real.sqrt, Real.pi⟩ b)
        (deg2rad ⟨Real.sin, Real.cos, Real.arccos, Real.sqrt, Real.pi⟩ 0)) = |a - b| := by
  have hpi := Real.pi_pos
  show Real.arccos (Real.cos (0 * Real.pi / 180) * Real.cos (a * Real.pi / 180) *
      (Real.cos (0 * Real.pi / 180) * Real.cos (b * Real.pi / 180)) +
      Real.cos (0 * Real.pi / 180) * Real.sin (a * Real.pi / 180) *
      (Real.cos (0 * Real.pi / 180) * Real.sin (b * Real.pi / 180)) +
      Real.sin (0 * Real.pi / 180) * Real.sin (0 * Real.pi / 180)) * 180 / Real.pi = |a - b|
  have e : Real.cos (0 * Real.pi / 180) * Real.cos (a * Real.pi / 180) *
      (Real.cos (0 * Real.pi / 180) * Real.cos (b * Real.pi / 180)) +
      Real.cos (0 * Real.pi / 180) * Real.sin (a * Real.pi / 180) *
      (Real.cos (0 * Real.pi / 180) * Real.sin (b * Real.pi / 180)) +
      Real.sin (0 * Real.pi / 180) * Real.sin (0 * Real.pi / 180) =
      Real.cos (|a - b| * Real.pi / 180) := by
    have : |a - b| * Real.pi / 180 = |a * Real.pi / 180 - b * Real.pi / 180| := by
      rw [show a * Real.pi / 180 - b * Real.pi / 180 = (a - b) * (Real.pi / 180) by ring,
        abs_mul, abs_of_pos (by positivity : (0 : ℝ) < Real.pi / 180)]
      ring
    rw [this, Real.cos_abs, Real.cos_sub]
    simp
  rw [e, Real.arccos_cos (by positivity)]
  · field_simp
  · have : |a - b| * Real.pi ≤ 180 * Real.pi := mul_le_mul_of_nonneg_right h (le_of_lt hpi)
    linarith

end freq_weight

section freq_box

variable {α : Type} [LinearOrderedField α]

theorem row_min_max_eq (st : Frequency.state α) (r : α × α) :
    Frequency.row_min_max st r =
      { st with
        lo_min := min st.lo_min r.1
        lo_max := max st.lo_max r.1
        la_min := min st.la_min r.2
        la_max := max st.la_max r.2 } := by
  unfold Frequency.row_min_max
  have a : (if r.1 < st.lo_min then r.1 else st.lo_min) = min st.lo_min r.1 := by
    split_ifs with c
    · exact (min_eq_right (le_of_lt c)).symm
    · exact (min_eq_left (not_lt.1 c)).symm
  have b : (if r.1 > st.lo_max then r.1 else st.lo_max) = max st.lo_max r.1 := by
    split_ifs with c
    · exact (max_eq_right (le_of_lt c)).symm
    · exact (max_eq_left (not_lt.1 c)).symm
  have c : (if r.2 < st.la_min then r.2 else st.la_min) = min st.la_min r.2 := by
    split_ifs with c
    · exact (min_eq_right (le_of_lt c)).symm
    · exact (min_eq_left (not_lt.1 c)).symm
  have d : (if r.2 > st.la_max then r.2 else st.la_max) = max st.la_max r.2 := by
    split_ifs with c
    · exact (max_eq_right (le_of_lt c)).symm
    · exact (max_eq_left (not_lt.1 c)).symm
  rw [← a, ← b, ← c, ← d]
  by_cases h1 : r.1 < st.lo_min <;> by_cases h2 : r.1 > st.lo_max <;>
    by_cases h3 : r.2 < st.la_min <;> by_cases h4 : r.2 > st.la_max <;>
    simp only [h1, h2, h3, h4, if_true, if_false]

theorem rows_min_max_eq (rows : List (α × α)) :
    ∀ st : Frequency.state α, rows.foldl Frequency.row_min_max st =
      { st with
        lo_min := rows.foldl (fun a r => min a r.1) st.lo_min
        lo_max := rows.foldl (fun a r => max a r.1) st.lo_max
        la_min := rows.foldl (fun a r => min a r.2) st.la_min
        la_max := rows.foldl (fun a r => max a r.2) st.la_max } := by
  induction rows with
  | nil => intro st; rfl
  | cons r rows ih =>
    intro st
    rw [List.foldl_cons, ih, row_min_max_eq]
    rfl

theorem files_min_max_eq (files : List (List (α × α))) :
    ∀ st : Frequency.state α,
      (files.map some).foldlM (fun s f => Frequency.file_la_lo_min_max f s) st =
        .ok (files.flatten.foldl Frequency.row_min_max st) := by
  induction files with
  | nil => intro st; rfl
  | cons f files ih =>
    intro st
    rw [List.map_cons, List.foldlM_cons]
    have e : Frequency.file_la_lo_min_max (some f) st =
        .ok (f.foldl Frequency.row_min_max st) := rfl
    rw [e]
    show (List.map some files).foldlM (fun s f => Frequency.file_la_lo_min_max f s)
      (f.foldl Frequency.row_min_max st) = _
    rw [ih, List.flatten_cons, List.foldl_append]

theorem get_lo_la_min_max_eq (M : libm α) (files : List (List (α × α)))
    (st : Frequency.state α) :
    Frequency.get_lo_la_min_max M (files.map some) st =
      .ok { st with
        lo_min := rad2deg M (files.flatten.foldl (fun a r => min a r.1) 2)
        la_min := rad2deg M (files.flatten.foldl (fun a r => min a r.2) 2)
        lo_max := rad2deg M (files.flatten.foldl (fun a r => max a r.1) (-2))
        la_max := rad2deg M (files.flatten.foldl (fun a r => max a r.2) (-2)) } := by
  unfold Frequency.get_lo_la_min_max
  simp only [files_min_max_eq, rows_min_max_eq]

end freq_box

/-- C29 (what the code does): over files that can be opened,
`get_lo_la_min_max` returns, in degrees, the minimum of 2 and all longitudes,
the minimum of 2 and all latitudes, the maximum of -2 and all longitudes and
the maximum of -2 and all latitudes: the start values 2 and -2 (radians) of
the search take part in the result.  For the one waypoint lon = 3, lat = 0
(radians, with 3 < pi) it returns `lo_min = rad2deg 2`, which is less than the
only longitude `rad2deg 3`. -/
theorem C29_bounding_box {α : Type} [LinearOrderedField α] (M : libm α)
    (files : List (List (α × α))) (st : Frequency.state α) (st0 : Frequency.state ℝ) :
    Frequency.get_lo_la_min_max M (files.map some) st =
      .ok { st with
        lo_min := rad2deg M (files.flatten.foldl (fun a r => min a r.1) 2)
        la_min := rad2deg M (files.flatten.foldl (fun a r => min a r.2) 2)
        lo_max := rad2deg M (files.flatten.foldl (fun a r => max a r.1) (-2))
        la_max := rad2deg M (files.flatten.foldl (fun a r => max a r.2) (-2)) } ∧
    (-Real.pi ≤ (3 : ℝ) ∧ (3 : ℝ) ≤ Real.pi) ∧
    ∃ st2, Frequency.get_lo_la_min_max ⟨Real.sin, Real.cos, Real.arccos, Real.sqrt, Real.pi⟩
        [some [((3 : ℝ), (0 : ℝ))]] st0 = .ok st2 ∧
      st2.lo_min = rad2deg ⟨Real.sin, Real.cos, Real.arccos, Real.sqrt, Real.pi⟩ 2 ∧
      st2.lo_max = rad2deg ⟨Real.sin, Real.cos, Real.arccos, Real.sqrt, Real.pi⟩ 3 ∧
      st2.la_min = rad2deg ⟨Real.sin, Real.cos, Real.arccos, Real.sqrt, Real.pi⟩ 0 ∧
      st2.la_max = rad2deg ⟨Real.sin, Real.cos, Real.arccos, Real.sqrt, Real.pi⟩ 0 ∧
      st2.lo_min < rad2deg ⟨Real.sin, Real.cos, Real.arccos, Real.sqrt, Real.pi⟩ 3 := by
  have hpi := Real.pi_gt_three
  refine ⟨get_lo_la_min_max_eq M files st, ⟨by linarith, by linarith⟩, ?_⟩
  have e := get_lo_la_min_max_eq (⟨Real.sin, Real.cos, Real.arccos, Real.sqrt, Real.pi⟩ : libm ℝ)
    [[((3 : ℝ), (0 : ℝ))]] st0
  simp only [List.map_cons, List.map_nil] at e
  refine ⟨_, e, ?_, ?_, ?_, ?_, ?_⟩
  · simp only [List.flatten, List.append_nil, List.foldl_cons, List.foldl_nil]
    rw [show min (2 : ℝ) 3 = 2 by norm_num]
  · simp only [List.flatten, List.append_nil, List.foldl_cons, List.foldl_nil]
    rw [show max (-2 : ℝ) 3 = 3 by norm_num]
  · simp only [List.flatten, List.append_nil, List.foldl_cons, List.foldl_nil]
    rw [show min (2 : ℝ) 0 = 0 by norm_num]
  · simp only [List.flatten, List.append_nil, List.foldl_cons, List.foldl_nil]
    rw [show max (-2 : ℝ) 0 = 0 by norm_num]
  · show rad2deg _ ((List.flatten [[((3 : ℝ), (0 : ℝ))]]).foldl (fun a r => min a r.1) 2) < _
    simp only [List.flatten, List.append_nil, List.foldl_cons, List.foldl_nil, rad2deg]
    have : min (2 : ℝ) 3 = 2 := by norm_num
    rw [this]
    have hp := Real.pi_pos
    rw [div_lt_div_right hp]
    norm_num

section freq_empty

variable {α : Type} [LinearOrderedField α]

/-- C28 (amended): with an empty input directory `get_lo_la_min_max` returns
the start values of its search converted to degrees, `lo_min = la_min =
rad2deg(2)` and `lo_max = la_max = rad2deg(-2)`; on this box `count_squares`
returns, whatever its step budget, with `x_field = 0` and `y_field = 0`, and
`init_values` returns with a grid of `field_max = 0` cells whenever COLOR is
0..10. -/
theorem C28_empty_directory (P : Frequency.param α) (M : libm α) (st : Frequency.state α)
    (fuel : Nat) (hpi : 0 < M.pi) :
    Frequency.get_lo_la_min_max M [] st =
      .ok { st with lo_min := rad2deg M 2, la_min := rad2deg M 2,
                    lo_max := rad2deg M (-2), la_max := rad2deg M (-2) } ∧
    Frequency.count_squares P M fuel
        { st with lo_min := rad2deg M 2, la_min := rad2deg M 2,
                  lo_max := rad2deg M (-2), la_max := rad2deg M (-2) } =
      .ok { st with lo_min := rad2deg M 2, la_min := rad2deg M 2,
                    lo_max := rad2deg M (-2), la_max := rad2deg M (-2),
                    x_field := 0, y_field := 0 } ∧
    (0 ≤ P.COLOR → P.COLOR ≤ 10 →
      ∃ st2, Frequency.init_values P M [] fuel = .ok st2 ∧
        st2.x_field = 0 ∧ st2.y_field = 0 ∧ st2.field_max = 0) := by
  have lt : ¬ rad2deg M 2 ≤ rad2deg M (-2) := by
    unfold rad2deg
    rw [not_le, div_lt_div_right hpi]
    norm_num
  have cs : ∀ (lm fm xf yf : Int) (fg : Nat → α) (cc : Nat → Int),
      Frequency.count_squares P M fuel
        ⟨lm, fm, xf, yf, fg, rad2deg M 2, rad2deg M 2, rad2deg M (-2), rad2deg M (-2), cc⟩ =
      .ok ⟨lm, fm, 0, 0, fg, rad2deg M 2, rad2deg M 2, rad2deg M (-2), rad2deg M (-2), cc⟩ := by
    intro lm fm xf yf fg cc
    unfold Frequency.count_squares
    cases fuel with
    | zero => simp only [Frequency.count_rows, if_neg lt]
    | succ n => simp only [Frequency.count_rows, if_neg lt]
  refine ⟨rfl, cs _ _ _ _ _ _, fun h0 h1 => ?_⟩
  have ic : ∃ s, Frequency.init_colorclasses P (Frequency.zero_state : Frequency.state α)
      = .ok s := by
    by_cases c : P.COLOR = 0
    · exact ⟨_, init_colorclasses_all P _ c⟩
    · exact ⟨_, init_colorclasses_one P _ (by omega) h1⟩
  obtain ⟨s, hs⟩ := ic
  unfold Frequency.init_values
  have g : ∀ s : Frequency.state α, Frequency.get_lo_la_min_max M [] s =
      .ok ⟨s.list_max, s.field_max, s.x_field, s.y_field, s.field_grid, rad2deg M 2,
        rad2deg M 2, rad2deg M (-2), rad2deg M (-2), s.colorclass⟩ := fun _ => rfl
  simp only [bind, Except.bind, pure, Except.pure, hs, g, cs]
  exact ⟨_, rfl, rfl, rfl, by simp⟩

theorem C28_empty_directory_witness :
    ∃ st2, Frequency.init_values (Frequency.default_param : Frequency.param ℚ) rat_libm [] 0
        = .ok st2 ∧ st2.x_field = 0 ∧ st2.y_field = 0 ∧ st2.field_max = 0 :=
  (C28_empty_directory (Frequency.default_param : Frequency.param ℚ) rat_libm
    Frequency.zero_state 0 (by norm_num [rat_libm])).2.2 (by decide) (by decide)

end freq_empty

/-- C28 fails as stated: with an empty directory the bounding box that
`get_lo_la_min_max` leaves is not the start values 2, 2, -2, -2 of its search
but their conversion to degrees; `lo_min` is `2 * 180 / pi`, which is not 2. -/
theorem C28_counterexample :
    ∃ st2, Frequency.get_lo_la_min_max ⟨Real.sin, Real.cos, Real.arccos, Real.sqrt, Real.pi⟩ []
        (Frequency.zero_state : Frequency.state ℝ) = .ok st2 ∧
      st2.lo_min = 2 * 180 / Real.pi ∧ st2.lo_min ≠ 2 ∧ st2.la_max ≠ -2 := by
  have hpi := Real.pi_gt_three
  have hp4 := Real.pi_le_four
  refine ⟨_, rfl, rfl, ?_, ?_⟩
  · show (2 : ℝ) * 180 / Real.pi ≠ 2
    intro h
    rw [div_eq_iff (by linarith)] at h
    linarith
  · show (-2 : ℝ) * 180 / Real.pi ≠ -2
    intro h
    rw [div_eq_iff (by linarith)] at h
    linarith

section samples

variable {α : Type} [LinearOrderedField α] [FloorRing α]

theorem set_wind_twice (h : heap α) (a : Nat) (x y : Option (Nat → wind α)) :
    set_wind (set_wind h a x) a y = set_wind h a y := by
  unfold set_wind
  simp only [Function.update_same, Function.update_idem]

theorem sample_line_first (P : param α) (M : libm α) (st : state α) (hp : heap α × Nat)
    (A B C : Int) (hw : (hp.1.node hp.2).wind = none) :
    read_file_line P M st hp (.sample A B C) =
      (set_wind hp.1 hp.2 (some (store_sample P M st (fun _ => ⟨0, 0, 0⟩) A B C)), hp.2) := by
  simp only [read_file_line, hw]

theorem sample_line_next (P : param α) (M : libm α) (st : state α) (h : heap α) (a : Nat)
    (w : Nat → wind α) (A B C : Int) :
    read_file_line P M st (set_wind h a (some w), a) (.sample A B C) =
      (set_wind h a (some (store_sample P M st w A B C)), a) := by
  have e : ((set_wind h a (some w)).node a).wind = some w := by
    simp [set_wind]
  simp only [read_file_line, e, set_wind_twice]

theorem sample_lines_fold (P : param α) (M : libm α) (st : state α) (h : heap α) (a : Nat)
    (samples : List (Int × Int × Int)) :
    ∀ w : Nat → wind α,
      (samples.map (fun s => line.sample s.1 s.2.1 s.2.2)).foldl (read_file_line P M st)
        (set_wind h a (some w), a) =
      (set_wind h a (some (samples.foldl
        (fun w s => store_sample P M st w s.1 s.2.1 s.2.2) w)), a) := by
  induction samples with
  | nil => intro w; rfl
  | cons s samples ih =>
    intro w
    rw [List.map_cons, List.foldl_cons, sample_line_next, ih]
    rfl

theorem store_sample_at (P : param α) (M : libm α) (st : state α) (w : Nat → wind α)
    (A B C : Int) (i : Nat) :
    store_sample P M st w A B C i =
      if i < st.station_max ∧ (st.station_list i).nr = A then
        ⟨(if (st.station_list i).unit = 2 then (C : α) * 1.8532 / 3.6 * P.SPEED
            else (C : α) * P.SPEED) * M.sin (((B : α) + P.ROT) * M.pi / 180),
          (if (st.station_list i).unit = 2 then (C : α) * 1.8532 / 3.6 * P.SPEED
            else (C : α) * P.SPEED) * M.cos (((B : α) + P.ROT) * M.pi / 180), 1⟩
      else w i := by
  have h := store_sample_fold P M st A B C i st.station_max w
  have e : store_sample P M st w A B C i = _ := h
  rw [e]
  split_ifs <;> simp_all [MILE, deg2rad]

theorem store_sample_absent (P : param α) (M : libm α) (st : state α) (i : Nat)
    (samples : List (Int × Int × Int)) :
    ∀ w : Nat → wind α,
      (∀ s ∈ samples, ¬ (i < st.station_max ∧ (st.station_list i).nr = s.1)) →
      samples.foldl (fun w s => store_sample P M st w s.1 s.2.1 s.2.2) w i = w i := by
  induction samples with
  | nil => intro w _; rfl
  | cons s samples ih =>
    intro w h
    rw [List.foldl_cons, ih _ (fun t ht => h t (List.mem_cons_of_mem _ ht)),
      store_sample_at, if_neg (h s (List.mem_cons_self _ _))]

/-- C21: for a station line `A B C` (id, direction in degrees, speed),
`read_file` stores for every table station with the number `A` the sample with
`p = 1`, `u = s * sin(d)`, `v = s * cos(d)`, where `s = C * SPEED` for a
station of unit m/s, `s = C * 1.8532 / 3.6 * SPEED` for a station of unit
knots (2), and `d = (B + ROT) * pi / 180`, and leaves every other sample as it
is; so a line whose id is not in the table changes no sample.  The first
station line of a block allocates the zeroed station array, so after the
station lines of a block every table station whose number is on none of them
is absent: `p = 0`, `u = v = 0`. -/
theorem C21_wind_sample (P : param α) (M : libm α) (st : state α) (w : Nat → wind α)
    (A B C : Int) (i : Nat) (hp : heap α × Nat) (s : Int × Int × Int)
    (samples : List (Int × Int × Int)) :
    store_sample P M st w A B C i =
      (if i < st.station_max ∧ (st.station_list i).nr = A then
        ⟨(if (st.station_list i).unit = 2 then (C : α) * 1.8532 / 3.6 * P.SPEED
            else (C : α) * P.SPEED) * M.sin (((B : α) + P.ROT) * M.pi / 180),
          (if (st.station_list i).unit = 2 then (C : α) * 1.8532 / 3.6 * P.SPEED
            else (C : α) * P.SPEED) * M.cos (((B : α) + P.ROT) * M.pi / 180), 1⟩
      else w i) ∧
    ((∀ j, j < st.station_max → (st.station_list j).nr ≠ A) →
      store_sample P M st w A B C = w) ∧
    ((hp.1.node hp.2).wind = none →
      ∃ W, (((s :: samples).map (fun s => line.sample s.1 s.2.1 s.2.2)).foldl
          (read_file_line P M st) hp) =
          (set_wind hp.1 hp.2 (some W), hp.2) ∧
        W = (s :: samples).foldl (fun w s => store_sample P M st w s.1 s.2.1 s.2.2)
          (fun _ => ⟨0, 0, 0⟩) ∧
        ((∀ t ∈ s :: samples, ¬ (i < st.station_max ∧ (st.station_list i).nr = t.1)) →
          W i = ⟨0, 0, 0⟩)) := by
  refine ⟨store_sample_at P M st w A B C i, fun h => ?_, fun hw => ⟨_, ?_, rfl, fun h => ?_⟩⟩
  · funext j
    rw [store_sample_at, if_neg (fun k => h j k.1 k.2)]
  · rw [List.map_cons, List.foldl_cons, sample_line_first P M st hp s.1 s.2.1 s.2.2 hw,
      sample_lines_fold]
    rfl
  · exact store_sample_absent P M st i (s :: samples) _ h

end samples

section freq_count

variable {α : Type} [LinearOrderedField α] [FloorRing α]

end freq_count

section freq_count2

variable {α : Type} [LinearOrderedField α] [FloorRing α]

theorem init_field_zero (n : Int) : Frequency.init_field (fun _ => (0 : α)) n = fun _ => 0 := by
  unfold Frequency.init_field
  rw [foldl_update_const (fun _ => (0 : α))]
  funext i
  split_ifs <;> rfl

end freq_count2

section raster_inv

variable {α : Type} [LinearOrderedField α] [FloorRing α]

theorem plot_cell_step (st : Frequency.state α) (current : Frequency.trajectory α)
    (w x y : α) (m : Nat → α) (i : Nat) :
    Frequency.plot_cell st current w x y m i = m i ∨
      (m i = 0 ∧ Frequency.plot_cell st current w x y m i = w) := by
  unfold Frequency.plot_cell
  by_cases c : Frequency.check_plot_area x y current
  · rw [if_pos c]
    by_cases z : m (c_int y * st.x_field + c_int x).toNat = 0
    · simp only [z, if_true, zero_add]
      by_cases e : i = (c_int y * st.x_field + c_int x).toNat
      · subst e
        right
        simp only [Function.update_same]
        exact ⟨z, trivial⟩
      · left
        simp only [Function.update_noteq e]
    · rw [if_neg z]
      exact Or.inl rfl
  · rw [if_neg c]
    exact Or.inl rfl

theorem walk_step (bound step w : α) (body : α → (Nat → α) → (Nat → α))
    (hb : ∀ v m i, body v m i = m i ∨ (m i = 0 ∧ body v m i = w)) :
    ∀ (n : Nat) (v : α) (m m2 : Nat → α), Frequency.walk bound step body n v m = .ok m2 →
      ∀ i, m2 i = m i ∨ (m i = 0 ∧ m2 i = w) := by
  intro n
  induction n with
  | zero =>
    intro v m m2 h i
    unfold Frequency.walk at h
    split_ifs at h
    cases h
    exact Or.inl rfl
  | succ n ih =>
    intro v m m2 h i
    unfold Frequency.walk at h
    split_ifs at h
    · rcases ih _ _ _ h i with a | ⟨a, b⟩
      · rw [a]
        exact hb v m i
      · rcases hb v m i with c | ⟨c, d⟩
        · exact Or.inr ⟨by rw [← c]; exact a, b⟩
        · exact Or.inr ⟨c, b⟩
    · cases h
      exact Or.inl rfl

theorem plot_to_next_point_step (P : Frequency.param α) (M : libm α) (fuel : Nat)
    (m m2 : Nat → α) (current : Frequency.trajectory α) (st : Frequency.state α)
    (h : Frequency.plot_to_next_point P M fuel m current st = .ok m2) (i : Nat) :
    m2 i = m i ∨ (m i = 0 ∧ m2 i = Frequency.get_weight P M current) := by
  unfold Frequency.plot_to_next_point at h
  dsimp only at h
  split_ifs at h
  all_goals exact walk_step _ _ _ _ (fun v m i => plot_cell_step st current _ _ _ m i) _ _ _ _ h i

theorem read_trajectory_step (P : Frequency.param α) (M : libm α) (fuel : Nat)
    (st : Frequency.state α) (rows : List (α × α)) :
    ∀ (current : Frequency.trajectory α) (m : Nat → α)
      (r : Frequency.trajectory α × (Nat → α)),
      Frequency.read_trajectory P M fuel st current m rows = .ok r →
      ∀ i, r.2 i = m i ∨ (m i = 0 ∧ ∃ c ∈ Frequency.segments M current rows,
        r.2 i = Frequency.get_weight P M c) := by
  induction rows with
  | nil =>
    intro current m r h i
    cases h
    exact Or.inl rfl
  | cons row rows ih =>
    intro current m r h i
    unfold Frequency.read_trajectory at h
    rw [List.foldlM_cons] at h
    simp only [bind, Except.bind] at h
    split at h
    · cases h
    · rename_i x hx
      unfold Frequency.read_trajectory_row at hx
      simp only at hx
      split at hx
      · cases hx
      · rename_i m1 hm
        cases hx
        have s1 := plot_to_next_point_step P M fuel m m1 _ st hm i
        have s2 := ih _ m1 r h i
        simp only [Frequency.segments, List.mem_cons]
        rcases s2 with a | ⟨a, c, hc, b⟩
        · rcases s1 with d | ⟨d, e⟩
          · exact Or.inl (a.trans d)
          · exact Or.inr ⟨d, _, Or.inl rfl, a.trans e⟩
        · rcases s1 with d | ⟨d, e⟩
          · exact Or.inr ⟨by rw [← d]; exact a, c, Or.inr hc, b⟩
          · exact Or.inr ⟨d, c, Or.inr hc, b⟩

end raster_inv

section raster_runs

theorem walk_once {α : Type} [LinearOrderedField α] (bound step : α)
    (body : α → (Nat → α) → (Nat → α)) (n : Nat) (v : α) (m : Nat → α)
    (h1 : v < bound) (h2 : ¬ v + step < bound) :
    Frequency.walk bound step body (n + 1) v m = .ok (body v m) := by
  unfold Frequency.walk
  rw [if_pos h1]
  cases n <;> (unfold Frequency.walk; rw [if_neg h2])

theorem walk_none {α : Type} [LinearOrderedField α] (bound step : α)
    (body : α → (Nat → α) → (Nat → α)) (n : Nat) (v : α) (m : Nat → α)
    (h1 : ¬ v < bound) :
    Frequency.walk bound step body n v m = .ok m := by
  cases n <;> (unfold Frequency.walk; rw [if_neg h1])

/-- One segment along the equator that is shorter than one mesh: a single
pass marks the cell of its western end with the distance of its midpoint to
the start point. -/
theorem equator_segment (cur : Frequency.trajectory ℝ) (m : Nat → ℝ) (fuel : Nat) (k : Nat)
    (hxb : cur.x_begin = 0) (hyb : cur.y_begin = 0) (hyo : cur.y_old = 0)
    (hyn : cur.y_new = 0) (hxm : cur.x_midpoint = (cur.x_old + cur.x_new) / 2)
    (hym : cur.y_midpoint = 0) (h1 : cur.x_plot_min = 0) (h2 : cur.y_plot_min = 0)
    (h3 : cur.x_plot_max = 4) (h4 : cur.y_plot_max = 1)
    (ha : 0 ≤ cur.x_old) (hab : cur.x_old < cur.x_new) (hb : cur.x_new ≤ 6)
    (hs : cur.x_new - cur.x_old ≤ 3)
    (hk : (k : ℝ) ≤ cur.x_old * 111.178 / 222 ∧ cur.x_old * 111.178 / 222 < k + 1)
    (hz : m k = 0) :
    Frequency.plot_to_next_point (Frequency.coarse_param : Frequency.param ℝ)
      ⟨Real.sin, Real.cos, Real.arccos, Real.sqrt, Real.pi⟩ (fuel + 1) m cur
      (Frequency.strip_state : Frequency.state ℝ) =
      .ok (Function.update m k ((cur.x_old + cur.x_new) / 2)) := by
  have hw : Frequency.get_weight (Frequency.coarse_param : Frequency.param ℝ)
      ⟨Real.sin, Real.cos, Real.arccos, Real.sqrt, Real.pi⟩ cur =
      (cur.x_old + cur.x_new) / 2 := by
    unfold Frequency.get_weight
    rw [hxm, hym, hxb, hyb]
    have e := real_distance_equator ((cur.x_old + cur.x_new) / 2) 0
      (by rw [sub_zero, abs_of_nonneg (by linarith)]; linarith)
    rw [sub_zero, abs_of_nonneg (by linarith)] at e
    simp only [Frequency.coarse_param, if_true]
    exact e
  have hc : Real.cos (0 * Real.pi / 180) = 1 := by rw [zero_mul, zero_div, Real.cos_zero]
  unfold Frequency.plot_to_next_point
  rw [hw]
  simp only [hyo, hyn, deg2rad, hc, mul_one, Frequency.strip_state, Frequency.zero_state,
    Frequency.coarse_param, Frequency.default_param, Frequency.DEGDISTANCE, sub_zero, zero_div,
    if_true, Int.cast_ofNat]
  have hx : ¬ cur.x_new / (222 / 111.178) < cur.x_old / (222 / 111.178) := by
    rw [not_lt]
    exact div_le_div_of_nonneg_right hab.le (by norm_num)
  rw [if_neg hx]
  simp only []
  rw [walk_once]
  · unfold Frequency.plot_cell
    have hfl : c_int (cur.x_old / (222 / 111.178)) = (k : Int) := by
      have e : cur.x_old / (222 / 111.178) = cur.x_old * 111.178 / 222 := by
        field_simp
      rw [e, c_int_of_nonneg _ (le_trans (Nat.cast_nonneg k) hk.1)]
      rw [Int.floor_eq_iff]
      exact ⟨by exact_mod_cast hk.1, by exact_mod_cast hk.2⟩
    have hca : Frequency.check_plot_area (cur.x_old / (222 / 111.178)) 0 cur := by
      unfold Frequency.check_plot_area
      rw [h1, h2, h3, h4]
      refine ⟨?_, ?_, ?_, ?_⟩
      · simp only [Int.cast_zero, ge_iff_le]
        exact div_nonneg ha (by norm_num)
      · simp only [Int.cast_ofNat]
        rw [div_le_iff₀ (by norm_num)]
        linarith
      · simp
      · simp
    rw [if_pos hca, hfl]
    have hc0 : c_int (0 : ℝ) = 0 := by
      rw [c_int_of_nonneg _ le_rfl, Int.floor_zero]
    simp only [hc0, zero_mul, zero_add, Int.toNat_ofNat, hz, if_true]
  · exact div_lt_div_of_pos_right hab (by norm_num)
  · rw [not_lt, ← sub_le_iff_le_add', ← sub_div, div_le_iff₀ (by norm_num)]
    have : (222 : ℝ) / 111.178 * (222 / 111.178) ≥ 3 := by norm_num
    linarith

end raster_runs

section raster_runs2

theorem read_trajectory_row_ok {α : Type} [LinearOrderedField α] [FloorRing α]
    (P : Frequency.param α) (M : libm α) (fuel : Nat) (st : Frequency.state α)
    (x : Frequency.trajectory α × (Nat → α)) (row : α × α) (a b : α) (f : Nat → α)
    (ha : rad2deg M row.1 = a) (hb : rad2deg M row.2 = b)
    (h : Frequency.plot_to_next_point P M fuel x.2
      { x.1 with x_new := a, y_new := b, x_midpoint := (x.1.x_old + a) / 2,
                 y_midpoint := (x.1.y_old + b) / 2 } st = .ok f) :
    Frequency.read_trajectory_row P M fuel st x row =
      .ok ({ x.1 with x_new := a, y_new := b, x_midpoint := (x.1.x_old + a) / 2,
                      y_midpoint := (x.1.y_old + b) / 2, x_old := a, y_old := b }, f) := by
  unfold Frequency.read_trajectory_row
  simp only [ha, hb]
  rw [h]

/-- The run on the equator: start at lon 0, waypoints at lon 3 and lon 6, mesh
222 km, weighting by distance.  The first segment marks cell 0 with 1.5, the
second marks cell 1 with 4.5. -/
theorem strip_run (fuel : Nat) :
    Frequency.read_trajectory (Frequency.coarse_param : Frequency.param ℝ)
      ⟨Real.sin, Real.cos, Real.arccos, Real.sqrt, Real.pi⟩ (fuel + 1)
      (Frequency.strip_state : Frequency.state ℝ) (Frequency.strip_start : Frequency.trajectory ℝ)
      (fun _ => 0)
      [(deg2rad ⟨Real.sin, Real.cos, Real.arccos, Real.sqrt, Real.pi⟩ 3, 0),
       (deg2rad ⟨Real.sin, Real.cos, Real.arccos, Real.sqrt, Real.pi⟩ 6, 0)] =
      .ok ({ (Frequency.strip_start : Frequency.trajectory ℝ) with
          x_new := 6, y_new := 0, x_midpoint := (3 + 6) / 2, y_midpoint := (0 + 0) / 2,
          x_old := 6, y_old := 0 },
        Function.update (Function.update (fun _ => (0 : ℝ)) 0 ((0 + 3) / 2)) 1
          ((3 + 6) / 2)) := by
  have e3 : rad2deg ⟨Real.sin, Real.cos, Real.arccos, Real.sqrt, Real.pi⟩
      (deg2rad ⟨Real.sin, Real.cos, Real.arccos, Real.sqrt, Real.pi⟩ 3) = (3 : ℝ) :=
    rad2deg_deg2rad _ Real.pi_pos 3
  have e6 : rad2deg ⟨Real.sin, Real.cos, Real.arccos, Real.sqrt, Real.pi⟩
      (deg2rad ⟨Real.sin, Real.cos, Real.arccos, Real.sqrt, Real.pi⟩ 6) = (6 : ℝ) :=
    rad2deg_deg2rad _ Real.pi_pos 6
  have e0 : rad2deg ⟨Real.sin, Real.cos, Real.arccos, Real.sqrt, Real.pi⟩ (0 : ℝ) = 0 := by
    unfold rad2deg
    simp
  have s1 := equator_segment
    { (Frequency.strip_start : Frequency.trajectory ℝ) with
      x_new := 3, y_new := 0, x_midpoint := (0 + 3) / 2, y_midpoint := (0 + 0) / 2 }
    (fun _ => 0) fuel 0 rfl rfl rfl rfl rfl (by norm_num) rfl rfl rfl rfl
    (le_refl (0 : ℝ)) (show (0 : ℝ) < 3 by norm_num) (show (3 : ℝ) ≤ 6 by norm_num)
    (show (3 : ℝ) - 0 ≤ 3 by norm_num)
    ⟨show ((0 : Nat) : ℝ) ≤ 0 * 111.178 / 222 by norm_num,
      show (0 : ℝ) * 111.178 / 222 < (0 : Nat) + 1 by norm_num⟩ rfl
  have r1 := read_trajectory_row_ok (Frequency.coarse_param : Frequency.param ℝ)
    ⟨Real.sin, Real.cos, Real.arccos, Real.sqrt, Real.pi⟩ (fuel + 1)
    (Frequency.strip_state : Frequency.state ℝ)
    ((Frequency.strip_start : Frequency.trajectory ℝ), fun _ => 0)
    (deg2rad ⟨Real.sin, Real.cos, Real.arccos, Real.sqrt, Real.pi⟩ 3, 0) 3 0 _ e3 e0 s1
  have s2 := equator_segment
    { (Frequency.strip_start : Frequency.trajectory ℝ) with
      x_new := 6, y_new := 0, x_midpoint := (3 + 6) / 2, y_midpoint := (0 + 0) / 2,
      x_old := 3, y_old := 0 }
    (Function.update (fun _ => (0 : ℝ)) 0 ((0 + 3) / 2)) fuel 1 rfl rfl rfl rfl rfl
    (by norm_num) rfl rfl rfl rfl
    (show (0 : ℝ) ≤ 3 by norm_num) (show (3 : ℝ) < 6 by norm_num) (le_refl (6 : ℝ))
    (show (6 : ℝ) - 3 ≤ 3 by norm_num)
    ⟨show ((1 : Nat) : ℝ) ≤ 3 * 111.178 / 222 by norm_num,
      show (3 : ℝ) * 111.178 / 222 < (1 : Nat) + 1 by norm_num⟩
    (Function.update_noteq (by decide) _ _)
  have r2 := read_trajectory_row_ok (Frequency.coarse_param : Frequency.param ℝ)
    ⟨Real.sin, Real.cos, Real.arccos, Real.sqrt, Real.pi⟩ (fuel + 1)
    (Frequency.strip_state : Frequency.state ℝ)
    ({ (Frequency.strip_start : Frequency.trajectory ℝ) with
      x_new := 3, y_new := 0, x_midpoint := (0 + 3) / 2, y_midpoint := (0 + 0) / 2,
      x_old := 3, y_old := 0 }, Function.update (fun _ => (0 : ℝ)) 0 ((0 + 3) / 2))
    (deg2rad ⟨Real.sin, Real.cos, Real.arccos, Real.sqrt, Real.pi⟩ 6, 0) 6 0 _ e6 e0 s2
  unfold Frequency.read_trajectory
  rw [List.foldlM_cons, r1]
  simp only [bind, Except.bind]
  rw [List.foldlM_cons]
  erw [r2]
  rfl

end raster_runs2

/-- C22 (amended): when `read_trajectory` has drawn all segments of one
trajectory into a mask, every cell is unchanged, or it was zero and now holds
the weight `get_weight` of one of the segments; a cell that is non-zero is not
modified, neither by one segment (`plot_to_next_point`) nor by the whole run.
So in a zero-initialised mask every cell is 0 or the weight of one segment,
and for a WEIGHT other than 1 and 2, where every segment has the weight 1,
every cell is 0 or 1. -/
theorem C22_mask_values {α : Type} [LinearOrderedField α] [FloorRing α]
    (P : Frequency.param α) (M : libm α) (fuel : Nat) (st : Frequency.state α)
    (current : Frequency.trajectory α) (m : Nat → α) (rows : List (α × α))
    (r : Frequency.trajectory α × (Nat → α))
    (h : Frequency.read_trajectory P M fuel st current m rows = .ok r) :
    (∀ i, r.2 i = m i ∨ (m i = 0 ∧ ∃ c ∈ Frequency.segments M current rows,
      r.2 i = Frequency.get_weight P M c)) ∧
    (∀ i, m i ≠ 0 → r.2 i = m i) ∧
    ((∀ i, m i = 0) → ∀ i, r.2 i = 0 ∨ ∃ c ∈ Frequency.segments M current rows,
      r.2 i = Frequency.get_weight P M c) ∧
    (P.WEIGHT ≠ 1 → P.WEIGHT ≠ 2 → (∀ i, m i = 0) → ∀ i, r.2 i = 0 ∨ r.2 i = 1) ∧
    (∀ (c : Frequency.trajectory α) (f f2 : Nat → α),
      Frequency.plot_to_next_point P M fuel f c st = .ok f2 →
      ∀ i, f i ≠ 0 → f2 i = f i) := by
  have key := read_trajectory_step P M fuel st rows current m r h
  refine ⟨key, fun i hi => ?_, fun hz i => ?_, fun h1 h2 hz i => ?_, fun c f f2 hp i hi => ?_⟩
  · rcases key i with a | ⟨a, _⟩
    · exact a
    · exact absurd a hi
  · rcases key i with a | ⟨_, b⟩
    · exact Or.inl (a.trans (hz i))
    · exact Or.inr b
  · rcases key i with a | ⟨_, c, _, b⟩
    · exact Or.inl (a.trans (hz i))
    · right
      rw [b]
      unfold Frequency.get_weight
      simp only [if_neg h1, if_neg h2]
  · rcases plot_to_next_point_step P M fuel f f2 c st hp i with a | ⟨a, _⟩
    · exact a
    · exact absurd a hi

theorem C22_mask_values_witness :
    Frequency.read_trajectory (Frequency.coarse_param : Frequency.param ℝ)
      ⟨Real.sin, Real.cos, Real.arccos, Real.sqrt, Real.pi⟩ 1
      (Frequency.strip_state : Frequency.state ℝ) (Frequency.strip_start : Frequency.trajectory ℝ)
      (fun _ => 0)
      [(deg2rad ⟨Real.sin, Real.cos, Real.arccos, Real.sqrt, Real.pi⟩ 3, 0),
       (deg2rad ⟨Real.sin, Real.cos, Real.arccos, Real.sqrt, Real.pi⟩ 6, 0)] =
      .ok ({ (Frequency.strip_start : Frequency.trajectory ℝ) with
          x_new := 6, y_new := 0, x_midpoint := (3 + 6) / 2, y_midpoint := (0 + 0) / 2,
          x_old := 6, y_old := 0 },
        Function.update (Function.update (fun _ => (0 : ℝ)) 0 ((0 + 3) / 2)) 1
          ((3 + 6) / 2)) ∧
    ∀ i, Function.update (Function.update (fun _ => (0 : ℝ)) 0 ((0 + 3) / 2)) 1
        ((3 + 6) / 2) i = 0 ∨
      ∃ c ∈ Frequency.segments ⟨Real.sin, Real.cos, Real.arccos, Real.sqrt, Real.pi⟩
        (Frequency.strip_start : Frequency.trajectory ℝ)
        [(deg2rad ⟨Real.sin, Real.cos, Real.arccos, Real.sqrt, Real.pi⟩ 3, 0),
         (deg2rad ⟨Real.sin, Real.cos, Real.arccos, Real.sqrt, Real.pi⟩ 6, 0)],
        Function.update (Function.update (fun _ => (0 : ℝ)) 0 ((0 + 3) / 2)) 1
          ((3 + 6) / 2) i =
        Frequency.get_weight (Frequency.coarse_param : Frequency.param ℝ)
          ⟨Real.sin, Real.cos, Real.arccos, Real.sqrt, Real.pi⟩ c :=
  ⟨strip_run 0,
    (C22_mask_values (Frequency.coarse_param : Frequency.param ℝ)
      ⟨Real.sin, Real.cos, Real.arccos, Real.sqrt, Real.pi⟩ 1
      (Frequency.strip_state : Frequency.state ℝ) (Frequency.strip_start : Frequency.trajectory ℝ)
      (fun _ => 0) _ _ (strip_run 0)).2.2.1 (fun _ => rfl)⟩

/-- C22, counterexample: with WEIGHT = 1 and a mesh of 222 km, the trajectory
that starts at lon 0 on the equator and has the waypoints lon 3 and lon 6
leaves the mask with cell 0 = 1.5 and cell 1 = 4.5, two different non-zero
values, so no single weight describes the mask. -/
theorem C22_counterexample :
    (Frequency.coarse_param : Frequency.param ℝ).WEIGHT = 1 ∧
    ∃ r, Frequency.read_trajectory (Frequency.coarse_param : Frequency.param ℝ)
      ⟨Real.sin, Real.cos, Real.arccos, Real.sqrt, Real.pi⟩ 1
      (Frequency.strip_state : Frequency.state ℝ) (Frequency.strip_start : Frequency.trajectory ℝ)
      (fun _ => 0)
      [(deg2rad ⟨Real.sin, Real.cos, Real.arccos, Real.sqrt, Real.pi⟩ 3, 0),
       (deg2rad ⟨Real.sin, Real.cos, Real.arccos, Real.sqrt, Real.pi⟩ 6, 0)] = .ok r ∧
      r.2 0 = 3 / 2 ∧ r.2 1 = 9 / 2 ∧ ¬ ∃ w : ℝ, ∀ i, r.2 i = 0 ∨ r.2 i = w := by
  refine ⟨rfl, _, strip_run 0, ?_, ?_, ?_⟩
  · show Function.update (Function.update (fun _ => (0 : ℝ)) 0 ((0 + 3) / 2)) 1
      ((3 + 6) / 2) 0 = 3 / 2
    rw [Function.update_noteq (by decide), Function.update_same]
    norm_num
  · show Function.update (Function.update (fun _ => (0 : ℝ)) 0 ((0 + 3) / 2)) 1
      ((3 + 6) / 2) 1 = 9 / 2
    rw [Function.update_same]
    norm_num
  · rintro ⟨w, hw⟩
    have a := hw 0
    have b := hw 1
    simp only [Function.update_same, Function.update_noteq (show (0 : Nat) ≠ 1 by decide)]
      at a b
    rcases a with a | a
    · norm_num at a
    · rcases b with b | b
      · norm_num at b
      · rw [← a] at b
        norm_num at b

section raster_cell0

variable {α : Type} [LinearOrderedField α] [FloorRing α]

theorem walk_const (bound step : α) (body : α → (Nat → α) → (Nat → α)) (T : Nat → α)
    (v0 : α) (hstep : 0 < step) (hT : ∀ v, v0 ≤ v → v < bound → body v T = T) :
    ∀ (k n : Nat) (v : α), v0 ≤ v → bound ≤ v + k * step → k ≤ n →
      Frequency.walk bound step body n v T = .ok T := by
  intro k
  induction k with
  | zero =>
    intro n v _ hb _
    apply walk_none
    rw [Nat.cast_zero, zero_mul, add_zero] at hb
    exact not_lt.mpr hb
  | succ k ih =>
    intro n v hv hb hn
    obtain ⟨n2, rfl⟩ : ∃ n2, n = n2 + 1 := ⟨n - 1, by omega⟩
    unfold Frequency.walk
    by_cases c : v < bound
    · rw [if_pos c, hT v hv c]
      apply ih
      · linarith
      · rw [Nat.cast_succ] at hb
        linarith
      · omega
    · rw [if_neg c]

theorem walk_mark (bound step : α) (body : α → (Nat → α) → (Nat → α)) (Z T : Nat → α)
    (v0 : α) (hstep : 0 < step) (h0 : v0 < bound) (hZ : body v0 Z = T)
    (hT : ∀ v, v0 ≤ v → v < bound → body v T = T) :
    ∃ n0 : Nat, ∀ n, n0 ≤ n → Frequency.walk bound step body n v0 Z = .ok T := by
  obtain ⟨k, hk⟩ := exists_nat_ge ((bound - v0) / step)
  refine ⟨k + 1, fun n hn => ?_⟩
  obtain ⟨n2, rfl⟩ : ∃ n2, n = n2 + 1 := ⟨n - 1, by omega⟩
  unfold Frequency.walk
  rw [if_pos h0, hZ]
  apply walk_const bound step body T v0 hstep hT k n2 (v0 + step) (by linarith) _ (by omega)
  rw [div_le_iff₀ hstep] at hk
  linarith

theorem plot_cell_origin (st : Frequency.state α) (current : Frequency.trajectory α)
    (h1 : current.x_plot_min = 0) (h2 : current.y_plot_min = 0)
    (h3 : current.x_plot_max = st.x_field) (h4 : current.y_plot_max = st.y_field)
    (hxf : 1 ≤ st.x_field) (hyf : 1 ≤ st.y_field) (x y : α)
    (hx0 : 0 ≤ x) (hx1 : x < 1) (hy0 : 0 ≤ y) (hy1 : y < 1) :
    Frequency.plot_cell st current 1 x y (fun _ => 0) = Function.update (fun _ => 0) 0 1 ∧
    Frequency.plot_cell st current 1 x y (Function.update (fun _ => 0) 0 1) =
      Function.update (fun _ => 0) 0 1 := by
  have hxf2 : (1 : α) ≤ (st.x_field : α) := by exact_mod_cast hxf
  have hyf2 : (1 : α) ≤ (st.y_field : α) := by exact_mod_cast hyf
  have hca : Frequency.check_plot_area x y current := by
    unfold Frequency.check_plot_area
    rw [h1, h2, h3, h4]
    simp only [Int.cast_zero, ge_iff_le]
    exact ⟨hx0, by linarith, hy0, by linarith⟩
  have fx : c_int x = 0 := by
    rw [c_int_of_nonneg _ hx0, Int.floor_eq_iff]
    exact ⟨by simpa using hx0, by simpa using hx1⟩
  have fy : c_int y = 0 := by
    rw [c_int_of_nonneg _ hy0, Int.floor_eq_iff]
    exact ⟨by simpa using hy0, by simpa using hy1⟩
  have hi : (c_int y * st.x_field + c_int x).toNat = 0 := by
    rw [fx, fy, zero_mul, zero_add, Int.toNat_zero]
  unfold Frequency.plot_cell
  rw [if_pos hca, if_pos hca, hi]
  constructor
  · rw [if_pos rfl, zero_add]
  · rw [if_neg]
    rw [Function.update_same]
    exact one_ne_zero

theorem flat_mark (st : Frequency.state α) (current : Frequency.trajectory α)
    (h1 : current.x_plot_min = 0) (h2 : current.y_plot_min = 0)
    (h3 : current.x_plot_max = st.x_field) (h4 : current.y_plot_max = st.y_field)
    (hxf : 1 ≤ st.x_field) (hyf : 1 ≤ st.y_field) (step X1 X2 Y : α) (hstep : 0 < step)
    (hx0 : 0 ≤ X1) (hx : X1 < X2) (hx1 : X2 < 1) (hy0 : 0 ≤ Y) (hy1 : Y < 1) :
    ∃ n0 : Nat, ∀ n, n0 ≤ n →
      Frequency.walk X2 step (fun x f => Frequency.plot_cell st current 1 x Y f) n X1
        (fun _ => 0) = .ok (Function.update (fun _ => 0) 0 1) := by
  apply walk_mark _ _ _ _ _ _ hstep hx
  · exact (plot_cell_origin st current h1 h2 h3 h4 hxf hyf X1 Y hx0 (by linarith) hy0 hy1).1
  · intro v hv hb
    exact (plot_cell_origin st current h1 h2 h3 h4 hxf hyf v Y (by linarith) (by linarith)
      hy0 hy1).2

theorem slope_mark (st : Frequency.state α) (current : Frequency.trajectory α)
    (h1 : current.x_plot_min = 0) (h2 : current.y_plot_min = 0)
    (h3 : current.x_plot_max = st.x_field) (h4 : current.y_plot_max = st.y_field)
    (hxf : 1 ≤ st.x_field) (hyf : 1 ≤ st.y_field) (step X1 Y1 X2 Y2 : α) (hstep : 0 < step)
    (hx0 : 0 ≤ X1) (hx1 : X1 < 1) (hx2 : 0 ≤ X2) (hx3 : X2 < 1)
    (hy0 : 0 ≤ Y1) (hy : Y1 < Y2) (hy1 : Y2 < 1) :
    ∃ n0 : Nat, ∀ n, n0 ≤ n →
      Frequency.walk Y2 step
        (fun y f => Frequency.plot_cell st current 1
          ((X2 - X1) / (Y2 - Y1) * y + (X1 - (X2 - X1) / (Y2 - Y1) * Y1)) y f) n Y1
        (fun _ => 0) = .ok (Function.update (fun _ => 0) 0 1) := by
  have hd : 0 < Y2 - Y1 := by linarith
  have line : ∀ y, Y1 ≤ y → y < Y2 →
      0 ≤ (X2 - X1) / (Y2 - Y1) * y + (X1 - (X2 - X1) / (Y2 - Y1) * Y1) ∧
      (X2 - X1) / (Y2 - Y1) * y + (X1 - (X2 - X1) / (Y2 - Y1) * Y1) < 1 := by
    intro y ya yb
    have e : (X2 - X1) / (Y2 - Y1) * y + (X1 - (X2 - X1) / (Y2 - Y1) * Y1) =
        (X1 * (Y2 - y) + X2 * (y - Y1)) / (Y2 - Y1) := by
      field_simp
      ring
    rw [e]
    constructor
    · apply div_nonneg _ hd.le
      have a1 : 0 ≤ X1 * (Y2 - y) := mul_nonneg hx0 (by linarith)
      have a2 : 0 ≤ X2 * (y - Y1) := mul_nonneg hx2 (by linarith)
      linarith
    · rw [div_lt_one hd]
      have a1 : X1 * (Y2 - y) < 1 * (Y2 - y) := mul_lt_mul_of_pos_right hx1 (by linarith)
      have a2 : X2 * (y - Y1) ≤ 1 * (y - Y1) :=
        mul_le_mul_of_nonneg_right hx3.le (by linarith)
      linarith
  apply walk_mark _ _ _ _ _ _ hstep hy
  · exact (plot_cell_origin st current h1 h2 h3 h4 hxf hyf _ Y1 (line Y1 le_rfl hy).1
      (line Y1 le_rfl hy).2 hy0 (by linarith)).1
  · intro v hv hb
    exact (plot_cell_origin st current h1 h2 h3 h4 hxf hyf _ v (line v hv hb).1
      (line v hv hb).2 (by linarith) (by linarith)).2

end raster_cell0

section raster_two_points

variable {α : Type} [LinearOrderedField α] [FloorRing α]

/-- A segment whose two end points have the same cell coordinates: no pass of
the drawing loop runs. -/
theorem segment_idle (P : Frequency.param α) (M : libm α)
    (current : Frequency.trajectory α) (st : Frequency.state α)
    (ex : Frequency.cell_x P M st current.x_old current.y_old =
      Frequency.cell_x P M st current.x_new current.y_new)
    (ey : Frequency.cell_y P st current.y_old = Frequency.cell_y P st current.y_new)
    (fuel : Nat) (m : Nat → α) :
    Frequency.plot_to_next_point P M fuel m current st = .ok m := by
  simp only [Frequency.cell_x, Frequency.cell_y] at ex ey
  unfold Frequency.plot_to_next_point
  dsimp only
  rw [if_pos ey, ← ex, if_neg (lt_irrefl _)]
  exact walk_none _ _ _ _ _ _ (lt_irrefl _)

/-- C30 (amended): with WEIGHT = 0 and the whole grid as plot window, a
segment whose two end points both have cell coordinates in `[0,1) x [0,1)`
(cell (0,0)) and differ in at least one cell coordinate leaves a zero mask
with cell 0 = 1 and every other cell 0, also when the two points share the
same latitude; when the two points have the same cell coordinates no pass of
the drawing loop runs and the mask is returned as it was. -/
theorem C30_two_points (P : Frequency.param α) (M : libm α)
    (current : Frequency.trajectory α) (st : Frequency.state α)
    (hw : P.WEIGHT = 0) (hres : 0 < P.RES)
    (hcos : 0 < M.cos (deg2rad M current.y_new))
    (h1 : current.x_plot_min = 0) (h2 : current.y_plot_min = 0)
    (h3 : current.x_plot_max = st.x_field) (h4 : current.y_plot_max = st.y_field)
    (hxf : 1 ≤ st.x_field) (hyf : 1 ≤ st.y_field)
    (a1 : 0 ≤ Frequency.cell_x P M st current.x_old current.y_old)
    (a2 : Frequency.cell_x P M st current.x_old current.y_old < 1)
    (b1 : 0 ≤ Frequency.cell_y P st current.y_old)
    (b2 : Frequency.cell_y P st current.y_old < 1)
    (c1 : 0 ≤ Frequency.cell_x P M st current.x_new current.y_new)
    (c2 : Frequency.cell_x P M st current.x_new current.y_new < 1)
    (d1 : 0 ≤ Frequency.cell_y P st current.y_new)
    (d2 : Frequency.cell_y P st current.y_new < 1) :
    ((Frequency.cell_x P M st current.x_old current.y_old ≠
        Frequency.cell_x P M st current.x_new current.y_new ∨
      Frequency.cell_y P st current.y_old ≠ Frequency.cell_y P st current.y_new) →
      ∃ fuel0 : Nat, ∀ fuel, fuel0 ≤ fuel →
        Frequency.plot_to_next_point P M fuel (fun _ => 0) current st =
          .ok (Function.update (fun _ => 0) 0 1)) ∧
    (Frequency.cell_x P M st current.x_old current.y_old =
        Frequency.cell_x P M st current.x_new current.y_new →
      Frequency.cell_y P st current.y_old = Frequency.cell_y P st current.y_new →
      ∀ (fuel : Nat) (m : Nat → α),
        Frequency.plot_to_next_point P M fuel m current st = .ok m) := by
  refine ⟨?_, fun ex ey fuel m => segment_idle P M current st ex ey fuel m⟩
  have gw : Frequency.get_weight P M current = 1 := by
    unfold Frequency.get_weight
    simp only [hw]
    rfl
  have hdeg : (0 : α) < Frequency.DEGDISTANCE := by
    unfold Frequency.DEGDISTANCE
    norm_num
  have hr : (0 : α) < (P.RES : α) := by exact_mod_cast hres
  have hstep : 0 < (P.RES : α) / (Frequency.DEGDISTANCE * M.cos (deg2rad M current.y_new)) :=
    div_pos hr (mul_pos hdeg hcos)
  have hstep2 : 0 < (P.RES : α) / Frequency.DEGDISTANCE / (P.RES : α) :=
    div_pos (div_pos hr hdeg) hr
  simp only [Frequency.cell_x, Frequency.cell_y] at a1 a2 b1 b2 c1 c2 d1 d2 ⊢
  intro hne
  unfold Frequency.plot_to_next_point
  rw [gw]
  dsimp only
  by_cases e : (current.y_old - st.la_min) / ((P.RES : α) / Frequency.DEGDISTANCE) =
      (current.y_new - st.la_min) / ((P.RES : α) / Frequency.DEGDISTANCE)
  · have hx := hne.resolve_right (not_not.mpr e)
    by_cases s : (current.x_new - st.lo_min) /
        ((P.RES : α) / (Frequency.DEGDISTANCE * M.cos (deg2rad M current.y_new))) <
        (current.x_old - st.lo_min) /
        ((P.RES : α) / (Frequency.DEGDISTANCE * M.cos (deg2rad M current.y_old)))
    · obtain ⟨n0, hn⟩ :=
        flat_mark st current h1 h2 h3 h4 hxf hyf _ _ _ _ hstep c1 s a2 d1 d2
      refine ⟨n0, fun fuel hf => ?_⟩
      rw [if_pos e, if_pos s]
      exact hn fuel hf
    · obtain ⟨n0, hn⟩ := flat_mark st current h1 h2 h3 h4 hxf hyf _ _ _ _ hstep a1
        (lt_of_le_of_ne (not_lt.mp s) hx) c2 b1 b2
      refine ⟨n0, fun fuel hf => ?_⟩
      rw [if_pos e, if_neg s]
      exact hn fuel hf
  · by_cases s : (current.y_new - st.la_min) / ((P.RES : α) / Frequency.DEGDISTANCE) <
        (current.y_old - st.la_min) / ((P.RES : α) / Frequency.DEGDISTANCE)
    · obtain ⟨n0, hn⟩ :=
        slope_mark st current h1 h2 h3 h4 hxf hyf _ _ _ _ _ hstep2 c1 c2 a1 a2 d1 s b2
      refine ⟨n0, fun fuel hf => ?_⟩
      rw [if_neg e, if_pos s]
      exact hn fuel hf
    · obtain ⟨n0, hn⟩ :=
        slope_mark st current h1 h2 h3 h4 hxf hyf _ _ _ _ _ hstep2 a1 a2 c1 c2 b1
          (lt_of_le_of_ne (not_lt.mp s) e) d2
      refine ⟨n0, fun fuel hf => ?_⟩
      rw [if_neg e, if_neg s]
      exact hn fuel hf

end raster_two_points

theorem C30_two_points_witness :
    ∃ fuel0 : Nat, ∀ fuel, fuel0 ≤ fuel →
      Frequency.plot_to_next_point (Frequency.default_param : Frequency.param ℝ)
        ⟨Real.sin, Real.cos, Real.arccos, Real.sqrt, Real.pi⟩ fuel (fun _ => 0)
        { (Frequency.strip_start : Frequency.trajectory ℝ) with x_new := 1 / 10 }
        (Frequency.strip_state : Frequency.state ℝ) =
      .ok (Function.update (fun _ => 0) 0 1) :=
  (C30_two_points (Frequency.default_param : Frequency.param ℝ)
    ⟨Real.sin, Real.cos, Real.arccos, Real.sqrt, Real.pi⟩
    { (Frequency.strip_start : Frequency.trajectory ℝ) with x_new := 1 / 10 }
    (Frequency.strip_state : Frequency.state ℝ) rfl (by decide)
    (by simp [deg2rad, Frequency.strip_start])
    rfl rfl rfl rfl (by decide) (by decide)
    (by simp [Frequency.cell_x, Frequency.strip_start, Frequency.strip_state,
      Frequency.zero_state])
    (by simp [Frequency.cell_x, Frequency.strip_start, Frequency.strip_state,
      Frequency.zero_state])
    (by simp [Frequency.cell_y, Frequency.strip_start, Frequency.strip_state,
      Frequency.zero_state])
    (by simp [Frequency.cell_y, Frequency.strip_start, Frequency.strip_state,
      Frequency.zero_state])
    (by
      simp only [Frequency.cell_x, Frequency.strip_start, Frequency.strip_state,
        Frequency.zero_state, Frequency.default_param, Frequency.DEGDISTANCE, deg2rad,
        zero_mul, zero_div, Real.cos_zero, sub_zero, mul_one, Int.cast_ofNat]
      norm_num)
    (by
      simp only [Frequency.cell_x, Frequency.strip_start, Frequency.strip_state,
        Frequency.zero_state, Frequency.default_param, Frequency.DEGDISTANCE, deg2rad,
        zero_mul, zero_div, Real.cos_zero, sub_zero, mul_one, Int.cast_ofNat]
      norm_num)
    (by simp [Frequency.cell_y, Frequency.strip_start, Frequency.strip_state,
      Frequency.zero_state])
    (by simp [Frequency.cell_y, Frequency.strip_start, Frequency.strip_state,
      Frequency.zero_state])).1
    (Or.inl (by
      simp only [Frequency.cell_x, Frequency.strip_start, Frequency.strip_state,
        Frequency.zero_state, Frequency.default_param, Frequency.DEGDISTANCE, deg2rad,
        zero_mul, zero_div, Real.cos_zero, sub_zero, mul_one, Int.cast_ofNat]
      norm_num))

/-- C30, counterexample: WEIGHT = 0, whole grid as plot window, start point
and waypoint both at lon 0, lat 0, the origin of the grid and so inside cell
(0,0).  `read_trajectory` returns the mask with cell (0,0) still 0. -/
theorem C30_counterexample :
    (Frequency.default_param : Frequency.param ℝ).WEIGHT = 0 ∧
    Frequency.cell_x (Frequency.default_param : Frequency.param ℝ)
      ⟨Real.sin, Real.cos, Real.arccos, Real.sqrt, Real.pi⟩
      (Frequency.strip_state : Frequency.state ℝ) 0 0 = 0 ∧
    Frequency.cell_y (Frequency.default_param : Frequency.param ℝ)
      (Frequency.strip_state : Frequency.state ℝ) 0 = 0 ∧
    ∃ r, Frequency.read_trajectory (Frequency.default_param : Frequency.param ℝ)
      ⟨Real.sin, Real.cos, Real.arccos, Real.sqrt, Real.pi⟩ 1
      (Frequency.strip_state : Frequency.state ℝ) (Frequency.strip_start : Frequency.trajectory ℝ)
      (fun _ => 0) [(0, 0)] = .ok r ∧ r.2 0 = 0 ∧ r.2 0 ≠ 1 := by
  have e0 : rad2deg ⟨Real.sin, Real.cos, Real.arccos, Real.sqrt, Real.pi⟩ (0 : ℝ) = 0 := by
    unfold rad2deg
    simp
  have s1 := segment_idle (Frequency.default_param : Frequency.param ℝ)
    ⟨Real.sin, Real.cos, Real.arccos, Real.sqrt, Real.pi⟩
    { (Frequency.strip_start : Frequency.trajectory ℝ) with
      x_new := 0, y_new := 0, x_midpoint := (0 + 0) / 2, y_midpoint := (0 + 0) / 2 }
    (Frequency.strip_state : Frequency.state ℝ) rfl rfl 1 (fun _ => 0)
  have r1 := read_trajectory_row_ok (Frequency.default_param : Frequency.param ℝ)
    ⟨Real.sin, Real.cos, Real.arccos, Real.sqrt, Real.pi⟩ 1
    (Frequency.strip_state : Frequency.state ℝ)
    ((Frequency.strip_start : Frequency.trajectory ℝ), fun _ => 0) (0, 0) 0 0 _ e0 e0 s1
  have run : Frequency.read_trajectory (Frequency.default_param : Frequency.param ℝ)
      ⟨Real.sin, Real.cos, Real.arccos, Real.sqrt, Real.pi⟩ 1
      (Frequency.strip_state : Frequency.state ℝ) (Frequency.strip_start : Frequency.trajectory ℝ)
      (fun _ => 0) [(0, 0)] =
      .ok ({ (Frequency.strip_start : Frequency.trajectory ℝ) with
        x_new := 0, y_new := 0, x_midpoint := (0 + 0) / 2, y_midpoint := (0 + 0) / 2,
        x_old := 0, y_old := 0 }, fun _ => 0) := by
    unfold Frequency.read_trajectory
    rw [List.foldlM_cons, r1]
    rfl
  refine ⟨rfl, ?_, ?_, _, run, rfl, ?_⟩
  · simp [Frequency.cell_x, Frequency.strip_state, Frequency.zero_state]
  · simp [Frequency.cell_y, Frequency.strip_state, Frequency.zero_state]
  · show (0 : ℝ) ≠ 1
    exact zero_ne_one

section bands

variable {α : Type} [LinearOrderedField α] [FloorRing α]

theorem c_int_mono (x y : α) (h : x ≤ y) : c_int x ≤ c_int y := by
  unfold c_int
  by_cases hx : 0 ≤ x
  · rw [if_pos hx, if_pos (le_trans hx h)]
    exact Int.floor_mono h
  · rw [if_neg hx]
    by_cases hy : 0 ≤ y
    · rw [if_pos hy]
      have a : ⌈x⌉ ≤ 0 := Int.ceil_le.2 (by simpa using le_of_lt (not_le.1 hx))
      have b : 0 ≤ ⌊y⌋ := Int.floor_nonneg.2 hy
      omega
    · rw [if_neg hy]
      exact Int.ceil_mono h

theorem c_int_band (v : α) :
    (1 ≤ c_int (min v 10) ∧ c_int (min v 10) ≤ 10) ↔ 1 ≤ v := by
  have f10 : ⌊(10 : α)⌋ = 10 := by
    have := Int.floor_intCast (10 : Int) (α := α)
    simpa using this
  constructor
  · rintro ⟨h1, _⟩
    by_contra hv
    have hv1 : v < 1 := not_le.1 hv
    have e : min v 10 = v := min_eq_left (by linarith)
    rw [e] at h1
    unfold c_int at h1
    by_cases h0 : 0 ≤ v
    · rw [if_pos h0] at h1
      have : ⌊v⌋ < 1 := Int.floor_lt.2 (by simpa using hv1)
      omega
    · rw [if_neg h0] at h1
      have : ⌈v⌉ ≤ 0 := Int.ceil_le.2 (by simpa using le_of_lt (not_le.1 h0))
      omega
  · intro hv
    have m1 : (1 : α) ≤ min v 10 := le_min hv (by norm_num)
    have m0 : (0 : α) ≤ min v 10 := le_trans zero_le_one m1
    rw [c_int_of_nonneg _ m0]
    constructor
    · exact Int.le_floor.2 (by simpa using m1)
    · rw [← f10]
      exact Int.floor_mono (min_le_right _ _)

theorem mem_sort_and_plot (st : Frequency.state α) (k : Int) (i : Nat) :
    i ∈ Frequency.sort_and_plot st k ↔
      i < st.field_max.toNat ∧ k = c_int (st.field_grid i) := by
  unfold Frequency.sort_and_plot
  simp only [List.mem_filter, List.mem_range, decide_eq_true_eq]

theorem mem_plot_classes (st : Frequency.state α) (i : Nat) :
    (∃ l ∈ Frequency.plot_classes st, i ∈ l) ↔
      ∃ k : Int, 1 ≤ k ∧ k ≤ 10 ∧ i ∈ Frequency.sort_and_plot st k := by
  unfold Frequency.plot_classes
  constructor
  · rintro ⟨l, hl, hi⟩
    obtain ⟨k, hk, rfl⟩ := List.mem_map.1 hl
    have := List.mem_range.1 hk
    exact ⟨(k : Int) + 1, by omega, by omega, hi⟩
  · rintro ⟨k, h1, h2, hi⟩
    refine ⟨_, List.mem_map.2 ⟨(k - 1).toNat, List.mem_range.2 (by omega), rfl⟩, ?_⟩
    have e : (((k - 1).toNat : Nat) : Int) + 1 = k := by omega
    rw [e]
    exact hi

/-- The grid after `plot_frequency` in closed form, cell by cell. -/
theorem plot_frequency_cell (P : Frequency.param α) (st : Frequency.state α)
    (hs : 0 ≤ P.SCALEMIN ∧ P.SCALEMIN < P.SCALEMAX ∧ P.SCALEMAX ≤ 100) :
    ∃ st2, Frequency.plot_frequency P st = .ok st2 ∧ st2.field_max = st.field_max ∧
      ∀ i, i < st.field_max.toNat → st2.field_grid i =
        min ((st.field_grid i - Frequency.get_w_max st * (P.SCALEMIN : α) / 100) /
          ((Frequency.get_w_max st * (P.SCALEMAX : α) / 100 -
            Frequency.get_w_max st * (P.SCALEMIN : α) / 100) / 10)) 10 := by
  have e : (Frequency.get_w_max st * (P.SCALEMAX : α) / 100 -
      Frequency.get_w_max st * (P.SCALEMIN : α) / 100) / 10 =
      Frequency.get_w_max st * ((P.SCALEMAX : α) - (P.SCALEMIN : α)) / 1000 := by ring
  rw [e]
  refine ⟨_, plot_frequency_ok P st hs, rfl, fun i hi => ?_⟩
  simp only [if_pos hi]
  split_ifs with c
  · exact (min_eq_right (le_of_lt c)).symm
  · exact (min_eq_left (not_lt.1 c)).symm

end bands

section bands2

variable {α : Type} [LinearOrderedField α] [FloorRing α]

end bands2

theorem sparse_w_max :
    Frequency.get_w_max (Frequency.sparse_state : Frequency.state ℚ) = 20 := by
  simp [Frequency.get_w_max, Frequency.sparse_state, Frequency.zero_state, List.range_succ]

section accumulate

variable {α : Type} [LinearOrderedField α] [FloorRing α]

theorem init_field_apply (g : Nat → α) (n : Int) (i : Nat) :
    Frequency.init_field g n i = if i < n.toNat then 0 else g i := by
  unfold Frequency.init_field
  rw [foldl_update_const (fun _ => (0 : α))]

/-- What a successful pass of the file loop of `plot_trajectories` returns:
the mask `read_trajectory` draws from the zeroed mask, and the grid with the
mask added cell by cell. -/
theorem plot_trajectory_ok (P : Frequency.param α) (M : libm α) (fuel : Nat)
    (st : Frequency.state α) (current : Frequency.trajectory α) (plot_field : Nat → α)
    (file : Option (List (α × α))) (r : Frequency.trajectory α × (Nat → α) × Frequency.state α)
    (h : Frequency.plot_trajectory P M fuel st current plot_field file = .ok r) :
    ∃ start rows c0, file = some (start :: rows) ∧
      Frequency.read_trajectory P M fuel st c0
        (Frequency.init_field plot_field st.field_max) rows = .ok (r.1, r.2.1) ∧
      r.2.2.field_max = st.field_max ∧ r.2.2.x_field = st.x_field ∧
      r.2.2.y_field = st.y_field ∧
      ∀ i, r.2.2.field_grid i =
        if i < st.field_max.toNat then st.field_grid i + r.2.1 i else st.field_grid i := by
  unfold Frequency.plot_trajectory at h
  match file, h with
  | some (start :: rows), h =>
    simp only at h
    split at h
    · cases h
    · rename_i x hx
      cases h
      refine ⟨start, rows, _, rfl, hx, rfl, rfl, rfl, fun i => ?_⟩
      show (List.foldl (fun g j => Function.update g j (g j + x.2 j)) st.field_grid
        (List.range st.field_max.toNat)) i = _
      rw [foldl_update_each (fun j v => v + x.2 j)]

/-- Every cell of a mask below `field_max` is zero or the weight of a segment. -/
theorem mask_cell (P : Frequency.param α) (M : libm α) (fuel : Nat)
    (st : Frequency.state α) (current : Frequency.trajectory α) (plot_field : Nat → α)
    (file : Option (List (α × α))) (r : Frequency.trajectory α × (Nat → α) × Frequency.state α)
    (h : Frequency.plot_trajectory P M fuel st current plot_field file = .ok r) (i : Nat)
    (hi : i < st.field_max.toNat) :
    r.2.1 i = 0 ∨ ∃ c, r.2.1 i = Frequency.get_weight P M c := by
  obtain ⟨start, rows, c0, _, hrun, _⟩ := plot_trajectory_ok P M fuel st current plot_field file r h
  have z : Frequency.init_field plot_field st.field_max i = 0 := by
    rw [init_field_apply, if_pos hi]
  rcases read_trajectory_step P M fuel st rows c0 _ _ hrun i with a | ⟨_, c, _, b⟩
  · exact Or.inl (a.trans z)
  · exact Or.inr ⟨c, b⟩

theorem plot_trajectories_cons (P : Frequency.param α) (M : libm α) (fuel : Nat)
    (x : Frequency.trajectory α × (Nat → α) × Frequency.state α)
    (file : Option (List (α × α))) (files : List (Option (List (α × α)))) :
    List.foldlM (fun x file => Frequency.plot_trajectory P M fuel x.2.2 x.1 x.2.1 file) x
        (file :: files) =
      match Frequency.plot_trajectory P M fuel x.2.2 x.1 x.2.1 file with
      | .error e => .error e
      | .ok y => List.foldlM
          (fun x file => Frequency.plot_trajectory P M fuel x.2.2 x.1 x.2.1 file) y files := by
  rw [List.foldlM_cons]
  cases Frequency.plot_trajectory P M fuel x.2.2 x.1 x.2.1 file <;> rfl

/-- Adding masks with cells `>= 0` keeps every cell of the grid `>= 0`. -/
theorem grid_nonneg (P : Frequency.param α) (M : libm α) (fuel : Nat)
    (hW : ∀ c, 0 ≤ Frequency.get_weight P M c) (files : List (Option (List (α × α)))) :
    ∀ (x r : Frequency.trajectory α × (Nat → α) × Frequency.state α),
      (∀ i, 0 ≤ x.2.2.field_grid i) →
      List.foldlM (fun x file => Frequency.plot_trajectory P M fuel x.2.2 x.1 x.2.1 file) x
        files = .ok r →
      ∀ i, 0 ≤ r.2.2.field_grid i := by
  induction files with
  | nil =>
    intro x r h0 h i
    cases h
    exact h0 i
  | cons file files ih =>
    intro x r h0 h i
    rw [plot_trajectories_cons] at h
    split at h
    · cases h
    · rename_i y hy
      refine ih y r (fun j => ?_) h i
      obtain ⟨_, _, _, _, _, _, _, _, hg⟩ := plot_trajectory_ok P M fuel _ _ _ _ y hy
      rw [hg j]
      split_ifs with c
      · rcases mask_cell P M fuel _ _ _ _ y hy j c with a | ⟨c, a⟩
        · rw [a, add_zero]
          exact h0 j
        · rw [a]
          exact add_nonneg (h0 j) (hW c)
      · exact h0 j

theorem get_w_max_fold (g : Nat → α) (n : Nat) :
    ∀ w : α, w ≤ (List.range n).foldl (fun w_max i => if w_max < g i then g i else w_max) w ∧
      (∀ i, i < n →
        g i ≤ (List.range n).foldl (fun w_max i => if w_max < g i then g i else w_max) w) ∧
      ((List.range n).foldl (fun w_max i => if w_max < g i then g i else w_max) w = w ∨
        ∃ i, i < n ∧
          (List.range n).foldl (fun w_max i => if w_max < g i then g i else w_max) w = g i) := by
  induction n with
  | zero =>
    intro w
    exact ⟨le_rfl, fun i hi => absurd hi (Nat.not_lt_zero i), Or.inl rfl⟩
  | succ n ih =>
    intro w
    rw [List.range_succ, List.foldl_append]
    simp only [List.foldl_cons, List.foldl_nil]
    obtain ⟨a, b, c⟩ := ih w
    generalize (List.range n).foldl (fun w_max i => if w_max < g i then g i else w_max) w = m
      at a b c
    by_cases hm : m < g n
    · rw [if_pos hm]
      refine ⟨le_trans a hm.le, fun i hi => ?_, Or.inr ⟨n, Nat.lt_succ_self n, rfl⟩⟩
      rcases Nat.lt_succ_iff_lt_or_eq.1 hi with h | h
      · exact le_trans (b i h) hm.le
      · rw [h]
    · rw [if_neg hm]
      refine ⟨a, fun i hi => ?_, ?_⟩
      · rcases Nat.lt_succ_iff_lt_or_eq.1 hi with h | h
        · exact b i h
        · rw [h]
          exact not_lt.1 hm
      · rcases c with c | ⟨i, hi, c⟩
        · exact Or.inl c
        · exact Or.inr ⟨i, Nat.lt_succ_of_lt hi, c⟩

/-- The value of `get_w_max`: at least 0, at least every cell below
`field_max`, and 0 or the value of one of these cells. -/
theorem get_w_max_spec (st : Frequency.state α) :
    0 ≤ Frequency.get_w_max st ∧
    (∀ i, i < st.field_max.toNat → st.field_grid i ≤ Frequency.get_w_max st) ∧
    (Frequency.get_w_max st = 0 ∨
      ∃ i, i < st.field_max.toNat ∧ Frequency.get_w_max st = st.field_grid i) :=
  get_w_max_fold st.field_grid st.field_max.toNat 0

end accumulate

theorem real_get_weight_nonneg (P : Frequency.param ℝ) (c : Frequency.trajectory ℝ) :
    0 ≤ Frequency.get_weight P ⟨Real.sin, Real.cos, Real.arccos, Real.sqrt, Real.pi⟩ c := by
  unfold Frequency.get_weight
  simp only
  split_ifs
  · unfold Frequency.distance_in_deg rad2deg
    exact div_nonneg (mul_nonneg (Real.arccos_nonneg _) (by norm_num)) Real.pi_pos.le
  · exact Real.sqrt_nonneg _
  · exact zero_le_one

theorem strip_file_run :
    ∃ r, Frequency.plot_trajectories (Frequency.coarse_param : Frequency.param ℝ)
      ⟨Real.sin, Real.cos, Real.arccos, Real.sqrt, Real.pi⟩ 1
      (Frequency.strip_state : Frequency.state ℝ) (Frequency.strip_start : Frequency.trajectory ℝ)
      [some [(0, 0), (deg2rad ⟨Real.sin, Real.cos, Real.arccos, Real.sqrt, Real.pi⟩ 3, 0),
        (deg2rad ⟨Real.sin, Real.cos, Real.arccos, Real.sqrt, Real.pi⟩ 6, 0)]] = .ok r ∧
      r.2.1 = Function.update (Function.update (fun _ => (0 : ℝ)) 0 ((0 + 3) / 2)) 1
        ((3 + 6) / 2) := by
  have e0 : rad2deg ⟨Real.sin, Real.cos, Real.arccos, Real.sqrt, Real.pi⟩ (0 : ℝ) = 0 := by
    unfold rad2deg
    simp
  unfold Frequency.plot_trajectories
  rw [List.foldlM_cons]
  unfold Frequency.plot_trajectory
  simp only [e0, init_field_zero]
  erw [strip_run 0]
  exact ⟨_, rfl, rfl⟩

section counts

variable {α : Type} [LinearOrderedField α] [FloorRing α]

theorem get_weight_plain (P : Frequency.param α) (M : libm α) (c : Frequency.trajectory α)
    (hw : P.WEIGHT = 0) : Frequency.get_weight P M c = 1 := by
  unfold Frequency.get_weight
  simp only [hw]
  rfl

theorem masks_count (P : Frequency.param α) (M : libm α) (fuel : Nat) (hw : P.WEIGHT = 0)
    (files : List (Option (List (α × α)))) :
    ∀ (x r : Frequency.trajectory α × (Nat → α) × Frequency.state α),
      List.foldlM (fun x file => Frequency.plot_trajectory P M fuel x.2.2 x.1 x.2.1 file) x
        files = .ok r →
      (Frequency.trajectory_masks P M fuel x.2.2 x.1 x.2.1 files).length = files.length ∧
      (∀ m ∈ Frequency.trajectory_masks P M fuel x.2.2 x.1 x.2.1 files,
        ∀ i, i < x.2.2.field_max.toNat → m i = 0 ∨ m i = 1) ∧
      r.2.2.field_max = x.2.2.field_max ∧
      ∀ i, i < x.2.2.field_max.toNat → r.2.2.field_grid i = x.2.2.field_grid i +
        (((Frequency.trajectory_masks P M fuel x.2.2 x.1 x.2.1 files).countP
          (fun m => decide (m i ≠ 0)) : Nat) : α) := by
  induction files with
  | nil =>
    intro x r h
    cases h
    refine ⟨rfl, fun m hm => ?_, rfl, fun i _ => ?_⟩
    · cases hm
    · simp [Frequency.trajectory_masks]
  | cons file files ih =>
    intro x r h
    rw [plot_trajectories_cons] at h
    split at h
    · cases h
    · rename_i y hy
      obtain ⟨hl, hm, hf, hg⟩ := ih y r h
      obtain ⟨_, _, _, _, _, yf, _, _, yg⟩ := plot_trajectory_ok P M fuel _ _ _ _ y hy
      have cell : ∀ i, i < x.2.2.field_max.toNat → y.2.1 i = 0 ∨ y.2.1 i = 1 := by
        intro i hi
        rcases mask_cell P M fuel _ _ _ _ y hy i hi with a | ⟨c, a⟩
        · exact Or.inl a
        · exact Or.inr (a.trans (get_weight_plain P M c hw))
      have e : Frequency.trajectory_masks P M fuel x.2.2 x.1 x.2.1 (file :: files) =
          y.2.1 :: Frequency.trajectory_masks P M fuel y.2.2 y.1 y.2.1 files := by
        rw [Frequency.trajectory_masks, hy]
      rw [e]
      rw [yf] at hm hf hg
      refine ⟨by rw [List.length_cons, hl, List.length_cons], fun m hmem i hi => ?_, hf,
        fun i hi => ?_⟩
      · rcases List.mem_cons.1 hmem with a | a
        · rw [a]
          exact cell i hi
        · exact hm m a i hi
      · rw [hg i hi, yg i, if_pos hi, List.countP_cons]
        rcases cell i hi with a | a
        · rw [a]
          simp
        · rw [a]
          simp only [ne_eq, one_ne_zero, not_false_eq_true, decide_True, if_true]
          push_cast
          ring

/-- C34: with WEIGHT = 0, starting from the zero grid, after
`plot_trajectories` has processed `N` trajectory files there is one mask per
file, every mask cell below `field_max` is 0 or 1, and every cell of the grid
below `field_max` holds the number of masks that marked the cell, an integer
between 0 and `N`, whatever the number of segments and steps that passed
through the cell. -/
theorem C34_counts (P : Frequency.param α) (M : libm α) (fuel : Nat)
    (st : Frequency.state α) (current : Frequency.trajectory α)
    (files : List (Option (List (α × α))))
    (r : Frequency.trajectory α × (Nat → α) × Frequency.state α)
    (hw : P.WEIGHT = 0) (hz : ∀ i, st.field_grid i = 0)
    (h : Frequency.plot_trajectories P M fuel st current files = .ok r) :
    (Frequency.trajectory_masks P M fuel st current (fun _ => 0) files).length =
      files.length ∧
    (∀ m ∈ Frequency.trajectory_masks P M fuel st current (fun _ => 0) files,
      ∀ i, i < st.field_max.toNat → m i = 0 ∨ m i = 1) ∧
    ∀ i, i < st.field_max.toNat →
      r.2.2.field_grid i =
        (((Frequency.trajectory_masks P M fuel st current (fun _ => 0) files).countP
          (fun m => decide (m i ≠ 0)) : Nat) : α) ∧
      (Frequency.trajectory_masks P M fuel st current (fun _ => 0) files).countP
        (fun m => decide (m i ≠ 0)) ≤ files.length := by
  obtain ⟨hl, hm, _, hg⟩ := masks_count P M fuel hw files (current, fun _ => 0, st) r h
  refine ⟨hl, hm, fun i hi => ⟨?_, ?_⟩⟩
  · have := hg i hi
    simp only [hz i, zero_add] at this
    exact this
  · rw [← hl]
    exact List.countP_le_length _

end counts

section two_pass

variable {α : Type} [LinearOrderedField α] [FloorRing α]

/-- A segment along one row that starts at the grid origin and ends inside
cell (0,0), drawn with at most two passes of the loop. -/
theorem flat_segment_two (P : Frequency.param α) (M : libm α)
    (current : Frequency.trajectory α) (st : Frequency.state α)
    (hw : P.WEIGHT = 0)
    (h1 : current.x_plot_min = 0) (h2 : current.y_plot_min = 0)
    (h3 : current.x_plot_max = st.x_field) (h4 : current.y_plot_max = st.y_field)
    (hxf : 1 ≤ st.x_field) (hyf : 1 ≤ st.y_field)
    (a : Frequency.cell_x P M st current.x_old current.y_old = 0)
    (b1 : 0 ≤ Frequency.cell_y P st current.y_old)
    (b2 : Frequency.cell_y P st current.y_old < 1)
    (c1 : 0 < Frequency.cell_x P M st current.x_new current.y_new)
    (c2 : Frequency.cell_x P M st current.x_new current.y_new < 1)
    (d : Frequency.cell_y P st current.y_old = Frequency.cell_y P st current.y_new)
    (hstep : 0 < (P.RES : α) / (Frequency.DEGDISTANCE * M.cos (deg2rad M current.y_new)))
    (hb : Frequency.cell_x P M st current.x_new current.y_new ≤
      (P.RES : α) / (Frequency.DEGDISTANCE * M.cos (deg2rad M current.y_new)) +
      (P.RES : α) / (Frequency.DEGDISTANCE * M.cos (deg2rad M current.y_new))) :
    Frequency.plot_to_next_point P M 2 (fun _ => 0) current st =
      .ok (Function.update (fun _ => 0) 0 1) := by
  simp only [Frequency.cell_x, Frequency.cell_y] at a b1 b2 c1 c2 d hb
  unfold Frequency.plot_to_next_point
  rw [get_weight_plain P M current hw]
  dsimp only
  rw [if_pos d, a, if_neg (not_lt.2 c1.le)]
  dsimp only
  unfold Frequency.walk
  rw [if_pos c1,
    (plot_cell_origin st current h1 h2 h3 h4 hxf hyf 0 _ le_rfl zero_lt_one b1 b2).1]
  apply walk_const _ _ _ _ 0 hstep _ 1 1 _ (by linarith) _ le_rfl
  · intro v hv hvb
    exact (plot_cell_origin st current h1 h2 h3 h4 hxf hyf v _ hv (by linarith) b1 b2).2
  · rw [Nat.cast_one, one_mul, zero_add]
    exact hb

end two_pass

theorem near_segment :
    Frequency.plot_to_next_point (Frequency.default_param : Frequency.param ℝ)
      ⟨Real.sin, Real.cos, Real.arccos, Real.sqrt, Real.pi⟩ 2 (fun _ => 0)
      { (Frequency.strip_start : Frequency.trajectory ℝ) with
        x_new := 1 / 10, y_new := 0, x_midpoint := (0 + 1 / 10) / 2,
        y_midpoint := (0 + 0) / 2 }
      (Frequency.strip_state : Frequency.state ℝ) =
      .ok (Function.update (fun _ => 0) 0 1) := by
  apply flat_segment_two _ _ _ _ rfl rfl rfl rfl rfl (by decide) (by decide)
  · simp [Frequency.cell_x, Frequency.strip_start, Frequency.strip_state,
      Frequency.zero_state]
  · simp [Frequency.cell_y, Frequency.strip_start, Frequency.strip_state,
      Frequency.zero_state]
  · simp [Frequency.cell_y, Frequency.strip_start, Frequency.strip_state,
      Frequency.zero_state]
  · simp only [Frequency.cell_x, Frequency.strip_start, Frequency.strip_state,
      Frequency.zero_state, Frequency.default_param, Frequency.DEGDISTANCE, deg2rad,
      zero_mul, zero_div, Real.cos_zero, sub_zero, mul_one, Int.cast_ofNat]
    norm_num
  · simp only [Frequency.cell_x, Frequency.strip_start, Frequency.strip_state,
      Frequency.zero_state, Frequency.default_param, Frequency.DEGDISTANCE, deg2rad,
      zero_mul, zero_div, Real.cos_zero, sub_zero, mul_one, Int.cast_ofNat]
    norm_num
  · rfl
  · simp only [Frequency.default_param, Frequency.DEGDISTANCE, deg2rad,
      zero_mul, zero_div, Real.cos_zero, mul_one, Int.cast_ofNat]
    norm_num
  · simp only [Frequency.cell_x, Frequency.strip_start, Frequency.strip_state,
      Frequency.zero_state, Frequency.default_param, Frequency.DEGDISTANCE, deg2rad,
      zero_mul, zero_div, Real.cos_zero, sub_zero, mul_one, Int.cast_ofNat]
    norm_num

theorem near_file_run :
    ∃ r, Frequency.plot_trajectories (Frequency.default_param : Frequency.param ℝ)
      ⟨Real.sin, Real.cos, Real.arccos, Real.sqrt, Real.pi⟩ 2
      (Frequency.strip_state : Frequency.state ℝ) (Frequency.strip_start : Frequency.trajectory ℝ)
      [some [(0, 0), (deg2rad ⟨Real.sin, Real.cos, Real.arccos, Real.sqrt, Real.pi⟩ (1 / 10), 0)]]
        = .ok r ∧
      r.2.1 = Function.update (fun _ => (0 : ℝ)) 0 1 := by
  have e0 : rad2deg ⟨Real.sin, Real.cos, Real.arccos, Real.sqrt, Real.pi⟩ (0 : ℝ) = 0 := by
    unfold rad2deg
    simp
  have e1 : rad2deg ⟨Real.sin, Real.cos, Real.arccos, Real.sqrt, Real.pi⟩
      (deg2rad ⟨Real.sin, Real.cos, Real.arccos, Real.sqrt, Real.pi⟩ (1 / 10)) = (1 / 10 : ℝ) :=
    rad2deg_deg2rad _ Real.pi_pos _
  have r1 := read_trajectory_row_ok (Frequency.default_param : Frequency.param ℝ)
    ⟨Real.sin, Real.cos, Real.arccos, Real.sqrt, Real.pi⟩ 2
    (Frequency.strip_state : Frequency.state ℝ)
    ((Frequency.strip_start : Frequency.trajectory ℝ), fun _ => 0)
    (deg2rad ⟨Real.sin, Real.cos, Real.arccos, Real.sqrt, Real.pi⟩ (1 / 10), 0) (1 / 10) 0 _
    e1 e0 near_segment
  have run : Frequency.read_trajectory (Frequency.default_param : Frequency.param ℝ)
      ⟨Real.sin, Real.cos, Real.arccos, Real.sqrt, Real.pi⟩ 2
      (Frequency.strip_state : Frequency.state ℝ) (Frequency.strip_start : Frequency.trajectory ℝ)
      (fun _ => 0)
      [(deg2rad ⟨Real.sin, Real.cos, Real.arccos, Real.sqrt, Real.pi⟩ (1 / 10), 0)] =
      .ok ({ (Frequency.strip_start : Frequency.trajectory ℝ) with
        x_new := 1 / 10, y_new := 0, x_midpoint := (0 + 1 / 10) / 2,
        y_midpoint := (0 + 0) / 2, x_old := 1 / 10, y_old := 0 },
        Function.update (fun _ => 0) 0 1) := by
    unfold Frequency.read_trajectory
    rw [List.foldlM_cons, r1]
    rfl
  unfold Frequency.plot_trajectories
  rw [List.foldlM_cons]
  unfold Frequency.plot_trajectory
  simp only [e0, init_field_zero]
  erw [run]
  exact ⟨_, rfl, rfl⟩

theorem C34_counts_witness :
    ∃ r, Frequency.plot_trajectories (Frequency.default_param : Frequency.param ℝ)
      ⟨Real.sin, Real.cos, Real.arccos, Real.sqrt, Real.pi⟩ 2
      (Frequency.strip_state : Frequency.state ℝ) (Frequency.strip_start : Frequency.trajectory ℝ)
      [some [(0, 0), (deg2rad ⟨Real.sin, Real.cos, Real.arccos, Real.sqrt, Real.pi⟩ (1 / 10), 0)]]
        = .ok r ∧
      (Frequency.trajectory_masks (Frequency.default_param : Frequency.param ℝ)
        ⟨Real.sin, Real.cos, Real.arccos, Real.sqrt, Real.pi⟩ 2
        (Frequency.strip_state : Frequency.state ℝ)
        (Frequency.strip_start : Frequency.trajectory ℝ) (fun _ => 0)
        [some [(0, 0),
          (deg2rad ⟨Real.sin, Real.cos, Real.arccos, Real.sqrt, Real.pi⟩ (1 / 10), 0)]]).length
        = 1 := by
  obtain ⟨r, h, _⟩ := near_file_run
  exact ⟨r, h, (C34_counts (Frequency.default_param : Frequency.param ℝ) _ 2
    (Frequency.strip_state : Frequency.state ℝ) (Frequency.strip_start : Frequency.trajectory ℝ)
    _ r rfl (fun _ => rfl) h).1⟩

theorem wrap_window (K half : Int) (hK0 : 0 ≤ K) (hK : K < 1073741824) (hh0 : 0 ≤ half)
    (hh : half < 1073741824) :
    Frequency.to_int (Frequency.to_unsigned (Frequency.to_unsigned (K - 1) -
      Frequency.to_unsigned half)) = K - 1 - half ∧
    Frequency.to_int (Frequency.to_unsigned (Frequency.to_unsigned (K - 1) +
      Frequency.to_unsigned half)) = K - 1 + half := by
  unfold Frequency.to_int Frequency.to_unsigned
  constructor <;> omega

section plot_area_lemmas

variable {α : Type} [LinearOrderedField α] [FloorRing α]

theorem rad2idx_floor (f d : α) (h0 : 0 ≤ f / d) (hr : ⌊f / d⌋ < 4294967296) :
    Frequency.rad2idx f d = ⌊f / d⌋ := by
  unfold Frequency.rad2idx Frequency.to_unsigned
  rw [c_int_of_nonneg _ h0]
  have := Int.floor_nonneg.2 h0
  omega

theorem init_plot_area_whole (P : Frequency.param α) (M : libm α) (st : Frequency.state α)
    (current : Frequency.trajectory α) (h : current.plot_size ≤ 0) :
    Frequency.init_plot_area P M st current =
      .ok { current with
        x_plot_min := 0, x_plot_max := st.x_field, y_plot_min := 0,
        y_plot_max := st.y_field } := by
  unfold Frequency.init_plot_area
  rw [if_neg (not_lt.2 h)]

theorem init_plot_area_error (P : Frequency.param α) (M : libm α) (st : Frequency.state α)
    (current : Frequency.trajectory α) (h : current.plot_size > 0)
    (hm : P.MIDLA < st.la_min ∨ P.MIDLA > st.la_max ∨ P.MIDLO < st.lo_min ∨
      P.MIDLO > st.lo_max) :
    Frequency.init_plot_area P M st current = .error .midpoint_range := by
  unfold Frequency.init_plot_area
  rw [if_pos h, if_pos hm]

/-- The plot window of `init_plot_area` in closed form: with `K_y` the row and
`K_x` the column of the grid element that holds the midpoint, the window is
`K - 1 - s/2 .. K - 1 + s/2` in both directions, cut to the grid. -/
theorem init_plot_area_window (P : Frequency.param α) (M : libm α) (st : Frequency.state α)
    (current : Frequency.trajectory α) (h : current.plot_size > 0)
    (hs : current.plot_size < 2147483646)
    (hla : st.la_min ≤ P.MIDLA) (hla2 : P.MIDLA ≤ st.la_max)
    (hlo : st.lo_min ≤ P.MIDLO) (hlo2 : P.MIDLO ≤ st.lo_max)
    (hres : 0 < P.RES)
    (hcos : 0 < M.cos (deg2rad M (st.la_min +
      ((⌊(P.MIDLA - st.la_min) / ((P.RES : α) / Frequency.DEGDISTANCE)⌋ : Int) : α) *
        ((P.RES : α) / Frequency.DEGDISTANCE))))
    (hy : ⌊(P.MIDLA - st.la_min) / ((P.RES : α) / Frequency.DEGDISTANCE)⌋ < 1073741824)
    (hx : ⌊(P.MIDLO - st.lo_min) / ((P.RES : α) / (Frequency.DEGDISTANCE *
      M.cos (deg2rad M (st.la_min +
        ((⌊(P.MIDLA - st.la_min) / ((P.RES : α) / Frequency.DEGDISTANCE)⌋ : Int) : α) *
          ((P.RES : α) / Frequency.DEGDISTANCE)))))⌋ < 1073741824) :
    Frequency.init_plot_area P M st current =
      .ok { current with
        plot_size := current.plot_size + current.plot_size % 2
        x_plot_min := max 0
          (⌊(P.MIDLO - st.lo_min) / ((P.RES : α) / (Frequency.DEGDISTANCE *
            M.cos (deg2rad M (st.la_min +
              ((⌊(P.MIDLA - st.la_min) / ((P.RES : α) / Frequency.DEGDISTANCE)⌋ : Int) : α) *
                ((P.RES : α) / Frequency.DEGDISTANCE)))))⌋ - 1 -
            (current.plot_size + current.plot_size % 2) / 2)
        x_plot_max := min st.x_field
          (⌊(P.MIDLO - st.lo_min) / ((P.RES : α) / (Frequency.DEGDISTANCE *
            M.cos (deg2rad M (st.la_min +
              ((⌊(P.MIDLA - st.la_min) / ((P.RES : α) / Frequency.DEGDISTANCE)⌋ : Int) : α) *
                ((P.RES : α) / Frequency.DEGDISTANCE)))))⌋ - 1 +
            (current.plot_size + current.plot_size % 2) / 2)
        y_plot_min := max 0
          (⌊(P.MIDLA - st.la_min) / ((P.RES : α) / Frequency.DEGDISTANCE)⌋ - 1 -
            (current.plot_size + current.plot_size % 2) / 2)
        y_plot_max := min st.y_field
          (⌊(P.MIDLA - st.la_min) / ((P.RES : α) / Frequency.DEGDISTANCE)⌋ - 1 +
            (current.plot_size + current.plot_size % 2) / 2) } := by
  have hdeg : (0 : α) < Frequency.DEGDISTANCE := by
    unfold Frequency.DEGDISTANCE
    norm_num
  have hr : (0 : α) < (P.RES : α) := by exact_mod_cast hres
  have hdy : 0 < (P.RES : α) / Frequency.DEGDISTANCE := div_pos hr hdeg
  have qy : 0 ≤ (P.MIDLA - st.la_min) / ((P.RES : α) / Frequency.DEGDISTANCE) :=
    div_nonneg (by linarith) hdy.le
  have ky0 := Int.floor_nonneg.2 qy
  have row_eq : (if P.MIDLA > st.la_min then
      Frequency.rad2idx (P.MIDLA - st.la_min) ((P.RES : α) / Frequency.DEGDISTANCE) else 0) =
      ⌊(P.MIDLA - st.la_min) / ((P.RES : α) / Frequency.DEGDISTANCE)⌋ := by
    split_ifs with c
    · exact rad2idx_floor _ _ qy (by omega)
    · have e : P.MIDLA = st.la_min := le_antisymm (not_lt.1 c) hla
      rw [e, sub_self, zero_div, Int.floor_zero]
  have y_eq : (if P.MIDLA > st.la_min then st.la_min +
      ((if P.MIDLA > st.la_min then
        Frequency.rad2idx (P.MIDLA - st.la_min) ((P.RES : α) / Frequency.DEGDISTANCE)
        else 0 : Int) : α) * ((P.RES : α) / Frequency.DEGDISTANCE) else st.la_min) =
      st.la_min +
        ((⌊(P.MIDLA - st.la_min) / ((P.RES : α) / Frequency.DEGDISTANCE)⌋ : Int) : α) *
          ((P.RES : α) / Frequency.DEGDISTANCE) := by
    rw [row_eq]
    split_ifs with c
    · rfl
    · have e : P.MIDLA = st.la_min := le_antisymm (not_lt.1 c) hla
      rw [e, sub_self, zero_div, Int.floor_zero, Int.cast_zero, zero_mul, add_zero]
  unfold Frequency.init_plot_area
  rw [if_pos h, if_neg (by
    intro hm
    rcases hm with a | a | a | a
    · exact absurd hla (not_le.2 a)
    · exact absurd hla2 (not_le.2 a)
    · exact absurd hlo (not_le.2 a)
    · exact absurd hlo2 (not_le.2 a))]
  dsimp only
  rw [y_eq]
  have hdx := div_pos hr (mul_pos hdeg hcos)
  have qx := div_nonneg (sub_nonneg.2 hlo) hdx.le
  have kx0 := Int.floor_nonneg.2 qx
  have col_eq : (if P.MIDLO > st.lo_min then
      Frequency.rad2idx (P.MIDLO - st.lo_min) ((P.RES : α) / (Frequency.DEGDISTANCE *
        M.cos (deg2rad M (st.la_min +
          ((⌊(P.MIDLA - st.la_min) / ((P.RES : α) / Frequency.DEGDISTANCE)⌋ : Int) : α) *
            ((P.RES : α) / Frequency.DEGDISTANCE))))) else 0) =
      ⌊(P.MIDLO - st.lo_min) / ((P.RES : α) / (Frequency.DEGDISTANCE *
        M.cos (deg2rad M (st.la_min +
          ((⌊(P.MIDLA - st.la_min) / ((P.RES : α) / Frequency.DEGDISTANCE)⌋ : Int) : α) *
            ((P.RES : α) / Frequency.DEGDISTANCE)))))⌋ := by
    split_ifs with c
    · exact rad2idx_floor _ _ qx (by omega)
    · have e : P.MIDLO = st.lo_min := le_antisymm (not_lt.1 c) hlo
      rw [e, sub_self, zero_div, Int.floor_zero]
  rw [col_eq, row_eq]
  have ps : (if Int.tmod current.plot_size 2 = 1 then current.plot_size + 1
      else current.plot_size) = current.plot_size + current.plot_size % 2 := by
    have t : Int.tmod current.plot_size 2 = current.plot_size % 2 :=
      Int.tmod_eq_emod (le_of_lt h) (by decide)
    rw [t]
    split_ifs with c <;> omega
  rw [ps]
  have hd : Int.tdiv (current.plot_size + current.plot_size % 2) 2 =
      (current.plot_size + current.plot_size % 2) / 2 :=
    Int.tdiv_eq_ediv (by omega) (by decide)
  rw [hd]
  generalize ⌊(P.MIDLO - st.lo_min) / ((P.RES : α) / (Frequency.DEGDISTANCE *
      M.cos (deg2rad M (st.la_min +
        ((⌊(P.MIDLA - st.la_min) / ((P.RES : α) / Frequency.DEGDISTANCE)⌋ : Int) : α) *
          ((P.RES : α) / Frequency.DEGDISTANCE)))))⌋ = Kx at hx kx0 ⊢
  generalize ⌊(P.MIDLA - st.la_min) / ((P.RES : α) / Frequency.DEGDISTANCE)⌋ = Ky at hy ky0 ⊢
  obtain ⟨x1, x2⟩ := wrap_window Kx ((current.plot_size + current.plot_size % 2) / 2)
    kx0 hx (by omega) (by omega)
  obtain ⟨y1, y2⟩ := wrap_window Ky ((current.plot_size + current.plot_size % 2) / 2)
    ky0 hy (by omega) (by omega)
  rw [x1, x2, y1, y2]
  congr 2 <;> simp only [max_def, min_def] <;> split_ifs <;> omega

end plot_area_lemmas

theorem window_row :
    ⌊((Frequency.window_param : Frequency.param ℝ).MIDLA -
      (Frequency.window_state : Frequency.state ℝ).la_min) /
      (((Frequency.window_param : Frequency.param ℝ).RES : ℝ) / Frequency.DEGDISTANCE)⌋ = 0 := by
  simp [Frequency.window_param, Frequency.window_state, Frequency.zero_state]

theorem window_cos :
    Real.cos (deg2rad ⟨Real.sin, Real.cos, Real.arccos, Real.sqrt, Real.pi⟩
      ((Frequency.window_state : Frequency.state ℝ).la_min + (((0 : Int) : ℝ)) *
        (((Frequency.window_param : Frequency.param ℝ).RES : ℝ) / Frequency.DEGDISTANCE))) =
      1 := by
  simp [deg2rad, Frequency.window_state, Frequency.zero_state]

theorem window_col :
    ⌊((Frequency.window_param : Frequency.param ℝ).MIDLO -
      (Frequency.window_state : Frequency.state ℝ).lo_min) /
      (((Frequency.window_param : Frequency.param ℝ).RES : ℝ) /
        (Frequency.DEGDISTANCE * (1 : ℝ)))⌋ = 4 := by
  rw [Int.floor_eq_iff]
  simp only [Frequency.window_param, Frequency.window_state, Frequency.zero_state,
    Frequency.default_param, Frequency.DEGDISTANCE, Int.cast_ofNat]
  norm_num

/-- The plot window of the example: 2 x 2 elements around lon 1, lat 0 on the
grid of `window_state`. -/
theorem window_run :
    Frequency.init_plot_area (Frequency.window_param : Frequency.param ℝ)
      ⟨Real.sin, Real.cos, Real.arccos, Real.sqrt, Real.pi⟩
      (Frequency.window_state : Frequency.state ℝ)
      { (Frequency.strip_start : Frequency.trajectory ℝ) with plot_size := 2 } =
      .ok { (Frequency.strip_start : Frequency.trajectory ℝ) with
        plot_size := 2, x_plot_min := 2, x_plot_max := 4, y_plot_min := 0, y_plot_max := 0 } := by
  have w := init_plot_area_window (Frequency.window_param : Frequency.param ℝ)
    ⟨Real.sin, Real.cos, Real.arccos, Real.sqrt, Real.pi⟩
    (Frequency.window_state : Frequency.state ℝ)
    { (Frequency.strip_start : Frequency.trajectory ℝ) with plot_size := 2 }
    (by decide) (by decide)
    (by simp [Frequency.window_param, Frequency.window_state, Frequency.zero_state])
    (by simp [Frequency.window_param, Frequency.window_state, Frequency.zero_state])
    (by simp [Frequency.window_param, Frequency.window_state, Frequency.zero_state])
    (by
      simp only [Frequency.window_param, Frequency.window_state, Frequency.zero_state]
      norm_num)
    (by decide)
    (by
      show 0 < Real.cos _
      rw [window_row, window_cos]
      exact one_pos)
    (by rw [window_row]; decide)
    (by
      show ⌊_ / (_ / (_ * Real.cos _))⌋ < _
      rw [window_row, window_cos, window_col]
      decide)
  rw [w]
  simp only [window_row]
  have c := window_cos
  have k := window_col
  simp only [c, k]
  rfl

/-- C31: `init_plot_area`.  With `plot_size <= 0` the window is the whole
grid.  With `plot_size > 0` a midpoint outside the bounding box stops the
program; otherwise `plot_size` is rounded up to the next even number `s`, and
with `K_y`, `K_x` the row and column of the grid element that holds the
midpoint the window is `K_x - 1 - s/2 .. K_x - 1 + s/2` by
`K_y - 1 - s/2 .. K_y - 1 + s/2`, cut to `0 .. x_field` and `0 .. y_field`:
it is centred one element before the element that holds the midpoint.  For
SIZE = 2, a mesh of 25 km and the midpoint lon 1, lat 0 on a grid that starts
at lon 0, lat 0, the midpoint lies in column 4 and the window is the columns
2 .. 4, which does not contain the grid coordinates of the midpoint. -/
theorem C31_plot_area (P : Frequency.param ℝ) (st : Frequency.state ℝ)
    (current : Frequency.trajectory ℝ) :
    (current.plot_size ≤ 0 →
      Frequency.init_plot_area P ⟨Real.sin, Real.cos, Real.arccos, Real.sqrt, Real.pi⟩ st
        current =
        .ok { current with
          x_plot_min := 0, x_plot_max := st.x_field, y_plot_min := 0,
          y_plot_max := st.y_field }) ∧
    (current.plot_size > 0 →
      (P.MIDLA < st.la_min ∨ P.MIDLA > st.la_max ∨ P.MIDLO < st.lo_min ∨
        P.MIDLO > st.lo_max) →
      Frequency.init_plot_area P ⟨Real.sin, Real.cos, Real.arccos, Real.sqrt, Real.pi⟩ st
        current = .error .midpoint_range) ∧
    (current.plot_size > 0 → current.plot_size < 2147483646 →
      st.la_min ≤ P.MIDLA → P.MIDLA ≤ st.la_max → st.lo_min ≤ P.MIDLO →
      P.MIDLO ≤ st.lo_max → 0 < P.RES →
      ∀ Ky Kx : Int,
        Ky = ⌊(P.MIDLA - st.la_min) / ((P.RES : ℝ) / Frequency.DEGDISTANCE)⌋ →
        0 < Real.cos (deg2rad ⟨Real.sin, Real.cos, Real.arccos, Real.sqrt, Real.pi⟩
          (st.la_min + (Ky : ℝ) * ((P.RES : ℝ) / Frequency.DEGDISTANCE))) →
        Kx = ⌊(P.MIDLO - st.lo_min) / ((P.RES : ℝ) / (Frequency.DEGDISTANCE *
          Real.cos (deg2rad ⟨Real.sin, Real.cos, Real.arccos, Real.sqrt, Real.pi⟩
            (st.la_min + (Ky : ℝ) * ((P.RES : ℝ) / Frequency.DEGDISTANCE)))))⌋ →
        Ky < 1073741824 → Kx < 1073741824 →
        Frequency.init_plot_area P ⟨Real.sin, Real.cos, Real.arccos, Real.sqrt, Real.pi⟩ st
          current =
          .ok { current with
            plot_size := current.plot_size + current.plot_size % 2
            x_plot_min := max 0 (Kx - 1 - (current.plot_size + current.plot_size % 2) / 2)
            x_plot_max :=
              min st.x_field (Kx - 1 + (current.plot_size + current.plot_size % 2) / 2)
            y_plot_min := max 0 (Ky - 1 - (current.plot_size + current.plot_size % 2) / 2)
            y_plot_max :=
              min st.y_field (Ky - 1 + (current.plot_size + current.plot_size % 2) / 2) }) ∧
    (∃ c2, Frequency.init_plot_area (Frequency.window_param : Frequency.param ℝ)
        ⟨Real.sin, Real.cos, Real.arccos, Real.sqrt, Real.pi⟩
        (Frequency.window_state : Frequency.state ℝ)
        { (Frequency.strip_start : Frequency.trajectory ℝ) with
          plot_size := (Frequency.window_param : Frequency.param ℝ).SIZE } = .ok c2 ∧
      c2.x_plot_min = 2 ∧ c2.x_plot_max = 4 ∧ c2.y_plot_min = 0 ∧ c2.y_plot_max = 0 ∧
      ⌊Frequency.cell_x (Frequency.window_param : Frequency.param ℝ)
        ⟨Real.sin, Real.cos, Real.arccos, Real.sqrt, Real.pi⟩
        (Frequency.window_state : Frequency.state ℝ) 1 0⌋ = 4 ∧
      ¬ Frequency.check_plot_area
        (Frequency.cell_x (Frequency.window_param : Frequency.param ℝ)
          ⟨Real.sin, Real.cos, Real.arccos, Real.sqrt, Real.pi⟩
          (Frequency.window_state : Frequency.state ℝ) 1 0)
        (Frequency.cell_y (Frequency.window_param : Frequency.param ℝ)
          (Frequency.window_state : Frequency.state ℝ) 0) c2) := by
  refine ⟨init_plot_area_whole P _ st current, init_plot_area_error P _ st current, ?_, ?_⟩
  · intro h hs hla hla2 hlo hlo2 hres Ky Kx eKy hcos eKx hy hx
    subst eKy
    subst eKx
    exact init_plot_area_window P _ st current h hs hla hla2 hlo hlo2 hres hcos hy hx
  · have cx : Frequency.cell_x (Frequency.window_param : Frequency.param ℝ)
        ⟨Real.sin, Real.cos, Real.arccos, Real.sqrt, Real.pi⟩
        (Frequency.window_state : Frequency.state ℝ) 1 0 = 111.178 / 25 := by
      simp only [Frequency.cell_x, Frequency.window_param, Frequency.window_state,
        Frequency.zero_state, Frequency.default_param, Frequency.DEGDISTANCE, deg2rad,
        zero_mul, zero_div, Real.cos_zero, sub_zero, mul_one, Int.cast_ofNat]
      norm_num
    refine ⟨_, window_run, rfl, rfl, rfl, rfl, ?_, ?_⟩
    · rw [cx, Int.floor_eq_iff]
      norm_num
    · rw [cx]
      unfold Frequency.check_plot_area
      intro hc
      have := hc.2.1
      norm_num at this

section file_format

variable {α : Type}

theorem skip_line_app (a b : List Char) (h : '\n' ∉ a) :
    Frequency.skip_line (a ++ b) = Frequency.skip_line b := by
  induction a with
  | nil => rfl
  | cons c a ih =>
    have hc : c ≠ '\n' := fun e => h (by rw [e]; exact List.mem_cons_self _ _)
    have ha : '\n' ∉ a := fun e => h (List.mem_cons_of_mem _ e)
    simp only [List.cons_append, Frequency.skip_line, if_neg hc]
    exact ih ha

theorem skip_line_newline (b : List Char) : Frequency.skip_line ('\n' :: b) = some b := by
  simp [Frequency.skip_line]

theorem skip_line_cons (c : Char) (b : List Char) (h : c ≠ '\n') :
    Frequency.skip_line (c :: b) = Frequency.skip_line b := by
  simp [Frequency.skip_line, h]

theorem count_app (a b : List Char) :
    (a ++ b).count '\n' = a.count '\n' + b.count '\n' := List.count_append _ _ _

theorem header_text (F : printf α) (P : param α) (ZONENAME : String) (st : state α)
    (hi : ∀ w n, '\n' ∉ (F.int w n).data) (hf : ∀ w p x, '\n' ∉ (F.float w p x).data)
    (hz : '\n' ∉ ZONENAME.data) (rest : List Char) :
    (output_header F P ZONENAME st).data.count '\n' = 7 ∧
    Frequency.read_header 7 ((output_header F P ZONENAME st).data ++ rest) = .ok rest ∧
    Frequency.skip_header 7 ((output_header F P ZONENAME st).data ++ rest) = some rest := by
  have n1 : "\n".data = ['\n'] := rfl
  have n2 : "\n\n".data = ['\n', '\n'] := rfl
  have ci : ∀ w n, (F.int w n).data.count '\n' = 0 := fun w n => List.count_eq_zero.2 (hi w n)
  have cf : ∀ w p x, (F.float w p x).data.count '\n' = 0 :=
    fun w p x => List.count_eq_zero.2 (hf w p x)
  have cz : ZONENAME.data.count '\n' = 0 := List.count_eq_zero.2 hz
  unfold output_header
  simp only [String.data_append, n1, n2, List.append_assoc]
  refine ⟨?_, ?_, ?_⟩
  · simp only [count_app, ci, cf, cz]
    decide
  · simp (disch := first | decide | exact hi _ _ | exact hf _ _ _ | exact hz) only
      [Frequency.read_header, skip_line_app, List.cons_append, List.nil_append,
        skip_line_newline, skip_line_cons]
  · simp (disch := first | decide | exact hi _ _ | exact hf _ _ _ | exact hz) only
      [Frequency.skip_header, skip_line_app, List.cons_append, List.nil_append,
        skip_line_newline, skip_line_cons]

end file_format

theorem digitChar_ne_newline (d : Nat) : Nat.digitChar d ≠ '\n' := by
  by_cases h : d < 16
  · interval_cases d <;> decide
  · have e : Nat.digitChar d = '*' := by
      unfold Nat.digitChar
      have h0 : ¬ d = 0 := by omega
      have h1 : ¬ d = 1 := by omega
      have h2 : ¬ d = 2 := by omega
      have h3 : ¬ d = 3 := by omega
      have h4 : ¬ d = 4 := by omega
      have h5 : ¬ d = 5 := by omega
      have h6 : ¬ d = 6 := by omega
      have h7 : ¬ d = 7 := by omega
      have h8 : ¬ d = 8 := by omega
      have h9 : ¬ d = 9 := by omega
      have ha : ¬ d = 10 := by omega
      have hb : ¬ d = 11 := by omega
      have hc : ¬ d = 12 := by omega
      have hd : ¬ d = 13 := by omega
      have he : ¬ d = 14 := by omega
      have hf : ¬ d = 15 := by omega
      rw [if_neg h0, if_neg h1, if_neg h2, if_neg h3, if_neg h4, if_neg h5, if_neg h6,
        if_neg h7, if_neg h8, if_neg h9, if_neg ha, if_neg hb, if_neg hc, if_neg hd,
        if_neg he, if_neg hf]
    rw [e]
    decide

theorem toDigitsCore_clean (b : Nat) :
    ∀ (f n : Nat) (ds : List Char), '\n' ∉ ds → '\n' ∉ Nat.toDigitsCore b f n ds := by
  intro f
  induction f with
  | zero =>
    intro n ds h
    simpa [Nat.toDigitsCore] using h
  | succ f ih =>
    intro n ds h
    have hc : '\n' ∉ Nat.digitChar (n % b) :: ds := by
      intro hm
      rcases List.mem_cons.1 hm with e | e
      · exact digitChar_ne_newline _ e.symm
      · exact h e
    simp only [Nat.toDigitsCore]
    split_ifs
    · exact hc
    · exact ih _ _ hc

theorem nat_repr_clean (n : Nat) : '\n' ∉ (Nat.repr n).data := by
  show '\n' ∉ (Nat.toDigits 10 n).asString.data
  exact toDigitsCore_clean 10 _ _ [] (List.not_mem_nil _)

theorem int_text_clean (n : Int) : '\n' ∉ (toString n).data := by
  cases n with
  | ofNat m => exact nat_repr_clean m
  | negSucc m =>
    show '\n' ∉ ("-" ++ Nat.repr (Nat.succ m)).data
    rw [String.data_append]
    intro h
    rcases List.mem_append.1 h with e | e
    · revert e
      decide
    · exact nat_repr_clean _ e

section file_format2

variable {α : Type}

theorem foldl_text (f : Nat → String) (l : List Nat) :
    ∀ init : String, l.foldl (fun s j => s ++ f j) init =
      init ++ l.foldl (fun s j => s ++ f j) "" := by
  induction l with
  | nil =>
    intro init
    simp
  | cons a l ih =>
    intro init
    rw [List.foldl_cons, List.foldl_cons, ih (init ++ f a), ih ("" ++ f a),
      String.empty_append, String.append_assoc]

theorem output_line_count (F : printf α) (lo la : α)
    (hf : ∀ w p x, '\n' ∉ (F.float w p x).data) :
    (output_line F lo la).data.count '\n' = 1 := by
  have cf : ∀ w p x, (F.float w p x).data.count '\n' = 0 :=
    fun w p x => List.count_eq_zero.2 (hf w p x)
  have n1 : "\n".data = ['\n'] := rfl
  have n2 : ";".data = [';'] := rfl
  unfold output_line
  simp only [String.data_append, n1, n2, count_app, cf]
  decide

theorem lines_count (F : printf α) (lo la : Nat → α)
    (hf : ∀ w p x, '\n' ∉ (F.float w p x).data) (n : Nat) :
    ((List.range n).foldl (fun s j => s ++ output_line F (lo j) (la j)) "").data.count '\n' =
      n := by
  induction n with
  | zero => rfl
  | succ n ih =>
    rw [List.range_succ, List.foldl_append, List.foldl_cons, List.foldl_nil,
      String.data_append, count_app, ih, output_line_count F _ _ hf]

/-- C32: when the texts of the number conversions and ZONENAME hold no
newline, the text `print_output_file` writes before the first waypoint line
holds exactly 7 newline characters, the number HEADERLINES; `read_header` and
the header loop of `file_la_lo_min_max` skip exactly this text and stand at
the first waypoint line; the waypoint lines hold one newline each, and their
number is the number `N` of the count line `Trajektorienpunkte: N` when
`N >= 0`. -/
theorem C32_file_format (F : printf α) (P : param α) (ZONENAME : String) (st : state α)
    (hi : ∀ w n, '\n' ∉ (F.int w n).data) (hf : ∀ w p x, '\n' ∉ (F.float w p x).data)
    (hz : '\n' ∉ ZONENAME.data) :
    (output_header F P ZONENAME st).data.count '\n' = Frequency.HEADERLINES ∧
    print_output_text F P ZONENAME st = output_header F P ZONENAME st ++ output_lines F st ∧
    Frequency.read_header Frequency.HEADERLINES (print_output_text F P ZONENAME st).data =
      .ok (output_lines F st).data ∧
    Frequency.skip_header Frequency.HEADERLINES (print_output_text F P ZONENAME st).data =
      some (output_lines F st).data ∧
    (output_lines F st).data.count '\n' = (print_output_file st).2.length ∧
    (∃ pre, output_header F P ZONENAME st =
      pre ++ ("Trajektorienpunkte: " ++ F.int 0 (print_output_file st).1 ++ "\n\n")) ∧
    (0 ≤ st.point → (((print_output_file st).2.length : Nat) : Int) =
      (print_output_file st).1) := by
  have e : print_output_text F P ZONENAME st =
      output_header F P ZONENAME st ++ output_lines F st := by
    unfold print_output_text output_lines
    exact foldl_text _ _ _
  obtain ⟨c7, r7, s7⟩ := header_text F P ZONENAME st hi hf hz (output_lines F st).data
  refine ⟨c7, e, ?_, ?_, ?_, ⟨_, rfl⟩, fun h => ?_⟩
  · rw [e, String.data_append]
    exact r7
  · rw [e, String.data_append]
    exact s7
  · unfold output_lines print_output_file
    rw [lines_count F _ _ hf, List.length_map, List.length_range]
  · unfold print_output_file
    rw [List.length_map, List.length_range]
    exact Int.toNat_of_nonneg h

end file_format2

theorem plain_float_clean (x : ℚ) : '\n' ∉ (toString ⌊x⌋ ++ ".0").data := by
  rw [String.data_append]
  intro h
  rcases List.mem_append.1 h with e | e
  · exact int_text_clean _ e
  · revert e
    decide

theorem C32_file_format_witness :
    (output_header plain_printf (example_param 1 2 2 200) "CET"
      (example_state (example_param 1 2 2 200) rat_libm)).data.count '\n' =
        Frequency.HEADERLINES ∧
    Frequency.read_header Frequency.HEADERLINES
      (print_output_text plain_printf (example_param 1 2 2 200) "CET"
        (example_state (example_param 1 2 2 200) rat_libm)).data =
      .ok (output_lines plain_printf (example_state (example_param 1 2 2 200) rat_libm)).data :=
  ⟨(C32_file_format plain_printf (example_param 1 2 2 200) "CET"
      (example_state (example_param 1 2 2 200) rat_libm)
      (fun _ n => int_text_clean n) (fun _ _ x => plain_float_clean x) (by decide)).1,
    (C32_file_format plain_printf (example_param 1 2 2 200) "CET"
      (example_state (example_param 1 2 2 200) rat_libm)
      (fun _ n => int_text_clean n) (fun _ _ x => plain_float_clean x) (by decide)).2.2.1⟩

theorem valid_forward (t : date) (h : valid_date t) : valid_date (time_step_forward t) := by
  obtain ⟨y, m, d, hr⟩ := t
  obtain ⟨h1, h2, h3, h4, h5, h6⟩ := h
  simp only at h1 h2 h3 h4 h5 h6
  have hml := month_length_eq y m h1 h2
  unfold time_step_forward
  by_cases hh : hr = 23
  · by_cases hd : d < month_length y m
    · simp only [hh, hd, ne_eq, not_true_eq_false, if_false, if_true]
      refine ⟨h1, h2, ?_, ?_, by norm_num, by norm_num⟩
      · dsimp only; omega
      · dsimp only; omega
    · by_cases hm : m + 1 > 12
      · simp only [hh, hd, hm, ne_eq, not_true_eq_false, if_false, if_true]
        exact ⟨by norm_num, by norm_num, by norm_num, by simp [gregorian_days],
          by norm_num, by norm_num⟩
      · simp only [hh, hd, hm, ne_eq, not_true_eq_false, if_false]
        have hp := month_length_pos y (m + 1)
        rw [month_length_eq y (m + 1) (by omega) (by omega)] at hp
        refine ⟨?_, ?_, ?_, ?_, by norm_num, by norm_num⟩
        · dsimp only; omega
        · dsimp only; omega
        · dsimp only; omega
        · dsimp only; omega
  · simp only [hh, ne_eq, not_false_eq_true, if_true]
    refine ⟨h1, h2, h3, h4, ?_, ?_⟩
    · dsimp only; omega
    · dsimp only; omega

/-- The days before a month and the length of the month, month by month; `L`
is 1 in a leap year and 0 otherwise. -/
theorem month_table (Y m : Int) (h1 : 1 ≤ m) (h12 : m ≤ 12) :
    ∃ L : Int, (L = 0 ∨ L = 1) ∧
      ((m = 1 ∧ days_before_month Y m = 0 ∧ gregorian_days Y m = 31) ∨
       (m = 2 ∧ days_before_month Y m = 31 ∧ gregorian_days Y m = 28 + L) ∨
       (m = 3 ∧ days_before_month Y m = 59 + L ∧ gregorian_days Y m = 31) ∨
       (m = 4 ∧ days_before_month Y m = 90 + L ∧ gregorian_days Y m = 30) ∨
       (m = 5 ∧ days_before_month Y m = 120 + L ∧ gregorian_days Y m = 31) ∨
       (m = 6 ∧ days_before_month Y m = 151 + L ∧ gregorian_days Y m = 30) ∨
       (m = 7 ∧ days_before_month Y m = 181 + L ∧ gregorian_days Y m = 31) ∨
       (m = 8 ∧ days_before_month Y m = 212 + L ∧ gregorian_days Y m = 31) ∨
       (m = 9 ∧ days_before_month Y m = 243 + L ∧ gregorian_days Y m = 30) ∨
       (m = 10 ∧ days_before_month Y m = 273 + L ∧ gregorian_days Y m = 31) ∨
       (m = 11 ∧ days_before_month Y m = 304 + L ∧ gregorian_days Y m = 30) ∨
       (m = 12 ∧ days_before_month Y m = 334 + L ∧ gregorian_days Y m = 31)) ∧
      days_before_year (Y + 1) = days_before_year Y + 365 + L := by
  have hy : days_before_year (Y + 1) = days_before_year Y + 365 +
      (if gregorian_leap Y then 1 else 0) := by
    unfold days_before_year gregorian_leap
    split_ifs with c <;> omega
  by_cases hg : gregorian_leap Y
  · refine ⟨1, Or.inr rfl, ?_, by rw [hy, if_pos hg]⟩
    unfold days_before_month
    interval_cases m <;> simp [List.range_succ, gregorian_days, hg]
  · refine ⟨0, Or.inl rfl, ?_, by rw [hy, if_neg hg]⟩
    unfold days_before_month
    interval_cases m <;> simp [List.range_succ, gregorian_days, hg]

theorem days_before_year_mono (Y1 Y2 : Int) (h : Y1 ≤ Y2) :
    days_before_year Y1 ≤ days_before_year Y2 := by
  unfold days_before_year
  omega

theorem hour_count_forward (t : date) (h : valid_date t) :
    hour_count (time_step_forward t) = hour_count t + 1 := by
  obtain ⟨y, m, d, hr⟩ := t
  obtain ⟨h1, h2, h3, h4, h5, h6⟩ := h
  simp only at h1 h2 h3 h4 h5 h6
  have hml := month_length_eq y m h1 h2
  obtain ⟨L, hL, tab, hyear⟩ := month_table y m h1 h2
  unfold time_step_forward
  by_cases hh : hr = 23
  · by_cases hd : d < month_length y m
    · simp only [hh, hd, ne_eq, not_true_eq_false, if_false, if_true, hour_count]
      omega
    · by_cases hm : m + 1 > 12
      · simp only [hh, hd, hm, ne_eq, not_true_eq_false, if_false, if_true, hour_count]
        have e1 : days_before_month (y + 1) 1 = 0 := by
          simp [days_before_month]
        rw [e1, hyear]
        omega
      · simp only [hh, hd, hm, ne_eq, not_true_eq_false, if_false, hour_count]
        obtain ⟨L2, hL2, tab2, hyear2⟩ := month_table y (m + 1) (by omega) (by omega)
        omega
  · simp only [hh, ne_eq, not_false_eq_true, if_true, hour_count]
    omega

theorem hour_count_backward (t : date) (h : valid_date t) :
    hour_count (time_step_backward t) = hour_count t - 1 := by
  have e := hour_count_forward (time_step_backward t) (valid_backward t h)
  rw [forward_backward t h] at e
  omega

theorem year_offset (Y m d : Int) (h1 : 1 ≤ m) (h12 : m ≤ 12) (h3 : 1 ≤ d)
    (h4 : d ≤ gregorian_days Y m) :
    0 ≤ days_before_month Y m + (d - 1) ∧
      days_before_year Y + (days_before_month Y m + (d - 1)) < days_before_year (Y + 1) := by
  obtain ⟨L, hL, tab, hyear⟩ := month_table Y m h1 h12
  omega

theorem month_day_inj (Y m1 d1 m2 d2 : Int) (a1 : 1 ≤ m1) (a2 : m1 ≤ 12) (a3 : 1 ≤ d1)
    (a4 : d1 ≤ gregorian_days Y m1) (b1 : 1 ≤ m2) (b2 : m2 ≤ 12) (b3 : 1 ≤ d2)
    (b4 : d2 ≤ gregorian_days Y m2)
    (e : days_before_month Y m1 + d1 = days_before_month Y m2 + d2) : m1 = m2 ∧ d1 = d2 := by
  obtain ⟨L1, hL1, tab1, hyear1⟩ := month_table Y m1 a1 a2
  obtain ⟨L2, hL2, tab2, hyear2⟩ := month_table Y m2 b1 b2
  have eL : L1 = L2 := by omega
  subst eL
  clear hyear1 hyear2
  rcases tab1 with t | t | t | t | t | t | t | t | t | t | t | t <;>
    obtain ⟨t1, t2, t3⟩ := t <;> omega

theorem hour_count_inj (a b : date) (ha : valid_date a) (hb : valid_date b)
    (e : hour_count a = hour_count b) : a = b := by
  obtain ⟨y1, m1, d1, r1⟩ := a
  obtain ⟨y2, m2, d2, r2⟩ := b
  obtain ⟨a1, a2, a3, a4, a5, a6⟩ := ha
  obtain ⟨b1, b2, b3, b4, b5, b6⟩ := hb
  simp only at a1 a2 a3 a4 a5 a6 b1 b2 b3 b4 b5 b6
  simp only [hour_count] at e
  obtain ⟨o1, p1⟩ := year_offset y1 m1 d1 a1 a2 a3 a4
  obtain ⟨o2, p2⟩ := year_offset y2 m2 d2 b1 b2 b3 b4
  have ey : y1 = y2 := by
    rcases lt_trichotomy y1 y2 with c | c | c
    · have := days_before_year_mono (y1 + 1) y2 (by omega)
      omega
    · exact c
    · have := days_before_year_mono (y2 + 1) y1 (by omega)
      omega
  subst ey
  obtain ⟨em, ed⟩ := month_day_inj y1 m1 d1 m2 d2 a1 a2 a3 a4 b1 b2 b3 b4 (by omega)
  have er : r1 = r2 := by omega
  rw [em, ed, er]

/-- C37: for every valid calendar point `t`, `time_step_forward t` and
`time_step_backward t` are valid calendar points; in the proleptic Gregorian
hour count `time_step_forward t` is one hour later and `time_step_backward t`
one hour earlier than `t`, and each is the only valid calendar point with
that hour count. -/
theorem C37_calendar_steps (t : date) (h : valid_date t) :
    valid_date (time_step_forward t) ∧ valid_date (time_step_backward t) ∧
    hour_count (time_step_forward t) = hour_count t + 1 ∧
    hour_count (time_step_backward t) = hour_count t - 1 ∧
    (∀ s, valid_date s → hour_count s = hour_count t + 1 → s = time_step_forward t) ∧
    (∀ s, valid_date s → hour_count s = hour_count t - 1 → s = time_step_backward t) := by
  have vf := valid_forward t h
  have vb := valid_backward t h
  have hf := hour_count_forward t h
  have hb := hour_count_backward t h
  exact ⟨vf, vb, hf, hb, fun s hs e => hour_count_inj s _ hs vf (by rw [e, hf]),
    fun s hs e => hour_count_inj s _ hs vb (by rw [e, hb])⟩

theorem C37_calendar_steps_witness :
    valid_date ⟨2000, 2, 28, 23⟩ ∧
      hour_count (time_step_forward ⟨2000, 2, 28, 23⟩) = hour_count ⟨2000, 2, 28, 23⟩ + 1 :=
  ⟨by decide, (C37_calendar_steps ⟨2000, 2, 28, 23⟩ (by decide)).2.2.1⟩

section convex

variable {α : Type} [LinearOrderedField α]

end convex

section convex2

variable {α : Type} [LinearOrderedField α]

end convex2

theorem valid_forward_iter (t : date) (h : valid_date t) (k : Nat) :
    valid_date (time_step_forward^[k] t) := by
  induction k with
  | zero => exact h
  | succ n ih => rw [Function.iterate_succ_apply']; exact valid_forward _ ih

theorem hour_count_day (t : date) :
    hour_count t = 24 * day_number (calendar_day t) + t.hour := rfl

theorem forward_day_change (t : date) (h : valid_date t) :
    ((time_step_forward t).day ≠ t.day ∧
        day_number (calendar_day (time_step_forward t)) = day_number (calendar_day t) + 1) ∨
      calendar_day (time_step_forward t) = calendar_day t := by
  have hc := hour_count_forward t h
  rw [hour_count_day, hour_count_day] at hc
  obtain ⟨y, m, d, hr⟩ := t
  obtain ⟨h1, h2, h3, h4, h5, h6⟩ := h
  simp only at h1 h2 h3 h4 h5 h6
  have hp := month_length_pos y m
  by_cases hh : hr = 23
  · left
    have e0 : (time_step_forward ⟨y, m, d, hr⟩).hour = 0 := by
      unfold time_step_forward
      simp only [hh, ne_eq, not_true_eq_false, if_false]
      split_ifs <;> rfl
    have ed : (time_step_forward ⟨y, m, d, hr⟩).day ≠ d := by
      unfold time_step_forward
      simp only [hh, ne_eq, not_true_eq_false, if_false]
      split_ifs <;> dsimp only <;> omega
    refine ⟨ed, ?_⟩
    rw [e0] at hc
    dsimp only at hc
    omega
  · right
    unfold time_step_forward
    simp only [hh, ne_eq, not_false_eq_true, if_true, calendar_day]

theorem backward_day_change (t : date) (h : valid_date t) :
    ((time_step_backward t).day ≠ t.day ∧
        day_number (calendar_day (time_step_backward t)) =
          day_number (calendar_day t) + -1) ∨
      calendar_day (time_step_backward t) = calendar_day t := by
  have hc := hour_count_backward t h
  rw [hour_count_day, hour_count_day] at hc
  obtain ⟨y, m, d, hr⟩ := t
  obtain ⟨h1, h2, h3, h4, h5, h6⟩ := h
  simp only at h1 h2 h3 h4 h5 h6
  by_cases hh : hr = 0
  · left
    have e0 : (time_step_backward ⟨y, m, d, hr⟩).hour = 23 := by
      unfold time_step_backward
      simp only [hh, ne_eq, not_true_eq_false, if_false]
      split_ifs <;> rfl
    have ed : (time_step_backward ⟨y, m, d, hr⟩).day ≠ d := by
      unfold time_step_backward
      simp only [hh, ne_eq, not_true_eq_false, if_false]
      by_cases hd : d = 1
      · rw [if_neg (not_not.2 hd)]
        dsimp only
        rw [hd]
        exact (lt_of_lt_of_le (by norm_num) (month_length_pos _ _).1).ne'
      · rw [if_pos hd]
        dsimp only
        omega
    refine ⟨ed, ?_⟩
    rw [e0] at hc
    dsimp only at hc
    omega
  · right
    unfold time_step_backward
    simp only [hh, ne_eq, not_false_eq_true, if_true, calendar_day]

theorem days_met_snoc (l : List (Int × Int × Int)) (d : Int × Int × Int) :
    days_met (l ++ [d]) = if d ∈ days_met l then days_met l else days_met l ++ [d] := by
  unfold days_met
  rw [List.foldl_append]
  rfl

theorem days_met_spec (l : List (Int × Int × Int)) :
    (days_met l).Nodup ∧ ∀ d, d ∈ days_met l ↔ d ∈ l := by
  induction l using List.reverseRecOn with
  | nil => exact ⟨List.nodup_nil, fun d => Iff.rfl⟩
  | append_singleton l x ih =>
    rw [days_met_snoc]
    by_cases c : x ∈ days_met l
    · rw [if_pos c]
      refine ⟨ih.1, fun d => ?_⟩
      rw [List.mem_append, List.mem_singleton, ih.2 d]
      constructor
      · exact Or.inl
      · rintro (a | a)
        · exact a
        · rw [a]; exact (ih.2 x).1 c
    · rw [if_neg c]
      refine ⟨?_, fun d => ?_⟩
      · rw [List.nodup_append]
        refine ⟨ih.1, List.nodup_singleton x, ?_⟩
        intro a ha hb
        rw [List.mem_singleton] at hb
        rw [hb] at ha
        exact c ha
      · rw [List.mem_append, List.mem_append, ih.2 d]

section day_loop

variable {α : Type} [LinearOrderedField α]

theorem wind_days_array (P : param α) (st : state α) :
    wind_days P st = (List.range (day_array P st).2).map (day_array P st).1 := rfl

theorem day_step_cases (P : param α) (step : date → date)
    (hstep : ∀ t, (if P.TRACE < 0 then time_step_backward t else time_step_forward t) = step t)
    (time : Nat → date) (j : Nat) (hj : 1 ≤ j) :
    day_step P (time, j) =
      if (step (time j)).day ≠ (time (j - 1)).day then
        (Function.update (Function.update time j (step (time j))) (j + 1) (step (time j)),
          j + 1)
      else (Function.update time j (step (time j)), j) := by
  unfold day_step
  dsimp only
  rw [hstep, Function.update_same, Function.update_noteq (by omega : j - 1 ≠ j)]

theorem day_inv_start (step : date → date) (s : Int) (t0 : date) (h : valid_date t0) :
    day_inv step s t0 0
      (Function.update (Function.update (fun _ => ⟨0, 0, 0, 0⟩) 0 t0) 1 t0, 1) := by
  refine ⟨le_rfl, ?_, ?_, ?_, ?_, ?_, ?_, ?_, ?_⟩
  · simp [Function.update]
  · simpa [Function.update] using h
  · simp [Function.update]
  · simp [Function.update, hour_walk, days_met, List.range_succ]
  · intro n hn
    have : n = 0 := by
      dsimp only at hn
      omega
    subst this
    simp [Function.update]
  · simp [Function.update]
  · simp [Function.update]
  · intro n hn
    dsimp only at hn ⊢
    rw [Function.update_noteq (by omega), Function.update_noteq (by omega)]

end day_loop

section day_loop2

variable {α : Type} [LinearOrderedField α]

theorem day_inv_step (P : param α) (step : date → date) (s : Int) (t0 : date)
    (hstep : ∀ t, (if P.TRACE < 0 then time_step_backward t else time_step_forward t) = step t)
    (hs : s = 1 ∨ s = -1)
    (H : ∀ t, valid_date t → valid_date (step t) ∧ hour_count (step t) = hour_count t + s ∧
      (((step t).day ≠ t.day ∧
          day_number (calendar_day (step t)) = day_number (calendar_day t) + s) ∨
        calendar_day (step t) = calendar_day t))
    (i : Nat) (tj : (Nat → date) × Nat) (inv : day_inv step s t0 i tj) :
    day_inv step s t0 (i + 1) (day_step P tj) := by
  obtain ⟨time, j⟩ := tj
  obtain ⟨pos, walker, valid, current, days, order, index, hours, rest⟩ := inv
  dsimp only at pos walker valid current days order index hours rest
  obtain ⟨v2, h2, alt⟩ := H (time j) valid
  rw [day_step_cases P step hstep time j pos]
  have wk : step^[i + 1] t0 = step (time j) := by
    rw [Function.iterate_succ_apply', walker]
  have walk2 : (hour_walk step t0 (i + 1)).map calendar_day =
      (hour_walk step t0 i).map calendar_day ++ [calendar_day (step (time j))] := by
    unfold hour_walk
    rw [List.range_succ, List.map_append, List.map_append]
    simp only [List.map_cons, List.map_nil, wk]
  have dayeq : (time (j - 1)).day = (time j).day := congrArg (fun d => d.2.2) current
  have hrs : hour_count (step (time j)) = hour_count t0 + s * ((i + 1 : Nat) : Int) := by
    rw [h2, hours]
    push_cast
    ring
  have keep : ∀ n, n < j → Function.update time j (step (time j)) n = time n :=
    fun n hn => Function.update_noteq (by omega) _ _
  by_cases c : (step (time j)).day ≠ (time (j - 1)).day
  · rw [if_pos c]
    rw [dayeq] at c
    have dn : day_number (calendar_day (step (time j))) =
        day_number (calendar_day (time j)) + s := by
      rcases alt with a | a
      · exact a.2
      · exact absurd (congrArg (fun d => d.2.2) a) c
    have keep2 : ∀ n, n < j →
        Function.update (Function.update time j (step (time j))) (j + 1) (step (time j)) n =
          time n :=
      fun n hn => by rw [Function.update_noteq (by omega), keep n hn]
    have atj : Function.update (Function.update time j (step (time j))) (j + 1)
        (step (time j)) j = step (time j) := by
      rw [Function.update_noteq (by omega), Function.update_same]
    have notmem : calendar_day (step (time j)) ∉
        (List.range j).map (fun n => calendar_day (time n)) := by
      intro hm
      rw [List.mem_map] at hm
      obtain ⟨n, hn, e⟩ := hm
      have o := order n (List.mem_range.1 hn)
      rw [e, dn] at o
      rcases hs with hs | hs <;> subst hs <;> omega
    refine ⟨?_, ?_, ?_, ?_, ?_, ?_, ?_, ?_, ?_⟩
    · dsimp only; omega
    · dsimp only; rw [Function.update_same, wk]
    · dsimp only; rw [Function.update_same]; exact v2
    · dsimp only
      rw [Nat.add_sub_cancel, atj, Function.update_same]
    · dsimp only
      rw [walk2, days_met_snoc, ← days, if_neg notmem, List.range_succ, List.map_append]
      congr 1
      · exact List.map_congr_left (fun n hn => by rw [keep2 n (List.mem_range.1 hn)])
      · simp only [List.map_cons, List.map_nil, atj]
    · intro n hn
      dsimp only at hn ⊢
      rw [Function.update_same]
      by_cases e : n = j
      · rw [e, atj]
      · rw [keep2 n (by omega), dn]
        have o := order n (by omega)
        rcases hs with hs | hs <;> subst hs <;> omega
    · dsimp only
      rw [Function.update_same, dn]
      push_cast
      rcases hs with hs | hs <;> subst hs <;> omega
    · dsimp only
      rw [Function.update_same]
      exact hrs
    · intro n hn
      dsimp only at hn ⊢
      rw [Function.update_noteq (by omega), Function.update_noteq (by omega)]
      exact rest n (by omega)
  · rw [if_neg c]
    rw [dayeq, not_not] at c
    have a : calendar_day (step (time j)) = calendar_day (time j) := by
      rcases alt with a | a
      · exact absurd c a.1
      · exact a
    have mem : calendar_day (step (time j)) ∈
        (List.range j).map (fun n => calendar_day (time n)) :=
      List.mem_map.2 ⟨j - 1, List.mem_range.2 (by omega), by rw [current, a]⟩
    refine ⟨?_, ?_, ?_, ?_, ?_, ?_, ?_, ?_, ?_⟩
    · exact pos
    · dsimp only; rw [Function.update_same, wk]
    · dsimp only; rw [Function.update_same]; exact v2
    · dsimp only
      rw [keep (j - 1) (by omega), Function.update_same, current, a]
    · dsimp only
      rw [walk2, days_met_snoc, ← days, if_pos mem]
      exact List.map_congr_left (fun n hn => by rw [keep n (List.mem_range.1 hn)])
    · intro n hn
      dsimp only at hn ⊢
      rw [Function.update_same, keep n hn, a]
      exact order n hn
    · dsimp only
      rw [Function.update_same, a]
      exact index
    · dsimp only
      rw [Function.update_same]
      exact hrs
    · intro n hn
      dsimp only at hn ⊢
      rw [Function.update_noteq (by omega)]
      exact rest n hn

theorem day_inv_loop (P : param α) (step : date → date) (s : Int) (t0 : date)
    (hstep : ∀ t, (if P.TRACE < 0 then time_step_backward t else time_step_forward t) = step t)
    (hs : s = 1 ∨ s = -1)
    (H : ∀ t, valid_date t → valid_date (step t) ∧ hour_count (step t) = hour_count t + s ∧
      (((step t).day ≠ t.day ∧
          day_number (calendar_day (step t)) = day_number (calendar_day t) + s) ∨
        calendar_day (step t) = calendar_day t))
    (h0 : valid_date t0) (k : Nat) :
    day_inv step s t0 k
      ((List.range k).foldl (fun tj _ => day_step P tj)
        (Function.update (Function.update (fun _ => ⟨0, 0, 0, 0⟩) 0 t0) 1 t0, 1)) := by
  induction k with
  | zero => exact day_inv_start step s t0 h0
  | succ n ih =>
    rw [List.range_succ, List.foldl_append]
    exact day_inv_step P step s t0 hstep hs H n _ ih

theorem day_array_inv (P : param α) (st : state α) (hv : valid_date st.time) :
    day_inv (if P.TRACE < 0 then time_step_backward else time_step_forward)
      (if P.TRACE < 0 then -1 else 1)
      ((if P.TRACE < 0 then time_step_forward else time_step_backward)^[
        (if P.RES = 0 then RESMAX else P.RES).toNat] st.time)
      (|P.TRACE| + 2 * (if P.RES = 0 then RESMAX else P.RES)).toNat (day_array P st) := by
  unfold day_array
  dsimp only
  by_cases c : P.TRACE < 0
  · simp only [if_pos c]
    exact day_inv_loop P _ _ _ (fun t => by rw [if_pos c]) (Or.inr rfl)
      (fun t ht => ⟨valid_backward t ht, by rw [hour_count_backward t ht]; ring,
        backward_day_change t ht⟩)
      (valid_forward_iter _ hv _) _
  · simp only [if_neg c]
    exact day_inv_loop P _ _ _ (fun t => by rw [if_neg c]) (Or.inl rfl)
      (fun t ht => ⟨valid_forward t ht, hour_count_forward t ht, forward_day_change t ht⟩)
      (valid_backward_iter _ hv _) _

theorem day_index_bound (step : date → date) (s : Int) (t0 : date) (k : Nat)
    (tj : (Nat → date) × Nat) (hs : s = 1 ∨ s = -1) (h0 : valid_date t0)
    (inv : day_inv step s t0 k tj) : 24 * ((tj.2 : Int) - 1) ≤ k + 23 := by
  have a := inv.index
  have b := inv.hours
  have v := inv.valid
  rw [hour_count_day, hour_count_day] at b
  obtain ⟨_, _, _, _, v5, v6⟩ := v
  obtain ⟨_, _, _, _, w5, w6⟩ := h0
  rcases hs with hs | hs <;> subst hs <;> omega

end day_loop2

section day_claim

variable {α : Type} [LinearOrderedField α]

/-- C36 (with RES >= 0 and a valid start time): with `r = RES` (24 when
`RES = 0`) and TRACE != 0, the days whose files `read_wind_data` opens are, in
opening order, the distinct calendar days met when walking hour by hour in
trace direction from the start shifted `r` hours against trace direction over
`|TRACE| + 2r` hours (`spec_day_files`), each day once and in the order in
which the walk first meets it; the largest index `j` written into the day
array is below the allocated length `|TRACE| + 2r`, the opened files are the
entries `0 .. j-1` and no entry above `j` is written; and the file of a day is
looked up under the C remainder of the year by 100. -/
theorem C36_day_files (P : param α) (st : state α) (hv : valid_date st.time)
    (hr : 0 ≤ P.RES) (ht : P.TRACE ≠ 0) :
    (wind_days P st).map calendar_day = spec_day_files P st ∧
    (spec_day_files P st).Nodup ∧
    (∀ l, (days_met l).Nodup ∧ ∀ d, d ∈ days_met l ↔ d ∈ l) ∧
    ((day_array P st).2 : Int) < |P.TRACE| + 2 * (if P.RES = 0 then RESMAX else P.RES) ∧
    wind_days P st = (List.range (day_array P st).2).map (day_array P st).1 ∧
    (∀ n, (day_array P st).2 < n → (day_array P st).1 n = ⟨0, 0, 0, 0⟩) ∧
    ∀ (M : libm α) (fs : Int → Int → Int → Option (List line)) (fuel : Nat) (h : heap α)
      (winddata : Nat),
      read_wind_data P M st fs fuel h winddata =
        (link_files P M st fuel (h, winddata)
          ((wind_days P st).map (fun t => fs (Int.tmod t.year 100) t.month t.day))).map
          Prod.fst := by
  have inv := day_array_inv P st hv
  have e1 : (wind_days P st).map calendar_day = spec_day_files P st := by
    rw [wind_days_array, List.map_map]
    exact inv.days
  have hs : (if P.TRACE < 0 then (-1 : Int) else 1) = 1 ∨
      (if P.TRACE < 0 then (-1 : Int) else 1) = -1 := by
    split_ifs
    · exact Or.inr rfl
    · exact Or.inl rfl
  have v0 : valid_date ((if P.TRACE < 0 then time_step_forward else time_step_backward)^[
      (if P.RES = 0 then RESMAX else P.RES).toNat] st.time) := by
    split_ifs
    · exact valid_forward_iter _ hv _
    · exact valid_forward_iter _ hv _
    · exact valid_backward_iter _ hv _
    · exact valid_backward_iter _ hv _
  have b := day_index_bound _ _ _ _ _ hs v0 inv
  have ha : 1 ≤ |P.TRACE| := Int.one_le_abs ht
  have hres : 1 ≤ (if P.RES = 0 then RESMAX else P.RES) := by
    unfold RESMAX
    split_ifs <;> omega
  refine ⟨e1, ?_, days_met_spec, ?_, wind_days_array P st, inv.rest, ?_⟩
  · exact (days_met_spec _).1
  · rw [Int.toNat_of_nonneg (by omega)] at b
    omega
  · intro M fs fuel h winddata
    unfold read_wind_data
    have e : ∀ y : Int, y - Int.tdiv y 100 * 100 = Int.tmod y 100 := by
      intro y
      rw [Int.tmod_def]
      ring
    simp only [e]

end day_claim

theorem C36_day_files_witness :
    (wind_days (example_param 1 2 2 200) (start21_state 1)).map calendar_day =
      spec_day_files (example_param 1 2 2 200) (start21_state 1) :=
  (C36_day_files (example_param 1 2 2 200) (start21_state 1) (by decide) (by decide)
    (by decide)).1

/-- C36 fails as stated for a negative RES: with TRACE = 3 and RES = -1 the
allocated length of the day array is `|TRACE| + 2 RES = 1`, the start is not
shifted, and the day loop writes the entry with index 1 (2001-03-14 22h, one
hour after the start 2001-03-14 21h). -/
theorem C36_counterexample :
    |(example_param 3 (-1) 2 200 : param ℚ).TRACE| +
        2 * (if (example_param 3 (-1) 2 200 : param ℚ).RES = 0 then RESMAX
          else (example_param 3 (-1) 2 200 : param ℚ).RES) = 1 ∧
      (day_array (example_param 3 (-1) 2 200) (start21_state 3)).2 = 1 ∧
      (day_array (example_param 3 (-1) 2 200) (start21_state 3)).1 1 = ⟨2001, 3, 14, 22⟩ ∧
      wind_days (example_param 3 (-1) 2 200) (start21_state 3) = [⟨2001, 3, 14, 21⟩] := by
  refine ⟨by decide, ?_, ?_, ?_⟩
  · simp [day_array, example_param, start21_state, RESMAX, List.range_succ, day_step,
      time_step_backward, time_step_forward, Function.update]
  · simp [day_array, example_param, start21_state, RESMAX, List.range_succ, day_step,
      time_step_backward, time_step_forward, Function.update]
  · simp [wind_days, example_param, start21_state, RESMAX, List.range_succ, day_step,
      time_step_backward, time_step_forward, Function.update]

theorem hour_count_forward_iter (t : date) (h : valid_date t) (n : Nat) :
    hour_count (time_step_forward^[n] t) = hour_count t + n := by
  induction n with
  | zero => simp
  | succ k ih =>
    rw [Function.iterate_succ_apply', hour_count_forward _ (valid_forward_iter t h k), ih]
    push_cast
    ring

theorem hour_count_backward_iter (t : date) (h : valid_date t) (n : Nat) :
    hour_count (time_step_backward^[n] t) = hour_count t - n := by
  induction n with
  | zero => simp
  | succ k ih =>
    rw [Function.iterate_succ_apply', hour_count_backward _ (valid_backward_iter t h k), ih]
    push_cast
    ring

section slots

variable {α : Type}

theorem load_slot_fold (st : state α) (w : Nat → wind α) (offset : Nat) (n : Nat) :
    ((List.range n).foldl
        (fun s i => { s with wind_data := Function.update s.wind_data (offset + i) (w i) })
        st).station_max = st.station_max ∧
      ∀ m, ((List.range n).foldl
        (fun s i => { s with wind_data := Function.update s.wind_data (offset + i) (w i) })
        st).wind_data m =
        if offset ≤ m ∧ m < offset + n then w (m - offset) else st.wind_data m := by
  induction n with
  | zero =>
    refine ⟨rfl, fun m => ?_⟩
    rw [if_neg (by omega)]
    rfl
  | succ k ih =>
    rw [List.range_succ, List.foldl_append]
    simp only [List.foldl_cons, List.foldl_nil]
    refine ⟨ih.1, fun m => ?_⟩
    by_cases e : m = offset + k
    · subst e
      rw [Function.update_same, if_pos (by omega)]
      congr 1
      omega
    · rw [Function.update_noteq e, ih.2 m]
      by_cases c : offset ≤ m ∧ m < offset + k
      · rw [if_pos c, if_pos (by omega)]
      · rw [if_neg c, if_neg (by omega)]

theorem load_slot_data (st : state α) (w : Nat → wind α) (offset : Nat) :
    (load_slot st w offset).station_max = st.station_max ∧
      ∀ m, (load_slot st w offset).wind_data m =
        if offset ≤ m ∧ m < offset + st.station_max then w (m - offset)
        else st.wind_data m :=
  load_slot_fold st w offset st.station_max

theorem shift_slots_fore (P : param α) (ht : P.TRACE > 0) (st : state α) (w : Nat → wind α)
    (n : Nat) (hn : n ≤ st.station_max) :
    ((List.range n).foldl
        (fun s i =>
          if P.TRACE > 0 then
            let wd := Function.update s.wind_data i (s.wind_data (s.station_max + i))
            { s with wind_data := Function.update wd (s.station_max + i) (w i) }
          else
            let wd := Function.update s.wind_data (s.station_max + i) (s.wind_data i)
            { s with wind_data := Function.update wd i (w i) })
        st).station_max = st.station_max ∧
      ∀ m, ((List.range n).foldl
        (fun s i =>
          if P.TRACE > 0 then
            let wd := Function.update s.wind_data i (s.wind_data (s.station_max + i))
            { s with wind_data := Function.update wd (s.station_max + i) (w i) }
          else
            let wd := Function.update s.wind_data (s.station_max + i) (s.wind_data i)
            { s with wind_data := Function.update wd i (w i) })
        st).wind_data m =
        if m < n then st.wind_data (st.station_max + m)
        else if st.station_max ≤ m ∧ m < st.station_max + n then w (m - st.station_max)
        else st.wind_data m := by
  induction n with
  | zero =>
    refine ⟨rfl, fun m => ?_⟩
    rw [if_neg (by omega), if_neg (by omega)]
    rfl
  | succ k ih =>
    obtain ⟨i1, i2⟩ := ih (by omega)
    rw [List.range_succ, List.foldl_append, List.foldl_cons, List.foldl_nil]
    generalize List.foldl _ st (List.range k) = s at i1 i2 ⊢
    simp only [if_pos ht]
    refine ⟨i1, fun m => ?_⟩
    rw [i1]
    by_cases e : m = st.station_max + k
    · subst e
      rw [Function.update_same, if_neg (show ¬ st.station_max + k < k + 1 by omega),
        if_pos (show st.station_max ≤ st.station_max + k ∧
          st.station_max + k < st.station_max + (k + 1) by omega)]
      congr 1
      omega
    · rw [Function.update_noteq e]
      by_cases e2 : m = k
      · subst e2
        rw [Function.update_same, i2, if_neg (show ¬ st.station_max + m < m by omega),
          if_neg (show ¬ (st.station_max ≤ st.station_max + m ∧
            st.station_max + m < st.station_max + m) by omega),
          if_pos (show m < m + 1 by omega)]
      · rw [Function.update_noteq e2, i2 m]
        by_cases c : m < k
        · rw [if_pos c, if_pos (show m < k + 1 by omega)]
        · rw [if_neg c, if_neg (show ¬ m < k + 1 by omega)]
          by_cases c2 : st.station_max ≤ m ∧ m < st.station_max + k
          · rw [if_pos c2, if_pos (show st.station_max ≤ m ∧ m < st.station_max + (k + 1) by
              omega)]
          · rw [if_neg c2, if_neg (show ¬ (st.station_max ≤ m ∧
              m < st.station_max + (k + 1)) by omega)]

theorem shift_slots_back (P : param α) (ht : ¬ P.TRACE > 0) (st : state α) (w : Nat → wind α)
    (n : Nat) (hn : n ≤ st.station_max) :
    ((List.range n).foldl
        (fun s i =>
          if P.TRACE > 0 then
            let wd := Function.update s.wind_data i (s.wind_data (s.station_max + i))
            { s with wind_data := Function.update wd (s.station_max + i) (w i) }
          else
            let wd := Function.update s.wind_data (s.station_max + i) (s.wind_data i)
            { s with wind_data := Function.update wd i (w i) })
        st).station_max = st.station_max ∧
      ∀ m, ((List.range n).foldl
        (fun s i =>
          if P.TRACE > 0 then
            let wd := Function.update s.wind_data i (s.wind_data (s.station_max + i))
            { s with wind_data := Function.update wd (s.station_max + i) (w i) }
          else
            let wd := Function.update s.wind_data (s.station_max + i) (s.wind_data i)
            { s with wind_data := Function.update wd i (w i) })
        st).wind_data m =
        if m < n then w m
        else if st.station_max ≤ m ∧ m < st.station_max + n then
          st.wind_data (m - st.station_max)
        else st.wind_data m := by
  induction n with
  | zero =>
    refine ⟨rfl, fun m => ?_⟩
    rw [if_neg (by omega), if_neg (by omega)]
    rfl
  | succ k ih =>
    obtain ⟨i1, i2⟩ := ih (by omega)
    rw [List.range_succ, List.foldl_append, List.foldl_cons, List.foldl_nil]
    generalize List.foldl _ st (List.range k) = s at i1 i2 ⊢
    simp only [if_neg ht]
    refine ⟨i1, fun m => ?_⟩
    rw [i1]
    by_cases e : m = k
    · subst e
      rw [Function.update_same, if_pos (show m < m + 1 by omega)]
    · rw [Function.update_noteq e]
      by_cases e2 : m = st.station_max + k
      · subst e2
        rw [Function.update_same, i2, if_neg (show ¬ k < k by omega),
          if_neg (show ¬ (st.station_max ≤ k ∧ k < st.station_max + k) by omega),
          if_neg (show ¬ st.station_max + k < k + 1 by omega),
          if_pos (show st.station_max ≤ st.station_max + k ∧
            st.station_max + k < st.station_max + (k + 1) by omega)]
        congr 1
        omega
      · rw [Function.update_noteq e2, i2 m]
        by_cases c : m < k
        · rw [if_pos c, if_pos (show m < k + 1 by omega)]
        · rw [if_neg c, if_neg (show ¬ m < k + 1 by omega)]
          by_cases c2 : st.station_max ≤ m ∧ m < st.station_max + k
          · rw [if_pos c2, if_pos (show st.station_max ≤ m ∧ m < st.station_max + (k + 1) by
              omega)]
          · rw [if_neg c2, if_neg (show ¬ (st.station_max ≤ m ∧
              m < st.station_max + (k + 1)) by omega)]

theorem shift_slots_data (P : param α) (st : state α) (w : Nat → wind α) :
    (shift_slots P st w).station_max = st.station_max ∧
      ∀ i, i < st.station_max →
        (shift_slots P st w).wind_data i =
          (if P.TRACE > 0 then st.wind_data (st.station_max + i) else w i) ∧
        (shift_slots P st w).wind_data (st.station_max + i) =
          (if P.TRACE > 0 then w i else st.wind_data i) := by
  unfold shift_slots
  by_cases ht : P.TRACE > 0
  · obtain ⟨a, b⟩ := shift_slots_fore P ht st w st.station_max le_rfl
    refine ⟨a, fun i hi => ⟨?_, ?_⟩⟩
    · rw [b i, if_pos hi, if_pos ht]
    · rw [b (st.station_max + i), if_neg (show ¬ st.station_max + i < st.station_max by omega),
        if_pos (show st.station_max ≤ st.station_max + i ∧
          st.station_max + i < st.station_max + st.station_max by omega), if_pos ht]
      congr 1
      omega
  · obtain ⟨a, b⟩ := shift_slots_back P ht st w st.station_max le_rfl
    refine ⟨a, fun i hi => ⟨?_, ?_⟩⟩
    · rw [b i, if_pos hi, if_neg ht]
    · rw [b (st.station_max + i), if_neg (show ¬ st.station_max + i < st.station_max by omega),
        if_pos (show st.station_max ≤ st.station_max + i ∧
          st.station_max + i < st.station_max + st.station_max by omega), if_neg ht]
      congr 1
      omega

end slots

section slots2

variable {α : Type}

theorem load_result_data (x2 : state α) (v v3 : Nat → wind α) (nf : Int) :
    (load_slot { load_slot x2 v 0 with data_diff := (load_slot x2 v 0).data_diff + nf } v3
        (load_slot x2 v 0).station_max).station_max = x2.station_max ∧
    ∀ i, i < x2.station_max →
      (load_slot { load_slot x2 v 0 with data_diff := (load_slot x2 v 0).data_diff + nf } v3
        (load_slot x2 v 0).station_max).wind_data i = v i ∧
      (load_slot { load_slot x2 v 0 with data_diff := (load_slot x2 v 0).data_diff + nf } v3
        (load_slot x2 v 0).station_max).wind_data (x2.station_max + i) = v3 i := by
  obtain ⟨a1, a2⟩ := load_slot_data x2 v 0
  generalize load_slot x2 v 0 = s1 at a1 a2 ⊢
  obtain ⟨b1, b2⟩ := load_slot_data { s1 with data_diff := s1.data_diff + nf } v3
    s1.station_max
  dsimp only at b1 b2
  refine ⟨b1.trans a1, fun i hi => ⟨?_, ?_⟩⟩
  · rw [b2 i, if_neg (show ¬ (s1.station_max ≤ i ∧ i < s1.station_max + s1.station_max) by
      omega), a2 i, if_pos (show 0 ≤ i ∧ i < 0 + x2.station_max by omega)]
    rfl
  · rw [b2 (x2.station_max + i),
      if_pos (show s1.station_max ≤ x2.station_max + i ∧
        x2.station_max + i < s1.station_max + s1.station_max by omega)]
    congr 1
    omega

theorem wind_some (h : heap α) (a : Nat) (v : Nat → wind α)
    (hv : (match (h.node a).wind with
      | none => .error .null_pointer
      | some w => pure w : Except failure (Nat → wind α)) = .ok v) :
    (h.node a).wind = some v := by
  cases hw : (h.node a).wind with
  | none => rw [hw] at hv; cases hv
  | some w => rw [hw] at hv; cases hv; rfl

theorem init_wind_data_slots (P : param α) (h : heap α) (fuel : Nat) (st : state α)
    (w0 w1 : Nat) (st1 : state α) (hr : init_wind_data P h fuel st w0 = .ok (w1, st1)) :
    ∃ S A B wa wb nf, seek_time h st.time fuel w0 = .ok S ∧
      (((h.node S).wind ≠ none ∧ A = S) ∨
        ((h.node S).wind = none ∧
          (if P.TRACE > 0 then get_prev_element h fuel S else get_next_element h fuel S)
            = .ok A)) ∧
      (h.node A).wind = some wa ∧
      (if P.TRACE > 0 then get_next_element h fuel A else get_prev_element h fuel A)
        = .ok B ∧
      count_steps time_step_forward (h.node B).time fuel (h.node A).time = .ok nf ∧
      (h.node B).wind = some wb ∧
      st1.data_diff = nf ∧ st1.station_max = st.station_max ∧
      (∀ i, i < st.station_max →
        st1.wind_data i = wa i ∧ st1.wind_data (st.station_max + i) = wb i) ∧
      (if P.TRACE < 0 then skip_empty h fuel B = .ok w1 else w1 = B) := by
  unfold init_wind_data at hr
  simp only [bind, Except.bind, pure, Except.pure] at hr
  split at hr
  · cases hr
  · rename_i S hS
    split at hr
    · cases hr
    · rename_i x hx
      have hx2 : (((h.node S).wind ≠ none ∧ x.1 = S) ∨
          ((h.node S).wind = none ∧
            (if P.TRACE > 0 then get_prev_element h fuel S else get_next_element h fuel S)
              = .ok x.1)) ∧ x.2.station_max = st.station_max ∧ x.2.data_diff = 0 := by
        cases hw : (h.node S).wind with
        | some w =>
          rw [hw] at hx
          cases hx
          exact ⟨Or.inl ⟨by simp, rfl⟩, rfl, rfl⟩
        | none =>
          rw [hw] at hx
          by_cases ht : P.TRACE > 0
          · simp only [if_pos ht] at hx ⊢
            split at hx
            · cases hx
            · rename_i Pn hPn
              split at hx
              · cases hx
              · cases hx
                exact ⟨Or.inr ⟨trivial, hPn⟩, rfl, rfl⟩
          · simp only [if_neg ht] at hx ⊢
            split at hx
            · cases hx
            · rename_i Pn hPn
              split at hx
              · cases hx
              · cases hx
                exact ⟨Or.inr ⟨trivial, hPn⟩, rfl, rfl⟩
      obtain ⟨hA, hsm, hdd0⟩ := hx2
      split at hr
      · cases hr
      · rename_i v hv
        have hwa := wind_some h x.1 v hv
        have tail : ∀ (nf : Int) (v3 : Nat → wind α),
            st1 = load_slot { load_slot x.2 v 0 with
              data_diff := (load_slot x.2 v 0).data_diff + nf } v3
              (load_slot x.2 v 0).station_max →
            st1.data_diff = nf ∧ st1.station_max = st.station_max ∧
            (∀ i, i < st.station_max →
              st1.wind_data i = v i ∧ st1.wind_data (st.station_max + i) = v3 i) := by
          intro nf v3 e
          obtain ⟨d1, d2⟩ := load_result_data x.2 v v3 nf
          obtain ⟨_, d3⟩ := load_result x.2 v v3 nf
          rw [← e] at d1 d2 d3
          rw [hsm] at d1 d2
          exact ⟨by rw [d3, hdd0]; omega, d1, d2⟩
        by_cases ht : P.TRACE > 0
        · rw [if_pos ht] at hr
          split at hr
          · cases hr
          · rename_i N hN
            split at hr
            · cases hr
            · rename_i nf hnf
              split at hr
              · cases hr
              · rename_i v3 hv3
                have hwb := wind_some h N v3 hv3
                refine ⟨S, x.1, N, v, v3, nf, hS, hA, hwa, by rw [if_pos ht]; exact hN, hnf,
                  hwb, ?_⟩
                split_ifs at hr with hneg
                · omega
                · cases hr
                  obtain ⟨t1, t2, t3⟩ := tail nf v3 rfl
                  exact ⟨t1, t2, t3, by rw [if_neg hneg]⟩
        · rw [if_neg ht] at hr
          split at hr
          · cases hr
          · rename_i N hN
            split at hr
            · cases hr
            · rename_i nf hnf
              split at hr
              · cases hr
              · rename_i v3 hv3
                have hwb := wind_some h N v3 hv3
                refine ⟨S, x.1, N, v, v3, nf, hS, hA, hwa, by rw [if_neg ht]; exact hN, hnf,
                  hwb, ?_⟩
                split_ifs at hr with hneg
                · split at hr
                  · cases hr
                  · rename_i q hq
                    cases hr
                    obtain ⟨t1, t2, t3⟩ := tail nf v3 rfl
                    exact ⟨t1, t2, t3, by rw [if_pos hneg]; exact hq⟩
                · cases hr
                  obtain ⟨t1, t2, t3⟩ := tail nf v3 rfl
                  exact ⟨t1, t2, t3, by rw [if_neg hneg]⟩

theorem get_next_wind_data_slots (P : param α) (h : heap α) (fuel : Nat) (st : state α)
    (w : Nat) (r : Nat × state α) (hr : get_next_wind_data P h fuel st w = .ok r) :
    ∃ wc n, get_next_element h fuel w = .ok r.1 ∧
      count_steps (if P.TRACE > 0 then time_step_forward else time_step_backward)
        (h.node r.1).time fuel (h.node w).time = .ok n ∧
      (h.node r.1).wind = some wc ∧ r.2.data_diff = n ∧
      r.2.station_max = st.station_max ∧
      ∀ i, i < st.station_max →
        r.2.wind_data i = (if P.TRACE > 0 then st.wind_data (st.station_max + i) else wc i) ∧
        r.2.wind_data (st.station_max + i) = (if P.TRACE > 0 then wc i else st.wind_data i) := by
  unfold get_next_wind_data at hr
  simp only [bind, Except.bind, pure, Except.pure] at hr
  split at hr
  · cases hr
  · rename_i C hC
    split at hr
    · cases hr
    · rename_i n hn
      split at hr
      · cases hr
      · rename_i wc hwc
        have hw := wind_some h C wc hwc
        simp only [Except.ok.injEq] at hr
        subst hr
        obtain ⟨_, k2⟩ := shift_slots_keeps P { st with data_diff := (0 : Int) + n } wc
        obtain ⟨s1, s2⟩ := shift_slots_data P { st with data_diff := (0 : Int) + n } wc
        refine ⟨wc, n, hC, hn, hw, ?_, s1, s2⟩
        show (shift_slots P _ _).data_diff = n
        rw [k2]
        show (0 : Int) + n = n
        omega

theorem skip_empty_found (h : heap α) (rest : List Nat) :
    ∀ (n fuel m : Nat), next_path h (n :: rest) → skip_empty h fuel n = .ok m →
      first_with_data h rest = some m := by
  induction rest with
  | nil =>
    intro n fuel m hp hg
    cases fuel with
    | zero => simp [skip_empty] at hg
    | succ f =>
      simp only [next_path, path_of] at hp
      simp [skip_empty, hp] at hg
  | cons b r ih =>
    intro n fuel m hp hg
    cases fuel with
    | zero => simp [skip_empty] at hg
    | succ f =>
      simp only [next_path, path_of] at hp
      simp only [skip_empty, hp.1] at hg
      simp only [first_with_data, List.find?_cons]
      cases hw : (h.node b).wind with
      | none =>
        simp only [hw, Option.isNone_none, if_true] at hg
        simp only [Option.isSome_none]
        exact ih b f m hp.2 hg
      | some w =>
        simp only [hw, Option.isNone_some, Bool.false_eq_true, if_false, Except.ok.injEq] at hg
        simp [hg]

theorem next_found (h : heap α) (w0 : Nat) (c l1 l2 : List Nat) (a m fuel : Nat)
    (hnext : next_path h (w0 :: c)) (hl : c = l1 ++ a :: l2)
    (hg : get_next_element h fuel a = .ok m) :
    first_with_data h l2 = some m ∧
      ∃ e l3, l2 = e ++ m :: l3 ∧ (∀ x ∈ e, (h.node x).wind = none) ∧
        (h.node m).wind ≠ none := by
  have hp : next_path h (a :: l2) := by
    refine path_of_suffix_eq _ _ (w0 :: l1) _ a hnext ?_
    rw [hl]; simp
  have f := get_next_element_found h _ a fuel m hp hg
  exact ⟨f, first_with_data_some h _ m f⟩

theorem skip_found (h : heap α) (w0 : Nat) (c l1 l2 : List Nat) (a m fuel : Nat)
    (hnext : next_path h (w0 :: c)) (hl : c = l1 ++ a :: l2)
    (hg : skip_empty h fuel a = .ok m) : first_with_data h l2 = some m := by
  have hp : next_path h (a :: l2) := by
    refine path_of_suffix_eq _ _ (w0 :: l1) _ a hnext ?_
    rw [hl]; simp
  exact skip_empty_found h _ a fuel m hp hg

theorem prev_found (h : heap α) (c pre l1 l2 : List Nat) (a m fuel : Nat)
    (hprev : prev_path h (c.reverse ++ pre)) (hpre : ∀ x ∈ pre, (h.node x).wind = none)
    (hl : c = l1 ++ a :: l2) (hg : get_prev_element h fuel a = .ok m) :
    ∃ l0 e, l1 = l0 ++ m :: e ∧ (∀ x ∈ e, (h.node x).wind = none) ∧
      (h.node m).wind ≠ none := by
  have hp : prev_path h (a :: (l1.reverse ++ pre)) := by
    refine path_of_suffix_eq _ _ l2.reverse _ a hprev ?_
    rw [hl]; simp
  have f := get_prev_element_found h _ a fuel m hp hg
  rw [first_with_data_drop h _ _ hpre] at f
  obtain ⟨e1, e2, he, hempty, hm⟩ := first_with_data_some h _ m f
  refine ⟨e2.reverse, e1.reverse, ?_, fun x hx => hempty x (List.mem_reverse.1 hx), hm⟩
  have := congrArg List.reverse he
  simpa using this

end slots2

theorem date_lt_ne (a b : date) (h : date_lt a b) : a ≠ b := by
  intro e
  rw [e] at h
  exact date_lt_irrefl b h

theorem gap_positive (step : date → date) (a b : date) (n : Int) (h0 : 0 ≤ n)
    (hit : step^[n.toNat] a = b) (hne : a ≠ b) : 0 < n := by
  rcases lt_or_eq_of_le h0 with c | c
  · exact c
  · rw [← c] at hit
    exact absurd hit hne

section orientation

variable {α : Type}

theorem chain_before (P : param α) (h : heap α) (c la lb : List Nat) (a b : Nat)
    (hord : c.Pairwise (fun a b => valid_date (h.node a).time → valid_date (h.node b).time →
      if P.TRACE > 0 then date_lt (h.node a).time (h.node b).time
      else date_lt (h.node b).time (h.node a).time))
    (hl : c = la ++ a :: lb) (hb : b ∈ lb) (va : valid_date (h.node a).time)
    (vb : valid_date (h.node b).time) :
    if P.TRACE > 0 then date_lt (h.node a).time (h.node b).time
    else date_lt (h.node b).time (h.node a).time := by
  rw [hl] at hord
  exact (List.pairwise_cons.1 (List.pairwise_append.1 hord).2.1).1 b hb va vb

theorem init_orientation (P : param α) (h : heap α) (fuel : Nat) (st : state α) (w0 : Nat)
    (c pre : List Nat) (hc : chain_ok P h st.time w0 c pre)
    (ht : P.TRACE ≠ 0) (w1 : Nat) (st1 : state α)
    (hr : init_wind_data P h fuel st w0 = .ok (w1, st1)) :
    ∃ A B, A ∈ c ∧ B ∈ c ∧ slots_oriented h st1 A B ∧ 0 < st1.data_diff ∧
      w1 = (if P.TRACE > 0 then B else A) := by
  obtain ⟨hnext, hprev, hpre, hw0, hdata, hord⟩ := hc
  obtain ⟨S, A, B, wa, wb, nf, hS, hA, hwa, hB, hnf, hwb, hdd, hsm, hslots, hcur⟩ :=
    init_wind_data_slots P h fuel st w0 w1 st1 hr
  obtain ⟨hSmem, hSt⟩ := seek_time_mem h st.time fuel w0 S c hS hnext
  have hSc : S ∈ c := by
    rcases List.mem_cons.1 hSmem with e | e
    · exact absurd (by rw [← e]; exact hSt) hw0
    · exact e
  obtain ⟨l1, l2, hl⟩ := List.append_of_mem hSc
  have hAd : (h.node A).wind ≠ none := by rw [hwa]; simp
  have hBd : (h.node B).wind ≠ none := by rw [hwb]; simp
  have hApos : ∃ la lb, c = la ++ A :: lb := by
    rcases hA with ⟨_, e⟩ | ⟨_, hg⟩
    · rw [e]; exact ⟨l1, l2, hl⟩
    · by_cases hp : P.TRACE > 0
      · rw [if_pos hp] at hg
        obtain ⟨l0, e, he, _, _⟩ := prev_found h c pre l1 l2 S A fuel hprev hpre hl hg
        exact ⟨l0, e ++ S :: l2, by rw [hl, he]; simp⟩
      · rw [if_neg hp] at hg
        obtain ⟨_, e, l3, he, _, _⟩ := next_found h w0 c l1 l2 S A fuel hnext hl hg
        exact ⟨l1 ++ S :: e, l3, by rw [hl, he]; simp⟩
  obtain ⟨la, lb, hla⟩ := hApos
  have hAc : A ∈ c := by rw [hla]; simp
  have vA : valid_date (h.node A).time := hdata A hAc hAd
  obtain ⟨hn0, hit⟩ := count_steps_spec _ _ _ _ _ hnf
  have hcount : hour_count (h.node B).time = hour_count (h.node A).time + nf := by
    rw [← hit, hour_count_forward_iter _ vA, Int.toNat_of_nonneg hn0]
  have fin : B ∈ c → date_lt (h.node A).time (h.node B).time →
      w1 = (if P.TRACE > 0 then B else A) →
      ∃ A B, A ∈ c ∧ B ∈ c ∧ slots_oriented h st1 A B ∧ 0 < st1.data_diff ∧
        w1 = (if P.TRACE > 0 then B else A) := by
    intro hBc hlt hw
    refine ⟨A, B, hAc, hBc, ⟨⟨wa, wb, hwa, hwb, ?_⟩, ?_, ?_⟩, ?_, hw⟩
    · rw [hsm]; exact hslots
    · rw [hdd]; exact hn0
    · rw [hdd]; exact hcount
    · rw [hdd]; exact gap_positive _ _ _ nf hn0 hit (date_lt_ne _ _ hlt)
  by_cases hp : P.TRACE > 0
  · rw [if_pos hp] at hB
    rw [if_neg (show ¬ P.TRACE < 0 by omega)] at hcur
    obtain ⟨_, e, l3, he, _, _⟩ := next_found h w0 c la lb A B fuel hnext hla hB
    have hBlb : B ∈ lb := by rw [he]; simp
    have hBc : B ∈ c := by rw [hla]; simp [hBlb]
    have o := chain_before P h c la lb A B hord hla hBlb vA (hdata B hBc hBd)
    rw [if_pos hp] at o
    exact fin hBc o (by rw [if_pos hp]; exact hcur)
  · rw [if_neg hp] at hB
    rw [if_pos (show P.TRACE < 0 by omega)] at hcur
    obtain ⟨l0, e, he, hempty, _⟩ := prev_found h c pre la lb A B fuel hprev hpre hla hB
    have hlb : c = l0 ++ B :: (e ++ A :: lb) := by rw [hla, he]; simp
    have hBc : B ∈ c := by rw [hlb]; simp
    have o := chain_before P h c l0 (e ++ A :: lb) B A hord hlb (by simp)
      (hdata B hBc hBd) vA
    rw [if_neg hp] at o
    have f1 := skip_found h w0 c l0 (e ++ A :: lb) B w1 fuel hnext hlb hcur
    rw [first_with_data_eq_some h e lb A hempty hAd] at f1
    exact fin hBc o (by rw [if_neg hp]; exact (Option.some.inj f1).symm)

theorem slide_orientation (P : param α) (h : heap α) (fuel : Nat) (start : date) (w0 : Nat)
    (c pre : List Nat) (hc : chain_ok P h start w0 c pre) (s : state α) (A B : Nat)
    (r : Nat × state α) (hAc : A ∈ c) (hBc : B ∈ c) (hs : slots_oriented h s A B)
    (hr : get_next_wind_data P h fuel s (if P.TRACE > 0 then B else A) = .ok r) :
    r.1 ∈ c ∧
      (∀ l1 l2, c = l1 ++ (if P.TRACE > 0 then B else A) :: l2 →
        first_with_data h l2 = some r.1) ∧
      (if P.TRACE > 0 then slots_oriented h r.2 B r.1 else slots_oriented h r.2 r.1 A) ∧
      0 < r.2.data_diff := by
  obtain ⟨hnext, hprev, hpre, hw0, hdata, hord⟩ := hc
  obtain ⟨⟨wa, wb, hwa, hwb, hslots⟩, hd0, hcnt⟩ := hs
  obtain ⟨wc, n, hC, hn, hwc, hdd, hsm, hsl⟩ :=
    get_next_wind_data_slots P h fuel s _ r hr
  have hAd : (h.node A).wind ≠ none := by rw [hwa]; simp
  have hBd : (h.node B).wind ≠ none := by rw [hwb]; simp
  have hCd : (h.node r.1).wind ≠ none := by rw [hwc]; simp
  obtain ⟨hn0, hit⟩ := count_steps_spec _ _ _ _ _ hn
  by_cases hp : P.TRACE > 0
  · simp only [if_pos hp] at hC hit hsl ⊢
    obtain ⟨l1, l2, hl⟩ := List.append_of_mem hBc
    obtain ⟨_, e, l3, he, _, _⟩ := next_found h w0 c l1 l2 B r.1 fuel hnext hl hC
    have hCl : r.1 ∈ l2 := by rw [he]; simp
    have hCc : r.1 ∈ c := by rw [hl]; simp [hCl]
    have vB := hdata B hBc hBd
    have o := chain_before P h c l1 l2 B r.1 hord hl hCl vB (hdata r.1 hCc hCd)
    rw [if_pos hp] at o
    refine ⟨hCc, fun k1 k2 hk => (next_found h w0 c k1 k2 B r.1 fuel hnext hk hC).1,
      ⟨⟨wb, wc, hwb, hwc, ?_⟩, ?_, ?_⟩, ?_⟩
    · intro i hi
      rw [hsm] at hi ⊢
      obtain ⟨a1, a2⟩ := hsl i hi
      rw [a1, a2]
      exact ⟨(hslots i hi).2, rfl⟩
    · rw [hdd]; exact hn0
    · rw [hdd, ← hit, hour_count_forward_iter _ vB, Int.toNat_of_nonneg hn0]
    · rw [hdd]; exact gap_positive _ _ _ n hn0 hit (date_lt_ne _ _ o)
  · simp only [if_neg hp] at hC hit hsl ⊢
    obtain ⟨l1, l2, hl⟩ := List.append_of_mem hAc
    obtain ⟨_, e, l3, he, _, _⟩ := next_found h w0 c l1 l2 A r.1 fuel hnext hl hC
    have hCl : r.1 ∈ l2 := by rw [he]; simp
    have hCc : r.1 ∈ c := by rw [hl]; simp [hCl]
    have vA := hdata A hAc hAd
    have o := chain_before P h c l1 l2 A r.1 hord hl hCl vA (hdata r.1 hCc hCd)
    rw [if_neg hp] at o
    refine ⟨hCc, fun k1 k2 hk => (next_found h w0 c k1 k2 A r.1 fuel hnext hk hC).1,
      ⟨⟨wc, wa, hwc, hwa, ?_⟩, ?_, ?_⟩, ?_⟩
    · intro i hi
      rw [hsm] at hi ⊢
      obtain ⟨a1, a2⟩ := hsl i hi
      rw [a1, a2]
      exact ⟨rfl, (hslots i hi).1⟩
    · rw [hdd]; exact hn0
    · rw [hdd, ← hit, hour_count_backward_iter _ vA, Int.toNat_of_nonneg hn0]
      ring
    · rw [hdd]
      exact gap_positive _ _ _ n hn0 hit (fun e => date_lt_ne _ _ o e.symm)

/-- C35: on a snapshot chain in trace order (`chain_ok`) and for TRACE != 0:
when `init_wind_data` returns, there are two snapshots
`A` and `B` of the chain such that slot 0 of `wind_data` holds the samples of
`A` and slot 1 those of `B`, `data_diff > 0` is the number of hours from the
time of `A` to the time of `B` (so `A` is the earlier one), and the cursor is
`B` for a forward and `A` for a backward trace; and when the slots are so
oriented and `get_next_wind_data` returns from that cursor, the new cursor is
the first snapshot with data behind the old cursor along `next` (the trace
direction), and the slots are again oriented with `data_diff > 0`: they hold
`B` and the new snapshot for a forward trace, the new snapshot and `A` for a
backward trace.  Nothing is assumed about the start snapshot holding data. -/
theorem C35_slot_orientation (P : param α) (h : heap α) (fuel : Nat) (st : state α)
    (w0 : Nat) (c pre : List Nat)
    (hc : chain_ok P h st.time w0 c pre) (ht : P.TRACE ≠ 0) :
    (∀ w1 st1, init_wind_data P h fuel st w0 = .ok (w1, st1) →
      ∃ A B, A ∈ c ∧ B ∈ c ∧ slots_oriented h st1 A B ∧ 0 < st1.data_diff ∧
        w1 = (if P.TRACE > 0 then B else A)) ∧
    (∀ (s : state α) (A B : Nat) (r : Nat × state α), A ∈ c → B ∈ c →
      slots_oriented h s A B →
      get_next_wind_data P h fuel s (if P.TRACE > 0 then B else A) = .ok r →
      r.1 ∈ c ∧
        (∀ l1 l2, c = l1 ++ (if P.TRACE > 0 then B else A) :: l2 →
          first_with_data h l2 = some r.1) ∧
        (if P.TRACE > 0 then slots_oriented h r.2 B r.1 else slots_oriented h r.2 r.1 A) ∧
        0 < r.2.data_diff) :=
  ⟨fun w1 st1 hr => init_orientation P h fuel st w0 c pre hc ht w1 st1 hr,
    fun s A B r hA hB hs hr => slide_orientation P h fuel st.time w0 c pre hc s A B r hA hB hs hr⟩

end orientation

theorem C35_slot_orientation_witness :
    valid_date (start21_state 1).time ∧ (tiny_heap.node 2).time = (start21_state 1).time ∧
    (tiny_heap.node 2).wind.isNone = true ∧
    ∃ w1 st1, init_wind_data (example_param 1 2 2 200) tiny_heap 10 (start21_state 1) 0
        = .ok (w1, st1) ∧
      ∃ A B, A ∈ [1, 2, 3, 4] ∧ B ∈ [1, 2, 3, 4] ∧ slots_oriented tiny_heap st1 A B ∧
        0 < st1.data_diff ∧
        w1 = (if (example_param 1 2 2 200 : param ℚ).TRACE > 0 then B else A) := by
  refine ⟨by decide, rfl, rfl, _, _, rfl,
    (C35_slot_orientation (example_param 1 2 2 200) tiny_heap 10 (start21_state 1) 0
      [1, 2, 3, 4] [0] ?_ (by decide)).1 _ _ rfl⟩
  refine ⟨by simp only [next_path, path_of]; decide, by simp only [prev_path, path_of]; decide,
    ?_, by decide, ?_, by decide⟩
  · intro x hx
    simp only [List.mem_singleton] at hx
    subst hx
    rfl
  · intro a ha _
    simp only [List.mem_cons, List.mem_singleton, List.not_mem_nil, or_false] at ha
    rcases ha with rfl | rfl | rfl | rfl <;> decide

/-! ## Double arithmetic: rounding and evaluation lemmas -/

theorem round_even_eq (r : ℚ) (n : ℤ) (h : |r - n| < 1 / 2) : round_even r = n := by
  rw [abs_lt] at h
  unfold round_even
  by_cases c : (n : ℚ) ≤ r
  · have f : ⌊r⌋ = n := by
      rw [Int.floor_eq_iff]
      constructor
      · exact c
      · linarith
    rw [f, if_pos (by linarith)]
  · have f : ⌊r⌋ = n - 1 := by
      rw [Int.floor_eq_iff]
      push_cast
      constructor <;> linarith
    rw [f]
    push_cast
    rw [if_neg (by linarith), if_pos (by linarith)]
    ring

theorem round_even_tie (r : ℚ) (n : ℤ) (h : r = n + 1 / 2) :
    round_even r = if n % 2 = 0 then n else n + 1 := by
  have f : ⌊r⌋ = n := by
    rw [Int.floor_eq_iff]
    constructor <;> linarith
  unfold round_even
  rw [f, if_neg (by linarith), if_neg (by linarith)]

theorem fl_log (x : ℚ) (e : ℤ) (h1 : (2 : ℚ) ^ (e + 52) ≤ |x|) (h2 : |x| < (2 : ℚ) ^ (e + 53)) :
    x ≠ 0 ∧ Int.log 2 |x| - 52 = e := by
  have hx : x ≠ 0 := by
    intro h
    rw [h, abs_zero] at h1
    have : (0 : ℚ) < 2 ^ (e + 52) := by positivity
    linarith
  have hpos : 0 < |x| := abs_pos.2 hx
  have hl : Int.log 2 |x| = e + 52 := by
    apply le_antisymm
    · have := (Int.lt_zpow_iff_log_lt (b := 2) (by norm_num) hpos (x := e + 53)).1
        (by exact_mod_cast h2)
      omega
    · exact (Int.zpow_le_iff_le_log (b := 2) (by norm_num) hpos).1 (by exact_mod_cast h1)
  exact ⟨hx, by rw [hl]; ring⟩

theorem fl_eq (x : ℚ) (e n : ℤ) (h1 : (2 : ℚ) ^ (e + 52) ≤ |x|) (h2 : |x| < (2 : ℚ) ^ (e + 53))
    (h3 : |x / (2 : ℚ) ^ e - n| < 1 / 2) : fl x = n * (2 : ℚ) ^ e := by
  obtain ⟨hx, hl⟩ := fl_log x e h1 h2
  unfold fl
  rw [if_neg hx, hl, round_even_eq _ n h3]

theorem fl_zero : fl 0 = 0 := by
  unfold fl
  rw [if_pos rfl]

/-- Evaluation of `fl` at a positive number that is not half-way between two
neighbours: `v = n * 2^e` with `2^52 <= n < 2^53` is the nearest. -/
theorem fl_of_pos_eq (x v : ℚ) (e n : ℤ) (h1 : (2 : ℚ) ^ (e + 52) ≤ x)
    (h2 : x < (2 : ℚ) ^ (e + 53)) (h3 : (n : ℚ) - 1 / 2 < x / (2 : ℚ) ^ e)
    (h4 : x / (2 : ℚ) ^ e < (n : ℚ) + 1 / 2) (hv : v = n * (2 : ℚ) ^ e) : fl x = v := by
  have hp : 0 < x := lt_of_lt_of_le (by positivity) h1
  rw [hv]
  exact fl_eq x e n (by rw [abs_of_pos hp]; exact h1) (by rw [abs_of_pos hp]; exact h2)
    (by rw [abs_lt]; constructor <;> linarith)

/-- Evaluation of `fl` at a negative number that is not half-way between two
neighbours. -/
theorem fl_of_neg_eq (x v : ℚ) (e n : ℤ) (h1 : (2 : ℚ) ^ (e + 52) ≤ -x)
    (h2 : -x < (2 : ℚ) ^ (e + 53)) (h3 : (n : ℚ) - 1 / 2 < x / (2 : ℚ) ^ e)
    (h4 : x / (2 : ℚ) ^ e < (n : ℚ) + 1 / 2) (hv : v = n * (2 : ℚ) ^ e) : fl x = v := by
  have hp : x < 0 := by
    have : (0 : ℚ) < 2 ^ (e + 52) := by positivity
    linarith
  rw [hv]
  exact fl_eq x e n (by rw [abs_of_neg hp]; exact h1) (by rw [abs_of_neg hp]; exact h2)
    (by rw [abs_lt]; constructor <;> linarith)

/-- Evaluation of `fl` at a positive number half-way between two neighbours:
the one with the even last digit is taken. -/
theorem fl_of_pos_tie_eq (x v : ℚ) (e n m : ℤ) (h1 : (2 : ℚ) ^ (e + 52) ≤ x)
    (h2 : x < (2 : ℚ) ^ (e + 53)) (h3 : x / (2 : ℚ) ^ e = (n : ℚ) + 1 / 2)
    (hm : m = if n % 2 = 0 then n else n + 1) (hv : v = m * (2 : ℚ) ^ e) : fl x = v := by
  have hp : 0 < x := lt_of_lt_of_le (by positivity) h1
  obtain ⟨hx, hl⟩ := fl_log x e (by rw [abs_of_pos hp]; exact h1) (by rw [abs_of_pos hp]; exact h2)
  unfold fl
  rw [if_neg hx, hl, round_even_tie _ n h3, hv, hm]

/-- Evaluation of `fl` at a negative number half-way between two neighbours. -/
theorem fl_of_neg_tie_eq (x v : ℚ) (e n m : ℤ) (h1 : (2 : ℚ) ^ (e + 52) ≤ -x)
    (h2 : -x < (2 : ℚ) ^ (e + 53)) (h3 : x / (2 : ℚ) ^ e = (n : ℚ) + 1 / 2)
    (hm : m = if n % 2 = 0 then n else n + 1) (hv : v = m * (2 : ℚ) ^ e) : fl x = v := by
  have hp : x < 0 := by
    have : (0 : ℚ) < 2 ^ (e + 52) := by positivity
    linarith
  obtain ⟨hx, hl⟩ := fl_log x e (by rw [abs_of_neg hp]; exact h1) (by rw [abs_of_neg hp]; exact h2)
  unfold fl
  rw [if_neg hx, hl, round_even_tie _ n h3, hv, hm]

@[simp] theorem ieee.fin_add (a b : ℚ) : ieee.fin a + ieee.fin b = ieee.fin (fl (a + b)) := rfl

@[simp] theorem ieee.fin_sub (a b : ℚ) : ieee.fin a - ieee.fin b = ieee.fin (fl (a - b)) := rfl

@[simp] theorem ieee.fin_mul (a b : ℚ) : ieee.fin a * ieee.fin b = ieee.fin (fl (a * b)) := rfl

@[simp] theorem ieee.fin_div (a b : ℚ) :
    ieee.fin a / ieee.fin b =
      if b = 0 then (if a = 0 then ieee.nan else ieee.signed_inf a b)
      else ieee.fin (fl (a / b)) := rfl

@[simp] theorem ieee.fin_lt (a b : ℚ) : (ieee.fin a < ieee.fin b) ↔ a < b := Iff.rfl

@[simp] theorem ieee.fin_le (a b : ℚ) : (ieee.fin a ≤ ieee.fin b) ↔ a ≤ b := Iff.rfl

@[simp] theorem ieee.fin_eq (a b : ℚ) : ieee.eq (ieee.fin a) (ieee.fin b) ↔ a = b := Iff.rfl

@[simp] theorem ieee.fin_fabs (a : ℚ) :
    ieee.fabs (ieee.fin a) = ieee.fin (if a < 0 then -a else a) := rfl

@[simp] theorem ieee.fin_to_int (a : ℚ) :
    ieee.to_int (ieee.fin a) = if 0 ≤ a then ⌊a⌋ else ⌈a⌉ := rfl

@[simp] theorem glibc_sin_fin (q : ℚ) : glibc.sin (ieee.fin q) = ieee.fin (sin_table q) := rfl

@[simp] theorem glibc_cos_fin (q : ℚ) : glibc.cos (ieee.fin q) = ieee.fin (cos_table q) := rfl

@[simp] theorem glibc_acos_fin (q : ℚ) :
    glibc.acos (ieee.fin q) = if q < -1 ∨ 1 < q then ieee.nan else ieee.fin (acos_table q) := rfl

@[simp] theorem glibc_acos_nan : glibc.acos ieee.nan = ieee.nan := rfl

@[simp] theorem glibc_sqrt_nan : glibc.sqrt ieee.nan = ieee.nan := rfl

@[simp] theorem glibc_pi : glibc.pi = ieee.fin M_PI := rfl

@[simp] theorem ieee.nan_mul (a : ieee) : ieee.nan * a = ieee.nan := by cases a <;> rfl

@[simp] theorem ieee.nan_div (a : ieee) : ieee.nan / a = ieee.nan := by cases a <;> rfl

@[simp] theorem ieee.add_nan (a : ieee) : a + ieee.nan = ieee.nan := by cases a <;> rfl

@[simp] theorem ieee.not_le_nan (a : ieee) : ¬ (a ≤ ieee.nan) := by
  cases a <;> exact fun h => h

@[simp] theorem ieee.not_lt_nan (a : ieee) : ¬ (a < ieee.nan) := by
  cases a <;> exact fun h => h

@[simp] theorem ieee.not_nan_lt (a : ieee) : ¬ (ieee.nan < a) := by
  cases a <;> exact fun h => h

@[simp] theorem ieee.fin_mul_pinf (a : ℚ) :
    ieee.fin a * ieee.pinf = if a = 0 then ieee.nan else ieee.signed_inf a 1 := rfl

@[simp] theorem ieee.fin_add_pinf (a : ℚ) : ieee.fin a + ieee.pinf = ieee.pinf := rfl

@[simp] theorem ieee.pinf_div_pinf : ieee.pinf / ieee.pinf = ieee.nan := rfl

@[simp] theorem ieee.pinf_eq_fin (a : ℚ) : ¬ ieee.eq ieee.pinf (ieee.fin a) := fun h => h

@[simp] theorem ieee.fin_add_nan (a : ℚ) : ieee.fin a + ieee.nan = ieee.nan := rfl

@[simp] theorem ieee.nan_eq (a : ieee) : ¬ ieee.eq ieee.nan a := by
  cases a <;> exact fun h => h

theorem normalize_coords_double_eq (M : libm ieee) (st : state ieee) :
    normalize_coords_double M st =
      { st with
        lo := Function.update st.lo st.point.toNat
          (deg2rad_double M (wrap_degrees_double (rad2deg_double M (st.lo st.point.toNat))))
        la := Function.update st.la st.point.toNat
          (deg2rad_double M (fold_degrees_double
            (wrap_degrees_double (rad2deg_double M (st.la st.point.toNat))))) } := rfl

theorem normalize_coords_double_lo (M : libm ieee) (st : state ieee) :
    (normalize_coords_double M st).lo st.point.toNat =
      deg2rad_double M (wrap_degrees_double (rad2deg_double M (st.lo st.point.toNat))) := by
  rw [normalize_coords_double_eq]
  exact Function.update_same st.point.toNat _ st.lo

theorem normalize_coords_double_la (M : libm ieee) (st : state ieee) :
    (normalize_coords_double M st).la st.point.toNat =
      deg2rad_double M (fold_degrees_double
        (wrap_degrees_double (rad2deg_double M (st.la st.point.toNat)))) := by
  rw [normalize_coords_double_eq]
  exact Function.update_same st.point.toNat _ st.la

theorem init_values_double_range (P : param ieee) (M : libm ieee) (n : Nat) :
    (init_values_double P M n).cos_min_r = M.cos (ieee.of_int P.MINR / RE_double) ∧
    (init_values_double P M n).cos_max_r = M.cos (ieee.of_int P.MAXR / RE_double) ∧
    (init_values_double P M n).station_max = n := ⟨rfl, rfl, rfl⟩

/-- The loop of `plot_to_next_point` for a segment along a row (`y1 == y2`)
whose first point is not right of its second, in double arithmetic: the walk
from `x1` to `x2` in steps of the second `dx`. -/
theorem plot_to_next_point_double_row (P : Frequency.param ieee) (M : libm ieee) (fuel : Nat)
    (plot_field : Nat → ieee) (cur : Frequency.trajectory ieee) (st : Frequency.state ieee)
    (w x1 y1 x2 dxv : ieee)
    (hw : Frequency.get_weight_double P M cur = w)
    (hdx : ieee.of_int P.RES /
      (Frequency.DEGDISTANCE_double * M.cos (deg2rad_double M cur.y_new)) = dxv)
    (hx1 : (cur.x_old - st.lo_min) / (ieee.of_int P.RES /
      (Frequency.DEGDISTANCE_double * M.cos (deg2rad_double M cur.y_old))) = x1)
    (hy1 : (cur.y_old - st.la_min) / (ieee.of_int P.RES / Frequency.DEGDISTANCE_double) = y1)
    (hx2 : (cur.x_new - st.lo_min) / dxv = x2)
    (hy2 : (cur.y_new - st.la_min) / (ieee.of_int P.RES / Frequency.DEGDISTANCE_double) = y1)
    (he : ieee.eq y1 y1) (hlt : ¬ x2 < x1) :
    Frequency.plot_to_next_point_double P M fuel plot_field cur st =
      Frequency.walk_double x2 dxv
        (fun x f => Frequency.plot_cell_double st cur w x y1 f) fuel x1 plot_field := by
  subst hdx
  unfold Frequency.plot_to_next_point_double
  simp only [hw, hx1, hy1, hx2, hy2, if_pos he, if_neg hlt]

/-- One pass of the walking loop, in double arithmetic: the body runs at `v`
and the loop ends when `v + step` is no longer below the bound. -/
theorem walk_double_once (bound step : ieee) (body : ieee → (Nat → ieee) → (Nat → ieee))
    (v : ieee) (plot_field : Nat → ieee) (h1 : v < bound) (h2 : ¬ v + step < bound) :
    Frequency.walk_double bound step body 1 v plot_field = .ok (body v plot_field) := by
  rw [Frequency.walk_double, if_pos h1, Frequency.walk_double, if_neg h2]

/-- The body of the file loop for a file of two rows, in double arithmetic:
one call of `plot_to_next_point` on the zeroed mask at the reading status of
the first segment, the mask then added to the grid. -/
theorem plot_trajectory_double_two (P : Frequency.param ieee) (M : libm ieee) (fuel : Nat)
    (st : Frequency.state ieee) (current : Frequency.trajectory ieee) (plot_field : Nat → ieee)
    (start next : ieee × ieee) (mask : Nat → ieee)
    (h : Frequency.plot_to_next_point_double P M fuel
      (Frequency.init_field_double plot_field st.field_max)
      (Frequency.first_segment_double M current start next) st = .ok mask) :
    ∃ c, Frequency.plot_trajectory_double P M fuel st current plot_field (some [start, next]) =
      .ok (c, mask,
        { st with
          field_grid := (List.range st.field_max.toNat).foldl
            (fun g j => Function.update g j (g j + mask j)) st.field_grid }) ∧
      c.x_plot_min = current.x_plot_min ∧ c.x_plot_max = current.x_plot_max ∧
      c.y_plot_min = current.y_plot_min ∧ c.y_plot_max = current.y_plot_max := by
  simp only [Frequency.first_segment_double] at h
  simp only [Frequency.plot_trajectory_double, Frequency.read_trajectory_double, List.foldlM,
    Frequency.read_trajectory_row_double, bind, Except.bind, h, pure, Except.pure]
  exact ⟨_, rfl, rfl, rfl, rfl, rfl⟩

/-- The body of the file loop for a file of one row, in double arithmetic: the
mask is zeroed and added to the grid; the plot window stays. -/
theorem plot_trajectory_double_one (P : Frequency.param ieee) (M : libm ieee) (fuel : Nat)
    (st : Frequency.state ieee) (current : Frequency.trajectory ieee) (plot_field : Nat → ieee)
    (start : ieee × ieee) :
    ∃ c, Frequency.plot_trajectory_double P M fuel st current plot_field (some [start]) =
      .ok (c, Frequency.init_field_double plot_field st.field_max,
        { st with
          field_grid := (List.range st.field_max.toNat).foldl
            (fun g j => Function.update g j
              (g j + Frequency.init_field_double plot_field st.field_max j)) st.field_grid }) ∧
      c.x_plot_min = current.x_plot_min ∧ c.x_plot_max = current.x_plot_max ∧
      c.y_plot_min = current.y_plot_min ∧ c.y_plot_max = current.y_plot_max := by
  simp only [Frequency.plot_trajectory_double, Frequency.read_trajectory_double, List.foldlM,
    pure, Except.pure]
  exact ⟨_, rfl, rfl, rfl, rfl, rfl⟩

/-- The plot window for SIZE = 0, in double arithmetic: the whole grid. -/
theorem init_plot_area_double_whole (P : Frequency.param ieee) (M : libm ieee)
    (st : Frequency.state ieee) (hs : P.SIZE = 0) :
    ∃ c, Frequency.init_plot_area_double P M st (Frequency.start_trajectory_double P) = .ok c ∧
      c.x_plot_min = 0 ∧ c.x_plot_max = st.x_field ∧ c.y_plot_min = 0 ∧
      c.y_plot_max = st.y_field := by
  have h : ¬ (Frequency.start_trajectory_double P).plot_size > 0 := by
    simp [Frequency.start_trajectory_double, hs]
  rw [Frequency.init_plot_area_double, if_neg h]
  exact ⟨_, rfl, rfl, rfl, rfl, rfl⟩

/-- The zeroed mask of a grid of one element, in double arithmetic. -/
theorem init_field_double_one (f : Nat → ieee) :
    Frequency.init_field_double f 1 = Function.update f 0 (ieee.fin 0) := by
  simp [Frequency.init_field_double, List.range_succ]

/-! ## Properties that rounding, an infinity or NaN decides -/

section clamp

variable {α : Type} [LinearOrderedField α] [FloorRing α]

/-- C10 (amended): with `cos_min_r = cos(MINR/RE)` and `cos_max_r =
cos(MAXR/RE)` as `init_values` sets them, `cos_max_r < cos_min_r`,
`acos(cos_min_r) > 0` and `acos` non-increasing between `cos_max_r` and
`cos_min_r`: every present station with `c >= cos(MINR/RE)` is in range and
gets exactly the weight `1/acos(cos(MINR/RE))²`, and every station counted in
range has a weight `w` with
`1/acos(cos(MAXR/RE))² <= w <= 1/acos(cos(MINR/RE))²`. -/
theorem C10_weight_bounds (P : param α) (M : libm α) (n : Nat) (st : state α)
    (acc : weight_acc α) (X : vec3 α) (i offset : Nat)
    (hmin : st.cos_min_r = (init_values P M n).cos_min_r)
    (hmax : st.cos_max_r = (init_values P M n).cos_max_r)
    (hlt : M.cos ((P.MAXR : α) / RE) < M.cos ((P.MINR : α) / RE))
    (hpos : 0 < M.acos (M.cos ((P.MINR : α) / RE)))
    (hanti : ∀ x y, M.cos ((P.MAXR : α) / RE) ≤ x → x ≤ y → y ≤ M.cos ((P.MINR : α) / RE) →
      M.acos y ≤ M.acos x)
    (hp : (st.wind_current (offset + i)).p ≠ 0) :
    (distance_to_station_in_cos i X st ≥ M.cos ((P.MINR : α) / RE) →
      (check_station_weight M st acc X i offset).amount = acc.amount + 1 ∧
      (check_station_weight M st acc X i offset).weight i =
        1 / (M.acos (M.cos ((P.MINR : α) / RE))) ^ 2) ∧
    ((check_station_weight M st acc X i offset).amount = acc.amount + 1 →
      1 / (M.acos (M.cos ((P.MAXR : α) / RE))) ^ 2 ≤
        (check_station_weight M st acc X i offset).weight i ∧
      (check_station_weight M st acc X i offset).weight i ≤
        1 / (M.acos (M.cos ((P.MINR : α) / RE))) ^ 2) := by
  have emin : st.cos_min_r = M.cos ((P.MINR : α) / RE) := by rw [hmin]; rfl
  have emax : st.cos_max_r = M.cos ((P.MAXR : α) / RE) := by rw [hmax]; rfl
  have key : M.cos ((P.MAXR : α) / RE) <
        min (distance_to_station_in_cos i X st) st.cos_min_r →
      (check_station_weight M st acc X i offset).weight i =
        1 / (M.acos (min (distance_to_station_in_cos i X st) st.cos_min_r)) ^ 2 := by
    intro hv
    rw [check_station_weight_in M st acc X i offset hp (by rw [emax]; exact hv)]
    simp [pow_two]
  constructor
  · intro hc
    have hv : min (distance_to_station_in_cos i X st) st.cos_min_r =
        M.cos ((P.MINR : α) / RE) := by
      rw [emin]; exact min_eq_right hc
    refine ⟨(counted_iff M st acc X i offset).2 ⟨hp, by rw [hv, emax]; exact hlt⟩, ?_⟩
    rw [key (by rw [hv]; exact hlt), hv]
  · intro hcnt
    obtain ⟨_, hr⟩ := (counted_iff M st acc X i offset).1 hcnt
    have hv1 : M.cos ((P.MAXR : α) / RE) <
        min (distance_to_station_in_cos i X st) st.cos_min_r := by rw [← emax]; exact hr
    have hv2 : min (distance_to_station_in_cos i X st) st.cos_min_r ≤
        M.cos ((P.MINR : α) / RE) := by rw [← emin]; exact min_le_right _ _
    have g1 : M.acos (M.cos ((P.MINR : α) / RE)) ≤
        M.acos (min (distance_to_station_in_cos i X st) st.cos_min_r) :=
      hanti _ _ (le_of_lt hv1) hv2 le_rfl
    have g2 : M.acos (min (distance_to_station_in_cos i X st) st.cos_min_r) ≤
        M.acos (M.cos ((P.MAXR : α) / RE)) :=
      hanti _ _ le_rfl (le_of_lt hv1) hv2
    have p1 : 0 < M.acos (min (distance_to_station_in_cos i X st) st.cos_min_r) :=
      lt_of_lt_of_le hpos g1
    rw [key hv1]
    constructor
    · apply one_div_le_one_div_of_le (by positivity)
      exact pow_le_pow_left (le_of_lt p1) g2 2
    · apply one_div_le_one_div_of_le (by positivity)
      exact pow_le_pow_left (le_of_lt hpos) g1 2

end clamp

theorem C10_weight_bounds_witness :
    (distance_to_station_in_cos 0 ⟨1, 0, 0⟩
        (example_state (example_param 1 1 2 200)
          ⟨Real.sin, Real.cos, Real.arccos, Real.sqrt, Real.pi⟩) ≥
          Real.cos (((example_param 1 1 2 200 : param ℝ).MINR : ℝ) / RE) →
      (check_station_weight ⟨Real.sin, Real.cos, Real.arccos, Real.sqrt, Real.pi⟩
          (example_state (example_param 1 1 2 200)
            ⟨Real.sin, Real.cos, Real.arccos, Real.sqrt, Real.pi⟩)
          zero_acc ⟨1, 0, 0⟩ 0 0).amount = (zero_acc : weight_acc ℝ).amount + 1 ∧
      (check_station_weight ⟨Real.sin, Real.cos, Real.arccos, Real.sqrt, Real.pi⟩
          (example_state (example_param 1 1 2 200)
            ⟨Real.sin, Real.cos, Real.arccos, Real.sqrt, Real.pi⟩)
          zero_acc ⟨1, 0, 0⟩ 0 0).weight 0 =
        1 / (Real.arccos (Real.cos (((example_param 1 1 2 200 : param ℝ).MINR : ℝ) / RE))) ^ 2) ∧
    ((check_station_weight ⟨Real.sin, Real.cos, Real.arccos, Real.sqrt, Real.pi⟩
          (example_state (example_param 1 1 2 200)
            ⟨Real.sin, Real.cos, Real.arccos, Real.sqrt, Real.pi⟩)
          zero_acc ⟨1, 0, 0⟩ 0 0).amount = (zero_acc : weight_acc ℝ).amount + 1 →
      1 / (Real.arccos (Real.cos (((example_param 1 1 2 200 : param ℝ).MAXR : ℝ) / RE))) ^ 2 ≤
        (check_station_weight ⟨Real.sin, Real.cos, Real.arccos, Real.sqrt, Real.pi⟩
          (example_state (example_param 1 1 2 200)
            ⟨Real.sin, Real.cos, Real.arccos, Real.sqrt, Real.pi⟩)
          zero_acc ⟨1, 0, 0⟩ 0 0).weight 0 ∧
      (check_station_weight ⟨Real.sin, Real.cos, Real.arccos, Real.sqrt, Real.pi⟩
          (example_state (example_param 1 1 2 200)
            ⟨Real.sin, Real.cos, Real.arccos, Real.sqrt, Real.pi⟩)
          zero_acc ⟨1, 0, 0⟩ 0 0).weight 0 ≤
        1 / (Real.arccos (Real.cos (((example_param 1 1 2 200 : param ℝ).MINR : ℝ) / RE))) ^ 2) :=
  C10_weight_bounds (example_param 1 1 2 200)
    ⟨Real.sin, Real.cos, Real.arccos, Real.sqrt, Real.pi⟩ 1
    (example_state (example_param 1 1 2 200)
      ⟨Real.sin, Real.cos, Real.arccos, Real.sqrt, Real.pi⟩)
    zero_acc ⟨1, 0, 0⟩ 0 0 rfl rfl
    (by
      have := Real.pi_gt_three
      apply Real.cos_lt_cos_of_nonneg_of_le_pi
      · simp only [example_param, RE]; norm_num
      · simp only [example_param, RE]; norm_num; linarith
      · simp only [example_param, RE]; norm_num)
    (by
      have := Real.pi_gt_three
      show 0 < Real.arccos (Real.cos _)
      rw [Real.arccos_cos (by simp only [example_param, RE]; norm_num)
        (by simp only [example_param, RE]; norm_num; linarith)]
      simp only [example_param, RE]
      norm_num)
    (fun x y h1 h2 h3 =>
      Real.strictAntiOn_arccos.antitoneOn
        ⟨le_trans (Real.neg_one_le_cos _) h1, le_trans (le_trans h2 h3) (Real.cos_le_one _)⟩
        ⟨le_trans (le_trans (Real.neg_one_le_cos _) h1) h2, le_trans h3 (Real.cos_le_one _)⟩ h2)
    (by simp [example_state])

theorem example_state_double_fields (P : param ieee) (M : libm ieee) :
    (example_state_double P M).cos_min_r = M.cos (ieee.of_int P.MINR / RE_double) ∧
    (example_state_double P M).cos_max_r = M.cos (ieee.of_int P.MAXR / RE_double) ∧
    (example_state_double P M).station_max = 1 ∧
    (example_state_double P M).station_list =
      (fun _ => ⟨1, 1, ⟨ieee.fin 1, ieee.fin 0, ieee.fin 0⟩⟩) ∧
    (example_state_double P M).wind_current =
      (fun k => if k = 0 then ⟨ieee.fin 3, ieee.fin 4, 1⟩ else ⟨ieee.fin 5, ieee.fin 12, 1⟩) :=
  ⟨rfl, rfl, rfl, rfl, rfl⟩

/-- The weight of a present station at the particle position for the radii
MINR = 2 and MAXR = 200 in double arithmetic. -/
theorem near_station_double (st : state ieee)
    (cmin : st.cos_min_r = glibc.cos (ieee.of_int 2 / RE_double))
    (cmax : st.cos_max_r = glibc.cos (ieee.of_int 200 / RE_double))
    (c4 : st.station_list = (fun _ => ⟨1, 1, ⟨ieee.fin 1, ieee.fin 0, ieee.fin 0⟩⟩))
    (c5 : st.wind_current =
      (fun k => if k = 0 then ⟨ieee.fin 3, ieee.fin 4, 1⟩ else ⟨ieee.fin 5, ieee.fin 12, 1⟩)) :
    st.cos_min_r = ieee.fin (9007198810784003 / 9007199254740992) ∧
    distance_to_station_in_cos_double 0 ⟨ieee.fin 1, ieee.fin 0, ieee.fin 0⟩ st = ieee.fin 1 ∧
    check_station_weight_double glibc st
      zero_acc_double ⟨ieee.fin 1, ieee.fin 0, ieee.fin 0⟩ 0 0 =
      { wind_in_range := Function.update zero_acc_double.wind_in_range 0
          ⟨ieee.fin (2042302249379859 / 67108864), ieee.fin (680767416459953 / 16777216), 1⟩
        weight := Function.update zero_acc_double.weight 0
          (ieee.fin (680767416459953 / 67108864))
        u_sum := ieee.fin (2042302249379859 / 67108864)
        v_sum := ieee.fin (680767416459953 / 16777216)
        amount := ieee.fin 1 } := by
  have a1 : fl (1 / 3185) = 5791756381070503 / 18446744073709551616 :=
    (fl_of_pos_eq _ _ (-64) (5791756381070503) (by norm_num) (by norm_num) (by norm_num) (by norm_num) (by norm_num))
  have a2 : fl (20 / 637) = 2262404836355665 / 72057594037927936 :=
    (fl_of_pos_eq _ _ (-57) (4524809672711330) (by norm_num) (by norm_num) (by norm_num) (by norm_num) (by norm_num))
  have a3 : fl (1) = 1 :=
    (fl_of_pos_eq _ _ (-52) (4503599627370496) (by norm_num) (by norm_num) (by norm_num) (by norm_num) (by norm_num))
  have a4 : fl (8386110487647990299251555296025 / 85070591730234615865843651857942052864) = 7448362360349839 / 75557863725914323419136 :=
    (fl_of_pos_eq _ _ (-76) (7448362360349839) (by norm_num) (by norm_num) (by norm_num) (by norm_num) (by norm_num))
  have a5 : fl (75557863725914323419136 / 7448362360349839) = 680767416459953 / 67108864 :=
    (fl_of_pos_eq _ _ (-29) (5446139331679624) (by norm_num) (by norm_num) (by norm_num) (by norm_num) (by norm_num))
  have a6 : fl (2042302249379859 / 67108864) = 2042302249379859 / 67108864 :=
    (fl_of_pos_eq _ _ (-28) (8169208997519436) (by norm_num) (by norm_num) (by norm_num) (by norm_num) (by norm_num))
  have a7 : fl (680767416459953 / 16777216) = 680767416459953 / 16777216 :=
    (fl_of_pos_eq _ _ (-27) (5446139331679624) (by norm_num) (by norm_num) (by norm_num) (by norm_num) (by norm_num))
  have e1 : st.cos_min_r = ieee.fin (9007198810784003 / 9007199254740992) := by
    rw [cmin]
    norm_num [RE_double, ieee.of_int, cos_table, a1, a2, a3, a4, a5, a6, a7]
  have e2 : st.cos_max_r = ieee.fin (140668125773487 / 140737488355328) := by
    rw [cmax]
    norm_num [RE_double, ieee.of_int, cos_table, a1, a2, a3, a4, a5, a6, a7]
  have p0 : (st.wind_current (0 + 0)).p ≠ 0 := by
    rw [c5]
    decide
  have dist : distance_to_station_in_cos_double 0 ⟨ieee.fin 1, ieee.fin 0, ieee.fin 0⟩ st =
      ieee.fin 1 := by
    simp only [distance_to_station_in_cos_double, c4]
    norm_num [fl_zero, a1, a2, a3, a4, a5, a6, a7]
  refine ⟨e1, dist, ?_⟩
  unfold check_station_weight_double
  rw [if_neg p0, dist, e1, e2, c5]
  norm_num [zero_acc_double, acos_table, fl_zero, a1, a2, a3, a4, a5, a6, a7]

/-- C10, counterexample: in double arithmetic with the default radii MINR = 2
and MAXR = 200, a present station at the particle position (`c = 1 >=
cos_min_r`) is counted in range and gets the weight 680767416459953 / 2^26 =
10144225.008188978, which is not `1/(MINR/RE)² = 10144225` and lies above
it: `acos(cos(2/6370))` is 0.00031397174241644345 and `2/6370` is
0.0003139717425431711. -/
theorem C10_counterexample :
    ((example_state_double (example_param_double 1 2 200) glibc).wind_current (0 + 0)).p ≠ 0 ∧
    distance_to_station_in_cos_double 0 ⟨ieee.fin 1, ieee.fin 0, ieee.fin 0⟩
      (example_state_double (example_param_double 1 2 200) glibc) ≥
      (example_state_double (example_param_double 1 2 200) glibc).cos_min_r ∧
    (check_station_weight_double glibc (example_state_double (example_param_double 1 2 200) glibc)
      zero_acc_double ⟨ieee.fin 1, ieee.fin 0, ieee.fin 0⟩ 0 0).amount = ieee.fin 1 ∧
    (check_station_weight_double glibc (example_state_double (example_param_double 1 2 200) glibc)
      zero_acc_double ⟨ieee.fin 1, ieee.fin 0, ieee.fin 0⟩ 0 0).weight 0 =
      ieee.fin (680767416459953 / 67108864) ∧
    (1 : ℚ) / (((example_param_double 1 2 200).MINR : ℚ) / 6370) ^ 2 <
      680767416459953 / 67108864 := by
  obtain ⟨c1, c2, _, c4, c5⟩ := example_state_double_fields (example_param_double 1 2 200) glibc
  obtain ⟨e1, dist, run⟩ := near_station_double
    (example_state_double (example_param_double 1 2 200) glibc) c1 c2 c4 c5
  refine ⟨?_, ?_, ?_, ?_, ?_⟩
  · rw [c5]
    decide
  · rw [dist, e1]
    show ieee.fin _ ≤ ieee.fin _
    norm_num
  · rw [run]
  · rw [run]
    exact Function.update_same (0 : Nat) _ zero_acc_double.weight
  · norm_num [example_param_double]

/-- The sums of a present station at the particle position for the radii
MINR = 0 and MAXR = 200 in double arithmetic. -/
theorem touching_station_double (st : state ieee)
    (cmin : st.cos_min_r = glibc.cos (ieee.of_int 0 / RE_double))
    (cmax : st.cos_max_r = glibc.cos (ieee.of_int 200 / RE_double))
    (c3 : st.station_max = 1)
    (c4 : st.station_list = (fun _ => ⟨1, 1, ⟨ieee.fin 1, ieee.fin 0, ieee.fin 0⟩⟩))
    (c5 : st.wind_current =
      (fun k => if k = 0 then ⟨ieee.fin 3, ieee.fin 4, 1⟩ else ⟨ieee.fin 5, ieee.fin 12, 1⟩)) :
    st.cos_min_r = ieee.fin 1 ∧
    distance_to_station_in_cos_double 0 ⟨ieee.fin 1, ieee.fin 0, ieee.fin 0⟩ st = ieee.fin 1 ∧
    (∀ (acc : weight_acc ieee) (offset : Nat),
      check_station_weight_double glibc st acc ⟨ieee.fin 1, ieee.fin 0, ieee.fin 0⟩ 0 offset =
        { wind_in_range := Function.update acc.wind_in_range 0 ⟨ieee.pinf, ieee.pinf, 1⟩
          weight := Function.update acc.weight 0 ieee.pinf
          u_sum := acc.u_sum + ieee.pinf
          v_sum := acc.v_sum + ieee.pinf
          amount := acc.amount + ieee.fin 1 }) ∧
    vector_sums_double glibc ⟨ieee.fin 1, ieee.fin 0, ieee.fin 0⟩ st =
      (⟨ieee.pinf, ieee.pinf, ieee.pinf⟩, ⟨ieee.pinf, ieee.pinf, ieee.pinf⟩) := by
  have b1 : fl (20 / 637) = 2262404836355665 / 72057594037927936 :=
    (fl_of_pos_eq _ _ (-57) (4524809672711330) (by norm_num) (by norm_num) (by norm_num) (by norm_num) (by norm_num))
  have b2 : fl (1) = 1 :=
    (fl_of_pos_eq _ _ (-52) (4503599627370496) (by norm_num) (by norm_num) (by norm_num) (by norm_num) (by norm_num))
  have e1 : st.cos_min_r = ieee.fin 1 := by
    rw [cmin]
    norm_num [RE_double, ieee.of_int, cos_table, fl_zero]
  have e2 : st.cos_max_r = ieee.fin (140668125773487 / 140737488355328) := by
    rw [cmax]
    norm_num [RE_double, ieee.of_int, cos_table, b1, b2]
  have dist : distance_to_station_in_cos_double 0 ⟨ieee.fin 1, ieee.fin 0, ieee.fin 0⟩ st =
      ieee.fin 1 := by
    simp only [distance_to_station_in_cos_double, c4]
    norm_num [fl_zero, b1, b2]
  have run : ∀ (acc : weight_acc ieee) (offset : Nat),
      check_station_weight_double glibc st acc ⟨ieee.fin 1, ieee.fin 0, ieee.fin 0⟩ 0 offset =
        { wind_in_range := Function.update acc.wind_in_range 0 ⟨ieee.pinf, ieee.pinf, 1⟩
          weight := Function.update acc.weight 0 ieee.pinf
          u_sum := acc.u_sum + ieee.pinf
          v_sum := acc.v_sum + ieee.pinf
          amount := acc.amount + ieee.fin 1 } := by
    intro acc offset
    have p0 : (st.wind_current (offset + 0)).p ≠ 0 := by
      simp only [c5]
      split_ifs <;> decide
    have uw : ∀ a : ℚ, a ≠ 0 → 0 ≤ a →
        ieee.fin a * (ieee.fin 1 / (glibc.acos (ieee.fin 1) * glibc.acos (ieee.fin 1))) =
          ieee.pinf := by
      intro a h0 h1
      norm_num [acos_table, fl_zero, ieee.signed_inf, h0, h1]
    have w : ieee.fin 1 / (glibc.acos (ieee.fin 1) * glibc.acos (ieee.fin 1)) = ieee.pinf := by
      norm_num [acos_table, fl_zero, ieee.signed_inf]
    have u0 : (st.wind_current (offset + 0)).u *
        (ieee.fin 1 / (glibc.acos (ieee.fin 1) * glibc.acos (ieee.fin 1))) = ieee.pinf := by
      simp only [c5]
      split_ifs
      · exact uw 3 (by norm_num) (by norm_num)
      · exact uw 5 (by norm_num) (by norm_num)
    have v0 : (st.wind_current (offset + 0)).v *
        (ieee.fin 1 / (glibc.acos (ieee.fin 1) * glibc.acos (ieee.fin 1))) = ieee.pinf := by
      simp only [c5]
      split_ifs
      · exact uw 4 (by norm_num) (by norm_num)
      · exact uw 12 (by norm_num) (by norm_num)
    unfold check_station_weight_double
    rw [if_neg p0, dist, e1, e2]
    simp only [gt_iff_lt, ieee.fin_lt, lt_self_iff_false, if_false]
    rw [if_pos (by norm_num), u0, v0, w]
  refine ⟨e1, dist, run, ?_⟩
  unfold vector_sums_double station_loop_double
  rw [c3]
  simp only [List.range_succ, List.range_zero, List.nil_append, List.foldl_cons, List.foldl_nil,
    run]
  simp [end_sum_double]

/-- The sums of a present station at the particle position for the radii
MINR = 14 and MAXR = 200 in double arithmetic, and the wind vector at
`hour_diff = 0` of a forward trace. -/
theorem rounded_station_double (P : param ieee) (ht : P.TRACE = 1) (st : state ieee)
    (cmin : st.cos_min_r = glibc.cos (ieee.of_int 14 / RE_double))
    (cmax : st.cos_max_r = glibc.cos (ieee.of_int 200 / RE_double))
    (c3 : st.station_max = 1)
    (c4 : st.station_list = (fun _ => ⟨1, 1, ⟨ieee.fin 1, ieee.fin 0, ieee.fin 0⟩⟩))
    (c5 : st.wind_current =
      (fun k => if k = 0 then ⟨ieee.fin 3, ieee.fin 4, 1⟩ else ⟨ieee.fin 5, ieee.fin 12, 1⟩)) :
    (check_station_weight_double glibc st zero_acc_double ⟨ieee.fin 1, ieee.fin 0, ieee.fin 0⟩ 0 0).amount = ieee.fin 1 ∧
    (check_station_weight_double glibc st zero_acc_double ⟨ieee.fin 1, ieee.fin 0, ieee.fin 0⟩ 0 0).weight 0 =
      ieee.fin (3556662417771697 / 17179869184) ∧
    vector_sums_double glibc ⟨ieee.fin 1, ieee.fin 0, ieee.fin 0⟩ st =
      (⟨ieee.fin (2667496813328773 / 4294967296), ieee.fin (3556662417771697 / 4294967296), ieee.fin (3556662417771697 / 17179869184)⟩,
        ⟨ieee.fin (4445828022214621 / 4294967296), ieee.fin (2667496813328773 / 1073741824), ieee.fin (3556662417771697 / 17179869184)⟩) ∧
    calculate_wind_vector_double P glibc (ieee.fin 0) ⟨ieee.fin 1, ieee.fin 0, ieee.fin 0⟩ st =
      some (ieee.fin (6755399441055745 / 2251799813685248), ieee.fin 4) := by
  have e1 : fl (1 / 455) = 2533893416718345 / 1152921504606846976 :=
    (fl_of_pos_eq _ _ (-61) (5067786833436690) (by norm_num) (by norm_num) (by norm_num) (by norm_num) (by norm_num))
  have e2 : fl (20 / 637) = 2262404836355665 / 72057594037927936 :=
    (fl_of_pos_eq _ _ (-57) (4524809672711330) (by norm_num) (by norm_num) (by norm_num) (by norm_num) (by norm_num))
  have e3 : fl (1) = 1 :=
    (fl_of_pos_eq _ _ (-52) (4503599627370496) (by norm_num) (by norm_num) (by norm_num) (by norm_num) (by norm_num))
  have e4 : fl (25682463389485737219025067788449 / 5316911983139663491615228241121378304) = 5702652436819941 / 1180591620717411303424 :=
    (fl_of_pos_eq _ _ (-70) (5702652436819941) (by norm_num) (by norm_num) (by norm_num) (by norm_num) (by norm_num))
  have e5 : fl (1180591620717411303424 / 5702652436819941) = 3556662417771697 / 17179869184 :=
    (fl_of_pos_eq _ _ (-35) (7113324835543394) (by norm_num) (by norm_num) (by norm_num) (by norm_num) (by norm_num))
  have e6 : fl (10669987253315091 / 17179869184) = 2667496813328773 / 4294967296 :=
    (fl_of_pos_tie_eq _ _ (-33) (5334993626657545) (5334993626657546) (by norm_num) (by norm_num) (by norm_num)
      (by decide) (by norm_num))
  have e7 : fl (3556662417771697 / 4294967296) = 3556662417771697 / 4294967296 :=
    (fl_of_pos_eq _ _ (-33) (7113324835543394) (by norm_num) (by norm_num) (by norm_num) (by norm_num) (by norm_num))
  have e8 : fl (17783312088858485 / 17179869184) = 4445828022214621 / 4294967296 :=
    (fl_of_pos_tie_eq _ _ (-33) (8891656044429242) (8891656044429242) (by norm_num) (by norm_num) (by norm_num)
      (by decide) (by norm_num))
  have e9 : fl (10669987253315091 / 4294967296) = 2667496813328773 / 1073741824 :=
    (fl_of_pos_tie_eq _ _ (-31) (5334993626657545) (5334993626657546) (by norm_num) (by norm_num) (by norm_num)
      (by decide) (by norm_num))
  have e10 : fl (2667496813328773 / 4294967296) = 2667496813328773 / 4294967296 :=
    (fl_of_pos_eq _ _ (-33) (5334993626657546) (by norm_num) (by norm_num) (by norm_num) (by norm_num) (by norm_num))
  have e11 : fl (4445828022214621 / 4294967296) = 4445828022214621 / 4294967296 :=
    (fl_of_pos_eq _ _ (-33) (8891656044429242) (by norm_num) (by norm_num) (by norm_num) (by norm_num) (by norm_num))
  have e12 : fl (2667496813328773 / 1073741824) = 2667496813328773 / 1073741824 :=
    (fl_of_pos_eq _ _ (-31) (5334993626657546) (by norm_num) (by norm_num) (by norm_num) (by norm_num) (by norm_num))
  have e13 : fl (3556662417771697 / 17179869184) = 3556662417771697 / 17179869184 :=
    (fl_of_pos_eq _ _ (-35) (7113324835543394) (by norm_num) (by norm_num) (by norm_num) (by norm_num) (by norm_num))
  have e14 : fl (10669987253315092 / 3556662417771697) = 6755399441055745 / 2251799813685248 :=
    (fl_of_pos_eq _ _ (-51) (6755399441055745) (by norm_num) (by norm_num) (by norm_num) (by norm_num) (by norm_num))
  have e15 : fl (4) = 4 :=
    (fl_of_pos_eq _ _ (-50) (4503599627370496) (by norm_num) (by norm_num) (by norm_num) (by norm_num) (by norm_num))
  have e16 : fl (17783312088858484 / 3556662417771697) = 5 :=
    (fl_of_pos_eq _ _ (-50) (5629499534213120) (by norm_num) (by norm_num) (by norm_num) (by norm_num) (by norm_num))
  have e17 : fl (42679949013260368 / 3556662417771697) = 6755399441055745 / 562949953421312 :=
    (fl_of_pos_eq _ _ (-49) (6755399441055745) (by norm_num) (by norm_num) (by norm_num) (by norm_num) (by norm_num))
  have e1c : st.cos_min_r = ieee.fin (9007177500857091 / 9007199254740992) := by
    rw [cmin]
    norm_num [RE_double, ieee.of_int, cos_table, e1, e2, e3, e4, e5, e6, e7, e8, e9, e10, e11, e12, e13, e14, e15, e16, e17]
  have e2c : st.cos_max_r = ieee.fin (140668125773487 / 140737488355328) := by
    rw [cmax]
    norm_num [RE_double, ieee.of_int, cos_table, e1, e2, e3, e4, e5, e6, e7, e8, e9, e10, e11, e12, e13, e14, e15, e16, e17]
  have dist : distance_to_station_in_cos_double 0 ⟨ieee.fin 1, ieee.fin 0, ieee.fin 0⟩ st = ieee.fin 1 := by
    simp only [distance_to_station_in_cos_double, c4]
    norm_num [fl_zero, e1, e2, e3, e4, e5, e6, e7, e8, e9, e10, e11, e12, e13, e14, e15, e16, e17]
  have w : ieee.fin 1 / (glibc.acos (ieee.fin (9007177500857091 / 9007199254740992)) *
      glibc.acos (ieee.fin (9007177500857091 / 9007199254740992))) = ieee.fin (3556662417771697 / 17179869184) := by
    norm_num [acos_table, fl_zero, e1, e2, e3, e4, e5, e6, e7, e8, e9, e10, e11, e12, e13, e14, e15, e16, e17]
  have run0 : ∀ acc : weight_acc ieee,
      check_station_weight_double glibc st acc ⟨ieee.fin 1, ieee.fin 0, ieee.fin 0⟩ 0 0 =
        { wind_in_range := Function.update acc.wind_in_range 0
            ⟨ieee.fin (2667496813328773 / 4294967296), ieee.fin (3556662417771697 / 4294967296), 1⟩
          weight := Function.update acc.weight 0 (ieee.fin (3556662417771697 / 17179869184))
          u_sum := acc.u_sum + ieee.fin (2667496813328773 / 4294967296)
          v_sum := acc.v_sum + ieee.fin (3556662417771697 / 4294967296)
          amount := acc.amount + ieee.fin 1 } := by
    intro acc
    have p0 : (st.wind_current (0 + 0)).p ≠ 0 := by
      rw [c5]
      decide
    have s0 : st.wind_current (0 + 0) = ⟨ieee.fin 3, ieee.fin 4, 1⟩ := by
      rw [c5]
      rfl
    unfold check_station_weight_double
    rw [if_neg p0, dist, e1c, e2c]
    simp only [gt_iff_lt, ieee.fin_lt]
    rw [if_pos (by norm_num), if_pos (by norm_num), w, s0]
    norm_num [e1, e2, e3, e4, e5, e6, e7, e8, e9, e10, e11, e12, e13, e14, e15, e16, e17]
  have run1 : ∀ acc : weight_acc ieee,
      check_station_weight_double glibc st acc ⟨ieee.fin 1, ieee.fin 0, ieee.fin 0⟩ 0 1 =
        { wind_in_range := Function.update acc.wind_in_range 0
            ⟨ieee.fin (4445828022214621 / 4294967296), ieee.fin (2667496813328773 / 1073741824), 1⟩
          weight := Function.update acc.weight 0 (ieee.fin (3556662417771697 / 17179869184))
          u_sum := acc.u_sum + ieee.fin (4445828022214621 / 4294967296)
          v_sum := acc.v_sum + ieee.fin (2667496813328773 / 1073741824)
          amount := acc.amount + ieee.fin 1 } := by
    intro acc
    have p0 : (st.wind_current (1 + 0)).p ≠ 0 := by
      rw [c5]
      decide
    have s0 : st.wind_current (1 + 0) = ⟨ieee.fin 5, ieee.fin 12, 1⟩ := by
      rw [c5]
      rfl
    unfold check_station_weight_double
    rw [if_neg p0, dist, e1c, e2c]
    simp only [gt_iff_lt, ieee.fin_lt]
    rw [if_pos (by norm_num), if_pos (by norm_num), w, s0]
    norm_num [e1, e2, e3, e4, e5, e6, e7, e8, e9, e10, e11, e12, e13, e14, e15, e16, e17]
  have sums : vector_sums_double glibc ⟨ieee.fin 1, ieee.fin 0, ieee.fin 0⟩ st =
      (⟨ieee.fin (2667496813328773 / 4294967296), ieee.fin (3556662417771697 / 4294967296), ieee.fin (3556662417771697 / 17179869184)⟩,
        ⟨ieee.fin (4445828022214621 / 4294967296), ieee.fin (2667496813328773 / 1073741824), ieee.fin (3556662417771697 / 17179869184)⟩) := by
    unfold vector_sums_double station_loop_double
    rw [c3]
    simp only [List.range_succ, List.range_zero, List.nil_append, List.foldl_cons,
      List.foldl_nil, run0, run1]
    norm_num [end_sum_double, fl_zero, e1, e2, e3, e4, e5, e6, e7, e8, e9, e10, e11, e12, e13, e14, e15, e16, e17]
  refine ⟨?_, ?_, sums, ?_⟩
  · rw [run0]
    show ieee.fin 0 + ieee.fin 1 = ieee.fin 1
    norm_num [e3]
  · rw [run0]
    exact Function.update_same (0 : Nat) _ zero_acc_double.weight
  · unfold calculate_wind_vector_double
    rw [sums]
    norm_num [ht, e1, e2, e3, e4, e5, e6, e7, e8, e9, e10, e11, e12, e13, e14, e15, e16, e17]

/-- C11, counterexample: in double arithmetic with the outlier rejection off and
MAXR = 200, one station at the particle position is present and in range in
both hourly slots with the samples (3,4) and (5,12).  With MINR = 0 its
distance is `acos(1) = 0`, the weight `1/(0*0)` is +infinity, the sums of each
slot are `U = V = W = +infinity`, and `calculate_wind_vector` at `hour_diff =
0` returns success with `(U/W, V/W) = (NaN, NaN)`, which is not the station's
(3,4).  With MINR = 14 the weight is the finite number 207024.9999973281, and
`calculate_wind_vector` at `hour_diff = 0` returns `(U/W, V/W) =
(3.0000000000000004, 4)`: the product `3 * w` and the quotient by `w` are
rounded. -/
theorem C11_counterexample :
    ((example_param_double 1 0 200).STDDEVIATION = ieee.fin 0 ∧
      (example_state_double (example_param_double 1 0 200) glibc).station_max = 1 ∧
      ((example_state_double (example_param_double 1 0 200) glibc).wind_current 0 =
        ⟨ieee.fin 3, ieee.fin 4, 1⟩) ∧
      (check_station_weight_double glibc (example_state_double (example_param_double 1 0 200) glibc)
        zero_acc_double ⟨ieee.fin 1, ieee.fin 0, ieee.fin 0⟩ 0 0).amount = ieee.fin 1 ∧
      (check_station_weight_double glibc (example_state_double (example_param_double 1 0 200) glibc)
        zero_acc_double ⟨ieee.fin 1, ieee.fin 0, ieee.fin 0⟩ 0 0).weight 0 = ieee.pinf ∧
      (vector_sums_double glibc ⟨ieee.fin 1, ieee.fin 0, ieee.fin 0⟩
        (example_state_double (example_param_double 1 0 200) glibc)).1 =
        ⟨ieee.pinf, ieee.pinf, ieee.pinf⟩ ∧
      calculate_wind_vector_double (example_param_double 1 0 200) glibc (ieee.fin 0)
        ⟨ieee.fin 1, ieee.fin 0, ieee.fin 0⟩
        (example_state_double (example_param_double 1 0 200) glibc) = some (ieee.nan, ieee.nan) ∧
      calculate_wind_vector_double (example_param_double 1 0 200) glibc (ieee.fin 0)
        ⟨ieee.fin 1, ieee.fin 0, ieee.fin 0⟩
        (example_state_double (example_param_double 1 0 200) glibc) ≠
        some (ieee.fin 3, ieee.fin 4)) ∧
    ((example_param_double 1 14 200).STDDEVIATION = ieee.fin 0 ∧
      (example_state_double (example_param_double 1 14 200) glibc).station_max = 1 ∧
      ((example_state_double (example_param_double 1 14 200) glibc).wind_current 0 =
        ⟨ieee.fin 3, ieee.fin 4, 1⟩) ∧
      (check_station_weight_double glibc (example_state_double (example_param_double 1 14 200) glibc)
        zero_acc_double ⟨ieee.fin 1, ieee.fin 0, ieee.fin 0⟩ 0 0).amount = ieee.fin 1 ∧
      (check_station_weight_double glibc (example_state_double (example_param_double 1 14 200) glibc)
        zero_acc_double ⟨ieee.fin 1, ieee.fin 0, ieee.fin 0⟩ 0 0).weight 0 =
        ieee.fin (3556662417771697 / 17179869184) ∧
      calculate_wind_vector_double (example_param_double 1 14 200) glibc (ieee.fin 0)
        ⟨ieee.fin 1, ieee.fin 0, ieee.fin 0⟩
        (example_state_double (example_param_double 1 14 200) glibc) =
        some (ieee.fin (6755399441055745 / 2251799813685248), ieee.fin 4) ∧
      calculate_wind_vector_double (example_param_double 1 14 200) glibc (ieee.fin 0)
        ⟨ieee.fin 1, ieee.fin 0, ieee.fin 0⟩
        (example_state_double (example_param_double 1 14 200) glibc) ≠
        some (ieee.fin 3, ieee.fin 4)) := by
  obtain ⟨c1, c2, c3, c4, c5⟩ := example_state_double_fields (example_param_double 1 0 200) glibc
  obtain ⟨_, _, run, sums⟩ := touching_station_double
    (example_state_double (example_param_double 1 0 200) glibc) c1 c2 c3 c4 c5
  obtain ⟨d1, d2, d3, d4, d5⟩ :=
    example_state_double_fields (example_param_double 1 14 200) glibc
  obtain ⟨r1, r2, _, r4⟩ := rounded_station_double (example_param_double 1 14 200) rfl
    (example_state_double (example_param_double 1 14 200) glibc) d1 d2 d3 d4 d5
  have wv : calculate_wind_vector_double (example_param_double 1 0 200) glibc (ieee.fin 0)
      ⟨ieee.fin 1, ieee.fin 0, ieee.fin 0⟩
      (example_state_double (example_param_double 1 0 200) glibc) = some (ieee.nan, ieee.nan) := by
    unfold calculate_wind_vector_double
    rw [sums]
    simp [example_param_double]
  refine ⟨⟨rfl, c3, ?_, ?_, ?_, ?_, wv, ?_⟩, rfl, d3, ?_, r1, r2, r4, ?_⟩
  · rw [c5]
    rfl
  · rw [run]
    have one : fl 1 = 1 :=
      (fl_of_pos_eq _ _ (-52) (4503599627370496) (by norm_num) (by norm_num) (by norm_num)
        (by norm_num) (by norm_num))
    show ieee.fin 0 + ieee.fin 1 = ieee.fin 1
    norm_num [one]
  · rw [run]
    exact Function.update_same (0 : Nat) _ zero_acc_double.weight
  · rw [sums]
  · rw [wv]
    decide
  · rw [d5]
    rfl
  · rw [r4]
    intro h
    have h2 := (ieee.fin.inj (Prod.mk.inj (Option.some.inj h)).1)
    norm_num at h2

/-- C15 (counterexample): the forward run over the reals with one station at
(0,0) reporting direction 90 and speed 1 in m/s (stored u = 1, v = 0) in every
hour, IPERH = IPERPOINT = 1, TRACE = 1 and start (0,0) returns two waypoints,
the second at lon = -3.6/6370, lat = 0; its longitude is not +3.6/6370. -/
theorem C15_counterexample :
    ∃ st2, calculate (example_param 1 1 2 200)
        ⟨Real.sin, Real.cos, Real.arccos, Real.sqrt, Real.pi⟩ one_station hour_files 20
        (fun _ => (0, 0))
        (init_values (example_param 1 1 2 200)
          ⟨Real.sin, Real.cos, Real.arccos, Real.sqrt, Real.pi⟩ 1) = .ok st2 ∧
      (print_output_file st2).1 = 2 ∧ st2.lo 0 = 0 ∧ st2.la 0 = 0 ∧
      st2.lo 1 = -(3.6 / 6370) ∧ st2.la 1 = 0 ∧ st2.lo 1 ≠ 3.6 / 6370 := by
  obtain ⟨st2, h, hp, h0, h1, h2, h3⟩ := real_forward_run (fun _ => (0, 0))
  refine ⟨st2, h, hp, h0, h1, h2, h3, ?_⟩
  rw [h2]
  norm_num

section wrapping_claim

variable {α : Type} [LinearOrderedField α] [FloorRing α]

/-- C18 (amended): `normalize_coords` for a waypoint whose degree values fit an
`int`: the stored longitude is in [-180, 180] degrees and differs from the
input longitude by a multiple of 360 degrees, and the stored latitude is in
[-90, 90] degrees (the operations taken without rounding); for a waypoint with
|lon| <= 180 and |lat| <= 90 degrees the stored values are the round trips
`deg2rad(rad2deg(lon) / 180 * 180)` and
`deg2rad(rad2deg(lat) / 180 * 180 / 90 * 90)` of the input. -/
theorem C18_normalize_coords (M : libm α) (st : state α) (hpi : 0 < M.pi)
    (hlo : fits_int (rad2deg M (st.lo st.point.toNat)))
    (hla : fits_int (rad2deg M (st.la st.point.toNat))) :
    (-180 ≤ rad2deg M ((normalize_coords M st).lo st.point.toNat) ∧
      rad2deg M ((normalize_coords M st).lo st.point.toNat) ≤ 180 ∧
      ∃ k : Int, rad2deg M ((normalize_coords M st).lo st.point.toNat) =
        rad2deg M (st.lo st.point.toNat) + 360 * (k : α)) ∧
    (-90 ≤ rad2deg M ((normalize_coords M st).la st.point.toNat) ∧
      rad2deg M ((normalize_coords M st).la st.point.toNat) ≤ 90) ∧
    (|rad2deg M (st.lo st.point.toNat)| ≤ 180 → |rad2deg M (st.la st.point.toNat)| ≤ 90 →
      (normalize_coords M st).lo st.point.toNat =
        deg2rad M (rad2deg M (st.lo st.point.toNat) / 180 * 180) ∧
      (normalize_coords M st).la st.point.toNat =
        deg2rad M (rad2deg M (st.la st.point.toNat) / 180 * 180 / 90 * 90)) := by
  obtain ⟨a1, a2, a3, a4⟩ := wrap_degrees_spec (rad2deg M (st.lo st.point.toNat))
  obtain ⟨_, b2, b3, b4⟩ := wrap_degrees_spec (rad2deg M (st.la st.point.toNat))
  obtain ⟨c1, c2, c3⟩ := fold_degrees_spec _ b2 b3
  have slo : (normalize_coords M st).lo st.point.toNat =
      deg2rad M (wrap_degrees (rad2deg M (st.lo st.point.toNat))) := by
    rw [normalize_coords_eq]
    simp only [Function.update_same]
  have sla : (normalize_coords M st).la st.point.toNat =
      deg2rad M (fold_degrees (wrap_degrees (rad2deg M (st.la st.point.toNat)))) := by
    rw [normalize_coords_eq]
    simp only [Function.update_same]
  have elo : rad2deg M ((normalize_coords M st).lo st.point.toNat) =
      wrap_degrees (rad2deg M (st.lo st.point.toNat)) := by
    rw [slo]
    exact rad2deg_deg2rad M hpi _
  have ela : rad2deg M ((normalize_coords M st).la st.point.toNat) =
      fold_degrees (wrap_degrees (rad2deg M (st.la st.point.toNat))) := by
    rw [sla]
    exact rad2deg_deg2rad M hpi _
  refine ⟨⟨by rw [elo]; exact a2, by rw [elo]; exact a3, by rw [elo]; exact a1⟩,
    ⟨by rw [ela]; exact c1, by rw [ela]; exact c2⟩, fun h1 h2 => ⟨?_, ?_⟩⟩
  · rw [slo, a4 h1]
    congr 1
    field_simp
  · have h3 : |rad2deg M (st.la st.point.toNat)| ≤ 180 := by linarith
    have c4 := c3 (by rw [b4 h3]; exact h2)
    rw [b4 h3] at c4
    rw [sla, b4 h3, c4]
    congr 1
    field_simp

theorem C18_normalize_coords_witness :
    0 < rat_libm.pi ∧
    fits_int (rad2deg rat_libm (({ interp_state with lo := fun _ => 9, la := fun _ => 2 } :
      state ℚ).lo 0)) ∧
    -180 ≤ rad2deg rat_libm ((normalize_coords rat_libm
      { interp_state with lo := fun _ => 9, la := fun _ => 2 }).lo 0) ∧
    rad2deg rat_libm ((normalize_coords rat_libm
      { interp_state with lo := fun _ => 9, la := fun _ => 2 }).lo 0) ≤ 180 := by
  have a : rad2deg rat_libm (9 : ℚ) = ((540 : Int) : ℚ) := by norm_num [rad2deg, rat_libm]
  have b : rad2deg rat_libm (2 : ℚ) = ((120 : Int) : ℚ) := by norm_num [rad2deg, rat_libm]
  have h1 : fits_int (rad2deg rat_libm (9 : ℚ)) := by
    rw [a, fits_int, c_int_cast]; decide
  have h2 : fits_int (rad2deg rat_libm (2 : ℚ)) := by
    rw [b, fits_int, c_int_cast]; decide
  have t := (C18_normalize_coords rat_libm { interp_state with lo := fun _ => 9, la := fun _ => 2 }
      (by norm_num [rat_libm]) h1 h2).1
  exact ⟨by norm_num [rat_libm], h1, t.1, t.2.1⟩

end wrapping_claim

/-- C18, counterexample: in double arithmetic, the waypoint at lon 1.0261 rad
(58.79 degrees), lat 0 is in range, and `normalize_coords` stores the
longitude 4621143577644865 / 2^52 = 1.0260999999999998 in place of
2310571788822433 / 2^51 = 1.0261: it is not the identity on this waypoint.  A
second call stores 72205368400701 / 2^46 = 1.0260999999999996: the second
call changes the waypoint again. -/
theorem C18_counterexample :
    ieee.fabs (rad2deg_double glibc ((waypoint_double (ieee.lit 1.0261) (ieee.fin 0)).lo 0)) ≤
      ieee.fin 180 ∧
    ieee.fabs (rad2deg_double glibc ((waypoint_double (ieee.lit 1.0261) (ieee.fin 0)).la 0)) ≤
      ieee.fin 90 ∧
    (waypoint_double (ieee.lit 1.0261) (ieee.fin 0)).lo 0 =
      ieee.fin (2310571788822433 / 2251799813685248) ∧
    (normalize_coords_double glibc (waypoint_double (ieee.lit 1.0261) (ieee.fin 0))).lo 0 =
      ieee.fin (4621143577644865 / 4503599627370496) ∧
    (normalize_coords_double glibc (waypoint_double (ieee.lit 1.0261) (ieee.fin 0))).la 0 =
      ieee.fin 0 ∧
    (normalize_coords_double glibc (waypoint_double (ieee.lit 1.0261) (ieee.fin 0))).lo 0 ≠
      (waypoint_double (ieee.lit 1.0261) (ieee.fin 0)).lo 0 ∧
    (normalize_coords_double glibc
      (normalize_coords_double glibc (waypoint_double (ieee.lit 1.0261) (ieee.fin 0)))).lo 0 =
      ieee.fin (72205368400701 / 70368744177664) ∧
    (normalize_coords_double glibc
      (normalize_coords_double glibc (waypoint_double (ieee.lit 1.0261) (ieee.fin 0)))).lo 0 ≠
      (normalize_coords_double glibc (waypoint_double (ieee.lit 1.0261) (ieee.fin 0))).lo 0 := by
  have n1 : fl (10261 / 10000) = 2310571788822433 / 2251799813685248 :=
    (fl_of_pos_eq _ _ (-52) (4621143577644866) (by norm_num) (by norm_num) (by norm_num) (by norm_num) (by norm_num))
  have n2 : fl (103975730497009485 / 562949953421312) = 6498483156063093 / 35184372088832 :=
    (fl_of_pos_eq _ _ (-45) (6498483156063093) (by norm_num) (by norm_num) (by norm_num) (by norm_num) (by norm_num))
  have n3 : fl (51987865248504744 / 884279719003555) = 517132858443431 / 8796093022208 :=
    (fl_of_pos_eq _ _ (-47) (8274125735094896) (by norm_num) (by norm_num) (by norm_num) (by norm_num) (by norm_num))
  have n4 : fl (517132858443431 / 8796093022208) = 517132858443431 / 8796093022208 :=
    (fl_of_pos_eq _ _ (-47) (8274125735094896) (by norm_num) (by norm_num) (by norm_num) (by norm_num) (by norm_num))
  have n5 : fl (517132858443431 / 1583296743997440) = 2941911372478185 / 9007199254740992 :=
    (fl_of_pos_eq _ _ (-54) (5883822744956370) (by norm_num) (by norm_num) (by norm_num) (by norm_num) (by norm_num))
  have n6 : fl (132386011761518325 / 2251799813685248) = 8274125735094895 / 140737488355328 :=
    (fl_of_pos_eq _ _ (-47) (8274125735094895) (by norm_num) (by norm_num) (by norm_num) (by norm_num) (by norm_num))
  have n7 : fl (7316641580029796705922767351725 / 39614081257132168796771975168) = 1624620789015773 / 8796093022208 :=
    (fl_of_pos_eq _ _ (-45) (6498483156063092) (by norm_num) (by norm_num) (by norm_num) (by norm_num) (by norm_num))
  have n8 : fl (1624620789015773 / 1583296743997440) = 4621143577644865 / 4503599627370496 :=
    (fl_of_pos_eq _ _ (-52) (4621143577644865) (by norm_num) (by norm_num) (by norm_num) (by norm_num) (by norm_num))
  have n9 : fl (207951460994018925 / 1125899906842624) = 6498483156063091 / 35184372088832 :=
    (fl_of_pos_eq _ _ (-45) (6498483156063091) (by norm_num) (by norm_num) (by norm_num) (by norm_num) (by norm_num))
  have n10 : fl (51987865248504728 / 884279719003555) = 8274125735094893 / 140737488355328 :=
    (fl_of_pos_eq _ _ (-47) (8274125735094893) (by norm_num) (by norm_num) (by norm_num) (by norm_num) (by norm_num))
  have n11 : fl (8274125735094893 / 140737488355328) = 8274125735094893 / 140737488355328 :=
    (fl_of_pos_eq _ _ (-47) (8274125735094893) (by norm_num) (by norm_num) (by norm_num) (by norm_num) (by norm_num))
  have n12 : fl (8274125735094893 / 25332747903959040) = 367738921559773 / 1125899906842624 :=
    (fl_of_pos_eq _ _ (-54) (5883822744956368) (by norm_num) (by norm_num) (by norm_num) (by norm_num) (by norm_num))
  have n13 : fl (16548251470189785 / 281474976710656) = 2068531433773723 / 35184372088832 :=
    (fl_of_pos_tie_eq _ _ (-47) (8274125735094892) (8274125735094892) (by norm_num) (by norm_num) (by norm_num)
      (by decide) (by norm_num))
  have n14 : fl (1829160395007448513270902585265 / 9903520314283042199192993792) = 3249241578031545 / 17592186044416 :=
    (fl_of_pos_eq _ _ (-45) (6498483156063090) (by norm_num) (by norm_num) (by norm_num) (by norm_num) (by norm_num))
  have n15 : fl (72205368400701 / 70368744177664) = 72205368400701 / 70368744177664 :=
    (fl_of_pos_eq _ _ (-52) (4621143577644864) (by norm_num) (by norm_num) (by norm_num) (by norm_num) (by norm_num))
  have ni1 : ⌊(8274125735094893 / 140737488355328 : ℚ)⌋ = 58 := by
    rw [Int.floor_eq_iff]
    norm_num
  have ni2 : ⌊(517132858443431 / 8796093022208 : ℚ)⌋ = 58 := by
    rw [Int.floor_eq_iff]
    norm_num
  have t0 : Int.tdiv 58 360 = 0 := by decide
  have e0 : (waypoint_double (ieee.lit 1.0261) (ieee.fin 0)).lo 0 =
      ieee.fin (2310571788822433 / 2251799813685248) := by
    norm_num [waypoint_double, ieee.lit, n1]
  have d0 : rad2deg_double glibc (ieee.fin (2310571788822433 / 2251799813685248)) =
      ieee.fin (517132858443431 / 8796093022208) := by
    norm_num [rad2deg_double, M_PI, n1, n2, n3, n4, n5, n6, n7, n8, n9, n10, n11, n12, n13, n14, n15, ni1, ni2]
  have w1 : deg2rad_double glibc (wrap_degrees_double
      (rad2deg_double glibc (ieee.fin (2310571788822433 / 2251799813685248)))) =
      ieee.fin (4621143577644865 / 4503599627370496) := by
    norm_num [wrap_degrees_double, rad2deg_double, deg2rad_double, M_PI, ieee.of_int, fl_zero, t0,
      n1, n2, n3, n4, n5, n6, n7, n8, n9, n10, n11, n12, n13, n14, n15, ni1, ni2]
  have w2 : deg2rad_double glibc (wrap_degrees_double
      (rad2deg_double glibc (ieee.fin (4621143577644865 / 4503599627370496)))) =
      ieee.fin (72205368400701 / 70368744177664) := by
    norm_num [wrap_degrees_double, rad2deg_double, deg2rad_double, M_PI, ieee.of_int, fl_zero, t0,
      n1, n2, n3, n4, n5, n6, n7, n8, n9, n10, n11, n12, n13, n14, n15, ni1, ni2]
  have w0 : deg2rad_double glibc (fold_degrees_double (wrap_degrees_double
      (rad2deg_double glibc (ieee.fin 0)))) = ieee.fin 0 := by
    norm_num [wrap_degrees_double, fold_degrees_double, rad2deg_double, deg2rad_double, M_PI,
      ieee.of_int, fl_zero]
  have e1 : (normalize_coords_double glibc (waypoint_double (ieee.lit 1.0261) (ieee.fin 0))).lo 0 =
      ieee.fin (4621143577644865 / 4503599627370496) := by
    have h := normalize_coords_double_lo glibc (waypoint_double (ieee.lit 1.0261) (ieee.fin 0))
    rw [show (waypoint_double (ieee.lit 1.0261) (ieee.fin 0)).lo
      (waypoint_double (ieee.lit 1.0261) (ieee.fin 0)).point.toNat =
      ieee.fin (2310571788822433 / 2251799813685248) from e0, w1] at h
    exact h
  have e2 : (normalize_coords_double glibc
      (normalize_coords_double glibc (waypoint_double (ieee.lit 1.0261) (ieee.fin 0)))).lo 0 =
      ieee.fin (72205368400701 / 70368744177664) := by
    have h := normalize_coords_double_lo glibc
      (normalize_coords_double glibc (waypoint_double (ieee.lit 1.0261) (ieee.fin 0)))
    rw [show (normalize_coords_double glibc (waypoint_double (ieee.lit 1.0261) (ieee.fin 0))).lo
      (normalize_coords_double glibc
        (waypoint_double (ieee.lit 1.0261) (ieee.fin 0))).point.toNat =
      ieee.fin (4621143577644865 / 4503599627370496) from e1, w2] at h
    exact h
  have l1 : (normalize_coords_double glibc (waypoint_double (ieee.lit 1.0261) (ieee.fin 0))).la 0 =
      ieee.fin 0 := by
    have h := normalize_coords_double_la glibc (waypoint_double (ieee.lit 1.0261) (ieee.fin 0))
    rw [show (waypoint_double (ieee.lit 1.0261) (ieee.fin 0)).la
      (waypoint_double (ieee.lit 1.0261) (ieee.fin 0)).point.toNat = ieee.fin 0 from rfl, w0] at h
    exact h
  refine ⟨?_, ?_, e0, e1, l1, ?_, e2, ?_⟩
  · rw [e0, d0]
    norm_num
  · show ieee.fabs (rad2deg_double glibc (ieee.fin 0)) ≤ ieee.fin 90
    norm_num [rad2deg_double, M_PI, fl_zero]
  · rw [e1, e0]
    intro h
    injection h with h
    norm_num at h
  · rw [e2, e1]
    intro h
    injection h with h
    norm_num at h

/-- C26 (amended): `get_weight` returns 1 for WEIGHT = 0, `d` for WEIGHT = 1
and `sqrt(d)` for WEIGHT = 2, where `d = distance_in_deg` of the unit vectors
of the segment midpoint and of the trajectory start, in degrees;
`read_trajectory` sets the midpoint to `((x_old + x_new) / 2, (y_old + y_new)
/ 2)`; for every `acos` that is `>= 0` on [-1, 1] and every `sqrt` that is
`>= 0` on the numbers `>= 0`, the result is `>= 0` when the scalar product of
the two unit vectors lies in [-1, 1].  In exact arithmetic with the real
functions, for two points on the equator at most 180 degrees apart `d` is the
difference of their longitudes, so for a midpoint 10 degrees from the start
and WEIGHT = 1 the weight is 10, and a mask cell in the plot window that is
still zero receives the weight of the segment. -/
theorem C26_get_weight (P : Frequency.param ℝ) (current : Frequency.trajectory ℝ)
    (st : Frequency.state ℝ) (fuel : Nat) (x : Frequency.trajectory ℝ × (Nat → ℝ))
    (row : ℝ × ℝ) (px py : ℝ) (plot_field : Nat → ℝ) :
    Frequency.get_weight { P with WEIGHT := 0 }
      ⟨Real.sin, Real.cos, Real.arccos, Real.sqrt, Real.pi⟩ current = 1 ∧
    Frequency.get_weight { P with WEIGHT := 1 }
        ⟨Real.sin, Real.cos, Real.arccos, Real.sqrt, Real.pi⟩ current =
      Frequency.distance_in_deg ⟨Real.sin, Real.cos, Real.arccos, Real.sqrt, Real.pi⟩
        (convert_geo_to_cartesian ⟨Real.sin, Real.cos, Real.arccos, Real.sqrt, Real.pi⟩
          (deg2rad ⟨Real.sin, Real.cos, Real.arccos, Real.sqrt, Real.pi⟩ current.x_midpoint)
          (deg2rad ⟨Real.sin, Real.cos, Real.arccos, Real.sqrt, Real.pi⟩ current.y_midpoint))
        (convert_geo_to_cartesian ⟨Real.sin, Real.cos, Real.arccos, Real.sqrt, Real.pi⟩
          (deg2rad ⟨Real.sin, Real.cos, Real.arccos, Real.sqrt, Real.pi⟩ current.x_begin)
          (deg2rad ⟨Real.sin, Real.cos, Real.arccos, Real.sqrt, Real.pi⟩ current.y_begin)) ∧
    Frequency.get_weight { P with WEIGHT := 2 }
        ⟨Real.sin, Real.cos, Real.arccos, Real.sqrt, Real.pi⟩ current =
      Real.sqrt (Frequency.distance_in_deg
        ⟨Real.sin, Real.cos, Real.arccos, Real.sqrt, Real.pi⟩
        (convert_geo_to_cartesian ⟨Real.sin, Real.cos, Real.arccos, Real.sqrt, Real.pi⟩
          (deg2rad ⟨Real.sin, Real.cos, Real.arccos, Real.sqrt, Real.pi⟩ current.x_midpoint)
          (deg2rad ⟨Real.sin, Real.cos, Real.arccos, Real.sqrt, Real.pi⟩ current.y_midpoint))
        (convert_geo_to_cartesian ⟨Real.sin, Real.cos, Real.arccos, Real.sqrt, Real.pi⟩
          (deg2rad ⟨Real.sin, Real.cos, Real.arccos, Real.sqrt, Real.pi⟩ current.x_begin)
          (deg2rad ⟨Real.sin, Real.cos, Real.arccos, Real.sqrt, Real.pi⟩ current.y_begin))) ∧
    (∀ M : libm ℝ, 0 < M.pi → (∀ v : ℝ, -1 ≤ v → v ≤ 1 → 0 ≤ M.acos v) →
      (∀ v : ℝ, 0 ≤ v → 0 ≤ M.sqrt v) →
      -1 ≤ (convert_geo_to_cartesian M (deg2rad M current.x_midpoint)
            (deg2rad M current.y_midpoint)).x0 *
          (convert_geo_to_cartesian M (deg2rad M current.x_begin)
            (deg2rad M current.y_begin)).x0 +
        (convert_geo_to_cartesian M (deg2rad M current.x_midpoint)
            (deg2rad M current.y_midpoint)).x1 *
          (convert_geo_to_cartesian M (deg2rad M current.x_begin)
            (deg2rad M current.y_begin)).x1 +
        (convert_geo_to_cartesian M (deg2rad M current.x_midpoint)
            (deg2rad M current.y_midpoint)).x2 *
          (convert_geo_to_cartesian M (deg2rad M current.x_begin)
            (deg2rad M current.y_begin)).x2 →
      (convert_geo_to_cartesian M (deg2rad M current.x_midpoint)
            (deg2rad M current.y_midpoint)).x0 *
          (convert_geo_to_cartesian M (deg2rad M current.x_begin)
            (deg2rad M current.y_begin)).x0 +
        (convert_geo_to_cartesian M (deg2rad M current.x_midpoint)
            (deg2rad M current.y_midpoint)).x1 *
          (convert_geo_to_cartesian M (deg2rad M current.x_begin)
            (deg2rad M current.y_begin)).x1 +
        (convert_geo_to_cartesian M (deg2rad M current.x_midpoint)
            (deg2rad M current.y_midpoint)).x2 *
          (convert_geo_to_cartesian M (deg2rad M current.x_begin)
            (deg2rad M current.y_begin)).x2 ≤ 1 →
      0 ≤ Frequency.get_weight P M current) ∧
    Frequency.read_trajectory_row P ⟨Real.sin, Real.cos, Real.arccos, Real.sqrt, Real.pi⟩ fuel
        st x row =
      (Frequency.plot_to_next_point P
          ⟨Real.sin, Real.cos, Real.arccos, Real.sqrt, Real.pi⟩ fuel x.2
          { x.1 with
            x_new := rad2deg ⟨Real.sin, Real.cos, Real.arccos, Real.sqrt, Real.pi⟩ row.1
            y_new := rad2deg ⟨Real.sin, Real.cos, Real.arccos, Real.sqrt, Real.pi⟩ row.2
            x_midpoint := (x.1.x_old +
              rad2deg ⟨Real.sin, Real.cos, Real.arccos, Real.sqrt, Real.pi⟩ row.1) / 2
            y_midpoint := (x.1.y_old +
              rad2deg ⟨Real.sin, Real.cos, Real.arccos, Real.sqrt, Real.pi⟩ row.2) / 2 } st).map
        (fun f =>
          ({ x.1 with
            x_new := rad2deg ⟨Real.sin, Real.cos, Real.arccos, Real.sqrt, Real.pi⟩ row.1
            y_new := rad2deg ⟨Real.sin, Real.cos, Real.arccos, Real.sqrt, Real.pi⟩ row.2
            x_midpoint := (x.1.x_old +
              rad2deg ⟨Real.sin, Real.cos, Real.arccos, Real.sqrt, Real.pi⟩ row.1) / 2
            y_midpoint := (x.1.y_old +
              rad2deg ⟨Real.sin, Real.cos, Real.arccos, Real.sqrt, Real.pi⟩ row.2) / 2
            x_old := rad2deg ⟨Real.sin, Real.cos, Real.arccos, Real.sqrt, Real.pi⟩ row.1
            y_old := rad2deg ⟨Real.sin, Real.cos, Real.arccos, Real.sqrt, Real.pi⟩ row.2 }, f)) ∧
    Frequency.get_weight { P with WEIGHT := 1 }
        ⟨Real.sin, Real.cos, Real.arccos, Real.sqrt, Real.pi⟩
        { current with x_midpoint := 10, y_midpoint := 0, x_begin := 0, y_begin := 0 } = 10 ∧
    (Frequency.check_plot_area px py current →
      plot_field (c_int py * st.x_field + c_int px).toNat = 0 →
      Frequency.plot_cell st current
        (Frequency.get_weight { P with WEIGHT := 1 }
          ⟨Real.sin, Real.cos, Real.arccos, Real.sqrt, Real.pi⟩
          { current with x_midpoint := 10, y_midpoint := 0, x_begin := 0, y_begin := 0 })
        px py plot_field (c_int py * st.x_field + c_int px).toNat = 10) := by
  have ten : Frequency.get_weight { P with WEIGHT := 1 }
        ⟨Real.sin, Real.cos, Real.arccos, Real.sqrt, Real.pi⟩
        { current with x_midpoint := 10, y_midpoint := 0, x_begin := 0, y_begin := 0 } = 10 := by
    have := real_distance_equator 10 0 (by norm_num)
    simp only [sub_zero] at this
    rw [abs_of_pos (by norm_num : (0 : ℝ) < 10)] at this
    simp only [Frequency.get_weight, if_true]
    exact this
  refine ⟨by simp [Frequency.get_weight], by simp [Frequency.get_weight],
    by simp [Frequency.get_weight], ?_, ?_, ten, fun hc hz => ?_⟩
  · intro M hpi hacos hsqrt h1 h2
    have d0 : 0 ≤ Frequency.distance_in_deg M
        (convert_geo_to_cartesian M (deg2rad M current.x_midpoint)
          (deg2rad M current.y_midpoint))
        (convert_geo_to_cartesian M (deg2rad M current.x_begin)
          (deg2rad M current.y_begin)) := by
      unfold Frequency.distance_in_deg rad2deg
      have := hacos _ h1 h2
      positivity
    unfold Frequency.get_weight
    simp only
    split_ifs
    · exact d0
    · exact hsqrt _ d0
    · norm_num
  · unfold Frequency.read_trajectory_row
    simp only
    cases Frequency.plot_to_next_point P
      ⟨Real.sin, Real.cos, Real.arccos, Real.sqrt, Real.pi⟩ fuel x.2 _ st <;> rfl
  · rw [ten]
    unfold Frequency.plot_cell
    rw [if_pos hc]
    simp only [hz, if_true, Function.update_same, zero_add]

/-- C26, counterexample: in double arithmetic, for a trajectory file whose
first two rows are `0.1;0` and `0.1000000001;0` (radians), the scalar product
of the unit vectors of the midpoint of the first segment and of the start
rounds to 1 + 2^-52 = 1.0000000000000002, `acos` of it is NaN, and `get_weight`
returns NaN for WEIGHT = 1 and for WEIGHT = 2, which is not `>= 0`.  For a
midpoint at lon 10, lat 0 and the start at lon 0, lat 0 (degrees) and
WEIGHT = 1 the weight is 5629499534213127 / 2^49 = 10.000000000000012 and
not 10. -/
theorem C26_counterexample :
    Frequency.get_weight_double { Frequency.default_param_double with WEIGHT := 1 } glibc
      (Frequency.first_segment_double glibc
        (Frequency.start_trajectory_double Frequency.default_param_double)
        (ieee.lit 0.1, ieee.fin 0) (ieee.lit 0.1000000001, ieee.fin 0)) = ieee.nan ∧
    Frequency.get_weight_double { Frequency.default_param_double with WEIGHT := 2 } glibc
      (Frequency.first_segment_double glibc
        (Frequency.start_trajectory_double Frequency.default_param_double)
        (ieee.lit 0.1, ieee.fin 0) (ieee.lit 0.1000000001, ieee.fin 0)) = ieee.nan ∧
    ¬ (ieee.fin 0 ≤ Frequency.get_weight_double
      { Frequency.default_param_double with WEIGHT := 1 } glibc
      (Frequency.first_segment_double glibc
        (Frequency.start_trajectory_double Frequency.default_param_double)
        (ieee.lit 0.1, ieee.fin 0) (ieee.lit 0.1000000001, ieee.fin 0))) ∧
    Frequency.get_weight_double { Frequency.default_param_double with WEIGHT := 1 } glibc
      { Frequency.start_trajectory_double Frequency.default_param_double with
        x_midpoint := ieee.fin 10, y_midpoint := ieee.fin 0, x_begin := ieee.fin 0,
        y_begin := ieee.fin 0 } = ieee.fin (5629499534213127 / 562949953421312) ∧
    (5629499534213127 / 562949953421312 : ℚ) ≠ 10 := by
  have g1 : fl (1 / 10) = 3602879701896397 / 36028797018963968 :=
    (fl_of_pos_eq _ _ (-56) (7205759403792794) (by norm_num) (by norm_num) (by norm_num) (by norm_num) (by norm_num))
  have g2 : fl (1000000001 / 10000000000) = 7205759410998553 / 72057594037927936 :=
    (fl_of_pos_eq _ _ (-56) (7205759410998553) (by norm_num) (by norm_num) (by norm_num) (by norm_num) (by norm_num))
  have g3 : fl (162129586585337865 / 9007199254740992) = 18 :=
    (fl_of_pos_eq _ _ (-48) (5066549580791808) (by norm_num) (by norm_num) (by norm_num) (by norm_num) (by norm_num))
  have g4 : fl (5066549580791808 / 884279719003555) = 6450931281625491 / 1125899906842624 :=
    (fl_of_pos_eq _ _ (-50) (6450931281625491) (by norm_num) (by norm_num) (by norm_num) (by norm_num) (by norm_num))
  have g5 : fl (324259173494934885 / 18014398509481984) = 2533274792929179 / 140737488355328 :=
    (fl_of_pos_eq _ _ (-48) (5066549585858358) (by norm_num) (by norm_num) (by norm_num) (by norm_num) (by norm_num))
  have g6 : fl (5066549585858358 / 884279719003555) = 6450931288076423 / 1125899906842624 :=
    (fl_of_pos_eq _ _ (-50) (6450931288076423) (by norm_num) (by norm_num) (by norm_num) (by norm_num) (by norm_num))
  have g7 : fl (6450931284850957 / 562949953421312) = 6450931284850957 / 562949953421312 :=
    (fl_of_pos_eq _ _ (-49) (6450931284850957) (by norm_num) (by norm_num) (by norm_num) (by norm_num) (by norm_num))
  have g8 : fl (6450931284850957 / 1125899906842624) = 6450931284850957 / 1125899906842624 :=
    (fl_of_pos_eq _ _ (-50) (6450931284850957) (by norm_num) (by norm_num) (by norm_num) (by norm_num) (by norm_num))
  have g9 : fl (5704427703879246273558728152135 / 316912650057057350374175801344) = 5066549583325083 / 281474976710656 :=
    (fl_of_pos_eq _ _ (-48) (5066549583325083) (by norm_num) (by norm_num) (by norm_num) (by norm_num) (by norm_num))
  have g10 : fl (562949953702787 / 5629499534213120) = 3602879703697837 / 36028797018963968 :=
    (fl_of_pos_eq _ _ (-56) (7205759407395674) (by norm_num) (by norm_num) (by norm_num) (by norm_num) (by norm_num))
  have g11 : fl (280068774247233 / 281474976710656) = 280068774247233 / 281474976710656 :=
    (fl_of_pos_eq _ _ (-53) (8962200775911456) (by norm_num) (by norm_num) (by norm_num) (by norm_num) (by norm_num))
  have g12 : fl (7193755811741341 / 72057594037927936) = 7193755811741341 / 72057594037927936 :=
    (fl_of_pos_eq _ _ (-56) (7193755811741341) (by norm_num) (by norm_num) (by norm_num) (by norm_num) (by norm_num))
  have g13 : fl (5704427701027032105423207620505 / 316912650057057350374175801344) = 18 :=
    (fl_of_pos_eq _ _ (-48) (5066549580791808) (by norm_num) (by norm_num) (by norm_num) (by norm_num) (by norm_num))
  have g14 : fl (8962200775956417 / 9007199254740992) = 8962200775956417 / 9007199254740992 :=
    (fl_of_pos_eq _ _ (-53) (8962200775956417) (by norm_num) (by norm_num) (by norm_num) (by norm_num) (by norm_num))
  have g15 : fl (1798438952039115 / 18014398509481984) = 1798438952039115 / 18014398509481984 :=
    (fl_of_pos_eq _ _ (-56) (7193755808156460) (by norm_num) (by norm_num) (by norm_num) (by norm_num) (by norm_num))
  have g16 : fl (2510032585879714171064790844161 / 2535301200456458802993406410752) = 4458713551044927 / 4503599627370496 :=
    (fl_of_pos_eq _ _ (-53) (8917427102089854) (by norm_num) (by norm_num) (by norm_num) (by norm_num) (by norm_num))
  have g17 : fl (12937530663293390361690894553215 / 1298074214633706907132624082305024) = 2872708884836459 / 288230376151711744 :=
    (fl_of_pos_eq _ _ (-59) (5745417769672918) (by norm_num) (by norm_num) (by norm_num) (by norm_num) (by norm_num))
  have g18 : fl (288230376151711787 / 288230376151711744) = 4503599627370497 / 4503599627370496 :=
    (fl_of_pos_eq _ _ (-52) (4503599627370497) (by norm_num) (by norm_num) (by norm_num) (by norm_num) (by norm_num))
  have g19 : fl (4503599627370497 / 4503599627370496) = 4503599627370497 / 4503599627370496 :=
    (fl_of_pos_eq _ _ (-52) (4503599627370497) (by norm_num) (by norm_num) (by norm_num) (by norm_num) (by norm_num))
  have g20 : fl (4421398595017775 / 140737488355328) = 4421398595017775 / 140737488355328 :=
    (fl_of_pos_eq _ _ (-48) (8842797190035550) (by norm_num) (by norm_num) (by norm_num) (by norm_num) (by norm_num))
  have g21 : fl (884279719003555 / 5066549580791808) = 6288211335136391 / 36028797018963968 :=
    (fl_of_pos_eq _ _ (-55) (6288211335136391) (by norm_num) (by norm_num) (by norm_num) (by norm_num) (by norm_num))
  have g22 : fl (8870359658994711 / 9007199254740992) = 8870359658994711 / 9007199254740992 :=
    (fl_of_pos_eq _ _ (-53) (8870359658994711) (by norm_num) (by norm_num) (by norm_num) (by norm_num) (by norm_num))
  have g23 : fl (6256334945874825 / 36028797018963968) = 6256334945874825 / 36028797018963968 :=
    (fl_of_pos_eq _ _ (-55) (6256334945874825) (by norm_num) (by norm_num) (by norm_num) (by norm_num) (by norm_num))
  have g24 : fl (1) = 1 :=
    (fl_of_pos_eq _ _ (-52) (4503599627370496) (by norm_num) (by norm_num) (by norm_num) (by norm_num) (by norm_num))
  have g25 : fl (282969510081137955 / 9007199254740992) = 8842797190035561 / 281474976710656 :=
    (fl_of_pos_eq _ _ (-48) (8842797190035561) (by norm_num) (by norm_num) (by norm_num) (by norm_num) (by norm_num))
  have g26 : fl (8842797190035561 / 884279719003555) = 5629499534213127 / 562949953421312 :=
    (fl_of_pos_eq _ _ (-49) (5629499534213127) (by norm_num) (by norm_num) (by norm_num) (by norm_num) (by norm_num))
  have d : Frequency.distance_in_deg_double glibc
      (convert_geo_to_cartesian_double glibc
        (deg2rad_double glibc (Frequency.first_segment_double glibc
          (Frequency.start_trajectory_double Frequency.default_param_double)
          (ieee.lit 0.1, ieee.fin 0) (ieee.lit 0.1000000001, ieee.fin 0)).x_midpoint)
        (deg2rad_double glibc (Frequency.first_segment_double glibc
          (Frequency.start_trajectory_double Frequency.default_param_double)
          (ieee.lit 0.1, ieee.fin 0) (ieee.lit 0.1000000001, ieee.fin 0)).y_midpoint))
      (convert_geo_to_cartesian_double glibc
        (deg2rad_double glibc (Frequency.first_segment_double glibc
          (Frequency.start_trajectory_double Frequency.default_param_double)
          (ieee.lit 0.1, ieee.fin 0) (ieee.lit 0.1000000001, ieee.fin 0)).x_begin)
        (deg2rad_double glibc (Frequency.first_segment_double glibc
          (Frequency.start_trajectory_double Frequency.default_param_double)
          (ieee.lit 0.1, ieee.fin 0) (ieee.lit 0.1000000001, ieee.fin 0)).y_begin)) =
      ieee.nan := by
    simp only [Frequency.first_segment_double, Frequency.start_trajectory_double,
      Frequency.distance_in_deg_double, convert_geo_to_cartesian_double]
    norm_num [rad2deg_double, deg2rad_double, M_PI, ieee.lit, cos_table, sin_table, fl_zero,
      g1, g2, g3, g4, g5, g6, g7, g8, g9, g10, g11, g12, g13, g14, g15, g16, g17, g18, g19, g20, g21, g22, g23, g24, g25, g26]
  have w1 : Frequency.get_weight_double { Frequency.default_param_double with WEIGHT := 1 } glibc
      (Frequency.first_segment_double glibc
        (Frequency.start_trajectory_double Frequency.default_param_double)
        (ieee.lit 0.1, ieee.fin 0) (ieee.lit 0.1000000001, ieee.fin 0)) = ieee.nan := by
    unfold Frequency.get_weight_double
    simp only [d, if_true]
  refine ⟨w1, ?_, ?_, ?_, by norm_num⟩
  · unfold Frequency.get_weight_double
    simp only [d]
    norm_num
  · rw [w1]
    exact ieee.not_le_nan _
  · simp only [Frequency.get_weight_double, Frequency.start_trajectory_double,
      Frequency.distance_in_deg_double, convert_geo_to_cartesian_double, if_true]
    norm_num [rad2deg_double, deg2rad_double, M_PI, cos_table, sin_table, acos_table, fl_zero,
      g1, g2, g3, g4, g5, g6, g7, g8, g9, g10, g11, g12, g13, g14, g15, g16, g17, g18, g19, g20, g21, g22, g23, g24, g25, g26]

section accumulate_claim

variable {α : Type} [LinearOrderedField α] [FloorRing α]

/-- C33 (amended): starting from the zero grid, after `plot_trajectories` has
added the masks of any number of trajectory files, every cell of the grid is
`>= 0` for WEIGHT = 0, and for WEIGHT = 1 and 2 when every weight `get_weight`
returns is a number `>= 0`; and `get_w_max` then returns the largest value of
the cells below `field_max`: it is at least every such cell, is the value of
one of them when there is one, and is 0 when all of them are 0 or there is
none. -/
theorem C33_accumulation (P : Frequency.param α) (M : libm α) (fuel : Nat)
    (st : Frequency.state α) (current : Frequency.trajectory α)
    (files : List (Option (List (α × α))))
    (r : Frequency.trajectory α × (Nat → α) × Frequency.state α)
    (hW : P.WEIGHT = 1 ∨ P.WEIGHT = 2 → ∀ c, 0 ≤ Frequency.get_weight P M c)
    (hz : ∀ i, st.field_grid i = 0)
    (h : Frequency.plot_trajectories P M fuel st current files = .ok r) :
    (∀ i, 0 ≤ r.2.2.field_grid i) ∧
    (∀ i, i < r.2.2.field_max.toNat → r.2.2.field_grid i ≤ Frequency.get_w_max r.2.2) ∧
    (0 < r.2.2.field_max.toNat →
      ∃ i, i < r.2.2.field_max.toNat ∧ Frequency.get_w_max r.2.2 = r.2.2.field_grid i) ∧
    ((∀ i, i < r.2.2.field_max.toNat → r.2.2.field_grid i = 0) →
      Frequency.get_w_max r.2.2 = 0) := by
  have hall : ∀ c, 0 ≤ Frequency.get_weight P M c := by
    intro c
    by_cases h1 : P.WEIGHT = 1
    · exact hW (Or.inl h1) c
    · by_cases h2 : P.WEIGHT = 2
      · exact hW (Or.inr h2) c
      · unfold Frequency.get_weight
        simp only [if_neg h1, if_neg h2]
        exact zero_le_one
  have nn : ∀ i, 0 ≤ r.2.2.field_grid i :=
    grid_nonneg P M fuel hall files _ r
      (fun i => by show (0 : α) ≤ st.field_grid i; rw [hz i]) h
  obtain ⟨w0, wle, wcase⟩ := get_w_max_spec r.2.2
  refine ⟨nn, wle, fun hpos => ?_, fun hzero => ?_⟩
  · rcases wcase with e | e
    · refine ⟨0, hpos, ?_⟩
      rw [e]
      exact le_antisymm (nn 0) (by rw [← e]; exact wle 0 hpos)
    · exact e
  · rcases wcase with e | ⟨i, hi, e⟩
    · exact e
    · rw [e, hzero i hi]

end accumulate_claim

theorem C33_accumulation_witness :
    ∃ r, Frequency.plot_trajectories (Frequency.coarse_param : Frequency.param ℝ)
      ⟨Real.sin, Real.cos, Real.arccos, Real.sqrt, Real.pi⟩ 1
      (Frequency.strip_state : Frequency.state ℝ) (Frequency.strip_start : Frequency.trajectory ℝ)
      [some [(0, 0), (deg2rad ⟨Real.sin, Real.cos, Real.arccos, Real.sqrt, Real.pi⟩ 3, 0),
        (deg2rad ⟨Real.sin, Real.cos, Real.arccos, Real.sqrt, Real.pi⟩ 6, 0)]] = .ok r ∧
      ∀ i, 0 ≤ r.2.2.field_grid i := by
  obtain ⟨r, h, _⟩ := strip_file_run
  exact ⟨r, h, (C33_accumulation (Frequency.coarse_param : Frequency.param ℝ)
    ⟨Real.sin, Real.cos, Real.arccos, Real.sqrt, Real.pi⟩ 1
    (Frequency.strip_state : Frequency.state ℝ) (Frequency.strip_start : Frequency.trajectory ℝ)
    _ r (fun _ => real_get_weight_nonneg _) (fun _ => rfl) h).1⟩

/-- The grid for the one file with the rows `0.1;0` and `0.1000000001;0` at the
default mesh of 25 km in double arithmetic: one element. -/
theorem near_grid_double (P : Frequency.param ieee) (hr : P.RES = 25) :
    Frequency.init_values_double P glibc
      [some [(ieee.lit 0.1, ieee.fin 0), (ieee.lit 0.1000000001, ieee.fin 0)]] 1 =
      .ok { Frequency.zero_state_double with
        list_max := 1, field_max := 1, x_field := 1, y_field := 1
        lo_min := ieee.fin (6450931281625491 / 1125899906842624)
        la_min := ieee.fin 0
        lo_max := ieee.fin (6450931288076423 / 1125899906842624)
        la_max := ieee.fin 0 } := by
  have k1 : fl (1 / 10) = 3602879701896397 / 36028797018963968 :=
    (fl_of_pos_eq _ _ (-56) (7205759403792794) (by norm_num) (by norm_num) (by norm_num) (by norm_num) (by norm_num))
  have k2 : fl (1000000001 / 10000000000) = 7205759410998553 / 72057594037927936 :=
    (fl_of_pos_eq _ _ (-56) (7205759410998553) (by norm_num) (by norm_num) (by norm_num) (by norm_num) (by norm_num))
  have k3 : fl (162129586585337865 / 9007199254740992) = 18 :=
    (fl_of_pos_eq _ _ (-48) (5066549580791808) (by norm_num) (by norm_num) (by norm_num) (by norm_num) (by norm_num))
  have k4 : fl (5066549580791808 / 884279719003555) = 6450931281625491 / 1125899906842624 :=
    (fl_of_pos_eq _ _ (-50) (6450931281625491) (by norm_num) (by norm_num) (by norm_num) (by norm_num) (by norm_num))
  have k5 : fl (324259173494934885 / 18014398509481984) = 2533274792929179 / 140737488355328 :=
    (fl_of_pos_eq _ _ (-48) (5066549585858358) (by norm_num) (by norm_num) (by norm_num) (by norm_num) (by norm_num))
  have k6 : fl (5066549585858358 / 884279719003555) = 6450931288076423 / 1125899906842624 :=
    (fl_of_pos_eq _ _ (-50) (6450931288076423) (by norm_num) (by norm_num) (by norm_num) (by norm_num) (by norm_num))
  have k7 : fl (55589 / 500) = 977932030023041 / 8796093022208 :=
    (fl_of_pos_eq _ _ (-46) (7823456240184328) (by norm_num) (by norm_num) (by norm_num) (by norm_num) (by norm_num))
  have k8 : fl (977932030023041 / 8796093022208) = 977932030023041 / 8796093022208 :=
    (fl_of_pos_eq _ _ (-46) (7823456240184328) (by norm_num) (by norm_num) (by norm_num) (by norm_num) (by norm_num))
  have k9 : fl (219902325555200 / 977932030023041) = 8101602164763705 / 36028797018963968 :=
    (fl_of_pos_eq _ _ (-55) (8101602164763705) (by norm_num) (by norm_num) (by norm_num) (by norm_num) (by norm_num))
  have k10 : fl (214531403176779417 / 36028797018963968) = 6704106349274357 / 1125899906842624 :=
    (fl_of_pos_eq _ _ (-50) (6704106349274357) (by norm_num) (by norm_num) (by norm_num) (by norm_num) (by norm_num))
  have k11 : fl (8101602164763705 / 36028797018963968) = 8101602164763705 / 36028797018963968 :=
    (fl_of_pos_eq _ _ (-55) (8101602164763705) (by norm_num) (by norm_num) (by norm_num) (by norm_num) (by norm_num))
  have box : Frequency.get_lo_la_min_max_double glibc
      [some [(ieee.lit 0.1, ieee.fin 0), (ieee.lit 0.1000000001, ieee.fin 0)]]
      { Frequency.zero_state_double with list_max := 1 } =
      .ok { Frequency.zero_state_double with
        list_max := 1
        lo_min := ieee.fin (6450931281625491 / 1125899906842624)
        la_min := ieee.fin 0
        lo_max := ieee.fin (6450931288076423 / 1125899906842624)
        la_max := ieee.fin 0 } := by
    simp only [Frequency.get_lo_la_min_max_double, Frequency.file_la_lo_min_max_double,
      Frequency.row_min_max_double, Frequency.zero_state_double, List.foldlM, List.foldl,
      bind, Except.bind, pure, Except.pure]
    norm_num [rad2deg_double, M_PI, ieee.lit, fl_zero, k1, k2, k3, k4, k5, k6, k7, k8, k9, k10, k11]
  have cnt : Frequency.count_squares_double P glibc 1
      { Frequency.zero_state_double with
        list_max := 1
        lo_min := ieee.fin (6450931281625491 / 1125899906842624)
        la_min := ieee.fin 0
        lo_max := ieee.fin (6450931288076423 / 1125899906842624)
        la_max := ieee.fin 0 } =
      .ok { Frequency.zero_state_double with
        list_max := 1, x_field := 1, y_field := 1
        lo_min := ieee.fin (6450931281625491 / 1125899906842624)
        la_min := ieee.fin 0
        lo_max := ieee.fin (6450931288076423 / 1125899906842624)
        la_max := ieee.fin 0 } := by
    simp only [Frequency.count_squares_double, Frequency.count_rows_double,
      Frequency.count_row_double, Frequency.zero_state_double, hr]
    norm_num [Frequency.DEGDISTANCE_double, deg2rad_double, M_PI, ieee.lit, ieee.of_int,
      cos_table, fl_zero, k1, k2, k3, k4, k5, k6, k7, k8, k9, k10, k11]
  unfold Frequency.init_values_double
  simp only [List.length_singleton, Nat.cast_one]
  rw [box]
  simp only [bind, Except.bind]
  rw [cnt]
  simp only [pure, Except.pure, Frequency.init_field_double, Frequency.zero_state_double]
  norm_num [List.range_succ]

/-- The weight of a segment from lon 5.729577951308232 to lon 5.729577957037811
on the equator (degrees) of a trajectory that starts at its first point, with
WEIGHT = 1 in double arithmetic: NaN. -/
theorem near_weight_double (P : Frequency.param ieee) (hw : P.WEIGHT = 1)
    (cur : Frequency.trajectory ieee)
    (h1 : cur.x_begin = ieee.fin (6450931281625491 / 1125899906842624))
    (h2 : cur.y_begin = ieee.fin 0)
    (h7 : cur.x_midpoint = ieee.fin (6450931284850957 / 1125899906842624))
    (h8 : cur.y_midpoint = ieee.fin 0) :
    Frequency.get_weight_double P glibc cur = ieee.nan := by
  have w1 : fl (5704427703879246273558728152135 / 316912650057057350374175801344) = 5066549583325083 / 281474976710656 :=
    (fl_of_pos_eq _ _ (-48) (5066549583325083) (by norm_num) (by norm_num) (by norm_num) (by norm_num) (by norm_num))
  have w2 : fl (562949953702787 / 5629499534213120) = 3602879703697837 / 36028797018963968 :=
    (fl_of_pos_eq _ _ (-56) (7205759407395674) (by norm_num) (by norm_num) (by norm_num) (by norm_num) (by norm_num))
  have w3 : fl (280068774247233 / 281474976710656) = 280068774247233 / 281474976710656 :=
    (fl_of_pos_eq _ _ (-53) (8962200775911456) (by norm_num) (by norm_num) (by norm_num) (by norm_num) (by norm_num))
  have w4 : fl (7193755811741341 / 72057594037927936) = 7193755811741341 / 72057594037927936 :=
    (fl_of_pos_eq _ _ (-56) (7193755811741341) (by norm_num) (by norm_num) (by norm_num) (by norm_num) (by norm_num))
  have w5 : fl (5704427701027032105423207620505 / 316912650057057350374175801344) = 18 :=
    (fl_of_pos_eq _ _ (-48) (5066549580791808) (by norm_num) (by norm_num) (by norm_num) (by norm_num) (by norm_num))
  have w6 : fl (1 / 10) = 3602879701896397 / 36028797018963968 :=
    (fl_of_pos_eq _ _ (-56) (7205759403792794) (by norm_num) (by norm_num) (by norm_num) (by norm_num) (by norm_num))
  have w7 : fl (8962200775956417 / 9007199254740992) = 8962200775956417 / 9007199254740992 :=
    (fl_of_pos_eq _ _ (-53) (8962200775956417) (by norm_num) (by norm_num) (by norm_num) (by norm_num) (by norm_num))
  have w8 : fl (1798438952039115 / 18014398509481984) = 1798438952039115 / 18014398509481984 :=
    (fl_of_pos_eq _ _ (-56) (7193755808156460) (by norm_num) (by norm_num) (by norm_num) (by norm_num) (by norm_num))
  have w9 : fl (2510032585879714171064790844161 / 2535301200456458802993406410752) = 4458713551044927 / 4503599627370496 :=
    (fl_of_pos_eq _ _ (-53) (8917427102089854) (by norm_num) (by norm_num) (by norm_num) (by norm_num) (by norm_num))
  have w10 : fl (12937530663293390361690894553215 / 1298074214633706907132624082305024) = 2872708884836459 / 288230376151711744 :=
    (fl_of_pos_eq _ _ (-59) (5745417769672918) (by norm_num) (by norm_num) (by norm_num) (by norm_num) (by norm_num))
  have w11 : fl (288230376151711787 / 288230376151711744) = 4503599627370497 / 4503599627370496 :=
    (fl_of_pos_eq _ _ (-52) (4503599627370497) (by norm_num) (by norm_num) (by norm_num) (by norm_num) (by norm_num))
  have w12 : fl (4503599627370497 / 4503599627370496) = 4503599627370497 / 4503599627370496 :=
    (fl_of_pos_eq _ _ (-52) (4503599627370497) (by norm_num) (by norm_num) (by norm_num) (by norm_num) (by norm_num))
  simp only [Frequency.get_weight_double, Frequency.distance_in_deg_double,
    convert_geo_to_cartesian_double, h1, h2, h7, h8, hw, if_true]
  norm_num [rad2deg_double, deg2rad_double, M_PI, cos_table, sin_table, fl_zero, w1, w2, w3, w4, w5, w6, w7, w8, w9, w10, w11, w12]

/-- The segment from lon 5.729577951308232 to lon 5.729577957037811 on the
equator on the grid of one element at the mesh of 25 km in double arithmetic:
one pass of the loop adds the weight `w` to cell 0 of the mask. -/
theorem near_segment_double (P : Frequency.param ieee) (hr : P.RES = 25)
    (cur : Frequency.trajectory ieee) (st : Frequency.state ieee) (plot_field : Nat → ieee)
    (w : ieee) (hwt : Frequency.get_weight_double P glibc cur = w)
    (h3 : cur.x_old = ieee.fin (6450931281625491 / 1125899906842624))
    (h4 : cur.y_old = ieee.fin 0)
    (h5 : cur.x_new = ieee.fin (6450931288076423 / 1125899906842624))
    (h6 : cur.y_new = ieee.fin 0)
    (w1 : cur.x_plot_min = 0) (w2 : cur.x_plot_max = 1) (w3 : cur.y_plot_min = 0)
    (w4 : cur.y_plot_max = 1)
    (g1 : st.lo_min = ieee.fin (6450931281625491 / 1125899906842624))
    (g2 : st.la_min = ieee.fin 0) (g3 : st.x_field = 1)
    (hz : plot_field 0 = ieee.fin 0) :
    Frequency.plot_to_next_point_double P glibc 1 plot_field cur st =
      .ok (Function.update plot_field 0 (ieee.fin 0 + w)) := by
  have s1 : fl (55589 / 500) = 977932030023041 / 8796093022208 :=
    (fl_of_pos_eq _ _ (-46) (7823456240184328) (by norm_num) (by norm_num) (by norm_num) (by norm_num) (by norm_num))
  have s2 : fl (219902325555200 / 977932030023041) = 8101602164763705 / 36028797018963968 :=
    (fl_of_pos_eq _ _ (-55) (8101602164763705) (by norm_num) (by norm_num) (by norm_num) (by norm_num) (by norm_num))
  have s3 : fl (977932030023041 / 8796093022208) = 977932030023041 / 8796093022208 :=
    (fl_of_pos_eq _ _ (-46) (7823456240184328) (by norm_num) (by norm_num) (by norm_num) (by norm_num) (by norm_num))
  have s4 : fl (1612733 / 281474976710656) = 1612733 / 281474976710656 :=
    (fl_of_pos_eq _ _ (-80) (6926635492179968) (by norm_num) (by norm_num) (by norm_num) (by norm_num) (by norm_num))
  have s5 : fl (206429824 / 8101602164763705) = 7700894807495845 / 302231454903657293676544 :=
    (fl_of_pos_eq _ _ (-78) (7700894807495845) (by norm_num) (by norm_num) (by norm_num) (by norm_num) (by norm_num))
  have s6 : fl (8101602164763705 / 36028797018963968) = 8101602164763705 / 36028797018963968 :=
    (fl_of_pos_eq _ _ (-55) (8101602164763705) (by norm_num) (by norm_num) (by norm_num) (by norm_num) (by norm_num))
  have hdx : ieee.of_int P.RES /
      (Frequency.DEGDISTANCE_double * glibc.cos (deg2rad_double glibc cur.y_new)) =
      ieee.fin (8101602164763705 / 36028797018963968) := by
    rw [hr, h6]
    norm_num [Frequency.DEGDISTANCE_double, deg2rad_double, M_PI, ieee.lit, ieee.of_int,
      cos_table, fl_zero, s1, s2, s3, s4, s5, s6]
  have hdy : ieee.of_int P.RES / Frequency.DEGDISTANCE_double =
      ieee.fin (8101602164763705 / 36028797018963968) := by
    rw [hr]
    norm_num [Frequency.DEGDISTANCE_double, ieee.lit, ieee.of_int, fl_zero, s1, s2, s3, s4, s5, s6]
  have hx1 : (cur.x_old - st.lo_min) / (ieee.of_int P.RES /
      (Frequency.DEGDISTANCE_double * glibc.cos (deg2rad_double glibc cur.y_old))) =
      ieee.fin 0 := by
    rw [show cur.y_old = cur.y_new by rw [h4, h6], hdx, h3, g1]
    norm_num [fl_zero]
  have hy1 : (cur.y_old - st.la_min) / (ieee.of_int P.RES / Frequency.DEGDISTANCE_double) =
      ieee.fin 0 := by
    rw [hdy, h4, g2]
    norm_num [fl_zero]
  have hx2 : (cur.x_new - st.lo_min) / ieee.fin (8101602164763705 / 36028797018963968) =
      ieee.fin (7700894807495845 / 302231454903657293676544) := by
    rw [h5, g1]
    norm_num [fl_zero, s1, s2, s3, s4, s5, s6]
  have hy2 : (cur.y_new - st.la_min) / (ieee.of_int P.RES / Frequency.DEGDISTANCE_double) =
      ieee.fin 0 := by
    rw [hdy, h6, g2]
    norm_num [fl_zero]
  rw [plot_to_next_point_double_row P glibc 1 plot_field cur st w _ _ _ _ hwt hdx hx1 hy1 hx2 hy2
    (by norm_num) (by norm_num)]
  rw [walk_double_once _ _ _ _ _ (by norm_num) (by norm_num [fl_zero, s1, s2, s3, s4, s5, s6])]
  have hc : Frequency.check_plot_area_double (ieee.fin 0) (ieee.fin 0) cur := by
    simp only [Frequency.check_plot_area_double, w1, w2, w3, w4]
    norm_num [ieee.of_int]
  have hi : (ieee.to_int (ieee.fin 0) * st.x_field + ieee.to_int (ieee.fin 0)).toNat = 0 := by
    rw [g3]
    norm_num
  have he : ieee.eq (plot_field 0) (ieee.fin 0) := by
    rw [hz]
    norm_num
  simp only [Frequency.plot_cell_double, if_pos hc, hi, if_pos he]
  rw [hz]

/-- The reading status at the segment between the rows `0.1;0` and
`0.1000000001;0`, in double arithmetic. -/
theorem near_rows_double (c : Frequency.trajectory ieee) :
    (Frequency.first_segment_double glibc c (ieee.lit 0.1, ieee.fin 0)
        (ieee.lit 0.1000000001, ieee.fin 0)).x_begin =
      ieee.fin (6450931281625491 / 1125899906842624) ∧
    (Frequency.first_segment_double glibc c (ieee.lit 0.1, ieee.fin 0)
        (ieee.lit 0.1000000001, ieee.fin 0)).y_begin = ieee.fin 0 ∧
    (Frequency.first_segment_double glibc c (ieee.lit 0.1, ieee.fin 0)
        (ieee.lit 0.1000000001, ieee.fin 0)).x_old =
      ieee.fin (6450931281625491 / 1125899906842624) ∧
    (Frequency.first_segment_double glibc c (ieee.lit 0.1, ieee.fin 0)
        (ieee.lit 0.1000000001, ieee.fin 0)).y_old = ieee.fin 0 ∧
    (Frequency.first_segment_double glibc c (ieee.lit 0.1, ieee.fin 0)
        (ieee.lit 0.1000000001, ieee.fin 0)).x_new =
      ieee.fin (6450931288076423 / 1125899906842624) ∧
    (Frequency.first_segment_double glibc c (ieee.lit 0.1, ieee.fin 0)
        (ieee.lit 0.1000000001, ieee.fin 0)).y_new = ieee.fin 0 ∧
    (Frequency.first_segment_double glibc c (ieee.lit 0.1, ieee.fin 0)
        (ieee.lit 0.1000000001, ieee.fin 0)).x_midpoint =
      ieee.fin (6450931284850957 / 1125899906842624) ∧
    (Frequency.first_segment_double glibc c (ieee.lit 0.1, ieee.fin 0)
        (ieee.lit 0.1000000001, ieee.fin 0)).y_midpoint = ieee.fin 0 := by
  have r1 : fl (1 / 10) = 3602879701896397 / 36028797018963968 :=
    (fl_of_pos_eq _ _ (-56) (7205759403792794) (by norm_num) (by norm_num) (by norm_num) (by norm_num) (by norm_num))
  have r2 : fl (1000000001 / 10000000000) = 7205759410998553 / 72057594037927936 :=
    (fl_of_pos_eq _ _ (-56) (7205759410998553) (by norm_num) (by norm_num) (by norm_num) (by norm_num) (by norm_num))
  have r3 : fl (162129586585337865 / 9007199254740992) = 18 :=
    (fl_of_pos_eq _ _ (-48) (5066549580791808) (by norm_num) (by norm_num) (by norm_num) (by norm_num) (by norm_num))
  have r4 : fl (5066549580791808 / 884279719003555) = 6450931281625491 / 1125899906842624 :=
    (fl_of_pos_eq _ _ (-50) (6450931281625491) (by norm_num) (by norm_num) (by norm_num) (by norm_num) (by norm_num))
  have r5 : fl (324259173494934885 / 18014398509481984) = 2533274792929179 / 140737488355328 :=
    (fl_of_pos_eq _ _ (-48) (5066549585858358) (by norm_num) (by norm_num) (by norm_num) (by norm_num) (by norm_num))
  have r6 : fl (5066549585858358 / 884279719003555) = 6450931288076423 / 1125899906842624 :=
    (fl_of_pos_eq _ _ (-50) (6450931288076423) (by norm_num) (by norm_num) (by norm_num) (by norm_num) (by norm_num))
  have r7 : fl (6450931284850957 / 562949953421312) = 6450931284850957 / 562949953421312 :=
    (fl_of_pos_eq _ _ (-49) (6450931284850957) (by norm_num) (by norm_num) (by norm_num) (by norm_num) (by norm_num))
  have r8 : fl (6450931284850957 / 1125899906842624) = 6450931284850957 / 1125899906842624 :=
    (fl_of_pos_eq _ _ (-50) (6450931284850957) (by norm_num) (by norm_num) (by norm_num) (by norm_num) (by norm_num))
  simp only [Frequency.first_segment_double]
  norm_num [rad2deg_double, M_PI, ieee.lit, fl_zero, r1, r2, r3, r4, r5, r6, r7, r8]

/-- The run of `plot` over the one file with the rows `0.1;0` and
`0.1000000001;0` on the grid of one element, WEIGHT = 1, in double arithmetic:
the mask and the grid hold NaN in cell 0. -/
theorem near_run_double (P : Frequency.param ieee) (hr : P.RES = 25) (hw : P.WEIGHT = 1)
    (hs : P.SIZE = 0) (st : Frequency.state ieee)
    (g1 : st.lo_min = ieee.fin (6450931281625491 / 1125899906842624))
    (g2 : st.la_min = ieee.fin 0) (g3 : st.x_field = 1) (g4 : st.y_field = 1)
    (g5 : st.field_max = 1) (g6 : st.field_grid 0 = ieee.fin 0) :
    ∃ r, Frequency.plot_double P glibc 1 st
        [some [(ieee.lit 0.1, ieee.fin 0), (ieee.lit 0.1000000001, ieee.fin 0)]] = .ok r ∧
      r.2.1 0 = ieee.nan ∧ r.2.2.field_grid 0 = ieee.nan ∧ r.2.2.field_max = 1 := by
  obtain ⟨c0, hc0, a1, a2, a3, a4⟩ := init_plot_area_double_whole P glibc st hs
  obtain ⟨f1, f2, f3, f4, f5, f6, f7, f8⟩ := near_rows_double c0
  have hwt := near_weight_double P hw _ f1 f2 f7 f8
  have hz : Frequency.init_field_double (fun _ => ieee.fin 0) st.field_max 0 = ieee.fin 0 := by
    rw [g5, init_field_double_one]
    exact Function.update_same (0 : Nat) _ _
  have seg := near_segment_double P hr _ st
    (Frequency.init_field_double (fun _ => ieee.fin 0) st.field_max) ieee.nan hwt f3 f4 f5 f6
    a1 (a2.trans g3) a3 (a4.trans g4) g1 g2 g3 hz
  obtain ⟨c, hc, -⟩ := plot_trajectory_double_two P glibc 1 st c0 (fun _ => ieee.fin 0) _ _ _ seg
  simp only [Frequency.plot_double, bind, Except.bind, hc0, Frequency.plot_trajectories_double,
    List.foldlM, hc, pure, Except.pure]
  refine ⟨_, rfl, ?_, ?_, g5⟩
  · simp
  · simp [g5, g6, List.range_succ]

/-- C33 (counterexample): in double arithmetic with the default parameters and
WEIGHT = 1, one trajectory file with the rows `0.1;0` and `0.1000000001;0`
gives a grid of one element that starts at 0; the scalar product of the
segment midpoint and the start rounds above 1, the weight is NaN, the mask and
the grid hold NaN in cell 0, which is not >= 0, and `get_w_max` returns 0,
which is not the value of the cell. -/
theorem C33_counterexample :
    ∃ st, Frequency.init_values_double { Frequency.default_param_double with WEIGHT := 1 } glibc
        [some [(ieee.lit 0.1, ieee.fin 0), (ieee.lit 0.1000000001, ieee.fin 0)]] 1 = .ok st ∧
      st.field_max = 1 ∧ st.field_grid 0 = ieee.fin 0 ∧
      ∃ r, Frequency.plot_double { Frequency.default_param_double with WEIGHT := 1 } glibc 1 st
          [some [(ieee.lit 0.1, ieee.fin 0), (ieee.lit 0.1000000001, ieee.fin 0)]] = .ok r ∧
        r.2.2.field_max = 1 ∧ r.2.1 0 = ieee.nan ∧ r.2.2.field_grid 0 = ieee.nan ∧
        ¬ (ieee.fin 0 ≤ r.2.2.field_grid 0) ∧
        Frequency.get_w_max_double r.2.2 = ieee.fin 0 ∧
        ¬ ieee.eq (Frequency.get_w_max_double r.2.2) (r.2.2.field_grid 0) := by
  refine ⟨_, near_grid_double _ rfl, rfl, rfl, ?_⟩
  obtain ⟨r, h, m, g, fm⟩ := near_run_double { Frequency.default_param_double with WEIGHT := 1 } rfl rfl rfl
    { Frequency.zero_state_double with
        list_max := 1, field_max := 1, x_field := 1, y_field := 1
        lo_min := ieee.fin (6450931281625491 / 1125899906842624)
        la_min := ieee.fin 0
        lo_max := ieee.fin (6450931288076423 / 1125899906842624)
        la_max := ieee.fin 0 } rfl rfl rfl rfl rfl rfl
  have hm : Frequency.get_w_max_double r.2.2 = ieee.fin 0 := by
    simp [Frequency.get_w_max_double, fm, List.range_succ, g]
  refine ⟨r, h, fm, m, g, ?_, hm, ?_⟩
  · rw [g]
    simp
  · rw [hm, g]
    exact fun h => h

/-- The grid for the two files of `wide_files_double` at a mesh of 7004 km in
double arithmetic: the box lon 0..100.0000000003249, lat -60.00000000019494..0
gets one element. -/
theorem wide_grid_double (P : Frequency.param ieee) (hr : P.RES = 7004) :
    Frequency.init_values_double P glibc Frequency.wide_files_double 1 =
      .ok { Frequency.zero_state_double with
        list_max := 2, field_max := 1, x_field := 1, y_field := 1
        lo_min := ieee.fin 0
        la_min := ieee.fin (-8444249301347115 / 140737488355328)
        lo_max := ieee.fin (7036874417789263 / 70368744177664)
        la_max := ieee.fin 0 } := by
  have q1 : fl (5497619169695571 / 5000000000000000) = 2475907564406587 / 2251799813685248 :=
    (fl_of_pos_eq _ _ (-52) (4951815128813174) (by norm_num) (by norm_num) (by norm_num) (by norm_num) (by norm_num))
  have q2 : fl (436332313 / 250000000) = 7860264168946027 / 4503599627370496 :=
    (fl_of_pos_eq _ _ (-52) (7860264168946027) (by norm_num) (by norm_num) (by norm_num) (by norm_num) (by norm_num))
  have q3 : fl (-(1308996939 / 1250000000)) = -(73689976583869 / 70368744177664) :=
    (fl_of_neg_eq _ _ (-52) (-4716158501367616) (by norm_num) (by norm_num) (by norm_num) (by norm_num) (by norm_num))
  have q4 : fl (-(3316048946274105 / 17592186044416)) = -(3316048946274105 / 17592186044416) :=
    (fl_of_neg_eq _ _ (-45) (-6632097892548210) (by norm_num) (by norm_num) (by norm_num) (by norm_num) (by norm_num))
  have q5 : fl (-(10611356628077136 / 176855943800711)) = -(8444249301347115 / 140737488355328) :=
    (fl_of_neg_eq _ _ (-47) (-8444249301347115) (by norm_num) (by norm_num) (by norm_num) (by norm_num) (by norm_num))
  have q6 : fl (353711887602571215 / 1125899906842624) = 5526748243790175 / 17592186044416 :=
    (fl_of_pos_eq _ _ (-44) (5526748243790175) (by norm_num) (by norm_num) (by norm_num) (by norm_num) (by norm_num))
  have q7 : fl (17685594380128560 / 176855943800711) = 7036874417789263 / 70368744177664 :=
    (fl_of_pos_eq _ _ (-46) (7036874417789263) (by norm_num) (by norm_num) (by norm_num) (by norm_num) (by norm_num))
  have q8 : fl (55589 / 500) = 977932030023041 / 8796093022208 :=
    (fl_of_pos_eq _ _ (-46) (7823456240184328) (by norm_num) (by norm_num) (by norm_num) (by norm_num) (by norm_num))
  have q9 : fl (-(7467078399391192479926973993825 / 39614081257132168796771975168)) = -(3316048946274105 / 17592186044416) :=
    (fl_of_neg_eq _ _ (-45) (-6632097892548210) (by norm_num) (by norm_num) (by norm_num) (by norm_num) (by norm_num))
  have q10 : fl (-(73689976583869 / 70368744177664)) = -(73689976583869 / 70368744177664) :=
    (fl_of_neg_eq _ _ (-52) (-4716158501367616) (by norm_num) (by norm_num) (by norm_num) (by norm_num) (by norm_num))
  have q11 : fl (8808428651958972654580654203433 / 158456325028528675187087900672) = 7823456240138225 / 140737488355328 :=
    (fl_of_pos_eq _ _ (-47) (7823456240138225) (by norm_num) (by norm_num) (by norm_num) (by norm_num) (by norm_num))
  have q12 : fl (57983845202395136 / 460203308243425) = 1108273858639441 / 8796093022208 :=
    (fl_of_pos_eq _ _ (-46) (8866190869115528) (by norm_num) (by norm_num) (by norm_num) (by norm_num) (by norm_num))
  have q13 : fl (1108273858639441 / 8796093022208) = 1108273858639441 / 8796093022208 :=
    (fl_of_pos_eq _ _ (-46) (8866190869115528) (by norm_num) (by norm_num) (by norm_num) (by norm_num) (by norm_num))
  have q14 : fl (61607835527544832 / 977932030023041) = 554136929316455 / 8796093022208 :=
    (fl_of_pos_eq _ _ (-47) (8866190869063280) (by norm_num) (by norm_num) (by norm_num) (by norm_num) (by norm_num))
  have q15 : fl (421941567716165 / 140737488355328) = 421941567716165 / 140737488355328 :=
    (fl_of_pos_eq _ _ (-51) (6751065083458640) (by norm_num) (by norm_num) (by norm_num) (by norm_num) (by norm_num))
  have box : Frequency.get_lo_la_min_max_double glibc Frequency.wide_files_double
      { Frequency.zero_state_double with list_max := 2 } =
      .ok { Frequency.zero_state_double with
        list_max := 2
        lo_min := ieee.fin 0
        la_min := ieee.fin (-8444249301347115 / 140737488355328)
        lo_max := ieee.fin (7036874417789263 / 70368744177664)
        la_max := ieee.fin 0 } := by
    simp only [Frequency.get_lo_la_min_max_double, Frequency.file_la_lo_min_max_double,
      Frequency.row_min_max_double, Frequency.zero_state_double, List.foldlM, List.foldl,
      bind, Except.bind, pure, Except.pure, Frequency.wide_files_double]
    norm_num [rad2deg_double, M_PI, ieee.lit, fl_zero, q1, q2, q3, q4, q5, q6, q7, q8, q9, q10, q11, q12, q13, q14, q15]
  have cnt : Frequency.count_squares_double P glibc 1
      { Frequency.zero_state_double with
        list_max := 2
        lo_min := ieee.fin 0
        la_min := ieee.fin (-8444249301347115 / 140737488355328)
        lo_max := ieee.fin (7036874417789263 / 70368744177664)
        la_max := ieee.fin 0 } =
      .ok { Frequency.zero_state_double with
        list_max := 2, x_field := 1, y_field := 1
        lo_min := ieee.fin 0
        la_min := ieee.fin (-8444249301347115 / 140737488355328)
        lo_max := ieee.fin (7036874417789263 / 70368744177664)
        la_max := ieee.fin 0 } := by
    simp only [Frequency.count_squares_double, Frequency.count_rows_double,
      Frequency.count_row_double, Frequency.zero_state_double, hr]
    norm_num [Frequency.DEGDISTANCE_double, deg2rad_double, M_PI, ieee.lit, ieee.of_int,
      cos_table, fl_zero, q1, q2, q3, q4, q5, q6, q7, q8, q9, q10, q11, q12, q13, q14, q15]
  unfold Frequency.init_values_double
  have hl : ((Frequency.wide_files_double.length : Nat) : Int) = 2 := rfl
  simp only [hl]
  rw [box]
  simp only [bind, Except.bind]
  rw [cnt]
  simp only [pure, Except.pure, Frequency.init_field_double, Frequency.zero_state_double]
  norm_num [List.range_succ]

/-- The weight of every segment for WEIGHT = 0, in double arithmetic: 1. -/
theorem get_weight_double_zero (P : Frequency.param ieee) (M : libm ieee)
    (cur : Frequency.trajectory ieee) (hw : P.WEIGHT = 0) :
    Frequency.get_weight_double P M cur = ieee.fin 1 := by
  simp [Frequency.get_weight_double, hw]

/-- The segment from lon 62.99807515875443 to lon 100.0000000003249 on the
equator (degrees) on the grid of one element at the mesh of 7004 km in double
arithmetic: its first point has the grid coordinate `x = 1`, and one pass of
the loop adds the weight `w` to cell 1 of the mask. -/
theorem wide_segment_double (P : Frequency.param ieee) (hr : P.RES = 7004)
    (cur : Frequency.trajectory ieee) (st : Frequency.state ieee) (plot_field : Nat → ieee)
    (w : ieee) (hwt : Frequency.get_weight_double P glibc cur = w)
    (h3 : cur.x_old = ieee.fin (554136929316455 / 8796093022208))
    (h4 : cur.y_old = ieee.fin 0)
    (h5 : cur.x_new = ieee.fin (7036874417789263 / 70368744177664))
    (h6 : cur.y_new = ieee.fin 0)
    (w1 : cur.x_plot_min = 0) (w2 : cur.x_plot_max = 1) (w3 : cur.y_plot_min = 0)
    (w4 : cur.y_plot_max = 1)
    (g1 : st.lo_min = ieee.fin 0)
    (g2 : st.la_min = ieee.fin (-8444249301347115 / 140737488355328)) (g3 : st.x_field = 1)
    (hz : plot_field 1 = ieee.fin 0) :
    Frequency.plot_to_next_point_double P glibc 1 plot_field cur st =
      .ok (Function.update plot_field 1 (ieee.fin 0 + w)) := by
  have s1 : fl (55589 / 500) = 977932030023041 / 8796093022208 :=
    (fl_of_pos_eq _ _ (-46) (7823456240184328) (by norm_num) (by norm_num) (by norm_num) (by norm_num) (by norm_num))
  have s2 : fl (61607835527544832 / 977932030023041) = 554136929316455 / 8796093022208 :=
    (fl_of_pos_eq _ _ (-47) (8866190869063280) (by norm_num) (by norm_num) (by norm_num) (by norm_num) (by norm_num))
  have s3 : fl (977932030023041 / 8796093022208) = 977932030023041 / 8796093022208 :=
    (fl_of_pos_eq _ _ (-46) (7823456240184328) (by norm_num) (by norm_num) (by norm_num) (by norm_num) (by norm_num))
  have s4 : fl (554136929316455 / 8796093022208) = 554136929316455 / 8796093022208 :=
    (fl_of_pos_eq _ _ (-47) (8866190869063280) (by norm_num) (by norm_num) (by norm_num) (by norm_num) (by norm_num))
  have s5 : fl (1) = 1 :=
    (fl_of_pos_eq _ _ (-52) (4503599627370496) (by norm_num) (by norm_num) (by norm_num) (by norm_num) (by norm_num))
  have s6 : fl (8444249301347115 / 140737488355328) = 8444249301347115 / 140737488355328 :=
    (fl_of_pos_eq _ _ (-47) (8444249301347115) (by norm_num) (by norm_num) (by norm_num) (by norm_num) (by norm_num))
  have s7 : fl (1688849860269423 / 1773238173812656) = 8578547105198579 / 9007199254740992 :=
    (fl_of_pos_eq _ _ (-53) (8578547105198579) (by norm_num) (by norm_num) (by norm_num) (by norm_num) (by norm_num))
  have s8 : fl (7036874417789263 / 70368744177664) = 7036874417789263 / 70368744177664 :=
    (fl_of_pos_eq _ _ (-46) (7036874417789263) (by norm_num) (by norm_num) (by norm_num) (by norm_num) (by norm_num))
  have s9 : fl (7036874417789263 / 4433095434531640) = 3574394627166075 / 2251799813685248 :=
    (fl_of_pos_eq _ _ (-52) (7148789254332150) (by norm_num) (by norm_num) (by norm_num) (by norm_num) (by norm_num))
  have s10 : fl (562933022338663 / 8796093022208) = 562933022338663 / 8796093022208 :=
    (fl_of_pos_eq _ _ (-47) (9006928357418608) (by norm_num) (by norm_num) (by norm_num) (by norm_num) (by norm_num))
  have si1 : ⌊(8578547105198579 / 9007199254740992 : ℚ)⌋ = 0 := by
    rw [Int.floor_eq_iff]
    norm_num
  have hdx : ieee.of_int P.RES /
      (Frequency.DEGDISTANCE_double * glibc.cos (deg2rad_double glibc cur.y_new)) =
      ieee.fin (554136929316455 / 8796093022208) := by
    rw [hr, h6]
    norm_num [Frequency.DEGDISTANCE_double, deg2rad_double, M_PI, ieee.lit, ieee.of_int,
      cos_table, fl_zero, s1, s2, s3, s4, s5, s6, s7, s8, s9, s10, si1]
  have hdy : ieee.of_int P.RES / Frequency.DEGDISTANCE_double =
      ieee.fin (554136929316455 / 8796093022208) := by
    rw [hr]
    norm_num [Frequency.DEGDISTANCE_double, ieee.lit, ieee.of_int, fl_zero, s1, s2, s3, s4, s5, s6, s7, s8, s9, s10, si1]
  have hx1 : (cur.x_old - st.lo_min) / (ieee.of_int P.RES /
      (Frequency.DEGDISTANCE_double * glibc.cos (deg2rad_double glibc cur.y_old))) =
      ieee.fin 1 := by
    rw [show cur.y_old = cur.y_new by rw [h4, h6], hdx, h3, g1]
    norm_num [fl_zero, s1, s2, s3, s4, s5, s6, s7, s8, s9, s10, si1]
  have hy1 : (cur.y_old - st.la_min) / (ieee.of_int P.RES / Frequency.DEGDISTANCE_double) =
      ieee.fin (8578547105198579 / 9007199254740992) := by
    rw [hdy, h4, g2]
    norm_num [fl_zero, s1, s2, s3, s4, s5, s6, s7, s8, s9, s10, si1]
  have hx2 : (cur.x_new - st.lo_min) / ieee.fin (554136929316455 / 8796093022208) =
      ieee.fin (3574394627166075 / 2251799813685248) := by
    rw [h5, g1]
    norm_num [fl_zero, s1, s2, s3, s4, s5, s6, s7, s8, s9, s10, si1]
  have hy2 : (cur.y_new - st.la_min) / (ieee.of_int P.RES / Frequency.DEGDISTANCE_double) =
      ieee.fin (8578547105198579 / 9007199254740992) := by
    rw [hdy, h6, g2]
    norm_num [fl_zero, s1, s2, s3, s4, s5, s6, s7, s8, s9, s10, si1]
  rw [plot_to_next_point_double_row P glibc 1 plot_field cur st w _ _ _ _ hwt hdx hx1 hy1 hx2 hy2
    (by norm_num) (by norm_num)]
  rw [walk_double_once _ _ _ _ _ (by norm_num) (by norm_num [fl_zero, s1, s2, s3, s4, s5, s6, s7, s8, s9, s10, si1])]
  have hc : Frequency.check_plot_area_double (ieee.fin 1)
      (ieee.fin (8578547105198579 / 9007199254740992)) cur := by
    simp only [Frequency.check_plot_area_double, w1, w2, w3, w4]
    norm_num [ieee.of_int]
  have hi : (ieee.to_int (ieee.fin (8578547105198579 / 9007199254740992)) * st.x_field +
      ieee.to_int (ieee.fin 1)).toNat = 1 := by
    rw [g3]
    norm_num [si1]
  have he : ieee.eq (plot_field 1) (ieee.fin 0) := by
    rw [hz]
    norm_num
  simp only [Frequency.plot_cell_double, if_pos hc, hi, if_pos he]
  rw [hz]

/-- The reading status at the segment between the rows `1.0995238339391142;0`
and `1.7453292520;0`, in double arithmetic. -/
theorem wide_rows_double (c : Frequency.trajectory ieee) :
    (Frequency.first_segment_double glibc c (ieee.lit 1.0995238339391142, ieee.fin 0)
        (ieee.lit 1.7453292520, ieee.fin 0)).x_old =
      ieee.fin (554136929316455 / 8796093022208) ∧
    (Frequency.first_segment_double glibc c (ieee.lit 1.0995238339391142, ieee.fin 0)
        (ieee.lit 1.7453292520, ieee.fin 0)).y_old = ieee.fin 0 ∧
    (Frequency.first_segment_double glibc c (ieee.lit 1.0995238339391142, ieee.fin 0)
        (ieee.lit 1.7453292520, ieee.fin 0)).x_new =
      ieee.fin (7036874417789263 / 70368744177664) ∧
    (Frequency.first_segment_double glibc c (ieee.lit 1.0995238339391142, ieee.fin 0)
        (ieee.lit 1.7453292520, ieee.fin 0)).y_new = ieee.fin 0 := by
  have r1 : fl (5497619169695571 / 5000000000000000) = 2475907564406587 / 2251799813685248 :=
    (fl_of_pos_eq _ _ (-52) (4951815128813174) (by norm_num) (by norm_num) (by norm_num) (by norm_num) (by norm_num))
  have r2 : fl (436332313 / 250000000) = 7860264168946027 / 4503599627370496 :=
    (fl_of_pos_eq _ _ (-52) (7860264168946027) (by norm_num) (by norm_num) (by norm_num) (by norm_num) (by norm_num))
  have r3 : fl (-(1308996939 / 1250000000)) = -(73689976583869 / 70368744177664) :=
    (fl_of_neg_eq _ _ (-52) (-4716158501367616) (by norm_num) (by norm_num) (by norm_num) (by norm_num) (by norm_num))
  have r4 : fl (-(3316048946274105 / 17592186044416)) = -(3316048946274105 / 17592186044416) :=
    (fl_of_neg_eq _ _ (-45) (-6632097892548210) (by norm_num) (by norm_num) (by norm_num) (by norm_num) (by norm_num))
  have r5 : fl (-(10611356628077136 / 176855943800711)) = -(8444249301347115 / 140737488355328) :=
    (fl_of_neg_eq _ _ (-47) (-8444249301347115) (by norm_num) (by norm_num) (by norm_num) (by norm_num) (by norm_num))
  have r6 : fl (111415840398296415 / 562949953421312) = 3481745012446763 / 17592186044416 :=
    (fl_of_pos_eq _ _ (-45) (6963490024893526) (by norm_num) (by norm_num) (by norm_num) (by norm_num) (by norm_num))
  have r7 : fl (55707920199148208 / 884279719003555) = 554136929316455 / 8796093022208 :=
    (fl_of_pos_eq _ _ (-47) (8866190869063280) (by norm_num) (by norm_num) (by norm_num) (by norm_num) (by norm_num))
  have r8 : fl (353711887602571215 / 1125899906842624) = 5526748243790175 / 17592186044416 :=
    (fl_of_pos_eq _ _ (-44) (5526748243790175) (by norm_num) (by norm_num) (by norm_num) (by norm_num) (by norm_num))
  have r9 : fl (17685594380128560 / 176855943800711) = 7036874417789263 / 70368744177664 :=
    (fl_of_pos_eq _ _ (-46) (7036874417789263) (by norm_num) (by norm_num) (by norm_num) (by norm_num) (by norm_num))
  have r10 : fl (11469969852320903 / 70368744177664) = 1433746231540113 / 8796093022208 :=
    (fl_of_pos_tie_eq _ _ (-45) (5734984926160451) (5734984926160452) (by norm_num) (by norm_num) (by norm_num)
      (by decide) (by norm_num))
  have r11 : fl (1433746231540113 / 17592186044416) = 1433746231540113 / 17592186044416 :=
    (fl_of_pos_eq _ _ (-46) (5734984926160452) (by norm_num) (by norm_num) (by norm_num) (by norm_num) (by norm_num))
  simp only [Frequency.first_segment_double]
  norm_num [rad2deg_double, M_PI, ieee.lit, fl_zero, r1, r2, r3, r4, r5, r6, r7, r8, r9, r10, r11]

/-- The run of `plot` over the two files of `wide_files_double` on the grid of
one element, mesh 7004 km, WEIGHT = 0, in double arithmetic: the mask of the
second file has the weight 1 in cell 1. -/
theorem wide_run_double (P : Frequency.param ieee) (hr : P.RES = 7004) (hw : P.WEIGHT = 0)
    (hs : P.SIZE = 0) (st : Frequency.state ieee)
    (g1 : st.lo_min = ieee.fin 0)
    (g2 : st.la_min = ieee.fin (-8444249301347115 / 140737488355328))
    (g3 : st.x_field = 1) (g4 : st.y_field = 1) (g5 : st.field_max = 1) :
    ∃ r, Frequency.plot_double P glibc 1 st Frequency.wide_files_double = .ok r ∧
      r.2.1 1 = ieee.fin 1 ∧ r.2.2.field_max = 1 ∧ r.2.2.x_field = 1 ∧ r.2.2.y_field = 1 := by
  have one : fl 1 = 1 :=
    fl_of_pos_eq _ _ (-52) (4503599627370496) (by norm_num) (by norm_num) (by norm_num)
      (by norm_num) (by norm_num)
  obtain ⟨c0, hc0, a1, a2, a3, a4⟩ := init_plot_area_double_whole P glibc st hs
  obtain ⟨c1, hc1, b1, b2, b3, b4⟩ := plot_trajectory_double_one P glibc 1 st c0
    (fun _ => ieee.fin 0) (ieee.fin 0, ieee.lit (-1.0471975512))
  obtain ⟨f3, f4, f5, f6⟩ := wide_rows_double c1
  have hz : Frequency.init_field_double
      (Frequency.init_field_double (fun _ => ieee.fin 0) st.field_max) st.field_max 1 =
      ieee.fin 0 := by
    rw [g5, init_field_double_one, init_field_double_one]
    simp [Function.update]
  have seg := wide_segment_double P hr _
    { st with
      field_grid := (List.range st.field_max.toNat).foldl
        (fun g j => Function.update g j
          (g j + Frequency.init_field_double (fun _ => ieee.fin 0) st.field_max j))
        st.field_grid }
    (Frequency.init_field_double
      (Frequency.init_field_double (fun _ => ieee.fin 0) st.field_max) st.field_max)
    (ieee.fin 1) (get_weight_double_zero P glibc _ hw) f3 f4 f5 f6
    (b1.trans a1) (b2.trans (a2.trans g3)) (b3.trans a3) (b4.trans (a4.trans g4)) g1 g2 g3 hz
  obtain ⟨c2, hc2, -⟩ := plot_trajectory_double_two P glibc 1 _ c1 _ _ _ _ seg
  simp only [Frequency.plot_double, bind, Except.bind, hc0, Frequency.plot_trajectories_double,
    Frequency.wide_files_double, List.foldlM, hc1, hc2, pure, Except.pure]
  refine ⟨_, rfl, ?_, g5, g3, g4⟩
  simp [one]

/-- C39: `check_plot_area` with the whole grid as plot window admits the grid
coordinates `0 <= x <= x_field`, `0 <= y <= y_field`, so the column `(int)x`
of a marked element is at most `x_field`, not below it.  In double arithmetic,
at a mesh of 7004 km, the files of `wide_files_double` give the box lon
0..100.0000000003249, lat -60.00000000019494..0 and a grid of one element
(`field_max = 1`); the segment of the second file, from lon 62.99807515875443
to lon 100.0000000003249 on the equator, lies in the box and has the grid
coordinate `x = 1` at its first point (its longitude in degrees is the double
`7004 / 111.178`), and `plot` marks the cell with the index `0 * x_field + 1 =
1` of the mask, which is not below `field_max`. -/
theorem C39_mask_bounds (st : Frequency.state ℝ) (current : Frequency.trajectory ℝ)
    (x y : ℝ) :
    (Frequency.check_plot_area x y current → current.x_plot_min = 0 →
      current.x_plot_max = st.x_field → current.y_plot_min = 0 →
      current.y_plot_max = st.y_field →
      0 ≤ c_int x ∧ c_int x ≤ st.x_field ∧ 0 ≤ c_int y ∧ c_int y ≤ st.y_field) ∧
    ∃ g, Frequency.init_values_double Frequency.wide_param_double glibc
        Frequency.wide_files_double 1 = .ok g ∧
      g.x_field = 1 ∧ g.y_field = 1 ∧ g.field_max = 1 ∧
      (0 < Frequency.wide_param_double.RES ∧ ieee.fin (-90) < g.la_min ∧
        g.la_max < ieee.fin 90 ∧
        g.lo_min ≤ (Frequency.first_segment_double glibc
          (Frequency.start_trajectory_double Frequency.wide_param_double)
          (ieee.lit 1.0995238339391142, ieee.fin 0) (ieee.lit 1.7453292520, ieee.fin 0)).x_old ∧
        (Frequency.first_segment_double glibc
          (Frequency.start_trajectory_double Frequency.wide_param_double)
          (ieee.lit 1.0995238339391142, ieee.fin 0) (ieee.lit 1.7453292520, ieee.fin 0)).x_old ≤ g.lo_max ∧
        g.lo_min ≤ (Frequency.first_segment_double glibc
          (Frequency.start_trajectory_double Frequency.wide_param_double)
          (ieee.lit 1.0995238339391142, ieee.fin 0) (ieee.lit 1.7453292520, ieee.fin 0)).x_new ∧
        (Frequency.first_segment_double glibc
          (Frequency.start_trajectory_double Frequency.wide_param_double)
          (ieee.lit 1.0995238339391142, ieee.fin 0) (ieee.lit 1.7453292520, ieee.fin 0)).x_new ≤ g.lo_max ∧
        g.la_min ≤ (Frequency.first_segment_double glibc
          (Frequency.start_trajectory_double Frequency.wide_param_double)
          (ieee.lit 1.0995238339391142, ieee.fin 0) (ieee.lit 1.7453292520, ieee.fin 0)).y_old ∧
        (Frequency.first_segment_double glibc
          (Frequency.start_trajectory_double Frequency.wide_param_double)
          (ieee.lit 1.0995238339391142, ieee.fin 0) (ieee.lit 1.7453292520, ieee.fin 0)).y_old ≤ g.la_max ∧
        (Frequency.first_segment_double glibc
          (Frequency.start_trajectory_double Frequency.wide_param_double)
          (ieee.lit 1.0995238339391142, ieee.fin 0) (ieee.lit 1.7453292520, ieee.fin 0)).y_new =
          (Frequency.first_segment_double glibc
          (Frequency.start_trajectory_double Frequency.wide_param_double)
          (ieee.lit 1.0995238339391142, ieee.fin 0) (ieee.lit 1.7453292520, ieee.fin 0)).y_old) ∧
      ∃ r, Frequency.plot_double Frequency.wide_param_double glibc 1 g
          Frequency.wide_files_double = .ok r ∧
        r.2.1 1 = ieee.fin 1 ∧ r.2.2.field_max = 1 ∧ ¬ (1 < r.2.2.field_max.toNat) := by
  refine ⟨fun hc h1 h2 h3 h4 => ?_, _, wide_grid_double _ rfl, rfl, rfl, rfl, ?_, ?_⟩
  · unfold Frequency.check_plot_area at hc
    rw [h1, h2, h3, h4] at hc
    obtain ⟨a, b, c, d⟩ := hc
    simp only [Int.cast_zero, ge_iff_le] at a c
    rw [c_int_of_nonneg _ a, c_int_of_nonneg _ c]
    exact ⟨Int.floor_nonneg.2 a, Int.floor_le_iff.2 (by linarith), Int.floor_nonneg.2 c,
      Int.floor_le_iff.2 (by linarith)⟩
  · obtain ⟨f3, f4, f5, f6⟩ := wide_rows_double
      (Frequency.start_trajectory_double Frequency.wide_param_double)
    rw [f3, f4, f5, f6]
    refine ⟨by decide, ?_, ?_, ?_, ?_, ?_, ?_, ?_, ?_, rfl⟩ <;>
      simp only [ieee.fin_lt, ieee.fin_le] <;> norm_num
  · obtain ⟨r, h, m, fm, -⟩ := wide_run_double Frequency.wide_param_double rfl rfl rfl
      { Frequency.zero_state_double with
        list_max := 2, field_max := 1, x_field := 1, y_field := 1
        lo_min := ieee.fin 0
        la_min := ieee.fin (-8444249301347115 / 140737488355328)
        lo_max := ieee.fin (7036874417789263 / 70368744177664)
        la_max := ieee.fin 0 } rfl rfl rfl rfl rfl
    refine ⟨r, h, m, fm, ?_⟩
    rw [fm]
    decide

section bands2

variable {α : Type} [LinearOrderedField α] [FloorRing α]

/-- C40 (amended): with a valid scale and `w_max > 0`, after `plot_frequency`
a cell with the sum `c` is handed to `plot_element` by `sort_and_plot` for the
class `k` if and only if `k = trunc(min((c - min) / dw, 10))`; so each cell is
in at most one class, the class does not decrease when `c` grows, a cell whose
quotient `(c - min) / dw` is at least 10 is in class 10, and a cell is in one
of the classes 1 to 10 that the class loop plots if and only if its quotient
`(c - min) / dw` is at least 1.  Here `min = w_max * SCALEMIN / 100`,
`max = w_max * SCALEMAX / 100` and `dw = (max - min) / 10` are the expressions
of `plot_frequency`. -/
theorem C40_bands (P : Frequency.param α) (st : Frequency.state α)
    (hs : 0 ≤ P.SCALEMIN ∧ P.SCALEMIN < P.SCALEMAX ∧ P.SCALEMAX ≤ 100)
    (hw : Frequency.get_w_max st > 0) :
    ∃ st2, Frequency.plot_frequency P st = .ok st2 ∧
      (∀ (i : Nat) (k : Int), i < st.field_max.toNat →
        (i ∈ Frequency.sort_and_plot st2 k ↔
          k = c_int (min ((st.field_grid i - Frequency.get_w_max st * (P.SCALEMIN : α) / 100) /
            ((Frequency.get_w_max st * (P.SCALEMAX : α) / 100 -
              Frequency.get_w_max st * (P.SCALEMIN : α) / 100) / 10)) 10))) ∧
      (∀ (i : Nat) (k1 k2 : Int), i ∈ Frequency.sort_and_plot st2 k1 →
        i ∈ Frequency.sort_and_plot st2 k2 → k1 = k2) ∧
      (∀ i j : Nat, i < st.field_max.toNat → j < st.field_max.toNat →
        st.field_grid i ≤ st.field_grid j →
        Frequency.cell_class st2 i ≤ Frequency.cell_class st2 j) ∧
      (∀ i : Nat, i < st.field_max.toNat →
        10 ≤ (st.field_grid i - Frequency.get_w_max st * (P.SCALEMIN : α) / 100) /
          ((Frequency.get_w_max st * (P.SCALEMAX : α) / 100 -
            Frequency.get_w_max st * (P.SCALEMIN : α) / 100) / 10) →
        i ∈ Frequency.sort_and_plot st2 10) ∧
      (∀ i : Nat, i < st.field_max.toNat →
        ((∃ l ∈ Frequency.plot_classes st2, i ∈ l) ↔
          1 ≤ (st.field_grid i - Frequency.get_w_max st * (P.SCALEMIN : α) / 100) /
            ((Frequency.get_w_max st * (P.SCALEMAX : α) / 100 -
              Frequency.get_w_max st * (P.SCALEMIN : α) / 100) / 10))) := by
  obtain ⟨st2, hrun, hfm, hcell⟩ := plot_frequency_cell P st hs
  have dpos : (Frequency.get_w_max st * (P.SCALEMAX : α) / 100 -
      Frequency.get_w_max st * (P.SCALEMIN : α) / 100) / 10 > 0 := by
    have : ((P.SCALEMIN : Int) : α) < ((P.SCALEMAX : Int) : α) := by exact_mod_cast hs.2.1
    have e : (Frequency.get_w_max st * (P.SCALEMAX : α) / 100 -
        Frequency.get_w_max st * (P.SCALEMIN : α) / 100) / 10 =
        Frequency.get_w_max st * ((P.SCALEMAX : α) - (P.SCALEMIN : α)) / 1000 := by ring
    rw [e]
    have : (0 : α) < (P.SCALEMAX : α) - (P.SCALEMIN : α) := by linarith
    positivity
  refine ⟨st2, hrun, fun i k hi => ?_, fun i k1 k2 h1 h2 => ?_, fun i j hi hj hij => ?_,
    fun i hi hq => ?_, fun i hi => ?_⟩
  · rw [mem_sort_and_plot, hfm, hcell i hi]
    exact ⟨fun h => h.2, fun h => ⟨hi, h⟩⟩
  · rw [mem_sort_and_plot] at h1 h2
    rw [h1.2, h2.2]
  · unfold Frequency.cell_class
    rw [hcell i hi, hcell j hj]
    apply c_int_mono
    apply min_le_min _ le_rfl
    exact div_le_div_of_nonneg_right (by linarith) (le_of_lt dpos)
  · rw [mem_sort_and_plot, hfm, hcell i hi]
    refine ⟨hi, ?_⟩
    rw [min_eq_right hq, c_int_of_nonneg _ (by norm_num)]
    have := Int.floor_intCast (10 : Int) (α := α)
    simpa using this.symm
  · rw [mem_plot_classes, ← c_int_band]
    constructor
    · rintro ⟨k, h1, h2, hk⟩
      rw [mem_sort_and_plot, hfm, hcell i hi] at hk
      rw [← hk.2]
      exact ⟨h1, h2⟩
    · rintro ⟨h1, h2⟩
      refine ⟨_, h1, h2, ?_⟩
      rw [mem_sort_and_plot, hfm, hcell i hi]
      exact ⟨hi, rfl⟩

end bands2

theorem C40_bands_witness :
    ∃ st2, Frequency.plot_frequency (Frequency.default_param : Frequency.param ℚ)
        Frequency.sparse_state = .ok st2 ∧ 1 ∈ Frequency.sort_and_plot st2 10 := by
  obtain ⟨st2, h, _, _, _, b, _⟩ := C40_bands (Frequency.default_param : Frequency.param ℚ)
    Frequency.sparse_state (by decide) (by rw [sparse_w_max]; norm_num)
  refine ⟨st2, h, b 1 (by decide) ?_⟩
  rw [sparse_w_max]
  norm_num [Frequency.sparse_state, Frequency.zero_state, Frequency.default_param]

/-- C40, counterexample.  (1) With the default scale 0..100 (SCALEMIN = 0) and a
grid holding the sums 1 and 20 (`w_max = 20`, `dw = 2`), the cell with the sum
1 has the class value 1/2 after `plot_frequency`, which `sort_and_plot`
truncates to 0: the cell has a sum above zero and is in none of the classes
1 to 10.  (2) In double arithmetic, with the default scale and a grid of one
cell holding 0.007 (`c = w_max`, SCALEMAX = 100): `max = w_max * 100 / 100.0`
rounds to the next number above `w_max`, the class value of the cell is
5629499534213119 / 2^49 = 9.999999999999998, and `sort_and_plot` hands the
cell out for class 9 and not for class 10. -/
theorem C40_counterexample :
    ((Frequency.default_param : Frequency.param ℚ).SCALEMIN = 0 ∧
      (Frequency.sparse_state : Frequency.state ℚ).field_grid 0 = 1 ∧
      ∃ st2, Frequency.plot_frequency (Frequency.default_param : Frequency.param ℚ)
          Frequency.sparse_state = .ok st2 ∧ st2.field_grid 0 = 1 / 2 ∧
        Frequency.cell_class st2 0 = 0 ∧
        ∀ k : Int, 1 ≤ k → k ≤ 10 → 0 ∉ Frequency.sort_and_plot st2 k) ∧
    (Frequency.default_param_double.SCALEMAX = 100 ∧
      Frequency.get_w_max_double Frequency.small_state = Frequency.small_state.field_grid 0 ∧
      ∃ st2, Frequency.plot_frequency_double Frequency.default_param_double
          Frequency.small_state = .ok st2 ∧
        st2.field_grid 0 = ieee.fin (5629499534213119 / 562949953421312) ∧
        Frequency.sort_and_plot_double st2 10 = [] ∧
        Frequency.sort_and_plot_double st2 9 = [0]) := by
  constructor
  · obtain ⟨st2, hrun, hfm, hcell⟩ := plot_frequency_cell
      (Frequency.default_param : Frequency.param ℚ) Frequency.sparse_state (by decide)
    have e : st2.field_grid 0 = 1 / 2 := by
      rw [hcell 0 (by decide), sparse_w_max]
      norm_num [Frequency.sparse_state, Frequency.zero_state, Frequency.default_param]
    have c : Frequency.cell_class st2 0 = 0 := by
      unfold Frequency.cell_class
      rw [e, c_int_of_nonneg _ (by norm_num), Int.floor_eq_iff]
      norm_num
    refine ⟨rfl, ?_, st2, hrun, e, c, fun k h1 h2 hk => ?_⟩
    · simp [Frequency.sparse_state]
    · rw [mem_sort_and_plot] at hk
      unfold Frequency.cell_class at c
      rw [c] at hk
      omega
  have h1 : fl (7 / 1000) = 8070450532247929 / 1152921504606846976 :=
    (fl_of_pos_eq _ _ (-60) (8070450532247929) (by norm_num) (by norm_num) (by norm_num) (by norm_num) (by norm_num))
  have h2 : fl (201761263306198225 / 288230376151711744) = 6305039478318695 / 9007199254740992 :=
    (fl_of_pos_eq _ _ (-53) (6305039478318695) (by norm_num) (by norm_num) (by norm_num) (by norm_num) (by norm_num))
  have h3 : fl (1261007895663739 / 180143985094819840) = 4035225266123965 / 576460752303423488 :=
    (fl_of_pos_eq _ _ (-60) (8070450532247930) (by norm_num) (by norm_num) (by norm_num) (by norm_num) (by norm_num))
  have h4 : fl (4035225266123965 / 576460752303423488) = 4035225266123965 / 576460752303423488 :=
    (fl_of_pos_eq _ _ (-60) (8070450532247930) (by norm_num) (by norm_num) (by norm_num) (by norm_num) (by norm_num))
  have h5 : fl (807045053224793 / 1152921504606846976) = 807045053224793 / 1152921504606846976 :=
    (fl_of_pos_eq _ _ (-63) (6456360425798344) (by norm_num) (by norm_num) (by norm_num) (by norm_num) (by norm_num))
  have h6 : fl (8070450532247929 / 1152921504606846976) = 8070450532247929 / 1152921504606846976 :=
    (fl_of_pos_eq _ _ (-60) (8070450532247929) (by norm_num) (by norm_num) (by norm_num) (by norm_num) (by norm_num))
  have h7 : fl (8070450532247929 / 807045053224793) = 5629499534213119 / 562949953421312 :=
    (fl_of_pos_eq _ _ (-49) (5629499534213119) (by norm_num) (by norm_num) (by norm_num) (by norm_num) (by norm_num))
  have fv : ⌊(5629499534213119 / 562949953421312 : ℚ)⌋ = 9 := by
    rw [Int.floor_eq_iff]
    norm_num
  have wm : Frequency.get_w_max_double Frequency.small_state =
      ieee.fin (8070450532247929 / 1152921504606846976) := by
    simp only [Frequency.get_w_max_double, Frequency.small_state]
    norm_num [List.range_succ, ieee.lit, h1]
  have run : Frequency.plot_frequency_double Frequency.default_param_double
      Frequency.small_state =
      .ok { Frequency.small_state with
        field_grid := Function.update Frequency.small_state.field_grid 0
          (ieee.fin (5629499534213119 / 562949953421312)) } := by
    simp only [Frequency.plot_frequency_double, wm]
    simp only [Frequency.default_param_double, Frequency.small_state]
    norm_num [List.range_succ, ieee.lit, ieee.of_int, fl_zero, h1, h2, h3, h4, h5, h6, h7]
  refine ⟨rfl, ?_, _, run, ?_, ?_, ?_⟩
  · rw [wm]
    norm_num [Frequency.small_state, ieee.lit, h1]
  · exact Function.update_same (0 : Nat) _ Frequency.small_state.field_grid
  · simp only [Frequency.sort_and_plot_double, Frequency.small_state]
    norm_num [List.range_succ, List.filter, fv]
  · simp only [Frequency.sort_and_plot_double, Frequency.small_state]
    norm_num [List.range_succ, List.filter, fv]

end Trajectory
